import Mathlib

/-!
# SFMalloc: a shallow embedding of `sf_malloc.c`

The development follows the C source function by function.  Machine integers
are natural numbers reduced modulo `2^w` wherever the C type can wrap.
A result `none` stands for an execution that does not return normally:
a failed `assert`, a `CRASH`, an out-of-bounds table access, or a loop that
runs out of fuel.
-/

set_option linter.unusedVariables false

namespace SFMalloc

/-! ## Machine integers -/

/-- Conversion to `uint8_t`. -/
def u8 (x : Nat) : Nat := x % 2 ^ 8

/-- Conversion to `uint16_t`. -/
def u16 (x : Nat) : Nat := x % 2 ^ 16

/-- Conversion to `uint32_t`. -/
def u32 (x : Nat) : Nat := x % 2 ^ 32

/-- Conversion to `uint64_t` / `size_t` / pointer. -/
def u64 (x : Nat) : Nat := x % 2 ^ 64

/-- Subtraction of `uint32_t` values (wraps). -/
def sub32 (a b : Nat) : Nat := (a + 2 ^ 32 - b % 2 ^ 32) % 2 ^ 32

/-- Subtraction of `uint64_t` values (wraps). -/
def sub64 (a b : Nat) : Nat := (a + 2 ^ 64 - b % 2 ^ 64) % 2 ^ 64

/-! ## Constants of `sf_malloc_def.h` -/

def PAGE_SHIFT : Nat := 12
def CACHE_LINE_SIZE : Nat := 64
def PAGE_SIZE : Nat := 1 <<< PAGE_SHIFT
def MAX_SIZE : Nat := 8 * PAGE_SIZE
def ALIGNMENT : Nat := 8
def NUM_CLASSES : Nat := 60
def MAX_SMALL_SIZE : Nat := 1024
def CLASS_ARRAY_SIZE : Nat := (((1 <<< PAGE_SHIFT) * 8 + 127 + (120 <<< 7)) >>> 7) + 1
def NUM_PB_CACHE_WAY : Nat := 8
def NUM_PAGE_CLASSES : Nat := 62
def SPH_SIZE : Nat := PAGE_SIZE
def SUPERPAGE_LEN : Nat := NUM_PAGE_CLASSES + 1
def SUPERPAGE_SIZE : Nat := SUPERPAGE_LEN * PAGE_SIZE
def DEAD_OWNER : Nat := 0
def HUGE_MALLOC_MARK : Nat := 1
def NONE : Nat := 0
def DO_NOT_FINISH : Nat := 1
def PBH_SIZE : Nat := 64
def MACHINE_BIT : Nat := 64
def PMAP_BITS : Nat := MACHINE_BIT - PAGE_SHIFT
def PMAP_INTERIOR_BIT : Nat := PMAP_BITS / 3
def PMAP_INTERIOR_LEN : Nat := 1 <<< PMAP_INTERIOR_BIT
def PMAP_LEAF_BIT : Nat := PMAP_BITS - 2 * PMAP_INTERIOR_BIT
def PMAP_LEAF_LEN : Nat := 1 <<< PMAP_LEAF_BIT
def PBH_ON_FREE_LIST : Nat := 0
def PBH_IN_USE : Nat := 1
def PBH_AGAINST_FALSE_SHARING : Nat := 2
def EINVAL : Nat := 22

/-- The macro `GET_PAGE_LEN(s)` on a `size_t`. -/
def GET_PAGE_LEN (s : Nat) : Nat :=
  (s >>> PAGE_SHIFT) + (if s &&& (PAGE_SIZE - 1) ≠ 0 then 1 else 0)

/-! ## SizeMap (`sizemap_init` and the lookup functions) -/

/-- The table `class_array` installed by `sizemap_init`, one inner list per source row. -/
def class_array : List Nat := List.flatten [
    [ 0,  0,  1,  2,  2,  3,  3,  4,  4,  5],
    [ 5,  6,  6,  7,  7,  8,  8,  9,  9, 10],
    [10, 11, 11, 12, 12, 13, 13, 14, 14, 15],
    [15, 16, 16, 17, 17, 17, 17, 18, 18, 18],
    [18, 19, 19, 19, 19, 20, 20, 20, 20, 21],
    [21, 21, 21, 21, 21, 21, 21, 22, 22, 22],
    [22, 22, 22, 22, 22, 23, 23, 23, 23, 23],
    [23, 23, 23, 24, 24, 24, 24, 24, 24, 24],
    [24, 25, 25, 25, 25, 25, 25, 25, 25, 26],
    [26, 26, 26, 26, 26, 26, 26, 27, 27, 27],
    [27, 27, 27, 27, 27, 28, 28, 28, 28, 28],
    [28, 28, 28, 28, 28, 28, 28, 28, 28, 28],
    [28, 28, 28, 28, 28, 28, 28, 28, 28, 29],
    [30, 31, 32, 33, 34, 34, 34, 35, 35, 36],
    [36, 37, 37, 37, 37, 38, 38, 39, 39, 39],
    [39, 39, 39, 40, 40, 41, 41, 42, 42, 42],
    [42, 43, 43, 43, 43, 43, 43, 43, 43, 44],
    [44, 44, 44, 45, 45, 46, 46, 46, 46, 46],
    [46, 46, 46, 46, 46, 47, 47, 47, 47, 48],
    [48, 48, 48, 48, 48, 48, 48, 48, 48, 48],
    [48, 49, 49, 50, 50, 50, 50, 50, 50, 50],
    [50, 50, 50, 50, 50, 50, 50, 51, 51, 51],
    [51, 51, 51, 51, 51, 51, 51, 51, 51, 51],
    [51, 52, 52, 52, 52, 52, 52, 52, 52, 52],
    [52, 52, 52, 52, 52, 52, 52, 52, 52, 53],
    [53, 53, 53, 53, 53, 53, 53, 53, 53, 54],
    [54, 54, 54, 54, 54, 54, 54, 54, 54, 54],
    [54, 54, 54, 54, 54, 54, 54, 54, 54, 54],
    [54, 55, 55, 55, 55, 55, 55, 56, 56, 56],
    [56, 56, 56, 56, 56, 56, 56, 56, 56, 56],
    [56, 56, 56, 56, 56, 56, 56, 56, 56, 56],
    [56, 56, 56, 57, 57, 58, 58, 58, 58, 58],
    [58, 58, 58, 58, 58, 58, 58, 58, 58, 58],
    [58, 58, 58, 58, 58, 58, 58, 58, 58, 58],
    [58, 58, 58, 58, 58, 59, 59, 59, 59, 59],
    [59, 59, 59, 59, 59, 59, 59, 59, 59, 59],
    [59, 59, 59, 59, 59, 59, 59, 59, 59, 59],
    [59, 59, 59, 59, 59, 59, 59]]

/-- The table `class_to_size` installed by `sizemap_init`. -/
def class_to_size : List Nat := [
        8,    16,    32,    48,    64,    80,    96,   112,   128,   144,
      160,   176,   192,   208,   224,   240,   256,   288,   320,   352,
      384,   448,   512,   576,   640,   704,   768,   832,  1024,  1152,
     1280,  1408,  1536,  1664,  2048,  2304,  2560,  3072,  3328,  4096,
     4352,  4608,  5120,  6144,  6656,  6912,  8192,  8704, 10240, 10496,
    12288, 14080, 16384, 17664, 20480, 21248, 24576, 24832, 28672, 32768]

/-- The table `class_to_pages` installed by `sizemap_init`. -/
def class_to_pages : List Nat := [
    1,  1,  1,  1,  1,  1,  1,  1,  1,  1,
    1,  1,  1,  1,  1,  1,  1,  1,  1,  1,
    1,  1,  1,  1,  1,  2,  1,  2,  1,  2,
    1,  3,  2,  3,  1,  3,  2,  3,  5,  1,
    6,  5,  4,  3,  5,  7,  2,  7,  5,  8,
    3,  7,  4,  9,  5, 11,  6, 13,  7,  8]

/-- The table `num_blocks_per_pbh` installed by `sizemap_init`. -/
def num_blocks_per_pbh : List Nat := [
    512, 256, 128,  85,  64,  51,  42,  36,  32,  28,
     25,  23,  21,  19,  18,  17,  16,  14,  12,  11,
     10,   9,   8,   7,   6,  11,   5,   9,   4,   7,
      3,   8,   5,   7,   2,   5,   3,   4,   6,   1,
      5,   4,   3,   2,   3,   4,   1,   3,   2,   3,
      1,   2,   1,   2,   1,   2,   1,   2,   1,   1]

/-- One iteration of the loop of `get_logfloor`, for loop index `i`;
the pair is `(n, log)`. -/
def get_logfloor_step (st : Nat × Nat) (i : Nat) : Nat × Nat :=
  let shift := u32 (1 <<< i)
  let x := st.1 >>> shift
  if x ≠ 0 then (x, u32 (st.2 + shift)) else st

/-- `get_logfloor(n)`: the loop runs for `i = 4, 3, 2, 1, 0`, then `assert(n == 1)`. -/
def get_logfloor (n : Nat) : Option Nat :=
  let r := [4, 3, 2, 1, 0].foldl get_logfloor_step (u32 n, 0)
  if r.1 = 1 then some r.2 else none

/-- `get_classindex(s)` on a `uint32_t` argument. -/
def get_classindex (s : Nat) : Nat :=
  let s := u32 s
  let big : Bool := decide (s > MAX_SMALL_SIZE)
  let add_amount := if big then 127 + (120 <<< 7) else 7
  let shift_amount := if big then 7 else 3
  u32 (s + add_amount) >>> shift_amount

/-- `get_sizeclass(size)`: a read of `g_sizemap.class_array`. -/
def get_sizeclass (size : Nat) : Option Nat :=
  class_array[get_classindex size]?

/-- `get_size_for_class(cl)`. -/
def get_size_for_class (cl : Nat) : Option Nat := class_to_size[cl]?

/-- `get_pages_for_class(cl)`. -/
def get_pages_for_class (cl : Nat) : Option Nat := class_to_pages[cl]?

/-- `get_blocks_for_class(cl)`. -/
def get_blocks_for_class (cl : Nat) : Option Nat := num_blocks_per_pbh[cl]?

/-- `get_alignment(size)` on a `uint32_t` argument, with its two assertions. -/
def get_alignment (size : Nat) : Option Nat :=
  let size := u32 size
  let alignment : Option Nat :=
    if size > MAX_SIZE then some PAGE_SIZE
    else if size ≥ 2048 then some 256
    else if size ≥ 128 then (get_logfloor size).map (fun l => (1 <<< l) / 8)
    else if size ≥ 16 then some 16
    else some ALIGNMENT
  alignment.bind fun a =>
    if (size < 16 ∨ a ≥ 16) ∧ a &&& (a - 1) = 0 then some a else none

/-! ## Auxiliary definitions for the size-class facts -/

/-- Single pass over a table, checking `p index entry` at every position, the
first entry having index `k`. -/
def check_table (p : Nat → Nat → Bool) : List Nat → Nat → Bool
  | [], _ => true
  | c :: cs, k => p k c && check_table p cs (k + 1)

/-- The check done on entry `c` at index `i` of `class_array`: `c` is a class id
and its block size covers every request size that `get_classindex` sends to `i`. -/
def index_ok (i c : Nat) : Bool :=
  decide (c < 60) &&
    (match class_to_size[c]? with
     | none => false
     | some sz => if i ≤ 128 then decide (8 * i ≤ sz) else decide (128 * i ≤ sz + 15360))

/-- Closed form of `get_alignment` on small sizes. -/
def small_alignment (s : Nat) : Nat :=
  if s < 16 then 8 else if s < 256 then 16 else if s < 512 then 32
  else if s < 1024 then 64 else if s < 2048 then 128 else 256

/-- The check done on entry `c` at index `i` of `class_array`: the block size of
`c` is a multiple of the alignment of the largest request size sent to `i`. -/
def align_ok (i c : Nat) : Bool :=
  match class_to_size[c]? with
  | none => false
  | some sz => sz % small_alignment (if i ≤ 128 then 8 * i else 128 * i - 15360) == 0

/-! ## Data model (`sf_malloc_def.h`)

Pointers are addresses (`0` is `NULL`).  Headers are kept in typed stores keyed
by their address; user memory is a store of bytes. -/

/-- The macros of `sf_malloc_ctrl.h` that select code in `sf_malloc.c`.  That header
is not among the sources, so its switches are parameters of the model. -/
structure Config where
  MALLOC_NEED_INIT : Bool
  MALLOC_USE_PAGEMAP_CACHE : Bool
  MALLOC_USE_PAGE_BLOCK_CACHE : Bool
deriving DecidableEq

/-- The struct `pbh` (page block header); `remote_head` and `remote_cnt` are the two
halves of the union `remote_list`. -/
structure pbh_t where
  next : Nat
  prev : Nat
  start_page : Nat
  length : Nat
  index : Nat
  sizeclass : Nat
  status : Nat
  cnt_free : Nat
  cnt_unused : Nat
  page_color : Nat
  block_color : Nat
  free_list : Nat
  unallocated : Nat
  remote_head : Nat
  remote_cnt : Nat
deriving DecidableEq

/-- A zeroed `pbh_t`. -/
def pbh_zero : pbh_t :=
  ⟨0, 0, 0, 0, 0, 0, 0, 0, 0, 0, 0, 0, 0, 0, 0⟩

/-- The member `together` of the union `remote_list_t`. -/
def remote_together (head cnt : Nat) : Nat := u32 head + u32 cnt * 2 ^ 32

/-- The struct `sph` (superpage header); `owner_id` and `finish_mark` are the two
halves of the union `omark`. -/
structure sph_t where
  next : Nat
  prev : Nat
  start_page : Nat
  owner_id : Nat
  finish_mark : Nat
  remote_pb_list : Nat
  hazard_mark : Nat
deriving DecidableEq

/-- A zeroed `sph_t`. -/
def sph_zero : sph_t := ⟨0, 0, 0, 0, 0, 0, 0⟩

/-- The member `with` of the union `ownermark_t`. -/
def omark_with (owner_id finish_mark : Nat) : Nat := u32 owner_id + u32 finish_mark * 2 ^ 32

/-- The struct `hazard_ptr`. -/
structure hazard_ptr_t where
  next : Nat
  node : Nat
  active : Nat
deriving DecidableEq

/-- A zeroed `hazard_ptr_t`. -/
def hazard_ptr_zero : hazard_ptr_t := ⟨0, 0, 0⟩

/-- The struct `blk_list_t`. -/
structure blk_list_t where
  free_blk_list : Nat
  ptr_to_unused : Nat
  cnt_free : Nat
  cnt_unused : Nat
  pbh_list : Nat
deriving DecidableEq

/-- A zeroed `blk_list_t`. -/
def blk_list_zero : blk_list_t := ⟨0, 0, 0, 0, 0⟩

/-- The struct `pb_cache_block_t`. -/
structure pb_cache_block_t where
  data : Nat
  length : Nat
deriving DecidableEq

/-- The struct `pb_cache_t`; `tag` holds the eight bytes of the vector. -/
structure pb_cache_t where
  block : Nat → pb_cache_block_t
  tag : Nat → Nat
  state : Nat

/-- A zeroed `pb_cache_t`. -/
def pb_cache_zero : pb_cache_t := ⟨fun _ => ⟨0, 0⟩, fun _ => 0, 0⟩

/-- The struct `tlh_t` together with the two other thread-local variables,
`l_pagemap_tag` and `l_pagemap_leaf`. -/
structure tlh_t where
  blk_list : Nat → blk_list_t
  free_pb_list : Nat → Nat
  sp_list : Nat
  hazard_ptr : Nat
  pb_cache : pb_cache_t
  thread_id : Nat
  l_pagemap_tag : Nat
  l_pagemap_leaf : Nat

/-- The thread-local data of a thread that has not run yet: a zeroed `l_tlh`,
`l_pagemap_tag = 0xFFFFFFFFFFFFFFFF` and `l_pagemap_leaf = NULL`. -/
def tlh_zero : tlh_t :=
  ⟨fun _ => blk_list_zero, fun _ => 0, 0, 0, pb_cache_zero, 0, 0xFFFFFFFFFFFFFFFF, 0⟩

/-- The state of the process: configuration, the operating system's answers, user
memory, the typed stores of headers, the PageMap, the globals of `sf_malloc.c`
and the thread-local data of every thread. -/
structure State where
  cfg : Config
  /-- What the `k`-th call of `mmap` answers for a given size; `none` is `MAP_FAILED`. -/
  os_mmap : Nat → Nat → Option Nat
  /-- Number of `mmap` calls made so far. -/
  os_calls : Nat
  /-- The `munmap` calls made so far, `(addr, size)`, newest first. -/
  os_unmapped : List (Nat × Nat)
  /-- User memory, byte by byte. -/
  mem : Nat → Fin 256
  pbh : Nat → pbh_t
  sph : Nat → sph_t
  hptr : Nat → hazard_ptr_t
  /-- The root `g_pagemap.node`. -/
  pm_node : Nat → Nat
  /-- Slot `leaf[i2]` of the interior node at an address. -/
  pm_leaf : Nat → Nat → Nat
  /-- Slot `val[i3]` of the leaf at an address. -/
  pm_val : Nat → Nat → Nat
  g_initialized : Nat
  g_id : Nat
  g_thread_num : Nat
  g_hazard_ptr_list : Nat
  g_hazard_ptr_free_num : Nat
  g_free_sp_list : Nat
  g_free_sp_len : Nat
  /-- Thread-local data, by thread. -/
  thr : Nat → tlh_t

/-- The state of a process at start-up: every global and all memory zero, `g_id = 1`. -/
def State.boot (cfg : Config) (os_mmap : Nat → Nat → Option Nat) : State :=
  { cfg := cfg, os_mmap := os_mmap, os_calls := 0, os_unmapped := [],
    mem := fun _ => 0, pbh := fun _ => pbh_zero, sph := fun _ => sph_zero,
    hptr := fun _ => hazard_ptr_zero,
    pm_node := fun _ => 0, pm_leaf := fun _ _ => 0, pm_val := fun _ _ => 0,
    g_initialized := 0, g_id := 1, g_thread_num := 0,
    g_hazard_ptr_list := 0, g_hazard_ptr_free_num := 0,
    g_free_sp_list := 0, g_free_sp_len := 0,
    thr := fun _ => tlh_zero }

/-! ## Memory and store access -/

/-- Update of a store at one key. -/
def upd {α : Type} (f : Nat → α) (k : Nat) (v : α) : Nat → α :=
  fun x => if x = k then v else f x

/-- `GET_NEXT(p)`: the 64-bit little-endian word at address `p`. -/
def GET_NEXT (s : State) (p : Nat) : Nat :=
  (List.range 8).foldr (fun i acc => (s.mem (p + i)).val + 256 * acc) 0

/-- `SET_NEXT(p, n)`: store the 64-bit word `n` at address `p`. -/
def SET_NEXT (s : State) (p n : Nat) : State :=
  { s with mem := fun x =>
      if p ≤ x ∧ x < p + 8 then Fin.ofNat (u64 n / 256 ^ (x - p)) else s.mem x }

/-- `memset(p, 0, n)`. -/
def memset_zero (s : State) (p n : Nat) : State :=
  { s with mem := fun x => if p ≤ x ∧ x < p + n then 0 else s.mem x }

/-- `memcpy(dst, src, n)` for regions that do not overlap. -/
def memcpy (s : State) (dst src n : Nat) : State :=
  { s with mem := fun x => if dst ≤ x ∧ x < dst + n then s.mem (src + (x - dst)) else s.mem x }

/-- Write of the header at `p` in the store of page block headers. -/
def set_pbh (s : State) (p : Nat) (v : pbh_t) : State := { s with pbh := upd s.pbh p v }

/-- Write of the header at `p` in the store of superpage headers. -/
def set_sph (s : State) (p : Nat) (v : sph_t) : State := { s with sph := upd s.sph p v }

/-- Write of the record at `p` in the store of hazard pointers. -/
def set_hptr (s : State) (p : Nat) (v : hazard_ptr_t) : State := { s with hptr := upd s.hptr p v }

/-- Write of the thread-local data of thread `t`. -/
def set_tlh (s : State) (t : Nat) (v : tlh_t) : State := { s with thr := upd s.thr t v }

/-- Write of `tlh->blk_list[cl]` of thread `t`. -/
def set_blk (s : State) (t cl : Nat) (v : blk_list_t) : State :=
  set_tlh s t { s.thr t with blk_list := upd (s.thr t).blk_list cl v }

/-- Write of `tlh->free_pb_list[c]` of thread `t`. -/
def set_free_pb (s : State) (t c : Nat) (v : Nat) : State :=
  set_tlh s t { s.thr t with free_pb_list := upd (s.thr t).free_pb_list c v }

/-- Write of the global `g_free_sp_list`. -/
def set_g_free_sp_list (s : State) (v : Nat) : State := { s with g_free_sp_list := v }

/-- Write of the global `g_free_sp_len`. -/
def set_g_free_sp_len (s : State) (v : Nat) : State := { s with g_free_sp_len := v }

/-! ## mmap / munmap -/

/-- Memory handed out by `mmap` is zero-filled: every store is cleared on the range. -/
def zero_range (s : State) (a n : Nat) : State :=
  { s with
    mem := fun x => if a ≤ x ∧ x < a + n then 0 else s.mem x,
    pbh := fun x => if a ≤ x ∧ x < a + n then pbh_zero else s.pbh x,
    sph := fun x => if a ≤ x ∧ x < a + n then sph_zero else s.sph x,
    hptr := fun x => if a ≤ x ∧ x < a + n then hazard_ptr_zero else s.hptr x,
    pm_leaf := fun x => if a ≤ x ∧ x < a + n then (fun _ => 0) else s.pm_leaf x,
    pm_val := fun x => if a ≤ x ∧ x < a + n then (fun _ => 0) else s.pm_val x }

/-- `do_mmap(size)`: `MAP_FAILED` ends in `CRASH`. -/
def do_mmap (s : State) (size : Nat) : Option (Nat × State) :=
  match s.os_mmap s.os_calls size with
  | none => none
  | some mem => some (mem, zero_range { s with os_calls := s.os_calls + 1 } mem size)

/-- `do_munmap(addr, size)`; the call is recorded. -/
def do_munmap (s : State) (addr size : Nat) : State :=
  { s with os_unmapped := (addr, size) :: s.os_unmapped }

/-! ## PageMap -/

/-- One round of the loop of `pagemap_expand` at `key`; the result is the state
and the next key. -/
def pagemap_expand_round (s : State) (key : Nat) : Option (State × Nat) :=
  let i1 := key >>> (PMAP_LEAF_BIT + PMAP_INTERIOR_BIT)
  let i2 := (key >>> PMAP_LEAF_BIT) &&& (PMAP_INTERIOR_LEN - 1)
  if ¬ (i1 < PMAP_INTERIOR_LEN ∧ i2 < PMAP_INTERIOR_LEN) then none else
  -- Make 2nd level node if necessary
  let r1 : Option State :=
    if s.pm_node i1 = 0 then
      (do_mmap s (PMAP_INTERIOR_LEN * 8)).map fun (new_node, s1) =>
        { s1 with pm_node := upd s1.pm_node i1 new_node }
    else some s
  r1.bind fun s1 =>
  -- Make leaf node if necessary
  let interior := s1.pm_node i1
  if interior = 0 then none else
  let r2 : Option State :=
    if s1.pm_leaf interior i2 = 0 then
      (do_mmap s1 (PMAP_LEAF_LEN * 8)).map fun (new_leaf, s2) =>
        { s2 with pm_leaf := upd s2.pm_leaf interior (upd (s2.pm_leaf interior) i2 new_leaf) }
    else some s1
  r2.map fun s2 =>
  -- Advance key past whatever is covered by this leaf node
  (s2, u64 (((key >>> PMAP_LEAF_BIT) + 1) <<< PMAP_LEAF_BIT))

/-- The loop of `pagemap_expand`: `for (key = page_id; key < page_id + n; )`.
Every round moves `key` forward, so `fuel = n` rounds are never exceeded. -/
def pagemap_expand_loop (limit : Nat) : Nat → State → Nat → Option State
  | 0, s, key => if key < limit then none else some s
  | fuel + 1, s, key =>
    if key < limit then
      (pagemap_expand_round s key).bind fun (s1, key1) => pagemap_expand_loop limit fuel s1 key1
    else some s

/-- `pagemap_expand(page_id, n)`. -/
def pagemap_expand (s : State) (page_id n : Nat) : Option State :=
  pagemap_expand_loop (u64 (page_id + n)) n s page_id

/-- The refresh of the leaf cache of thread `t` in `pagemap_get` and `pagemap_set`:
`if (l_pagemap_tag != tag) { ... }`. -/
def pagemap_cache_load (s : State) (t tag : Nat) : Option State :=
  if (s.thr t).l_pagemap_tag ≠ tag then
    let i1 := tag >>> PMAP_INTERIOR_BIT
    let i2 := tag &&& (PMAP_INTERIOR_LEN - 1)
    if ¬ i1 < PMAP_INTERIOR_LEN then none
    else if s.pm_node i1 = 0 then none
    else some (set_tlh s t { s.thr t with
      l_pagemap_tag := tag, l_pagemap_leaf := s.pm_leaf (s.pm_node i1) i2 })
  else some s

/-- `pagemap_get(page_id)` run by thread `t`.  With `MALLOC_USE_PAGEMAP_CACHE` the
thread's leaf cache is consulted and refreshed; without it the three levels are
walked under the assertions of the source. -/
def pagemap_get (s : State) (t page_id : Nat) : Option (Nat × State) :=
  if s.cfg.MALLOC_USE_PAGEMAP_CACHE then
    let tag := page_id >>> PMAP_LEAF_BIT
    let i3 := page_id &&& (PMAP_LEAF_LEN - 1)
    (pagemap_cache_load s t tag).bind fun s1 =>
      if (s1.thr t).l_pagemap_leaf = 0 then none
      else some (s1.pm_val (s1.thr t).l_pagemap_leaf i3, s1)
  else
    let i1 := page_id >>> (PMAP_LEAF_BIT + PMAP_INTERIOR_BIT)
    let i2 := (page_id >>> PMAP_LEAF_BIT) &&& (PMAP_INTERIOR_LEN - 1)
    let i3 := page_id &&& (PMAP_LEAF_LEN - 1)
    if page_id >>> PMAP_BITS ≠ 0 then none
    else if s.pm_node i1 = 0 then none
    else if s.pm_leaf (s.pm_node i1) i2 = 0 then none
    else some (s.pm_val (s.pm_leaf (s.pm_node i1) i2) i3, s)

/-- `pagemap_get_checked(page_id)`. -/
def pagemap_get_checked (s : State) (page_id : Nat) : Nat :=
  let i1 := page_id >>> (PMAP_LEAF_BIT + PMAP_INTERIOR_BIT)
  let i2 := (page_id >>> PMAP_LEAF_BIT) &&& (PMAP_INTERIOR_LEN - 1)
  let i3 := page_id &&& (PMAP_LEAF_LEN - 1)
  if page_id >>> PMAP_BITS > 0 ∨ s.pm_node i1 = 0 ∨ s.pm_leaf (s.pm_node i1) i2 = 0 then 0
  else s.pm_val (s.pm_leaf (s.pm_node i1) i2) i3

/-- Store of `val` in slot `i3` of the leaf at address `leaf`. -/
def set_pm_val (s : State) (leaf i3 val : Nat) : State :=
  { s with pm_val := upd s.pm_val leaf (upd (s.pm_val leaf) i3 val) }

/-- `pagemap_set(page_id, val)` run by thread `t`. -/
def pagemap_set (s : State) (t page_id val : Nat) : Option State :=
  if s.cfg.MALLOC_USE_PAGEMAP_CACHE then
    let tag := page_id >>> PMAP_LEAF_BIT
    let i3 := page_id &&& (PMAP_LEAF_LEN - 1)
    (pagemap_cache_load s t tag).bind fun s1 =>
      if (s1.thr t).l_pagemap_leaf = 0 then none
      else some (set_pm_val s1 (s1.thr t).l_pagemap_leaf i3 val)
  else
    if page_id >>> PMAP_BITS ≠ 0 then none else
    let i1 := page_id >>> (PMAP_LEAF_BIT + PMAP_INTERIOR_BIT)
    let i2 := (page_id >>> PMAP_LEAF_BIT) &&& (PMAP_INTERIOR_LEN - 1)
    let i3 := page_id &&& (PMAP_LEAF_LEN - 1)
    if s.pm_node i1 = 0 then none
    else if s.pm_leaf (s.pm_node i1) i2 = 0 then none
    else some (set_pm_val s (s.pm_leaf (s.pm_node i1) i2) i3 val)

/-- `pagemap_set_range(start, len, val)` run by thread `t`. -/
def pagemap_set_range (s : State) (t start : Nat) : Nat → Nat → Option State
  | 0, _ => some s
  | len + 1, val =>
    (pagemap_set s t start val).bind fun s1 => pagemap_set_range s1 t (start + 1) len val

/-! ## Superpage lists and hazard pointers

Every library call runs without interference from other threads, so a
compare-and-swap finds the value that was just read and succeeds. -/

/-- Bound on the length of any walk along a linked list: a list of more than
`2^64` nodes revisits an address. -/
def LIST_FUEL : Nat := 2 ^ 64

/-- `sph_link_init(sph)`. -/
def sph_link_init (s : State) (sph : Nat) : State :=
  set_sph s sph { s.sph sph with next := sph, prev := sph }

/-- `sph_list_prepend(&tlh->sp_list, sph)` for the heap of thread `t`. -/
def sph_list_prepend (s : State) (t sph : Nat) : State :=
  let top := (s.thr t).sp_list
  let s1 :=
    if top ≠ 0 then
      let s := set_sph s sph { s.sph sph with next := top }
      let s := set_sph s sph { s.sph sph with prev := (s.sph top).prev }
      let s := set_sph s (s.sph top).prev { s.sph (s.sph top).prev with next := sph }
      set_sph s top { s.sph top with prev := sph }
    else sph_link_init s sph
  set_tlh s1 t { s1.thr t with sp_list := sph }

/-- `sph_list_remove(&tlh->sp_list, sph)` for the heap of thread `t`. -/
def sph_list_remove (s : State) (t sph : Nat) : Option State :=
  if sph = (s.sph sph).next then
    if (s.thr t).sp_list ≠ sph then none
    else some (set_tlh s t { s.thr t with sp_list := 0 })
  else
    let s := if (s.thr t).sp_list = sph then
        set_tlh s t { s.thr t with sp_list := (s.sph sph).next } else s
    let s := set_sph s (s.sph sph).prev { s.sph (s.sph sph).prev with next := (s.sph sph).next }
    let s := set_sph s (s.sph sph).next { s.sph (s.sph sph).next with prev := (s.sph sph).prev }
    some (sph_link_init s sph)

/-- The loop of `scan_hazard_pointers(sph)` from the record `hp` on. -/
def scan_hazard_pointers_from (s : State) (sph : Nat) : Nat → Nat → Option Bool
  | 0, _ => none
  | fuel + 1, hp =>
    if hp = 0 then some false
    else if (s.hptr hp).node = sph then some true
    else scan_hazard_pointers_from s sph fuel (s.hptr hp).next

/-- `scan_hazard_pointers(sph)`. -/
def scan_hazard_pointers (s : State) (sph : Nat) : Option Bool :=
  scan_hazard_pointers_from s sph LIST_FUEL s.g_hazard_ptr_list

/-- `sph_alloc(tlh)` for the heap of thread `t`. -/
def sph_alloc (s : State) (t : Nat) : Option (Nat × State) := do
  let sph0 := s.g_free_sp_list
  let (sph, s) ← (
    if sph0 ≠ 0 then
      -- Pop the whole list, get the first one and push the remained list.
      let s := set_g_free_sp_list s 0
      let next_sph := (s.sph sph0).next
      let s := if next_sph ≠ 0 then set_g_free_sp_list s next_sph else s
      -- Decrease the length of global free superpage list.
      if ¬ s.g_free_sp_len > 0 then none
      else some (sph0, set_g_free_sp_len s (sub32 s.g_free_sp_len 1))
    else do
      let (mem, s) ← do_mmap s (SUPERPAGE_SIZE + SPH_SIZE)
      let s := set_sph s mem { s.sph mem with start_page := u64 (mem + SPH_SIZE) >>> PAGE_SHIFT }
      -- Expand pagemap.
      let s ← pagemap_expand s (s.sph mem).start_page SUPERPAGE_LEN
      some (mem, s))
  -- Set the owner of superpage.
  let s := set_sph s sph { s.sph sph with owner_id := (s.thr t).thread_id }
  -- Prepend the new superpage to the superpage list.
  some (sph, sph_list_prepend s t sph)

/-- `sph_free(tlh, sph)` for the heap of thread `t`. -/
def sph_free (s : State) (t sph : Nat) : Option State := do
  -- Remove the superpage form the Superpage List.
  let s ← sph_list_remove s t sph
  -- Update pagemap.
  let s ← pagemap_set_range s t (s.sph sph).start_page SUPERPAGE_LEN 0
  -- Check the hazard_mark.
  let (hazardous, s) ← (
    if (s.sph sph).hazard_mark ≠ 0 then do
      let found ← scan_hazard_pointers s sph
      if found then some (true, s)
      else some (false, set_sph s sph { s.sph sph with hazard_mark := 0 })
    else some (false, s))
  if hazardous ∨ s.g_free_sp_len < u32 (s.g_thread_num * 2) then
    let s := set_g_free_sp_len s (u32 (s.g_free_sp_len + 1))
    -- Push to the global Free Superpage List.
    let s := set_sph s sph { s.sph sph with next := s.g_free_sp_list }
    some (set_g_free_sp_list s sph)
  else
    -- Return the memory to the OS.
    some (do_munmap s sph (SUPERPAGE_SIZE + SPH_SIZE))

/-! ## Page block headers -/

/-- The lists a `pbh_t**` argument designates in the heap of a thread:
`&tlh->blk_list[cl].pbh_list` or `&tlh->free_pb_list[c]`. -/
inductive pbh_list_ref where
  | blk (cl : Nat)
  | free_pb (c : Nat)
deriving DecidableEq

/-- The designated list lies inside its array. -/
def pbh_list_ref.valid : pbh_list_ref → Bool
  | .blk cl => decide (cl < NUM_CLASSES)
  | .free_pb c => decide (c < NUM_PAGE_CLASSES)

/-- Read of `*list` in the heap of thread `t`. -/
def list_head (s : State) (t : Nat) : pbh_list_ref → Nat
  | .blk cl => ((s.thr t).blk_list cl).pbh_list
  | .free_pb c => (s.thr t).free_pb_list c

/-- Write of `*list` in the heap of thread `t`. -/
def set_list_head (s : State) (t : Nat) (r : pbh_list_ref) (v : Nat) : State :=
  match r with
  | .blk cl => set_blk s t cl { (s.thr t).blk_list cl with pbh_list := v }
  | .free_pb c => set_free_pb s t c v

/-- The list `&tlh->free_pb_list[len-1]` for a page block of `len` pages; there is
none when `len - 1` is not an index of the array. -/
def free_pb_ref (len : Nat) : Option pbh_list_ref :=
  if 1 ≤ len ∧ len ≤ NUM_PAGE_CLASSES then some (.free_pb (len - 1)) else none

/-- `pbh_alloc(sph, page_id, len)`. -/
def pbh_alloc (s : State) (sph page_id len : Nat) : Option (Nat × State) :=
  let pbh_idx := u32 (sub64 page_id (s.sph sph).start_page + 1)
  if ¬ (pbh_idx > 0 ∧ pbh_idx ≤ SUPERPAGE_LEN) then none else
  let new_pbh := sph + PBH_SIZE * pbh_idx
  some (new_pbh, set_pbh s new_pbh
    { pbh_zero with start_page := page_id, length := u8 len, index := u8 pbh_idx })

/-- `pbh_get_superpage(pbh)`. -/
def pbh_get_superpage (s : State) (pbh : Nat) : Option Nat :=
  if pbh = 0 then none
  else if ¬ ((s.pbh pbh).index > 0 ∧ (s.pbh pbh).index ≤ SUPERPAGE_LEN) then none
  else some (sub64 pbh (PBH_SIZE * (s.pbh pbh).index))

/-- `pbh_link_init(pbh)`. -/
def pbh_link_init (s : State) (pbh : Nat) : State :=
  set_pbh s pbh { s.pbh pbh with next := pbh, prev := pbh }

/-- `pbh_field_init(pbh)`. -/
def pbh_field_init (s : State) (pbh : Nat) : State :=
  set_pbh s pbh { s.pbh pbh with
    status := PBH_ON_FREE_LIST, cnt_free := 0, cnt_unused := 0,
    free_list := 0, unallocated := 0, remote_head := 0, remote_cnt := 0 }

/-- The relinking done by `pbh_list_prepend` and `pbh_list_append` in front of `top`. -/
def pbh_link_before (s : State) (top pbh : Nat) : State :=
  let s := set_pbh s pbh { s.pbh pbh with next := top }
  let s := set_pbh s pbh { s.pbh pbh with prev := (s.pbh top).prev }
  let s := set_pbh s (s.pbh top).prev { s.pbh (s.pbh top).prev with next := pbh }
  set_pbh s top { s.pbh top with prev := pbh }

/-- `pbh_list_prepend(list, pbh)`. -/
def pbh_list_prepend (s : State) (t : Nat) (r : pbh_list_ref) (pbh : Nat) : Option State :=
  if ¬ r.valid then none else
  let s1 := if list_head s t r ≠ 0 then pbh_link_before s (list_head s t r) pbh
            else pbh_link_init s pbh
  some (set_list_head s1 t r pbh)

/-- `pbh_list_append(list, pbh)`. -/
def pbh_list_append (s : State) (t : Nat) (r : pbh_list_ref) (pbh : Nat) : Option State :=
  if ¬ r.valid then none else
  if list_head s t r ≠ 0 then some (pbh_link_before s (list_head s t r) pbh)
  else some (set_list_head (pbh_link_init s pbh) t r pbh)

/-- The unlinking shared by `pbh_list_pop`, `pbh_list_remove` and
`pbh_list_move_to_first`. -/
def pbh_unlink (s : State) (pbh : Nat) : State :=
  let s := set_pbh s (s.pbh pbh).prev { s.pbh (s.pbh pbh).prev with next := (s.pbh pbh).next }
  set_pbh s (s.pbh pbh).next { s.pbh (s.pbh pbh).next with prev := (s.pbh pbh).prev }

/-- `pbh_list_pop(list)`. -/
def pbh_list_pop (s : State) (t : Nat) (r : pbh_list_ref) : Option (Nat × State) :=
  if ¬ r.valid then none else
  let pbh := list_head s t r
  if pbh = 0 then none else
  let s := set_list_head s t r (if pbh ≠ (s.pbh pbh).next then (s.pbh pbh).next else 0)
  -- Remove the pbh from the list.
  some (pbh, pbh_link_init (pbh_unlink s pbh) pbh)

/-- `pbh_list_remove(list, pbh)`. -/
def pbh_list_remove (s : State) (t : Nat) (r : pbh_list_ref) (pbh : Nat) : Option State :=
  if ¬ r.valid then none else
  if pbh = (s.pbh pbh).next then
    if list_head s t r ≠ pbh then none else some (set_list_head s t r 0)
  else
    let s := if list_head s t r = pbh then set_list_head s t r (s.pbh pbh).next else s
    some (pbh_link_init (pbh_unlink s pbh) pbh)

/-- `pbh_list_move_to_first(list, pbh)`. -/
def pbh_list_move_to_first (s : State) (t : Nat) (r : pbh_list_ref) (pbh : Nat) : Option State :=
  if ¬ r.valid then none else
  if pbh = (s.pbh pbh).next then none else
  -- First remove the pbh, then prepend it and make it the first.
  let s := pbh_unlink s pbh
  let s := pbh_link_before s (list_head s t r) pbh
  some (set_list_head s t r pbh)

/-! ## Superpage header functions -/

/-- The `uint8_t` update `pbh->length += len`. -/
def pbh_add_length (s : State) (pbh len : Nat) : State :=
  set_pbh s pbh { s.pbh pbh with length := u8 ((s.pbh pbh).length + len) }


/-- `sph_coalesce_pbs(pbh)` run by thread `t`. -/
def sph_coalesce_pbs (s : State) (t pbh : Nat) : Option State :=
  let prev_pbh := pagemap_get_checked s (sub64 (s.pbh pbh).start_page 1)
  if prev_pbh &&& HUGE_MALLOC_MARK ≠ 0 then none else
  let next_val := pagemap_get_checked s (u64 ((s.pbh pbh).start_page + (s.pbh pbh).length))
  let next_pbh := if next_val &&& HUGE_MALLOC_MARK ≠ 0 then 0 else next_val
  if prev_pbh ≠ 0 ∧ (s.pbh prev_pbh).status = PBH_ON_FREE_LIST then
    let s := pbh_add_length s prev_pbh (s.pbh pbh).length
    -- If the coalesced length is the same as the length of superpage,
    -- we don't need to update more because superpage will be freed.
    if (s.pbh prev_pbh).length = SUPERPAGE_LEN then some s
    else if next_pbh ≠ 0 ∧ (s.pbh next_pbh).status = PBH_ON_FREE_LIST then
      -- Both prev_pbh and next_pbh are free. Coalesce together.
      let next_len := (s.pbh next_pbh).length
      let s := pbh_add_length s prev_pbh next_len
      if (s.pbh prev_pbh).length = SUPERPAGE_LEN then some s
      else
        -- Update the pagemap and deallocate next_pbh, then pbh.
        (pagemap_set_range s t (s.pbh next_pbh).start_page next_len prev_pbh).bind fun s =>
          pagemap_set_range s t (s.pbh pbh).start_page (s.pbh pbh).length prev_pbh
    else pagemap_set_range s t (s.pbh pbh).start_page (s.pbh pbh).length prev_pbh
  else if next_pbh ≠ 0 ∧ (s.pbh next_pbh).status = PBH_ON_FREE_LIST then
    -- Only next_pbh is free.
    let next_len := (s.pbh next_pbh).length
    let s := pbh_add_length s pbh next_len
    if (s.pbh pbh).length = SUPERPAGE_LEN then some s
    else pagemap_set_range s t (s.pbh next_pbh).start_page next_len pbh
  else some s

/-- The loop of `sph_get_remote_pbs` from the page block `remote_pb` on. -/
def sph_get_remote_pbs_loop (t : Nat) : Nat → State → Nat → Option State
  | 0, _, _ => none
  | fuel + 1, s, remote_pb =>
    (pagemap_get s t (remote_pb >>> PAGE_SHIFT)).bind fun (pbh, s) =>
    if pbh = 0 then none else
    let s := set_pbh s pbh { s.pbh pbh with status := PBH_ON_FREE_LIST }
    if (s.pbh pbh).sizeclass ≠ NUM_CLASSES then none else
    (sph_coalesce_pbs s t pbh).bind fun s =>
    let remote_pb := GET_NEXT s remote_pb
    if remote_pb ≠ 0 then sph_get_remote_pbs_loop t fuel s remote_pb else some s

/-- `sph_get_remote_pbs(sph)` run by thread `t`. -/
def sph_get_remote_pbs (s : State) (t sph : Nat) : Option State :=
  let remote_pb := (s.sph sph).remote_pb_list
  let s := set_sph s sph { s.sph sph with remote_pb_list := 0 }
  sph_get_remote_pbs_loop t LIST_FUEL s remote_pb

/-- The loop of `take_superpage` that adopts the page blocks of the superpage:
`while (total_len < SUPERPAGE_LEN)`; the result is the state and `total_len`. -/
def take_superpage_loop (t : Nat) : Nat → State → Nat → Nat → Option (State × Nat)
  | 0, s, _, total_len => if total_len < SUPERPAGE_LEN then none else some (s, total_len)
  | fuel + 1, s, pbh, total_len =>
    if ¬ total_len < SUPERPAGE_LEN then some (s, total_len) else
    let len := (s.pbh pbh).length
    if ¬ len > 0 then none else
    if (s.pbh pbh).index ≠ u32 (total_len + 1) then none else
    let r : Option State :=
      if (s.pbh pbh).status = PBH_ON_FREE_LIST then
        (free_pb_ref len).bind fun r => pbh_list_prepend s t r pbh
      else if (s.pbh pbh).sizeclass < NUM_CLASSES then
        let count := u32 ((s.pbh pbh).cnt_free + (s.pbh pbh).cnt_unused + (s.pbh pbh).remote_cnt)
        (get_blocks_for_class (s.pbh pbh).sizeclass).bind fun blocks =>
        if count = blocks then
          -- PBH became totally free.
          let s := pbh_field_init s pbh
          (free_pb_ref len).bind fun r => pbh_list_prepend s t r pbh
        else pbh_list_prepend s t (.blk (s.pbh pbh).sizeclass) pbh
      else some s
    -- next pbh
    r.bind fun s => take_superpage_loop t fuel s (pbh + PBH_SIZE * len) (u32 (total_len + len))

/-- `take_superpage(tlh, sph)` for the heap of thread `t`. -/
def take_superpage (s : State) (t sph : Nat) : Option (Bool × State) :=
  -- Try to change the ownership of superpage.
  if (s.sph sph).owner_id ≠ DEAD_OWNER then some (false, s) else
  let s := set_sph s sph { s.sph sph with owner_id := (s.thr t).thread_id }
  let r : Option State :=
    if (s.sph sph).remote_pb_list ≠ 0 then sph_get_remote_pbs s t sph else some s
  r.bind fun s =>
  -- Adopt all pbhs in the superpage.
  (take_superpage_loop t SUPERPAGE_LEN s (sph + PBH_SIZE) 0).bind fun (s, total_len) =>
  if total_len ≠ SUPERPAGE_LEN then none else
  -- Prepend the adopted superpage to the superpage list.
  some (true, sph_list_prepend s t sph)

/-! ## Page blocks -/

/-- `pb_split(tlh, pbh, len)` for the heap of thread `t`. -/
def pb_split (s : State) (t pbh len : Nat) : Option State := do
  if ¬ (s.pbh pbh).length > len then none else
  let rem_len := sub64 (s.pbh pbh).length len
  -- Update the original pbh.
  let s := set_pbh s pbh { s.pbh pbh with length := u8 len }
  -- Make a pbh for a remaining run of pages and update free list.
  let rem_start := u64 ((s.pbh pbh).start_page + len)
  let sph ← pbh_get_superpage s pbh
  let (rem_pbh, s) ← pbh_alloc s sph rem_start rem_len
  let s := set_pbh s rem_pbh { s.pbh rem_pbh with status := PBH_ON_FREE_LIST }
  let r ← free_pb_ref rem_len
  let s ← pbh_list_prepend s t r rem_pbh
  -- Update the pagemap.
  pagemap_set_range s t rem_start rem_len rem_pbh

/-- The loop of `pb_alloc_from_tlh`: `for (c = pcl; c < NUM_PAGE_CLASSES; c++)`,
with `n` classes left to visit. -/
def pb_alloc_from_tlh_loop (t page_len pcl : Nat) : Nat → State → Nat → Option (Nat × State)
  | 0, s, _ => some (0, s)
  | n + 1, s, c =>
    if (s.thr t).free_pb_list c ≠ 0 then do
      -- Pop the first pbh.
      let (pbh, s) ← pbh_list_pop s t (.free_pb c)
      if (s.pbh pbh).length ≠ c + 1 then none else
      -- Make this pbh in-use, and if necessary, split it.
      let s := set_pbh s pbh { s.pbh pbh with status := PBH_IN_USE }
      let s ← (if c > pcl then pb_split s t pbh page_len else some s)
      some (pbh, s)
    else pb_alloc_from_tlh_loop t page_len pcl n s (c + 1)

/-- `pb_alloc_from_tlh(tlh, page_len)` for the heap of thread `t`; the result `0`
is `NULL`. -/
def pb_alloc_from_tlh (s : State) (t page_len : Nat) : Option (Nat × State) :=
  if ¬ (1 ≤ page_len) then none else
  -- Page class index is one less than page_len.
  let pcl := page_len - 1
  pb_alloc_from_tlh_loop t page_len pcl (NUM_PAGE_CLASSES - pcl) s pcl

/-- `pb_alloc(tlh, page_len)` for the heap of thread `t`. -/
def pb_alloc (s : State) (t page_len : Nat) : Option (Nat × State) := do
  if ¬ (page_len > 0 ∧ page_len ≤ NUM_PAGE_CLASSES) then none else
  -- Allocate a page block from TLH.
  let (pbh, s) ← pb_alloc_from_tlh s t page_len
  if pbh ≠ 0 then some (pbh, s) else
  -- Check the Remote PB List of the first superpage in Superpage List
  let first_sph := (s.thr t).sp_list
  let (pbh, s) ← (
    if first_sph ≠ 0 ∧ (s.sph first_sph).remote_pb_list ≠ 0 then do
      let s ← sph_get_remote_pbs s t first_sph
      let s := set_tlh s t { s.thr t with sp_list := (s.sph first_sph).next }
      pb_alloc_from_tlh s t page_len
    else some (0, s))
  if pbh ≠ 0 then some (pbh, s) else
  -- Request memory from the global Free Superpage List or the OS.
  let (sph, s) ← sph_alloc s t
  let new_page_id := (s.sph sph).start_page
  let (pbh, s) ← pbh_alloc s sph new_page_id page_len
  let s := set_pbh s pbh { s.pbh pbh with status := PBH_IN_USE }
  let s ← pagemap_set_range s t new_page_id page_len pbh
  -- remained pages
  if ¬ page_len < SUPERPAGE_LEN then none else
  let rem_start := u64 (new_page_id + page_len)
  let rem_len := SUPERPAGE_LEN - page_len
  let (rem_pbh, s) ← pbh_alloc s sph rem_start rem_len
  let s := set_pbh s rem_pbh { s.pbh rem_pbh with status := PBH_ON_FREE_LIST }
  let r ← free_pb_ref rem_len
  let s ← pbh_list_prepend s t r rem_pbh
  let s ← pagemap_set_range s t rem_start rem_len rem_pbh
  some (pbh, s)

/-- `pb_coalesce(tlh, pbh)` for the heap of thread `t`; the result is the header
of the merged page block. -/
def pb_coalesce (s : State) (t pbh : Nat) : Option (Nat × State) := do
  let prev_pbh := pagemap_get_checked s (sub64 (s.pbh pbh).start_page 1)
  if prev_pbh &&& HUGE_MALLOC_MARK ≠ 0 then none else
  let next_val := pagemap_get_checked s (u64 ((s.pbh pbh).start_page + (s.pbh pbh).length))
  let next_pbh := if next_val &&& HUGE_MALLOC_MARK ≠ 0 then 0 else next_val
  if prev_pbh ≠ 0 ∧ (s.pbh prev_pbh).status = PBH_ON_FREE_LIST then
    -- Remove prev_pbh form the page list.
    let prev_len := (s.pbh prev_pbh).length
    let r ← free_pb_ref prev_len
    let s ← pbh_list_remove s t r prev_pbh
    let s := pbh_add_length s prev_pbh (s.pbh pbh).length
    -- If the coalesced length is same as the length of superpage,
    -- we don't need to update more because superpage will be freed.
    if (s.pbh prev_pbh).length = SUPERPAGE_LEN then some (prev_pbh, s)
    else if next_pbh ≠ 0 ∧ (s.pbh next_pbh).status = PBH_ON_FREE_LIST then
      -- Both prev_pbh and next_pbh are free. Coalesce together.
      let next_len := (s.pbh next_pbh).length
      let r ← free_pb_ref next_len
      let s ← pbh_list_remove s t r next_pbh
      let s := pbh_add_length s prev_pbh next_len
      if (s.pbh prev_pbh).length = SUPERPAGE_LEN then some (prev_pbh, s) else
      -- Update the pagemap and deallocate next_pbh, then pbh.
      let s ← pagemap_set_range s t (s.pbh next_pbh).start_page next_len prev_pbh
      let s ← pagemap_set_range s t (s.pbh pbh).start_page (s.pbh pbh).length prev_pbh
      some (prev_pbh, s)
    else
      let s ← pagemap_set_range s t (s.pbh pbh).start_page (s.pbh pbh).length prev_pbh
      some (prev_pbh, s)
  else if next_pbh ≠ 0 ∧ (s.pbh next_pbh).status = PBH_ON_FREE_LIST then
    -- Only next_pbh is free.
    let next_len := (s.pbh next_pbh).length
    let r ← free_pb_ref next_len
    let s ← pbh_list_remove s t r next_pbh
    let s := pbh_add_length s pbh next_len
    if (s.pbh pbh).length = SUPERPAGE_LEN then some (pbh, s) else
    -- Update the pagemap and deallocate next_pbh.
    let s ← pagemap_set_range s t (s.pbh next_pbh).start_page next_len pbh
    some (pbh, s)
  else some (pbh, s)

/-- `pb_free(tlh, pbh)` for the heap of thread `t`. -/
def pb_free (s : State) (t pbh : Nat) : Option State := do
  if ¬ (s.pbh pbh).length ≤ SUPERPAGE_LEN then none else
  let (pbh, s) ← (if (s.pbh pbh).length < SUPERPAGE_LEN then pb_coalesce s t pbh else some (pbh, s))
  -- If the freed pbh makes superpage totally empty, release superpage.
  if (s.pbh pbh).length = SUPERPAGE_LEN then
    let sph ← pbh_get_superpage s pbh
    sph_free s t sph
  else
    -- Update the pbh status and insert it into the Free Page Block List.
    let s := pbh_field_init s pbh
    let r ← free_pb_ref (s.pbh pbh).length
    pbh_list_prepend s t r pbh

/-- `pb_remote_free(tlh, pb, pbh)` for the heap of thread `t`. -/
def pb_remote_free (s : State) (t pb pbh : Nat) : Option State := do
  let sph ← pbh_get_superpage s pbh
  let hp := (s.thr t).hazard_ptr
  let s := set_hptr s hp { s.hptr hp with node := sph }
  let (taken, s) ← (
    if (s.sph sph).owner_id = DEAD_OWNER then take_superpage s t sph else some (false, s))
  if taken then
    let s := set_hptr s hp { s.hptr hp with node := 0 }
    pb_free s t pbh
  else
    let top := (s.sph sph).remote_pb_list
    let s := SET_NEXT s pb top
    let s := set_sph s sph { s.sph sph with remote_pb_list := pb }
    let s := set_sph s sph { s.sph sph with finish_mark := DO_NOT_FINISH }
    let (_, s) ← (
      if (s.sph sph).owner_id = DEAD_OWNER then take_superpage s t sph else some (false, s))
    some (set_hptr s hp { s.hptr hp with node := 0 })

/-! ## Blocks: remote free, returning lists, bump allocation -/

/-- `remote_free(tlh, pbh, first, last, N)` for the heap of thread `t`. -/
def remote_free (s : State) (t pbh first last N : Nat) : Option (Bool × State) := do
  let sph ← pbh_get_superpage s pbh
  let cl := (s.pbh pbh).sizeclass
  let start_addr := u64 ((s.pbh pbh).start_page <<< PAGE_SHIFT)
  let size ← get_size_for_class cl
  if size = 0 then none else
  let blk_idx := u16 (sub64 first start_addr / size)
  let hp := (s.thr t).hazard_ptr
  let s := set_hptr s hp { s.hptr hp with node := sph }
  let (taken, s) ← (
    if (s.sph sph).owner_id = DEAD_OWNER then take_superpage s t sph else some (false, s))
  if taken then
    some (false, set_hptr s hp { s.hptr hp with node := 0 })
  else
    let top_head := (s.pbh pbh).remote_head
    let top_cnt := (s.pbh pbh).remote_cnt
    let s :=
      if top_cnt = 0 then SET_NEXT s last 0
      else SET_NEXT s last (u64 (start_addr + u32 (size * top_head)))
    let s := set_pbh s pbh { s.pbh pbh with
      remote_head := blk_idx, remote_cnt := u32 (top_cnt + N) }
    let s := set_sph s sph { s.sph sph with finish_mark := DO_NOT_FINISH }
    let (_, s) ← (
      if (s.sph sph).owner_id = DEAD_OWNER then take_superpage s t sph else some (false, s))
    some (true, set_hptr s hp { s.hptr hp with node := 0 })

/-- `pbh_add_blocks(tlh, pbh, start_blk, end_blk, N)` for the heap of thread `t`. -/
def pbh_add_blocks (s : State) (t pbh start_blk end_blk N : Nat) : Option State := do
  let sph ← pbh_get_superpage s pbh
  let (done, s) ← (
    if (s.sph sph).owner_id ≠ (s.thr t).thread_id then
      -- Try to free blocks to the owner.
      remote_free s t pbh start_blk end_blk N
    else some (false, s))
  if done then some s else
  -- Return to the local pbh.
  let cl := (s.pbh pbh).sizeclass
  let blocks ← get_blocks_for_class cl
  let cnt_ref := sub32 blocks
    (u32 ((s.pbh pbh).cnt_free + (s.pbh pbh).cnt_unused + (s.pbh pbh).remote_cnt))
  if cnt_ref = u32 N then
    -- PBH becomes totally free.
    let s ← pbh_list_remove s t (.blk cl) pbh
    pb_free s t pbh
  else
    -- Move this pbh to the first of pbh list.
    let s ← (if ((s.thr t).blk_list cl).pbh_list ≠ pbh then
        pbh_list_move_to_first s t (.blk cl) pbh else some s)
    -- Prepend to the the free list of pbh.
    let s := SET_NEXT s end_blk (s.pbh pbh).free_list
    some (set_pbh s pbh { s.pbh pbh with
      free_list := start_blk, cnt_free := u32 ((s.pbh pbh).cnt_free + N) })

/-- The loop `while (curr_blk != NULL)` of `tlh_return_list`; the result is the
state with `blk_pbh`, `blk_list`, `prev_blk` and `cont_num` at loop exit. -/
def tlh_return_list_loop (t : Nat) :
    Nat → State → (prev_blk curr_blk blk_list prev_page_id blk_pbh cont_num : Nat) →
      Option (State × Nat × Nat × Nat × Nat)
  | 0, _, _, _, _, _, _, _ => none
  | fuel + 1, s, prev_blk, curr_blk, blk_list, prev_page_id, blk_pbh, cont_num =>
    if curr_blk = 0 then some (s, blk_pbh, blk_list, prev_blk, cont_num) else
    let curr_page_id := curr_blk >>> PAGE_SHIFT
    -- Check curr_blk is in the same pbh with the previous block.
    if curr_page_id = prev_page_id then
      tlh_return_list_loop t fuel s curr_blk (GET_NEXT s curr_blk) blk_list prev_page_id
        blk_pbh (u32 (cont_num + 1))
    else
      (pagemap_get s t curr_page_id).bind fun (pbh, s) =>
      if pbh = blk_pbh then
        tlh_return_list_loop t fuel s curr_blk (GET_NEXT s curr_blk) blk_list curr_page_id
          blk_pbh (u32 (cont_num + 1))
      else
        -- Different --> Return to the pbh, and renew the start block.
        (pbh_add_blocks s t blk_pbh blk_list prev_blk cont_num).bind fun s =>
        tlh_return_list_loop t fuel s curr_blk (GET_NEXT s curr_blk) curr_blk curr_page_id
          pbh 1

/-- `tlh_return_list(tlh, cl)` for the heap of thread `t`. -/
def tlh_return_list (s : State) (t cl : Nat) : Option State := do
  if ¬ cl < NUM_CLASSES then none else
  let list := ((s.thr t).blk_list cl).free_blk_list
  if list = 0 then none else
  let (blk_pbh, s) ← pagemap_get s t (list >>> PAGE_SHIFT)
  -- If contiguous blocks are in the same pbh, we will return them together.
  let (s, blk_pbh, blk_list, prev_blk, cont_num) ←
    tlh_return_list_loop t LIST_FUEL s list (GET_NEXT s list) list (list >>> PAGE_SHIFT) blk_pbh 1
  -- Return remained blocks.
  let s ← pbh_add_blocks s t blk_pbh blk_list prev_blk cont_num
  some (set_blk s t cl { (s.thr t).blk_list cl with free_blk_list := 0, cnt_free := 0 })

/-- The loop `for (int i = 2; i < blks_per_line; i++)` of `bump_alloc`, with `n`
rounds left; the result is the state and `free_blk`. -/
def bump_alloc_loop (size : Nat) : Nat → State → Nat → State × Nat
  | 0, s, free_blk => (s, free_blk)
  | n + 1, s, free_blk =>
    let next_blk := u64 (free_blk + size)
    bump_alloc_loop size n (SET_NEXT s free_blk next_blk) next_blk

/-- `bump_alloc(size, b_list)` with `b_list = &tlh->blk_list[cl]` of thread `t`. -/
def bump_alloc (s : State) (t cl size : Nat) : Option (Nat × State) :=
  if ¬ cl < NUM_CLASSES then none else
  let b := (s.thr t).blk_list cl
  let ret := b.ptr_to_unused
  -- If size is smaller than the half of cache line size,
  -- split all blocks in a cache line.
  if size ≤ CACHE_LINE_SIZE / 2 then
    if size = 0 then none else
    let blks_per_line := u32 (CACHE_LINE_SIZE / size)
    -- Update the Free Block List.
    let b := { b with free_blk_list := u64 (ret + size), cnt_free := sub32 blks_per_line 1 }
    let (s, free_blk) := bump_alloc_loop size (blks_per_line - 2) s b.free_blk_list
    let s := SET_NEXT s free_blk 0
    -- Update the unallocated pointer.
    let b := { b with cnt_unused := sub32 b.cnt_unused blks_per_line }
    let b := { b with ptr_to_unused := if b.cnt_unused > 0 then u64 (free_blk + size) else 0 }
    some (ret, set_blk s t cl b)
  else
    -- Update the unallocated pointer.
    let b := { b with cnt_unused := sub32 b.cnt_unused 1 }
    let b := { b with ptr_to_unused := if b.cnt_unused > 0 then u64 (ret + size) else 0 }
    some (ret, set_blk s t cl b)

/-! ## Allocation and deallocation -/

/-- `small_malloc(cl)` run by thread `t`. -/
def small_malloc (s : State) (t cl : Nat) : Option (Nat × State) := do
  if ¬ cl < NUM_CLASSES then none else
  let b := (s.thr t).blk_list cl
  -- Case 1: When we have thread-local free list.
  if b.free_blk_list ≠ 0 then
    if ¬ b.cnt_free > 0 then none else
    -- Pop the first free block.
    let ret := b.free_blk_list
    some (ret, set_blk s t cl { b with
      free_blk_list := GET_NEXT s ret, cnt_free := sub32 b.cnt_free 1 })
  else
  -- Case 2: When we have the unallocated chunk
  let size ← get_size_for_class cl
  if b.ptr_to_unused ≠ 0 then
    if ¬ b.cnt_unused > 0 then none else
    -- Use pointer-bumping allocation.
    bump_alloc s t cl size
  else
  -- Case 3: Allocate from the pbh list.
  let pbh := b.pbh_list
  if pbh ≠ 0 ∧ (s.pbh pbh).cnt_free > 0 then
    -- PBH has the free list.
    if (s.pbh pbh).free_list = 0 then none else
    let ret := (s.pbh pbh).free_list
    let b := { b with
      free_blk_list := GET_NEXT s (s.pbh pbh).free_list,
      ptr_to_unused := (s.pbh pbh).unallocated,
      cnt_free := sub32 (s.pbh pbh).cnt_free 1,
      cnt_unused := (s.pbh pbh).cnt_unused }
    let s := set_pbh s pbh { s.pbh pbh with
      cnt_free := 0, cnt_unused := 0, free_list := 0, unallocated := 0 }
    -- Move this pbh to the last of pbh_list.
    let b := if (s.pbh pbh).remote_cnt = 0 then { b with pbh_list := (s.pbh pbh).next } else b
    some (ret, set_blk s t cl b)
  else if pbh ≠ 0 ∧ (s.pbh pbh).cnt_unused > 0 then
    -- PBH has only the unallocated chunk.
    if (s.pbh pbh).unallocated = 0 then none else
    let b := { b with
      ptr_to_unused := (s.pbh pbh).unallocated, cnt_unused := (s.pbh pbh).cnt_unused }
    let s := set_pbh s pbh { s.pbh pbh with unallocated := 0, cnt_unused := 0 }
    -- Move this pbh to the last of pbh_list.
    let b := if (s.pbh pbh).remote_cnt = 0 then { b with pbh_list := (s.pbh pbh).next } else b
    bump_alloc (set_blk s t cl b) t cl size
  else if pbh ≠ 0 ∧ (s.pbh pbh).remote_cnt > 0 then
    -- If there exists a remote list, get it.
    let top_head := (s.pbh pbh).remote_head
    let top_cnt := (s.pbh pbh).remote_cnt
    let s := set_pbh s pbh { s.pbh pbh with remote_head := 0, remote_cnt := 0 }
    let page_addr := u64 ((s.pbh pbh).start_page <<< PAGE_SHIFT)
    let ret := u64 (page_addr + u64 (size * top_head))
    -- Move this pbh to the last of pbh_list.
    some (ret, set_blk s t cl { b with
      free_blk_list := GET_NEXT s ret, cnt_free := sub32 top_cnt 1,
      pbh_list := (s.pbh pbh).next })
  else
  -- Case 4: Otherwise, allocate a new pbh.
  let page_num ← get_pages_for_class cl
  let (pbh, s) ← pb_alloc s t page_num
  let s ← pbh_list_append s t (.blk cl) pbh
  let s := set_pbh s pbh { s.pbh pbh with sizeclass := u8 cl, cnt_free := 0, free_list := 0 }
  let s := if size &&& (CACHE_LINE_SIZE - 1) ≠ 0 then
      set_pbh s pbh { s.pbh pbh with status := PBH_AGAINST_FALSE_SHARING } else s
  let s := set_pbh s pbh { s.pbh pbh with remote_head := 0, remote_cnt := 0 }
  let blks_per_pbh ← get_blocks_for_class cl
  let start_addr := u64 ((s.pbh pbh).start_page <<< PAGE_SHIFT)
  let s := set_pbh s pbh { s.pbh pbh with unallocated := 0, cnt_unused := 0 }
  let s := set_blk s t cl { (s.thr t).blk_list cl with
    ptr_to_unused := start_addr, cnt_unused := blks_per_pbh }
  bump_alloc s t cl size

/-- The table `g_lru_table` of the page block cache. -/
def g_lru_table : List Nat := [
  0, 4, 2, 4, 0, 6, 2, 6, 1, 4, 2, 4, 1, 6, 2, 6,
  0, 4, 3, 4, 0, 6, 3, 6, 1, 4, 3, 4, 1, 6, 3, 6,
  0, 5, 2, 5, 0, 6, 2, 6, 1, 5, 2, 5, 1, 6, 2, 6,
  0, 5, 3, 5, 0, 6, 3, 6, 1, 5, 3, 5, 1, 6, 3, 6,
  0, 4, 2, 4, 0, 7, 2, 7, 1, 4, 2, 4, 1, 7, 2, 7,
  0, 4, 3, 4, 0, 7, 3, 7, 1, 4, 3, 4, 1, 7, 3, 7,
  0, 5, 2, 5, 0, 7, 2, 7, 1, 5, 2, 5, 1, 7, 2, 7,
  0, 5, 3, 5, 0, 7, 3, 7, 1, 5, 3, 5, 1, 7, 3, 7]

/-- The table `g_way_table` of the page block cache: `(mask, set_bit)` per way. -/
def g_way_table : List (Nat × Nat) := [
  (0x74, 0xB), (0x74, 0x3), (0x6C, 0x11), (0x6C, 0x1),
  (0x5A, 0x24), (0x5A, 0x4), (0x3A, 0x40), (0x3A, 0x0)]

/-- The lowest way whose tag byte equals `v`, if any: `pcmpeqb` followed by
`get_cache_hit_index`. -/
def pb_cache_hit (c : pb_cache_t) (v : Nat) : Option Nat :=
  (List.range NUM_PB_CACHE_WAY).find? fun i => c.tag i == v

/-- The update of the LRU state for way `pos`:
`(state & g_way_table[pos].mask) | g_way_table[pos].set_bit`. -/
def pb_cache_touch (c : pb_cache_t) (pos : Nat) : Option pb_cache_t :=
  (g_way_table[pos]?).map fun w => { c with state := u8 ((c.state &&& w.1) ||| w.2) }

/-- Write of `tlh->pb_cache` of thread `t`. -/
def set_pb_cache (s : State) (t : Nat) (c : pb_cache_t) : State :=
  set_tlh s t { s.thr t with pb_cache := c }

/-- The loop of `pb_cache_return(tlh, pb)` for the heap of thread `t`. -/
def pb_cache_return_loop (t : Nat) : Nat → State → Nat → Option State
  | 0, _, _ => none
  | fuel + 1, s, pb =>
    (pagemap_get s t (pb >>> PAGE_SHIFT)).bind fun (pbh, s) =>
    let next_pb := GET_NEXT s pb
    (pbh_get_superpage s pbh).bind fun sph =>
    let r := if (s.sph sph).owner_id = (s.thr t).thread_id then pb_free s t pbh
             else pb_remote_free s t pb pbh
    r.bind fun s => if next_pb ≠ 0 then pb_cache_return_loop t fuel s next_pb else some s

/-- `pb_cache_return(tlh, pb)` for the heap of thread `t`. -/
def pb_cache_return (s : State) (t pb : Nat) : Option State :=
  pb_cache_return_loop t LIST_FUEL s pb

/-- `large_malloc(page_len)` run by thread `t`. -/
def large_malloc (s : State) (t page_len : Nat) : Option (Nat × State) := do
  let fresh (s : State) : Option (Nat × State) := do
    let (pbh, s) ← pb_alloc s t page_len
    let s := set_pbh s pbh { s.pbh pbh with sizeclass := NUM_CLASSES }
    some (u64 ((s.pbh pbh).start_page <<< PAGE_SHIFT), s)
  if s.cfg.MALLOC_USE_PAGE_BLOCK_CACHE then
    let c := (s.thr t).pb_cache
    let v := u8 page_len
    -- Compare with cache
    match pb_cache_hit c v with
    | some pos =>
      -- Hit: update LRU state and check the cache block.
      let c ← pb_cache_touch c pos
      let block := c.block pos
      if block.data ≠ 0 then
        let ret := block.data
        let c := { c with block := upd c.block pos ⟨GET_NEXT s ret, sub64 block.length 1⟩ }
        some (ret, set_pb_cache s t c)
      else fresh (set_pb_cache s t c)
    | none =>
      -- Miss: update LRU state and evict the victim.
      let pos ← g_lru_table[c.state]?
      let c ← pb_cache_touch c pos
      let s := set_pb_cache s t c
      let s ← (
        if (c.block pos).data ≠ 0 then do
          let s ← pb_cache_return s t (c.block pos).data
          let c := (s.thr t).pb_cache
          some (set_pb_cache s t { c with block := upd c.block pos ⟨0, 0⟩ })
        else some s)
      -- Save the new page class.
      let c := (s.thr t).pb_cache
      fresh (set_pb_cache s t { c with tag := upd c.tag pos v })
  else fresh s

/-- `huge_malloc(page_len)` run by thread `t`. -/
def huge_malloc (s : State) (t page_len : Nat) : Option (Nat × State) := do
  -- Use mmap directly.
  let size := u64 (page_len <<< PAGE_SHIFT)
  let (ret, s) ← do_mmap s size
  let page_id := ret >>> PAGE_SHIFT
  let val := size ||| HUGE_MALLOC_MARK
  let s ← pagemap_expand s page_id 1
  let s ← pagemap_set s t page_id val
  some (ret, s)

/-- The last three statements of `small_free`: `SET_NEXT(ptr, b_list->free_blk_list)`,
`b_list->free_blk_list = ptr` and `b_list->cnt_free++`, for `b_list = &tlh->blk_list[cl]`
of thread `t`. -/
def blk_push (s : State) (t cl ptr : Nat) : State :=
  let b := (s.thr t).blk_list cl
  let s := SET_NEXT s ptr b.free_blk_list
  set_blk s t cl { b with free_blk_list := ptr, cnt_free := u32 (b.cnt_free + 1) }

/-- `small_free(ptr, pbh)` run by thread `t`. -/
def small_free (s : State) (t ptr pbh : Nat) : Option State := do
  let (done, s) ← (
    if (s.pbh pbh).status = PBH_AGAINST_FALSE_SHARING then do
      let sph ← pbh_get_superpage s pbh
      if (s.sph sph).owner_id ≠ (s.thr t).thread_id then
        -- Try to free the block to the owner.
        remote_free s t pbh ptr ptr 1
      else some (false, s)
    else some (false, s))
  if done then some s else
  -- Local free
  let cl := (s.pbh pbh).sizeclass
  if ¬ cl < NUM_CLASSES then none else
  let threshold ← get_blocks_for_class cl
  let s ← (if ((s.thr t).blk_list cl).cnt_free ≥ threshold then tlh_return_list s t cl
          else some s)
  -- Prepend the free block to the free block list for its size-class.
  some (blk_push s t cl ptr)

/-- The part of `large_free` that gives the page block back to the page layer. -/
def large_free_to_owner (s : State) (t ptr pbh : Nat) : Option State := do
  let sph ← pbh_get_superpage s pbh
  if (s.sph sph).owner_id = (s.thr t).thread_id then pb_free s t pbh
  else pb_remote_free s t ptr pbh

/-- `large_free(ptr, pbh)` run by thread `t`. -/
def large_free (s : State) (t ptr pbh : Nat) : Option State := do
  if s.cfg.MALLOC_USE_PAGE_BLOCK_CACHE then
    let c := (s.thr t).pb_cache
    let v := u8 (s.pbh pbh).length
    -- Compare with cache
    let (pos, s) ← (
      match pb_cache_hit c v with
      | some pos =>
        -- Hit: link to the page cache, which keeps up to two PBs.
        let block := c.block pos
        if block.length < 2 then
          let s := SET_NEXT s ptr block.data
          some (pos, set_pb_cache s t { c with
            block := upd c.block pos ⟨ptr, u64 (block.length + 1)⟩ })
        else do
          let s ← large_free_to_owner s t ptr pbh
          some (pos, s)
      | none => do
        -- Miss: evict the victim.
        let pos ← g_lru_table[c.state]?
        let s ← (if (c.block pos).data ≠ 0 then pb_cache_return s t (c.block pos).data
                else some s)
        let s := SET_NEXT s ptr 0
        let c := (s.thr t).pb_cache
        -- Save the new page class.
        some (pos, set_pb_cache s t { c with
          block := upd c.block pos ⟨ptr, 1⟩, tag := upd c.tag pos v }))
    -- Update LRU state.
    let c ← pb_cache_touch (s.thr t).pb_cache pos
    some (set_pb_cache s t c)
  else large_free_to_owner s t ptr pbh

/-- `huge_free(ptr, size)` run by thread `t`. -/
def huge_free (s : State) (t ptr size : Nat) : Option State :=
  pagemap_set (do_munmap s ptr size) t (ptr >>> PAGE_SHIFT) 0

/-! ## Initialization -/

/-- The search of `hazard_ptr_alloc` through the current list for a record that is
not active; the result `0` means that none was claimed. -/
def hazard_ptr_scan : Nat → State → Nat → Option (Nat × State)
  | 0, _, _ => none
  | fuel + 1, s, hp =>
    if hp = 0 then some (0, s)
    else if (s.hptr hp).active ≠ 0 then hazard_ptr_scan fuel s (s.hptr hp).next
    else
      let s := set_hptr s hp { s.hptr hp with active := 1 }
      some (hp, { s with g_hazard_ptr_free_num := sub32 s.g_hazard_ptr_free_num 1 })

/-- The loop of `hazard_ptr_alloc` that chains the records of a new page, with `n`
rounds left; the result is the state and `last_hptr`. -/
def hazard_ptr_chain : Nat → State → Nat → State × Nat
  | 0, s, last_hptr => (s, last_hptr)
  | n + 1, s, last_hptr =>
    let next_hptr := last_hptr + 64
    hazard_ptr_chain n (set_hptr s last_hptr { s.hptr last_hptr with next := next_hptr }) next_hptr

/-- `hazard_ptr_alloc()`. -/
def hazard_ptr_alloc (s : State) : Option (Nat × State) := do
  -- Allocate from the current list.
  let (hp, s) ← (
    if s.g_hazard_ptr_free_num > 0 then hazard_ptr_scan LIST_FUEL s s.g_hazard_ptr_list
    else some (0, s))
  if hp ≠ 0 then some (hp, s) else
  -- Allocate a new page and split it.
  let (first_hptr, s) ← do_mmap s PAGE_SIZE
  let s := set_hptr s first_hptr { s.hptr first_hptr with active := 1 }
  let rem_len := PAGE_SIZE / 64 - 1
  let (s, last_hptr) := hazard_ptr_chain rem_len s first_hptr
  let s := set_hptr s last_hptr { s.hptr last_hptr with next := s.g_hazard_ptr_list }
  let s := { s with g_hazard_ptr_list := first_hptr }
  some (first_hptr, { s with g_hazard_ptr_free_num := u32 (s.g_hazard_ptr_free_num + rem_len) })

/-- `tlh_init()` run by thread `t`. -/
def tlh_init (s : State) (t : Nat) : Option State := do
  -- Set the thread ID
  let tid := s.g_id
  let s := { s with g_id := u32 (s.g_id + 1) }
  if tid = 2 ^ 32 - 1 then none else
  -- Increase the number of currently running threads.
  let s := { s with g_thread_num := u32 (s.g_thread_num + 1) }
  let s := set_tlh s t { s.thr t with thread_id := tid }
  -- Allocate a hazard pointer.
  let (hp, s) ← hazard_ptr_alloc s
  some (set_tlh s t { s.thr t with hazard_ptr := hp })

/-- `sf_malloc_init()` run by thread `t`; `pthread_key_create` succeeds. -/
def sf_malloc_init (s : State) (t : Nat) : Option State :=
  if s.g_initialized ≠ 0 then some s
  else tlh_init { s with g_initialized := 1 } t

/-- `sf_malloc_thread_init()` run by thread `t`; `pthread_setspecific` succeeds. -/
def sf_malloc_thread_init (s : State) (t : Nat) : Option State := tlh_init s t

/-! ## Library functions -/

/-- `malloc(size)` called by thread `t`. -/
def malloc (s : State) (t size : Nat) : Option (Nat × State) := do
  let s ← (
    if s.cfg.MALLOC_NEED_INIT then do
      let s ← (if s.g_initialized = 0 then sf_malloc_init s t else some s)
      if (s.thr t).thread_id = 0 then sf_malloc_thread_init s t else some s
    else if s.g_initialized = 0 then none else some s)
  if size ≤ MAX_SIZE then
    let cl ← get_sizeclass size
    small_malloc s t cl
  else
    let page_len := GET_PAGE_LEN size
    if page_len ≤ NUM_PAGE_CLASSES then large_malloc s t page_len
    else huge_malloc s t page_len

/-- `free(ptr)` called by thread `t`. -/
def free (s : State) (t ptr : Nat) : Option State := do
  let s ← (
    if s.cfg.MALLOC_NEED_INIT ∧ (s.thr t).thread_id = 0 then sf_malloc_thread_init s t
    else some s)
  if ptr = 0 then some s else
  let (val, s) ← pagemap_get s t (ptr >>> PAGE_SHIFT)
  if val = 0 then none else
  if val &&& HUGE_MALLOC_MARK ≠ 0 then
    huge_free s t ptr (val - (val &&& HUGE_MALLOC_MARK))
  else
    let pbh := val
    if (s.pbh pbh).sizeclass < NUM_CLASSES then small_free s t ptr pbh
    else large_free s t ptr pbh

/-- `calloc(nmemb, size)` called by thread `t`. -/
def calloc (s : State) (t nmemb size : Nat) : Option (Nat × State) := do
  if nmemb = 0 ∨ size = 0 then some (0, s) else
  let total_size := u64 (nmemb * size)
  let (ret, s) ← malloc s t total_size
  some (ret, if ret ≠ 0 then memset_zero s ret total_size else s)

/-- The size `old_size` that `realloc` finds for the block at `ptr`; the PageMap
lookup may refresh the leaf cache of the thread. -/
def realloc_old_size (s : State) (t ptr : Nat) : Option (Nat × State) := do
  let (val, s) ← pagemap_get s t (ptr >>> PAGE_SHIFT)
  if val &&& HUGE_MALLOC_MARK ≠ 0 then
    some (val - (val &&& HUGE_MALLOC_MARK), s)
  else
    let pbh := val
    if pbh = 0 then none else
    if (s.pbh pbh).sizeclass < NUM_CLASSES then
      let sz ← get_size_for_class (s.pbh pbh).sizeclass
      some (sz, s)
    else some ((s.pbh pbh).length * PAGE_SIZE, s)

/-- `realloc(ptr, size)` called by thread `t`. -/
def realloc (s : State) (t ptr size : Nat) : Option (Nat × State) := do
  -- If ptr is NULL, then the call is equivalent to malloc(size), for all
  -- values of size.
  if ptr = 0 then malloc s t size else
  -- If size is equal to zero, and ptr is not NULL, then the call is
  -- equivalent to free(ptr).
  if size = 0 then (free s t ptr).map fun s => (0, s) else
  let (old_size, s) ← realloc_old_size s t ptr
  -- If size is larger than old_size or size is smaller than the half of
  -- old_size, allocate a new block.
  if size > old_size ∨ size < old_size / 2 then
    let (ret, s) ← malloc s t size
    let s := memcpy s ret ptr (if old_size < size then old_size else size)
    let s ← free s t ptr
    some (ret, s)
  else
    -- Otherwise, return the original pointer.
    some (ptr, s)

/-- The loop of `posix_memalign` that looks for a class whose block size is a
multiple of `alignment`, with `n` classes left. -/
def memalign_class (alignment : Nat) : Nat → Nat → Option Nat
  | 0, cl => some cl
  | n + 1, cl =>
    if cl < NUM_CLASSES then
      (get_size_for_class cl).bind fun sz =>
        if sz &&& sub64 alignment 1 ≠ 0 then memalign_class alignment n (cl + 1) else some cl
    else some cl

/-- The loop `while (((uintptr_t)ret_blk & (alignment - 1)) != 0) ret_blk += PAGE_SIZE`
of `posix_memalign`.  The residues of `ret_blk` repeat after `alignment / PAGE_SIZE`
rounds, so a loop that has not ended by then never ends. -/
def memalign_advance (alignment : Nat) : Nat → Nat → Option Nat
  | 0, ret_blk => if ret_blk &&& sub64 alignment 1 ≠ 0 then none else some ret_blk
  | n + 1, ret_blk =>
    if ret_blk &&& sub64 alignment 1 ≠ 0 then memalign_advance alignment n (u64 (ret_blk + PAGE_SIZE))
    else some ret_blk

/-- `posix_memalign(memptr, alignment, size)` called by thread `t`; the result is
the return value, the pointer stored in `*memptr`, and the state. -/
def posix_memalign (s : State) (t alignment size : Nat) : Option (Nat × Nat × State) := do
  if size = 0 then some (0, 0, s) else
  -- Check if alignment is a power of 2.
  if alignment &&& sub64 alignment 1 ≠ 0 then some (EINVAL, 0, s) else
  -- Fall back to malloc if we would already align properly.
  let a ← get_alignment size
  if alignment ≤ a then
    let (p, s) ← malloc s t size
    if alignment = 0 then none else
    if p % alignment ≠ 0 then none else
    some (0, p, s)
  else
  -- Bigger alignment.
  let r : Option (Option Nat) :=
    if size ≤ MAX_SIZE ∧ alignment < PAGE_SIZE then
      (get_sizeclass size).bind fun cl0 =>
      (memalign_class alignment (NUM_CLASSES - cl0) cl0).bind fun cl =>
      if cl < NUM_CLASSES then (get_size_for_class cl).map some else some none
    else some none
  match ← r with
  | some size1 =>
    let (p, s) ← malloc s t size1
    some (0, p, s)
  | none =>
  -- Use pagelist allocator.
  if alignment ≤ PAGE_SIZE then
    -- size may not huge, but we need page allocation.
    let page_num := GET_PAGE_LEN size
    let (p, s) ← (if page_num ≤ NUM_PAGE_CLASSES then large_malloc s t page_num
                 else huge_malloc s t page_num)
    some (0, p, s)
  else
  -- Allocate extra pages and carve off an aligned portion.
  let alloc_pages := GET_PAGE_LEN (u64 (size + alignment))
  let (new_blk, s) ← huge_malloc s t alloc_pages
  if new_blk = 0 then none else
  let ret_blk ← memalign_advance alignment (alignment >>> PAGE_SHIFT) new_blk
  if ¬ (sub64 ret_blk new_blk >>> PAGE_SHIFT < alloc_pages) then none else
  if ret_blk ≠ new_blk then
    -- We need split.
    let (val, s) ← pagemap_get s t (new_blk >>> PAGE_SHIFT)
    let skip_size := sub64 ret_blk new_blk
    let s ← huge_free s t new_blk skip_size
    let size2 := sub64 (val - (val &&& HUGE_MALLOC_MARK)) skip_size
    let page_id := ret_blk >>> PAGE_SHIFT
    let s ← pagemap_expand s page_id 1
    let s ← pagemap_set s t page_id (size2 ||| HUGE_MALLOC_MARK)
    some (0, ret_blk, s)
  else some (0, ret_blk, s)

/-- `valloc(size)` called by thread `t`, with `sysconf(_SC_PAGESIZE) = PAGE_SIZE`. -/
def valloc (s : State) (t size : Nat) : Option (Nat × State) :=
  (posix_memalign s t PAGE_SIZE size).bind fun (ret, free_blk, s) =>
    if ret ≠ 0 then none else some (free_blk, s)

/-- `memalign(boundary, size)` called by thread `t`. -/
def memalign (s : State) (t boundary size : Nat) : Option (Nat × State) :=
  (posix_memalign s t boundary size).bind fun (ret, free_blk, s) =>
    if ret ≠ 0 then none else some (free_blk, s)

/-! ## A concrete process, for evaluating the code -/

/-- An operating system that grants every request: the `k`-th `mmap` call returns
the page-aligned address `0x10001000 + k * 0x1000000`. -/
def os_linear (k _size : Nat) : Option Nat := some (0x10001000 + 0x1000000 * k)

/-- The process right after its main thread, thread `0`, has run `sf_malloc_init`,
under the operating system `os_linear`. -/
def started (cfg : Config) : Option State := sf_malloc_init (State.boot cfg os_linear) 0

/-- The pointer and the state after `malloc(100)` by thread `0` in the started
process, without any cache configured. -/
def warm_heap : Nat × State :=
  ((started ⟨true, false, false⟩).bind fun s => malloc s 0 100).getD
    (0, State.boot ⟨true, false, false⟩ os_linear)

/-! ## What the heap functions leave alone -/

/-- The part of the process that only initialization writes: the configuration,
`g_initialized`, and the `thread_id` of every thread. -/
def frame (s s' : State) : Prop :=
  s'.cfg = s.cfg ∧ s'.g_initialized = s.g_initialized ∧
    ∀ t, (s'.thr t).thread_id = (s.thr t).thread_id

/-- Every result of a run from `s` leaves the frame of `s` alone. -/
def Keeps {α : Type} (s : State) (x : Option (α × State)) : Prop :=
  ∀ r, x = some r → frame s r.2

/-- Every final state of a run from `s` leaves the frame of `s` alone. -/
def KeepsS (s : State) (x : Option State) : Prop :=
  ∀ s', x = some s' → frame s s'

/-- The second of two blocks of 32768 bytes obtained by thread `0` in the started
process, and the state after the first one has been freed: the free block list of
class 59 then holds one block, which is its threshold. -/
def flush_heap : Nat × State :=
  ((started ⟨true, false, false⟩).bind fun s =>
    (malloc s 0 32768).bind fun r1 =>
    (malloc r1.2 0 32768).bind fun r2 =>
    (free r2.2 0 r1.1).map fun s3 => (r2.1, s3)).getD
    (0, State.boot ⟨true, false, false⟩ os_linear)

/-! ## Observations of a `malloc` that is followed by the `free` of its block -/

/-- The statements `p = malloc(size); free(p);` run by thread `t`: the pointer and the
state they leave. -/
def round_trip (s : State) (t size : Nat) : Option (Nat × State) :=
  (malloc s t size).bind fun r => (free r.2 t r.1).map fun s2 => (r.1, s2)

/-- The free page block lists of thread `t` that are not empty: index and first header. -/
def free_pb_heads (s : State) (t : Nat) : List (Nat × Nat) :=
  ((List.range NUM_PAGE_CLASSES).map fun c => (c, (s.thr t).free_pb_list c)).filter
    fun x => x.2 ≠ 0

/-- What is compared before and after: the PageMap entry of page `pg`, the first block
and the length of the free block list of class `cl`, the free page block lists, and
the first owned superpage. -/
def heap_shape (s : State) (t pg cl : Nat) : Nat × (Nat × Nat) × List (Nat × Nat) × Nat :=
  (pagemap_get_checked s pg,
    (((s.thr t).blk_list cl).free_blk_list, ((s.thr t).blk_list cl).cnt_free),
    free_pb_heads s t, (s.thr t).sp_list)

/-- The block that `malloc(8)` gives thread `0` in the started process, and the state
after this block has been freed. -/
def steady_heap : Nat × State :=
  ((started ⟨true, false, false⟩).bind fun s => round_trip s 0 8).getD
    (0, State.boot ⟨true, false, false⟩ os_linear)

/-! ## Auxiliary predicates on the PageMap -/

/-- The three levels of the PageMap exist for page `pg`: the assertions of
`pagemap_get` and `pagemap_set` without the leaf cache. -/
def pm_has (s : State) (pg : Nat) : Prop :=
  pg >>> PMAP_BITS = 0 ∧ s.pm_node (pg >>> (PMAP_LEAF_BIT + PMAP_INTERIOR_BIT)) ≠ 0 ∧
    s.pm_leaf (s.pm_node (pg >>> (PMAP_LEAF_BIT + PMAP_INTERIOR_BIT)))
      ((pg >>> PMAP_LEAF_BIT) &&& (PMAP_INTERIOR_LEN - 1)) ≠ 0

/-- Thread `t` can read and write the PageMap entry of page `pg`: either its leaf
cache holds a leaf for the tag of `pg`, or the three levels exist. -/
def pm_ready (s : State) (t pg : Nat) : Prop :=
  if s.cfg.MALLOC_USE_PAGEMAP_CACHE = true ∧ (s.thr t).l_pagemap_tag = pg >>> PMAP_LEAF_BIT then
    (s.thr t).l_pagemap_leaf ≠ 0
  else pm_has s pg

/-! ## The alignment rule in the words of the specification -/

/-- The alignment that the specification gives for a request of `s` bytes: 8 below 16,
16 up to 127, the power of two `2^⌊log₂ s⌋ / 8` up to 2047, 256 up to `MAX_SIZE`, and
the page size above. -/
def alignment_rule (s : Nat) : Nat :=
  if s < 16 then 8
  else if s ≤ 127 then 16
  else if s ≤ 2047 then 2 ^ Nat.log 2 s / 8
  else if s ≤ MAX_SIZE then 256
  else PAGE_SIZE

/-! ## The sweep of a superpage at thread exit -/

/-- The loop of `try_to_free_superpage` run by thread `t`:
`while (total_len < SUPERPAGE_LEN)`, with the loop variables `pbh`, `prev_pbh`,
`cnt_inuse` and `total_len`; the result is the state, `cnt_inuse` and `total_len`.
Every round adds a positive `len` to `total_len`, so that `SUPERPAGE_LEN` rounds are
never exceeded. -/
def try_to_free_superpage_loop (t : Nat) :
    Nat → State → Nat → Nat → Nat → Nat → Option (State × Nat × Nat)
  | 0, s, _, _, cnt_inuse, total_len =>
    if total_len < SUPERPAGE_LEN then none else some (s, cnt_inuse, total_len)
  | fuel + 1, s, pbh, prev_pbh, cnt_inuse, total_len =>
    if ¬ total_len < SUPERPAGE_LEN then some (s, cnt_inuse, total_len) else
    let len := (s.pbh pbh).length
    if ¬ len > 0 then none else
    let total_len := u32 (total_len + len)
    if (s.pbh pbh).status ≠ PBH_ON_FREE_LIST ∧ (s.pbh pbh).sizeclass < NUM_CLASSES then
      let count := u32 ((s.pbh pbh).cnt_free + (s.pbh pbh).cnt_unused + (s.pbh pbh).remote_cnt)
      (get_blocks_for_class (s.pbh pbh).sizeclass).bind fun blocks =>
      if count = blocks then
        -- PBH became totally free.
        let s := pbh_field_init s pbh
        -- Try coalescing.
        let next_pbh := if total_len < SUPERPAGE_LEN then pbh + PBH_SIZE * len else 0
        if prev_pbh ≠ 0 ∧ (s.pbh prev_pbh).status = PBH_ON_FREE_LIST then
          (pagemap_set_range s t (s.pbh pbh).start_page len prev_pbh).bind fun s =>
          let s := pbh_add_length s prev_pbh len
          if next_pbh ≠ 0 ∧ (s.pbh next_pbh).status = PBH_ON_FREE_LIST then
            let next_len := (s.pbh next_pbh).length
            let s := pbh_add_length s prev_pbh next_len
            (pagemap_set_range s t (s.pbh next_pbh).start_page next_len prev_pbh).bind fun s =>
            try_to_free_superpage_loop t fuel s (next_pbh + PBH_SIZE * next_len) prev_pbh
              cnt_inuse (u32 (total_len + next_len))
          else
            try_to_free_superpage_loop t fuel s (pbh + PBH_SIZE * len) prev_pbh cnt_inuse
              total_len
        else if next_pbh ≠ 0 ∧ (s.pbh next_pbh).status = PBH_ON_FREE_LIST then
          let next_len := (s.pbh next_pbh).length
          let s := pbh_add_length s pbh next_len
          (pagemap_set_range s t (s.pbh next_pbh).start_page next_len pbh).bind fun s =>
          try_to_free_superpage_loop t fuel s (next_pbh + PBH_SIZE * next_len) pbh
            cnt_inuse (u32 (total_len + next_len))
        else
          -- next pbh
          try_to_free_superpage_loop t fuel s (pbh + PBH_SIZE * len) pbh cnt_inuse total_len
      else
        try_to_free_superpage_loop t fuel s (pbh + PBH_SIZE * len) pbh (u32 (cnt_inuse + 1))
          total_len
    else
      -- next pbh
      try_to_free_superpage_loop t fuel s (pbh + PBH_SIZE * len) pbh cnt_inuse total_len

/-- `try_to_free_superpage(sph)` run by thread `t`. -/
def try_to_free_superpage (s : State) (t sph : Nat) : Option (Bool × State) :=
  let r : Option State :=
    if (s.sph sph).remote_pb_list ≠ 0 then sph_get_remote_pbs s t sph else some s
  r.bind fun s =>
  (try_to_free_superpage_loop t SUPERPAGE_LEN s (sph + PBH_SIZE) 0 0 0).bind
    fun (s, cnt_inuse, total_len) =>
  if total_len ≠ SUPERPAGE_LEN then none else
  if cnt_inuse = 0 then
    -- Superpage became totall free.
    let s := set_sph s sph { s.sph sph with hazard_mark := 1 }
    -- Link the superpage to g_free_sp_list
    let s := set_g_free_sp_len s (u32 (s.g_free_sp_len + 1))
    let s := set_sph s sph { s.sph sph with next := s.g_free_sp_list }
    let s := set_g_free_sp_list s sph
    -- Update pagemap.
    (pagemap_set_range s t (s.sph sph).start_page SUPERPAGE_LEN 0).map fun s => (true, s)
  else some (false, s)

/-- The block that `malloc(40000)` gives thread `0` in the started process, and the
state after the call. -/
def large_heap : Nat × State :=
  ((started ⟨true, false, false⟩).bind fun s => malloc s 0 40000).getD
    (0, State.boot ⟨true, false, false⟩ os_linear)

/-! ## Auxiliary definitions for the release of a superpage -/

/-- Thread-local data without the leaf cache of the PageMap. -/
def clear_cache (x : tlh_t) : tlh_t := { x with l_pagemap_tag := 0, l_pagemap_leaf := 0 }

/-- The state without the values of the PageMap leaves and without the leaf caches
of the threads: what `pagemap_get` and `pagemap_set` never change. -/
def no_pm (s : State) : State :=
  { s with pm_val := fun _ _ => 0, thr := fun t => clear_cache (s.thr t) }

/-- The state after `malloc(40000)` by thread `0`, changed in two places: the hazard
record of the thread names the superpage of the block, and `g_free_sp_len` is `2`,
the threshold `2 * g_thread_num` of the free superpage list. -/
def hazard_heap : State :=
  set_g_free_sp_len (set_hptr large_heap.2 (large_heap.2.thr 0).hazard_ptr
    { large_heap.2.hptr (large_heap.2.thr 0).hazard_ptr with node := 0x11001000 }) 2

/-- The state `hazard_heap` with the `hazard_mark` of the superpage set. -/
def hazard_heap_marked : State :=
  set_sph hazard_heap 0x11001000 { hazard_heap.sph 0x11001000 with hazard_mark := 1 }

/-! ## Fixtures for the remote free of a small block -/

/-- `n` calls of `malloc(size)` by thread `t`; the pointers are listed in the order of
the calls. -/
def malloc_many (t size : Nat) : Nat → State → Option (List Nat × State)
  | 0, s => some ([], s)
  | n + 1, s =>
    (malloc s t size).bind fun r =>
      (malloc_many t size n r.2).map fun q => (r.1 :: q.1, q.2)

/-- Thread `0` has taken the 36 blocks of a page block of class 7 (112 bytes) with 36
calls of `malloc(100)`, and thread `1` has been initialised: the first of the blocks
and the state. -/
def remote_heap : Nat × State :=
  ((started ⟨true, false, false⟩).bind fun s =>
    (malloc_many 0 100 36 s).bind fun r =>
      (sf_malloc_thread_init r.2 1).map fun s1 => (r.1.headD 0, s1)).getD
    (0, State.boot ⟨true, false, false⟩ os_linear)

/-- The block that `malloc(128)` gives thread `0` in the started process, and the
state after thread `1` has freed it. -/
def cross_freed_128 : Nat × State :=
  ((started ⟨true, false, false⟩).bind fun s =>
    (malloc s 0 128).bind fun r => (free r.2 1 r.1).map fun s2 => (r.1, s2)).getD
    (0, State.boot ⟨true, false, false⟩ os_linear)

/-! ## Auxiliary predicates: a well-formed PageMap -/

/-- The leaf of the PageMap tree that holds the entry of page `pg`. -/
def pm_leaf_of (s : State) (pg : Nat) : Nat :=
  s.pm_leaf (s.pm_node (pg >>> (PMAP_LEAF_BIT + PMAP_INTERIOR_BIT)))
    ((pg >>> PMAP_LEAF_BIT) &&& (PMAP_INTERIOR_LEN - 1))

/-- Pages of different leaf tags have different leaves. -/
def pm_inj (s : State) : Prop :=
  ∀ pg pg', pm_has s pg → pm_has s pg' → pm_leaf_of s pg = pm_leaf_of s pg' →
    pg >>> PMAP_LEAF_BIT = pg' >>> PMAP_LEAF_BIT

/-- With `MALLOC_USE_PAGEMAP_CACHE`, the leaf cache of thread `t` holds the leaf of
the tree for its tag. -/
def cache_ok (s : State) (t : Nat) : Prop :=
  s.cfg.MALLOC_USE_PAGEMAP_CACHE = true →
    (s.thr t).l_pagemap_leaf =
      s.pm_leaf (s.pm_node ((s.thr t).l_pagemap_tag >>> PMAP_INTERIOR_BIT))
        ((s.thr t).l_pagemap_tag &&& (PMAP_INTERIOR_LEN - 1))

/-! ## Auxiliary definitions: what the list operations leave alone -/

/-- A page block header without its list links. -/
def pbh_data (h : pbh_t) : pbh_t := { h with next := 0, prev := 0 }

/-- Thread-local data with the heads of the page block lists cleared. -/
def tlh_nolists (x : tlh_t) : tlh_t :=
  { x with
    free_pb_list := fun _ => 0,
    blk_list := fun cl => { x.blk_list cl with pbh_list := 0 } }

/-- The state without the links of the page block lists: what `pbh_list_prepend`,
`pbh_list_pop` and the other list functions never change. -/
def no_links (s : State) : State :=
  { s with pbh := fun a => pbh_data (s.pbh a), thr := fun t => tlh_nolists (s.thr t) }

/-! ## Fixture: a page block of 8 pages carved from a fresh superpage -/

/-- The header that `pb_alloc(tlh, 8)` returns to thread `0` in the started process,
and the state after the call. -/
def carved_heap : Nat × State :=
  ((started ⟨true, false, false⟩).bind fun s => pb_alloc s 0 8).getD
    (0, State.boot ⟨true, false, false⟩ os_linear)

/-! ## Auxiliary predicates: the layout of a superpage

A superpage is a header page followed by `SUPERPAGE_LEN` data pages. The header
page holds the superpage header and, from byte `PBH_SIZE` on, one slot of `PBH_SIZE`
bytes per data page; the header of a page block sits in the slot of its first
page. -/

/-- The header `h` is a page block of the superpage `sph`: its pages lie in the
superpage, it sits in the slot of its first page, `index` is the number of that
slot, and the PageMap entry of every one of its pages is `h`. -/
def hdr_ok (s : State) (sph h : Nat) : Prop :=
  (s.sph sph).start_page ≤ (s.pbh h).start_page ∧
  1 ≤ (s.pbh h).length ∧
  (s.pbh h).start_page + (s.pbh h).length ≤ (s.sph sph).start_page + SUPERPAGE_LEN ∧
  (s.pbh h).index = (s.pbh h).start_page - (s.sph sph).start_page + 1 ∧
  h = sph + PBH_SIZE * (s.pbh h).index ∧
  ∀ i, i < (s.pbh h).length → pagemap_get_checked s ((s.pbh h).start_page + i) = h

/-- The page blocks of the superpage `sph` tile its `SUPERPAGE_LEN` pages: the
PageMap entry of every page is a page block of the superpage that holds the page.
The entries of the header page and of the page after the superpage name no page
block. -/
def sp_inv (s : State) (sph : Nat) : Prop :=
  sph % 2 = 0 ∧ 1 ≤ (s.sph sph).start_page ∧
  (s.sph sph).start_page + SUPERPAGE_LEN < 2 ^ PMAP_BITS ∧
  sph + PBH_SIZE * (SUPERPAGE_LEN + 1) < 2 ^ 64 ∧
  pagemap_get_checked s ((s.sph sph).start_page - 1) = 0 ∧
  (pagemap_get_checked s ((s.sph sph).start_page + SUPERPAGE_LEN) = 0 ∨
    pagemap_get_checked s ((s.sph sph).start_page + SUPERPAGE_LEN) &&& HUGE_MALLOC_MARK ≠ 0) ∧
  ∀ o, o < SUPERPAGE_LEN →
    hdr_ok s sph (pagemap_get_checked s ((s.sph sph).start_page + o)) ∧
    (s.pbh (pagemap_get_checked s ((s.sph sph).start_page + o))).start_page ≤
      (s.sph sph).start_page + o ∧
    (s.sph sph).start_page + o <
      (s.pbh (pagemap_get_checked s ((s.sph sph).start_page + o))).start_page +
        (s.pbh (pagemap_get_checked s ((s.sph sph).start_page + o))).length

/-- From `s` to `s'` no page block header but `M` has changed its length, and no
header has changed its first page, its slot number or its status; the superpage
headers, the tree of the PageMap and the configuration are the same, and the leaf
cache of thread `t` is still sound if it was. -/
def hdr_step (s s' : State) (t M : Nat) : Prop :=
  (∀ x, (s'.pbh x).start_page = (s.pbh x).start_page ∧ (s'.pbh x).index = (s.pbh x).index ∧
    (s'.pbh x).status = (s.pbh x).status ∧ (x ≠ M → (s'.pbh x).length = (s.pbh x).length)) ∧
  s'.sph = s.sph ∧ s'.pm_node = s.pm_node ∧ s'.pm_leaf = s.pm_leaf ∧ s'.cfg = s.cfg ∧
  (cache_ok s t → cache_ok s' t)

/-- From `s` to `s1` the page block `M` of the superpage `sph` has absorbed the `l2`
pages after it: `M` is `X` or a free page block before `X`; the absorbed pages are
those of `X` and of whole free page blocks; only the length of `M` has changed
among the layout fields of all headers; the PageMap entries of the absorbed pages
name `M`, unless `M` now spans the whole superpage, in which case the PageMap is as
before. -/
def coalesced (s s1 : State) (t sph X M l2 : Nat) : Prop :=
  hdr_ok s sph M ∧
  (s.pbh M).start_page + (s.pbh M).length + l2 ≤ (s.sph sph).start_page + SUPERPAGE_LEN ∧
  (s.pbh M).start_page ≤ (s.pbh X).start_page ∧
  (s.pbh X).start_page + (s.pbh X).length ≤ (s.pbh M).start_page + (s.pbh M).length + l2 ∧
  (M = X ∨ (s.pbh M).status = PBH_ON_FREE_LIST) ∧
  (∀ r, (s.pbh M).start_page + (s.pbh M).length ≤ r →
    r < (s.pbh M).start_page + (s.pbh M).length + l2 →
    ((s.pbh M).start_page + (s.pbh M).length ≤ (s.pbh (pagemap_get_checked s r)).start_page ∧
      (s.pbh (pagemap_get_checked s r)).start_page +
        (s.pbh (pagemap_get_checked s r)).length ≤
        (s.pbh M).start_page + (s.pbh M).length + l2) ∧
    (pagemap_get_checked s r = X ∨
      (s.pbh (pagemap_get_checked s r)).status = PBH_ON_FREE_LIST)) ∧
  hdr_step s s1 t M ∧ (s1.pbh M).length = (s.pbh M).length + l2 ∧ cache_ok s1 t ∧
  ∀ q, pagemap_get_checked s1 q =
    if (s.pbh M).length + l2 ≠ SUPERPAGE_LEN ∧ (s.pbh M).start_page + (s.pbh M).length ≤ q ∧
      q < (s.pbh M).start_page + (s.pbh M).length + l2 then M
    else pagemap_get_checked s q

/-- The walk over the headers of a superpage: from the header `pbh`, reached with
`total` pages counted, every header visited has a positive length and the slot
number `total + 1`, the next header is `length` slots further, and the count ends
at exactly `SUPERPAGE_LEN`. The first argument bounds the number of headers. -/
def walk_ok (s : State) : Nat → Nat → Nat → Prop
  | 0, _, total => total = SUPERPAGE_LEN
  | fuel + 1, pbh, total =>
    total = SUPERPAGE_LEN ∨
    (total < SUPERPAGE_LEN ∧ 0 < (s.pbh pbh).length ∧ (s.pbh pbh).index = total + 1 ∧
      total + (s.pbh pbh).length ≤ SUPERPAGE_LEN ∧
      walk_ok s fuel (pbh + PBH_SIZE * (s.pbh pbh).length) (total + (s.pbh pbh).length))

/-- From `s` to `s'` no page block header has changed its first page, its length or
its slot number, no superpage has changed its first page, and the PageMap is the
same. -/
def same_layout (s s' : State) : Prop :=
  (∀ x, (s'.pbh x).start_page = (s.pbh x).start_page ∧ (s'.pbh x).length = (s.pbh x).length ∧
    (s'.pbh x).index = (s.pbh x).index) ∧
  (∀ x, (s'.sph x).start_page = (s.sph x).start_page) ∧
  s'.pm_node = s.pm_node ∧ s'.pm_leaf = s.pm_leaf ∧ s'.pm_val = s.pm_val

/-- The state `s1` of the sweep of `try_to_free_superpage` over a superpage that was
in state `s`, with the headers before slot `k + 1` visited: no header has changed
its first page, the headers from slot `k + 1` on have kept their length, the tree
of the PageMap is the same, the leaf cache of thread `t` is sound, and `prev` lies
before slot `k + 1`. -/
def sweep_inv (s s1 : State) (t sph k prev : Nat) : Prop :=
  (∀ x, (s1.pbh x).start_page = (s.pbh x).start_page) ∧
  (∀ x, sph + PBH_SIZE * (k + 1) ≤ x → (s1.pbh x).length = (s.pbh x).length) ∧
  s1.pm_node = s.pm_node ∧ s1.pm_leaf = s.pm_leaf ∧ cache_ok s1 t ∧
  prev < sph + PBH_SIZE * (k + 1)

/-! ## Auxiliary definitions for the table facts -/

/-- The check done on entry `c` at index `i` of `class_array`: no class below `c`
has a block that holds the smallest request size that `get_classindex` sends to
`i`. -/
def tight_ok (i c : Nat) : Bool :=
  c == 0 ||
    (match class_to_size[c - 1]? with
     | none => false
     | some sz => if i ≤ 128 then decide (sz + 8 ≤ 8 * i) else decide (sz + 15488 ≤ 128 * i))

/-- The check done on entry `sz` at index `i` of `class_to_size`: the next entry, if
there is one, is larger. -/
def incr_ok (i sz : Nat) : Bool :=
  match class_to_size[i + 1]? with
  | none => true
  | some n => decide (sz < n)

/-- The check done on the class `cl` of the three tables of `sizemap_init`. -/
def class_ok (cl : Nat) : Bool :=
  match class_to_size[cl]?, class_to_pages[cl]?, num_blocks_per_pbh[cl]? with
  | some sz, some pg, some nb =>
    decide (nb = pg * PAGE_SIZE / sz) && decide (1 ≤ nb) && decide (1 ≤ pg) && decide (pg ≤ 13) &&
      decide (0 < sz)
  | _, _, _ => false

/-- The state of the pseudo-LRU tree after a touch of way `w` in state `st`:
`(state & g_way_table[w].mask) | g_way_table[w].set_bit`. -/
def lru_touch (st w : Nat) : Option Nat :=
  (g_way_table[w]?).map fun e => (st &&& e.1) ||| e.2

/-- The check done on the state `st` and the way `w` of the pseudo-LRU tables: the
state after a touch of `w` is below 128 and its victim is a way below 8 other
than `w`. -/
def lru_ok (st w : Nat) : Bool :=
  match g_way_table.get? w with
  | none => false
  | some (m, b) =>
    decide ((st &&& m) ||| b < 128) &&
    (match g_lru_table.get? ((st &&& m) ||| b) with
     | none => false
     | some v => decide (v < 8) && decide (v ≠ w))

/-! ## Auxiliary definitions: the PageMap with and without the leaf cache -/

/-- The leaf cache of thread `t` is in its initial state, tag `0xFFFFFFFFFFFFFFFF`,
or holds the leaf of the tree for its tag, as a load by `pagemap_get` or
`pagemap_set` leaves it. -/
def cache_sound (s : State) (t : Nat) : Prop :=
  (s.thr t).l_pagemap_tag = 0xFFFFFFFFFFFFFFFF ∨
  (s.thr t).l_pagemap_leaf =
    s.pm_leaf (s.pm_node ((s.thr t).l_pagemap_tag >>> PMAP_INTERIOR_BIT))
      ((s.thr t).l_pagemap_tag &&& (PMAP_INTERIOR_LEN - 1))

/-- Two states with the same PageMap tree: nodes, leaves and entries. -/
def same_tree (s s' : State) : Prop :=
  s'.pm_node = s.pm_node ∧ s'.pm_leaf = s.pm_leaf ∧ s'.pm_val = s.pm_val

/-- A call of `pagemap_get` or `pagemap_set`. -/
inductive pm_op where
  | get (page_id : Nat)
  | set (page_id val : Nat)

/-- The page of a call. -/
def pm_op.page : pm_op → Nat
  | .get pg => pg
  | .set pg _ => pg

/-- A sequence of calls of `pagemap_get` and `pagemap_set` by thread `t`; the result
is the list of the values read and the final state. -/
def pm_run (t : Nat) : List pm_op → State → Option (List Nat × State)
  | [], s => some ([], s)
  | .get pg :: ops, s =>
    (pagemap_get s t pg).bind fun r => (pm_run t ops r.2).map fun q => (r.1 :: q.1, q.2)
  | .set pg v :: ops, s => (pagemap_set s t pg v).bind fun s1 => pm_run t ops s1

/-- The state of `warm_heap` with `MALLOC_USE_PAGEMAP_CACHE` configured. -/
def cached_heap : State :=
  { warm_heap.2 with cfg := ⟨true, true, false⟩ }

/-- Thread `0` of the started process allocates three large blocks of 40000 bytes
(10 pages each) and frees the first; thread `1` then frees the second, which
`pb_remote_free` pushes on the remote page block list of the superpage of thread
`0`. The value is the second block and the state at this point. -/
def remote_pb_heap : Nat × State :=
  ((started ⟨true, false, false⟩).bind fun s =>
    (malloc s 0 40000).bind fun r1 =>
    (malloc r1.2 0 40000).bind fun r2 =>
    (malloc r2.2 0 40000).bind fun r3 =>
    (free r3.2 0 r1.1).bind fun s4 =>
    (sf_malloc_thread_init s4 1).bind fun s5 =>
    (free s5 1 r2.1).map fun s6 => (r2.1, s6)).getD
    (0, State.boot ⟨true, false, false⟩ os_linear)

/-- The state of `remote_pb_heap` after thread `0` has allocated 60 pages, which no
free page block of its heap holds, so that `pb_alloc` runs `sph_get_remote_pbs`
on its superpage; the value is the block and the state. -/
def drained_pb_heap : Nat × State :=
  (malloc remote_pb_heap.2 0 (60 * PAGE_SIZE)).getD
    (0, State.boot ⟨true, false, false⟩ os_linear)

/-! ## Auxiliary definitions: the free neighbours of a page block -/

/-- The page block before `pbh`, as `pb_coalesce` looks it up:
`pagemap_get_checked(pbh->start_page - 1)`. -/
def pb_prev (s : State) (pbh : Nat) : Nat :=
  pagemap_get_checked s (sub64 (s.pbh pbh).start_page 1)

/-- The page block after `pbh`, as `pb_coalesce` looks it up:
`pagemap_get_checked(pbh->start_page + pbh->length)`, or `NULL` when the entry is
tagged. -/
def pb_next (s : State) (pbh : Nat) : Nat :=
  if pagemap_get_checked s (u64 ((s.pbh pbh).start_page + (s.pbh pbh).length)) &&&
    HUGE_MALLOC_MARK ≠ 0 then 0
  else pagemap_get_checked s (u64 ((s.pbh pbh).start_page + (s.pbh pbh).length))

/-- The page block `h` exists and has status `ON_FREE_LIST`. -/
def is_free_pb (s : State) (h : Nat) : Prop := h ≠ 0 ∧ (s.pbh h).status = PBH_ON_FREE_LIST

instance (s : State) (h : Nat) : Decidable (is_free_pb s h) := by
  unfold is_free_pb
  exact inferInstance

/-- The header that holds the merged page block: the page block before `pbh` when
it is free, and `pbh` otherwise. -/
def merged_hdr (s : State) (pbh : Nat) : Nat :=
  if is_free_pb s (pb_prev s pbh) then pb_prev s pbh else pbh

/-- The length of `pbh` together with its free neighbours. -/
def merged_len (s : State) (pbh : Nat) : Nat :=
  (if is_free_pb s (pb_prev s pbh) then (s.pbh (pb_prev s pbh)).length else 0) +
    (s.pbh pbh).length +
    (if is_free_pb s (pb_next s pbh) then (s.pbh (pb_next s pbh)).length else 0)

/-! ## Auxiliary definitions: the adoption of a superpage, page block by page block -/

/-- What the adoption does with one page block: a page block with status
`ON_FREE_LIST` is pushed on `free_pb_list[length - 1]`; a page block of a small
class whose free, unused and remotely freed blocks make up the capacity of the
class (a sum of `uint32_t`) is reset by `pbh_field_init` and pushed on
`free_pb_list[length - 1]`; a page block of a small class that is partially used is
pushed on `blk_list[sizeclass].pbh_list`; a large page block in use is left as it
is. -/
def adopt_pbh (s : State) (t pbh : Nat) : Option State :=
  if (s.pbh pbh).status = PBH_ON_FREE_LIST then
    pbh_list_prepend s t (.free_pb ((s.pbh pbh).length - 1)) pbh
  else if (s.pbh pbh).sizeclass < NUM_CLASSES then
    (get_blocks_for_class (s.pbh pbh).sizeclass).bind fun capacity =>
      if u32 ((s.pbh pbh).cnt_free + (s.pbh pbh).cnt_unused + (s.pbh pbh).remote_cnt) = capacity
      then pbh_list_prepend (pbh_field_init s pbh) t (.free_pb ((s.pbh pbh).length - 1)) pbh
      else pbh_list_prepend s t (.blk (s.pbh pbh).sizeclass) pbh
  else some s

/-- The headers that the walk over a superpage visits in state `s`: from the header
`pbh`, reached with `total` pages counted, each header is `length` slots after the
one before, until `SUPERPAGE_LEN` pages are counted. The first argument bounds the
number of headers. -/
def superpage_headers (s : State) : Nat → Nat → Nat → List Nat
  | 0, _, _ => []
  | fuel + 1, pbh, total =>
    if total < SUPERPAGE_LEN then
      pbh :: superpage_headers s fuel (pbh + PBH_SIZE * (s.pbh pbh).length)
        (total + (s.pbh pbh).length)
    else []

/-- The adoption of the page blocks of a list, one after the other. -/
def adopt_all (t : Nat) : List Nat → State → Option State
  | [], s => some s
  | h :: hs, s => (adopt_pbh s t h).bind (adopt_all t hs)

/-- The adoption of the superpage `sph` by thread `t` as the specification words it:
nothing happens unless the owner is `DEAD_OWNER`; otherwise the thread becomes the
owner, every page block of the superpage is adopted, and the superpage is put in
front of the superpage list of the thread. -/
def take_superpage_spec (s : State) (t sph : Nat) : Option (Bool × State) :=
  if (s.sph sph).owner_id ≠ DEAD_OWNER then some (false, s) else
  (adopt_all t (superpage_headers s SUPERPAGE_LEN (sph + PBH_SIZE) 0)
    (set_sph s sph { s.sph sph with owner_id := (s.thr t).thread_id })).map
    fun s2 => (true, sph_list_prepend s2 t sph)

/-- The state of `carved_heap` with the superpage `0x11001000` left behind by its
owner: `owner_id` is `DEAD_OWNER`. -/
def orphan_heap : State :=
  set_sph carved_heap.2 0x11001000
    { carved_heap.2.sph 0x11001000 with owner_id := DEAD_OWNER }

/-! ## Auxiliary predicate: a superpage fresh from `sph_alloc` -/

/-- The call `pb_alloc(tlh, n)` of thread `t` in state `s` carves a fresh superpage:
`n` is a length from 1 to 62, no free page block list of the thread has a page block
of `n` pages or more, the first superpage of the thread has no remote page block,
`sph_alloc` returns the superpage `sph` in state `s0`, at an even address, with its
63 pages registered in the PageMap tree, and the PageMap entries of the header page
and of the page after the superpage name no page block. -/
def fresh_carve (s s0 : State) (t n sph : Nat) : Prop :=
  1 ≤ n ∧ n ≤ NUM_PAGE_CLASSES ∧
  (∀ c, n - 1 ≤ c → c < NUM_PAGE_CLASSES → (s.thr t).free_pb_list c = 0) ∧
  ¬ ((s.thr t).sp_list ≠ 0 ∧ (s.sph (s.thr t).sp_list).remote_pb_list ≠ 0) ∧
  sph_alloc s t = some (sph, s0) ∧
  sph % 2 = 0 ∧ 1 ≤ (s0.sph sph).start_page ∧
  (s0.sph sph).start_page + SUPERPAGE_LEN < 2 ^ PMAP_BITS ∧
  sph + PBH_SIZE * (SUPERPAGE_LEN + 1) < 2 ^ 64 ∧
  pagemap_get_checked s0 ((s0.sph sph).start_page - 1) = 0 ∧
  (pagemap_get_checked s0 ((s0.sph sph).start_page + SUPERPAGE_LEN) = 0 ∨
    pagemap_get_checked s0 ((s0.sph sph).start_page + SUPERPAGE_LEN) &&& HUGE_MALLOC_MARK ≠ 0) ∧
  (∀ i, i < SUPERPAGE_LEN → pm_has s0 ((s0.sph sph).start_page + i)) ∧
  cache_ok s0 t ∧ pm_inj s0

/-- The started process, with no cache configured. -/
def started_heap : State :=
  (started ⟨true, false, false⟩).getD (State.boot ⟨true, false, false⟩ os_linear)

/-- The superpage that `sph_alloc` gives thread `0` in the started process, and the
state after the call. -/
def fresh_heap : Nat × State :=
  (sph_alloc started_heap 0).getD (0, State.boot ⟨true, false, false⟩ os_linear)

/-! ## Fixture: a block with known contents -/

/-- The state of `warm_heap` after the program has written the bytes `1, 2, ..., 100`
into its block of 100 bytes at `0x11002000`. -/
def written_heap : State :=
  { warm_heap.2 with mem := fun a =>
      if 0x11002000 ≤ a ∧ a < 0x11002000 + 100 then Fin.ofNat (a - 0x11002000 + 1)
      else warm_heap.2.mem a }

/-! ## Auxiliary predicate: where `malloc` takes its blocks from -/

/-- The places from which a `malloc` of thread `t` takes a block without computing
its address hold addresses of blocks. A block of a class with block size `sz` lies a
multiple of `sz` bytes after the start of a page, so its address is a multiple of
`gcd(sz, PAGE_SIZE)`: this is required of the first block of the free block list of
every class, of its pointer to the unused blocks, and of the free list and the
unallocated chunk of the first page block on its page block list. A page block
kept in the page block cache starts at a page. -/
def blocks_aligned (s : State) (t : Nat) : Prop :=
  (∀ cl, cl < NUM_CLASSES →
    Nat.gcd ((get_size_for_class cl).getD 0) PAGE_SIZE ∣ ((s.thr t).blk_list cl).free_blk_list ∧
    Nat.gcd ((get_size_for_class cl).getD 0) PAGE_SIZE ∣ ((s.thr t).blk_list cl).ptr_to_unused ∧
    Nat.gcd ((get_size_for_class cl).getD 0) PAGE_SIZE ∣
      (s.pbh ((s.thr t).blk_list cl).pbh_list).free_list ∧
    Nat.gcd ((get_size_for_class cl).getD 0) PAGE_SIZE ∣
      (s.pbh ((s.thr t).blk_list cl).pbh_list).unallocated) ∧
  ∀ pos, pos < NUM_PB_CACHE_WAY → PAGE_SIZE ∣ ((s.thr t).pb_cache.block pos).data

/-! ## Auxiliary predicate: the thread-local data outside the page block lists -/

/-- The thread-local data `x` agrees with `y` on the free block list and its count
for every class, on the superpage list and on the thread id. -/
def tlh_same (x y : tlh_t) : Prop :=
  (∀ cl, (x.blk_list cl).free_blk_list = (y.blk_list cl).free_blk_list ∧
    (x.blk_list cl).cnt_free = (y.blk_list cl).cnt_free) ∧
  x.sp_list = y.sp_list ∧ x.thread_id = y.thread_id

/-! ## Fixture: a page block kept in the page block cache -/

/-- The block that `malloc(32769)` gives thread `0` in the started process with the
page block cache, and the state after this block has been freed. -/
def pb_cached_heap : Nat × State :=
  ((started ⟨true, false, true⟩).bind fun s => round_trip s 0 32769).getD
    (0, State.boot ⟨true, false, true⟩ os_linear)

/-! # Theorems -/

/-! ## Size-class facts -/

theorem check_table_get (p : Nat → Nat → Bool) :
    ∀ (l : List Nat) (k : Nat), check_table p l k = true →
      ∀ (j c : Nat), l[j]? = some c → p (k + j) c = true := by
  intro l
  induction l with
  | nil => intro k _ j c h; simp at h
  | cons x xs ih =>
    intro k hk j c h
    simp only [check_table, Bool.and_eq_true] at hk
    cases j with
    | zero =>
      simp at h
      subst h
      simpa using hk.1
    | succ j =>
      simp at h
      have := ih (k + 1) hk.2 j c h
      rwa [Nat.add_assoc, Nat.add_comm 1 j] at this

set_option maxRecDepth 100000 in
theorem class_array_length : class_array.length = 377 := by decide!

theorem class_to_size_length : class_to_size.length = 60 := by rfl

set_option maxRecDepth 100000 in
theorem index_ok_all : check_table index_ok class_array 0 = true := by decide!

theorem index_ok_of_lt (i : Nat) (h : i < 377) :
    ∃ c, class_array[i]? = some c ∧ index_ok i c = true := by
  have hl : i < class_array.length := by rw [class_array_length]; exact h
  refine ⟨class_array[i], List.getElem?_eq_getElem hl, ?_⟩
  have := check_table_get index_ok class_array 0 index_ok_all i _ (List.getElem?_eq_getElem hl)
  simpa using this

theorem get_classindex_small (s : Nat) (h : s ≤ 1024) :
    get_classindex s = (s + 7) >>> 3 := by
  have h1 : s % 4294967296 = s := by omega
  have h2 : (s + 7) % 4294967296 = s + 7 := by omega
  simp [get_classindex, u32, MAX_SMALL_SIZE, h1, h2, Nat.not_lt.mpr h]

theorem get_classindex_big (s : Nat) (h : 1024 < s) (h' : s ≤ 32768) :
    get_classindex s = (s + 127 + (120 <<< 7)) >>> 7 := by
  have h1 : s % 4294967296 = s := by omega
  have h2 : (s + 15487) % 4294967296 = s + 15487 := by omega
  simp [get_classindex, u32, MAX_SMALL_SIZE, h, h1, h2, Nat.shiftLeft_eq]

theorem get_classindex_lt (s : Nat) (hs : s ≤ 32768) : get_classindex s < 377 := by
  by_cases h : s ≤ 1024
  · rw [get_classindex_small s h, Nat.shiftRight_eq_div_pow]; omega
  · rw [get_classindex_big s (by omega) hs, Nat.shiftRight_eq_div_pow, Nat.shiftLeft_eq]; omega

/-- Every small request resolves to a class whose block holds it. -/
theorem sizeclass_some (s : Nat) (hs : s ≤ 32768) :
    ∃ cl, get_sizeclass s = some cl ∧ cl < 60 ∧
      ∃ sz, get_size_for_class cl = some sz ∧ s ≤ sz := by
  obtain ⟨c, hc, hok⟩ := index_ok_of_lt _ (get_classindex_lt s hs)
  unfold index_ok at hok
  simp only [Bool.and_eq_true, decide_eq_true_eq] at hok
  refine ⟨c, hc, hok.1, ?_⟩
  have h2 := hok.2
  unfold get_size_for_class
  cases hz : class_to_size[c]? with
  | none => simp [hz] at h2
  | some sz =>
    refine ⟨sz, rfl, ?_⟩
    simp only [hz] at h2
    by_cases h : s ≤ 1024
    · rw [get_classindex_small s h, Nat.shiftRight_eq_div_pow] at h2
      split at h2
      · simp at h2; omega
      · simp at h2; omega
    · rw [get_classindex_big s (by omega) hs, Nat.shiftRight_eq_div_pow, Nat.shiftLeft_eq] at h2
      split at h2
      · simp at h2; omega
      · simp at h2; omega

/-- C1: for every request size `s ≤ MAX_SIZE`, `get_classindex s` is a valid index
of `class_array` and is given by the two shift formulas, `get_sizeclass s` is a
class id below `NUM_CLASSES`, and the block size of that class is at least `s`. -/
theorem sizeclass_covers_request (s : Nat) (hs : s ≤ MAX_SIZE) :
    get_classindex s < CLASS_ARRAY_SIZE ∧
    get_classindex s
      = (if s ≤ 1024 then (s + 7) >>> 3 else (s + 127 + (120 <<< 7)) >>> 7) ∧
    ∃ cl, get_sizeclass s = some cl ∧ cl < NUM_CLASSES ∧
      ∃ sz, get_size_for_class cl = some sz ∧ s ≤ sz := by
  have hs' : s ≤ 32768 := hs
  refine ⟨get_classindex_lt s hs', ?_, sizeclass_some s hs'⟩
  split
  · next h => exact get_classindex_small s h
  · next h => exact get_classindex_big s (by omega) hs'

theorem sizeclass_covers_request_witness :
    (1024 : Nat) ≤ MAX_SIZE ∧
    ∃ cl, get_sizeclass 1024 = some cl ∧ cl < NUM_CLASSES ∧
      ∃ sz, get_size_for_class cl = some sz ∧ 1024 ≤ sz :=
  ⟨by decide, (sizeclass_covers_request 1024 (by decide)).2.2⟩

theorem get_logfloor_step_inv (N i : Nat) (st : Nat × Nat) (hi : i ≤ 4)
    (hm1 : 1 ≤ st.1) (hm : st.1 < 2 ^ (2 ^ (i + 1))) (hN : N / 2 ^ st.2 = st.1)
    (hl : st.2 + 2 ^ (i + 1) ≤ 32) :
    1 ≤ (get_logfloor_step st i).1 ∧ (get_logfloor_step st i).1 < 2 ^ (2 ^ i) ∧
      N / 2 ^ (get_logfloor_step st i).2 = (get_logfloor_step st i).1 ∧
      (get_logfloor_step st i).2 + 2 ^ i ≤ 32 := by
  obtain ⟨m, l⟩ := st
  simp only at hm1 hm hN hl
  have h2i : 2 ^ (i + 1) = 2 ^ i + 2 ^ i := by rw [pow_succ]; omega
  have hi16 : 2 ^ i ≤ 16 := by
    calc 2 ^ i ≤ 2 ^ 4 := Nat.pow_le_pow_right (by decide) hi
      _ = 16 := by norm_num
  have hp : 0 < 2 ^ i := Nat.two_pow_pos i
  have hsh : u32 (1 <<< i) = 2 ^ i := by
    unfold u32; rw [Nat.shiftLeft_eq, Nat.one_mul]; omega
  have hpos : 0 < 2 ^ (2 ^ i) := Nat.two_pow_pos _
  unfold get_logfloor_step
  simp only [hsh, Nat.shiftRight_eq_div_pow]
  by_cases hx : m / 2 ^ (2 ^ i) = 0
  · simp only [hx, ne_eq, not_true_eq_false, if_false]
    rw [Nat.div_eq_zero_iff hpos] at hx
    exact ⟨hm1, hx, hN, by omega⟩
  · simp only [hx, ne_eq, not_false_eq_true, if_true]
    have hu : u32 (l + 2 ^ i) = l + 2 ^ i := by unfold u32; omega
    rw [hu]
    refine ⟨Nat.one_le_iff_ne_zero.mpr hx, ?_, ?_, by omega⟩
    · rw [Nat.div_lt_iff_lt_mul hpos, ← pow_add, ← h2i]; exact hm
    · rw [pow_add, ← Nat.div_div_eq_div_mul, hN]

/-- `get_logfloor` computes the floor of the binary logarithm of a non-zero
`uint32_t`. -/
theorem get_logfloor_spec (n k : Nat) (hk : k < 32) (h1 : 2 ^ k ≤ n) (h2 : n < 2 ^ (k + 1)) :
    get_logfloor n = some k := by
  have hle : (2:Nat) ^ (k + 1) ≤ 2 ^ 32 := Nat.pow_le_pow_right (by decide) (by omega)
  have hn : u32 n = n := by unfold u32; omega
  have hkpos : 0 < 2 ^ k := Nat.two_pow_pos _
  have s4 := get_logfloor_step_inv n 4 (n, 0) (by omega) (by simp; omega)
    (by simp; omega) (by simp) (by simp)
  have s3 := get_logfloor_step_inv n 3 _ (by omega) s4.1 s4.2.1 s4.2.2.1 s4.2.2.2
  have s2 := get_logfloor_step_inv n 2 _ (by omega) s3.1 s3.2.1 s3.2.2.1 s3.2.2.2
  have s1 := get_logfloor_step_inv n 1 _ (by omega) s2.1 s2.2.1 s2.2.2.1 s2.2.2.2
  have s0 := get_logfloor_step_inv n 0 _ (by omega) s1.1 s1.2.1 s1.2.2.1 s1.2.2.2
  unfold get_logfloor
  simp only [List.foldl, hn]
  generalize get_logfloor_step (get_logfloor_step (get_logfloor_step
    (get_logfloor_step (get_logfloor_step (n, 0) 4) 3) 2) 1) 0 = r at s0 ⊢
  obtain ⟨h1r, h2r, h3r, h4r⟩ := s0
  have hr1 : r.1 = 1 := by simp at h2r; omega
  simp only [hr1, if_true, Option.some.injEq]
  rw [hr1] at h3r
  have hlpos : 0 < 2 ^ r.2 := Nat.two_pow_pos _
  have ha : 2 ^ r.2 ≤ n := by
    by_contra hc
    have : n / 2 ^ r.2 = 0 := (Nat.div_eq_zero_iff hlpos).mpr (by omega)
    omega
  have hb : n < 2 ^ (r.2 + 1) := by
    have := Nat.lt_succ_iff.mpr (le_of_eq h3r)
    rw [Nat.div_lt_iff_lt_mul hlpos] at this
    rw [pow_succ]; omega
  have hlt1 : r.2 < k + 1 := (Nat.pow_lt_pow_iff_right (by decide : 1 < 2)).mp (lt_of_le_of_lt ha h2)
  have hlt2 : k < r.2 + 1 := (Nat.pow_lt_pow_iff_right (by decide : 1 < 2)).mp (lt_of_le_of_lt h1 hb)
  omega

/-- A non-zero `a` with `a & (a - 1) == 0` is a power of two. -/
theorem pow2_of_and_pred : ∀ a : Nat, a ≠ 0 → a &&& (a - 1) = 0 → ∃ k, a = 2 ^ k := by
  intro a
  induction a using Nat.strong_induction_on with
  | _ a ih =>
    intro h0 h
    by_cases h1 : a = 1
    · exact ⟨0, by simp [h1]⟩
    · have hd : a / 2 &&& (a - 1) / 2 = 0 := by rw [← Nat.and_div_two, h]
      rcases Nat.mod_two_eq_zero_or_one a with he | ho
      · have e : (a - 1) / 2 = a / 2 - 1 := by omega
        rw [e] at hd
        obtain ⟨k, hk⟩ := ih (a / 2) (by omega) (by omega) hd
        exact ⟨k + 1, by rw [pow_succ]; omega⟩
      · have e : (a - 1) / 2 = a / 2 := by omega
        rw [e, Nat.and_self] at hd
        omega

theorem and_pred_of_pow2 (k : Nat) : 2 ^ k &&& (2 ^ k - 1) = 0 := by
  rw [Nat.and_pow_two_sub_one_eq_mod, Nat.mod_self]

theorem get_alignment_small (s : Nat) (hs : s ≤ 32768) :
    get_alignment s = some (small_alignment s) := by
  have hu : u32 s = s := by unfold u32; omega
  unfold get_alignment small_alignment
  simp only [hu, MAX_SIZE, PAGE_SIZE, PAGE_SHIFT, ALIGNMENT]
  have hn : ¬ (s > 8 * 1 <<< 12) := by simp [Nat.shiftLeft_eq]; omega
  simp only [hn, if_false]
  by_cases h1 : s ≥ 2048
  · have : ¬ s < 16 := by omega
    have : ¬ s < 256 := by omega
    have : ¬ s < 512 := by omega
    have : ¬ s < 1024 := by omega
    have : ¬ s < 2048 := by omega
    simp [*]; decide
  · by_cases h2 : s ≥ 128
    · simp only [h1, h2, if_true, if_false]
      have h16 : ¬ s < 16 := by omega
      by_cases a : s < 256
      · rw [get_logfloor_spec s 7 (by omega) (by norm_num; omega) (by norm_num; omega)]
        simp [*]; decide
      · by_cases b : s < 512
        · rw [get_logfloor_spec s 8 (by omega) (by norm_num; omega) (by norm_num; omega)]
          simp [*]; decide
        · by_cases c : s < 1024
          · rw [get_logfloor_spec s 9 (by omega) (by norm_num; omega) (by norm_num; omega)]
            simp [*]; decide
          · rw [get_logfloor_spec s 10 (by omega) (by norm_num; omega) (by norm_num; omega)]
            have : s < 2048 := by omega
            simp [*]; decide
    · by_cases h3 : s ≥ 16
      · have : ¬ s < 16 := by omega
        have : s < 256 := by omega
        simp [*]; decide
      · have : s < 16 := by omega
        simp [*]; decide

theorem small_alignment_dvd_mono (s t : Nat) (h : s ≤ t) :
    small_alignment s ∣ small_alignment t := by
  unfold small_alignment
  split_ifs <;> omega

theorem small_alignment_dvd_page (s : Nat) : small_alignment s ∣ 4096 := by
  unfold small_alignment
  split_ifs <;> decide

set_option maxRecDepth 100000 in
theorem align_ok_all : check_table align_ok class_array 0 = true := by decide!

theorem align_ok_of_lt (i : Nat) (h : i < 377) :
    ∃ c, class_array[i]? = some c ∧ align_ok i c = true := by
  have hl : i < class_array.length := by rw [class_array_length]; exact h
  refine ⟨class_array[i], List.getElem?_eq_getElem hl, ?_⟩
  have := check_table_get align_ok class_array 0 align_ok_all i _ (List.getElem?_eq_getElem hl)
  simpa using this

/-- The block size of the class chosen for a small request is a multiple of the
alignment of the request. -/
theorem alignment_dvd_block_size (s cl sz : Nat) (hs : s ≤ 32768)
    (hcl : get_sizeclass s = some cl) (hsz : get_size_for_class cl = some sz) :
    small_alignment s ∣ sz := by
  obtain ⟨c, hc, hok⟩ := align_ok_of_lt _ (get_classindex_lt s hs)
  unfold get_sizeclass at hcl
  rw [hc] at hcl
  cases hcl
  unfold get_size_for_class at hsz
  unfold align_ok at hok
  simp only [hsz, beq_iff_eq] at hok
  have hd := Nat.dvd_of_mod_eq_zero hok
  refine dvd_trans (small_alignment_dvd_mono s _ ?_) hd
  by_cases h : s ≤ 1024
  · rw [get_classindex_small s h, Nat.shiftRight_eq_div_pow]
    split <;> omega
  · rw [get_classindex_big s (by omega) hs, Nat.shiftRight_eq_div_pow, Nat.shiftLeft_eq]
    split <;> omega

/-- C3: for every request size `s ≤ MAX_SIZE` the block size of the class chosen
for `s` is a multiple of `get_alignment s`; hence every address
`(start_page << 12) + k * block_size` is a multiple of `get_alignment s`, and it is
a multiple of every power of two `alignment ≤ get_alignment s`, which is the
assertion of the fall-back branch of `posix_memalign`. -/
theorem small_block_aligned (s : Nat) (hs : s ≤ MAX_SIZE) :
    ∃ a cl sz, get_alignment s = some a ∧ get_sizeclass s = some cl ∧
      get_size_for_class cl = some sz ∧ a ∣ sz ∧
      (∀ start_page k : Nat, a ∣ (start_page <<< PAGE_SHIFT) + k * sz) ∧
      (∀ alignment start_page k : Nat, alignment ≠ 0 →
        alignment &&& (alignment - 1) = 0 → alignment ≤ a →
        ((start_page <<< PAGE_SHIFT) + k * sz) % alignment = 0) := by
  have hs' : s ≤ 32768 := hs
  obtain ⟨cl, hcl, _, sz, hsz, _⟩ := sizeclass_some s hs'
  have hd := alignment_dvd_block_size s cl sz hs' hcl hsz
  have hp := small_alignment_dvd_page s
  have haddr : ∀ start_page k : Nat,
      small_alignment s ∣ (start_page <<< PAGE_SHIFT) + k * sz := by
    intro sp k
    rw [Nat.shiftLeft_eq]
    exact dvd_add (Dvd.dvd.mul_left hp sp) (Dvd.dvd.mul_left hd k)
  refine ⟨small_alignment s, cl, sz, get_alignment_small s hs', hcl, hsz, hd, haddr, ?_⟩
  intro al sp k h0 hpow hle
  obtain ⟨j, hj⟩ := pow2_of_and_pred al h0 hpow
  have hsa : ∃ m, small_alignment s = 2 ^ m := by
    unfold small_alignment
    split_ifs
    exacts [⟨3, rfl⟩, ⟨4, rfl⟩, ⟨5, rfl⟩, ⟨6, rfl⟩, ⟨7, rfl⟩, ⟨8, rfl⟩]
  obtain ⟨m, hm⟩ := hsa
  have hjm : j ≤ m := by
    rw [hj, hm] at hle
    exact (Nat.pow_le_pow_iff_right (by decide : 1 < 2)).mp hle
  have hdvd : al ∣ small_alignment s := by
    rw [hj, hm]; exact pow_dvd_pow 2 hjm
  exact Nat.mod_eq_zero_of_dvd (dvd_trans hdvd (haddr sp k))

theorem small_block_aligned_witness :
    (100 : Nat) ≤ MAX_SIZE ∧
    ∃ a cl sz, get_alignment 100 = some a ∧ get_sizeclass 100 = some cl ∧
      get_size_for_class cl = some sz ∧ a ∣ sz ∧
      (∀ start_page k : Nat, a ∣ (start_page <<< PAGE_SHIFT) + k * sz) ∧
      (∀ alignment start_page k : Nat, alignment ≠ 0 →
        alignment &&& (alignment - 1) = 0 → alignment ≤ a →
        ((start_page <<< PAGE_SHIFT) + k * sz) % alignment = 0) :=
  ⟨by decide, small_block_aligned 100 (by decide)⟩

/-- C2 as stated fails: `malloc(16)` does not resolve to class 0 and `malloc(17)`
does not resolve to class 1. -/
theorem class_boundary_not_0_1 :
    ¬ (get_sizeclass 16 = some 0 ∧ get_sizeclass 17 = some 1) := by
  decide!

/-- C2 (amended): sizes 16 and 17 resolve to the distinct classes 1 and 2, whose
block sizes are 16 and 32 bytes. -/
theorem class_boundary_16_17 :
    get_sizeclass 16 = some 1 ∧ get_sizeclass 17 = some 2 ∧
    get_sizeclass 16 ≠ get_sizeclass 17 ∧
    get_size_for_class 1 = some 16 ∧ get_size_for_class 2 = some 32 := by
  decide!

/-! ## Library functions: evaluations at concrete inputs -/

set_option maxRecDepth 100000 in
/-- The call `posix_memalign(&p, 8192, 2^64 - 8191)` with assertions compiled in.  The sum
`size + alignment` wraps to `1`, a single page is mapped at `0x11001000`, which is not
a multiple of `8192`, and the call does not return: the assertion that the aligned
block starts inside the mapping fails.  This holds in every configuration. -/
theorem posix_memalign_overflow (cfg : Config) :
    GET_PAGE_LEN (u64 (2 ^ 64 - 8191 + 8192)) = 1 ∧
    ((started cfg).map fun s => (huge_malloc s 0 1).map fun r => r.1)
      = some (some 0x11001000) ∧
    ((started cfg).map fun s => (posix_memalign s 0 8192 (2 ^ 64 - 8191)).isNone)
      = some true := by
  rcases cfg with ⟨_ | _, _ | _, _ | _⟩ <;> decide!

set_option maxRecDepth 100000 in
/-- C5, the failing inputs: with `size = 0` every alignment is accepted with return
value `0`, also one that is not a power of two; and `posix_memalign(&p, 4, 16)`
returns `0` and a block although `4` is not a multiple of `sizeof(void*)`. -/
theorem posix_memalign_no_einval (cfg : Config) :
    (∀ (s : State) (t alignment : Nat), posix_memalign s t alignment 0 = some (0, 0, s)) ∧
    ((started cfg).bind fun s => (posix_memalign s 0 4 16).map fun r => (r.1, r.2.1))
      = some (0, 0x11002000) := by
  refine ⟨fun s t alignment => by simp [posix_memalign], ?_⟩
  rcases cfg with ⟨_ | _, _ | _, _ | _⟩ <;> decide!

set_option maxRecDepth 100000 in
/-- C6 as stated fails at `p = NULL`: `realloc(NULL, 0)` is `malloc(0)`, which
returns a block of the 8-byte class, not `NULL`. -/
theorem realloc_null_zero_not_null :
    ((started ⟨true, false, false⟩).bind fun s => (realloc s 0 0 0).map fun r => r.1)
      = some 0x11002000 := by
  decide!

/-- C6 (amended): for every non-null pointer `p`, `realloc(p, 0)` frees `p` and
returns `NULL`; and for every size, also `0`, `realloc(NULL, size)` returns exactly
what `malloc(size)` returns. -/
theorem realloc_zero_and_null :
    (∀ (s : State) (t p : Nat), p ≠ 0 →
      realloc s t p 0 = (free s t p).map fun s1 => (0, s1)) ∧
    (∀ (s : State) (t size : Nat), realloc s t 0 size = malloc s t size) := by
  constructor
  · intro s t p hp
    simp [realloc, hp]
  · intro s t size
    simp [realloc]

theorem realloc_zero_and_null_witness :
    (4096 : Nat) ≠ 0 ∧
    ∀ (s : State), realloc s 0 4096 0 = (free s 0 4096).map fun s1 => (0, s1) :=
  ⟨by decide, fun s => realloc_zero_and_null.1 s 0 4096 (by decide)⟩

set_option maxRecDepth 100000 in
/-- C7, the failing input: `calloc(2^32, 2^32)`.  The product wraps to `0`, so the
call is `malloc(0)` and the block returned belongs to the 8-byte class, far below
the `2^64` bytes of the array. -/
theorem calloc_overflow (cfg : Config) :
    (∀ (s : State) (t : Nat), calloc s t (2 ^ 32) (2 ^ 32) = malloc s t 0) ∧
    ((started cfg).bind fun s => (calloc s 0 (2 ^ 32) (2 ^ 32)).bind fun r =>
        (realloc_old_size r.2 0 r.1).map fun o => (r.1, o.1))
      = some (0x11002000, 8) := by
  constructor
  · intro s t
    have h0 : u64 (2 ^ 32 * 2 ^ 32) = 0 := by decide
    have hz : ∀ (s1 : State) (p : Nat), memset_zero s1 p 0 = s1 := by
      intro s1 p
      have hm : (fun x => if p ≤ x ∧ x < p + 0 then (0 : Fin 256) else s1.mem x) = s1.mem := by
        funext x
        have : ¬ (p ≤ x ∧ x < p + 0) := by omega
        simp [this]
      unfold memset_zero
      rw [hm]
    simp only [calloc, h0, hz]
    cases malloc s t 0 <;> simp
  · rcases cfg with ⟨_ | _, _ | _, _ | _⟩ <;> decide!

/-! ## realloc -/

theorem set_tlh_self (s : State) (t : Nat) : set_tlh s t (s.thr t) = s := by
  have : upd s.thr t (s.thr t) = s.thr := by
    funext x; unfold upd; split <;> simp_all
  simp [set_tlh, this]

theorem pagemap_cache_load_state (s : State) (t tag : Nat) (s1 : State)
    (h : pagemap_cache_load s t tag = some s1) :
    ∃ tg leaf, s1 = set_tlh s t { s.thr t with l_pagemap_tag := tg, l_pagemap_leaf := leaf } := by
  unfold pagemap_cache_load at h
  by_cases h1 : (s.thr t).l_pagemap_tag ≠ tag
  · rw [if_pos h1] at h
    by_cases h2 : tag >>> PMAP_INTERIOR_BIT < PMAP_INTERIOR_LEN
    · by_cases h3 : s.pm_node (tag >>> PMAP_INTERIOR_BIT) = 0
      · simp [h2, h3] at h
      · simp only [h2, h3, not_true_eq_false, if_false, Option.some.injEq] at h
        exact ⟨_, _, h.symm⟩
    · simp [h2] at h
  · rw [if_neg h1] at h
    cases h
    exact ⟨(s.thr t).l_pagemap_tag, (s.thr t).l_pagemap_leaf, (set_tlh_self s t).symm⟩

/-- A PageMap lookup changes nothing but the leaf cache of the calling thread, and
nothing at all without `MALLOC_USE_PAGEMAP_CACHE`. -/
theorem pagemap_get_state (s : State) (t page_id val : Nat) (s1 : State)
    (h : pagemap_get s t page_id = some (val, s1)) :
    (s.cfg.MALLOC_USE_PAGEMAP_CACHE = false → s1 = s) ∧
    ∃ tag leaf, s1 = set_tlh s t { s.thr t with l_pagemap_tag := tag, l_pagemap_leaf := leaf } := by
  by_cases hc : s.cfg.MALLOC_USE_PAGEMAP_CACHE = true
  · simp only [pagemap_get, hc, if_true, Option.bind_eq_some] at h
    refine ⟨fun h' => by simp [hc] at h', ?_⟩
    obtain ⟨s2, hl, h⟩ := h
    by_cases h0 : (s2.thr t).l_pagemap_leaf = 0
    · simp [h0] at h
    · simp only [h0, if_false, Option.some.injEq, Prod.mk.injEq] at h
      rw [← h.2]
      exact pagemap_cache_load_state s t _ _ hl
  · have hs : s1 = s := by
      simp only [pagemap_get, hc] at h
      by_cases a : page_id >>> PMAP_BITS ≠ 0
      · simp [a] at h
      · by_cases b : s.pm_node (page_id >>> (PMAP_LEAF_BIT + PMAP_INTERIOR_BIT)) = 0
        · simp [a, b] at h
        · by_cases c : s.pm_leaf (s.pm_node (page_id >>> (PMAP_LEAF_BIT + PMAP_INTERIOR_BIT)))
              (page_id >>> PMAP_LEAF_BIT &&& (PMAP_INTERIOR_LEN - 1)) = 0
          · simp [a, b, c] at h
          · simp [a, b, c] at h
            exact h.2.symm
    subst hs
    exact ⟨fun _ => rfl, (s1.thr t).l_pagemap_tag, (s1.thr t).l_pagemap_leaf,
      (set_tlh_self s1 t).symm⟩

theorem get_size_for_class_some (cl : Nat) (h : cl < NUM_CLASSES) :
    ∃ sz, get_size_for_class cl = some sz := by
  have hl : cl < class_to_size.length := by rw [class_to_size_length]; exact h
  exact ⟨class_to_size[cl], List.getElem?_eq_getElem hl⟩

theorem realloc_unfold (s : State) (t p n : Nat) (hp : p ≠ 0) (hn : n ≠ 0) :
    realloc s t p n =
      (realloc_old_size s t p).bind fun a =>
        if n > a.1 ∨ n < a.1 / 2 then
          (malloc a.2 t n).bind fun r =>
            (free (memcpy r.2 r.1 p (min a.1 n)) t p).map fun s3 => (r.1, s3)
        else some (p, a.2) := by
  have hmin : ∀ o : Nat, (if o < n then o else n) = min o n := by
    intro o; rw [Nat.min_def]; split_ifs <;> omega
  simp only [realloc, hp, hn, if_false, hmin, Option.bind_eq_bind]
  cases realloc_old_size s t p with
  | none => rfl
  | some a =>
    simp only [Option.some_bind]
    split_ifs
    · cases malloc a.2 t n with
      | none => rfl
      | some r =>
        simp only [Option.some_bind]
        cases free (memcpy r.2 r.1 p (min a.1 n)) t p <;> rfl
    · rfl

theorem realloc_old_size_unfold (s : State) (t p val : Nat) (s1 : State)
    (hget : pagemap_get s t (p >>> PAGE_SHIFT) = some (val, s1)) (hval : val ≠ 0) :
    realloc_old_size s t p =
      if val &&& HUGE_MALLOC_MARK ≠ 0 then some (val - (val &&& HUGE_MALLOC_MARK), s1)
      else if (s1.pbh val).sizeclass < NUM_CLASSES then
        (get_size_for_class (s1.pbh val).sizeclass).map fun sz => (sz, s1)
      else some ((s1.pbh val).length * PAGE_SIZE, s1) := by
  simp only [realloc_old_size, hget, Option.bind_eq_bind, Option.some_bind, hval, if_false]
  split_ifs
  · rfl
  · cases get_size_for_class (s1.pbh val).sizeclass <;> rfl
  · rfl

set_option maxRecDepth 100000 in
theorem warm_heap_ptr : warm_heap.1 = 0x11002000 := by decide!

set_option maxRecDepth 100000 in
theorem warm_heap_lookup :
    pagemap_get warm_heap.2 0 (warm_heap.1 >>> PAGE_SHIFT) = some (0x11001040, warm_heap.2) := by
  rfl

/-! ## Reuse of a freed block -/

theorem num_blocks_le (cl th : Nat) (h : get_blocks_for_class cl = some th) : th ≤ 512 := by
  have hall : ∀ x ∈ num_blocks_per_pbh, x ≤ 512 := by decide
  unfold get_blocks_for_class at h
  exact hall th (List.getElem?_mem h)

theorem get_blocks_for_class_some (cl : Nat) (h : cl < NUM_CLASSES) :
    ∃ th, get_blocks_for_class cl = some th := by
  have hl : cl < num_blocks_per_pbh.length := by
    have : num_blocks_per_pbh.length = 60 := by rfl
    rw [this]; exact h
  exact ⟨num_blocks_per_pbh[cl], List.getElem?_eq_getElem hl⟩

/-- `tlh_return_list` leaves the free block list of the class empty. -/
theorem tlh_return_list_empties (s s' : State) (t cl : Nat)
    (h : tlh_return_list s t cl = some s') :
    ((s'.thr t).blk_list cl).free_blk_list = 0 ∧ ((s'.thr t).blk_list cl).cnt_free = 0 := by
  unfold tlh_return_list at h
  simp only [Option.bind_eq_bind, Option.pure_def] at h
  split_ifs at h
  simp only [Option.bind_eq_some, Option.some.injEq] at h
  obtain ⟨_, _, _, _, s2, _, h⟩ := h
  subst h
  simp [set_blk, set_tlh, upd]

/-- A `free` of a block whose page is registered to a small page block is
`small_free` on the state the PageMap lookup leaves. -/
theorem free_small (s1 s1' : State) (t p pbh : Nat) (hp : p ≠ 0)
    (hlive : (s1.thr t).thread_id ≠ 0)
    (hget : pagemap_get s1 t (p >>> PAGE_SHIFT) = some (pbh, s1'))
    (h0 : pbh ≠ 0) (hnh : pbh &&& HUGE_MALLOC_MARK = 0)
    (hc : (s1'.pbh pbh).sizeclass < NUM_CLASSES) :
    free s1 t p = small_free s1' t p pbh := by
  simp [free, hp, hlive, hget, h0, hnh, hc]

/-- A `small_free` that stays local is the flush of a full list followed by the push
of the block. -/
theorem small_free_local (s : State) (t p pbh cl th : Nat)
    (hcl : (s.pbh pbh).sizeclass = cl) (hcl60 : cl < NUM_CLASSES)
    (hth : get_blocks_for_class cl = some th)
    (hlocal : (s.pbh pbh).status ≠ PBH_AGAINST_FALSE_SHARING ∨
      ∃ sph, pbh_get_superpage s pbh = some sph ∧ (s.sph sph).owner_id = (s.thr t).thread_id) :
    small_free s t p pbh =
      (if ((s.thr t).blk_list cl).cnt_free ≥ th then tlh_return_list s t cl else some s).map
        fun s2 => blk_push s2 t cl p := by
  have hn : ¬ ¬ cl < NUM_CLASSES := not_not.mpr hcl60
  have key : (if ¬ (s.pbh pbh).sizeclass < NUM_CLASSES then none
      else (get_blocks_for_class (s.pbh pbh).sizeclass).bind fun threshold =>
        (if ((s.thr t).blk_list (s.pbh pbh).sizeclass).cnt_free ≥ threshold then
          tlh_return_list s t (s.pbh pbh).sizeclass else some s).bind fun y =>
            some (blk_push y t (s.pbh pbh).sizeclass p)) =
      (if ((s.thr t).blk_list cl).cnt_free ≥ th then tlh_return_list s t cl else some s).map
        fun s2 => blk_push s2 t cl p := by
    rw [hcl, if_neg hn, hth, Option.some_bind]
    cases (if ((s.thr t).blk_list cl).cnt_free ≥ th then tlh_return_list s t cl else some s) <;> rfl
  by_cases hs : (s.pbh pbh).status = PBH_AGAINST_FALSE_SHARING
  · rcases hlocal with h | ⟨sph, h1, h2⟩
    · exact absurd hs h
    · simp only [small_free, hs, h1, h2, Option.bind_eq_bind, Option.pure_def, Option.some_bind,
        if_true, ne_eq, not_true_eq_false, if_false, Bool.false_eq_true]
      exact key
  · simp only [small_free, hs, Option.bind_eq_bind, Option.pure_def, Option.some_bind,
      if_false, Bool.false_eq_true]
    exact key

/-- After the push of `p`, `small_malloc` of the class pops `p` again. -/
theorem small_malloc_after_push (s : State) (t cl p : Nat) (hp : p ≠ 0)
    (hcl : cl < NUM_CLASSES) (hc : u32 (((s.thr t).blk_list cl).cnt_free + 1) > 0) :
    ((blk_push s t cl p).thr t).blk_list cl
      = { (s.thr t).blk_list cl with
          free_blk_list := p, cnt_free := u32 (((s.thr t).blk_list cl).cnt_free + 1) } ∧
    ∃ s3, small_malloc (blk_push s t cl p) t cl = some (p, s3) := by
  have hb : ((blk_push s t cl p).thr t).blk_list cl
      = { (s.thr t).blk_list cl with
          free_blk_list := p, cnt_free := u32 (((s.thr t).blk_list cl).cnt_free + 1) } := by
    simp [blk_push, set_blk, set_tlh, upd]
  refine ⟨hb, ?_⟩
  have hn : ¬ ¬ cl < NUM_CLASSES := not_not.mpr hcl
  unfold small_malloc
  simp only [hb, hn, hp, hc, if_false, if_true, ne_eq, not_false_eq_true, not_true_eq_false,
    Option.bind_eq_bind, Option.pure_def]
  exact ⟨_, rfl⟩

/-- In a live thread of an initialised process, `malloc` of a small size is
`small_malloc` of its class. -/
theorem malloc_small_live (s : State) (t size cl : Nat) (hs : size ≤ MAX_SIZE)
    (hcl : get_sizeclass size = some cl) (hi : s.g_initialized ≠ 0)
    (ht : (s.thr t).thread_id ≠ 0) :
    malloc s t size = small_malloc s t cl := by
  unfold malloc
  by_cases hc : s.cfg.MALLOC_NEED_INIT = true
  · simp [hc, hi, ht, hs, hcl]
  · simp [hc, hi, hs, hcl]

/-! ## Frame lemmas -/

theorem frame_refl (s : State) : frame s s := ⟨rfl, rfl, fun _ => rfl⟩

theorem frame_trans {s s1 s2 : State} (h1 : frame s s1) (h2 : frame s1 s2) : frame s s2 :=
  ⟨h2.1.trans h1.1, h2.2.1.trans h1.2.1, fun t => (h2.2.2 t).trans (h1.2.2 t)⟩

theorem upd_same {α : Type} (f : Nat → α) (k : Nat) (v : α) : upd f k v k = v := by
  simp [upd]

theorem upd_other {α : Type} (f : Nat → α) (k x : Nat) (v : α) (h : x ≠ k) :
    upd f k v x = f x := by
  simp [upd, h]

theorem frame_set_tlh (s : State) (t : Nat) (v : tlh_t)
    (h : v.thread_id = (s.thr t).thread_id) : frame s (set_tlh s t v) := by
  refine ⟨rfl, rfl, fun x => ?_⟩
  by_cases hx : x = t
  · subst hx; simp [set_tlh, upd, h]
  · simp [set_tlh, upd, hx]

theorem frame_set_pbh (s : State) (p : Nat) (v : pbh_t) : frame s (set_pbh s p v) :=
  ⟨rfl, rfl, fun _ => rfl⟩

theorem frame_set_sph (s : State) (p : Nat) (v : sph_t) : frame s (set_sph s p v) :=
  ⟨rfl, rfl, fun _ => rfl⟩

theorem frame_set_hptr (s : State) (p : Nat) (v : hazard_ptr_t) : frame s (set_hptr s p v) :=
  ⟨rfl, rfl, fun _ => rfl⟩

theorem frame_SET_NEXT (s : State) (p n : Nat) : frame s (SET_NEXT s p n) :=
  ⟨rfl, rfl, fun _ => rfl⟩

theorem frame_set_pm_val (s : State) (l i v : Nat) : frame s (set_pm_val s l i v) :=
  ⟨rfl, rfl, fun _ => rfl⟩

theorem frame_do_munmap (s : State) (a n : Nat) : frame s (do_munmap s a n) :=
  ⟨rfl, rfl, fun _ => rfl⟩

theorem frame_set_blk (s : State) (t cl : Nat) (v : blk_list_t) : frame s (set_blk s t cl v) :=
  frame_set_tlh s t _ rfl

theorem frame_set_free_pb (s : State) (t c v : Nat) : frame s (set_free_pb s t c v) :=
  frame_set_tlh s t _ rfl

theorem frame_set_list_head (s : State) (t : Nat) (r : pbh_list_ref) (v : Nat) :
    frame s (set_list_head s t r v) := by
  cases r
  · exact frame_set_blk s t _ _
  · exact frame_set_free_pb s t _ _

theorem frame_blk_push (s : State) (t cl p : Nat) : frame s (blk_push s t cl p) :=
  frame_trans (frame_SET_NEXT s p _) (frame_set_blk _ t cl _)

theorem frame_pbh_link_init (s : State) (p : Nat) : frame s (pbh_link_init s p) :=
  frame_set_pbh s p _

theorem frame_pbh_field_init (s : State) (p : Nat) : frame s (pbh_field_init s p) :=
  frame_set_pbh s p _

theorem frame_pbh_add_length (s : State) (p n : Nat) : frame s (pbh_add_length s p n) :=
  frame_set_pbh s p _

theorem frame_pbh_link_before (s : State) (top p : Nat) : frame s (pbh_link_before s top p) :=
  ⟨rfl, rfl, fun _ => rfl⟩

theorem frame_pbh_unlink (s : State) (p : Nat) : frame s (pbh_unlink s p) :=
  ⟨rfl, rfl, fun _ => rfl⟩

theorem frame_sph_link_init (s : State) (p : Nat) : frame s (sph_link_init s p) :=
  frame_set_sph s p _

theorem KeepsS_none (s : State) : KeepsS s none := fun _ h => by cases h

theorem KeepsS_some {s s' : State} (h : frame s s') : KeepsS s (some s') :=
  fun _ e => by cases e; exact h

theorem Keeps_none {α : Type} (s : State) : Keeps s (none : Option (α × State)) :=
  fun _ h => by cases h

theorem Keeps_some {α : Type} {s : State} {r : α × State} (h : frame s r.2) :
    Keeps s (some r) :=
  fun _ e => by cases e; exact h

theorem KeepsS_ite {s : State} {c : Prop} [Decidable c] {a b : Option State}
    (ha : c → KeepsS s a) (hb : ¬ c → KeepsS s b) : KeepsS s (if c then a else b) := by
  split
  · next h => exact ha h
  · next h => exact hb h

theorem Keeps_ite {α : Type} {s : State} {c : Prop} [Decidable c] {a b : Option (α × State)}
    (ha : c → Keeps s a) (hb : ¬ c → Keeps s b) : Keeps s (if c then a else b) := by
  split
  · next h => exact ha h
  · next h => exact hb h

theorem KeepsS_bindS {s : State} {x : Option State} {f : State → Option State}
    (hx : KeepsS s x) (hf : ∀ s1, x = some s1 → frame s s1 → KeepsS s (f s1)) :
    KeepsS s (x.bind f) := by
  intro s' h
  rw [Option.bind_eq_some] at h
  obtain ⟨s1, h1, h2⟩ := h
  exact hf s1 h1 (hx s1 h1) s' h2

theorem KeepsS_bind {α : Type} {s : State} {x : Option (α × State)}
    {f : α × State → Option State}
    (hx : Keeps s x) (hf : ∀ r, x = some r → frame s r.2 → KeepsS s (f r)) :
    KeepsS s (x.bind f) := by
  intro s' h
  rw [Option.bind_eq_some] at h
  obtain ⟨r, h1, h2⟩ := h
  exact hf r h1 (hx r h1) s' h2

theorem Keeps_bindS {β : Type} {s : State} {x : Option State}
    {f : State → Option (β × State)}
    (hx : KeepsS s x) (hf : ∀ s1, x = some s1 → frame s s1 → Keeps s (f s1)) :
    Keeps s (x.bind f) := by
  intro s' h
  rw [Option.bind_eq_some] at h
  obtain ⟨s1, h1, h2⟩ := h
  exact hf s1 h1 (hx s1 h1) s' h2

theorem Keeps_bind {α β : Type} {s : State} {x : Option (α × State)}
    {f : α × State → Option (β × State)}
    (hx : Keeps s x) (hf : ∀ r, x = some r → frame s r.2 → Keeps s (f r)) :
    Keeps s (x.bind f) := by
  intro s' h
  rw [Option.bind_eq_some] at h
  obtain ⟨r, h1, h2⟩ := h
  exact hf r h1 (hx r h1) s' h2

/-- A pure step that returns a value and no state. -/
theorem KeepsS_bindP {α : Type} {s : State} {x : Option α} {f : α → Option State}
    (hf : ∀ a, x = some a → KeepsS s (f a)) : KeepsS s (x.bind f) := by
  intro s' h
  rw [Option.bind_eq_some] at h
  obtain ⟨a, h1, h2⟩ := h
  exact hf a h1 s' h2

theorem Keeps_bindP {α β : Type} {s : State} {x : Option α} {f : α → Option (β × State)}
    (hf : ∀ a, x = some a → Keeps s (f a)) : Keeps s (x.bind f) := by
  intro s' h
  rw [Option.bind_eq_some] at h
  obtain ⟨a, h1, h2⟩ := h
  exact hf a h1 s' h2

theorem KeepsS_of_frame {s s1 : State} {x : Option State} (h : frame s s1)
    (hx : KeepsS s1 x) : KeepsS s x :=
  fun s' e => frame_trans h (hx s' e)

theorem Keeps_of_frame {α : Type} {s s1 : State} {x : Option (α × State)} (h : frame s s1)
    (hx : Keeps s1 x) : Keeps s x :=
  fun r e => frame_trans h (hx r e)

theorem KeepsS_map {s : State} {x : Option State} {f : State → State}
    (hx : KeepsS s x) (hf : ∀ s1, frame s1 (f s1)) : KeepsS s (x.map f) := by
  intro s' h
  rw [Option.map_eq_some'] at h
  obtain ⟨s1, h1, rfl⟩ := h
  exact frame_trans (hx s1 h1) (hf s1)

theorem pagemap_cache_load_keeps (s : State) (t tag : Nat) :
    KeepsS s (pagemap_cache_load s t tag) := by
  intro s1 h
  obtain ⟨tg, leaf, rfl⟩ := pagemap_cache_load_state s t tag s1 h
  exact frame_set_tlh s t _ rfl

theorem pagemap_get_keeps (s : State) (t page_id : Nat) :
    Keeps s (pagemap_get s t page_id) := by
  intro r h
  obtain ⟨_, tg, leaf, h2⟩ := pagemap_get_state s t page_id r.1 r.2 h
  rw [h2]
  exact frame_set_tlh s t _ rfl

theorem pagemap_set_keeps (s : State) (t page_id val : Nat) :
    KeepsS s (pagemap_set s t page_id val) := by
  unfold pagemap_set
  refine KeepsS_ite (fun _ => ?_) (fun _ => ?_)
  · refine KeepsS_bindS (pagemap_cache_load_keeps s t _) (fun s1 _ hf => ?_)
    refine KeepsS_ite (fun _ => KeepsS_none s) (fun _ => KeepsS_some ?_)
    exact frame_trans hf (frame_set_pm_val _ _ _ _)
  · refine KeepsS_ite (fun _ => KeepsS_none s) (fun _ => ?_)
    refine KeepsS_ite (fun _ => KeepsS_none s) (fun _ => ?_)
    refine KeepsS_ite (fun _ => KeepsS_none s) (fun _ => KeepsS_some ?_)
    exact frame_set_pm_val _ _ _ _

theorem pagemap_set_range_keeps (t val : Nat) :
    ∀ (len : Nat) (s : State) (start : Nat),
      KeepsS s (pagemap_set_range s t start len val) := by
  intro len
  induction len with
  | zero => intro s start; exact KeepsS_some (frame_refl s)
  | succ n ih =>
    intro s start
    unfold pagemap_set_range
    exact KeepsS_bindS (pagemap_set_keeps s t start val)
      (fun s1 _ hf => KeepsS_of_frame hf (ih s1 (start + 1)))

theorem pbh_list_prepend_keeps (s : State) (t : Nat) (r : pbh_list_ref) (pbh : Nat) :
    KeepsS s (pbh_list_prepend s t r pbh) := by
  unfold pbh_list_prepend
  refine KeepsS_ite (fun _ => KeepsS_none s) (fun _ => KeepsS_some ?_)
  refine frame_trans ?_ (frame_set_list_head _ t r pbh)
  split
  · exact frame_pbh_link_before _ _ _
  · exact frame_pbh_link_init _ _

theorem pbh_list_append_keeps (s : State) (t : Nat) (r : pbh_list_ref) (pbh : Nat) :
    KeepsS s (pbh_list_append s t r pbh) := by
  unfold pbh_list_append
  refine KeepsS_ite (fun _ => KeepsS_none s) (fun _ => ?_)
  refine KeepsS_ite (fun _ => KeepsS_some (frame_pbh_link_before _ _ _)) (fun _ => KeepsS_some ?_)
  exact frame_trans (frame_pbh_link_init _ _) (frame_set_list_head _ t r pbh)

theorem pbh_list_pop_keeps (s : State) (t : Nat) (r : pbh_list_ref) :
    Keeps s (pbh_list_pop s t r) := by
  unfold pbh_list_pop
  refine Keeps_ite (fun _ => Keeps_none s) (fun _ => ?_)
  refine Keeps_ite (fun _ => Keeps_none s) (fun _ => Keeps_some ?_)
  exact frame_trans (frame_trans (frame_set_list_head _ t r _) (frame_pbh_unlink _ _))
    (frame_pbh_link_init _ _)

theorem pbh_list_remove_keeps (s : State) (t : Nat) (r : pbh_list_ref) (pbh : Nat) :
    KeepsS s (pbh_list_remove s t r pbh) := by
  unfold pbh_list_remove
  refine KeepsS_ite (fun _ => KeepsS_none s) (fun _ => ?_)
  refine KeepsS_ite (fun _ => ?_) (fun _ => KeepsS_some ?_)
  · exact KeepsS_ite (fun _ => KeepsS_none s) (fun _ => KeepsS_some (frame_set_list_head _ t r _))
  · refine frame_trans (frame_trans ?_ (frame_pbh_unlink _ _)) (frame_pbh_link_init _ _)
    split
    · exact frame_set_list_head _ t r _
    · exact frame_refl s

theorem pbh_list_move_to_first_keeps (s : State) (t : Nat) (r : pbh_list_ref) (pbh : Nat) :
    KeepsS s (pbh_list_move_to_first s t r pbh) := by
  unfold pbh_list_move_to_first
  refine KeepsS_ite (fun _ => KeepsS_none s) (fun _ => ?_)
  refine KeepsS_ite (fun _ => KeepsS_none s) (fun _ => KeepsS_some ?_)
  exact frame_trans (frame_trans (frame_pbh_unlink _ _) (frame_pbh_link_before _ _ _))
    (frame_set_list_head _ t r pbh)

theorem sph_list_prepend_frame (s : State) (t sph : Nat) : frame s (sph_list_prepend s t sph) := by
  unfold sph_list_prepend
  refine frame_trans ?_ (frame_set_tlh _ t _ rfl)
  split
  · exact ⟨rfl, rfl, fun _ => rfl⟩
  · exact frame_sph_link_init _ _

theorem sph_list_remove_keeps (s : State) (t sph : Nat) : KeepsS s (sph_list_remove s t sph) := by
  unfold sph_list_remove
  refine KeepsS_ite (fun _ => ?_) (fun _ => KeepsS_some ?_)
  · exact KeepsS_ite (fun _ => KeepsS_none s) (fun _ => KeepsS_some (frame_set_tlh s t _ rfl))
  · refine frame_trans (frame_trans (frame_trans ?_ (frame_set_sph _ _ _)) (frame_set_sph _ _ _))
      (frame_sph_link_init _ _)
    split
    · exact frame_set_tlh s t _ rfl
    · exact frame_refl s

theorem sph_coalesce_pbs_keeps (s : State) (t pbh : Nat) : KeepsS s (sph_coalesce_pbs s t pbh) := by
  unfold sph_coalesce_pbs
  refine KeepsS_ite (fun _ => KeepsS_none s) (fun _ => ?_)
  refine KeepsS_ite (fun _ => ?_) (fun _ => ?_)
  · refine KeepsS_ite (fun _ => KeepsS_some ⟨rfl, rfl, fun _ => rfl⟩) (fun _ => ?_)
    refine KeepsS_ite (fun _ => ?_) (fun _ => ?_)
    · refine KeepsS_ite (fun _ => KeepsS_some ⟨rfl, rfl, fun _ => rfl⟩) (fun _ => ?_)
      refine KeepsS_of_frame ?_ (KeepsS_bindS (pagemap_set_range_keeps t _ _ _ _)
        (fun s1 _ hf => KeepsS_of_frame hf (pagemap_set_range_keeps t _ _ _ _)))
      exact ⟨rfl, rfl, fun _ => rfl⟩
    · refine KeepsS_of_frame ?_ (pagemap_set_range_keeps t _ _ _ _)
      exact ⟨rfl, rfl, fun _ => rfl⟩
  · refine KeepsS_ite (fun _ => ?_) (fun _ => KeepsS_some (frame_refl s))
    refine KeepsS_ite (fun _ => KeepsS_some ⟨rfl, rfl, fun _ => rfl⟩) (fun _ => ?_)
    refine KeepsS_of_frame ?_ (pagemap_set_range_keeps t _ _ _ _)
    exact ⟨rfl, rfl, fun _ => rfl⟩

theorem sph_get_remote_pbs_loop_keeps (t : Nat) :
    ∀ (fuel : Nat) (s : State) (remote_pb : Nat),
      KeepsS s (sph_get_remote_pbs_loop t fuel s remote_pb) := by
  intro fuel
  induction fuel with
  | zero => intro s _; exact KeepsS_none s
  | succ n ih =>
    intro s remote_pb
    unfold sph_get_remote_pbs_loop
    refine KeepsS_bind (pagemap_get_keeps s t _) (fun r _ hf => ?_)
    obtain ⟨pbh, s1⟩ := r
    refine KeepsS_ite (fun _ => KeepsS_none s) (fun _ => ?_)
    refine KeepsS_ite (fun _ => KeepsS_none s) (fun _ => ?_)
    refine KeepsS_of_frame ?_ (KeepsS_bindS (sph_coalesce_pbs_keeps _ t pbh) (fun s2 _ hf2 =>
      KeepsS_ite (fun _ => KeepsS_of_frame hf2 (ih s2 _)) (fun _ => KeepsS_some hf2)))
    exact frame_trans hf (frame_set_pbh _ _ _)

theorem sph_get_remote_pbs_keeps (s : State) (t sph : Nat) :
    KeepsS s (sph_get_remote_pbs s t sph) := by
  unfold sph_get_remote_pbs
  refine KeepsS_of_frame ?_ (sph_get_remote_pbs_loop_keeps t _ _ _)
  exact frame_set_sph _ _ _

theorem take_superpage_loop_keeps (t : Nat) :
    ∀ (fuel : Nat) (s : State) (pbh total_len : Nat),
      ∀ r, take_superpage_loop t fuel s pbh total_len = some r → frame s r.1 := by
  intro fuel
  induction fuel with
  | zero =>
    intro s pbh total_len r h
    unfold take_superpage_loop at h
    split_ifs at h
    cases h
    exact frame_refl s
  | succ n ih =>
    intro s pbh total_len r h
    unfold take_superpage_loop at h
    by_cases h1 : total_len < SUPERPAGE_LEN
    · rw [if_neg (not_not.mpr h1)] at h
      by_cases h2 : (s.pbh pbh).length > 0
      · rw [if_neg (not_not.mpr h2)] at h
        by_cases h3 : (s.pbh pbh).index ≠ u32 (total_len + 1)
        · rw [if_pos h3] at h; cases h
        · rw [if_neg h3, Option.bind_eq_some] at h
          obtain ⟨s1, hs1, h⟩ := h
          refine frame_trans ?_ (ih _ _ _ r h)
          revert hs1
          generalize hx : (if (s.pbh pbh).status = PBH_ON_FREE_LIST then _ else _) = x
          intro hs1
          have hk : KeepsS s x := by
            rw [← hx]
            refine KeepsS_ite (fun _ => ?_) (fun _ => ?_)
            · exact KeepsS_bindP (fun r _ => pbh_list_prepend_keeps s t r pbh)
            · refine KeepsS_ite (fun _ => ?_) (fun _ => KeepsS_some (frame_refl s))
              refine KeepsS_bindP (fun blocks _ => ?_)
              refine KeepsS_ite (fun _ => ?_) (fun _ => pbh_list_prepend_keeps s t _ pbh)
              refine KeepsS_bindP (fun r _ => ?_)
              refine KeepsS_of_frame ?_ (pbh_list_prepend_keeps _ t r pbh)
              exact frame_pbh_field_init _ _
          exact hk s1 hs1
      · rw [if_pos h2] at h; cases h
    · rw [if_pos h1] at h
      cases h
      exact frame_refl s

theorem take_superpage_keeps (s : State) (t sph : Nat) : Keeps s (take_superpage s t sph) := by
  unfold take_superpage
  refine Keeps_ite (fun _ => Keeps_some (frame_refl s)) (fun _ => ?_)
  refine Keeps_bindS ?_ (fun s1 _ hf => ?_)
  · refine KeepsS_ite (fun _ => ?_) (fun _ => KeepsS_some ?_)
    · refine KeepsS_of_frame ?_ (sph_get_remote_pbs_keeps _ t sph)
      exact frame_set_sph _ _ _
    · exact frame_set_sph _ _ _
  · intro r h
    rw [Option.bind_eq_some] at h
    obtain ⟨⟨s2, total⟩, h2, h⟩ := h
    have f2 := take_superpage_loop_keeps t _ _ _ _ _ h2
    simp only at h f2
    split_ifs at h
    cases h
    exact frame_trans hf (frame_trans f2 (sph_list_prepend_frame _ _ _))

theorem sph_free_keeps (s : State) (t sph : Nat) : KeepsS s (sph_free s t sph) := by
  unfold sph_free
  simp only [Option.bind_eq_bind, Option.pure_def]
  refine KeepsS_bindS (sph_list_remove_keeps s t sph) (fun s1 _ hf1 => ?_)
  refine KeepsS_of_frame hf1 ?_
  refine KeepsS_bindS (pagemap_set_range_keeps t _ _ _ _) (fun s2 _ hf2 => ?_)
  refine KeepsS_bind ?_ (fun r _ hf3 => ?_)
  · refine Keeps_ite (fun _ => ?_) (fun _ => Keeps_some hf2)
    refine Keeps_bindP (fun found _ => ?_)
    exact Keeps_ite (fun _ => Keeps_some hf2)
      (fun _ => Keeps_some (frame_trans hf2 (frame_set_sph _ _ _)))
  · refine KeepsS_ite (fun _ => KeepsS_some ?_) (fun _ => KeepsS_some ?_)
    · exact frame_trans hf3 ⟨rfl, rfl, fun _ => rfl⟩
    · exact frame_trans hf3 (frame_do_munmap _ _ _)

theorem Keeps_ret {α : Type} {s : State} {x : Option State} {a : α} (hx : KeepsS s x) :
    Keeps s (x.bind fun s1 => some (a, s1)) := by
  intro r h
  rw [Option.bind_eq_some] at h
  obtain ⟨s1, h1, h2⟩ := h
  cases h2
  exact hx s1 h1

theorem pb_coalesce_keeps (s : State) (t pbh : Nat) : Keeps s (pb_coalesce s t pbh) := by
  unfold pb_coalesce
  simp only [Option.bind_eq_bind, Option.pure_def]
  refine Keeps_ite (fun _ => Keeps_none s) (fun _ => ?_)
  refine Keeps_ite (fun _ => ?_) (fun _ => ?_)
  · refine Keeps_bindP (fun r _ => ?_)
    refine Keeps_bindS (pbh_list_remove_keeps s t r _) (fun s1 _ hf1 => ?_)
    have hf1' : ∀ n, frame s (pbh_add_length s1
        (pagemap_get_checked s (sub64 (s.pbh pbh).start_page 1)) n) :=
      fun n => frame_trans hf1 (frame_pbh_add_length _ _ _)
    refine Keeps_ite (fun _ => Keeps_some (hf1' _)) (fun _ => ?_)
    refine Keeps_ite (fun _ => ?_) (fun _ => ?_)
    · refine Keeps_bindP (fun r2 _ => ?_)
      refine Keeps_bindS (KeepsS_of_frame (hf1' _) (pbh_list_remove_keeps _ t r2 _))
        (fun s2 _ hf2 => ?_)
      have hf2' : ∀ n, frame s (pbh_add_length s2
          (pagemap_get_checked s (sub64 (s.pbh pbh).start_page 1)) n) :=
        fun n => frame_trans hf2 (frame_pbh_add_length _ _ _)
      refine Keeps_ite (fun _ => Keeps_some (hf2' _)) (fun _ => ?_)
      refine Keeps_bindS (KeepsS_of_frame (hf2' _) (pagemap_set_range_keeps t _ _ _ _))
        (fun s3 _ hf3 => ?_)
      exact Keeps_ret (KeepsS_of_frame hf3 (pagemap_set_range_keeps t _ _ _ _))
    · exact Keeps_ret (KeepsS_of_frame (hf1' _) (pagemap_set_range_keeps t _ _ _ _))
  · refine Keeps_ite (fun _ => ?_) (fun _ => Keeps_some (frame_refl s))
    refine Keeps_bindP (fun r _ => ?_)
    refine Keeps_bindS (pbh_list_remove_keeps s t r _) (fun s1 _ hf1 => ?_)
    have hf1' : ∀ n, frame s (pbh_add_length s1 pbh n) :=
      fun n => frame_trans hf1 (frame_pbh_add_length _ _ _)
    refine Keeps_ite (fun _ => Keeps_some (hf1' _)) (fun _ => ?_)
    exact Keeps_ret (KeepsS_of_frame (hf1' _) (pagemap_set_range_keeps t _ _ _ _))

theorem pb_free_keeps (s : State) (t pbh : Nat) : KeepsS s (pb_free s t pbh) := by
  unfold pb_free
  simp only [Option.bind_eq_bind, Option.pure_def]
  refine KeepsS_ite (fun _ => KeepsS_none s) (fun _ => ?_)
  refine KeepsS_bind (Keeps_ite (fun _ => pb_coalesce_keeps s t pbh)
    (fun _ => Keeps_some (frame_refl s))) (fun r _ hf => ?_)
  refine KeepsS_ite (fun _ => ?_) (fun _ => ?_)
  · exact KeepsS_bindP (fun sph _ => KeepsS_of_frame hf (sph_free_keeps _ t sph))
  · refine KeepsS_bindP (fun rr _ => ?_)
    exact KeepsS_of_frame (frame_trans hf (frame_pbh_field_init _ _))
      (pbh_list_prepend_keeps _ t rr _)

theorem remote_free_keeps (s : State) (t pbh first last N : Nat) :
    Keeps s (remote_free s t pbh first last N) := by
  unfold remote_free
  simp only [Option.bind_eq_bind, Option.pure_def]
  refine Keeps_bindP (fun sph _ => ?_)
  refine Keeps_bindP (fun size _ => ?_)
  refine Keeps_ite (fun _ => Keeps_none s) (fun _ => ?_)
  have h0 : frame s (set_hptr s (s.thr t).hazard_ptr
      { s.hptr (s.thr t).hazard_ptr with node := sph }) := frame_set_hptr _ _ _
  refine Keeps_bind (Keeps_ite (fun _ => Keeps_of_frame h0 (take_superpage_keeps _ t sph))
    (fun _ => Keeps_some h0)) (fun r _ hf => ?_)
  refine Keeps_ite (fun _ => Keeps_some (frame_trans hf (frame_set_hptr _ _ _))) (fun _ => ?_)
  refine Keeps_bind (Keeps_ite (fun _ => Keeps_of_frame ?_ (take_superpage_keeps _ t sph))
    (fun _ => Keeps_some ?_)) (fun r2 _ hf2 => Keeps_some (frame_trans hf2 (frame_set_hptr _ _ _)))
  all_goals
    refine frame_trans hf (frame_trans (frame_trans ?_ (frame_set_pbh _ _ _)) (frame_set_sph _ _ _))
    split <;> exact frame_SET_NEXT _ _ _

theorem pbh_add_blocks_keeps (s : State) (t pbh start_blk end_blk N : Nat) :
    KeepsS s (pbh_add_blocks s t pbh start_blk end_blk N) := by
  unfold pbh_add_blocks
  simp only [Option.bind_eq_bind, Option.pure_def]
  refine KeepsS_bindP (fun sph _ => ?_)
  refine KeepsS_bind (Keeps_ite (fun _ => remote_free_keeps s t pbh _ _ _)
    (fun _ => Keeps_some (frame_refl s))) (fun r _ hf => ?_)
  refine KeepsS_ite (fun _ => KeepsS_some hf) (fun _ => ?_)
  refine KeepsS_bindP (fun blocks _ => ?_)
  refine KeepsS_ite (fun _ => ?_) (fun _ => ?_)
  · refine KeepsS_bindS (KeepsS_of_frame hf (pbh_list_remove_keeps _ t _ pbh)) (fun s1 _ hf1 => ?_)
    exact KeepsS_of_frame hf1 (pb_free_keeps s1 t pbh)
  · refine KeepsS_bindS (KeepsS_ite
      (fun _ => KeepsS_of_frame hf (pbh_list_move_to_first_keeps _ t _ pbh))
      (fun _ => KeepsS_some hf)) (fun s1 _ hf1 => KeepsS_some ?_)
    exact frame_trans hf1 (frame_trans (frame_SET_NEXT _ _ _) (frame_set_pbh _ _ _))

theorem tlh_return_list_loop_keeps (t : Nat) :
    ∀ (fuel : Nat) (s : State) (prev_blk curr_blk blk_list prev_page_id blk_pbh cont_num : Nat),
      ∀ r, tlh_return_list_loop t fuel s prev_blk curr_blk blk_list prev_page_id blk_pbh
        cont_num = some r → frame s r.1 := by
  intro fuel
  induction fuel with
  | zero =>
    intro s _ _ _ _ _ _ r h
    unfold tlh_return_list_loop at h
    cases h
  | succ n ih =>
    intro s prev_blk curr_blk blk_list prev_page_id blk_pbh cont_num r h
    unfold tlh_return_list_loop at h
    by_cases h1 : curr_blk = 0
    · rw [if_pos h1] at h
      cases h
      exact frame_refl s
    · rw [if_neg h1] at h
      by_cases h2 : curr_blk >>> PAGE_SHIFT = prev_page_id
      · simp only [h2, if_true] at h
        exact ih _ _ _ _ _ _ _ r h
      · simp only [h2, if_false, Option.bind_eq_some] at h
        obtain ⟨⟨pbh, s1⟩, hg, h⟩ := h
        have f1 := pagemap_get_keeps s t _ _ hg
        simp only at h f1
        by_cases h3 : pbh = blk_pbh
        · rw [if_pos h3] at h
          exact frame_trans f1 (ih _ _ _ _ _ _ _ r h)
        · rw [if_neg h3, Option.bind_eq_some] at h
          obtain ⟨s2, ha, h⟩ := h
          have f2 := pbh_add_blocks_keeps s1 t _ _ _ _ s2 ha
          exact frame_trans f1 (frame_trans f2 (ih _ _ _ _ _ _ _ r h))

theorem tlh_return_list_keeps (s : State) (t cl : Nat) : KeepsS s (tlh_return_list s t cl) := by
  intro s' h
  unfold tlh_return_list at h
  simp only [Option.bind_eq_bind, Option.pure_def] at h
  split_ifs at h
  simp only [Option.bind_eq_some, Option.some.injEq] at h
  obtain ⟨r1, h1, r2, h2, s3, h3, h4⟩ := h
  subst h4
  have f1 := pagemap_get_keeps s t _ _ h1
  have f2 := tlh_return_list_loop_keeps t _ _ _ _ _ _ _ _ _ h2
  have f3 := pbh_add_blocks_keeps _ t _ _ _ _ s3 h3
  exact frame_trans f1 (frame_trans f2 (frame_trans f3 (frame_set_blk _ _ _ _)))

/-- A `free` in a live thread leaves the frame of the process alone when it frees
a small block locally. -/
theorem small_free_local_keeps (s : State) (t p cl th : Nat) :
    KeepsS s ((if ((s.thr t).blk_list cl).cnt_free ≥ th then tlh_return_list s t cl
      else some s).map fun s2 => blk_push s2 t cl p) :=
  KeepsS_map (KeepsS_ite (fun _ => tlh_return_list_keeps s t cl)
    (fun _ => KeepsS_some (frame_refl s))) (fun s1 => frame_blk_push s1 t cl p)

/-! ## Reuse of a freed block: the claim -/

/-- C9: in a live thread of an initialised process, let `p` be a block whose page
the PageMap registers to a small page block of class `cl` that the thread frees
locally: its status is not `AGAINST_FALSE_SHARING`, or the thread owns the superpage
(so is every block that `malloc(s)` hands out for a small `s` in a single thread).
Then `free(p)` returns when the free block list of the class is below its threshold,
and otherwise exactly when the `tlh_return_list` it triggers returns; after it `p`
heads the free block list of the class, and the next `malloc` of any size of class
`cl` returns `p`. -/
theorem freed_block_reused (s1 s1' : State) (t cl p pbh th : Nat)
    (hp : p ≠ 0) (hcl60 : cl < NUM_CLASSES)
    (hinit : s1.g_initialized ≠ 0) (hlive : (s1.thr t).thread_id ≠ 0)
    (hget : pagemap_get s1 t (p >>> PAGE_SHIFT) = some (pbh, s1'))
    (h0 : pbh ≠ 0) (hnh : pbh &&& HUGE_MALLOC_MARK = 0)
    (hcls : (s1.pbh pbh).sizeclass = cl)
    (hlocal : (s1.pbh pbh).status ≠ PBH_AGAINST_FALSE_SHARING ∨
      ∃ sph, pbh_get_superpage s1 pbh = some sph ∧
        (s1.sph sph).owner_id = (s1.thr t).thread_id)
    (hth : get_blocks_for_class cl = some th) :
    (((s1.thr t).blk_list cl).cnt_free < th → (free s1 t p).isSome) ∧
    (th ≤ ((s1.thr t).blk_list cl).cnt_free →
      ((free s1 t p).isSome ↔ (tlh_return_list s1' t cl).isSome)) ∧
    ∀ s2, free s1 t p = some s2 →
      ((s2.thr t).blk_list cl).free_blk_list = p ∧
      ∀ size', size' ≤ MAX_SIZE → get_sizeclass size' = some cl →
        ∃ s3, malloc s2 t size' = some (p, s3) := by
  obtain ⟨_, tag, leaf, hs1'⟩ := pagemap_get_state s1 t _ pbh s1' hget
  have hpbh : s1'.pbh = s1.pbh := by rw [hs1']; rfl
  have hsph : s1'.sph = s1.sph := by rw [hs1']; rfl
  have htid : (s1'.thr t).thread_id = (s1.thr t).thread_id := by
    rw [hs1']; simp [set_tlh, upd]
  have hblk : (s1'.thr t).blk_list = (s1.thr t).blk_list := by
    rw [hs1']; simp [set_tlh, upd]
  have hsup : pbh_get_superpage s1' pbh = pbh_get_superpage s1 pbh := by
    unfold pbh_get_superpage; rw [hpbh]
  have hfree : free s1 t p =
      (if ((s1.thr t).blk_list cl).cnt_free ≥ th then tlh_return_list s1' t cl
        else some s1').map fun s2 => blk_push s2 t cl p := by
    rw [free_small s1 s1' t p pbh hp hlive hget h0 hnh (by rw [hpbh, hcls]; exact hcl60),
      small_free_local s1' t p pbh cl th (by rw [hpbh]; exact hcls) hcl60 hth
        (by rw [hpbh, hsph, hsup, htid]; exact hlocal), hblk]
  have hth512 := num_blocks_le cl th hth
  refine ⟨?_, ?_, ?_⟩
  · intro hlt
    rw [hfree, if_neg (by omega)]
    rfl
  · intro hge
    rw [hfree, if_pos hge, Option.isSome_map']
  · intro s2 hs2
    rw [hfree] at hs2
    have hfr : frame s1 s2 :=
      frame_trans (pagemap_get_keeps s1 t _ _ hget) (small_free_local_keeps s1' t p cl _ s2
        (by rw [hblk]; exact hs2))
    have hi : s2.g_initialized ≠ 0 := by rw [hfr.2.1]; exact hinit
    have ht : (s2.thr t).thread_id ≠ 0 := by rw [hfr.2.2 t]; exact hlive
    have hpush : ∃ s', s2 = blk_push s' t cl p ∧
        u32 (((s'.thr t).blk_list cl).cnt_free + 1) > 0 := by
      by_cases hge : ((s1.thr t).blk_list cl).cnt_free ≥ th
      · rw [if_pos hge, Option.map_eq_some'] at hs2
        obtain ⟨s', hs', rfl⟩ := hs2
        refine ⟨s', rfl, ?_⟩
        rw [(tlh_return_list_empties _ _ _ _ hs').2]
        decide
      · rw [if_neg hge] at hs2
        simp only [Option.map_some', Option.some.injEq] at hs2
        refine ⟨s1', hs2.symm, ?_⟩
        rw [hblk]
        unfold u32
        omega
    obtain ⟨s', rfl, hc⟩ := hpush
    obtain ⟨hb, s3, h3⟩ := small_malloc_after_push s' t cl p hp hcl60 hc
    refine ⟨by rw [hb], ?_⟩
    intro size' hsz' hcl'
    exact ⟨s3, by rw [malloc_small_live _ t size' cl hsz' hcl' hi ht, h3]⟩


set_option maxRecDepth 100000 in
theorem flush_heap_facts :
    flush_heap.1 = 0x1100a000 ∧ flush_heap.2.g_initialized = 1 ∧
    (flush_heap.2.thr 0).thread_id = 1 ∧
    (flush_heap.2.pbh 0x11001240).sizeclass = 59 ∧
    (flush_heap.2.pbh 0x11001240).status = PBH_IN_USE ∧
    ((flush_heap.2.thr 0).blk_list 59).cnt_free = 1 ∧
    (tlh_return_list flush_heap.2 0 59).isSome = true := by
  decide!

set_option maxRecDepth 100000 in
theorem flush_heap_lookup :
    pagemap_get flush_heap.2 0 (flush_heap.1 >>> PAGE_SHIFT) = some (0x11001240, flush_heap.2) := by
  rfl

set_option maxRecDepth 100000 in
theorem freed_block_reused_witness :
    ((flush_heap.2.thr 0).blk_list 59).cnt_free = 1 ∧
    get_blocks_for_class 59 = some 1 ∧
    ∃ s2, free flush_heap.2 0 flush_heap.1 = some s2 ∧
      ∃ s3, malloc s2 0 32768 = some (flush_heap.1, s3) := by
  obtain ⟨hp, hi, ht, hc, hst, hcnt, hfl⟩ := flush_heap_facts
  have hth : get_blocks_for_class 59 = some 1 := by decide
  have h := freed_block_reused flush_heap.2 flush_heap.2 0 59 flush_heap.1 0x11001240 1
    (by rw [hp]; decide) (by decide) (by rw [hi]; decide) (by rw [ht]; decide)
    flush_heap_lookup (by decide) (by decide) hc (Or.inl (by rw [hst]; decide)) hth
  have hsome : (free flush_heap.2 0 flush_heap.1).isSome = true :=
    (h.2.1 (by rw [hcnt])).mpr hfl
  obtain ⟨s2, hs2⟩ := Option.isSome_iff_exists.mp hsome
  exact ⟨hcnt, hth, s2, hs2, (h.2.2 s2 hs2).2 32768 (by decide) (by decide!)⟩

/-! ## Round trip of `malloc` and `free` -/

/-- Storing back the link word just read leaves the memory as it is. -/
theorem SET_NEXT_GET_NEXT (s s2 : State) (p : Nat) (hm : s2.mem = s.mem) :
    SET_NEXT s2 p (GET_NEXT s p) = s2 := by
  have hg : GET_NEXT s p = (s.mem (p + 0)).val + 256 * ((s.mem (p + 1)).val + 256 *
      ((s.mem (p + 2)).val + 256 * ((s.mem (p + 3)).val + 256 * ((s.mem (p + 4)).val + 256 *
      ((s.mem (p + 5)).val + 256 * ((s.mem (p + 6)).val + 256 *
      ((s.mem (p + 7)).val + 256 * 0))))))) := rfl
  have hv : ∀ x, p ≤ x ∧ x < p + 8 →
      (Fin.ofNat (u64 (GET_NEXT s p) / 256 ^ (x - p)) : Fin 256) = s.mem x := by
    intro x hx
    obtain ⟨i, rfl⟩ : ∃ i, x = p + i := ⟨x - p, by omega⟩
    have hi : i < 8 := by omega
    rw [Nat.add_sub_cancel_left]
    apply Fin.ext
    show (u64 (GET_NEXT s p) / 256 ^ i) % 256 = (s.mem (p + i)).val
    rw [hg, u64]
    have h0 := (s.mem (p + 0)).isLt
    have h1 := (s.mem (p + 1)).isLt
    have h2 := (s.mem (p + 2)).isLt
    have h3 := (s.mem (p + 3)).isLt
    have h4 := (s.mem (p + 4)).isLt
    have h5 := (s.mem (p + 5)).isLt
    have h6 := (s.mem (p + 6)).isLt
    have h7 := (s.mem (p + 7)).isLt
    interval_cases i <;> norm_num <;> omega
  have hmem : (fun x => if p ≤ x ∧ x < p + 8 then
      (Fin.ofNat (u64 (GET_NEXT s p) / 256 ^ (x - p)) : Fin 256) else s2.mem x) = s2.mem := by
    funext x
    by_cases hx : p ≤ x ∧ x < p + 8
    · rw [if_pos hx, hv x hx, hm]
    · rw [if_neg hx]
  unfold SET_NEXT
  rw [hmem]

theorem upd_upd {α : Type} (f : Nat → α) (k : Nat) (a b : α) :
    upd (upd f k a) k b = upd f k b := by
  funext x; unfold upd; split <;> rfl

theorem upd_self {α : Type} (f : Nat → α) (k : Nat) : upd f k (f k) = f := by
  funext x; unfold upd; split <;> simp_all

/-- Writing one entry of `blk_list` and then its former value gives the state back. -/
theorem set_blk_undo (s : State) (t cl : Nat) (v : blk_list_t) :
    set_blk (set_blk s t cl v) t cl ((s.thr t).blk_list cl) = s := by
  simp [set_blk, set_tlh, upd_same, upd_upd, upd_self]

theorem set_blk_thr (s : State) (t cl : Nat) (v : blk_list_t) :
    ((set_blk s t cl v).thr t) = { s.thr t with blk_list := upd (s.thr t).blk_list cl v } := by
  simp [set_blk, set_tlh, upd]

theorem pagemap_cache_load_set_blk (s s' : State) (t cl tag : Nat) (v : blk_list_t)
    (h : pagemap_cache_load s t tag = some s') :
    pagemap_cache_load (set_blk s t cl v) t tag = some (set_blk s' t cl v) ∧
    (s'.thr t).blk_list = (s.thr t).blk_list ∧ s'.mem = s.mem ∧ s'.pbh = s.pbh ∧
    s'.sph = s.sph ∧ (s'.thr t).thread_id = (s.thr t).thread_id ∧
    s'.pm_val = s.pm_val := by
  unfold pagemap_cache_load at h ⊢
  rw [set_blk_thr]
  by_cases h1 : (s.thr t).l_pagemap_tag ≠ tag
  · rw [if_pos h1] at h
    rw [if_pos h1]
    by_cases h2 : tag >>> PMAP_INTERIOR_BIT < PMAP_INTERIOR_LEN
    · by_cases h3 : s.pm_node (tag >>> PMAP_INTERIOR_BIT) = 0
      · simp [h2, h3] at h
      · simp only [h2, h3, not_true_eq_false, if_false, Option.some.injEq] at h
        subst h
        have h3' : (set_blk s t cl v).pm_node (tag >>> PMAP_INTERIOR_BIT) ≠ 0 := h3
        simp only [h2, h3', not_true_eq_false, if_false]
        simp [set_blk, set_tlh, upd_same, upd_upd]
    · simp [h2] at h
  · rw [if_neg h1] at h
    rw [if_neg h1]
    cases h
    simp

/-- A PageMap lookup is not affected by a write into `blk_list`, and commutes with it. -/
theorem pagemap_get_set_blk (s s' : State) (t cl pg val : Nat) (v : blk_list_t)
    (h : pagemap_get s t pg = some (val, s')) :
    pagemap_get (set_blk s t cl v) t pg = some (val, set_blk s' t cl v) ∧
    (s'.thr t).blk_list = (s.thr t).blk_list ∧ s'.mem = s.mem ∧ s'.pbh = s.pbh ∧
    s'.sph = s.sph ∧ (s'.thr t).thread_id = (s.thr t).thread_id := by
  by_cases hc : s.cfg.MALLOC_USE_PAGEMAP_CACHE = true
  · have hc' : (set_blk s t cl v).cfg.MALLOC_USE_PAGEMAP_CACHE = true := hc
    simp only [pagemap_get, hc, if_true, Option.bind_eq_some] at h
    obtain ⟨s2, hl, h⟩ := h
    obtain ⟨hl', hb, hm, hp, hs, ht, hv⟩ := pagemap_cache_load_set_blk s s2 t cl _ v hl
    by_cases h0 : (s2.thr t).l_pagemap_leaf = 0
    · simp [h0] at h
    · simp only [h0, if_false, Option.some.injEq, Prod.mk.injEq] at h
      obtain ⟨hval, rfl⟩ := h
      refine ⟨?_, hb, hm, hp, hs, ht⟩
      simp only [pagemap_get, hc', if_true, hl', Option.some_bind]
      have e1 : ((set_blk s2 t cl v).thr t).l_pagemap_leaf = (s2.thr t).l_pagemap_leaf := by
        rw [set_blk_thr]
      have e2 : (set_blk s2 t cl v).pm_val = s2.pm_val := rfl
      rw [e1, e2, if_neg h0, hval]
  · have hc' : ¬ (set_blk s t cl v).cfg.MALLOC_USE_PAGEMAP_CACHE = true := hc
    have hs : s' = s := ((pagemap_get_state s t pg val s' h).1 (by simpa using hc))
    subst hs
    refine ⟨?_, rfl, rfl, rfl, rfl, rfl⟩
    simp only [pagemap_get, hc, hc'] at h ⊢
    exact (by
      split_ifs at h ⊢ <;> simp_all [set_blk, set_tlh])

/-- In a live thread, when the free block list of the class of a
small size `size` is not empty, holds at most the threshold of the class, and its
first block `p` lies on a page that the PageMap registers to a page block of that
class which the thread frees locally, then `malloc(size)` returns `p` and the
`free(p)` that follows returns the whole heap to the state `s'` that a PageMap
lookup of that page leaves from the prior state `s`: `s` itself without the leaf
cache, and `s` up to the two leaf-cache fields of the thread with it. -/
theorem small_round_trip (s s' : State) (t size cl p pbh th : Nat)
    (hsize : size ≤ MAX_SIZE) (hcl : get_sizeclass size = some cl)
    (hinit : s.g_initialized ≠ 0) (hlive : (s.thr t).thread_id ≠ 0)
    (hhead : ((s.thr t).blk_list cl).free_blk_list = p) (hp : p ≠ 0)
    (hcnt0 : 0 < ((s.thr t).blk_list cl).cnt_free)
    (hth : get_blocks_for_class cl = some th)
    (hcnt : ((s.thr t).blk_list cl).cnt_free ≤ th)
    (hget : pagemap_get s t (p >>> PAGE_SHIFT) = some (pbh, s'))
    (h0 : pbh ≠ 0) (hnh : pbh &&& HUGE_MALLOC_MARK = 0)
    (hcls : (s.pbh pbh).sizeclass = cl)
    (hlocal : (s.pbh pbh).status ≠ PBH_AGAINST_FALSE_SHARING ∨
      ∃ sph, pbh_get_superpage s pbh = some sph ∧
        (s.sph sph).owner_id = (s.thr t).thread_id) :
    (s.cfg.MALLOC_USE_PAGEMAP_CACHE = false → s' = s) ∧
    (∃ tag leaf, s' = set_tlh s t
      { s.thr t with l_pagemap_tag := tag, l_pagemap_leaf := leaf }) ∧
    ∃ s1, malloc s t size = some (p, s1) ∧ free s1 t p = some s' := by
  obtain ⟨hnc, hst⟩ := pagemap_get_state s t _ _ _ hget
  refine ⟨hnc, hst, ?_⟩
  obtain ⟨cl', hcl', hcl60, _⟩ := sizeclass_some size hsize
  rw [hcl] at hcl'
  cases hcl'
  have hn : ¬ ¬ cl < NUM_CLASSES := not_not.mpr hcl60
  have hth512 := num_blocks_le cl th hth
  have hm : malloc s t size = some (p, set_blk s t cl { (s.thr t).blk_list cl with
      free_blk_list := GET_NEXT s p,
      cnt_free := sub32 ((s.thr t).blk_list cl).cnt_free 1 }) := by
    rw [malloc_small_live s t size cl hsize hcl hinit hlive]
    unfold small_malloc
    have hp' : ((s.thr t).blk_list cl).free_blk_list ≠ 0 := by rw [hhead]; exact hp
    have hc' : ((s.thr t).blk_list cl).cnt_free > 0 := hcnt0
    simp only [hn, hp', hc', if_false, if_true, ne_eq, not_false_eq_true, not_true_eq_false,
      Option.bind_eq_bind, Option.pure_def]
    rw [hhead]
  refine ⟨_, hm, ?_⟩
  obtain ⟨hget1, hb, hmem, hpbh, hsph, htid⟩ := pagemap_get_set_blk s s' t cl _ pbh
    { (s.thr t).blk_list cl with
      free_blk_list := GET_NEXT s p,
      cnt_free := sub32 ((s.thr t).blk_list cl).cnt_free 1 } hget
  have hc1 : 0 < ((s.thr t).blk_list cl).cnt_free := hcnt0
  have hsub : sub32 ((s.thr t).blk_list cl).cnt_free 1 = ((s.thr t).blk_list cl).cnt_free - 1 := by
    unfold sub32; omega
  have hfree := free_small _ _ t p pbh hp (by rw [set_blk_thr]; exact hlive) hget1 h0 hnh
    (by show (s'.pbh pbh).sizeclass < NUM_CLASSES
        rw [hpbh, hcls]; exact hcl60)
  have hloc := small_free_local (set_blk s' t cl { (s.thr t).blk_list cl with
      free_blk_list := GET_NEXT s p,
      cnt_free := sub32 ((s.thr t).blk_list cl).cnt_free 1 }) t p pbh cl th
    (by show (s'.pbh pbh).sizeclass = cl
        rw [hpbh, hcls]) hcl60 hth
    (by
      rcases hlocal with h | ⟨sph, h1, h2⟩
      · left
        show (s'.pbh pbh).status ≠ PBH_AGAINST_FALSE_SHARING
        rw [hpbh]; exact h
      · right
        refine ⟨sph, ?_, ?_⟩
        · have e : (set_blk s' t cl { (s.thr t).blk_list cl with
              free_blk_list := GET_NEXT s p,
              cnt_free := sub32 ((s.thr t).blk_list cl).cnt_free 1 }).pbh = s.pbh := hpbh
          unfold pbh_get_superpage at h1 ⊢
          rw [e]; exact h1
        · show (s'.sph sph).owner_id = _
          rw [set_blk_thr, hsph, htid]; exact h2)
  rw [hfree, hloc]
  have hcnt1 : ¬ (((set_blk s' t cl { (s.thr t).blk_list cl with
      free_blk_list := GET_NEXT s p,
      cnt_free := sub32 ((s.thr t).blk_list cl).cnt_free 1 }).thr t).blk_list cl).cnt_free ≥ th := by
    rw [set_blk_thr]
    simp only [upd, if_true, hsub]
    omega
  rw [if_neg hcnt1]
  simp only [Option.map_some', Option.some.injEq]
  unfold blk_push
  have hbv : ((set_blk s' t cl { (s.thr t).blk_list cl with
      free_blk_list := GET_NEXT s p,
      cnt_free := sub32 ((s.thr t).blk_list cl).cnt_free 1 }).thr t).blk_list cl =
      { (s.thr t).blk_list cl with
        free_blk_list := GET_NEXT s p,
        cnt_free := sub32 ((s.thr t).blk_list cl).cnt_free 1 } := by
    rw [set_blk_thr]
    simp [upd]
  simp only [hbv]
  rw [SET_NEXT_GET_NEXT s _ p (by show s'.mem = s.mem; exact hmem)]
  have hback : ({ (s.thr t).blk_list cl with
      free_blk_list := p,
      cnt_free := u32 (sub32 ((s.thr t).blk_list cl).cnt_free 1 + 1) } : blk_list_t) =
      (s'.thr t).blk_list cl := by
    rw [hb, hsub]
    have : u32 (((s.thr t).blk_list cl).cnt_free - 1 + 1) = ((s.thr t).blk_list cl).cnt_free := by
      unfold u32; omega
    rw [this, ← hhead]
  have hgoal := set_blk_undo s' t cl { (s.thr t).blk_list cl with
      free_blk_list := GET_NEXT s p,
      cnt_free := sub32 ((s.thr t).blk_list cl).cnt_free 1 }
  rw [← hback] at hgoal
  exact hgoal

set_option maxRecDepth 100000 in
/-- On the heap of a thread that holds one block of 100 bytes, the round trip of a
large size gives back the observed shape, and the round trip of a huge size unmaps
the block and clears its PageMap entry. -/
theorem large_huge_round_trip :
    ([32769, 1000000].map fun size =>
      (round_trip warm_heap.2 0 size).map fun r =>
        (r.1, heap_shape warm_heap.2 0 (r.1 >>> PAGE_SHIFT) 0,
          heap_shape r.2 0 (r.1 >>> PAGE_SHIFT) 0, r.2.os_unmapped)) =
    [some (0x11003000, (0x11001080, (0, 0), [(61, 0x11001080)], 0x11001000),
        (0x11001080, (0, 0), [(61, 0x11001080)], 0x11001000), []),
      some (0x14001000, (0, (0, 0), [(61, 0x11001080)], 0x11001000),
        (0, (0, 0), [(61, 0x11001080)], 0x11001000), [(0x14001000, 1003520)])] := by
  rfl

set_option maxRecDepth 100000 in
theorem steady_heap_facts :
    steady_heap.1 = 0x11002000 ∧ steady_heap.2.g_initialized = 1 ∧
    (steady_heap.2.thr 0).thread_id = 1 ∧
    ((steady_heap.2.thr 0).blk_list 0).free_blk_list = 0x11002000 ∧
    ((steady_heap.2.thr 0).blk_list 0).cnt_free = 8 ∧
    (steady_heap.2.pbh 0x11001040).sizeclass = 0 ∧
    pbh_get_superpage steady_heap.2 0x11001040 = some 0x11001000 ∧
    (steady_heap.2.sph 0x11001000).owner_id = 1 := by
  decide!

set_option maxRecDepth 100000 in
theorem steady_heap_lookup :
    pagemap_get steady_heap.2 0 (steady_heap.1 >>> PAGE_SHIFT) =
      some (0x11001040, steady_heap.2) := by
  rfl

/-! ## Huge blocks -/

theorem GET_PAGE_LEN_huge (size : Nat) (h : NUM_PAGE_CLASSES * PAGE_SIZE < size) :
    ¬ size ≤ MAX_SIZE ∧ ¬ GET_PAGE_LEN size ≤ NUM_PAGE_CLASSES ∧
    GET_PAGE_LEN size = (size + 4095) / 4096 := by
  have e1 : size >>> 12 = size / 4096 := by rw [Nat.shiftRight_eq_div_pow]
  have e2 : size &&& 4095 = size % 4096 := Nat.and_pow_two_sub_one_eq_mod size 12
  simp only [NUM_PAGE_CLASSES, PAGE_SIZE, PAGE_SHIFT, MAX_SIZE, GET_PAGE_LEN,
    Nat.shiftLeft_eq, Nat.one_mul] at h ⊢
  norm_num at h ⊢
  rw [e1, e2]
  split_ifs <;> omega

/-- In a live thread of an initialised process, `malloc` of more than 62 pages is
`huge_malloc` of the page count. -/
theorem malloc_huge_live (s : State) (t size : Nat) (h : NUM_PAGE_CLASSES * PAGE_SIZE < size)
    (hi : s.g_initialized ≠ 0) (ht : (s.thr t).thread_id ≠ 0) :
    malloc s t size = huge_malloc s t (GET_PAGE_LEN size) := by
  obtain ⟨h1, h2, _⟩ := GET_PAGE_LEN_huge size h
  unfold malloc
  by_cases hc : s.cfg.MALLOC_NEED_INIT = true
  · simp [hc, hi, ht, h1, h2]
  · simp [hc, hi, h1, h2]

theorem pm_index_split (pg : Nat) :
    (pg >>> PMAP_LEAF_BIT) >>> PMAP_INTERIOR_BIT = pg >>> (PMAP_LEAF_BIT + PMAP_INTERIOR_BIT) := by
  rw [Nat.shiftRight_add]

theorem pm_index_lt (pg : Nat) (h : pg >>> PMAP_BITS = 0) :
    pg >>> (PMAP_LEAF_BIT + PMAP_INTERIOR_BIT) < PMAP_INTERIOR_LEN := by
  simp only [PMAP_BITS, PMAP_LEAF_BIT, PMAP_INTERIOR_BIT, PMAP_INTERIOR_LEN, MACHINE_BIT,
    PAGE_SHIFT, Nat.shiftRight_eq_div_pow, Nat.shiftLeft_eq] at h ⊢
  norm_num at h ⊢
  omega

/-- A write of the PageMap entry of a page that thread `t` can reach returns, and
the entry then reads back as written, with no further change of the state. -/
theorem pagemap_set_get (s : State) (t pg v : Nat) (h : pm_ready s t pg) :
    ∃ s', pagemap_set s t pg v = some s' ∧ pagemap_get s' t pg = some (v, s') ∧
      pm_ready s' t pg ∧ s'.os_unmapped = s.os_unmapped ∧ s'.cfg = s.cfg ∧
      s'.g_initialized = s.g_initialized ∧ (s'.thr t).thread_id = (s.thr t).thread_id := by
  unfold pm_ready at h
  by_cases hc : s.cfg.MALLOC_USE_PAGEMAP_CACHE = true
  · by_cases htag : (s.thr t).l_pagemap_tag = pg >>> PMAP_LEAF_BIT
    · rw [if_pos ⟨hc, htag⟩] at h
      have hl : pagemap_cache_load s t (pg >>> PMAP_LEAF_BIT) = some s := by
        unfold pagemap_cache_load
        rw [if_neg (not_not.mpr htag)]
      refine ⟨set_pm_val s (s.thr t).l_pagemap_leaf (pg &&& (PMAP_LEAF_LEN - 1)) v, ?_, ?_, ?_,
        rfl, rfl, rfl, rfl⟩
      · simp only [pagemap_set, hc, if_true, hl, Option.some_bind, h, if_false]
      · have hc' : (set_pm_val s (s.thr t).l_pagemap_leaf (pg &&& (PMAP_LEAF_LEN - 1)) v).cfg.MALLOC_USE_PAGEMAP_CACHE = true := hc
        have hl' : pagemap_cache_load (set_pm_val s (s.thr t).l_pagemap_leaf
            (pg &&& (PMAP_LEAF_LEN - 1)) v) t (pg >>> PMAP_LEAF_BIT) =
            some (set_pm_val s (s.thr t).l_pagemap_leaf (pg &&& (PMAP_LEAF_LEN - 1)) v) := by
          unfold pagemap_cache_load
          have : ((set_pm_val s (s.thr t).l_pagemap_leaf (pg &&& (PMAP_LEAF_LEN - 1)) v).thr t).l_pagemap_tag
              = pg >>> PMAP_LEAF_BIT := htag
          rw [if_neg (not_not.mpr this)]
        simp only [pagemap_get, hc', if_true, hl', Option.some_bind]
        have h' : ((set_pm_val s (s.thr t).l_pagemap_leaf (pg &&& (PMAP_LEAF_LEN - 1)) v).thr t).l_pagemap_leaf ≠ 0 := h
        rw [if_neg h']
        simp [set_pm_val, upd]
      · unfold pm_ready
        have hc' : (set_pm_val s (s.thr t).l_pagemap_leaf (pg &&& (PMAP_LEAF_LEN - 1)) v).cfg.MALLOC_USE_PAGEMAP_CACHE = true := hc
        have : ((set_pm_val s (s.thr t).l_pagemap_leaf (pg &&& (PMAP_LEAF_LEN - 1)) v).thr t).l_pagemap_tag
              = pg >>> PMAP_LEAF_BIT := htag
        rw [if_pos ⟨hc', this⟩]
        exact h
    · rw [if_neg (fun hh => htag hh.2)] at h
      obtain ⟨h1, h2, h3⟩ := h
      have hlt := pm_index_lt pg h1
      obtain ⟨lf, hlf⟩ : ∃ lf, lf = s.pm_leaf (s.pm_node (pg >>> (PMAP_LEAF_BIT + PMAP_INTERIOR_BIT)))
            ((pg >>> PMAP_LEAF_BIT) &&& (PMAP_INTERIOR_LEN - 1)) := ⟨_, rfl⟩
      rw [← hlf] at h3
      obtain ⟨s1, hs1⟩ : ∃ s1, s1 = set_tlh s t { s.thr t with
          l_pagemap_tag := pg >>> PMAP_LEAF_BIT, l_pagemap_leaf := lf } := ⟨_, rfl⟩
      have hl : pagemap_cache_load s t (pg >>> PMAP_LEAF_BIT) = some s1 := by
        unfold pagemap_cache_load
        rw [if_pos htag, pm_index_split, hs1, hlf]
        simp only [hlt, h2, not_true_eq_false, if_false]
      have hthr : s1.thr t = { s.thr t with
          l_pagemap_tag := pg >>> PMAP_LEAF_BIT, l_pagemap_leaf := lf } := by
        rw [hs1]; simp [set_tlh, upd]
      have hc1 : s1.cfg.MALLOC_USE_PAGEMAP_CACHE = true := by rw [hs1]; exact hc
      refine ⟨set_pm_val s1 lf (pg &&& (PMAP_LEAF_LEN - 1)) v, ?_, ?_, ?_, ?_, ?_, ?_, ?_⟩
      · simp only [pagemap_set, hc, if_true, hl, Option.some_bind, hthr, h3, if_false]
      · simp only [pagemap_get, pagemap_cache_load, set_pm_val, hc1, hthr, if_true, ne_eq,
          not_true_eq_false, if_false, Option.some_bind, h3]
        simp [upd]
      · unfold pm_ready
        simp only [set_pm_val, hthr, hc1, true_and, if_true]
        exact h3
      · rw [hs1]; rfl
      · rw [hs1]; rfl
      · rw [hs1]; rfl
      · simp only [set_pm_val, hthr]
  · rw [if_neg (fun hh => hc hh.1)] at h
    obtain ⟨h1, h2, h3⟩ := h
    refine ⟨set_pm_val s (s.pm_leaf (s.pm_node (pg >>> (PMAP_LEAF_BIT + PMAP_INTERIOR_BIT)))
      ((pg >>> PMAP_LEAF_BIT) &&& (PMAP_INTERIOR_LEN - 1))) (pg &&& (PMAP_LEAF_LEN - 1)) v, ?_, ?_, ?_,
      rfl, rfl, rfl, rfl⟩
    · simp only [pagemap_set, hc, h1, h2, h3, if_false, ne_eq, not_true_eq_false, Bool.false_eq_true]
    · simp only [pagemap_get, set_pm_val, hc, h1, h2, h3, if_false, ne_eq, not_true_eq_false,
        Bool.false_eq_true]
      simp [upd]
    · unfold pm_ready
      simp only [set_pm_val, hc, false_and, if_false]
      exact ⟨h1, h2, h3⟩

theorem do_mmap_some (s : State) (n a : Nat) (h : s.os_mmap s.os_calls n = some a) :
    do_mmap s n = some (a, zero_range { s with os_calls := s.os_calls + 1 } a n) := by
  unfold do_mmap
  rw [h]

/-- One round of `pagemap_expand` returns when `mmap` answers with addresses other
than `NULL`, and leaves the three levels in place for its key. -/
theorem pagemap_expand_round_has (s : State) (key : Nat) (hkey : key >>> PMAP_BITS = 0)
    (hos : ∀ k n, ∃ a, s.os_mmap k n = some a ∧ a ≠ 0) :
    ∃ s', pagemap_expand_round s key =
        some (s', u64 (((key >>> PMAP_LEAF_BIT) + 1) <<< PMAP_LEAF_BIT)) ∧
      pm_has s' key ∧ s'.thr = s.thr ∧ s'.cfg = s.cfg ∧
      s'.os_unmapped = s.os_unmapped ∧ s'.g_initialized = s.g_initialized ∧
      s'.os_mmap = s.os_mmap := by
  have hlt := pm_index_lt key hkey
  have hlt2 : (key >>> PMAP_LEAF_BIT) &&& (PMAP_INTERIOR_LEN - 1) < PMAP_INTERIOR_LEN := by
    have : PMAP_INTERIOR_LEN = 2 ^ 17 := by decide
    rw [this, Nat.and_pow_two_sub_one_eq_mod]
    exact Nat.mod_lt _ (by decide)
  -- the interior node
  obtain ⟨s1, hr1, hn1, ht1, hc1, hu1, hi1, ho1⟩ : ∃ s1,
      (if s.pm_node (key >>> (PMAP_LEAF_BIT + PMAP_INTERIOR_BIT)) = 0 then
        (do_mmap s (PMAP_INTERIOR_LEN * 8)).map fun (x : Nat × State) =>
          { x.2 with pm_node := upd x.2.pm_node (key >>> (PMAP_LEAF_BIT + PMAP_INTERIOR_BIT)) x.1 }
       else some s) = some s1 ∧
      s1.pm_node (key >>> (PMAP_LEAF_BIT + PMAP_INTERIOR_BIT)) ≠ 0 ∧ s1.thr = s.thr ∧
      s1.cfg = s.cfg ∧ s1.os_unmapped = s.os_unmapped ∧ s1.g_initialized = s.g_initialized ∧
      s1.os_mmap = s.os_mmap := by
    by_cases h0 : s.pm_node (key >>> (PMAP_LEAF_BIT + PMAP_INTERIOR_BIT)) = 0
    · obtain ⟨a, ha, ha0⟩ := hos s.os_calls (PMAP_INTERIOR_LEN * 8)
      rw [if_pos h0, do_mmap_some s _ a ha]
      refine ⟨_, rfl, ?_, rfl, rfl, rfl, rfl, rfl⟩
      simp [upd, ha0]
    · rw [if_neg h0]
      exact ⟨s, rfl, h0, rfl, rfl, rfl, rfl, rfl⟩
  -- the leaf
  obtain ⟨s2, hr2, hn2, hl2, ht2, hc2, hu2, hi2, ho2⟩ : ∃ s2,
      (if s1.pm_leaf (s1.pm_node (key >>> (PMAP_LEAF_BIT + PMAP_INTERIOR_BIT)))
          ((key >>> PMAP_LEAF_BIT) &&& (PMAP_INTERIOR_LEN - 1)) = 0 then
        (do_mmap s1 (PMAP_LEAF_LEN * 8)).map fun (x : Nat × State) =>
          { x.2 with pm_leaf := (upd x.2.pm_leaf
              (s1.pm_node (key >>> (PMAP_LEAF_BIT + PMAP_INTERIOR_BIT)))
              (upd (x.2.pm_leaf (s1.pm_node (key >>> (PMAP_LEAF_BIT + PMAP_INTERIOR_BIT))))
                ((key >>> PMAP_LEAF_BIT) &&& (PMAP_INTERIOR_LEN - 1)) x.1)) }
       else some s1) = some s2 ∧
      s2.pm_node (key >>> (PMAP_LEAF_BIT + PMAP_INTERIOR_BIT)) =
        s1.pm_node (key >>> (PMAP_LEAF_BIT + PMAP_INTERIOR_BIT)) ∧
      s2.pm_leaf (s1.pm_node (key >>> (PMAP_LEAF_BIT + PMAP_INTERIOR_BIT)))
          ((key >>> PMAP_LEAF_BIT) &&& (PMAP_INTERIOR_LEN - 1)) ≠ 0 ∧ s2.thr = s1.thr ∧
      s2.cfg = s1.cfg ∧ s2.os_unmapped = s1.os_unmapped ∧ s2.g_initialized = s1.g_initialized ∧
      s2.os_mmap = s1.os_mmap := by
    by_cases h0 : s1.pm_leaf (s1.pm_node (key >>> (PMAP_LEAF_BIT + PMAP_INTERIOR_BIT)))
          ((key >>> PMAP_LEAF_BIT) &&& (PMAP_INTERIOR_LEN - 1)) = 0
    · obtain ⟨a, ha, ha0⟩ := hos s1.os_calls (PMAP_LEAF_LEN * 8)
      rw [← ho1] at ha
      rw [if_pos h0, do_mmap_some s1 _ a ha]
      refine ⟨_, rfl, rfl, ?_, rfl, rfl, rfl, rfl, rfl⟩
      simp [upd, ha0]
    · rw [if_neg h0]
      exact ⟨s1, rfl, rfl, h0, rfl, rfl, rfl, rfl, rfl⟩
  refine ⟨s2, ?_, ⟨hkey, by rw [hn2]; exact hn1, by rw [hn2]; exact hl2⟩, ht2.trans ht1,
    hc2.trans hc1, hu2.trans hu1, hi2.trans hi1, ho2.trans ho1⟩
  unfold pagemap_expand_round
  have hnn : ¬ ¬ (key >>> (PMAP_LEAF_BIT + PMAP_INTERIOR_BIT) < PMAP_INTERIOR_LEN ∧
      (key >>> PMAP_LEAF_BIT) &&& (PMAP_INTERIOR_LEN - 1) < PMAP_INTERIOR_LEN) :=
    not_not.mpr ⟨hlt, hlt2⟩
  simp only [hnn, if_false]
  refine Option.bind_eq_some.mpr ⟨s1, hr1, ?_⟩
  rw [if_neg hn1]
  exact Option.map_eq_some'.mpr ⟨s2, hr2, rfl⟩

/-- The call `pagemap_expand(page_id, 1)` returns when `mmap` answers with addresses
other than `NULL`, and leaves the three levels in place for the page. -/
theorem pagemap_expand_one (s : State) (pg : Nat) (hpg : pg >>> PMAP_BITS = 0)
    (hos : ∀ k n, ∃ a, s.os_mmap k n = some a ∧ a ≠ 0) :
    ∃ s', pagemap_expand s pg 1 = some s' ∧ pm_has s' pg ∧ s'.thr = s.thr ∧ s'.cfg = s.cfg ∧
      s'.os_unmapped = s.os_unmapped ∧ s'.g_initialized = s.g_initialized := by
  obtain ⟨s', hr, hh, ht, hc, hu, hi, _⟩ := pagemap_expand_round_has s pg hpg hos
  refine ⟨s', ?_, hh, ht, hc, hu, hi⟩
  have hpg52 : pg < 2 ^ 52 := by
    simp only [PMAP_BITS, MACHINE_BIT, PAGE_SHIFT, Nat.shiftRight_eq_div_pow] at hpg
    norm_num at hpg
    omega
  have hlim : u64 (pg + 1) = pg + 1 := by unfold u64; omega
  have hkey : ¬ u64 (((pg >>> PMAP_LEAF_BIT) + 1) <<< PMAP_LEAF_BIT) < pg + 1 := by
    simp only [PMAP_LEAF_BIT, PMAP_BITS, PMAP_INTERIOR_BIT, MACHINE_BIT, PAGE_SHIFT, u64,
      Nat.shiftRight_eq_div_pow, Nat.shiftLeft_eq]
    norm_num
    omega
  have e1 : ∀ (limit fuel : Nat) (s : State) (key : Nat),
      pagemap_expand_loop limit (fuel + 1) s key =
        if key < limit then
          (pagemap_expand_round s key).bind fun (x : State × Nat) =>
            pagemap_expand_loop limit fuel x.1 x.2
        else some s := fun _ _ _ _ => rfl
  have e0 : ∀ (limit : Nat) (s : State) (key : Nat), pagemap_expand_loop limit 0 s key =
      if key < limit then none else some s := fun _ _ _ => rfl
  unfold pagemap_expand
  rw [hlim, e1 (pg + 1) 0 s pg, if_pos (Nat.lt_succ_self pg), hr, Option.some_bind, e0,
    if_neg hkey]

theorem or_one_of_even (n : Nat) (h : n % 2 = 0) : n ||| 1 = n + 1 ∧ (n ||| 1) &&& 1 = 1 := by
  obtain ⟨k, rfl⟩ : ∃ k, n = 2 * k := ⟨n / 2, by omega⟩
  have e : (2 * k) ||| 1 = 2 * k + 1 := by
    apply Nat.eq_of_testBit_eq
    intro i
    cases i with
    | zero => simp [Nat.testBit_or, Nat.testBit_zero]; omega
    | succ i =>
      simp only [Nat.testBit_succ]
      have h1 : 2 * k / 2 = k := by omega
      have h2 : (2 * k + 1) / 2 = k := by omega
      have h3 : 1 / 2 = 0 := by decide
      rw [Nat.or_div_two, h1, h2, h3, Nat.or_zero]
  refine ⟨e, ?_⟩
  rw [e, Nat.and_one_is_mod]
  omega

/-- C11 (what holds): in a live thread of an initialised process, for a request
of more than 62 pages, when `mmap` answers the request with `p` and answers every
request with an address other than `NULL`, `malloc(size)` returns `p`; the PageMap
entry of the page of `p` is the size of the mapping, `GET_PAGE_LEN(size)` pages in
bytes (the request rounded up to whole pages, as a `size_t`), with the low bit set;
and `free(p)` then unmaps exactly the bytes of the mapping at `p` and resets the
entry to `NULL`. -/
theorem huge_malloc_free (s : State) (t size p : Nat)
    (hsize : NUM_PAGE_CLASSES * PAGE_SIZE < size)
    (hinit : s.g_initialized ≠ 0) (hlive : (s.thr t).thread_id ≠ 0)
    (hos : ∀ k n, ∃ a, s.os_mmap k n = some a ∧ a ≠ 0)
    (hmm : s.os_mmap s.os_calls (u64 (GET_PAGE_LEN size <<< PAGE_SHIFT)) = some p)
    (hp : p < 2 ^ 64)
    (hcache : s.cfg.MALLOC_USE_PAGEMAP_CACHE = true →
      (s.thr t).l_pagemap_tag = (p >>> PAGE_SHIFT) >>> PMAP_LEAF_BIT →
      (s.thr t).l_pagemap_leaf ≠ 0) :
    GET_PAGE_LEN size = (size + 4095) / 4096 ∧
    ∃ s1 s2, malloc s t size = some (p, s1) ∧
      pagemap_get s1 t (p >>> PAGE_SHIFT) =
        some (u64 (GET_PAGE_LEN size <<< PAGE_SHIFT) ||| HUGE_MALLOC_MARK, s1) ∧
      (u64 (GET_PAGE_LEN size <<< PAGE_SHIFT) ||| HUGE_MALLOC_MARK) &&& HUGE_MALLOC_MARK = 1 ∧
      (u64 (GET_PAGE_LEN size <<< PAGE_SHIFT) ||| HUGE_MALLOC_MARK) -
        ((u64 (GET_PAGE_LEN size <<< PAGE_SHIFT) ||| HUGE_MALLOC_MARK) &&& HUGE_MALLOC_MARK) =
        u64 (GET_PAGE_LEN size <<< PAGE_SHIFT) ∧
      free s1 t p = some s2 ∧
      s2.os_unmapped = (p, u64 (GET_PAGE_LEN size <<< PAGE_SHIFT)) :: s.os_unmapped ∧
      pagemap_get s2 t (p >>> PAGE_SHIFT) = some (0, s2) := by
  refine ⟨(GET_PAGE_LEN_huge size hsize).2.2, ?_⟩
  obtain ⟨sz, hsz⟩ : ∃ sz, sz = u64 (GET_PAGE_LEN size <<< PAGE_SHIFT) := ⟨_, rfl⟩
  rw [← hsz] at hmm ⊢
  have hev : sz % 2 = 0 := by
    rw [hsz]
    simp only [u64, PAGE_SHIFT, Nat.shiftLeft_eq]
    omega
  obtain ⟨hor, hand⟩ := or_one_of_even sz hev
  have hp0 : p ≠ 0 := by
    obtain ⟨a, ha, ha0⟩ := hos s.os_calls sz
    rw [hmm] at ha
    cases ha
    exact ha0
  have hpg : (p >>> PAGE_SHIFT) >>> PMAP_BITS = 0 := by
    simp only [PMAP_BITS, MACHINE_BIT, PAGE_SHIFT, Nat.shiftRight_eq_div_pow]
    norm_num
    omega
  -- the mapping
  obtain ⟨sA, hsA⟩ : ∃ sA, sA = zero_range { s with os_calls := s.os_calls + 1 } p sz := ⟨_, rfl⟩
  have hmap : do_mmap s sz = some (p, sA) := by rw [hsA]; exact do_mmap_some s sz p hmm
  -- the expansion of the PageMap
  obtain ⟨sB, hexp, hhas, htB, hcB, huB, hiB⟩ := pagemap_expand_one sA (p >>> PAGE_SHIFT) hpg
    (by rw [hsA]; exact hos)
  have hready : pm_ready sB t (p >>> PAGE_SHIFT) := by
    unfold pm_ready
    split_ifs with hh
    · rw [htB, hsA]
      refine hcache ?_ ?_
      · have := hh.1
        rw [hcB, hsA] at this
        exact this
      · have := hh.2
        rw [htB, hsA] at this
        exact this
    · exact hhas
  -- the entry
  obtain ⟨sC, hset, hgetC, hreadyC, huC, hcC, hiC, htC⟩ :=
    pagemap_set_get sB t (p >>> PAGE_SHIFT) (sz ||| HUGE_MALLOC_MARK) hready
  have hm : malloc s t size = some (p, sC) := by
    rw [malloc_huge_live s t size hsize hinit hlive]
    simp only [huge_malloc, ← hsz, hmap, Option.bind_eq_bind, Option.some_bind, Option.pure_def,
      hexp, hset]
  -- the free
  have hreadyD : pm_ready (do_munmap sC p sz) t (p >>> PAGE_SHIFT) := hreadyC
  obtain ⟨sD, hsetD, hgetD, _, huD, _, _, _⟩ :=
    pagemap_set_get (do_munmap sC p sz) t (p >>> PAGE_SHIFT) 0 hreadyD
  have hliveC : (sC.thr t).thread_id ≠ 0 := by
    rw [htC, htB, hsA]; exact hlive
  have hv0 : sz ||| HUGE_MALLOC_MARK ≠ 0 := by
    show sz ||| 1 ≠ 0
    rw [hor]; omega
  have hv1 : (sz ||| HUGE_MALLOC_MARK) &&& HUGE_MALLOC_MARK ≠ 0 := by
    show (sz ||| 1) &&& 1 ≠ 0
    rw [hand]; decide
  have hsub : (sz ||| HUGE_MALLOC_MARK) - ((sz ||| HUGE_MALLOC_MARK) &&& HUGE_MALLOC_MARK) = sz := by
    show (sz ||| 1) - ((sz ||| 1) &&& 1) = sz
    rw [hand, hor]; omega
  have hfree : free sC t p = some sD := by
    unfold free
    simp only [hliveC, and_false, if_false, Option.bind_eq_bind, Option.some_bind, hp0, hgetC,
      hv0, hv1, ne_eq, not_true_eq_false, not_false_eq_true, if_true, hsub, huge_free, hsetD]
  refine ⟨sC, sD, hm, hgetC, hand, hsub, hfree, ?_, hgetD⟩
  rw [huD]
  show (p, sz) :: sC.os_unmapped = _
  rw [huC, huB, hsA]
  rfl

set_option maxRecDepth 100000 in
/-- C11 (as stated, refuted): for `malloc(1000000)` the PageMap entry with the low bit
cleared is `1003520`, the 245 pages of the mapping, not the `1000000` bytes that
were requested; `free` unmaps `1003520` bytes. -/
theorem huge_entry_is_page_rounded :
    ((malloc warm_heap.2 0 1000000).bind fun r =>
      (pagemap_get r.2 0 (r.1 >>> PAGE_SHIFT)).bind fun v =>
        (free r.2 0 r.1).map fun s2 =>
          (v.1, v.1 - (v.1 &&& HUGE_MALLOC_MARK), s2.os_unmapped)) =
      some (1003521, 1003520, [(0x14001000, 1003520)]) := by
  rfl

set_option maxRecDepth 100000 in
theorem warm_heap_os :
    warm_heap.2.os_mmap = os_linear ∧ warm_heap.2.os_calls = 4 ∧
    warm_heap.2.g_initialized = 1 ∧ (warm_heap.2.thr 0).thread_id = 1 ∧
    warm_heap.2.cfg.MALLOC_USE_PAGEMAP_CACHE = false := by
  refine ⟨rfl, ?_, ?_, ?_, ?_⟩ <;> decide!

theorem huge_malloc_free_witness :
    ∃ s1 s2, malloc warm_heap.2 0 1000000 = some (0x14001000, s1) ∧
      pagemap_get s1 0 (0x14001000 >>> PAGE_SHIFT) =
        some (u64 (GET_PAGE_LEN 1000000 <<< PAGE_SHIFT) ||| HUGE_MALLOC_MARK, s1) ∧
      free s1 0 0x14001000 = some s2 ∧
      s2.os_unmapped =
        (0x14001000, u64 (GET_PAGE_LEN 1000000 <<< PAGE_SHIFT)) :: warm_heap.2.os_unmapped := by
  obtain ⟨ho, hk, hi, ht, hc⟩ := warm_heap_os
  obtain ⟨_, s1, s2, h1, h2, _, _, h3, h4, _⟩ :=
    huge_malloc_free warm_heap.2 0 1000000 0x14001000 (by decide) (by rw [hi]; decide)
      (by rw [ht]; decide)
      (by rw [ho]; intro k n; exact ⟨_, rfl, by omega⟩)
      (by rw [ho, hk]; rfl) (by decide)
      (by rw [hc]; intro h; exact absurd h (by decide))
  exact ⟨s1, s2, h1, h2, h3, h4⟩

/-! ## The alignment rule -/

theorem get_logfloor_eq_log (n : Nat) (h1 : 1 ≤ n) (h2 : n < 2 ^ 32) :
    get_logfloor n = some (Nat.log 2 n) := by
  have hk : Nat.log 2 n < 32 := Nat.log_lt_of_lt_pow (by omega) h2
  exact get_logfloor_spec n (Nat.log 2 n) hk (Nat.pow_log_le_self 2 (by omega))
    (Nat.lt_pow_succ_log_self (by decide) n)

theorem alignment_rule_small (s : Nat) (hs : s ≤ 32768) : alignment_rule s = small_alignment s := by
  unfold alignment_rule small_alignment
  have hlog : ∀ k, 2 ^ k ≤ s → s < 2 ^ (k + 1) → Nat.log 2 s = k := fun k h1 h2 =>
    Nat.log_eq_of_pow_le_of_lt_pow h1 h2
  have hM : MAX_SIZE = 32768 := by decide
  rw [hM]
  by_cases h1 : s < 16
  · simp [h1]
  · by_cases h2 : s ≤ 127
    · have : s < 256 := by omega
      simp [h1, h2, this]
    · by_cases h3 : s ≤ 2047
      · simp only [h1, h2, h3, if_false, if_true]
        by_cases a : s < 256
        · rw [hlog 7 (by norm_num; omega) (by norm_num; omega)]; simp [a]
        · by_cases b : s < 512
          · rw [hlog 8 (by norm_num; omega) (by norm_num; omega)]; simp [a, b]
          · by_cases c : s < 1024
            · rw [hlog 9 (by norm_num; omega) (by norm_num; omega)]; simp [a, b, c]
            · have d : s < 2048 := by omega
              rw [hlog 10 (by norm_num; omega) (by norm_num; omega)]; simp [a, b, c, d]
      · have e1 : ¬ s < 256 := by omega
        have e2 : ¬ s < 512 := by omega
        have e3 : ¬ s < 1024 := by omega
        have e4 : ¬ s < 2048 := by omega
        simp [h1, h2, h3, hs, e1, e2, e3, e4]

/-- C12: for every 32-bit size `s`, `get_alignment(s)` passes both of its assertions
and returns the alignment of the rule: 8 below 16, 16 for 16..127, `2^⌊log₂ s⌋ / 8`
for 128..2047, 256 for 2048..`MAX_SIZE`, the page size above. The result is a power
of two, it is at least 16 when `s ≥ 16`, between 128 and 2047 it is the largest
power of two that does not exceed `s / 8`, and `get_logfloor(n)` returns `⌊log₂ n⌋`
for every `n ≥ 1`. -/
theorem get_alignment_rule (s : Nat) (hs : s < 2 ^ 32) :
    get_alignment s = some (alignment_rule s) ∧
    (∃ k, alignment_rule s = 2 ^ k) ∧
    (16 ≤ s → 16 ≤ alignment_rule s) ∧
    (128 ≤ s → s ≤ 2047 → 8 * alignment_rule s ≤ s ∧ s < 16 * alignment_rule s) ∧
    (1 ≤ s → get_logfloor s = some (Nat.log 2 s)) := by
  have hget : get_alignment s = some (alignment_rule s) := by
    by_cases hsm : s ≤ 32768
    · rw [alignment_rule_small s hsm]; exact get_alignment_small s hsm
    · have hu : u32 s = s := by unfold u32; omega
      have hM : MAX_SIZE = 32768 := by decide
      have h1 : ¬ s < 16 := by omega
      have h2 : ¬ s ≤ 127 := by omega
      have h3 : ¬ s ≤ 2047 := by omega
      have hbig : s > MAX_SIZE := by rw [hM]; omega
      have hbig' : ¬ s ≤ MAX_SIZE := by omega
      unfold get_alignment alignment_rule
      simp only [hu, hbig, hbig', h1, h2, h3, if_true, if_false, Option.some_bind]
      rw [if_pos ⟨Or.inr (by decide), by decide⟩]
  have hu : u32 s = s := by unfold u32; omega
  have hasrt : (s < 16 ∨ alignment_rule s ≥ 16) ∧
      alignment_rule s &&& (alignment_rule s - 1) = 0 := by
    have h := hget
    unfold get_alignment at h
    simp only [Option.bind_eq_some, hu] at h
    obtain ⟨a, _, h⟩ := h
    split_ifs at h with hc
    cases h
    exact hc
  have h8 : s < 16 → alignment_rule s = 8 := by
    intro h; unfold alignment_rule; rw [if_pos h]
  have hne : alignment_rule s ≠ 0 := by
    rcases hasrt.1 with h | h
    · rw [h8 h]; decide
    · omega
  refine ⟨hget, pow2_of_and_pred _ hne hasrt.2, ?_, ?_, fun h1 => get_logfloor_eq_log s h1 hs⟩
  · intro h16
    rcases hasrt.1 with h | h
    · omega
    · exact h
  · intro h128 h2047
    rw [alignment_rule_small s (by omega)]
    unfold small_alignment
    split_ifs <;> omega

theorem get_alignment_rule_witness :
    get_alignment 1000 = some (alignment_rule 1000) ∧ get_alignment 1000 = some 64 ∧
    get_logfloor 1000 = some (Nat.log 2 1000) :=
  ⟨(get_alignment_rule 1000 (by norm_num)).1, by decide,
    (get_alignment_rule 1000 (by norm_num)).2.2.2.2 (by norm_num)⟩

/-! ## The sweep of a superpage at thread exit -/

set_option maxRecDepth 100000 in
/-- C13 (violated by the code): thread `0` holds the block `p` of `malloc(40000)`, a
large page block of 10 pages with status `IN_USE` and `sizeclass == NUM_CLASSES`
that the PageMap registers. `try_to_free_superpage` on its superpage counts no page
block in use, returns `true`, pushes the superpage onto the global free list with
`hazard_mark` set and clears the PageMap entry of `p`; the `free(p)` that follows
fails its assertion `val != NULL`. -/
theorem try_to_free_superpage_drops_large_block :
    large_heap.1 = 0x11002000 ∧
    (large_heap.2.thr 0).sp_list = 0x11001000 ∧
    pagemap_get_checked large_heap.2 (large_heap.1 >>> PAGE_SHIFT) = 0x11001040 ∧
    (large_heap.2.pbh 0x11001040).status = PBH_IN_USE ∧
    (large_heap.2.pbh 0x11001040).sizeclass = NUM_CLASSES ∧
    (large_heap.2.pbh 0x11001040).length = 10 ∧
    ((try_to_free_superpage large_heap.2 0 0x11001000).map fun r =>
      (r.1, pagemap_get_checked r.2 (large_heap.1 >>> PAGE_SHIFT), r.2.g_free_sp_list,
        r.2.g_free_sp_len, (r.2.sph 0x11001000).hazard_mark, (r.2.pbh 0x11001040).status,
        (free r.2 0 large_heap.1).isSome)) =
      some (true, 0, 0x11001000, 1, 1, PBH_IN_USE, false) := by
  refine ⟨by decide!, by decide!, by decide!, by decide!, by decide!, by decide!, ?_⟩
  rfl

/-! ## The release of a superpage and the hazard pointers -/

theorem no_pm_set_pm_val (s : State) (leaf i3 v : Nat) : no_pm (set_pm_val s leaf i3 v) = no_pm s :=
  rfl

theorem no_pm_set_cache (s : State) (t tag leaf : Nat) :
    no_pm (set_tlh s t { s.thr t with l_pagemap_tag := tag, l_pagemap_leaf := leaf }) = no_pm s := by
  have : (fun t' => clear_cache ((set_tlh s t
        { s.thr t with l_pagemap_tag := tag, l_pagemap_leaf := leaf }).thr t')) =
      fun t' => clear_cache (s.thr t') := by
    funext t'
    by_cases h : t' = t
    · subst h; simp [set_tlh, upd, clear_cache]
    · simp [set_tlh, upd, h]
  unfold no_pm
  rw [this]
  rfl

theorem pagemap_set_no_pm (s s' : State) (t pg v : Nat) (h : pagemap_set s t pg v = some s') :
    no_pm s' = no_pm s := by
  by_cases hc : s.cfg.MALLOC_USE_PAGEMAP_CACHE = true
  · simp only [pagemap_set, hc, if_true, Option.bind_eq_some] at h
    obtain ⟨s1, h1, h⟩ := h
    obtain ⟨tg, lf, rfl⟩ := pagemap_cache_load_state s t _ s1 h1
    split_ifs at h
    simp only [Option.some.injEq] at h
    subst h
    rw [no_pm_set_pm_val, no_pm_set_cache]
  · have hc' : s.cfg.MALLOC_USE_PAGEMAP_CACHE = false := by simpa using hc
    simp only [pagemap_set, hc', Bool.false_eq_true, if_false] at h
    split_ifs at h
    simp only [Option.some.injEq] at h
    subst h
    rfl

theorem pagemap_set_range_no_pm (t v : Nat) : ∀ (len : Nat) (s s' : State) (start : Nat),
    pagemap_set_range s t start len v = some s' → no_pm s' = no_pm s := by
  intro len
  induction len with
  | zero => intro s s' start h; cases h; rfl
  | succ n ih =>
    intro s s' start h
    unfold pagemap_set_range at h
    simp only [Option.bind_eq_some] at h
    obtain ⟨s1, h1, h2⟩ := h
    rw [ih s1 s' _ h2, pagemap_set_no_pm s s1 t start v h1]

/-- What two states share when they differ in PageMap values and leaf caches only. -/
theorem no_pm_fields (s s' : State) (h : no_pm s' = no_pm s) :
    s'.pbh = s.pbh ∧ s'.sph = s.sph ∧ s'.hptr = s.hptr ∧ s'.mem = s.mem ∧
    s'.pm_node = s.pm_node ∧ s'.pm_leaf = s.pm_leaf ∧
    s'.g_hazard_ptr_list = s.g_hazard_ptr_list ∧ s'.g_free_sp_len = s.g_free_sp_len ∧
    s'.g_free_sp_list = s.g_free_sp_list ∧ s'.g_thread_num = s.g_thread_num ∧
    s'.os_unmapped = s.os_unmapped ∧ s'.cfg = s.cfg ∧
    ∀ t, clear_cache (s'.thr t) = clear_cache (s.thr t) := by
  have key : ∀ {β : Type} (f : State → β), f (no_pm s') = f (no_pm s) := fun f => congrArg f h
  exact ⟨key State.pbh, key State.sph, key State.hptr, key State.mem, key State.pm_node,
    key State.pm_leaf, key State.g_hazard_ptr_list, key State.g_free_sp_len,
    key State.g_free_sp_list, key State.g_thread_num, key State.os_unmapped, key State.cfg,
    fun t => key (fun x => x.thr t)⟩

theorem scan_hazard_pointers_from_congr (s s' : State) (sph : Nat) (h : s'.hptr = s.hptr) :
    ∀ fuel hp, scan_hazard_pointers_from s' sph fuel hp = scan_hazard_pointers_from s sph fuel hp := by
  intro fuel
  induction fuel with
  | zero => intro hp; rfl
  | succ n ih =>
    intro hp
    simp only [scan_hazard_pointers_from, h, ih]

theorem scan_hazard_pointers_congr (s s' : State) (sph : Nat) (h : s'.hptr = s.hptr)
    (hl : s'.g_hazard_ptr_list = s.g_hazard_ptr_list) :
    scan_hazard_pointers s' sph = scan_hazard_pointers s sph := by
  unfold scan_hazard_pointers
  rw [hl]
  exact scan_hazard_pointers_from_congr s s' sph h _ _

theorem set_sph_hazard_mark (s : State) (a : Nat) (v : sph_t)
    (hv : v.hazard_mark = (s.sph a).hazard_mark) (b : Nat) :
    ((set_sph s a v).sph b).hazard_mark = (s.sph b).hazard_mark := by
  unfold set_sph upd
  by_cases h : b = a
  · subst h; simp [hv]
  · simp [h]

/-- The unlinking of a superpage from the superpage list of a thread changes the
links of superpage headers and `sp_list` only. -/
theorem sph_list_remove_globals (s sa : State) (t sph : Nat)
    (h : sph_list_remove s t sph = some sa) :
    sa.hptr = s.hptr ∧ sa.g_hazard_ptr_list = s.g_hazard_ptr_list ∧
    sa.g_free_sp_len = s.g_free_sp_len ∧ sa.g_free_sp_list = s.g_free_sp_list ∧
    sa.g_thread_num = s.g_thread_num ∧ sa.os_unmapped = s.os_unmapped ∧
    ∀ a, (sa.sph a).hazard_mark = (s.sph a).hazard_mark := by
  unfold sph_list_remove at h
  split_ifs at h with h1 h2 h3
  · cases h
    exact ⟨rfl, rfl, rfl, rfl, rfl, rfl, fun _ => rfl⟩
  · cases h
    refine ⟨rfl, rfl, rfl, rfl, rfl, rfl, fun a => ?_⟩
    unfold sph_link_init
    rw [set_sph_hazard_mark _ _ _ (by rfl), set_sph_hazard_mark _ _ _ (by rfl),
      set_sph_hazard_mark _ _ _ (by rfl)]
    rfl
  · cases h
    refine ⟨rfl, rfl, rfl, rfl, rfl, rfl, fun a => ?_⟩
    unfold sph_link_init
    rw [set_sph_hazard_mark _ _ _ (by rfl), set_sph_hazard_mark _ _ _ (by rfl),
      set_sph_hazard_mark _ _ _ (by rfl)]

/-- C14 (what holds): when the unlinking from the superpage list and the clearing of
the PageMap range return, `sph_free` keeps a superpage whose `hazard_mark` is set and
that a record of the hazard pointer list names: it pushes it onto the global free
superpage list and increments `g_free_sp_len`, whatever the length of the list, and
unmaps nothing. When `hazard_mark` is clear the hazard pointer list is not scanned:
the superpage is pushed if `g_free_sp_len` is below `2 * g_thread_num` and unmapped
otherwise, whatever the hazard records name. -/
theorem sph_free_hazard (s sa sb : State) (t sph : Nat)
    (hrem : sph_list_remove s t sph = some sa)
    (hset : pagemap_set_range sa t (sa.sph sph).start_page SUPERPAGE_LEN 0 = some sb) :
    ((s.sph sph).hazard_mark ≠ 0 → scan_hazard_pointers s sph = some true →
      ∃ s', sph_free s t sph = some s' ∧ s'.g_free_sp_list = sph ∧
        s'.g_free_sp_len = u32 (s.g_free_sp_len + 1) ∧
        (s'.sph sph).next = s.g_free_sp_list ∧ s'.os_unmapped = s.os_unmapped ∧
        (s'.sph sph).hazard_mark = (s.sph sph).hazard_mark) ∧
    ((s.sph sph).hazard_mark = 0 → s.g_free_sp_len < u32 (s.g_thread_num * 2) →
      ∃ s', sph_free s t sph = some s' ∧ s'.g_free_sp_list = sph ∧
        s'.g_free_sp_len = u32 (s.g_free_sp_len + 1) ∧
        (s'.sph sph).next = s.g_free_sp_list ∧ s'.os_unmapped = s.os_unmapped) ∧
    ((s.sph sph).hazard_mark = 0 → ¬ s.g_free_sp_len < u32 (s.g_thread_num * 2) →
      ∃ s', sph_free s t sph = some s' ∧
        s'.os_unmapped = (sph, SUPERPAGE_SIZE + SPH_SIZE) :: s.os_unmapped ∧
        s'.g_free_sp_list = s.g_free_sp_list ∧ s'.g_free_sp_len = s.g_free_sp_len) := by
  obtain ⟨hh, hl, hlen, hlist, hnum, hun, hmk⟩ := sph_list_remove_globals s sa t sph hrem
  have hpm := pagemap_set_range_no_pm t 0 _ sa sb _ hset
  obtain ⟨_, bsph, bh, _, _, _, bl, blen, blist, bnum, bun, _, _⟩ := no_pm_fields sa sb hpm
  have hmark : (sb.sph sph).hazard_mark = (s.sph sph).hazard_mark := by rw [bsph, hmk]
  have hscan : scan_hazard_pointers sb sph = scan_hazard_pointers s sph :=
    scan_hazard_pointers_congr s sb sph (bh.trans hh) (bl.trans hl)
  have hlen' : sb.g_free_sp_len = s.g_free_sp_len := blen.trans hlen
  have hnum' : sb.g_thread_num = s.g_thread_num := bnum.trans hnum
  have hlist' : sb.g_free_sp_list = s.g_free_sp_list := blist.trans hlist
  have hun' : sb.os_unmapped = s.os_unmapped := bun.trans hun
  have hpush : ∀ x : State, x.g_free_sp_len = s.g_free_sp_len → x.g_free_sp_list = s.g_free_sp_list →
      x.os_unmapped = s.os_unmapped →
      (set_g_free_sp_list (set_sph (set_g_free_sp_len x (u32 (x.g_free_sp_len + 1))) sph
        { (set_g_free_sp_len x (u32 (x.g_free_sp_len + 1))).sph sph with
          next := (set_g_free_sp_len x (u32 (x.g_free_sp_len + 1))).g_free_sp_list }) sph).g_free_sp_list
        = sph ∧
      (set_g_free_sp_list (set_sph (set_g_free_sp_len x (u32 (x.g_free_sp_len + 1))) sph
        { (set_g_free_sp_len x (u32 (x.g_free_sp_len + 1))).sph sph with
          next := (set_g_free_sp_len x (u32 (x.g_free_sp_len + 1))).g_free_sp_list }) sph).g_free_sp_len
        = u32 (s.g_free_sp_len + 1) ∧
      ((set_g_free_sp_list (set_sph (set_g_free_sp_len x (u32 (x.g_free_sp_len + 1))) sph
        { (set_g_free_sp_len x (u32 (x.g_free_sp_len + 1))).sph sph with
          next := (set_g_free_sp_len x (u32 (x.g_free_sp_len + 1))).g_free_sp_list }) sph).sph sph).next
        = s.g_free_sp_list ∧
      (set_g_free_sp_list (set_sph (set_g_free_sp_len x (u32 (x.g_free_sp_len + 1))) sph
        { (set_g_free_sp_len x (u32 (x.g_free_sp_len + 1))).sph sph with
          next := (set_g_free_sp_len x (u32 (x.g_free_sp_len + 1))).g_free_sp_list }) sph).os_unmapped
        = s.os_unmapped ∧
      ((set_g_free_sp_list (set_sph (set_g_free_sp_len x (u32 (x.g_free_sp_len + 1))) sph
        { (set_g_free_sp_len x (u32 (x.g_free_sp_len + 1))).sph sph with
          next := (set_g_free_sp_len x (u32 (x.g_free_sp_len + 1))).g_free_sp_list }) sph).sph sph).hazard_mark
        = (x.sph sph).hazard_mark := by
    intro x h1 h2 h3
    simp [set_g_free_sp_list, set_g_free_sp_len, set_sph, upd, h1, h2, h3]
  refine ⟨fun hm hs => ?_, fun hm hlt => ?_, fun hm hge => ?_⟩
  · have hm' : (sb.sph sph).hazard_mark ≠ 0 := by rw [hmark]; exact hm
    obtain ⟨p1, p2, p3, p4, p5⟩ := hpush sb hlen' hlist' hun'
    refine ⟨_, ?_, p1, p2, p3, p4, p5.trans hmark⟩
    simp only [sph_free, hrem, hset, Option.bind_eq_bind, Option.some_bind, hm', ne_eq,
      not_false_eq_true, if_true, hscan, hs, true_or, Option.pure_def]
  · have hm' : (sb.sph sph).hazard_mark = 0 := by rw [hmark]; exact hm
    have hlt' : sb.g_free_sp_len < u32 (sb.g_thread_num * 2) := by rw [hlen', hnum']; exact hlt
    obtain ⟨p1, p2, p3, p4, _⟩ := hpush sb hlen' hlist' hun'
    refine ⟨_, ?_, p1, p2, p3, p4⟩
    simp only [sph_free, hrem, hset, Option.bind_eq_bind, Option.some_bind, hm', ne_eq,
      not_true_eq_false, if_false, hlt', or_true, if_true, Option.pure_def]
  · have hm' : (sb.sph sph).hazard_mark = 0 := by rw [hmark]; exact hm
    have hge' : ¬ sb.g_free_sp_len < u32 (sb.g_thread_num * 2) := by rw [hlen', hnum']; exact hge
    refine ⟨do_munmap sb sph (SUPERPAGE_SIZE + SPH_SIZE), ?_, ?_, hlist', hlen'⟩
    · simp only [sph_free, hrem, hset, Option.bind_eq_bind, Option.some_bind, hm', ne_eq,
        not_true_eq_false, if_false, hge', or_self, Option.pure_def, Bool.false_eq_true, false_or]
    · show (sph, SUPERPAGE_SIZE + SPH_SIZE) :: sb.os_unmapped = _
      rw [hun']

theorem some_getD_of_isSome {α : Type} (o : Option α) (d : α) (h : o.isSome = true) :
    o = some (o.getD d) := by
  cases o with
  | none => cases h
  | some a => rfl

set_option maxRecDepth 100000 in
/-- C14 (as stated, refuted): in a state where the hazard record of the thread names
the superpage, `hazard_mark` is clear and `g_free_sp_len` has reached the threshold
`2 * g_thread_num`, `sph_free` unmaps the superpage; so does the `free` of the only
block of the superpage, which ends in `sph_free`. -/
theorem sph_free_unmaps_hazardous :
    scan_hazard_pointers hazard_heap 0x11001000 = some true ∧
    (hazard_heap.sph 0x11001000).hazard_mark = 0 ∧
    hazard_heap.g_free_sp_len = 2 ∧ hazard_heap.g_thread_num = 1 ∧
    (sph_free hazard_heap 0 0x11001000).map
      (fun s => (s.os_unmapped, s.g_free_sp_list, s.g_free_sp_len)) =
      some ([(0x11001000, SUPERPAGE_SIZE + SPH_SIZE)], 0, 2) ∧
    (free hazard_heap 0 large_heap.1).map
      (fun s => (s.os_unmapped, s.g_free_sp_list, s.g_free_sp_len)) =
      some ([(0x11001000, SUPERPAGE_SIZE + SPH_SIZE)], 0, 2) := by
  refine ⟨by rfl, by decide!, by decide!, by decide!, by rfl, by rfl⟩

set_option maxRecDepth 100000 in
theorem hazard_heap_marked_steps :
    (sph_list_remove hazard_heap_marked 0 0x11001000).isSome = true ∧
    (pagemap_set_range ((sph_list_remove hazard_heap_marked 0 0x11001000).getD hazard_heap_marked) 0
      ((((sph_list_remove hazard_heap_marked 0 0x11001000).getD hazard_heap_marked).sph
        0x11001000).start_page) SUPERPAGE_LEN 0).isSome = true ∧
    (hazard_heap_marked.sph 0x11001000).hazard_mark = 1 ∧
    hazard_heap_marked.g_free_sp_len = 2 ∧ hazard_heap_marked.g_thread_num = 1 ∧
    hazard_heap_marked.g_free_sp_list = 0 := by
  refine ⟨by rfl, by rfl, by decide!, by decide!, by decide!, by decide!⟩

set_option maxRecDepth 100000 in
theorem hazard_heap_marked_scan :
    scan_hazard_pointers hazard_heap_marked 0x11001000 = some true := by
  rfl

theorem sph_free_hazard_witness :
    hazard_heap_marked.g_free_sp_len = 2 ∧ hazard_heap_marked.g_thread_num = 1 ∧
    ∃ s', sph_free hazard_heap_marked 0 0x11001000 = some s' ∧
      s'.g_free_sp_list = 0x11001000 ∧ s'.g_free_sp_len = 3 ∧
      s'.os_unmapped = hazard_heap_marked.os_unmapped := by
  obtain ⟨h1, h2, hm, hlen, hnum, _⟩ := hazard_heap_marked_steps
  obtain ⟨s', hs', a, b, _, c, _⟩ :=
    (sph_free_hazard hazard_heap_marked _ _ 0 0x11001000
      (some_getD_of_isSome _ hazard_heap_marked h1)
      (some_getD_of_isSome _
        ((sph_list_remove hazard_heap_marked 0 0x11001000).getD hazard_heap_marked) h2)).1
      (by rw [hm]; decide) hazard_heap_marked_scan
  exact ⟨hlen, hnum, s', hs', a, by rw [b, hlen]; decide, c⟩

/-! ## Remote free of a small block -/

theorem SET_NEXT_fields (s : State) (p n : Nat) :
    (SET_NEXT s p n).sph = s.sph ∧ (SET_NEXT s p n).pbh = s.pbh ∧
    (SET_NEXT s p n).thr = s.thr ∧ (SET_NEXT s p n).hptr = s.hptr :=
  ⟨rfl, rfl, rfl, rfl⟩

/-- A `remote_free` to a page block of a superpage whose owner is alive pushes the
blocks on the remote list of the page block and changes nothing else but the link
word of `last`, the `finish_mark` of the superpage and the hazard record. -/
theorem remote_free_live (s : State) (t pbh first last N sph size : Nat)
    (hsph : pbh_get_superpage s pbh = some sph)
    (hsize : get_size_for_class (s.pbh pbh).sizeclass = some size) (hsz0 : size ≠ 0)
    (hown : (s.sph sph).owner_id ≠ DEAD_OWNER) :
    ∃ s1, remote_free s t pbh first last N = some (true, s1) ∧
      s1.pbh = upd s.pbh pbh { s.pbh pbh with
        remote_head := u16 (sub64 first (u64 ((s.pbh pbh).start_page <<< PAGE_SHIFT)) / size),
        remote_cnt := u32 ((s.pbh pbh).remote_cnt + N) } ∧
      s1.thr = s.thr ∧ s1.cfg = s.cfg ∧ s1.g_initialized = s.g_initialized ∧
      s1.mem = (SET_NEXT s last (if (s.pbh pbh).remote_cnt = 0 then 0
        else u64 (u64 ((s.pbh pbh).start_page <<< PAGE_SHIFT) +
          u32 (size * (s.pbh pbh).remote_head)))).mem := by
  have hown' : ¬ (s.sph sph).owner_id = DEAD_OWNER := hown
  unfold remote_free
  simp only [hsph, hsize, hsz0, Option.bind_eq_bind, Option.some_bind, Option.pure_def,
    if_false]
  by_cases hc : (s.pbh pbh).remote_cnt = 0
  · have hc' : ((set_hptr s (s.thr t).hazard_ptr
        { s.hptr (s.thr t).hazard_ptr with node := sph }).pbh pbh).remote_cnt = 0 := hc
    have ho1 : ¬ ((set_hptr s (s.thr t).hazard_ptr
        { s.hptr (s.thr t).hazard_ptr with node := sph }).sph sph).owner_id = DEAD_OWNER := hown'
    rw [if_neg ho1]
    simp only [Option.some_bind, Bool.false_eq_true, if_false, hc', if_true]
    rw [if_neg (by simpa [set_sph, set_pbh, SET_NEXT, set_hptr, upd] using hown')]
    simp only [Option.some_bind]
    refine ⟨_, rfl, ?_, rfl, rfl, rfl, ?_⟩
    · simp [set_sph, set_pbh, SET_NEXT, set_hptr, hc]
    · simp [set_sph, set_pbh, SET_NEXT, set_hptr, hc]
  · have hc' : ¬ ((set_hptr s (s.thr t).hazard_ptr
        { s.hptr (s.thr t).hazard_ptr with node := sph }).pbh pbh).remote_cnt = 0 := hc
    have ho1 : ¬ ((set_hptr s (s.thr t).hazard_ptr
        { s.hptr (s.thr t).hazard_ptr with node := sph }).sph sph).owner_id = DEAD_OWNER := hown'
    rw [if_neg ho1]
    simp only [Option.some_bind, Bool.false_eq_true, if_false, hc']
    rw [if_neg (by simpa [set_sph, set_pbh, SET_NEXT, set_hptr, upd] using hown')]
    simp only [Option.some_bind]
    refine ⟨_, rfl, ?_, rfl, rfl, rfl, ?_⟩
    · simp [set_sph, set_pbh, SET_NEXT, set_hptr, hc]
    · simp [set_sph, set_pbh, SET_NEXT, set_hptr, hc]

/-- C15 (what holds): thread `a` owns the superpage of a page block of a class whose
block size is not a multiple of the cache line (status `AGAINST_FALSE_SHARING`), and
`p` is block number `k` of the page block. When another live thread `b` frees `p`,
the block goes on the remote list of the page block, which was empty: `cnt = 1` and
`head = k`; the free block lists of `b` are as before. When thread `a` then has no
free block and no unused chunk of the class and the page block is the first of the
class, with no free or unused block of its own, the next `malloc` of the class by
`a` returns `p` and empties the remote list. -/
theorem remote_free_then_drain (s s' : State) (a b p pbh sph cl size size' k : Nat)
    (hinit : s.g_initialized ≠ 0)
    (hla : (s.thr a).thread_id ≠ 0) (hlb : (s.thr b).thread_id ≠ 0) (hp : p ≠ 0)
    (hget : pagemap_get s b (p >>> PAGE_SHIFT) = some (pbh, s'))
    (h0 : pbh ≠ 0) (hnh : pbh &&& HUGE_MALLOC_MARK = 0)
    (hcls : (s.pbh pbh).sizeclass = cl) (hcl60 : cl < NUM_CLASSES)
    (hst : (s.pbh pbh).status = PBH_AGAINST_FALSE_SHARING)
    (hsph : pbh_get_superpage s pbh = some sph)
    (hown : (s.sph sph).owner_id = (s.thr a).thread_id)
    (hab : (s.thr a).thread_id ≠ (s.thr b).thread_id)
    (hsize : get_size_for_class cl = some size) (hsz0 : size ≠ 0)
    (hpk : p = u64 ((s.pbh pbh).start_page <<< PAGE_SHIFT) + size * k)
    (hk : k < 2 ^ 16) (hp64 : p < 2 ^ 64)
    (hrc : (s.pbh pbh).remote_cnt = 0)
    (hfl : ((s.thr a).blk_list cl).free_blk_list = 0)
    (hun : ((s.thr a).blk_list cl).ptr_to_unused = 0)
    (hpl : ((s.thr a).blk_list cl).pbh_list = pbh)
    (hcf : (s.pbh pbh).cnt_free = 0) (hcu : (s.pbh pbh).cnt_unused = 0)
    (hs' : size' ≤ MAX_SIZE) (hcl' : get_sizeclass size' = some cl) :
    ∃ s1, free s b p = some s1 ∧
      (s1.pbh pbh).remote_cnt = 1 ∧ (s1.pbh pbh).remote_head = k ∧
      (s1.thr b).blk_list = (s.thr b).blk_list ∧
      ∃ s2, malloc s1 a size' = some (p, s2) ∧ (s2.pbh pbh).remote_cnt = 0 := by
  have hne : a ≠ b := fun h => hab (by rw [h])
  obtain ⟨_, tag, leaf, hs'eq⟩ := pagemap_get_state s b _ _ _ hget
  have e_pbh : s'.pbh = s.pbh := by rw [hs'eq]; rfl
  have e_sph : s'.sph = s.sph := by rw [hs'eq]; rfl
  have e_tb : (s'.thr b).thread_id = (s.thr b).thread_id := by
    rw [hs'eq]; simp [set_tlh, upd]
  have e_bl : (s'.thr b).blk_list = (s.thr b).blk_list := by
    rw [hs'eq]; simp [set_tlh, upd]
  have e_ta : s'.thr a = s.thr a := by
    rw [hs'eq]; simp [set_tlh, upd, hne]
  have e_in : s'.g_initialized = s.g_initialized := by rw [hs'eq]; rfl
  have hsph' : pbh_get_superpage s' pbh = some sph := by
    unfold pbh_get_superpage at hsph ⊢
    rw [e_pbh]; exact hsph
  have hsize' : get_size_for_class (s'.pbh pbh).sizeclass = some size := by
    rw [e_pbh, hcls]; exact hsize
  have hown' : (s'.sph sph).owner_id ≠ DEAD_OWNER := by
    rw [e_sph, hown]; exact hla
  obtain ⟨s1, hrf, h1pbh, h1thr, h1cfg, h1in, h1mem⟩ :=
    remote_free_live s' b pbh p p 1 sph size hsph' hsize' hsz0 hown'
  have hfree : free s b p = some s1 := by
    rw [free_small s s' b p pbh hp hlb hget h0 hnh (by rw [e_pbh, hcls]; exact hcl60)]
    unfold small_free
    have hst' : (s'.pbh pbh).status = PBH_AGAINST_FALSE_SHARING := by rw [e_pbh]; exact hst
    have hown2 : (s'.sph sph).owner_id ≠ (s'.thr b).thread_id := by
      rw [e_sph, e_tb, hown]; exact hab
    simp only [hst', if_true, hsph', Option.bind_eq_bind, Option.some_bind, hown2, ne_eq,
      not_false_eq_true, hrf, Option.pure_def]
  have hidx : sub64 p (u64 ((s.pbh pbh).start_page <<< PAGE_SHIFT)) / size = k := by
    have hsz : 0 < size := Nat.pos_of_ne_zero hsz0
    have hlt : u64 ((s.pbh pbh).start_page <<< PAGE_SHIFT) < 2 ^ 64 := Nat.mod_lt _ (by norm_num)
    have hu : u64 ((s.pbh pbh).start_page <<< PAGE_SHIFT) % 2 ^ 64 =
        u64 ((s.pbh pbh).start_page <<< PAGE_SHIFT) := Nat.mod_eq_of_lt hlt
    unfold sub64
    rw [hu]
    have : (p + 2 ^ 64 - u64 ((s.pbh pbh).start_page <<< PAGE_SHIFT)) % 2 ^ 64 = size * k := by
      rw [hpk] at hp64 ⊢
      have : u64 ((s.pbh pbh).start_page <<< PAGE_SHIFT) + size * k + 2 ^ 64 -
          u64 ((s.pbh pbh).start_page <<< PAGE_SHIFT) = size * k + 2 ^ 64 := by omega
      rw [this, Nat.add_mod_right]
      exact Nat.mod_eq_of_lt (by omega)
    rw [this, Nat.mul_div_cancel_left k hsz]
  have hrc1 : (s1.pbh pbh).remote_cnt = 1 := by
    rw [h1pbh, e_pbh]; simp [upd, hrc, u32]
  have hrh1 : (s1.pbh pbh).remote_head = k := by
    rw [h1pbh, e_pbh]
    simp only [upd, if_true, hidx]
    unfold u16
    exact Nat.mod_eq_of_lt hk
  refine ⟨s1, hfree, hrc1, hrh1, by rw [h1thr]; exact e_bl, ?_⟩
  have h1a : s1.thr a = s.thr a := by rw [h1thr]; exact e_ta
  have hlive1 : (s1.thr a).thread_id ≠ 0 := by rw [h1a]; exact hla
  have hcf1 : (s1.pbh pbh).cnt_free = 0 := by rw [h1pbh, e_pbh]; simp [upd, hcf]
  have hcu1 : (s1.pbh pbh).cnt_unused = 0 := by rw [h1pbh, e_pbh]; simp [upd, hcu]
  have hsp1 : (s1.pbh pbh).start_page = (s.pbh pbh).start_page := by
    rw [h1pbh, e_pbh]; simp [upd]
  have hret : u64 (u64 ((s.pbh pbh).start_page <<< PAGE_SHIFT) + u64 (size * k)) = p := by
    have h1 : size * k < 2 ^ 64 := by omega
    have h2 : u64 (size * k) = size * k := Nat.mod_eq_of_lt h1
    rw [h2, ← hpk]
    exact Nat.mod_eq_of_lt hp64
  rw [malloc_small_live s1 a size' cl hs' hcl' (by rw [h1in, e_in]; exact hinit) hlive1]
  have hn : ¬ ¬ cl < NUM_CLASSES := not_not.mpr hcl60
  have c1 : ¬ ((s1.thr a).blk_list cl).free_blk_list ≠ 0 := by rw [h1a, hfl]; simp
  have c2 : ¬ ((s1.thr a).blk_list cl).ptr_to_unused ≠ 0 := by rw [h1a, hun]; simp
  have c3 : ((s1.thr a).blk_list cl).pbh_list = pbh := by rw [h1a, hpl]
  have c4 : ¬ (pbh ≠ 0 ∧ (s1.pbh pbh).cnt_free > 0) := by rw [hcf1]; simp
  have c5 : ¬ (pbh ≠ 0 ∧ (s1.pbh pbh).cnt_unused > 0) := by rw [hcu1]; simp
  have c6 : pbh ≠ 0 ∧ (s1.pbh pbh).remote_cnt > 0 := ⟨h0, by rw [hrc1]; decide⟩
  unfold small_malloc
  simp only [hn, if_false, c1, hsize, Option.bind_eq_bind, Option.some_bind, c2, c3,
    Option.pure_def]
  rw [if_neg c4, if_neg c5, if_pos c6]
  refine ⟨_, congrArg some (Prod.ext ?_ rfl), ?_⟩
  · show u64 (u64 (((set_pbh s1 pbh _).pbh pbh).start_page <<< PAGE_SHIFT) +
      u64 (size * (s1.pbh pbh).remote_head)) = p
    rw [hrh1]
    simp only [set_pbh, upd, if_true, hsp1]
    exact hret
  · simp [set_blk, set_tlh, set_pbh, upd]

set_option maxRecDepth 100000 in
/-- C15 (as stated, refuted): thread `0` allocates a block of 128 bytes and thread `1`,
which does not own the superpage, frees it. The page block of the class of 128 bytes
has status `IN_USE`, since 128 is a multiple of the cache line, so that the block is
pushed on the free block list of thread `1`, and the remote list of the page block
stays empty. -/
theorem cross_free_128_is_local :
    cross_freed_128.1 = 0x11002000 ∧ get_sizeclass 128 = some 8 ∧
    pagemap_get_checked cross_freed_128.2 (cross_freed_128.1 >>> PAGE_SHIFT) = 0x11001040 ∧
    (cross_freed_128.2.pbh 0x11001040).status = PBH_IN_USE ∧
    (cross_freed_128.2.pbh 0x11001040).remote_cnt = 0 ∧
    ((cross_freed_128.2.thr 1).blk_list 8).free_blk_list = cross_freed_128.1 ∧
    ((cross_freed_128.2.thr 1).blk_list 8).cnt_free = 1 ∧
    (cross_freed_128.2.sph 0x11001000).owner_id = (cross_freed_128.2.thr 0).thread_id ∧
    (cross_freed_128.2.thr 1).thread_id ≠ (cross_freed_128.2.thr 0).thread_id := by
  refine ⟨by decide!, by decide!, by decide!, by decide!, by decide!, by decide!, by decide!,
    by decide!, by decide!⟩

set_option maxRecDepth 100000 in
theorem remote_heap_facts :
    remote_heap.1 = 0x11002000 ∧ remote_heap.2.g_initialized = 1 ∧
    (remote_heap.2.thr 0).thread_id = 1 ∧ (remote_heap.2.thr 1).thread_id = 2 ∧
    (remote_heap.2.pbh 0x11001040).sizeclass = 7 ∧
    (remote_heap.2.pbh 0x11001040).status = PBH_AGAINST_FALSE_SHARING ∧
    pbh_get_superpage remote_heap.2 0x11001040 = some 0x11001000 ∧
    (remote_heap.2.sph 0x11001000).owner_id = 1 ∧
    (remote_heap.2.pbh 0x11001040).start_page = 0x11002 ∧
    (remote_heap.2.pbh 0x11001040).remote_cnt = 0 ∧
    ((remote_heap.2.thr 0).blk_list 7).free_blk_list = 0 ∧
    ((remote_heap.2.thr 0).blk_list 7).ptr_to_unused = 0 ∧
    ((remote_heap.2.thr 0).blk_list 7).pbh_list = 0x11001040 ∧
    (remote_heap.2.pbh 0x11001040).cnt_free = 0 ∧
    (remote_heap.2.pbh 0x11001040).cnt_unused = 0 := by
  refine ⟨by decide!, by decide!, by decide!, by decide!, by decide!, by decide!, by decide!,
    by decide!, by decide!, by decide!, by decide!, by decide!, by decide!, by decide!,
    by decide!⟩

set_option maxRecDepth 100000 in
theorem remote_heap_lookup :
    pagemap_get remote_heap.2 1 (remote_heap.1 >>> PAGE_SHIFT) =
      some (0x11001040, remote_heap.2) := by
  rfl

set_option maxRecDepth 100000 in
theorem remote_free_then_drain_witness :
    ∃ s1, free remote_heap.2 1 remote_heap.1 = some s1 ∧
      (s1.pbh 0x11001040).remote_cnt = 1 ∧ (s1.pbh 0x11001040).remote_head = 0 ∧
      (s1.thr 1).blk_list = (remote_heap.2.thr 1).blk_list ∧
      ∃ s2, malloc s1 0 100 = some (remote_heap.1, s2) ∧
        (s2.pbh 0x11001040).remote_cnt = 0 := by
  obtain ⟨hp, hi, ht0, ht1, hcl, hst, hsp, hown, hstart, hrc, hfl, hun, hpl, hcf, hcu⟩ :=
    remote_heap_facts
  exact remote_free_then_drain remote_heap.2 remote_heap.2 0 1 remote_heap.1 0x11001040
    0x11001000 7 112 100 0 (by rw [hi]; decide) (by rw [ht0]; decide) (by rw [ht1]; decide)
    (by rw [hp]; decide) remote_heap_lookup (by decide) (by decide) hcl (by decide) hst hsp
    (by rw [hown, ht0]) (by rw [ht0, ht1]; decide) (by decide) (by decide)
    (by rw [hp, hstart]; decide) (by decide) (by rw [hp]; decide) hrc hfl hun hpl hcf hcu
    (by decide) (by decide!)

/-! ## Reads and writes of a well-formed PageMap -/

theorem pagemap_get_checked_eq (s : State) (pg : Nat) :
    (pm_has s pg →
      pagemap_get_checked s pg = s.pm_val (pm_leaf_of s pg) (pg &&& (PMAP_LEAF_LEN - 1))) ∧
    (¬ pm_has s pg → pagemap_get_checked s pg = 0) := by
  unfold pagemap_get_checked pm_has pm_leaf_of
  by_cases h1 : pg >>> PMAP_BITS = 0
  · by_cases h2 : s.pm_node (pg >>> (PMAP_LEAF_BIT + PMAP_INTERIOR_BIT)) = 0
    · simp [h1, h2]
    · by_cases h3 : s.pm_leaf (s.pm_node (pg >>> (PMAP_LEAF_BIT + PMAP_INTERIOR_BIT)))
          ((pg >>> PMAP_LEAF_BIT) &&& (PMAP_INTERIOR_LEN - 1)) = 0
      · simp [h1, h2, h3]
      · simp [h1, h2, h3]
  · have : pg >>> PMAP_BITS > 0 := Nat.pos_of_ne_zero h1
    simp [h1, this]

theorem pm_page_split (pg : Nat) :
    pg = (pg >>> PMAP_LEAF_BIT) * 2 ^ 18 + (pg &&& (PMAP_LEAF_LEN - 1)) := by
  have e1 : PMAP_LEAF_BIT = 18 := by decide
  have e2 : PMAP_LEAF_LEN - 1 = 2 ^ 18 - 1 := by decide
  rw [e1, e2, Nat.and_pow_two_sub_one_eq_mod, Nat.shiftRight_eq_div_pow]
  omega

/-- A write of the PageMap entry of a page whose levels exist, by a thread whose
leaf cache is sound, stores the value in the leaf of the tree. -/
theorem pagemap_set_spec (s : State) (t pg v : Nat) (hh : pm_has s pg) (hc : cache_ok s t) :
    ∃ s', pagemap_set s t pg v = some s' ∧ no_pm s' = no_pm s ∧ cache_ok s' t ∧
      s'.pm_val = upd s.pm_val (pm_leaf_of s pg)
        (upd (s.pm_val (pm_leaf_of s pg)) (pg &&& (PMAP_LEAF_LEN - 1)) v) := by
  obtain ⟨h1, h2, h3⟩ := hh
  by_cases hcfg : s.cfg.MALLOC_USE_PAGEMAP_CACHE = true
  · have hck := hc hcfg
    by_cases htag : (s.thr t).l_pagemap_tag = pg >>> PMAP_LEAF_BIT
    · -- the cache holds the leaf
      have hlf : (s.thr t).l_pagemap_leaf = pm_leaf_of s pg := by
        rw [hck, htag, pm_index_split]; rfl
      have hl : pagemap_cache_load s t (pg >>> PMAP_LEAF_BIT) = some s := by
        unfold pagemap_cache_load
        rw [if_neg (not_not.mpr htag)]
      have hne : ¬ pm_leaf_of s pg = 0 := h3
      refine ⟨set_pm_val s (pm_leaf_of s pg) (pg &&& (PMAP_LEAF_LEN - 1)) v, ?_, rfl, ?_, rfl⟩
      · simp only [pagemap_set, hcfg, if_true, hl, Option.some_bind, hlf, hne, if_false]
      · exact fun _ => hck
    · -- the cache is loaded from the tree
      have hlt := pm_index_lt pg h1
      obtain ⟨s1, hs1⟩ : ∃ s1, s1 = set_tlh s t { s.thr t with
          l_pagemap_tag := pg >>> PMAP_LEAF_BIT, l_pagemap_leaf := pm_leaf_of s pg } := ⟨_, rfl⟩
      have hl : pagemap_cache_load s t (pg >>> PMAP_LEAF_BIT) = some s1 := by
        unfold pagemap_cache_load
        rw [if_pos htag, pm_index_split, hs1]
        simp only [hlt, h2, not_true_eq_false, if_false]
        rfl
      have hthr : s1.thr t = { s.thr t with
          l_pagemap_tag := pg >>> PMAP_LEAF_BIT, l_pagemap_leaf := pm_leaf_of s pg } := by
        rw [hs1]; simp [set_tlh, upd]
      have hne : ¬ pm_leaf_of s pg = 0 := h3
      refine ⟨set_pm_val s1 (pm_leaf_of s pg) (pg &&& (PMAP_LEAF_LEN - 1)) v, ?_, ?_, ?_, ?_⟩
      · simp only [pagemap_set, hcfg, if_true, hl, Option.some_bind, hthr, hne, if_false]
      · rw [no_pm_set_pm_val, hs1, no_pm_set_cache]
      · intro _
        show (s1.thr t).l_pagemap_leaf = s1.pm_leaf (s1.pm_node ((s1.thr t).l_pagemap_tag >>>
          PMAP_INTERIOR_BIT)) ((s1.thr t).l_pagemap_tag &&& (PMAP_INTERIOR_LEN - 1))
        rw [hthr]
        simp only [pm_index_split]
        rw [hs1]
        rfl
      · rw [hs1]; rfl
  · have hcfg' : s.cfg.MALLOC_USE_PAGEMAP_CACHE = false := by simpa using hcfg
    refine ⟨set_pm_val s (pm_leaf_of s pg) (pg &&& (PMAP_LEAF_LEN - 1)) v, ?_, rfl, ?_, rfl⟩
    · have h2' : ¬ s.pm_node (pg >>> (PMAP_LEAF_BIT + PMAP_INTERIOR_BIT)) = 0 := h2
      have h3' : ¬ s.pm_leaf (s.pm_node (pg >>> (PMAP_LEAF_BIT + PMAP_INTERIOR_BIT)))
          ((pg >>> PMAP_LEAF_BIT) &&& (PMAP_INTERIOR_LEN - 1)) = 0 := h3
      simp only [pagemap_set, hcfg', Bool.false_eq_true, if_false, h1, ne_eq, not_true_eq_false,
        h2', h3']
      rfl
    · intro h
      exact absurd h hcfg

theorem pm_has_congr (s s' : State) (hn : s'.pm_node = s.pm_node) (hl : s'.pm_leaf = s.pm_leaf)
    (pg : Nat) : (pm_has s' pg ↔ pm_has s pg) ∧ pm_leaf_of s' pg = pm_leaf_of s pg := by
  unfold pm_has pm_leaf_of
  rw [hn, hl]
  exact ⟨Iff.rfl, rfl⟩

theorem pm_inj_congr (s s' : State) (hn : s'.pm_node = s.pm_node) (hl : s'.pm_leaf = s.pm_leaf)
    (h : pm_inj s) : pm_inj s' := by
  intro pg pg' h1 h2 h3
  rw [(pm_has_congr s s' hn hl pg).2, (pm_has_congr s s' hn hl pg').2] at h3
  exact h pg pg' ((pm_has_congr s s' hn hl pg).1.mp h1) ((pm_has_congr s s' hn hl pg').1.mp h2) h3

/-- The PageMap after the write of one entry: the entry of the page is the value
written and the entries of the other pages are as before. -/
theorem pagemap_set_read (s s' : State) (pg v : Nat) (hh : pm_has s pg) (hinj : pm_inj s)
    (hn : s'.pm_node = s.pm_node) (hl : s'.pm_leaf = s.pm_leaf)
    (hval : s'.pm_val = upd s.pm_val (pm_leaf_of s pg)
      (upd (s.pm_val (pm_leaf_of s pg)) (pg &&& (PMAP_LEAF_LEN - 1)) v)) (q : Nat) :
    pagemap_get_checked s' q = if q = pg then v else pagemap_get_checked s q := by
  obtain ⟨hiff, hlf⟩ := pm_has_congr s s' hn hl q
  by_cases hq : pm_has s q
  · rw [(pagemap_get_checked_eq s' q).1 (hiff.mpr hq), hlf, hval]
    by_cases hlq : pm_leaf_of s q = pm_leaf_of s pg
    · have htag := hinj q pg hq hh hlq
      by_cases hi3 : q &&& (PMAP_LEAF_LEN - 1) = pg &&& (PMAP_LEAF_LEN - 1)
      · have hqp : q = pg := by
          rw [pm_page_split q, pm_page_split pg, htag, hi3]
        simp [upd, hqp]
      · have hqp : q ≠ pg := fun h => hi3 (by rw [h])
        rw [if_neg hqp, (pagemap_get_checked_eq s q).1 hq]
        simp [upd, hlq, hi3]
    · have hqp : q ≠ pg := fun h => hlq (by rw [h])
      rw [if_neg hqp, (pagemap_get_checked_eq s q).1 hq]
      simp [upd, hlq]
  · have hqp : q ≠ pg := fun h => hq (by rw [h]; exact hh)
    rw [if_neg hqp, (pagemap_get_checked_eq s' q).2 (fun h => hq (hiff.mp h)),
      (pagemap_get_checked_eq s q).2 hq]

/-- The call `pagemap_set_range(start, len, val)` by a thread whose leaf cache is
sound, over pages whose levels exist: it returns, the entries of the pages of the
range are `val`, and the entries of all other pages are as before. -/
theorem pagemap_set_range_spec (t v : Nat) : ∀ (len : Nat) (s : State) (start : Nat),
    (∀ i, i < len → pm_has s (start + i)) → cache_ok s t → pm_inj s →
    ∃ s', pagemap_set_range s t start len v = some s' ∧ no_pm s' = no_pm s ∧ cache_ok s' t ∧
      ∀ q, pagemap_get_checked s' q =
        if start ≤ q ∧ q < start + len then v else pagemap_get_checked s q := by
  intro len
  induction len with
  | zero =>
    intro s start _ hc _
    refine ⟨s, rfl, rfl, hc, fun q => ?_⟩
    rw [if_neg (by omega)]
  | succ n ih =>
    intro s start hh hc hinj
    obtain ⟨s1, h1, hpm1, hc1, hv1⟩ := pagemap_set_spec s t start v (by simpa using hh 0 (by omega)) hc
    obtain ⟨_, _, _, _, hn1, hl1, _⟩ := no_pm_fields s s1 hpm1
    have hread := pagemap_set_read s s1 start v (by simpa using hh 0 (by omega)) hinj hn1 hl1 hv1
    have hh1 : ∀ i, i < n → pm_has s1 (start + 1 + i) := by
      intro i hi
      have := hh (i + 1) (by omega)
      rw [show start + 1 + i = start + (i + 1) by omega]
      exact (pm_has_congr s s1 hn1 hl1 _).1.mpr this
    obtain ⟨s2, h2, hpm2, hc2, hv2⟩ := ih s1 (start + 1) hh1 hc1 (pm_inj_congr s s1 hn1 hl1 hinj)
    refine ⟨s2, ?_, hpm2.trans hpm1, hc2, fun q => ?_⟩
    · unfold pagemap_set_range
      rw [h1]
      exact h2
    · rw [hv2 q, hread q]
      by_cases a : q = start
      · subst a
        rw [if_neg (by omega), if_pos rfl, if_pos (by omega)]
      · rw [if_neg a]
        by_cases b : start + 1 ≤ q ∧ q < start + 1 + n
        · rw [if_pos b, if_pos (by omega)]
        · rw [if_neg b, if_neg (by omega)]

/-! ## The page block lists change links only -/

theorem no_links_set_pbh (s : State) (a : Nat) (v : pbh_t) (hv : pbh_data v = pbh_data (s.pbh a)) :
    no_links (set_pbh s a v) = no_links s := by
  have : (fun x => pbh_data ((set_pbh s a v).pbh x)) = fun x => pbh_data (s.pbh x) := by
    funext x
    by_cases h : x = a
    · subst h; simp [set_pbh, upd, hv]
    · simp [set_pbh, upd, h]
  unfold no_links
  rw [this]
  rfl

theorem no_links_set_list_head (s : State) (t : Nat) (r : pbh_list_ref) (v : Nat) :
    no_links (set_list_head s t r v) = no_links s := by
  have : (fun x => tlh_nolists ((set_list_head s t r v).thr x)) = fun x => tlh_nolists (s.thr x) := by
    funext x
    by_cases h : x = t
    · subst h
      cases r with
      | blk cl =>
        simp only [set_list_head, set_blk, set_tlh, upd, if_true, tlh_nolists]
        congr 1
        funext c
        by_cases hc : c = cl
        · subst hc; simp
        · simp [hc]
      | free_pb c => simp [set_list_head, set_free_pb, set_tlh, upd, tlh_nolists]
    · cases r with
      | blk cl => simp [set_list_head, set_blk, set_tlh, upd, h]
      | free_pb c => simp [set_list_head, set_free_pb, set_tlh, upd, h]
  unfold no_links
  rw [this]
  cases r <;> rfl

theorem no_links_pbh_link_init (s : State) (pbh : Nat) :
    no_links (pbh_link_init s pbh) = no_links s :=
  no_links_set_pbh s pbh _ rfl

theorem no_links_pbh_link_before (s : State) (top pbh : Nat) :
    no_links (pbh_link_before s top pbh) = no_links s := by
  unfold pbh_link_before
  simp only []
  rw [no_links_set_pbh _ _ _ (by rfl), no_links_set_pbh _ _ _ (by rfl),
    no_links_set_pbh _ _ _ (by rfl), no_links_set_pbh _ _ _ (by rfl)]

theorem no_links_pbh_unlink (s : State) (pbh : Nat) : no_links (pbh_unlink s pbh) = no_links s := by
  unfold pbh_unlink
  simp only []
  rw [no_links_set_pbh _ _ _ (by rfl), no_links_set_pbh _ _ _ (by rfl)]

theorem pbh_list_prepend_no_links (s s' : State) (t : Nat) (r : pbh_list_ref) (pbh : Nat)
    (h : pbh_list_prepend s t r pbh = some s') : no_links s' = no_links s := by
  unfold pbh_list_prepend at h
  split_ifs at h with h1 h2
  · simp only [Option.some.injEq] at h
    subst h
    rw [no_links_set_list_head, no_links_pbh_link_before]
  · simp only [Option.some.injEq] at h
    subst h
    rw [no_links_set_list_head, no_links_pbh_link_init]

theorem pbh_list_remove_no_links (s s' : State) (t : Nat) (r : pbh_list_ref) (pbh : Nat)
    (h : pbh_list_remove s t r pbh = some s') : no_links s' = no_links s := by
  unfold pbh_list_remove at h
  split_ifs at h with h1 h2 h3 h4
  · simp only [Option.some.injEq] at h
    subst h
    rw [no_links_set_list_head]
  · simp only [Option.some.injEq] at h
    subst h
    rw [no_links_pbh_link_init, no_links_pbh_unlink, no_links_set_list_head]
  · simp only [Option.some.injEq] at h
    subst h
    rw [no_links_pbh_link_init, no_links_pbh_unlink]

theorem pbh_list_pop_no_links (s s' : State) (t : Nat) (r : pbh_list_ref) (pbh : Nat)
    (h : pbh_list_pop s t r = some (pbh, s')) :
    no_links s' = no_links s ∧ pbh = list_head s t r ∧ pbh ≠ 0 := by
  simp only [pbh_list_pop] at h
  split_ifs at h with h1 h2 h3
  all_goals
    simp only [Option.some.injEq, Prod.mk.injEq] at h
    obtain ⟨hp, hs⟩ := h
    subst hs
    subst hp
    refine ⟨?_, rfl, h2⟩
    rw [no_links_pbh_link_init, no_links_pbh_unlink, no_links_set_list_head]

/-- What two states share when they differ in the links of the page block lists only. -/
theorem no_links_fields (s s' : State) (h : no_links s' = no_links s) :
    (∀ a, pbh_data (s'.pbh a) = pbh_data (s.pbh a)) ∧ s'.sph = s.sph ∧ s'.hptr = s.hptr ∧
    s'.mem = s.mem ∧ s'.pm_node = s.pm_node ∧ s'.pm_leaf = s.pm_leaf ∧ s'.pm_val = s.pm_val ∧
    s'.cfg = s.cfg ∧ (∀ t, tlh_nolists (s'.thr t) = tlh_nolists (s.thr t)) := by
  have key : ∀ {β : Type} (f : State → β), f (no_links s') = f (no_links s) :=
    fun f => congrArg f h
  exact ⟨fun a => key (fun x => x.pbh a), key State.sph, key State.hptr, key State.mem,
    key State.pm_node, key State.pm_leaf, key State.pm_val, key State.cfg,
    fun t => key (fun x => x.thr t)⟩

theorem pbh_data_fields (h h' : pbh_t) (e : pbh_data h' = pbh_data h) :
    h'.start_page = h.start_page ∧ h'.length = h.length ∧ h'.index = h.index ∧
    h'.sizeclass = h.sizeclass ∧ h'.status = h.status := by
  have key : ∀ {β : Type} (f : pbh_t → β), f (pbh_data h') = f (pbh_data h) :=
    fun f => congrArg f e
  exact ⟨key pbh_t.start_page, key pbh_t.length, key pbh_t.index, key pbh_t.sizeclass,
    key pbh_t.status⟩

theorem pagemap_get_checked_congr (s s' : State) (hn : s'.pm_node = s.pm_node)
    (hl : s'.pm_leaf = s.pm_leaf) (hv : s'.pm_val = s.pm_val) (q : Nat) :
    pagemap_get_checked s' q = pagemap_get_checked s q := by
  unfold pagemap_get_checked
  rw [hn, hl, hv]

/-! ## The effect of `pb_split` -/

theorem cache_ok_congr (s s' : State) (t : Nat) (hcfg : s'.cfg = s.cfg)
    (hn : s'.pm_node = s.pm_node) (hl : s'.pm_leaf = s.pm_leaf)
    (htag : (s'.thr t).l_pagemap_tag = (s.thr t).l_pagemap_tag)
    (hleaf : (s'.thr t).l_pagemap_leaf = (s.thr t).l_pagemap_leaf) (h : cache_ok s t) :
    cache_ok s' t := by
  unfold cache_ok at h ⊢
  rw [hcfg, hn, hl, htag, hleaf]
  exact h

theorem tlh_nolists_cache (x y : tlh_t) (h : tlh_nolists x = tlh_nolists y) :
    x.l_pagemap_tag = y.l_pagemap_tag ∧ x.l_pagemap_leaf = y.l_pagemap_leaf ∧
    x.thread_id = y.thread_id ∧ x.sp_list = y.sp_list ∧ x.hazard_ptr = y.hazard_ptr := by
  have key : ∀ {β : Type} (f : tlh_t → β), f (tlh_nolists x) = f (tlh_nolists y) :=
    fun f => congrArg f h
  exact ⟨key tlh_t.l_pagemap_tag, key tlh_t.l_pagemap_leaf, key tlh_t.thread_id,
    key tlh_t.sp_list, key tlh_t.hazard_ptr⟩

theorem pb_split_unfold (s : State) (t pbh len : Nat) :
    pb_split s t pbh len =
      if ¬ (s.pbh pbh).length > len then none else
      (pbh_get_superpage (set_pbh s pbh { s.pbh pbh with length := u8 len }) pbh).bind fun sph =>
      (pbh_alloc (set_pbh s pbh { s.pbh pbh with length := u8 len }) sph
        (u64 ((s.pbh pbh).start_page + len)) (sub64 (s.pbh pbh).length len)).bind fun r =>
      (free_pb_ref (sub64 (s.pbh pbh).length len)).bind fun ref =>
      (pbh_list_prepend (set_pbh r.2 r.1 { r.2.pbh r.1 with status := PBH_ON_FREE_LIST }) t ref
        r.1).bind fun s4 =>
      pagemap_set_range s4 t (u64 ((s.pbh pbh).start_page + len)) (sub64 (s.pbh pbh).length len)
        r.1 := by
  unfold pb_split
  by_cases h : (s.pbh pbh).length > len
  · simp only [h, not_true_eq_false, if_false, Option.bind_eq_bind, set_pbh, upd, if_true]
  · simp only [h, not_false_eq_true, if_true]

theorem list_head_set_list_head (s : State) (t : Nat) (r : pbh_list_ref) (v : Nat) :
    list_head (set_list_head s t r v) t r = v := by
  cases r with
  | blk cl => simp [list_head, set_list_head, set_blk, set_tlh, upd]
  | free_pb c => simp [list_head, set_list_head, set_free_pb, set_tlh, upd]

/-- The call `pbh_list_prepend(list, pbh)` on a list of the thread returns, makes
`pbh` the first of the list and changes links only. -/
theorem pbh_list_prepend_head (s : State) (t : Nat) (r : pbh_list_ref) (pbh : Nat)
    (hv : r.valid = true) :
    ∃ s', pbh_list_prepend s t r pbh = some s' ∧ list_head s' t r = pbh ∧
      no_links s' = no_links s := by
  unfold pbh_list_prepend
  rw [if_neg (not_not.mpr hv)]
  refine ⟨_, rfl, list_head_set_list_head _ _ _ _, ?_⟩
  rw [no_links_set_list_head]
  split
  · exact no_links_pbh_link_before _ _ _
  · exact no_links_pbh_link_init _ _

theorem clear_cache_lists (x y : tlh_t) (h : clear_cache x = clear_cache y) :
    x.free_pb_list = y.free_pb_list ∧ x.blk_list = y.blk_list ∧ x.sp_list = y.sp_list ∧
    x.thread_id = y.thread_id := by
  have key : ∀ {β : Type} (f : tlh_t → β), f (clear_cache x) = f (clear_cache y) :=
    fun f => congrArg f h
  exact ⟨key tlh_t.free_pb_list, key tlh_t.blk_list, key tlh_t.sp_list, key tlh_t.thread_id⟩

/-- The effect of `pb_split(tlh, pbh, n)` on a page block of a superpage whose header
sits in its slot: the call returns; the header keeps its first `n` pages; a new
header in the slot of page `start_page + n` takes the remaining pages, with status
`ON_FREE_LIST`, at the head of the free page block list of its length; the PageMap
entries of exactly the remaining pages name the new header; no other header changes
but in its links. -/
theorem pb_split_spec (s : State) (t pbh n sph : Nat)
    (hn : 1 ≤ n) (hL : n < (s.pbh pbh).length)
    (hst : (s.sph sph).start_page ≤ (s.pbh pbh).start_page)
    (hend : (s.pbh pbh).start_page + (s.pbh pbh).length ≤ (s.sph sph).start_page + SUPERPAGE_LEN)
    (hsp : (s.sph sph).start_page + SUPERPAGE_LEN < 2 ^ 52)
    (hidx : (s.pbh pbh).index = (s.pbh pbh).start_page - (s.sph sph).start_page + 1)
    (haddr : pbh = sph + PBH_SIZE * (s.pbh pbh).index)
    (h64 : sph + PBH_SIZE * (SUPERPAGE_LEN + 1) < 2 ^ 64)
    (hpm : ∀ i, i < (s.pbh pbh).length - n → pm_has s ((s.pbh pbh).start_page + n + i))
    (hc : cache_ok s t) (hinj : pm_inj s) :
    ∃ s', pb_split s t pbh n = some s' ∧
      (s'.pbh pbh).length = n ∧ (s'.pbh pbh).start_page = (s.pbh pbh).start_page ∧
      (s'.pbh pbh).index = (s.pbh pbh).index ∧ (s'.pbh pbh).status = (s.pbh pbh).status ∧
      (s'.pbh (sph + PBH_SIZE * ((s.pbh pbh).index + n))).start_page =
        (s.pbh pbh).start_page + n ∧
      (s'.pbh (sph + PBH_SIZE * ((s.pbh pbh).index + n))).length = (s.pbh pbh).length - n ∧
      (s'.pbh (sph + PBH_SIZE * ((s.pbh pbh).index + n))).index = (s.pbh pbh).index + n ∧
      (s'.pbh (sph + PBH_SIZE * ((s.pbh pbh).index + n))).status = PBH_ON_FREE_LIST ∧
      (s'.thr t).free_pb_list ((s.pbh pbh).length - n - 1) =
        sph + PBH_SIZE * ((s.pbh pbh).index + n) ∧
      (∀ q, pagemap_get_checked s' q =
        if (s.pbh pbh).start_page + n ≤ q ∧ q < (s.pbh pbh).start_page + (s.pbh pbh).length
        then sph + PBH_SIZE * ((s.pbh pbh).index + n) else pagemap_get_checked s q) ∧
      (∀ h, h ≠ pbh → h ≠ sph + PBH_SIZE * ((s.pbh pbh).index + n) →
        pbh_data (s'.pbh h) = pbh_data (s.pbh h)) ∧
      s'.sph = s.sph ∧ s'.pm_node = s.pm_node ∧ s'.pm_leaf = s.pm_leaf ∧ s'.cfg = s.cfg ∧
      cache_ok s' t := by
  generalize hst_ : (s.pbh pbh).start_page = st at *
  generalize hL_ : (s.pbh pbh).length = L at *
  generalize hsp_ : (s.sph sph).start_page = sp at *
  generalize hidx_ : (s.pbh pbh).index = idx at *
  simp only [SUPERPAGE_LEN, NUM_PAGE_CLASSES, PBH_SIZE] at hend hsp h64 haddr ⊢
  have hu8n : u8 n = n := by unfold u8; omega
  -- the header with its new length
  obtain ⟨s1, hs1⟩ : ∃ s1, s1 = set_pbh s pbh { s.pbh pbh with length := u8 n } := ⟨_, rfl⟩
  have h1pbh : s1.pbh pbh = { s.pbh pbh with length := n } := by
    rw [hs1, hu8n]; simp [set_pbh, upd]
  have hsup : pbh_get_superpage s1 pbh = some sph := by
    unfold pbh_get_superpage
    rw [h1pbh]
    simp only [hidx_]
    have h0 : pbh ≠ 0 := by omega
    have hr : idx > 0 ∧ idx ≤ SUPERPAGE_LEN := by
      simp only [SUPERPAGE_LEN, NUM_PAGE_CLASSES]; omega
    rw [if_neg h0, if_neg (not_not.mpr hr)]
    simp only [sub64, PBH_SIZE, Option.some.injEq]
    omega
  -- the header of the remaining pages
  obtain ⟨s2, hs2⟩ : ∃ s2, s2 = set_pbh s1 (sph + 64 * (idx + n))
      { pbh_zero with start_page := st + n, length := L - n, index := idx + n } := ⟨_, rfl⟩
  have halloc : pbh_alloc s1 sph (u64 (st + n)) (sub64 L n) = some (sph + 64 * (idx + n), s2) := by
    unfold pbh_alloc
    have hsp1 : (s1.sph sph).start_page = sp := by rw [hs1]; exact hsp_
    have e1 : u64 (st + n) = st + n := by unfold u64; omega
    have e2 : u32 (sub64 (st + n) sp + 1) = idx + n := by unfold u32 sub64; omega
    have e3 : sub64 L n = L - n := by unfold sub64; omega
    have e4 : u8 (L - n) = L - n := by unfold u8; omega
    have e5 : u8 (idx + n) = idx + n := by unfold u8; omega
    have hr : idx + n > 0 ∧ idx + n ≤ SUPERPAGE_LEN := by
      simp only [SUPERPAGE_LEN, NUM_PAGE_CLASSES]; omega
    simp only [hsp1, e1, e2, e3, e4, e5, PBH_SIZE]
    rw [if_neg (not_not.mpr hr), hs2]
  have href : free_pb_ref (sub64 L n) = some (.free_pb (L - n - 1)) := by
    have e3 : sub64 L n = L - n := by unfold sub64; omega
    unfold free_pb_ref
    rw [e3, if_pos (by simp only [NUM_PAGE_CLASSES]; omega)]
  obtain ⟨s3, hs3⟩ : ∃ s3, s3 = set_pbh s2 (sph + 64 * (idx + n))
      { s2.pbh (sph + 64 * (idx + n)) with status := PBH_ON_FREE_LIST } := ⟨_, rfl⟩
  obtain ⟨s4, hprep, hhead, hnl⟩ := pbh_list_prepend_head s3 t (.free_pb (L - n - 1))
    (sph + 64 * (idx + n)) (by simp only [pbh_list_ref.valid, NUM_PAGE_CLASSES]; simp; omega)
  obtain ⟨hd4, hsph4, _, _, hn4, hl4, hv4, hcfg4, hthr4⟩ := no_links_fields s3 s4 hnl
  have hn3 : s3.pm_node = s.pm_node := by rw [hs3, hs2, hs1]; rfl
  have hl3 : s3.pm_leaf = s.pm_leaf := by rw [hs3, hs2, hs1]; rfl
  have hv3 : s3.pm_val = s.pm_val := by rw [hs3, hs2, hs1]; rfl
  have hcfg3 : s3.cfg = s.cfg := by rw [hs3, hs2, hs1]; rfl
  have hthr3 : s3.thr = s.thr := by rw [hs3, hs2, hs1]; rfl
  have hsph3 : s3.sph = s.sph := by rw [hs3, hs2, hs1]; rfl
  obtain ⟨htag4, hleaf4, _, _, _⟩ := tlh_nolists_cache _ _ (hthr4 t)
  have hc4 : cache_ok s4 t := cache_ok_congr s s4 t (hcfg4.trans hcfg3) (hn4.trans hn3)
    (hl4.trans hl3) (by rw [htag4, hthr3]) (by rw [hleaf4, hthr3]) hc
  have hpm4 : ∀ i, i < L - n → pm_has s4 (st + n + i) := fun i hi =>
    (pm_has_congr s s4 (hn4.trans hn3) (hl4.trans hl3) _).1.mpr (hpm i hi)
  obtain ⟨s5, hset, hnp, hc5, hread⟩ := pagemap_set_range_spec t (sph + 64 * (idx + n)) (L - n) s4
    (st + n) hpm4 hc4 (pm_inj_congr s s4 (hn4.trans hn3) (hl4.trans hl3) hinj)
  obtain ⟨hpbh5, hsph5, _, _, hn5, hl5, _, _, _, _, _, hcfg5, hthr5⟩ := no_pm_fields s4 s5 hnp
  have hsplit : pb_split s t pbh n = some s5 := by
    have e1 : u64 (st + n) = st + n := by unfold u64; omega
    have e3 : sub64 L n = L - n := by unfold sub64; omega
    rw [pb_split_unfold, ← hs1]
    simp only [hL_, hst_]
    rw [if_neg (not_not.mpr hL), hsup]
    simp only [Option.some_bind, halloc, href, ← hs3, hprep]
    rw [e1, e3]
    exact hset
  -- the headers after the call
  have hne : pbh ≠ sph + 64 * (idx + n) := by omega
  have hB : ∀ h, pbh_data (s5.pbh h) = pbh_data (s3.pbh h) := fun h => by
    rw [hpbh5]; exact hd4 h
  have h3pbh : s3.pbh pbh = { s.pbh pbh with length := n } := by
    rw [hs3, hs2]
    simp only [set_pbh, upd, if_neg hne]
    exact h1pbh
  have h3rem : s3.pbh (sph + 64 * (idx + n)) =
      { pbh_zero with start_page := st + n, length := L - n, index := idx + n,
                      status := PBH_ON_FREE_LIST } := by
    rw [hs3, hs2]
    simp [set_pbh, upd]
  have h3oth : ∀ h, h ≠ pbh → h ≠ sph + 64 * (idx + n) → s3.pbh h = s.pbh h := by
    intro h a b
    rw [hs3, hs2, hs1]
    simp [set_pbh, upd, a, b]
  obtain ⟨p1, p2, p3, _, p5⟩ := pbh_data_fields _ _ (hB pbh)
  obtain ⟨r1, r2, r3, _, r5⟩ := pbh_data_fields _ _ (hB (sph + 64 * (idx + n)))
  refine ⟨s5, hsplit, ?_, ?_, ?_, ?_, ?_, ?_, ?_, ?_, ?_, ?_, ?_, ?_, ?_, ?_, ?_, hc5⟩
  · rw [p2, h3pbh]
  · rw [p1, h3pbh]; exact hst_
  · rw [p3, h3pbh]; exact hidx_
  · rw [p5, h3pbh]
  · rw [r1, h3rem]
  · rw [r2, h3rem]
  · rw [r3, h3rem]
  · rw [r5, h3rem]
  · rw [(clear_cache_lists _ _ (hthr5 t)).1]
    exact hhead
  · intro q
    rw [hread q, pagemap_get_checked_congr s s4 (hn4.trans hn3) (hl4.trans hl3) (hv4.trans hv3) q]
    by_cases hq : st + n ≤ q ∧ q < st + L
    · rw [if_pos hq, if_pos (by omega)]
    · rw [if_neg hq, if_neg (by omega)]
  · intro h a b
    rw [hB h, h3oth h a b]
  · rw [hsph5, hsph4, hsph3]
  · rw [hn5, hn4, hn3]
  · rw [hl5, hl4, hl3]
  · rw [hcfg5, hcfg4, hcfg3]

/-! ## A PageMap with one leaf -/

theorem pm_single_has (s : State) (node lf : Nat)
    (h1 : s.pm_node = upd (fun _ => 0) 0 node) (h2 : s.pm_leaf node = upd (fun _ => 0) 0 lf)
    (pg : Nat) (h : pm_has s pg) : pg < 2 ^ 18 := by
  obtain ⟨_, a2, a3⟩ := h
  rw [h1] at a2 a3
  have e1 : pg >>> (PMAP_LEAF_BIT + PMAP_INTERIOR_BIT) = 0 := by
    by_contra hne
    exact a2 (by simp [upd, hne])
  rw [e1] at a3
  simp only [upd, if_true] at a3
  rw [h2] at a3
  have e2 : (pg >>> PMAP_LEAF_BIT) &&& (PMAP_INTERIOR_LEN - 1) = 0 := by
    by_contra hne
    exact a3 (by simp [upd, hne])
  have c1 : PMAP_LEAF_BIT + PMAP_INTERIOR_BIT = 35 := by decide
  have c2 : PMAP_LEAF_BIT = 18 := by decide
  have c3 : PMAP_INTERIOR_LEN - 1 = 2 ^ 17 - 1 := by decide
  rw [c1, Nat.shiftRight_eq_div_pow] at e1
  rw [c2, c3, Nat.and_pow_two_sub_one_eq_mod, Nat.shiftRight_eq_div_pow] at e2
  omega

/-- In a PageMap whose only leaf is the first leaf of the first interior node, the
levels exist exactly for the pages below `2^18`, and no two tags share a leaf. -/
theorem pm_single (s : State) (node lf : Nat) (hn : node ≠ 0) (hl : lf ≠ 0)
    (h1 : s.pm_node = upd (fun _ => 0) 0 node) (h2 : s.pm_leaf node = upd (fun _ => 0) 0 lf) :
    pm_inj s ∧ ∀ pg, pg < 2 ^ 18 → pm_has s pg := by
  have c0 : PMAP_BITS = 52 := by decide
  have c1 : PMAP_LEAF_BIT + PMAP_INTERIOR_BIT = 35 := by decide
  have c2 : PMAP_LEAF_BIT = 18 := by decide
  have c3 : PMAP_INTERIOR_LEN - 1 = 2 ^ 17 - 1 := by decide
  refine ⟨fun pg pg' a b _ => ?_, fun pg hpg => ?_⟩
  · have ha := pm_single_has s node lf h1 h2 pg a
    have hb := pm_single_has s node lf h1 h2 pg' b
    rw [c2, Nat.shiftRight_eq_div_pow, Nat.shiftRight_eq_div_pow]
    omega
  · have e0 : pg >>> PMAP_BITS = 0 := by
      rw [c0, Nat.shiftRight_eq_div_pow]; omega
    have e1 : pg >>> (PMAP_LEAF_BIT + PMAP_INTERIOR_BIT) = 0 := by
      rw [c1, Nat.shiftRight_eq_div_pow]; omega
    have e2 : (pg >>> PMAP_LEAF_BIT) &&& (PMAP_INTERIOR_LEN - 1) = 0 := by
      rw [c2, c3, Nat.and_pow_two_sub_one_eq_mod, Nat.shiftRight_eq_div_pow]; omega
    refine ⟨e0, ?_, ?_⟩
    · rw [e1, h1]; simpa [upd] using hn
    · rw [e1, e2, h1]
      simp only [upd, if_true]
      rw [h2]
      simpa [upd] using hl

/-! ## `pb_alloc_from_tlh` -/

theorem pb_alloc_from_tlh_loop_succ (t page_len pcl n : Nat) (s : State) (c : Nat) :
    pb_alloc_from_tlh_loop t page_len pcl (n + 1) s c =
      if (s.thr t).free_pb_list c ≠ 0 then
        (pbh_list_pop s t (.free_pb c)).bind fun r =>
          if (r.2.pbh r.1).length ≠ c + 1 then none else
          (if c > pcl then
            pb_split (set_pbh r.2 r.1 { r.2.pbh r.1 with status := PBH_IN_USE }) t r.1 page_len
           else some (set_pbh r.2 r.1 { r.2.pbh r.1 with status := PBH_IN_USE })).bind fun s3 =>
          some (r.1, s3)
      else pb_alloc_from_tlh_loop t page_len pcl n s (c + 1) := by
  rw [pb_alloc_from_tlh_loop]
  by_cases h : (s.thr t).free_pb_list c ≠ 0
  · simp only [h, if_true, Option.bind_eq_bind, set_pbh, upd, Option.pure_def]
  · simp only [h, if_false]

/-- The loop of `pb_alloc_from_tlh` skips the empty lists. -/
theorem pb_alloc_from_tlh_loop_skip (t page_len pcl : Nat) (s : State) :
    ∀ (k fuel c : Nat), (∀ c', c ≤ c' → c' < c + k → (s.thr t).free_pb_list c' = 0) →
      pb_alloc_from_tlh_loop t page_len pcl (fuel + k) s c =
        pb_alloc_from_tlh_loop t page_len pcl fuel s (c + k) := by
  intro k
  induction k with
  | zero => intro fuel c _; rfl
  | succ k ih =>
    intro fuel c h
    rw [show fuel + (k + 1) = (fuel + k) + 1 by omega, pb_alloc_from_tlh_loop_succ,
      if_neg (not_not.mpr (h c (by omega) (by omega))), ih fuel (c + 1) (fun c' h1 h2 =>
        h c' (by omega) (by omega))]
    rw [show c + 1 + k = c + (k + 1) by omega]

/-- C20: for `1 ≤ n ≤ 62`, `pb_alloc_from_tlh(tlh, n)` returns `NULL`, with the state
unchanged, exactly when `free_pb_list[c]` is empty for every `c ≥ n - 1`. Otherwise,
for the least `c ≥ n - 1` with a list that is not empty and its first header `pbh`,
recorded with `c + 1` pages in its slot of a superpage whose PageMap levels exist,
the call returns `pbh` with status `IN_USE`, the same `start_page` and length `n`;
and when `c + 1 > n`, the header in the slot of page `start_page + n` has the
remaining `c + 1 - n` pages and status `ON_FREE_LIST`, it is the first of
`free_pb_list[c - n]`, and the PageMap entries of exactly the pages from
`start_page + n` on name it, all other entries being as before. -/
theorem pb_alloc_from_tlh_spec (s : State) (t n : Nat) (hn1 : 1 ≤ n) (_hn : n ≤ NUM_PAGE_CLASSES) :
    ((∀ c, n - 1 ≤ c → c < NUM_PAGE_CLASSES → (s.thr t).free_pb_list c = 0) →
      pb_alloc_from_tlh s t n = some (0, s)) ∧
    ((∃ s', pb_alloc_from_tlh s t n = some (0, s')) →
      ∀ c, n - 1 ≤ c → c < NUM_PAGE_CLASSES → (s.thr t).free_pb_list c = 0) ∧
    (∀ c pbh sph, n - 1 ≤ c → c < NUM_PAGE_CLASSES →
      (∀ c', n - 1 ≤ c' → c' < c → (s.thr t).free_pb_list c' = 0) →
      (s.thr t).free_pb_list c = pbh → pbh ≠ 0 → (s.pbh pbh).length = c + 1 →
      (s.sph sph).start_page ≤ (s.pbh pbh).start_page →
      (s.pbh pbh).start_page + (s.pbh pbh).length ≤ (s.sph sph).start_page + SUPERPAGE_LEN →
      (s.sph sph).start_page + SUPERPAGE_LEN < 2 ^ 52 →
      (s.pbh pbh).index = (s.pbh pbh).start_page - (s.sph sph).start_page + 1 →
      pbh = sph + PBH_SIZE * (s.pbh pbh).index →
      sph + PBH_SIZE * (SUPERPAGE_LEN + 1) < 2 ^ 64 →
      (∀ i, i < c + 1 - n → pm_has s ((s.pbh pbh).start_page + n + i)) →
      cache_ok s t → pm_inj s →
      ∃ s', pb_alloc_from_tlh s t n = some (pbh, s') ∧
        (s'.pbh pbh).status = PBH_IN_USE ∧
        (s'.pbh pbh).start_page = (s.pbh pbh).start_page ∧ (s'.pbh pbh).length = n ∧
        (n < c + 1 →
          (s'.pbh (sph + PBH_SIZE * ((s.pbh pbh).index + n))).start_page =
            (s.pbh pbh).start_page + n ∧
          (s'.pbh (sph + PBH_SIZE * ((s.pbh pbh).index + n))).length = c + 1 - n ∧
          (s'.pbh (sph + PBH_SIZE * ((s.pbh pbh).index + n))).status = PBH_ON_FREE_LIST ∧
          (s'.thr t).free_pb_list (c - n) = sph + PBH_SIZE * ((s.pbh pbh).index + n)) ∧
        ∀ q, pagemap_get_checked s' q =
          if (s.pbh pbh).start_page + n ≤ q ∧ q < (s.pbh pbh).start_page + (c + 1)
          then sph + PBH_SIZE * ((s.pbh pbh).index + n) else pagemap_get_checked s q) := by
  have hunf : pb_alloc_from_tlh s t n =
      pb_alloc_from_tlh_loop t n (n - 1) (NUM_PAGE_CLASSES - (n - 1)) s (n - 1) := by
    unfold pb_alloc_from_tlh
    rw [if_neg (not_not.mpr hn1)]
  have hempty : (∀ c, n - 1 ≤ c → c < NUM_PAGE_CLASSES → (s.thr t).free_pb_list c = 0) →
      pb_alloc_from_tlh s t n = some (0, s) := by
    intro h
    rw [hunf]
    have := pb_alloc_from_tlh_loop_skip t n (n - 1) s (NUM_PAGE_CLASSES - (n - 1)) 0 (n - 1)
      (fun c' h1 h2 => h c' h1 (by omega))
    rw [Nat.zero_add] at this
    rw [this]
    rfl
  -- the first list that is not empty
  have hpop : ∀ c pbh, n - 1 ≤ c → c < NUM_PAGE_CLASSES →
      (∀ c', n - 1 ≤ c' → c' < c → (s.thr t).free_pb_list c' = 0) →
      (s.thr t).free_pb_list c = pbh → pbh ≠ 0 →
      ∃ s1, pbh_list_pop s t (.free_pb c) = some (pbh, s1) ∧ no_links s1 = no_links s ∧
        pb_alloc_from_tlh s t n =
          if (s1.pbh pbh).length ≠ c + 1 then none else
          (if c > n - 1 then
            pb_split (set_pbh s1 pbh { s1.pbh pbh with status := PBH_IN_USE }) t pbh n
           else some (set_pbh s1 pbh { s1.pbh pbh with status := PBH_IN_USE })).bind fun s3 =>
          some (pbh, s3) := by
    intro c pbh h1 h2 hmin hhead h0
    have hv : (pbh_list_ref.free_pb c).valid = true := by
      simp only [pbh_list_ref.valid]; simpa using h2
    have hsome : (pbh_list_pop s t (.free_pb c)).isSome = true := by
      simp only [pbh_list_pop, hv, list_head, hhead, h0, not_true_eq_false, if_false,
        Bool.not_eq_true, Option.isSome_some]
    obtain ⟨⟨p', s1⟩, hp⟩ := Option.isSome_iff_exists.mp hsome
    obtain ⟨hnl, hpe, _⟩ := pbh_list_pop_no_links s s1 t _ p' hp
    have hp' : p' = pbh := by rw [hpe]; exact hhead
    subst hp'
    refine ⟨s1, hp, hnl, ?_⟩
    rw [hunf]
    have h62 : NUM_PAGE_CLASSES = 62 := rfl
    rw [h62] at h2 ⊢
    have hk := pb_alloc_from_tlh_loop_skip t n (n - 1) s (c - (n - 1))
      (61 - c + 1) (n - 1) (fun c' a b => hmin c' a (by omega))
    rw [show 62 - (n - 1) = 61 - c + 1 + (c - (n - 1)) by omega, hk,
      show n - 1 + (c - (n - 1)) = c by omega, pb_alloc_from_tlh_loop_succ,
      if_pos (by rw [hhead]; exact h0), hp]
    rfl
  refine ⟨hempty, ?_, ?_⟩
  · -- a `NULL` result leaves no list to pop
    rintro ⟨s', hs'⟩ c h1 h2
    by_contra hne
    have hex : ∃ c, n - 1 ≤ c ∧ c < NUM_PAGE_CLASSES ∧ (s.thr t).free_pb_list c ≠ 0 :=
      ⟨c, h1, h2, hne⟩
    classical
    obtain ⟨a1, a2, a3⟩ := Nat.find_spec hex
    have amin : ∀ c', n - 1 ≤ c' → c' < Nat.find hex → (s.thr t).free_pb_list c' = 0 := by
      intro c' b1 b2
      by_contra b3
      exact Nat.find_min hex b2 ⟨b1, by omega, b3⟩
    obtain ⟨s1, _, _, heq⟩ := hpop (Nat.find hex) _ a1 a2 amin rfl a3
    rw [heq] at hs'
    split_ifs at hs'
    · simp only [Option.bind_eq_some, Option.some.injEq, Prod.mk.injEq] at hs'
      obtain ⟨_, _, h0, _⟩ := hs'
      exact a3 h0
    · simp only [Option.some_bind, Option.some.injEq, Prod.mk.injEq] at hs'
      exact a3 hs'.1
  · intro c pbh sph h1 h2 hmin hhead h0 hlen hst hend hsp hidx haddr h64 hpm hc hinj
    obtain ⟨s1, hp, hnl, heq⟩ := hpop c pbh h1 h2 hmin hhead h0
    obtain ⟨hd1, hsph1, _, _, hn1', hl1, hv1, hcfg1, hthr1⟩ := no_links_fields s s1 hnl
    obtain ⟨d1, d2, d3, _, _⟩ := pbh_data_fields _ _ (hd1 pbh)
    obtain ⟨s2, hs2⟩ : ∃ s2, s2 = set_pbh s1 pbh { s1.pbh pbh with status := PBH_IN_USE } :=
      ⟨_, rfl⟩
    have h2pbh : s2.pbh pbh = { s1.pbh pbh with status := PBH_IN_USE } := by
      rw [hs2]; simp [set_pbh, upd]
    have h2len : (s2.pbh pbh).length = (s.pbh pbh).length := by rw [h2pbh]; exact d2
    have h2st : (s2.pbh pbh).start_page = (s.pbh pbh).start_page := by rw [h2pbh]; exact d1
    have h2idx : (s2.pbh pbh).index = (s.pbh pbh).index := by rw [h2pbh]; exact d3
    have h2status : (s2.pbh pbh).status = PBH_IN_USE := by rw [h2pbh]
    have h2sph : s2.sph = s.sph := by rw [hs2]; exact hsph1
    have h2n : s2.pm_node = s.pm_node := by rw [hs2]; exact hn1'
    have h2l : s2.pm_leaf = s.pm_leaf := by rw [hs2]; exact hl1
    have h2v : s2.pm_val = s.pm_val := by rw [hs2]; exact hv1
    have h2cfg : s2.cfg = s.cfg := by rw [hs2]; exact hcfg1
    obtain ⟨htag1, hleaf1, _, _, _⟩ := tlh_nolists_cache _ _ (hthr1 t)
    have h2c : cache_ok s2 t := cache_ok_congr s s2 t h2cfg h2n h2l
      (by rw [hs2]; exact htag1) (by rw [hs2]; exact hleaf1) hc
    rw [heq, ← hs2, if_neg (not_not.mpr (by rw [d2]; exact hlen))]
    by_cases hgt : c > n - 1
    · rw [if_pos hgt]
      obtain ⟨s3, hsplit, q1, q2, _, q4, q5, q6, _, q8, q9, q10, _⟩ :=
        pb_split_spec s2 t pbh n sph hn1 (by rw [h2len, hlen]; omega)
          (by rw [h2sph, h2st]; exact hst) (by rw [h2sph, h2st, h2len]; exact hend)
          (by rw [h2sph]; exact hsp) (by rw [h2sph, h2st, h2idx]; exact hidx)
          (by rw [h2idx]; exact haddr) h64
          (by
            intro i hi
            rw [h2len, hlen] at hi
            rw [h2st]
            exact (pm_has_congr s s2 h2n h2l _).1.mpr (hpm i hi))
          h2c (pm_inj_congr s s2 h2n h2l hinj)
      rw [h2idx, h2st, h2len] at *
      refine ⟨s3, by rw [hsplit]; rfl, by rw [q4, h2status], q2, q1, fun _ => ⟨q5, ?_, q8, ?_⟩,
        fun q => ?_⟩
      · rw [q6, hlen]
      · rw [← q9, hlen]
        congr 1
        omega
      · rw [q10 q, hlen, pagemap_get_checked_congr s s2 h2n h2l h2v q]
    · have hcn : c + 1 = n := by omega
      rw [if_neg hgt]
      refine ⟨s2, rfl, h2status, h2st, by rw [h2len, hlen, hcn], fun h => by omega, fun q => ?_⟩
      rw [if_neg (by omega), pagemap_get_checked_congr s s2 h2n h2l h2v q]

set_option maxRecDepth 100000 in
theorem warm_heap_pagemap :
    warm_heap.2.pm_node = upd (fun _ => 0) 0 0x12001000 ∧
    warm_heap.2.pm_leaf 0x12001000 = upd (fun _ => 0) 0 0x13001000 :=
  ⟨rfl, rfl⟩

set_option maxRecDepth 100000 in
theorem warm_heap_lists :
    (∀ c, c < 61 → (warm_heap.2.thr 0).free_pb_list c = 0) ∧
    (warm_heap.2.thr 0).free_pb_list 61 = 0x11001080 ∧
    (warm_heap.2.pbh 0x11001080).length = 62 ∧
    (warm_heap.2.pbh 0x11001080).start_page = 0x11003 ∧
    (warm_heap.2.pbh 0x11001080).index = 2 ∧
    (warm_heap.2.sph 0x11001000).start_page = 0x11002 := by
  refine ⟨by decide!, by decide!, by decide!, by decide!, by decide!, by decide!⟩

theorem pb_alloc_from_tlh_spec_witness :
    ∃ s', pb_alloc_from_tlh warm_heap.2 0 8 = some (0x11001080, s') ∧
      (s'.pbh 0x11001080).status = PBH_IN_USE ∧ (s'.pbh 0x11001080).length = 8 ∧
      (s'.pbh (0x11001000 + PBH_SIZE * (2 + 8))).length = 54 ∧
      (s'.thr 0).free_pb_list 53 = 0x11001000 + PBH_SIZE * (2 + 8) ∧
      pagemap_get_checked s' (0x11003 + 8) = 0x11001000 + PBH_SIZE * (2 + 8) := by
  obtain ⟨hempty, hhead, hlen, hstart, hidx, hsp⟩ := warm_heap_lists
  obtain ⟨hinj, hhas⟩ := pm_single warm_heap.2 0x12001000 0x13001000 (by decide) (by decide)
    warm_heap_pagemap.1 warm_heap_pagemap.2
  have hcfg : warm_heap.2.cfg.MALLOC_USE_PAGEMAP_CACHE = false := warm_heap_os.2.2.2.2
  obtain ⟨s', h1, h2, _, h4, h5, h6⟩ :=
    (pb_alloc_from_tlh_spec warm_heap.2 0 8 (by decide) (by decide)).2.2 61 0x11001080 0x11001000
      (by decide) (by decide) (fun c' _ h => hempty c' h) hhead (by decide) hlen
      (by rw [hsp, hstart]; decide) (by rw [hsp, hstart, hlen]; decide) (by rw [hsp]; decide)
      (by rw [hidx, hstart, hsp]) (by rw [hidx]; decide) (by decide)
      (fun i hi => hhas _ (by rw [hstart]; omega))
      (fun h => absurd h (by rw [hcfg]; decide)) hinj
  obtain ⟨_, g2, _, g4⟩ := h5 (by decide)
  rw [hidx] at g2 g4
  refine ⟨s', h1, h2, h4, g2, g4, ?_⟩
  rw [h6, hstart, hidx, if_pos (by decide)]

/-! ## What `sph_free` changes -/

theorem sph_list_remove_effect (s sa : State) (t sph : Nat)
    (h : sph_list_remove s t sph = some sa) :
    sa.pbh = s.pbh ∧ sa.pm_node = s.pm_node ∧ sa.pm_leaf = s.pm_leaf ∧ sa.pm_val = s.pm_val ∧
    sa.cfg = s.cfg ∧ (∀ a, (sa.sph a).start_page = (s.sph a).start_page) ∧
    ∀ u, (sa.thr u).free_pb_list = (s.thr u).free_pb_list ∧
      (sa.thr u).blk_list = (s.thr u).blk_list ∧
      (sa.thr u).l_pagemap_tag = (s.thr u).l_pagemap_tag ∧
      (sa.thr u).l_pagemap_leaf = (s.thr u).l_pagemap_leaf := by
  have hset : ∀ (x : State) (a : Nat) (v : sph_t), v.start_page = (x.sph a).start_page →
      ∀ b, ((set_sph x a v).sph b).start_page = (x.sph b).start_page := by
    intro x a v hv b
    unfold set_sph upd
    by_cases e : b = a
    · subst e; simp [hv]
    · simp [e]
  have hthr : ∀ (x : State) (v : Nat) (u : Nat),
      ((set_tlh x t { x.thr t with sp_list := v }).thr u).free_pb_list = (x.thr u).free_pb_list ∧
      ((set_tlh x t { x.thr t with sp_list := v }).thr u).blk_list = (x.thr u).blk_list ∧
      ((set_tlh x t { x.thr t with sp_list := v }).thr u).l_pagemap_tag = (x.thr u).l_pagemap_tag ∧
      ((set_tlh x t { x.thr t with sp_list := v }).thr u).l_pagemap_leaf =
        (x.thr u).l_pagemap_leaf := by
    intro x v u
    unfold set_tlh upd
    by_cases e : u = t
    · subst e; simp
    · simp [e]
  unfold sph_list_remove at h
  split_ifs at h with h1 h2 h3
  · simp only [Option.some.injEq] at h
    subst h
    exact ⟨rfl, rfl, rfl, rfl, rfl, fun _ => rfl, hthr s 0⟩
  · simp only [Option.some.injEq] at h
    subst h
    refine ⟨rfl, rfl, rfl, rfl, rfl, fun a => ?_, hthr s _⟩
    unfold sph_link_init
    rw [hset _ _ _ (by rfl), hset _ _ _ (by rfl), hset _ _ _ (by rfl)]
    rfl
  · simp only [Option.some.injEq] at h
    subst h
    refine ⟨rfl, rfl, rfl, rfl, rfl, fun a => ?_, fun u => ⟨rfl, rfl, rfl, rfl⟩⟩
    unfold sph_link_init
    rw [hset _ _ _ (by rfl), hset _ _ _ (by rfl), hset _ _ _ (by rfl)]

/-- The call `sph_free(tlh, sph)`, when it returns, has changed no page block header
and no page block list; the PageMap after it is the one left by the call to
`pagemap_set_range(sph->start_page, SUPERPAGE_LEN, NULL)` it makes. -/
theorem sph_free_effect (s s' : State) (t sph : Nat) (h : sph_free s t sph = some s') :
    s'.pbh = s.pbh ∧
    (∀ u, (s'.thr u).free_pb_list = (s.thr u).free_pb_list ∧
      (s'.thr u).blk_list = (s.thr u).blk_list) ∧
    ∃ sa sb, sph_list_remove s t sph = some sa ∧
      pagemap_set_range sa t (s.sph sph).start_page SUPERPAGE_LEN 0 = some sb ∧
      s'.pm_node = sb.pm_node ∧ s'.pm_leaf = sb.pm_leaf ∧ s'.pm_val = sb.pm_val := by
  unfold sph_free at h
  simp only [Option.bind_eq_bind, Option.pure_def, Option.bind_eq_some] at h
  obtain ⟨sa, hrem, sb, hset, ⟨hz, sc⟩, hhz, hfin⟩ := h
  obtain ⟨ha1, _, _, _, _, hst, hathr⟩ := sph_list_remove_effect s sa t sph hrem
  obtain ⟨hb1, _, _, _, _, _, _, _, _, _, _, _, hbthr⟩ :=
    no_pm_fields sa sb (pagemap_set_range_no_pm t 0 _ sa sb _ hset)
  have hc : sc.pbh = sb.pbh ∧ sc.thr = sb.thr ∧ sc.pm_node = sb.pm_node ∧
      sc.pm_leaf = sb.pm_leaf ∧ sc.pm_val = sb.pm_val := by
    split_ifs at hhz with c1
    · simp only [Option.bind_eq_some] at hhz
      obtain ⟨found, _, hf⟩ := hhz
      split_ifs at hf
      · simp only [Option.some.injEq, Prod.mk.injEq] at hf
        rw [← hf.2]
        exact ⟨rfl, rfl, rfl, rfl, rfl⟩
      · simp only [Option.some.injEq, Prod.mk.injEq] at hf
        rw [← hf.2]
        exact ⟨rfl, rfl, rfl, rfl, rfl⟩
    · simp only [Option.some.injEq, Prod.mk.injEq] at hhz
      rw [← hhz.2]
      exact ⟨rfl, rfl, rfl, rfl, rfl⟩
  have hd : s'.pbh = sc.pbh ∧ s'.thr = sc.thr ∧ s'.pm_node = sc.pm_node ∧
      s'.pm_leaf = sc.pm_leaf ∧ s'.pm_val = sc.pm_val := by
    split_ifs at hfin
    · simp only [Option.some.injEq] at hfin
      subst hfin
      exact ⟨rfl, rfl, rfl, rfl, rfl⟩
    · simp only [Option.some.injEq] at hfin
      subst hfin
      exact ⟨rfl, rfl, rfl, rfl, rfl⟩
  refine ⟨by rw [hd.1, hc.1, hb1, ha1], fun u => ?_, sa, sb, hrem, ?_, ?_, ?_, ?_⟩
  · obtain ⟨e1, e2, _, _⟩ := clear_cache_lists _ _ (hbthr u)
    rw [hd.2.1, hc.2.1, e1, e2]
    exact ⟨(hathr u).1, (hathr u).2.1⟩
  · rw [← hst sph]; exact hset
  · rw [hd.2.2.1, hc.2.2.1]
  · rw [hd.2.2.2.1, hc.2.2.2.1]
  · rw [hd.2.2.2.2, hc.2.2.2.2]

/-! ## C16: a freed page block that completes its superpage -/

/-- C16 (as the code behaves): `pb_free` of a page block with no page block before
it, whose neighbour after it is on a free page block list and takes all the other
pages of the superpage, removes the neighbour from its list, adds its length to the
freed header, which then spans `SUPERPAGE_LEN = 63` pages, and hands the superpage
to `sph_free` in the same call: when the call returns, the free page block lists
are those left by the removal of the neighbour, so the merged block of 63 pages is
on none of them. -/
theorem pb_free_releases_superpage (s s1 : State) (t pbh nxt sph : Nat)
    (hprev : pagemap_get_checked s (sub64 (s.pbh pbh).start_page 1) = 0)
    (hnext : pagemap_get_checked s (u64 ((s.pbh pbh).start_page + (s.pbh pbh).length)) = nxt)
    (hn0 : nxt ≠ 0) (hnh : nxt &&& HUGE_MALLOC_MARK = 0)
    (hnst : (s.pbh nxt).status = PBH_ON_FREE_LIST)
    (hl1 : 1 ≤ (s.pbh pbh).length) (hl2 : 1 ≤ (s.pbh nxt).length)
    (hsum : (s.pbh pbh).length + (s.pbh nxt).length = SUPERPAGE_LEN)
    (hrm : pbh_list_remove s t (.free_pb ((s.pbh nxt).length - 1)) nxt = some s1)
    (hsph : pbh_get_superpage s pbh = some sph) :
    pb_free s t pbh = sph_free (pbh_add_length s1 pbh (s.pbh nxt).length) t sph ∧
    ((pbh_add_length s1 pbh (s.pbh nxt).length).pbh pbh).length = SUPERPAGE_LEN ∧
    ∀ s', pb_free s t pbh = some s' →
      (s'.thr t).free_pb_list = (s1.thr t).free_pb_list ∧ (s'.pbh pbh).length = SUPERPAGE_LEN := by
  have hnl := pbh_list_remove_no_links s s1 t _ nxt hrm
  obtain ⟨hd, _, _, _, _, _, _, _, _⟩ := no_links_fields s s1 hnl
  obtain ⟨_, hlen1, hidx1, _, _⟩ := pbh_data_fields _ _ (hd pbh)
  have h63 : SUPERPAGE_LEN = 63 := rfl
  have h62 : NUM_PAGE_CLASSES = 62 := rfl
  rw [h63] at hsum
  have hlen2 : ((pbh_add_length s1 pbh (s.pbh nxt).length).pbh pbh).length = SUPERPAGE_LEN := by
    simp only [pbh_add_length, set_pbh, upd, if_true, hlen1, hsum, h63]
    rfl
  have hidx2 : ((pbh_add_length s1 pbh (s.pbh nxt).length).pbh pbh).index = (s.pbh pbh).index := by
    simp only [pbh_add_length, set_pbh, upd, if_true, hidx1]
  have hco : pb_coalesce s t pbh = some (pbh, pbh_add_length s1 pbh (s.pbh nxt).length) := by
    unfold pb_coalesce
    simp only [hprev, hnext, hnh]
    have e1 : (0 : Nat) &&& HUGE_MALLOC_MARK = 0 := by simp
    have hr : free_pb_ref (s.pbh nxt).length = some (.free_pb ((s.pbh nxt).length - 1)) := by
      unfold free_pb_ref
      rw [if_pos ⟨hl2, by rw [h62]; omega⟩]
    simp only [e1, ne_eq, not_true_eq_false, if_false, false_and, hn0, not_false_eq_true,
      hnst, and_self, if_true, hr, Option.pure_def, Option.bind_eq_bind, Option.some_bind, hrm,
      hlen2]
  have hfree : pb_free s t pbh = sph_free (pbh_add_length s1 pbh (s.pbh nxt).length) t sph := by
    unfold pb_free
    have hle : (s.pbh pbh).length ≤ SUPERPAGE_LEN := by rw [h63]; omega
    have hlt : (s.pbh pbh).length < SUPERPAGE_LEN := by rw [h63]; omega
    have hsup : pbh_get_superpage (pbh_add_length s1 pbh (s.pbh nxt).length) pbh = some sph := by
      unfold pbh_get_superpage at hsph ⊢
      rw [hidx2]
      exact hsph
    simp only [hle, not_true_eq_false, if_false, hlt, if_true, hco, Option.pure_def,
      Option.bind_eq_bind, Option.some_bind, hlen2, hsup]
  refine ⟨hfree, hlen2, fun s' hs' => ?_⟩
  rw [hfree] at hs'
  obtain ⟨hp, hl, _⟩ := sph_free_effect _ _ t sph hs'
  refine ⟨(hl t).1, ?_⟩
  rw [hp]
  exact hlen2

/-- C16 (counterexample): thread `0` of the started process takes a page block of 8
pages from a fresh superpage, which leaves the other 55 pages on
`free_pb_list[54]`. The call `pb_free` on the block returns with every free page
block list empty, the superpage list of the thread empty, all 63 PageMap entries of
the superpage `NULL`, and the superpage on the global free superpage list: the
superpage is released by this very call and no list holds the merged block. The
same holds for `large_malloc(8)` followed by `large_free` of the block. -/
theorem pb_free_releases_at_once :
    carved_heap.1 = 0x11001040 ∧ (carved_heap.2.pbh 0x11001040).length = 8 ∧
    (carved_heap.2.pbh 0x11001040).status = PBH_IN_USE ∧
    free_pb_heads carved_heap.2 0 = [(54, 0x11001240)] ∧
    (carved_heap.2.pbh 0x11001240).length = 55 ∧
    (carved_heap.2.thr 0).sp_list = 0x11001000 ∧ carved_heap.2.g_free_sp_list = 0 ∧
    (pb_free carved_heap.2 0 0x11001040).map (fun s =>
      (free_pb_heads s 0, (s.thr 0).sp_list, s.g_free_sp_list, s.g_free_sp_len,
        (s.pbh 0x11001040).length,
        (List.range 63).all fun o => pagemap_get_checked s (0x11002 + o) == 0)) =
      some ([], 0, 0x11001000, 1, 63, true) ∧
    ((started ⟨true, false, false⟩).bind fun s => (large_malloc s 0 8).bind fun r =>
      (large_free r.2 0 r.1 0x11001040).map fun s2 =>
        (r.1, free_pb_heads s2 0, (s2.thr 0).sp_list, s2.g_free_sp_list, s2.g_free_sp_len)) =
      some (0x11002000, [], 0, 0x11001000, 1) := by
  refine ⟨rfl, rfl, rfl, rfl, rfl, rfl, rfl, rfl, rfl⟩

theorem carved_heap_remove :
    (pbh_list_remove carved_heap.2 0 (.free_pb 54) 0x11001240).isSome = true := rfl

set_option maxRecDepth 100000 in
theorem pb_free_releases_superpage_witness :
    pb_free carved_heap.2 0 0x11001040 =
      sph_free (pbh_add_length ((pbh_list_remove carved_heap.2 0 (.free_pb 54) 0x11001240).getD
        carved_heap.2) 0x11001040 (carved_heap.2.pbh 0x11001240).length) 0 0x11001000 :=
  (pb_free_releases_superpage carved_heap.2 _ 0 0x11001040 0x11001240 0x11001000
    (by rfl) (by rfl) (by decide) (by rfl) (by rfl) (by decide) (by decide) (by rfl)
    (some_getD_of_isSome _ _ carved_heap_remove) (by rfl)).1

/-! ## The layout of a superpage -/

theorem hdr_ok_ne_zero (s : State) (sph h : Nat) (hh : hdr_ok s sph h) :
    h ≠ 0 ∧ (sph % 2 = 0 → h &&& HUGE_MALLOC_MARK = 0) := by
  obtain ⟨_, _, _, hi, ha, _⟩ := hh
  simp only [PBH_SIZE] at ha
  refine ⟨by omega, fun h2 => ?_⟩
  have : h % 2 = 0 := by omega
  simp only [HUGE_MALLOC_MARK, Nat.and_one_is_mod]
  exact this

/-- A page of the superpage and its page block. -/
theorem sp_inv_page (s : State) (sph : Nat) (hi : sp_inv s sph) (q : Nat)
    (h1 : (s.sph sph).start_page ≤ q) (h2 : q < (s.sph sph).start_page + SUPERPAGE_LEN) :
    hdr_ok s sph (pagemap_get_checked s q) ∧
    (s.pbh (pagemap_get_checked s q)).start_page ≤ q ∧
    q < (s.pbh (pagemap_get_checked s q)).start_page + (s.pbh (pagemap_get_checked s q)).length := by
  obtain ⟨_, _, _, _, _, _, hall⟩ := hi
  have := hall (q - (s.sph sph).start_page) (by omega)
  rw [show (s.sph sph).start_page + (q - (s.sph sph).start_page) = q by omega] at this
  exact this

/-- Two page blocks of a superpage that share a page are the same. -/
theorem hdr_ok_unique (s : State) (sph h h' q : Nat) (hh : hdr_ok s sph h) (hh' : hdr_ok s sph h')
    (h1 : (s.pbh h).start_page ≤ q) (h2 : q < (s.pbh h).start_page + (s.pbh h).length)
    (h1' : (s.pbh h').start_page ≤ q) (h2' : q < (s.pbh h').start_page + (s.pbh h').length) :
    h = h' := by
  obtain ⟨_, _, _, _, _, hp⟩ := hh
  obtain ⟨_, _, _, _, _, hp'⟩ := hh'
  have a := hp (q - (s.pbh h).start_page) (by omega)
  have b := hp' (q - (s.pbh h').start_page) (by omega)
  rw [show (s.pbh h).start_page + (q - (s.pbh h).start_page) = q by omega] at a
  rw [show (s.pbh h').start_page + (q - (s.pbh h').start_page) = q by omega] at b
  rw [← a, ← b]

/-- A page block is the PageMap entry of its first page. -/
theorem hdr_ok_first (s : State) (sph h : Nat) (hh : hdr_ok s sph h) :
    pagemap_get_checked s (s.pbh h).start_page = h := by
  obtain ⟨_, hl, _, _, _, hp⟩ := hh
  exact hp 0 (by omega)

/-- The page block before a page block of a superpage: none at the first page of
the superpage, else the page block that ends where this one starts. -/
theorem sp_inv_prev (s : State) (sph h : Nat) (hi : sp_inv s sph) (hh : hdr_ok s sph h) :
    sub64 (s.pbh h).start_page 1 = (s.pbh h).start_page - 1 ∧
    ((s.pbh h).start_page = (s.sph sph).start_page →
      pagemap_get_checked s ((s.pbh h).start_page - 1) = 0) ∧
    ((s.pbh h).start_page ≠ (s.sph sph).start_page →
      hdr_ok s sph (pagemap_get_checked s ((s.pbh h).start_page - 1)) ∧
      pagemap_get_checked s ((s.pbh h).start_page - 1) ≠ h ∧
      (s.pbh (pagemap_get_checked s ((s.pbh h).start_page - 1))).start_page +
        (s.pbh (pagemap_get_checked s ((s.pbh h).start_page - 1))).length
        = (s.pbh h).start_page) := by
  have hi' := hi
  obtain ⟨_, hsp1, hsp2, _, hb, _, _⟩ := hi'
  have hh' := hh
  obtain ⟨hst, hl, hend, _, _, _⟩ := hh'
  simp only [SUPERPAGE_LEN, NUM_PAGE_CLASSES, PMAP_BITS, MACHINE_BIT, PAGE_SHIFT] at hsp2 hend
  refine ⟨?_, fun e => ?_, fun e => ?_⟩
  · unfold sub64
    omega
  · rw [e]; exact hb
  · have hq1 : (s.sph sph).start_page ≤ (s.pbh h).start_page - 1 := by omega
    have hq2 : (s.pbh h).start_page - 1 < (s.sph sph).start_page + SUPERPAGE_LEN := by
      simp only [SUPERPAGE_LEN, NUM_PAGE_CLASSES]; omega
    obtain ⟨hp, hp1, hp2⟩ := sp_inv_page s sph hi _ hq1 hq2
    generalize pagemap_get_checked s ((s.pbh h).start_page - 1) = P at hp hp1 hp2
    have hne : P ≠ h := by
      intro e2
      rw [e2] at hp1
      omega
    refine ⟨hp, hne, ?_⟩
    by_contra hcon
    have : (s.pbh h).start_page < (s.pbh P).start_page + (s.pbh P).length := by omega
    exact hne (hdr_ok_unique s sph P h (s.pbh h).start_page hp hh (by omega) this (le_refl _)
      (by omega))

/-- The page block after a page block of a superpage: none that is a page block at
the end of the superpage, else the page block that starts where this one ends. -/
theorem sp_inv_next (s : State) (sph h : Nat) (hi : sp_inv s sph) (hh : hdr_ok s sph h) :
    u64 ((s.pbh h).start_page + (s.pbh h).length) = (s.pbh h).start_page + (s.pbh h).length ∧
    ((s.pbh h).start_page + (s.pbh h).length = (s.sph sph).start_page + SUPERPAGE_LEN →
      (pagemap_get_checked s ((s.pbh h).start_page + (s.pbh h).length) = 0 ∨
       pagemap_get_checked s ((s.pbh h).start_page + (s.pbh h).length) &&& HUGE_MALLOC_MARK ≠ 0)) ∧
    ((s.pbh h).start_page + (s.pbh h).length ≠ (s.sph sph).start_page + SUPERPAGE_LEN →
      hdr_ok s sph (pagemap_get_checked s ((s.pbh h).start_page + (s.pbh h).length)) ∧
      pagemap_get_checked s ((s.pbh h).start_page + (s.pbh h).length) ≠ h ∧
      (s.pbh (pagemap_get_checked s ((s.pbh h).start_page + (s.pbh h).length))).start_page
        = (s.pbh h).start_page + (s.pbh h).length) := by
  have hi' := hi
  obtain ⟨_, hsp1, hsp2, _, _, hb, _⟩ := hi'
  have hh' := hh
  obtain ⟨hst, hl, hend, _, _, _⟩ := hh'
  refine ⟨?_, fun e => ?_, fun e => ?_⟩
  · simp only [SUPERPAGE_LEN, NUM_PAGE_CLASSES, PMAP_BITS, MACHINE_BIT, PAGE_SHIFT] at hsp2 hend
    unfold u64
    omega
  · rw [e]; exact hb
  · have hq2 : (s.pbh h).start_page + (s.pbh h).length < (s.sph sph).start_page + SUPERPAGE_LEN := by
      omega
    obtain ⟨hp, hp1, hp2⟩ := sp_inv_page s sph hi _ (by omega) hq2
    generalize pagemap_get_checked s ((s.pbh h).start_page + (s.pbh h).length) = N at hp hp1 hp2
    have hne : N ≠ h := by
      intro e2
      rw [e2] at hp2
      omega
    refine ⟨hp, hne, ?_⟩
    by_contra hcon
    have : (s.pbh N).start_page ≤ (s.pbh h).start_page + (s.pbh h).length - 1 := by omega
    exact hne (hdr_ok_unique s sph N h ((s.pbh h).start_page + (s.pbh h).length - 1) hp hh this
      (by omega) (by omega) (by omega))

/-- Merging: a page block `M` of a superpage that takes over the `l2` pages after
it, which are whole page blocks, keeps the layout of the superpage. -/
theorem sp_inv_merge (s s' : State) (sph M l2 : Nat) (hi : sp_inv s sph) (hM : hdr_ok s sph M)
    (hend : (s.pbh M).start_page + (s.pbh M).length + l2 ≤ (s.sph sph).start_page + SUPERPAGE_LEN)
    (hwhole : ∀ r, (s.pbh M).start_page + (s.pbh M).length ≤ r →
      r < (s.pbh M).start_page + (s.pbh M).length + l2 →
      (s.pbh M).start_page + (s.pbh M).length ≤ (s.pbh (pagemap_get_checked s r)).start_page ∧
      (s.pbh (pagemap_get_checked s r)).start_page + (s.pbh (pagemap_get_checked s r)).length ≤
        (s.pbh M).start_page + (s.pbh M).length + l2)
    (hsph : (s'.sph sph).start_page = (s.sph sph).start_page)
    (hM1 : (s'.pbh M).start_page = (s.pbh M).start_page)
    (hM2 : (s'.pbh M).length = (s.pbh M).length + l2)
    (hM3 : (s'.pbh M).index = (s.pbh M).index)
    (hoth : ∀ h, h ≠ M → (s'.pbh h).start_page = (s.pbh h).start_page ∧
      (s'.pbh h).length = (s.pbh h).length ∧ (s'.pbh h).index = (s.pbh h).index)
    (hpm : ∀ q, pagemap_get_checked s' q =
      if (s.pbh M).start_page + (s.pbh M).length ≤ q ∧
        q < (s.pbh M).start_page + (s.pbh M).length + l2 then M
      else pagemap_get_checked s q) :
    sp_inv s' sph := by
  have hi' := hi
  obtain ⟨c1, c2, c3, c4, c5, c6, _⟩ := hi'
  have hM' := hM
  obtain ⟨m1, m2, m3, m4, m5, m6⟩ := hM'
  have hMok : hdr_ok s' sph M := by
    refine ⟨by rw [hsph, hM1]; exact m1, by rw [hM2]; omega, by rw [hsph, hM1, hM2]; omega,
      by rw [hsph, hM1, hM3]; exact m4, by rw [hM3]; exact m5, fun i hi2 => ?_⟩
    rw [hM1, hpm]
    rw [hM2] at hi2
    by_cases c : (s.pbh M).length ≤ i
    · rw [if_pos ⟨by omega, by omega⟩]
    · rw [if_neg (by omega)]
      exact m6 i (by omega)
  refine ⟨c1, by rw [hsph]; exact c2, by rw [hsph]; exact c3, c4, ?_, ?_, fun o ho => ?_⟩
  · rw [hsph, hpm, if_neg (by omega)]
    exact c5
  · rw [hsph, hpm, if_neg (by omega)]
    exact c6
  · rw [hsph]
    generalize hq : (s.sph sph).start_page + o = q
    have hq1 : (s.sph sph).start_page ≤ q := by omega
    have hq2 : q < (s.sph sph).start_page + SUPERPAGE_LEN := by omega
    by_cases a : (s.pbh M).start_page ≤ q ∧ q < (s.pbh M).start_page + (s.pbh M).length + l2
    · have e : pagemap_get_checked s' q = M := by
        rw [hpm]
        by_cases c : (s.pbh M).start_page + (s.pbh M).length ≤ q
        · rw [if_pos ⟨c, a.2⟩]
        · rw [if_neg (by omega)]
          have := m6 (q - (s.pbh M).start_page) (by omega)
          rw [show (s.pbh M).start_page + (q - (s.pbh M).start_page) = q by omega] at this
          exact this
      rw [e, hM1, hM2]
      exact ⟨hMok, a.1, by omega⟩
    · have e : pagemap_get_checked s' q = pagemap_get_checked s q := by
        rw [hpm, if_neg (by omega)]
      obtain ⟨hp, hp1, hp2⟩ := sp_inv_page s sph hi q hq1 hq2
      rw [e]
      generalize pagemap_get_checked s q = h at hp hp1 hp2
      have hne : h ≠ M := by
        intro e2
        rw [e2] at hp1 hp2
        omega
      obtain ⟨o1, o2, o3⟩ := hoth h hne
      have hp' := hp
      obtain ⟨p1, p2, p3, p4, p5, p6⟩ := hp'
      rw [o1, o2]
      refine ⟨⟨by rw [hsph, o1]; exact p1, by rw [o2]; exact p2, by rw [hsph, o1, o2]; exact p3,
        by rw [hsph, o1, o3]; exact p4, by rw [o3]; exact p5, fun i hi2 => ?_⟩, hp1, hp2⟩
      rw [o1, hpm]
      rw [o2] at hi2
      by_cases c : (s.pbh M).start_page + (s.pbh M).length ≤ (s.pbh h).start_page + i ∧
          (s.pbh h).start_page + i < (s.pbh M).start_page + (s.pbh M).length + l2
      · exfalso
        have := hwhole _ c.1 c.2
        rw [p6 i hi2] at this
        omega
      · rw [if_neg c]
        exact p6 i hi2

theorem sp_inv_pm_has (s : State) (sph : Nat) (hi : sp_inv s sph) (q : Nat)
    (h1 : (s.sph sph).start_page ≤ q) (h2 : q < (s.sph sph).start_page + SUPERPAGE_LEN) :
    pm_has s q := by
  by_contra hn
  have h0 := (pagemap_get_checked_eq s q).2 hn
  exact (hdr_ok_ne_zero s sph _ (sp_inv_page s sph hi q h1 h2).1).1 h0

/-- What a change of links of the page block lists leaves alone. -/
theorem no_links_lay (s s1 : State) (t : Nat) (h : no_links s1 = no_links s) :
    (∀ x, (s1.pbh x).start_page = (s.pbh x).start_page ∧ (s1.pbh x).length = (s.pbh x).length ∧
      (s1.pbh x).index = (s.pbh x).index ∧ (s1.pbh x).status = (s.pbh x).status) ∧
    s1.sph = s.sph ∧ s1.pm_node = s.pm_node ∧ s1.pm_leaf = s.pm_leaf ∧ s1.cfg = s.cfg ∧
    (cache_ok s t → cache_ok s1 t) ∧ (∀ q, pagemap_get_checked s1 q = pagemap_get_checked s q) := by
  obtain ⟨hd, hsph, _, _, hn, hl, hv, hcfg, hthr⟩ := no_links_fields s s1 h
  refine ⟨fun x => ?_, hsph, hn, hl, hcfg, fun hc => ?_, fun q => ?_⟩
  · obtain ⟨a, b, c, _, e⟩ := pbh_data_fields _ _ (hd x)
    exact ⟨a, b, c, e⟩
  · obtain ⟨a, b, _⟩ := tlh_nolists_cache _ _ (hthr t)
    exact cache_ok_congr s s1 t hcfg hn hl a b hc
  · exact pagemap_get_checked_congr s s1 hn hl hv q

/-- The call `pagemap_set_range(start, len, val)` that returned, on pages whose
levels exist. -/
theorem pagemap_set_range_effect (s s1 : State) (t start len v : Nat)
    (h : pagemap_set_range s t start len v = some s1)
    (hh : ∀ i, i < len → pm_has s (start + i)) (hc : cache_ok s t) (hinj : pm_inj s) :
    s1.pbh = s.pbh ∧ s1.sph = s.sph ∧ s1.pm_node = s.pm_node ∧ s1.pm_leaf = s.pm_leaf ∧
    s1.cfg = s.cfg ∧ cache_ok s1 t ∧
    ∀ q, pagemap_get_checked s1 q =
      if start ≤ q ∧ q < start + len then v else pagemap_get_checked s q := by
  obtain ⟨s2, h2, hpm, hc2, hv⟩ := pagemap_set_range_spec t v len s start hh hc hinj
  rw [h] at h2
  simp only [Option.some.injEq] at h2
  subst h2
  obtain ⟨a, b, _, _, c, d, _, _, _, _, _, e, _⟩ := no_pm_fields s s1 hpm
  exact ⟨a, b, c, d, e, hc2, hv⟩

theorem pbh_add_length_pbh (s : State) (a n x : Nat) :
    (pbh_add_length s a n).pbh x =
      if x = a then { s.pbh a with length := u8 ((s.pbh a).length + n) } else s.pbh x := by
  simp only [pbh_add_length, set_pbh, upd]

theorem hdr_step_refl (s : State) (t M : Nat) : hdr_step s s t M :=
  ⟨fun _ => ⟨rfl, rfl, rfl, fun _ => rfl⟩, rfl, rfl, rfl, rfl, id⟩

theorem hdr_step_trans {s s1 s2 : State} {t M : Nat} (h1 : hdr_step s s1 t M)
    (h2 : hdr_step s1 s2 t M) : hdr_step s s2 t M := by
  obtain ⟨a1, b1, c1, d1, e1, f1⟩ := h1
  obtain ⟨a2, b2, c2, d2, e2, f2⟩ := h2
  refine ⟨fun x => ?_, b2.trans b1, c2.trans c1, d2.trans d1, e2.trans e1, fun h => f2 (f1 h)⟩
  obtain ⟨p1, p2, p3, p4⟩ := a1 x
  obtain ⟨q1, q2, q3, q4⟩ := a2 x
  exact ⟨q1.trans p1, q2.trans p2, q3.trans p3, fun hx => (q4 hx).trans (p4 hx)⟩

theorem hdr_step_of_no_links (s s1 : State) (t M : Nat) (h : no_links s1 = no_links s) :
    hdr_step s s1 t M ∧ (∀ x, (s1.pbh x).length = (s.pbh x).length) ∧
    ∀ q, pagemap_get_checked s1 q = pagemap_get_checked s q := by
  obtain ⟨a, b, c, d, e, f, g⟩ := no_links_lay s s1 t h
  exact ⟨⟨fun x => ⟨(a x).1, (a x).2.2.1, (a x).2.2.2, fun _ => (a x).2.1⟩, b, c, d, e, f⟩,
    fun x => (a x).2.1, g⟩

theorem hdr_step_add_length (s : State) (t M n : Nat) (hle : (s.pbh M).length + n < 256) :
    hdr_step s (pbh_add_length s M n) t M ∧
    ((pbh_add_length s M n).pbh M).length = (s.pbh M).length + n ∧
    ∀ q, pagemap_get_checked (pbh_add_length s M n) q = pagemap_get_checked s q := by
  refine ⟨⟨fun x => ?_, rfl, rfl, rfl, rfl, fun h => h⟩, ?_, fun q => rfl⟩
  · rw [pbh_add_length_pbh]
    by_cases e : x = M
    · subst e
      simp
    · simp [e]
  · rw [pbh_add_length_pbh, if_pos rfl]
    simp only [u8]
    omega

theorem hdr_step_set_range (s s1 : State) (t M start len v : Nat)
    (h : pagemap_set_range s t start len v = some s1)
    (hh : ∀ i, i < len → pm_has s (start + i)) (hc : cache_ok s t) (hinj : pm_inj s) :
    hdr_step s s1 t M ∧ (∀ x, (s1.pbh x).length = (s.pbh x).length) ∧ cache_ok s1 t ∧
    ∀ q, pagemap_get_checked s1 q =
      if start ≤ q ∧ q < start + len then v else pagemap_get_checked s q := by
  obtain ⟨a, b, c, d, e, f, g⟩ := pagemap_set_range_effect s s1 t start len v h hh hc hinj
  refine ⟨⟨fun x => ?_, b, c, d, e, fun _ => f⟩, fun x => by rw [a], f, g⟩
  rw [a]
  exact ⟨rfl, rfl, rfl, fun _ => rfl⟩

theorem hdr_step_pm (s s1 : State) (t M : Nat) (h : hdr_step s s1 t M) :
    (∀ q, pm_has s q → pm_has s1 q) ∧ (pm_inj s → pm_inj s1) := by
  obtain ⟨_, _, c, d, _, _⟩ := h
  exact ⟨fun q hq => (pm_has_congr s s1 c d q).1.mpr hq, pm_inj_congr s s1 c d⟩

/-- The last part of `pb_coalesce` when the page blocks before and after `X` are
both free: the page block `N` after `X` leaves its list and `P` takes its pages. -/
theorem pb_coalesce_both_tail (sb s1 : State) (t P N X M : Nat)
    (h : ((free_pb_ref (sb.pbh N).length).bind fun r =>
      (pbh_list_remove sb t r N).bind fun sc =>
        if ((pbh_add_length sc P (sb.pbh N).length).pbh P).length = SUPERPAGE_LEN then
          some (P, pbh_add_length sc P (sb.pbh N).length)
        else
          (pagemap_set_range (pbh_add_length sc P (sb.pbh N).length) t
            ((pbh_add_length sc P (sb.pbh N).length).pbh N).start_page (sb.pbh N).length P).bind
            fun s => (pagemap_set_range s t (s.pbh X).start_page (s.pbh X).length P).bind
              fun s => some (P, s)) = some (M, s1))
    (hle : (sb.pbh P).length + (sb.pbh N).length ≤ SUPERPAGE_LEN) (hXP : X ≠ P)
    (hpmN : ∀ i, i < (sb.pbh N).length → pm_has sb ((sb.pbh N).start_page + i))
    (hpmX : ∀ i, i < (sb.pbh X).length → pm_has sb ((sb.pbh X).start_page + i))
    (hc : cache_ok sb t) (hinj : pm_inj sb) :
    M = P ∧ hdr_step sb s1 t P ∧ (s1.pbh P).length = (sb.pbh P).length + (sb.pbh N).length ∧
    cache_ok s1 t ∧
    ∀ q, pagemap_get_checked s1 q =
      if (sb.pbh P).length + (sb.pbh N).length ≠ SUPERPAGE_LEN ∧
        (((sb.pbh X).start_page ≤ q ∧ q < (sb.pbh X).start_page + (sb.pbh X).length) ∨
          ((sb.pbh N).start_page ≤ q ∧ q < (sb.pbh N).start_page + (sb.pbh N).length)) then P
      else pagemap_get_checked sb q := by
  have h63 : SUPERPAGE_LEN = 63 := rfl
  simp only [Option.bind_eq_some] at h
  obtain ⟨r2, _, sc, hrm2, h⟩ := h
  obtain ⟨kc, lc, pc⟩ :=
    hdr_step_of_no_links sb sc t P (pbh_list_remove_no_links sb sc t r2 N hrm2)
  obtain ⟨kd, ld, pd⟩ := hdr_step_add_length sc t P (sb.pbh N).length (by rw [lc P]; omega)
  rw [lc P] at ld
  have kad := hdr_step_trans kc kd
  have pad : ∀ q, pagemap_get_checked (pbh_add_length sc P (sb.pbh N).length) q =
      pagemap_get_checked sb q := fun q => (pd q).trans (pc q)
  have hcd : cache_ok (pbh_add_length sc P (sb.pbh N).length) t := kad.2.2.2.2.2 hc
  generalize hsd : pbh_add_length sc P (sb.pbh N).length = sd at h kd ld kad pad hcd
  by_cases hF : (sd.pbh P).length = SUPERPAGE_LEN
  · rw [if_pos hF] at h
    simp only [Option.some.injEq, Prod.mk.injEq] at h
    obtain ⟨hM, hs1⟩ := h
    subst hs1
    refine ⟨hM.symm, kad, ld, hcd, fun q => ?_⟩
    rw [ld] at hF
    rw [if_neg (fun hh => hh.1 hF)]
    exact pad q
  · rw [if_neg hF] at h
    simp only [Option.bind_eq_some] at h
    obtain ⟨se, hse, sf, hsf, h⟩ := h
    simp only [Option.some.injEq, Prod.mk.injEq] at h
    obtain ⟨hM, hs1⟩ := h
    subst hs1
    have hstNd : (sd.pbh N).start_page = (sb.pbh N).start_page := (kad.1 N).1
    rw [hstNd] at hse
    obtain ⟨ke, le, hce, pe⟩ := hdr_step_set_range sd se t P _ _ _ hse
      (fun i hi2 => (hdr_step_pm sb sd t P kad).1 _ (hpmN i hi2)) hcd
      ((hdr_step_pm sb sd t P kad).2 hinj)
    have kae := hdr_step_trans kad ke
    have hstXe : (se.pbh X).start_page = (sb.pbh X).start_page := (kae.1 X).1
    have hlenXe : (se.pbh X).length = (sb.pbh X).length := (kae.1 X).2.2.2 hXP
    rw [hstXe, hlenXe] at hsf
    obtain ⟨kf, lf, hcf, pf⟩ := hdr_step_set_range se sf t P _ _ _ hsf
      (fun i hi2 => (hdr_step_pm sb se t P kae).1 _ (hpmX i hi2)) hce
      ((hdr_step_pm sb se t P kae).2 hinj)
    refine ⟨hM.symm, hdr_step_trans kae kf, by rw [lf P, le P, ld], hcf, fun q => ?_⟩
    rw [pf q, pe q, pad q]
    rw [ld] at hF
    by_cases a : (sb.pbh X).start_page ≤ q ∧ q < (sb.pbh X).start_page + (sb.pbh X).length
    · rw [if_pos a, if_pos ⟨hF, Or.inl a⟩]
    · rw [if_neg a]
      by_cases b : (sb.pbh N).start_page ≤ q ∧ q < (sb.pbh N).start_page + (sb.pbh N).length
      · rw [if_pos b, if_pos ⟨hF, Or.inr b⟩]
      · rw [if_neg b, if_neg (fun hh => hh.2.elim a b)]


/-- The effect of `pb_coalesce(tlh, X)` on a page block `X` of a superpage with a
sound layout, when it returns: the result `M` is `X` or the free page block before
it, and `M` has absorbed `X` and its free neighbours. -/
theorem pb_coalesce_spec (s s1 : State) (t sph X M : Nat) (hi : sp_inv s sph)
    (hX : hdr_ok s sph X) (hc : cache_ok s t) (hinj : pm_inj s)
    (h : pb_coalesce s t X = some (M, s1)) :
    ∃ l2, coalesced s s1 t sph X M l2 := by
  unfold coalesced
  have hi' := hi
  obtain ⟨c1, c2, c3, c4, c5, c6, _⟩ := hi'
  have hX' := hX
  obtain ⟨x1, x2, x3, x4, x5, x6⟩ := hX'
  obtain ⟨hsub, hprev0, hprev1⟩ := sp_inv_prev s sph X hi hX
  obtain ⟨hu64, hnext0, hnext1⟩ := sp_inv_next s sph X hi hX
  have h63 : SUPERPAGE_LEN = 63 := rfl
  have hpmX : ∀ i, i < (s.pbh X).length → pm_has s ((s.pbh X).start_page + i) :=
    fun i hi2 => sp_inv_pm_has s sph hi _ (by omega) (by omega)
  unfold pb_coalesce at h
  simp only [Option.bind_eq_bind, Option.pure_def] at h
  rw [hsub, hu64] at h
  generalize hP : pagemap_get_checked s ((s.pbh X).start_page - 1) = P at h hprev0 hprev1
  generalize hNv : pagemap_get_checked s ((s.pbh X).start_page + (s.pbh X).length) = Nv
    at h hnext0 hnext1
  -- the page block after `X`, if there is one
  have hNcase : (if Nv &&& HUGE_MALLOC_MARK ≠ 0 then 0 else Nv) = 0 ∨
      ((if Nv &&& HUGE_MALLOC_MARK ≠ 0 then 0 else Nv) = Nv ∧ hdr_ok s sph Nv ∧ Nv ≠ X ∧
        (s.pbh Nv).start_page = (s.pbh X).start_page + (s.pbh X).length) := by
    by_cases hb : (s.pbh X).start_page + (s.pbh X).length = (s.sph sph).start_page + SUPERPAGE_LEN
    · left
      rcases hnext0 hb with e | e
      · rw [e]; simp
      · rw [if_pos e]
    · right
      obtain ⟨n1, n2, n3⟩ := hnext1 hb
      rw [if_neg (not_not.mpr ((hdr_ok_ne_zero s sph Nv n1).2 c1))]
      exact ⟨rfl, n1, n2, n3⟩
  generalize (if Nv &&& HUGE_MALLOC_MARK ≠ 0 then 0 else Nv) = N at h hNcase
  have hNfacts : N ≠ 0 → hdr_ok s sph N ∧ N ≠ X ∧
      (s.pbh N).start_page = (s.pbh X).start_page + (s.pbh X).length ∧
      ∀ i, i < (s.pbh N).length → pm_has s ((s.pbh N).start_page + i) := by
    intro hn
    rcases hNcase with e | ⟨e, n1, n2, n3⟩
    · exact absurd e hn
    · rw [e]
      have n1' := n1
      obtain ⟨_, _, n5, _⟩ := n1'
      exact ⟨n1, n2, n3, fun i hi2 => sp_inv_pm_has s sph hi _ (by omega) (by omega)⟩
  clear hNcase hnext0 hnext1 hNv
  by_cases hA : P &&& HUGE_MALLOC_MARK ≠ 0
  · rw [if_pos hA] at h
    exact absurd h (by simp)
  rw [if_neg hA] at h
  by_cases hB : P ≠ 0 ∧ (s.pbh P).status = PBH_ON_FREE_LIST
  · -- the page block before `X` is free
    rw [if_pos hB] at h
    have hst : (s.pbh X).start_page ≠ (s.sph sph).start_page := by
      intro e
      exact hB.1 (hprev0 e)
    obtain ⟨p1, p2, p3⟩ := hprev1 hst
    have p1' := p1
    obtain ⟨q1, q2, q3, q4, q5, q6⟩ := p1'
    simp only [Option.bind_eq_some] at h
    obtain ⟨r, _, sa, hrm, h⟩ := h
    obtain ⟨ka, la, pa⟩ := hdr_step_of_no_links s sa t P (pbh_list_remove_no_links s sa t r P hrm)
    have hlenX : (sa.pbh X).length = (s.pbh X).length := la X
    rw [hlenX] at h
    obtain ⟨kb, lb, pb⟩ := hdr_step_add_length sa t P (s.pbh X).length (by rw [la P]; omega)
    rw [la P] at lb
    have kab := hdr_step_trans ka kb
    have pab : ∀ q, pagemap_get_checked (pbh_add_length sa P (s.pbh X).length) q =
        pagemap_get_checked s q := fun q => (pb q).trans (pa q)
    have hcb : cache_ok (pbh_add_length sa P (s.pbh X).length) t := kab.2.2.2.2.2 hc
    have hwX : ∀ r, (s.pbh P).start_page + (s.pbh P).length ≤ r →
        r < (s.pbh P).start_page + (s.pbh P).length + (s.pbh X).length →
        pagemap_get_checked s r = X := by
      intro r r1 r2
      have := x6 (r - (s.pbh X).start_page) (by omega)
      rw [show (s.pbh X).start_page + (r - (s.pbh X).start_page) = r by omega] at this
      exact this
    generalize hsb : pbh_add_length sa P (s.pbh X).length = sb at h kb lb kab pab hcb
    by_cases hD : (sb.pbh P).length = SUPERPAGE_LEN
    · -- the merged page block spans the superpage
      rw [if_pos hD] at h
      simp only [Option.some.injEq, Prod.mk.injEq] at h
      obtain ⟨hM, hs1⟩ := h
      subst hM
      subst hs1
      refine ⟨(s.pbh X).length, p1, by omega, by omega, by omega, Or.inr hB.2, fun r r1 r2 => ?_,
        kab, lb, hcb, fun q => ?_⟩
      · rw [hwX r r1 r2]
        exact ⟨⟨by omega, by omega⟩, Or.inl rfl⟩
      · rw [lb] at hD
        rw [if_neg (fun hh => hh.1 hD)]
        exact pab q
    rw [if_neg hD] at h
    by_cases hE : N ≠ 0 ∧ (sb.pbh N).status = PBH_ON_FREE_LIST
    · -- the page block after `X` is free as well
      rw [if_pos hE] at h
      obtain ⟨n1, n2, n3, n4⟩ := hNfacts hE.1
      have n1' := n1
      obtain ⟨m1, m2, m3, m4, m5, m6⟩ := n1'
      have hNP : N ≠ P := by
        intro e
        rw [e] at n3
        omega
      have hstN : (s.pbh N).status = PBH_ON_FREE_LIST := by
        rw [← hE.2]
        exact ((kab.1 N).2.2.1).symm
      have hlenN : (sb.pbh N).length = (s.pbh N).length := (kab.1 N).2.2.2 hNP
      obtain ⟨hM, kbs, lbs, hcs, pbs⟩ := pb_coalesce_both_tail sb s1 t P N X M h
        (by rw [lb, hlenN]; omega) (Ne.symm p2)
        (fun i hi2 => (hdr_step_pm s sb t P kab).1 _ (by
          rw [(kab.1 N).1]; exact n4 i (by rw [← hlenN]; exact hi2)))
        (fun i hi2 => (hdr_step_pm s sb t P kab).1 _ (by
          rw [(kab.1 X).1]
          exact hpmX i (by rw [← (kab.1 X).2.2.2 (Ne.symm p2)]; exact hi2)))
        hcb ((hdr_step_pm s sb t P kab).2 hinj)
      rw [hM]
      have hwN : ∀ r, (s.pbh P).start_page + (s.pbh P).length + (s.pbh X).length ≤ r →
          r < (s.pbh P).start_page + (s.pbh P).length + ((s.pbh X).length + (s.pbh N).length) →
          pagemap_get_checked s r = N := by
        intro r r1 r2
        have := m6 (r - (s.pbh N).start_page) (by omega)
        rw [show (s.pbh N).start_page + (r - (s.pbh N).start_page) = r by omega] at this
        exact this
      refine ⟨(s.pbh X).length + (s.pbh N).length, p1, by omega, by omega, by omega,
        Or.inr hB.2, fun r r1 r2 => ?_, hdr_step_trans kab kbs, by rw [lbs, lb, hlenN]; omega, hcs,
        fun q => ?_⟩
      · by_cases c : r < (s.pbh P).start_page + (s.pbh P).length + (s.pbh X).length
        · rw [hwX r r1 c]
          exact ⟨⟨by omega, by omega⟩, Or.inl rfl⟩
        · rw [hwN r (by omega) r2]
          exact ⟨⟨by omega, by omega⟩, Or.inr hstN⟩
      · rw [pbs q, pab q, lb, hlenN, (kab.1 X).1, (kab.1 X).2.2.2 (Ne.symm p2), (kab.1 N).1]
        by_cases a : (s.pbh P).length + (s.pbh X).length + (s.pbh N).length ≠ SUPERPAGE_LEN ∧
            (((s.pbh X).start_page ≤ q ∧ q < (s.pbh X).start_page + (s.pbh X).length) ∨
              ((s.pbh N).start_page ≤ q ∧ q < (s.pbh N).start_page + (s.pbh N).length))
        · rw [if_pos a, if_pos ⟨by omega, by omega, by omega⟩]
        · rw [if_neg a, if_neg (by omega)]
    · -- only the page block before `X` is free
      rw [if_neg hE] at h
      simp only [Option.bind_eq_some] at h
      obtain ⟨se, hse, h⟩ := h
      simp only [Option.some.injEq, Prod.mk.injEq] at h
      obtain ⟨hM, hs1⟩ := h
      subst hM
      subst hs1
      have hstXb : (sb.pbh X).start_page = (s.pbh X).start_page := (kab.1 X).1
      have hlenXb : (sb.pbh X).length = (s.pbh X).length := (kab.1 X).2.2.2 (Ne.symm p2)
      rw [hstXb, hlenXb] at hse
      obtain ⟨ke, le, hce, pe⟩ := hdr_step_set_range sb se t P _ _ _ hse
        (fun i hi2 => (hdr_step_pm s sb t P kab).1 _ (hpmX i hi2)) hcb
        ((hdr_step_pm s sb t P kab).2 hinj)
      refine ⟨(s.pbh X).length, p1, by omega, by omega, by omega, Or.inr hB.2, fun r r1 r2 => ?_,
        hdr_step_trans kab ke, by rw [le P, lb], hce, fun q => ?_⟩
      · rw [hwX r r1 r2]
        exact ⟨⟨by omega, by omega⟩, Or.inl rfl⟩
      · rw [pe q, pab q]
        rw [lb] at hD
        by_cases a : (s.pbh X).start_page ≤ q ∧ q < (s.pbh X).start_page + (s.pbh X).length
        · rw [if_pos a, if_pos ⟨hD, by omega, by omega⟩]
        · rw [if_neg a, if_neg (by omega)]
  rw [if_neg hB] at h
  by_cases hC : N ≠ 0 ∧ (s.pbh N).status = PBH_ON_FREE_LIST
  · -- only the page block after `X` is free
    rw [if_pos hC] at h
    obtain ⟨n1, n2, n3, n4⟩ := hNfacts hC.1
    have n1' := n1
    obtain ⟨m1, m2, m3, m4, m5, m6⟩ := n1'
    simp only [Option.bind_eq_some] at h
    obtain ⟨r, _, sa, hrm, h⟩ := h
    obtain ⟨ka, la, pa⟩ := hdr_step_of_no_links s sa t X (pbh_list_remove_no_links s sa t r N hrm)
    obtain ⟨kb, lb, pb⟩ := hdr_step_add_length sa t X (s.pbh N).length (by rw [la X]; omega)
    rw [la X] at lb
    have kab := hdr_step_trans ka kb
    have pab : ∀ q, pagemap_get_checked (pbh_add_length sa X (s.pbh N).length) q =
        pagemap_get_checked s q := fun q => (pb q).trans (pa q)
    have hcb : cache_ok (pbh_add_length sa X (s.pbh N).length) t := kab.2.2.2.2.2 hc
    generalize hsb : pbh_add_length sa X (s.pbh N).length = sb at h kb lb kab pab hcb
    have hwhole : ∀ r, (s.pbh X).start_page + (s.pbh X).length ≤ r →
        r < (s.pbh X).start_page + (s.pbh X).length + (s.pbh N).length →
        ((s.pbh X).start_page + (s.pbh X).length ≤ (s.pbh (pagemap_get_checked s r)).start_page ∧
          (s.pbh (pagemap_get_checked s r)).start_page +
            (s.pbh (pagemap_get_checked s r)).length ≤
            (s.pbh X).start_page + (s.pbh X).length + (s.pbh N).length) ∧
        (pagemap_get_checked s r = X ∨
          (s.pbh (pagemap_get_checked s r)).status = PBH_ON_FREE_LIST) := by
      intro r r1 r2
      have := m6 (r - (s.pbh N).start_page) (by omega)
      rw [show (s.pbh N).start_page + (r - (s.pbh N).start_page) = r by omega] at this
      rw [this]
      exact ⟨⟨by omega, by omega⟩, Or.inr hC.2⟩
    by_cases hD : (sb.pbh X).length = SUPERPAGE_LEN
    · rw [if_pos hD] at h
      simp only [Option.some.injEq, Prod.mk.injEq] at h
      obtain ⟨hM, hs1⟩ := h
      subst hM
      subst hs1
      refine ⟨(s.pbh N).length, hX, by omega, le_refl _, by omega, Or.inl rfl, hwhole, kab, lb,
        hcb, fun q => ?_⟩
      rw [lb] at hD
      rw [if_neg (fun hh => hh.1 hD)]
      exact pab q
    · rw [if_neg hD] at h
      simp only [Option.bind_eq_some] at h
      obtain ⟨se, hse, h⟩ := h
      simp only [Option.some.injEq, Prod.mk.injEq] at h
      obtain ⟨hM, hs1⟩ := h
      subst hM
      subst hs1
      have hstNb : (sb.pbh N).start_page = (s.pbh N).start_page := (kab.1 N).1
      rw [hstNb] at hse
      obtain ⟨ke, le, hce, pe⟩ := hdr_step_set_range sb se t X _ _ _ hse
        (fun i hi2 => (hdr_step_pm s sb t X kab).1 _ (n4 i hi2)) hcb
        ((hdr_step_pm s sb t X kab).2 hinj)
      refine ⟨(s.pbh N).length, hX, by omega, le_refl _, by omega, Or.inl rfl, hwhole,
        hdr_step_trans kab ke, by rw [le X, lb], hce, fun q => ?_⟩
      rw [pe q, pab q]
      rw [lb] at hD
      by_cases a : (s.pbh N).start_page ≤ q ∧ q < (s.pbh N).start_page + (s.pbh N).length
      · rw [if_pos a, if_pos ⟨hD, by omega, by omega⟩]
      · rw [if_neg a, if_neg (by omega)]
  · -- no neighbour is free
    rw [if_neg hC] at h
    simp only [Option.some.injEq, Prod.mk.injEq] at h
    obtain ⟨hM, hs1⟩ := h
    subst hM
    subst hs1
    refine ⟨0, hX, by omega, le_refl _, by omega, Or.inl rfl, fun r r1 r2 => by omega,
      hdr_step_refl _ _ _, rfl, hc, fun q => ?_⟩
    rw [if_neg (by omega)]

theorem hdr_ok_superpage (s s1 : State) (sph M : Nat) (hM : hdr_ok s sph M)
    (h64 : sph + PBH_SIZE * (SUPERPAGE_LEN + 1) < 2 ^ 64)
    (hidx : (s1.pbh M).index = (s.pbh M).index) : pbh_get_superpage s1 M = some sph := by
  obtain ⟨m1, m2, m3, m4, m5, _⟩ := hM
  simp only [SUPERPAGE_LEN, NUM_PAGE_CLASSES, PBH_SIZE] at h64 m3 m5
  unfold pbh_get_superpage
  rw [hidx]
  have h0 : M ≠ 0 := by omega
  have hr : (s.pbh M).index > 0 ∧ (s.pbh M).index ≤ SUPERPAGE_LEN := by
    simp only [SUPERPAGE_LEN, NUM_PAGE_CLASSES]; omega
  rw [if_neg h0, if_neg (not_not.mpr hr)]
  simp only [sub64, PBH_SIZE, Option.some.injEq]
  omega

/-- The call `pb_free(tlh, X)` on a page block of a superpage with a sound layout,
when it returns: `X` and its free neighbours are merged into the page block `M`;
if `M` then spans the superpage, the rest of the call is `sph_free`; if not, `M`
is reset by `pbh_field_init` and put on a free page block list. -/
theorem pb_free_spec (s s' : State) (t sph X : Nat) (hi : sp_inv s sph) (hX : hdr_ok s sph X)
    (hc : cache_ok s t) (hinj : pm_inj s) (h : pb_free s t X = some s') :
    ∃ M s1 l2, coalesced s s1 t sph X M l2 ∧
      (((s.pbh M).length + l2 = SUPERPAGE_LEN ∧ sph_free s1 t sph = some s') ∨
       ((s.pbh M).length + l2 ≠ SUPERPAGE_LEN ∧
          ∃ r, pbh_list_prepend (pbh_field_init s1 M) t r M = some s')) := by
  unfold pb_free at h
  simp only [Option.bind_eq_bind, Option.pure_def] at h
  by_cases h0 : ¬ (s.pbh X).length ≤ SUPERPAGE_LEN
  · rw [if_pos h0] at h
    exact absurd h (by simp)
  rw [if_neg h0] at h
  simp only [Option.bind_eq_some] at h
  obtain ⟨⟨M, s1⟩, hco, h⟩ := h
  have key : ∃ l2, coalesced s s1 t sph X M l2 := by
    by_cases hlt : (s.pbh X).length < SUPERPAGE_LEN
    · rw [if_pos hlt] at hco
      exact pb_coalesce_spec s s1 t sph X M hi hX hc hinj hco
    · rw [if_neg hlt] at hco
      simp only [Option.some.injEq, Prod.mk.injEq] at hco
      obtain ⟨hM, hs1⟩ := hco
      subst hM
      subst hs1
      refine ⟨0, hX, by have := hX.2.2.1; omega, le_refl _, by omega, Or.inl rfl,
        fun r r1 r2 => by omega, hdr_step_refl _ _ _, rfl, hc, fun q => ?_⟩
      rw [if_neg (by omega)]
  obtain ⟨l2, hk⟩ := key
  refine ⟨M, s1, l2, hk, ?_⟩
  have hk' := hk
  obtain ⟨k1, _, _, _, _, _, k7, k8, _, _⟩ := hk'
  simp only [] at h
  by_cases hD : (s1.pbh M).length = SUPERPAGE_LEN
  · rw [if_pos hD] at h
    left
    rw [hdr_ok_superpage s s1 sph M k1 hi.2.2.2.1 (k7.1 M).2.1] at h
    rw [k8] at hD
    exact ⟨hD, h⟩
  · rw [if_neg hD] at h
    right
    simp only [Option.bind_eq_some] at h
    obtain ⟨r, _, h⟩ := h
    rw [k8] at hD
    exact ⟨hD, r, h⟩

/-- The layout of a superpage after `pb_free(tlh, X)` on one of its page blocks:
when the call returns, either the layout is sound again, or all PageMap entries of
the superpage are `NULL`. A page whose page block is neither `X` nor on a free page
block list keeps its PageMap entry, and its page block keeps its pages. -/
theorem pb_free_inv (s s' : State) (t sph X : Nat) (hi : sp_inv s sph) (hX : hdr_ok s sph X)
    (hc : cache_ok s t) (hinj : pm_inj s) (h : pb_free s t X = some s') :
    (sp_inv s' sph ∨
      ∀ q, (s.sph sph).start_page ≤ q → q < (s.sph sph).start_page + SUPERPAGE_LEN →
        pagemap_get_checked s' q = 0) ∧
    (∀ q, (s.sph sph).start_page ≤ q → q < (s.sph sph).start_page + SUPERPAGE_LEN →
      pagemap_get_checked s q ≠ X →
      (s.pbh (pagemap_get_checked s q)).status ≠ PBH_ON_FREE_LIST →
      pagemap_get_checked s' q = pagemap_get_checked s q ∧
      (s'.pbh (pagemap_get_checked s q)).start_page =
        (s.pbh (pagemap_get_checked s q)).start_page ∧
      (s'.pbh (pagemap_get_checked s q)).length = (s.pbh (pagemap_get_checked s q)).length ∧
      (s'.pbh (pagemap_get_checked s q)).status = (s.pbh (pagemap_get_checked s q)).status) := by
  obtain ⟨M, s1, l2, hk, hrest⟩ := pb_free_spec s s' t sph X hi hX hc hinj h
  obtain ⟨k1, k2, k3, k4, k5, k6, k7, k8, k9, k10⟩ := hk
  have k1' := k1
  obtain ⟨m1, m2, m3, m4, m5, m6⟩ := k1'
  have h63 : SUPERPAGE_LEN = 63 := rfl
  -- a page whose page block is neither `X` nor free lies outside the merged block
  have hout : ∀ q, (s.sph sph).start_page ≤ q → q < (s.sph sph).start_page + SUPERPAGE_LEN →
      pagemap_get_checked s q ≠ X →
      (s.pbh (pagemap_get_checked s q)).status ≠ PBH_ON_FREE_LIST →
      pagemap_get_checked s q ≠ M ∧
      ¬ ((s.pbh M).start_page ≤ q ∧ q < (s.pbh M).start_page + (s.pbh M).length + l2) := by
    intro q q1 q2 qx qf
    have hne : pagemap_get_checked s q ≠ M := by
      intro e
      rcases k5 with e2 | e2
      · exact qx (e.trans e2)
      · rw [e] at qf
        exact qf e2
    refine ⟨hne, fun hin => ?_⟩
    by_cases c : q < (s.pbh M).start_page + (s.pbh M).length
    · have := m6 (q - (s.pbh M).start_page) (by omega)
      rw [show (s.pbh M).start_page + (q - (s.pbh M).start_page) = q by omega] at this
      exact hne this
    · rcases (k6 q (by omega) hin.2).2 with e | e
      · exact qx e
      · exact qf e
  rcases hrest with ⟨hlen, hsf⟩ | ⟨hlen, r, hpp⟩
  · -- the superpage is released
    obtain ⟨hp, _, sa, sb, hrem, hset, hn, hl, hv⟩ := sph_free_effect s1 s' t sph hsf
    obtain ⟨_, an, al, av, acfg, _, athr⟩ := sph_list_remove_effect s1 sa t sph hrem
    obtain ⟨_, ksph, kn, kl, kcfg, _⟩ := k7
    have hca : cache_ok sa t :=
      cache_ok_congr s1 sa t acfg an al (athr t).2.2.1 (athr t).2.2.2 k9
    have hsp : (s1.sph sph).start_page = (s.sph sph).start_page := by rw [ksph]
    rw [hsp] at hset
    obtain ⟨_, _, _, _, _, _, pv⟩ := pagemap_set_range_effect sa sb t _ _ _ hset
      (fun i hi2 => (pm_has_congr s sa (an.trans kn) (al.trans kl) _).1.mpr
        (sp_inv_pm_has s sph hi _ (by omega) (by omega)))
      hca (pm_inj_congr s sa (an.trans kn) (al.trans kl) hinj)
    refine ⟨Or.inr fun q q1 q2 => ?_, fun q q1 q2 qx qf => ?_⟩
    · rw [pagemap_get_checked_congr sb s' hn hl hv q, pv q, if_pos ⟨q1, q2⟩]
    · exfalso
      exact (hout q q1 q2 qx qf).2 ⟨by omega, by omega⟩
  · -- the merged page block goes on a free page block list
    obtain ⟨kp, lp, pp⟩ := hdr_step_of_no_links _ s' t M (pbh_list_prepend_no_links _ s' t r M hpp)
    have hfi : ∀ x, ((pbh_field_init s1 M).pbh x).start_page = (s1.pbh x).start_page ∧
        ((pbh_field_init s1 M).pbh x).length = (s1.pbh x).length ∧
        ((pbh_field_init s1 M).pbh x).index = (s1.pbh x).index ∧
        (x ≠ M → ((pbh_field_init s1 M).pbh x).status = (s1.pbh x).status) := by
      intro x
      simp only [pbh_field_init, set_pbh, upd]
      by_cases e : x = M
      · subst e; simp
      · simp [e]
    have hpm : ∀ q, pagemap_get_checked s' q =
        if (s.pbh M).start_page + (s.pbh M).length ≤ q ∧
          q < (s.pbh M).start_page + (s.pbh M).length + l2 then M
        else pagemap_get_checked s q := by
      intro q
      rw [pp q]
      have : pagemap_get_checked (pbh_field_init s1 M) q = pagemap_get_checked s1 q := rfl
      rw [this, k10 q]
      by_cases c : (s.pbh M).start_page + (s.pbh M).length ≤ q ∧
          q < (s.pbh M).start_page + (s.pbh M).length + l2
      · rw [if_pos c, if_pos ⟨hlen, c⟩]
      · rw [if_neg c, if_neg (fun hh => c hh.2)]
    have hdata : ∀ x, (s'.pbh x).start_page = (s.pbh x).start_page ∧
        (s'.pbh x).index = (s.pbh x).index ∧ (x ≠ M → (s'.pbh x).length = (s.pbh x).length) ∧
        (x ≠ M → (s'.pbh x).status = (s.pbh x).status) := by
      intro x
      obtain ⟨a1, a2, a3, a4⟩ := k7.1 x
      obtain ⟨b1, b2, b3, b4⟩ := hfi x
      obtain ⟨c1, c2, c3, _⟩ := kp.1 x
      exact ⟨c1.trans (b1.trans a1), c2.trans (b3.trans a2),
        fun hx => (lp x).trans (b2.trans (a4 hx)), fun hx => c3.trans ((b4 hx).trans a3)⟩
    refine ⟨Or.inl ?_, fun q q1 q2 qx qf => ?_⟩
    · refine sp_inv_merge s s' sph M l2 hi k1 k2 (fun r r1 r2 => (k6 r r1 r2).1) ?_
        (hdata M).1 ?_ (hdata M).2.1
        (fun x hx => ⟨(hdata x).1, (hdata x).2.2.1 hx, (hdata x).2.1⟩) hpm
      · rw [kp.2.1]
        have : (pbh_field_init s1 M).sph = s1.sph := rfl
        rw [this, k7.2.1]
      · rw [lp M, (hfi M).2.1, k8]
    · obtain ⟨o1, o2⟩ := hout q q1 q2 qx qf
      refine ⟨?_, (hdata _).1, (hdata _).2.2.1 o1, (hdata _).2.2.2 o1⟩
      rw [hpm q, if_neg (by omega)]

/-- Splitting: a page block `X` of a superpage that keeps its first `n` pages and
leaves the others to a new page block `R` in the slot of page `start_page + n`
keeps the layout of the superpage. -/
theorem sp_inv_split (s s' : State) (sph X R n : Nat) (hi : sp_inv s sph) (hX : hdr_ok s sph X)
    (hn : 1 ≤ n) (hL : n < (s.pbh X).length)
    (hR : R = sph + PBH_SIZE * ((s.pbh X).index + n))
    (e1 : (s'.pbh X).length = n) (e2 : (s'.pbh X).start_page = (s.pbh X).start_page)
    (e3 : (s'.pbh X).index = (s.pbh X).index)
    (e5 : (s'.pbh R).start_page = (s.pbh X).start_page + n)
    (e6 : (s'.pbh R).length = (s.pbh X).length - n)
    (e7 : (s'.pbh R).index = (s.pbh X).index + n)
    (e11 : ∀ h, h ≠ X → h ≠ R → (s'.pbh h).start_page = (s.pbh h).start_page ∧
      (s'.pbh h).length = (s.pbh h).length ∧ (s'.pbh h).index = (s.pbh h).index)
    (hsp : (s'.sph sph).start_page = (s.sph sph).start_page)
    (e10 : ∀ q, pagemap_get_checked s' q =
      if (s.pbh X).start_page + n ≤ q ∧ q < (s.pbh X).start_page + (s.pbh X).length then R
      else pagemap_get_checked s q) :
    sp_inv s' sph ∧ hdr_ok s' sph X ∧ hdr_ok s' sph R := by
  have hi' := hi
  obtain ⟨c1, c2, c3, c4, c5, c6, _⟩ := hi'
  have hX' := hX
  obtain ⟨x1, x2, x3, x4, x5, x6⟩ := hX'
  have h64 : PBH_SIZE = 64 := rfl
  have hRok : hdr_ok s' sph R := by
    refine ⟨by rw [hsp, e5]; omega, by rw [e6]; omega, by rw [hsp, e5, e6]; omega,
      by rw [hsp, e5, e7, x4]; omega, by rw [e7, hR], fun i hi2 => ?_⟩
    rw [e5, e10, if_pos ⟨by omega, by rw [e6] at hi2; omega⟩]
  have hXok : hdr_ok s' sph X := by
    refine ⟨by rw [hsp, e2]; exact x1, by rw [e1]; exact hn, by rw [hsp, e2, e1]; omega,
      by rw [hsp, e2, e3]; exact x4, by rw [e3]; exact x5, fun i hi2 => ?_⟩
    rw [e1] at hi2
    rw [e2, e10, if_neg (by omega)]
    exact x6 i (by omega)
  refine ⟨?_, hXok, hRok⟩
  refine ⟨c1, by rw [hsp]; exact c2, by rw [hsp]; exact c3, c4, ?_, ?_, fun o ho => ?_⟩
  · rw [hsp, e10, if_neg (by omega)]
    exact c5
  · rw [hsp, e10, if_neg (by omega)]
    exact c6
  · rw [hsp]
    generalize hq : (s.sph sph).start_page + o = q
    have hq1 : (s.sph sph).start_page ≤ q := by omega
    have hq2 : q < (s.sph sph).start_page + SUPERPAGE_LEN := by omega
    by_cases a : (s.pbh X).start_page + n ≤ q ∧ q < (s.pbh X).start_page + (s.pbh X).length
    · rw [e10, if_pos a, e5, e6]
      exact ⟨hRok, a.1, by omega⟩
    · rw [e10, if_neg a]
      obtain ⟨hp, hp1, hp2⟩ := sp_inv_page s sph hi q hq1 hq2
      generalize pagemap_get_checked s q = h at hp hp1 hp2
      by_cases b : h = X
      · subst b
        rw [e2, e1]
        exact ⟨hXok, hp1, by omega⟩
      · have hp' := hp
        obtain ⟨p1, p2, p3, p4, p5, p6⟩ := hp'
        have hdis : ∀ r, (s.pbh h).start_page ≤ r → r < (s.pbh h).start_page + (s.pbh h).length →
            ¬ ((s.pbh X).start_page ≤ r ∧ r < (s.pbh X).start_page + (s.pbh X).length) :=
          fun r r1 r2 hr => b (hdr_ok_unique s sph h X r hp hX r1 r2 hr.1 hr.2)
        have hhR : h ≠ R := by
          intro e
          have : (s.pbh h).start_page = (s.pbh X).start_page + n := by
            rw [hR, h64] at e
            rw [h64] at p5
            omega
          exact hdis ((s.pbh h).start_page) (le_refl _) (by omega) ⟨by omega, by omega⟩
        obtain ⟨o1, o2, o3⟩ := e11 h b hhR
        rw [o1, o2]
        refine ⟨⟨by rw [hsp, o1]; exact p1, by rw [o2]; exact p2, by rw [hsp, o1, o2]; exact p3,
          by rw [hsp, o1, o3]; exact p4, by rw [o3]; exact p5, fun i hi2 => ?_⟩, hp1, hp2⟩
        rw [o2] at hi2
        rw [o1, e10, if_neg (fun hh => hdis _ (Nat.le_add_right _ i) (by omega)
          ⟨by omega, hh.2⟩)]
        exact p6 i hi2


/-- The call `pb_split(tlh, X, n)` on a page block of a superpage with a sound
layout returns and keeps the layout sound: `X` keeps its first `n` pages and the
page block in the slot of page `start_page + n`, of status `ON_FREE_LIST`, takes the
others; the PageMap entries of the pages outside the remainder and the headers
other than these two are unchanged. -/
theorem pb_split_inv (s : State) (t sph X n : Nat) (hi : sp_inv s sph) (hX : hdr_ok s sph X)
    (hn : 1 ≤ n) (hL : n < (s.pbh X).length) (hc : cache_ok s t) (hinj : pm_inj s) :
    ∃ s', pb_split s t X n = some s' ∧ sp_inv s' sph ∧ hdr_ok s' sph X ∧
      (s'.pbh X).length = n ∧ (s'.pbh X).start_page = (s.pbh X).start_page ∧
      (s'.pbh X).status = (s.pbh X).status ∧
      hdr_ok s' sph (pagemap_get_checked s' ((s.pbh X).start_page + n)) ∧
      (s'.pbh (pagemap_get_checked s' ((s.pbh X).start_page + n))).start_page =
        (s.pbh X).start_page + n ∧
      (s'.pbh (pagemap_get_checked s' ((s.pbh X).start_page + n))).length =
        (s.pbh X).length - n ∧
      (s'.pbh (pagemap_get_checked s' ((s.pbh X).start_page + n))).status = PBH_ON_FREE_LIST ∧
      (∀ q, ¬ ((s.pbh X).start_page + n ≤ q ∧ q < (s.pbh X).start_page + (s.pbh X).length) →
        pagemap_get_checked s' q = pagemap_get_checked s q) ∧
      (∀ h, h ≠ X → h ≠ pagemap_get_checked s' ((s.pbh X).start_page + n) →
        pbh_data (s'.pbh h) = pbh_data (s.pbh h)) ∧
      (s'.sph sph).start_page = (s.sph sph).start_page ∧ cache_ok s' t ∧ pm_inj s' := by
  have hi' := hi
  obtain ⟨c1, c2, c3, c4, c5, c6, _⟩ := hi'
  have hX' := hX
  obtain ⟨x1, x2, x3, x4, x5, x6⟩ := hX'
  have h52 : PMAP_BITS = 52 := rfl
  obtain ⟨s', hs', e1, e2, e3, e4, e5, e6, e7, e8, _, e10, e11, e12, e13, e14, e15, e16⟩ :=
    pb_split_spec s t X n sph hn hL x1 x3 (by rw [h52] at c3; exact c3) x4 x5 c4
      (fun i hi2 => sp_inv_pm_has s sph hi _ (by omega) (by omega)) hc hinj
  have hsp : (s'.sph sph).start_page = (s.sph sph).start_page := by rw [e12]
  have hRn : pagemap_get_checked s' ((s.pbh X).start_page + n) =
      sph + PBH_SIZE * ((s.pbh X).index + n) := by
    rw [e10, if_pos ⟨le_refl _, by omega⟩]
  obtain ⟨k1, k2, k3⟩ := sp_inv_split s s' sph X _ n hi hX hn hL rfl e1 e2 e3 e5 e6 e7
    (fun h h1 h2 => by
      obtain ⟨o1, o2, o3, _, _⟩ := pbh_data_fields _ _ (e11 h h1 h2)
      exact ⟨o1, o2, o3⟩) hsp e10
  exact ⟨s', hs', k1, k2, e1, e2, e4, by rw [hRn]; exact k3, by rw [hRn]; exact e5,
    by rw [hRn]; exact e6, by rw [hRn]; exact e8, fun q hq => by rw [e10, if_neg hq],
    fun h h1 h2 => e11 h h1 (by rw [← hRn]; exact h2), hsp, e16,
    pm_inj_congr s s' e13 e14 hinj⟩

/-- Carving: a superpage whose first `n` pages are one page block and whose other
pages are a second one has a sound layout. -/
theorem sp_inv_carve (s0 s3 : State) (sph n : Nat) (hn : 1 ≤ n) (hn2 : n < SUPERPAGE_LEN)
    (h2 : sph % 2 = 0) (hsp1 : 1 ≤ (s0.sph sph).start_page)
    (hsp2 : (s0.sph sph).start_page + SUPERPAGE_LEN < 2 ^ PMAP_BITS)
    (h64 : sph + PBH_SIZE * (SUPERPAGE_LEN + 1) < 2 ^ 64)
    (hb1 : pagemap_get_checked s0 ((s0.sph sph).start_page - 1) = 0)
    (hb2 : pagemap_get_checked s0 ((s0.sph sph).start_page + SUPERPAGE_LEN) = 0 ∨
      pagemap_get_checked s0 ((s0.sph sph).start_page + SUPERPAGE_LEN) &&& HUGE_MALLOC_MARK ≠ 0)
    (hsp : (s3.sph sph).start_page = (s0.sph sph).start_page)
    (a1 : (s3.pbh (sph + PBH_SIZE)).start_page = (s0.sph sph).start_page)
    (a2 : (s3.pbh (sph + PBH_SIZE)).length = n) (a3 : (s3.pbh (sph + PBH_SIZE)).index = 1)
    (b1 : (s3.pbh (sph + PBH_SIZE * (n + 1))).start_page = (s0.sph sph).start_page + n)
    (b2 : (s3.pbh (sph + PBH_SIZE * (n + 1))).length = SUPERPAGE_LEN - n)
    (b3 : (s3.pbh (sph + PBH_SIZE * (n + 1))).index = n + 1)
    (hpm : ∀ q, pagemap_get_checked s3 q =
      if (s0.sph sph).start_page + n ≤ q ∧ q < (s0.sph sph).start_page + SUPERPAGE_LEN then
        sph + PBH_SIZE * (n + 1)
      else if (s0.sph sph).start_page ≤ q ∧ q < (s0.sph sph).start_page + n then sph + PBH_SIZE
      else pagemap_get_checked s0 q) :
    sp_inv s3 sph ∧ hdr_ok s3 sph (sph + PBH_SIZE) ∧ hdr_ok s3 sph (sph + PBH_SIZE * (n + 1)) := by
  have h63 : SUPERPAGE_LEN = 63 := rfl
  rw [h63] at hn2
  have hA : hdr_ok s3 sph (sph + PBH_SIZE) := by
    refine ⟨by rw [hsp, a1], by rw [a2]; exact hn, by rw [hsp, a1, a2]; omega,
      by rw [hsp, a1, a3]; omega, by rw [a3, Nat.mul_one], fun i hi2 => ?_⟩
    rw [a2] at hi2
    rw [a1, hpm, if_neg (by omega), if_pos ⟨by omega, by omega⟩]
  have hB : hdr_ok s3 sph (sph + PBH_SIZE * (n + 1)) := by
    refine ⟨by rw [hsp, b1]; omega, by rw [b2]; omega, by rw [hsp, b1, b2]; omega,
      by rw [hsp, b1, b3]; omega, by rw [b3], fun i hi2 => ?_⟩
    rw [b2] at hi2
    rw [b1, hpm, if_pos ⟨by omega, by omega⟩]
  refine ⟨⟨h2, by rw [hsp]; exact hsp1, by rw [hsp]; exact hsp2, h64, ?_, ?_, fun o ho => ?_⟩,
    hA, hB⟩
  · rw [hsp, hpm, if_neg (by omega), if_neg (by omega)]
    exact hb1
  · rw [hsp, hpm, if_neg (by omega), if_neg (by omega)]
    exact hb2
  · rw [hsp, hpm]
    by_cases c : n ≤ o
    · rw [if_pos ⟨by omega, by omega⟩, b1, b2]
      exact ⟨hB, by omega, by omega⟩
    · rw [if_neg (by omega), if_pos ⟨by omega, by omega⟩, a1, a2]
      exact ⟨hA, by omega, by omega⟩

theorem pbh_alloc_eq (s : State) (sph k len : Nat) (hk : k < SUPERPAGE_LEN)
    (hsp : (s.sph sph).start_page + SUPERPAGE_LEN < 2 ^ PMAP_BITS) (hlen : len < 256) :
    pbh_alloc s sph ((s.sph sph).start_page + k) len =
      some (sph + PBH_SIZE * (k + 1), set_pbh s (sph + PBH_SIZE * (k + 1))
        { pbh_zero with start_page := (s.sph sph).start_page + k, length := len,
                        index := k + 1 }) := by
  have h63 : SUPERPAGE_LEN = 63 := rfl
  have h52 : PMAP_BITS = 52 := rfl
  rw [h63] at hk
  rw [h63, h52] at hsp
  have e : u32 (sub64 ((s.sph sph).start_page + k) (s.sph sph).start_page + 1) = k + 1 := by
    unfold u32 sub64
    omega
  unfold pbh_alloc
  simp only [e]
  rw [if_neg (not_not.mpr ⟨by omega, by rw [h63]; omega⟩)]
  have e1 : u8 len = len := by unfold u8; omega
  have e2 : u8 (k + 1) = k + 1 := by unfold u8; omega
  rw [e1, e2]

theorem pb_alloc_from_tlh_empty (s : State) (t n : Nat) (hn : 1 ≤ n)
    (hempty : ∀ c, n - 1 ≤ c → c < NUM_PAGE_CLASSES → (s.thr t).free_pb_list c = 0) :
    pb_alloc_from_tlh s t n = some (0, s) := by
  unfold pb_alloc_from_tlh
  rw [if_neg (not_not.mpr hn)]
  have := pb_alloc_from_tlh_loop_skip t n (n - 1) s (NUM_PAGE_CLASSES - (n - 1)) 0 (n - 1)
    (fun c' h1 h2 => hempty c' h1 (by omega))
  rw [Nat.zero_add] at this
  rw [this]
  rfl

theorem pb_alloc_fresh_unfold (s : State) (t n : Nat) (hn : n > 0 ∧ n ≤ NUM_PAGE_CLASSES)
    (h0 : pb_alloc_from_tlh s t n = some (0, s))
    (hrem : ¬ ((s.thr t).sp_list ≠ 0 ∧ (s.sph (s.thr t).sp_list).remote_pb_list ≠ 0)) :
    pb_alloc s t n =
      (sph_alloc s t).bind fun r =>
      (pbh_alloc r.2 r.1 (r.2.sph r.1).start_page n).bind fun a =>
      (pagemap_set_range (set_pbh a.2 a.1 { a.2.pbh a.1 with status := PBH_IN_USE }) t
        (r.2.sph r.1).start_page n a.1).bind fun s1 =>
      if ¬ n < SUPERPAGE_LEN then none else
      (pbh_alloc s1 r.1 (u64 ((r.2.sph r.1).start_page + n)) (SUPERPAGE_LEN - n)).bind fun b =>
      (free_pb_ref (SUPERPAGE_LEN - n)).bind fun ref =>
      (pbh_list_prepend (set_pbh b.2 b.1 { b.2.pbh b.1 with status := PBH_ON_FREE_LIST }) t ref
        b.1).bind fun s2 =>
      (pagemap_set_range s2 t (u64 ((r.2.sph r.1).start_page + n)) (SUPERPAGE_LEN - n) b.1).bind
        fun s3 => some (a.1, s3) := by
  unfold pb_alloc
  simp only [Option.bind_eq_bind, Option.pure_def, hn, not_true_eq_false, if_false, h0,
    Option.some_bind, hrem, ne_eq, and_self]

/-- The call `pb_alloc(tlh, n)` that finds no free page block of `n` pages or more
and takes a superpage from `sph_alloc`: it returns the header in the first slot,
with the first `n` pages and status `IN_USE`; the header in slot `n + 1` takes the
other pages, with status `ON_FREE_LIST`, at the head of its free page block list;
the layout of the superpage is sound. The PageMap levels of the pages of the
superpage exist after `sph_alloc`, and the entries of the header page and of the
page after the superpage name no page block. -/
theorem pb_alloc_fresh (s s0 : State) (t n sph : Nat) (hn : 1 ≤ n) (hn2 : n ≤ NUM_PAGE_CLASSES)
    (hempty : ∀ c, n - 1 ≤ c → c < NUM_PAGE_CLASSES → (s.thr t).free_pb_list c = 0)
    (hrem : ¬ ((s.thr t).sp_list ≠ 0 ∧ (s.sph (s.thr t).sp_list).remote_pb_list ≠ 0))
    (hsa : sph_alloc s t = some (sph, s0))
    (h2 : sph % 2 = 0) (hsp1 : 1 ≤ (s0.sph sph).start_page)
    (hsp2 : (s0.sph sph).start_page + SUPERPAGE_LEN < 2 ^ PMAP_BITS)
    (h64 : sph + PBH_SIZE * (SUPERPAGE_LEN + 1) < 2 ^ 64)
    (hb1 : pagemap_get_checked s0 ((s0.sph sph).start_page - 1) = 0)
    (hb2 : pagemap_get_checked s0 ((s0.sph sph).start_page + SUPERPAGE_LEN) = 0 ∨
      pagemap_get_checked s0 ((s0.sph sph).start_page + SUPERPAGE_LEN) &&& HUGE_MALLOC_MARK ≠ 0)
    (hpm : ∀ i, i < SUPERPAGE_LEN → pm_has s0 ((s0.sph sph).start_page + i))
    (hc : cache_ok s0 t) (hinj : pm_inj s0) :
    ∃ s', pb_alloc s t n = some (sph + PBH_SIZE, s') ∧ sp_inv s' sph ∧
      hdr_ok s' sph (sph + PBH_SIZE) ∧ hdr_ok s' sph (sph + PBH_SIZE * (n + 1)) ∧
      (s'.sph sph).start_page = (s0.sph sph).start_page ∧
      (s'.pbh (sph + PBH_SIZE)).start_page = (s0.sph sph).start_page ∧
      (s'.pbh (sph + PBH_SIZE)).length = n ∧
      (s'.pbh (sph + PBH_SIZE)).status = PBH_IN_USE ∧
      (s'.pbh (sph + PBH_SIZE * (n + 1))).start_page = (s0.sph sph).start_page + n ∧
      (s'.pbh (sph + PBH_SIZE * (n + 1))).length = SUPERPAGE_LEN - n ∧
      (s'.pbh (sph + PBH_SIZE * (n + 1))).status = PBH_ON_FREE_LIST ∧
      (s'.thr t).free_pb_list (SUPERPAGE_LEN - n - 1) = sph + PBH_SIZE * (n + 1) ∧
      (∀ q, pagemap_get_checked s' q =
        if (s0.sph sph).start_page + n ≤ q ∧ q < (s0.sph sph).start_page + SUPERPAGE_LEN then
          sph + PBH_SIZE * (n + 1)
        else if (s0.sph sph).start_page ≤ q ∧ q < (s0.sph sph).start_page + n then
          sph + PBH_SIZE
        else pagemap_get_checked s0 q) ∧
      cache_ok s' t ∧ pm_inj s' := by
  have h63 : SUPERPAGE_LEN = 63 := rfl
  have h62 : NUM_PAGE_CLASSES = 62 := rfl
  have h52 : PMAP_BITS = 52 := rfl
  have h64' : PBH_SIZE = 64 := rfl
  have hAB : sph + PBH_SIZE ≠ sph + PBH_SIZE * (n + 1) := by rw [h64']; omega
  have hu : u64 ((s0.sph sph).start_page + n) = (s0.sph sph).start_page + n := by
    unfold u64
    rw [h63, h52] at hsp2
    omega
  -- the first header
  have eA := pbh_alloc_eq s0 sph 0 n (by rw [h63]; omega) hsp2 (by omega)
  rw [Nat.add_zero, Nat.zero_add, Nat.mul_one] at eA
  have hA0pbh : (set_pbh s0 (sph + PBH_SIZE) { pbh_zero with
      start_page := (s0.sph sph).start_page, length := n, index := 1 }).pbh (sph + PBH_SIZE) =
      { pbh_zero with start_page := (s0.sph sph).start_page, length := n, index := 1 } := by
    simp [set_pbh, upd]
  generalize hA0 : set_pbh s0 (sph + PBH_SIZE) { pbh_zero with
      start_page := (s0.sph sph).start_page, length := n, index := 1 } = sA0 at eA hA0pbh
  obtain ⟨sA, hsA⟩ : ∃ sA, sA = set_pbh sA0 (sph + PBH_SIZE)
      { sA0.pbh (sph + PBH_SIZE) with status := PBH_IN_USE } := ⟨_, rfl⟩
  have hAsph : sA.sph = s0.sph := by rw [hsA, ← hA0]; rfl
  have hAn : sA.pm_node = s0.pm_node := by rw [hsA, ← hA0]; rfl
  have hAl : sA.pm_leaf = s0.pm_leaf := by rw [hsA, ← hA0]; rfl
  have hAc : cache_ok sA t := by rw [hsA, ← hA0]; exact hc
  have hApm : ∀ q, pagemap_get_checked sA q = pagemap_get_checked s0 q := by
    intro q; rw [hsA, ← hA0]; rfl
  have hApbh : (sA.pbh (sph + PBH_SIZE)).start_page = (s0.sph sph).start_page ∧
      (sA.pbh (sph + PBH_SIZE)).length = n ∧ (sA.pbh (sph + PBH_SIZE)).index = 1 ∧
      (sA.pbh (sph + PBH_SIZE)).status = PBH_IN_USE := by
    rw [hsA]
    simp [set_pbh, upd, hA0pbh]
  have hhA : ∀ i, i < n → pm_has sA ((s0.sph sph).start_page + i) := fun i hi2 =>
    (pm_has_congr s0 sA hAn hAl _).1.mpr (hpm i (by omega))
  have hinjA := pm_inj_congr s0 sA hAn hAl hinj
  obtain ⟨s1, hs1, _⟩ := pagemap_set_range_spec t (sph + PBH_SIZE) n sA _ hhA hAc hinjA
  obtain ⟨k1, l1, c1, p1⟩ := hdr_step_set_range sA s1 t 0 _ _ _ hs1 hhA hAc hinjA
  have e1pbh : s1.pbh = sA.pbh := (pagemap_set_range_effect sA s1 t _ _ _ hs1 hhA hAc hinjA).1
  have h1sph : s1.sph = s0.sph := k1.2.1.trans hAsph
  have h1n : s1.pm_node = s0.pm_node := k1.2.2.1.trans hAn
  have h1l : s1.pm_leaf = s0.pm_leaf := k1.2.2.2.1.trans hAl
  have h1sp : (s1.sph sph).start_page = (s0.sph sph).start_page := by rw [h1sph]
  -- the second header
  have eB := pbh_alloc_eq s1 sph n (SUPERPAGE_LEN - n) (by rw [h63]; omega)
    (by rw [h1sp]; exact hsp2) (by omega)
  rw [h1sp] at eB
  have hB0pbh : ∀ x, (set_pbh s1 (sph + PBH_SIZE * (n + 1)) { pbh_zero with
      start_page := (s0.sph sph).start_page + n, length := SUPERPAGE_LEN - n,
      index := n + 1 }).pbh x =
      if x = sph + PBH_SIZE * (n + 1) then { pbh_zero with
        start_page := (s0.sph sph).start_page + n, length := SUPERPAGE_LEN - n, index := n + 1 }
      else s1.pbh x := by
    intro x
    simp [set_pbh, upd]
  generalize hB0 : set_pbh s1 (sph + PBH_SIZE * (n + 1)) { pbh_zero with
      start_page := (s0.sph sph).start_page + n, length := SUPERPAGE_LEN - n,
      index := n + 1 } = sB0 at eB hB0pbh
  obtain ⟨sB, hsB⟩ : ∃ sB, sB = set_pbh sB0 (sph + PBH_SIZE * (n + 1))
      { sB0.pbh (sph + PBH_SIZE * (n + 1)) with status := PBH_ON_FREE_LIST } := ⟨_, rfl⟩
  have hBsph : sB.sph = s0.sph := by rw [hsB, ← hB0]; exact h1sph
  have hBn : sB.pm_node = s0.pm_node := by rw [hsB, ← hB0]; exact h1n
  have hBl : sB.pm_leaf = s0.pm_leaf := by rw [hsB, ← hB0]; exact h1l
  have hBc : cache_ok sB t := by rw [hsB, ← hB0]; exact c1
  have hBpm : ∀ q, pagemap_get_checked sB q = pagemap_get_checked s1 q := by
    intro q; rw [hsB, ← hB0]; rfl
  have hBpbhB : (sB.pbh (sph + PBH_SIZE * (n + 1))).start_page = (s0.sph sph).start_page + n ∧
      (sB.pbh (sph + PBH_SIZE * (n + 1))).length = SUPERPAGE_LEN - n ∧
      (sB.pbh (sph + PBH_SIZE * (n + 1))).index = n + 1 ∧
      (sB.pbh (sph + PBH_SIZE * (n + 1))).status = PBH_ON_FREE_LIST := by
    rw [hsB]
    simp [set_pbh, upd, hB0pbh]
  have hBpbhA : sB.pbh (sph + PBH_SIZE) = sA.pbh (sph + PBH_SIZE) := by
    rw [hsB]
    simp only [set_pbh, upd, if_neg hAB]
    rw [hB0pbh, if_neg hAB, e1pbh]
  have href : free_pb_ref (SUPERPAGE_LEN - n) = some (.free_pb (SUPERPAGE_LEN - n - 1)) := by
    unfold free_pb_ref
    rw [if_pos ⟨by omega, by omega⟩]
  obtain ⟨s2, hs2, hhead, hnl⟩ := pbh_list_prepend_head sB t (.free_pb (SUPERPAGE_LEN - n - 1))
    (sph + PBH_SIZE * (n + 1)) (by simp only [pbh_list_ref.valid, decide_eq_true_eq]; omega)
  obtain ⟨k2, l2, p2⟩ := hdr_step_of_no_links sB s2 t 0 hnl
  have h2n : s2.pm_node = s0.pm_node := k2.2.2.1.trans hBn
  have h2l : s2.pm_leaf = s0.pm_leaf := k2.2.2.2.1.trans hBl
  have h2c : cache_ok s2 t := k2.2.2.2.2.2 hBc
  have hh2 : ∀ i, i < SUPERPAGE_LEN - n → pm_has s2 ((s0.sph sph).start_page + n + i) :=
    fun i hi2 => by
      rw [Nat.add_assoc]
      exact (pm_has_congr s0 s2 h2n h2l _).1.mpr (hpm (n + i) (by omega))
  have hinj2 := pm_inj_congr s0 s2 h2n h2l hinj
  obtain ⟨s3, hs3, _⟩ := pagemap_set_range_spec t (sph + PBH_SIZE * (n + 1)) (SUPERPAGE_LEN - n)
    s2 ((s0.sph sph).start_page + n) hh2 h2c hinj2
  obtain ⟨k3, l3, c3, p3⟩ := hdr_step_set_range s2 s3 t 0 _ _ _ hs3 hh2 h2c hinj2
  have hthr3 : (s3.thr t).free_pb_list (SUPERPAGE_LEN - n - 1) = sph + PBH_SIZE * (n + 1) := by
    have e := pagemap_set_range_no_pm t (sph + PBH_SIZE * (n + 1)) _ s2 s3 _ hs3
    obtain ⟨_, _, _, _, _, _, _, _, _, _, _, _, hthr⟩ := no_pm_fields s2 s3 e
    rw [(clear_cache_lists _ _ (hthr t)).1]
    exact hhead
  -- the result of the call
  have hres : pb_alloc s t n = some (sph + PBH_SIZE, s3) := by
    rw [pb_alloc_fresh_unfold s t n ⟨hn, hn2⟩ (pb_alloc_from_tlh_empty s t n hn hempty) hrem, hsa]
    simp only [Option.some_bind]
    rw [eA]
    simp only [Option.some_bind, ← hsA]
    rw [hs1]
    simp only [Option.some_bind, hu]
    rw [if_neg (not_not.mpr (by omega)), eB]
    simp only [Option.some_bind, ← hsB, href]
    rw [hs2]
    simp only [Option.some_bind]
    rw [hs3]
    simp only [Option.some_bind]
  -- the headers and the PageMap after the call
  have hdA : ∀ x, (s3.pbh x).start_page = (sB.pbh x).start_page ∧
      (s3.pbh x).length = (sB.pbh x).length ∧ (s3.pbh x).index = (sB.pbh x).index ∧
      (s3.pbh x).status = (sB.pbh x).status := fun x =>
    ⟨((k3.1 x).1).trans (k2.1 x).1, (l3 x).trans (l2 x), ((k3.1 x).2.1).trans (k2.1 x).2.1,
      ((k3.1 x).2.2.1).trans (k2.1 x).2.2.1⟩
  have hpm3 : ∀ q, pagemap_get_checked s3 q =
      if (s0.sph sph).start_page + n ≤ q ∧ q < (s0.sph sph).start_page + SUPERPAGE_LEN then
        sph + PBH_SIZE * (n + 1)
      else if (s0.sph sph).start_page ≤ q ∧ q < (s0.sph sph).start_page + n then
        sph + PBH_SIZE
      else pagemap_get_checked s0 q := by
    intro q
    have hle : n ≤ SUPERPAGE_LEN := by rw [h63]; omega
    rw [p3 q, p2 q, hBpm q, p1 q, hApm q]
    by_cases a : (s0.sph sph).start_page + n ≤ q ∧
        q < (s0.sph sph).start_page + n + (SUPERPAGE_LEN - n)
    · rw [if_pos a, if_pos ⟨a.1, by omega⟩]
    · rw [if_neg a, if_neg (show ¬ ((s0.sph sph).start_page + n ≤ q ∧
        q < (s0.sph sph).start_page + SUPERPAGE_LEN) from fun hh => a ⟨hh.1, by omega⟩)]
  have hsp3 : (s3.sph sph).start_page = (s0.sph sph).start_page := by
    rw [k3.2.1, k2.2.1, hBsph]
  have a1 : (s3.pbh (sph + PBH_SIZE)).start_page = (s0.sph sph).start_page := by
    rw [(hdA _).1, hBpbhA]; exact hApbh.1
  have a2 : (s3.pbh (sph + PBH_SIZE)).length = n := by
    rw [(hdA _).2.1, hBpbhA]; exact hApbh.2.1
  have a3 : (s3.pbh (sph + PBH_SIZE)).index = 1 := by
    rw [(hdA _).2.2.1, hBpbhA]; exact hApbh.2.2.1
  have a4 : (s3.pbh (sph + PBH_SIZE)).status = PBH_IN_USE := by
    rw [(hdA _).2.2.2, hBpbhA]; exact hApbh.2.2.2
  have b1 : (s3.pbh (sph + PBH_SIZE * (n + 1))).start_page = (s0.sph sph).start_page + n := by
    rw [(hdA _).1]; exact hBpbhB.1
  have b2 : (s3.pbh (sph + PBH_SIZE * (n + 1))).length = SUPERPAGE_LEN - n := by
    rw [(hdA _).2.1]; exact hBpbhB.2.1
  have b3 : (s3.pbh (sph + PBH_SIZE * (n + 1))).index = n + 1 := by
    rw [(hdA _).2.2.1]; exact hBpbhB.2.2.1
  have b4 : (s3.pbh (sph + PBH_SIZE * (n + 1))).status = PBH_ON_FREE_LIST := by
    rw [(hdA _).2.2.2]; exact hBpbhB.2.2.2
  obtain ⟨i1, i2, i3⟩ := sp_inv_carve s0 s3 sph n hn (by omega) h2 hsp1 hsp2 h64 hb1 hb2 hsp3
    a1 a2 a3 b1 b2 b3 hpm3
  exact ⟨s3, hres, i1, i2, i3, hsp3, a1, a2, a4, b1, b2, b4, hthr3, hpm3, c3,
    pm_inj_congr s0 s3 (k3.2.2.1.trans h2n) (k3.2.2.2.1.trans h2l) hinj⟩

/-! ## The walk over the headers of a superpage -/

/-- The page block that starts at offset `k` of a superpage with a sound layout sits
in slot `k + 1`, and the next page block starts where it ends. -/
theorem sp_inv_boundary (s : State) (sph k : Nat) (hi : sp_inv s sph) (hk : k < SUPERPAGE_LEN)
    (hb : (s.pbh (pagemap_get_checked s ((s.sph sph).start_page + k))).start_page =
      (s.sph sph).start_page + k) :
    pagemap_get_checked s ((s.sph sph).start_page + k) = sph + PBH_SIZE * (k + 1) ∧
    hdr_ok s sph (sph + PBH_SIZE * (k + 1)) ∧
    (s.pbh (sph + PBH_SIZE * (k + 1))).start_page = (s.sph sph).start_page + k ∧
    1 ≤ (s.pbh (sph + PBH_SIZE * (k + 1))).length ∧
    (s.pbh (sph + PBH_SIZE * (k + 1))).index = k + 1 ∧
    k + (s.pbh (sph + PBH_SIZE * (k + 1))).length ≤ SUPERPAGE_LEN ∧
    (k + (s.pbh (sph + PBH_SIZE * (k + 1))).length < SUPERPAGE_LEN →
      (s.pbh (pagemap_get_checked s ((s.sph sph).start_page +
        (k + (s.pbh (sph + PBH_SIZE * (k + 1))).length)))).start_page =
        (s.sph sph).start_page + (k + (s.pbh (sph + PBH_SIZE * (k + 1))).length)) := by
  obtain ⟨hp, hp1, hp2⟩ := sp_inv_page s sph hi ((s.sph sph).start_page + k) (by omega) (by omega)
  obtain ⟨_, _, hn⟩ := sp_inv_next s sph _ hi hp
  generalize pagemap_get_checked s ((s.sph sph).start_page + k) = h at hb hp hp1 hp2 hn
  have hp' := hp
  obtain ⟨p1, p2, p3, p4, p5, p6⟩ := hp'
  have e : h = sph + PBH_SIZE * (k + 1) := by
    rw [p5, p4, hb]
    congr 2
    omega
  subst e
  refine ⟨rfl, hp, hb, p2, by rw [p4, hb]; omega, by omega, fun hlt => ?_⟩
  have := (hn (by omega)).2.2
  rw [hb, Nat.add_assoc] at this
  exact this

theorem sp_inv_boundary_zero (s : State) (sph : Nat) (hi : sp_inv s sph) :
    (s.pbh (pagemap_get_checked s ((s.sph sph).start_page + 0))).start_page =
      (s.sph sph).start_page + 0 := by
  obtain ⟨hp, hp1, hp2⟩ := sp_inv_page s sph hi ((s.sph sph).start_page + 0) (by omega)
    (by simp only [SUPERPAGE_LEN, NUM_PAGE_CLASSES]; omega)
  have := hp.1
  omega

/-- The walk from any page block boundary of a superpage with a sound layout. -/
theorem sp_inv_walk_from (s : State) (sph : Nat) (hi : sp_inv s sph) :
    ∀ fuel k, k ≤ SUPERPAGE_LEN → SUPERPAGE_LEN - k ≤ fuel →
      (k < SUPERPAGE_LEN →
        (s.pbh (pagemap_get_checked s ((s.sph sph).start_page + k))).start_page =
          (s.sph sph).start_page + k) →
      walk_ok s fuel (sph + PBH_SIZE * (k + 1)) k := by
  intro fuel
  induction fuel with
  | zero =>
    intro k h1 h2 _
    unfold walk_ok
    omega
  | succ f ih =>
    intro k h1 h2 hb
    unfold walk_ok
    by_cases hk : k = SUPERPAGE_LEN
    · exact Or.inl hk
    · right
      have hlt : k < SUPERPAGE_LEN := by omega
      obtain ⟨_, _, _, b4, b5, b6, b7⟩ := sp_inv_boundary s sph k hi hlt (hb hlt)
      refine ⟨hlt, b4, b5, b6, ?_⟩
      have := ih (k + (s.pbh (sph + PBH_SIZE * (k + 1))).length) b6 (by omega) b7
      rw [show sph + PBH_SIZE * (k + (s.pbh (sph + PBH_SIZE * (k + 1))).length + 1) =
        sph + PBH_SIZE * (k + 1) + PBH_SIZE * (s.pbh (sph + PBH_SIZE * (k + 1))).length by
          simp only [PBH_SIZE]; omega] at this
      exact this

/-- In a superpage with a sound layout the walk from the first slot visits headers
of positive length whose slot number is the count of pages so far plus one, and
ends with a count of exactly `SUPERPAGE_LEN`. -/
theorem sp_inv_walk (s : State) (sph : Nat) (hi : sp_inv s sph) :
    walk_ok s SUPERPAGE_LEN (sph + PBH_SIZE) 0 := by
  have := sp_inv_walk_from s sph hi SUPERPAGE_LEN 0 (by omega) (by omega)
    (fun _ => sp_inv_boundary_zero s sph hi)
  rw [Nat.zero_add, Nat.mul_one] at this
  exact this

theorem same_layout_refl (s : State) : same_layout s s :=
  ⟨fun _ => ⟨rfl, rfl, rfl⟩, fun _ => rfl, rfl, rfl, rfl⟩

theorem same_layout_trans {s s1 s2 : State} (h1 : same_layout s s1) (h2 : same_layout s1 s2) :
    same_layout s s2 := by
  obtain ⟨a1, b1, c1, d1, e1⟩ := h1
  obtain ⟨a2, b2, c2, d2, e2⟩ := h2
  exact ⟨fun x => ⟨(a2 x).1.trans (a1 x).1, (a2 x).2.1.trans (a1 x).2.1,
    (a2 x).2.2.trans (a1 x).2.2⟩, fun x => (b2 x).trans (b1 x), c2.trans c1, d2.trans d1,
    e2.trans e1⟩

theorem same_layout_pm (s s' : State) (h : same_layout s s') (q : Nat) :
    pagemap_get_checked s' q = pagemap_get_checked s q :=
  pagemap_get_checked_congr s s' h.2.2.1 h.2.2.2.1 h.2.2.2.2 q

theorem same_layout_of_no_links (s s' : State) (h : no_links s' = no_links s) :
    same_layout s s' := by
  obtain ⟨hd, hsph, _, _, hn, hl, hv, _, _⟩ := no_links_fields s s' h
  refine ⟨fun x => ?_, fun x => by rw [hsph], hn, hl, hv⟩
  obtain ⟨a, b, c, _, _⟩ := pbh_data_fields _ _ (hd x)
  exact ⟨a, b, c⟩

theorem same_layout_set_pbh (s : State) (a : Nat) (v : pbh_t)
    (h1 : v.start_page = (s.pbh a).start_page) (h2 : v.length = (s.pbh a).length)
    (h3 : v.index = (s.pbh a).index) : same_layout s (set_pbh s a v) := by
  refine ⟨fun x => ?_, fun _ => rfl, rfl, rfl, rfl⟩
  simp only [set_pbh, upd]
  by_cases e : x = a
  · subst e
    simp [h1, h2, h3]
  · simp [e]

/-- A sound layout of a superpage depends on the layout fields of the headers and
on the PageMap only. -/
theorem sp_inv_of_same_layout (s s' : State) (sph : Nat) (h : same_layout s s')
    (hi : sp_inv s sph) : sp_inv s' sph := by
  obtain ⟨hM, _, _⟩ := sp_inv_page s sph hi (s.sph sph).start_page (le_refl _)
    (by simp only [SUPERPAGE_LEN, NUM_PAGE_CLASSES]; omega)
  have hpm := same_layout_pm s s' h
  obtain ⟨a, b, _, _, _⟩ := h
  refine sp_inv_merge s s' sph _ 0 hi hM (by have := hM.2.2.1; omega) (fun r r1 r2 => by omega)
    (b sph) (a _).1 (by rw [(a _).2.1]; rfl) (a _).2.2 (fun x _ => a x) (fun q => ?_)
  rw [if_neg (by omega)]
  exact hpm q

theorem hdr_ok_of_same_layout (s s' : State) (sph x : Nat) (h : same_layout s s')
    (hx : hdr_ok s sph x) : hdr_ok s' sph x := by
  obtain ⟨x1, x2, x3, x4, x5, x6⟩ := hx
  have hpm := same_layout_pm s s' h
  obtain ⟨a, b, _, _, _⟩ := h
  refine ⟨by rw [b, (a x).1]; exact x1, by rw [(a x).2.1]; exact x2,
    by rw [b, (a x).1, (a x).2.1]; exact x3, by rw [b, (a x).1, (a x).2.2]; exact x4,
    by rw [(a x).2.2]; exact x5, fun i hi2 => ?_⟩
  rw [(a x).1, hpm]
  exact x6 i (by rw [← (a x).2.1]; exact hi2)

theorem take_superpage_loop_succ (t fuel : Nat) (s : State) (pbh total_len : Nat) :
    take_superpage_loop t (fuel + 1) s pbh total_len =
      if ¬ total_len < SUPERPAGE_LEN then some (s, total_len) else
      if ¬ (s.pbh pbh).length > 0 then none else
      if (s.pbh pbh).index ≠ u32 (total_len + 1) then none else
      (if (s.pbh pbh).status = PBH_ON_FREE_LIST then
        (free_pb_ref (s.pbh pbh).length).bind fun r => pbh_list_prepend s t r pbh
      else if (s.pbh pbh).sizeclass < NUM_CLASSES then
        (get_blocks_for_class (s.pbh pbh).sizeclass).bind fun blocks =>
        if u32 ((s.pbh pbh).cnt_free + (s.pbh pbh).cnt_unused + (s.pbh pbh).remote_cnt) = blocks
        then
          (free_pb_ref (s.pbh pbh).length).bind fun r =>
            pbh_list_prepend (pbh_field_init s pbh) t r pbh
        else pbh_list_prepend s t (.blk (s.pbh pbh).sizeclass) pbh
      else some s).bind fun s1 =>
        take_superpage_loop t fuel s1 (pbh + PBH_SIZE * (s.pbh pbh).length)
          (u32 (total_len + (s.pbh pbh).length)) := by
  rw [take_superpage_loop]

/-- One round of the loop of `take_superpage` on a header of at most
`NUM_PAGE_CLASSES` pages: the header goes on a list of the thread or stays as it
is, and the layout is unchanged. -/
theorem take_superpage_round (s : State) (t pbh : Nat)
    (hlen : 1 ≤ (s.pbh pbh).length ∧ (s.pbh pbh).length ≤ NUM_PAGE_CLASSES) :
    ∃ s1, (if (s.pbh pbh).status = PBH_ON_FREE_LIST then
        (free_pb_ref (s.pbh pbh).length).bind fun r => pbh_list_prepend s t r pbh
      else if (s.pbh pbh).sizeclass < NUM_CLASSES then
        (get_blocks_for_class (s.pbh pbh).sizeclass).bind fun blocks =>
        if u32 ((s.pbh pbh).cnt_free + (s.pbh pbh).cnt_unused + (s.pbh pbh).remote_cnt) = blocks
        then
          (free_pb_ref (s.pbh pbh).length).bind fun r =>
            pbh_list_prepend (pbh_field_init s pbh) t r pbh
        else pbh_list_prepend s t (.blk (s.pbh pbh).sizeclass) pbh
      else some s) = some s1 ∧ same_layout s s1 := by
  have href : free_pb_ref (s.pbh pbh).length = some (.free_pb ((s.pbh pbh).length - 1)) := by
    unfold free_pb_ref
    rw [if_pos hlen]
  have hv : (pbh_list_ref.free_pb ((s.pbh pbh).length - 1)).valid = true := by
    simp only [pbh_list_ref.valid, decide_eq_true_eq]
    omega
  by_cases h1 : (s.pbh pbh).status = PBH_ON_FREE_LIST
  · rw [if_pos h1, href]
    obtain ⟨s1, e, _, hnl⟩ := pbh_list_prepend_head s t _ pbh hv
    exact ⟨s1, e, same_layout_of_no_links s s1 hnl⟩
  · rw [if_neg h1]
    by_cases h2 : (s.pbh pbh).sizeclass < NUM_CLASSES
    · rw [if_pos h2]
      obtain ⟨b, hb⟩ := get_blocks_for_class_some _ h2
      rw [hb]
      simp only [Option.some_bind]
      by_cases h3 : u32 ((s.pbh pbh).cnt_free + (s.pbh pbh).cnt_unused + (s.pbh pbh).remote_cnt) = b
      · rw [if_pos h3, href]
        obtain ⟨s1, e, _, hnl⟩ := pbh_list_prepend_head (pbh_field_init s pbh) t _ pbh hv
        refine ⟨s1, e, same_layout_trans ?_ (same_layout_of_no_links _ s1 hnl)⟩
        exact same_layout_set_pbh s pbh _ rfl rfl rfl
      · rw [if_neg h3]
        obtain ⟨s1, e, _, hnl⟩ := pbh_list_prepend_head s t (.blk (s.pbh pbh).sizeclass) pbh
          (by simp only [pbh_list_ref.valid, decide_eq_true_eq]; exact h2)
        exact ⟨s1, e, same_layout_of_no_links s s1 hnl⟩
    · rw [if_neg h2]
      exact ⟨s, rfl, same_layout_refl s⟩

/-- The loop of `take_superpage` on a superpage with a sound layout whose page
blocks have at most `NUM_PAGE_CLASSES` pages: from any page block boundary the
assertions `len > 0` and `pbh->index == total_len + 1` hold in every round and the
loop ends with `total_len == SUPERPAGE_LEN`; the layout is unchanged. -/
theorem take_superpage_loop_ok (s : State) (t sph : Nat) (hi : sp_inv s sph)
    (hfirst : (s.pbh (sph + PBH_SIZE)).length < SUPERPAGE_LEN) :
    ∀ fuel k s1, same_layout s s1 → k ≤ SUPERPAGE_LEN → SUPERPAGE_LEN - k ≤ fuel →
      (k < SUPERPAGE_LEN →
        (s.pbh (pagemap_get_checked s ((s.sph sph).start_page + k))).start_page =
          (s.sph sph).start_page + k) →
      ∃ s2, take_superpage_loop t fuel s1 (sph + PBH_SIZE * (k + 1)) k =
        some (s2, SUPERPAGE_LEN) ∧ same_layout s s2 := by
  intro fuel
  induction fuel with
  | zero =>
    intro k s1 hl h1 h2 _
    have : k = SUPERPAGE_LEN := by omega
    subst this
    exact ⟨s1, by simp [take_superpage_loop], hl⟩
  | succ f ih =>
    intro k s1 hl h1 h2 hb
    rw [take_superpage_loop_succ]
    by_cases hk : k < SUPERPAGE_LEN
    · obtain ⟨_, _, _, b4, b5, b6, b7⟩ := sp_inv_boundary s sph k hi hk (hb hk)
      obtain ⟨e1, e2, e3⟩ := hl.1 (sph + PBH_SIZE * (k + 1))
      have hu1 : u32 (k + 1) = k + 1 := by
        unfold u32
        simp only [SUPERPAGE_LEN, NUM_PAGE_CLASSES] at hk
        omega
      have hu2 : u32 (k + (s.pbh (sph + PBH_SIZE * (k + 1))).length) =
          k + (s.pbh (sph + PBH_SIZE * (k + 1))).length := by
        unfold u32
        simp only [SUPERPAGE_LEN, NUM_PAGE_CLASSES] at b6
        omega
      rw [if_neg (not_not.mpr hk), e2, e3, if_neg (not_not.mpr (by omega)), b5, hu1,
        if_neg (not_not.mpr rfl), hu2]
      obtain ⟨s1', hr, hl'⟩ := take_superpage_round s1 t (sph + PBH_SIZE * (k + 1))
        (by
          rw [e2]
          refine ⟨b4, ?_⟩
          rcases Nat.eq_zero_or_pos k with h0 | h0
          · subst h0
            rw [show sph + PBH_SIZE * (0 + 1) = sph + PBH_SIZE by simp] at b6 ⊢
            simp only [SUPERPAGE_LEN, NUM_PAGE_CLASSES] at hfirst ⊢
            omega
          · simp only [SUPERPAGE_LEN, NUM_PAGE_CLASSES] at b6 ⊢
            omega)
      rw [e2] at hr
      rw [hr]
      simp only [Option.some_bind]
      have := ih (k + (s.pbh (sph + PBH_SIZE * (k + 1))).length) s1' (same_layout_trans hl hl')
        b6 (by omega) b7
      rw [show sph + PBH_SIZE * (k + (s.pbh (sph + PBH_SIZE * (k + 1))).length + 1) =
        sph + PBH_SIZE * (k + 1) + PBH_SIZE * (s.pbh (sph + PBH_SIZE * (k + 1))).length by
          simp only [PBH_SIZE]; omega] at this
      exact this
    · have : k = SUPERPAGE_LEN := by omega
      subst this
      rw [if_pos hk]
      exact ⟨s1, rfl, hl⟩

/-! ## The sweep of `try_to_free_superpage` -/

theorem sweep_inv_mono {s s1 : State} {t sph k prev : Nat} (h : sweep_inv s s1 t sph k prev)
    (k' prev' : Nat) (hk : k ≤ k') (hp : prev' < sph + PBH_SIZE * (k' + 1)) :
    sweep_inv s s1 t sph k' prev' := by
  obtain ⟨a, b, c, d, e, _⟩ := h
  refine ⟨a, fun x hx => b x ?_, c, d, e, hp⟩
  simp only [PBH_SIZE] at hx ⊢
  omega

theorem sweep_inv_field_init {s s1 : State} {t sph k prev : Nat}
    (h : sweep_inv s s1 t sph k prev) (a : Nat) :
    sweep_inv s (pbh_field_init s1 a) t sph k prev := by
  obtain ⟨h1, h2, h3, h4, h5, h6⟩ := h
  have key : ∀ x, ((pbh_field_init s1 a).pbh x).start_page = (s1.pbh x).start_page ∧
      ((pbh_field_init s1 a).pbh x).length = (s1.pbh x).length := by
    intro x
    simp only [pbh_field_init, set_pbh, upd]
    by_cases e : x = a
    · subst e; simp
    · simp [e]
  exact ⟨fun x => (key x).1.trans (h1 x), fun x hx => (key x).2.trans (h2 x hx), h3, h4, h5, h6⟩

theorem sweep_inv_add_length {s s1 : State} {t sph k prev : Nat}
    (h : sweep_inv s s1 t sph k prev) (a n : Nat) (ha : a < sph + PBH_SIZE * (k + 1)) :
    sweep_inv s (pbh_add_length s1 a n) t sph k prev := by
  obtain ⟨h1, h2, h3, h4, h5, h6⟩ := h
  refine ⟨fun x => ?_, fun x hx => ?_, h3, h4, h5, h6⟩
  · rw [pbh_add_length_pbh]
    by_cases e : x = a
    · subst e
      rw [if_pos rfl]
      exact h1 x
    · rw [if_neg e]
      exact h1 x
  · rw [pbh_add_length_pbh, if_neg (by omega)]
    exact h2 x hx

theorem sweep_inv_set_range {s s1 : State} {t sph k prev : Nat}
    (h : sweep_inv s s1 t sph k prev) (hinj : pm_inj s) (start len v : Nat)
    (hh : ∀ i, i < len → pm_has s (start + i)) :
    ∃ s2, pagemap_set_range s1 t start len v = some s2 ∧ sweep_inv s s2 t sph k prev ∧
      s2.pbh = s1.pbh := by
  obtain ⟨h1, h2, h3, h4, h5, h6⟩ := h
  have hh1 : ∀ i, i < len → pm_has s1 (start + i) := fun i hi2 =>
    (pm_has_congr s s1 h3 h4 _).1.mpr (hh i hi2)
  have hinj1 := pm_inj_congr s s1 h3 h4 hinj
  obtain ⟨s2, e, _⟩ := pagemap_set_range_spec t v len s1 start hh1 h5 hinj1
  obtain ⟨a, _, c, d, _, f, _⟩ := pagemap_set_range_effect s1 s2 t start len v e hh1 h5 hinj1
  exact ⟨s2, e, ⟨fun x => by rw [a]; exact h1 x, fun x hx => by rw [a]; exact h2 x hx,
    c.trans h3, d.trans h4, f, h6⟩, a⟩

/-- One round of the loop of `try_to_free_superpage` at the header `h` of `L` pages
in slot `k + 1`, followed, when `k + L < SUPERPAGE_LEN`, by the header `nx` of `NL`
pages: the round reaches the next round at `k + L` or at `k + L + NL`. -/
theorem try_to_free_superpage_round (s s1 : State) (t sph sp k prev c f h L nx NL : Nat)
    (hJ : sweep_inv s s1 t sph k prev) (hinj : pm_inj s) (hk : k < SUPERPAGE_LEN)
    (hh : h = sph + PBH_SIZE * (k + 1)) (hL : (s.pbh h).length = L) (hL1 : 1 ≤ L)
    (hL2 : k + L ≤ SUPERPAGE_LEN) (hst : (s.pbh h).start_page = sp + k)
    (hpmh : ∀ i, i < L → pm_has s (sp + k + i))
    (hnx : nx = h + PBH_SIZE * L)
    (hN : k + L < SUPERPAGE_LEN → (s.pbh nx).length = NL ∧ k + L + NL ≤ SUPERPAGE_LEN ∧
      (s.pbh nx).start_page = sp + (k + L) ∧ ∀ i, i < NL → pm_has s (sp + (k + L) + i))
    (rec1 : ∀ s' prev' c', sweep_inv s s' t sph (k + L) prev' →
      ∃ s2 c2, try_to_free_superpage_loop t f s' nx prev' c' (k + L) =
        some (s2, c2, SUPERPAGE_LEN))
    (rec2 : k + L < SUPERPAGE_LEN → ∀ s' prev' c', sweep_inv s s' t sph (k + L + NL) prev' →
      ∃ s2 c2, try_to_free_superpage_loop t f s' (nx + PBH_SIZE * NL) prev' c' (k + L + NL) =
        some (s2, c2, SUPERPAGE_LEN)) :
    ∃ s2 c2, try_to_free_superpage_loop t (f + 1) s1 h prev c k =
      some (s2, c2, SUPERPAGE_LEN) := by
  have h63 : SUPERPAGE_LEN = 63 := rfl
  have h64 : PBH_SIZE = 64 := rfl
  rw [h63] at hk hL2
  have eL : (s1.pbh h).length = L := by
    rw [hJ.2.1 h (by rw [hh]), hL]
  have hu : u32 (k + L) = k + L := by
    unfold u32
    omega
  have hprev : prev < h := by rw [hh]; exact hJ.2.2.2.2.2
  have hlt1 : h < sph + PBH_SIZE * (k + L + 1) := by rw [hh, h64]; omega
  have hlt0 : prev < sph + PBH_SIZE * (k + L + 1) := by omega
  rw [try_to_free_superpage_loop]
  simp only []
  rw [if_neg (not_not.mpr (by rw [h63]; exact hk)), eL, if_neg (not_not.mpr (by omega)), hu,
    ← hnx]
  by_cases A : (s1.pbh h).status ≠ PBH_ON_FREE_LIST ∧ (s1.pbh h).sizeclass < NUM_CLASSES
  swap
  · rw [if_neg A]
    exact rec1 s1 h c (sweep_inv_mono hJ _ _ (by omega) hlt1)
  rw [if_pos A]
  obtain ⟨bl, hbl⟩ := get_blocks_for_class_some _ A.2
  rw [hbl]
  simp only [Option.some_bind]
  by_cases Cq : u32 ((s1.pbh h).cnt_free + (s1.pbh h).cnt_unused + (s1.pbh h).remote_cnt) = bl
  swap
  · rw [if_neg Cq]
    exact rec1 s1 h _ (sweep_inv_mono hJ _ _ (by omega) hlt1)
  rw [if_pos Cq]
  have hJa := sweep_inv_field_init hJ h
  have esta : ((pbh_field_init s1 h).pbh h).start_page = sp + k := (hJa.1 h).trans hst
  rw [esta]
  generalize pbh_field_init s1 h = sa at hJa ⊢
  by_cases hkl : k + L < SUPERPAGE_LEN
  · -- a header follows
    obtain ⟨n1, n2, n3, n4⟩ := hN hkl
    have rec2' := rec2 hkl
    rw [h63] at hkl n2
    have hu2 : u32 (k + L + NL) = k + L + NL := by
      unfold u32
      omega
    have hn0 : nx ≠ 0 := by rw [hnx, h64]; omega
    have hnxge : sph + PBH_SIZE * (k + 1) ≤ nx := by rw [hnx, hh, h64]; omega
    have hlt2 : h < sph + PBH_SIZE * (k + L + NL + 1) := by rw [hh, h64]; omega
    simp only [if_pos (show k + L < SUPERPAGE_LEN by rw [h63]; exact hkl)]
    by_cases B1 : prev ≠ 0 ∧ (sa.pbh prev).status = PBH_ON_FREE_LIST
    · rw [if_pos B1]
      obtain ⟨sb, e, hJb, _⟩ := sweep_inv_set_range hJa hinj (sp + k) L prev hpmh
      rw [e]
      simp only [Option.some_bind]
      have hJc := sweep_inv_add_length hJb prev L (by rw [← hh]; exact hprev)
      generalize pbh_add_length sb prev L = sc at hJc ⊢
      by_cases B1a : (sc.pbh nx).status = PBH_ON_FREE_LIST
      · rw [if_pos ⟨hn0, B1a⟩]
        have eNL : (sc.pbh nx).length = NL := (hJc.2.1 nx hnxge).trans n1
        rw [eNL]
        have hJd := sweep_inv_add_length hJc prev NL (by rw [← hh]; exact hprev)
        have estn : ((pbh_add_length sc prev NL).pbh nx).start_page = sp + (k + L) :=
          (hJd.1 nx).trans n3
        rw [estn]
        obtain ⟨se, e2, hJe, _⟩ := sweep_inv_set_range hJd hinj (sp + (k + L)) NL prev n4
        rw [e2]
        simp only [Option.some_bind, hu2]
        exact rec2' se prev c (sweep_inv_mono hJe _ _ (by omega) (by omega))
      · rw [if_neg (fun hx => B1a hx.2)]
        exact rec1 sc prev c (sweep_inv_mono hJc _ _ (by omega) hlt0)
    · rw [if_neg B1]
      by_cases B2 : (sa.pbh nx).status = PBH_ON_FREE_LIST
      · rw [if_pos ⟨hn0, B2⟩]
        have eNL : (sa.pbh nx).length = NL := (hJa.2.1 nx hnxge).trans n1
        rw [eNL]
        have hJb := sweep_inv_add_length
          (sweep_inv_mono hJa (k + L + NL) h (by omega) hlt2) h NL hlt2
        have estn : ((pbh_add_length sa h NL).pbh nx).start_page = sp + (k + L) :=
          (hJb.1 nx).trans n3
        rw [estn]
        obtain ⟨se, e2, hJe, _⟩ := sweep_inv_set_range hJb hinj (sp + (k + L)) NL h n4
        rw [e2]
        simp only [Option.some_bind, hu2]
        exact rec2' se h c hJe
      · rw [if_neg (fun hx => B2 hx.2)]
        exact rec1 sa h c (sweep_inv_mono hJa _ _ (by omega) hlt1)
  · -- the page block ends the superpage
    simp only [if_neg hkl, ne_eq, not_true_eq_false, false_and, if_false]
    by_cases B1 : ¬ prev = 0 ∧ (sa.pbh prev).status = PBH_ON_FREE_LIST
    · rw [if_pos B1]
      obtain ⟨sb, e, hJb, _⟩ := sweep_inv_set_range hJa hinj (sp + k) L prev hpmh
      rw [e]
      simp only [Option.some_bind]
      exact rec1 _ prev c (sweep_inv_mono (sweep_inv_add_length hJb prev L
        (by rw [← hh]; exact hprev)) _ _ (by omega) hlt0)
    · rw [if_neg B1]
      exact rec1 sa h c (sweep_inv_mono hJa _ _ (by omega) hlt1)

/-- The loop of `try_to_free_superpage` on a superpage with a sound layout: from any
page block boundary the assertion `len > 0` holds in every round, every call to
`pagemap_set_range` returns, and the loop ends with `total_len == SUPERPAGE_LEN`. -/
theorem try_to_free_superpage_loop_ok (s : State) (t sph : Nat) (hi : sp_inv s sph)
    (hinj : pm_inj s) :
    ∀ fuel k s1 prev c, sweep_inv s s1 t sph k prev → k ≤ SUPERPAGE_LEN →
      SUPERPAGE_LEN - k ≤ fuel →
      (k < SUPERPAGE_LEN →
        (s.pbh (pagemap_get_checked s ((s.sph sph).start_page + k))).start_page =
          (s.sph sph).start_page + k) →
      ∃ s2 c2, try_to_free_superpage_loop t fuel s1 (sph + PBH_SIZE * (k + 1)) prev c k =
        some (s2, c2, SUPERPAGE_LEN) := by
  have h64 : PBH_SIZE = 64 := rfl
  intro fuel
  induction fuel with
  | zero =>
    intro k s1 prev c _ h1 h2 _
    have : k = SUPERPAGE_LEN := by omega
    subst this
    exact ⟨s1, c, by simp [try_to_free_superpage_loop]⟩
  | succ f ih =>
    intro k s1 prev c hJ h1 h2 hb
    by_cases hk : k < SUPERPAGE_LEN
    swap
    · have : k = SUPERPAGE_LEN := by omega
      subst this
      exact ⟨s1, c, by rw [try_to_free_superpage_loop]; simp⟩
    obtain ⟨_, _, b3, b4, _, b6, b7⟩ := sp_inv_boundary s sph k hi hk (hb hk)
    refine try_to_free_superpage_round s s1 t sph (s.sph sph).start_page k prev c f _ _ _
      (s.pbh (sph + PBH_SIZE * (k + (s.pbh (sph + PBH_SIZE * (k + 1))).length + 1))).length
      hJ hinj hk rfl rfl b4 b6 b3
      (fun i hi2 => sp_inv_pm_has s sph hi _ (by omega) (by omega)) rfl (fun hkl => ?_)
      (fun s' prev' c' hJ' => ?_) (fun hkl s' prev' c' hJ' => ?_)
    · obtain ⟨_, _, n3, n4, _, n6, _⟩ := sp_inv_boundary s sph _ hi hkl (b7 hkl)
      have e : sph + PBH_SIZE * (k + 1) + PBH_SIZE * (s.pbh (sph + PBH_SIZE * (k + 1))).length =
          sph + PBH_SIZE * (k + (s.pbh (sph + PBH_SIZE * (k + 1))).length + 1) := by
        rw [h64]; omega
      rw [e]
      exact ⟨rfl, n6, n3, fun i hi2 => sp_inv_pm_has s sph hi _ (by omega) (by omega)⟩
    · have := ih _ s' prev' c' hJ' b6 (by omega) b7
      rw [show sph + PBH_SIZE * (k + (s.pbh (sph + PBH_SIZE * (k + 1))).length + 1) =
        sph + PBH_SIZE * (k + 1) + PBH_SIZE * (s.pbh (sph + PBH_SIZE * (k + 1))).length by
          rw [h64]; omega] at this
      exact this
    · obtain ⟨_, _, n3, n4, _, n6, n7⟩ := sp_inv_boundary s sph _ hi hkl (b7 hkl)
      have := ih _ s' prev' c' hJ' n6 (by omega) n7
      rw [show sph + PBH_SIZE * (k + (s.pbh (sph + PBH_SIZE * (k + 1))).length +
          (s.pbh (sph + PBH_SIZE * (k + (s.pbh (sph + PBH_SIZE * (k + 1))).length + 1))).length
          + 1) =
        sph + PBH_SIZE * (k + 1) + PBH_SIZE * (s.pbh (sph + PBH_SIZE * (k + 1))).length +
          PBH_SIZE *
          (s.pbh (sph + PBH_SIZE * (k + (s.pbh (sph + PBH_SIZE * (k + 1))).length + 1))).length by
          rw [h64]; omega] at this
      exact this

/-! ## C25: the size-class mapping is tight and monotone -/

set_option maxRecDepth 100000 in
theorem tight_ok_all : check_table tight_ok class_array 0 = true := by decide!

set_option maxRecDepth 100000 in
theorem incr_ok_all : check_table incr_ok class_to_size 0 = true := by decide!

theorem class_to_size_step (i a b : Nat) (ha : class_to_size[i]? = some a)
    (hb : class_to_size[i + 1]? = some b) : a < b := by
  have h := check_table_get incr_ok class_to_size 0 incr_ok_all i a ha
  rw [Nat.zero_add] at h
  unfold incr_ok at h
  simp only [hb, decide_eq_true_eq] at h
  exact h

theorem class_to_size_lt (i j a b : Nat) (hij : i < j) (ha : class_to_size[i]? = some a)
    (hb : class_to_size[j]? = some b) : a < b := by
  induction j generalizing b with
  | zero => omega
  | succ j ih =>
    have hj : j < class_to_size.length := by
      have := (List.getElem?_eq_some.mp hb).1
      omega
    have hc : class_to_size[j]? = some class_to_size[j] := List.getElem?_eq_getElem hj
    have h1 := class_to_size_step j _ b hc hb
    rcases Nat.lt_or_eq_of_le (Nat.lt_succ_iff.mp hij) with h | h
    · exact Nat.lt_trans (ih _ h hc) h1
    · subst h
      rw [hc] at ha
      simp only [Option.some.injEq] at ha
      omega

/-- No class below `get_sizeclass s` holds a request of `s` bytes. -/
theorem sizeclass_tight (s : Nat) (hs : s ≤ 32768) (cl : Nat) (hcl : get_sizeclass s = some cl)
    (c' sz' : Nat) (hc : class_to_size[c']? = some sz') (hle : s ≤ sz') : cl ≤ c' := by
  have hl : get_classindex s < class_array.length := by
    rw [class_array_length]; exact get_classindex_lt s hs
  have hok := check_table_get tight_ok class_array 0 tight_ok_all (get_classindex s) cl hcl
  rw [Nat.zero_add] at hok
  unfold tight_ok at hok
  simp only [Bool.or_eq_true, beq_iff_eq] at hok
  rcases hok with h0 | h1
  · omega
  · by_contra hcon
    have hlt : c' ≤ cl - 1 := by omega
    cases hz : class_to_size[cl - 1]? with
    | none => simp [hz] at h1
    | some sz =>
      simp only [hz] at h1
      have hzle : sz' ≤ sz := by
        rcases Nat.lt_or_eq_of_le hlt with h | h
        · exact Nat.le_of_lt (class_to_size_lt c' (cl - 1) sz' sz h hc hz)
        · rw [h, hz] at hc
          simp only [Option.some.injEq] at hc
          omega
      by_cases h : s ≤ 1024
      · rw [get_classindex_small s h, Nat.shiftRight_eq_div_pow] at h1
        split at h1
        · simp at h1; omega
        · simp at h1; omega
      · rw [get_classindex_big s (by omega) hs, Nat.shiftRight_eq_div_pow, Nat.shiftLeft_eq] at h1
        split at h1
        · simp at h1; omega
        · simp at h1; omega

set_option maxRecDepth 100000 in
/-- C25: for every request size `s ≤ MAX_SIZE`, `get_sizeclass s` is the smallest
class whose block size is at least `s`; `class_to_size` is strictly increasing in
the class index; and `get_sizeclass` is non-decreasing in `s` on `[0, MAX_SIZE]`, for
both index formulas and across `s = 1024`, `s = 1025`. -/
theorem sizeclass_tight_monotone (s : Nat) (hs : s ≤ MAX_SIZE) :
    (∃ cl sz, get_sizeclass s = some cl ∧ get_size_for_class cl = some sz ∧ s ≤ sz ∧
      ∀ c' sz', get_size_for_class c' = some sz' → s ≤ sz' → cl ≤ c') ∧
    (∀ i j a b, i < j → get_size_for_class i = some a → get_size_for_class j = some b → a < b) ∧
    (∀ s', s ≤ s' → s' ≤ MAX_SIZE →
      ∃ cl cl', get_sizeclass s = some cl ∧ get_sizeclass s' = some cl' ∧ cl ≤ cl') ∧
    get_sizeclass 1024 = some 28 ∧ get_sizeclass 1025 = some 29 := by
  have hs' : s ≤ 32768 := hs
  obtain ⟨cl, hcl, _, sz, hsz, hle⟩ := sizeclass_some s hs'
  refine ⟨⟨cl, sz, hcl, hsz, hle, fun c' sz' h1 h2 => sizeclass_tight s hs' cl hcl c' sz' h1 h2⟩,
    fun i j a b hij ha hb => class_to_size_lt i j a b hij ha hb, fun s' h1 h2 => ?_, by rfl, by rfl⟩
  have h2' : s' ≤ 32768 := h2
  obtain ⟨cl', hcl', _, sz', hsz', hle'⟩ := sizeclass_some s' h2'
  exact ⟨cl, cl', hcl, hcl', sizeclass_tight s hs' cl hcl cl' sz' hsz' (by omega)⟩

theorem sizeclass_tight_monotone_witness :
    (1000 : Nat) ≤ MAX_SIZE ∧
    ∃ cl sz, get_sizeclass 1000 = some cl ∧ get_size_for_class cl = some sz ∧ 1000 ≤ sz ∧
      ∀ c' sz', get_size_for_class c' = some sz' → 1000 ≤ sz' → cl ≤ c' :=
  ⟨by decide, (sizeclass_tight_monotone 1000 (by decide)).1⟩

/-! ## C26: blocks per page block -/

set_option maxRecDepth 100000 in
theorem class_ok_all : ∀ cl, cl < 60 → class_ok cl = true := by decide!

theorem class_tables_fit (cl : Nat) (hcl : cl < NUM_CLASSES) :
    ∃ sz pg nb, get_size_for_class cl = some sz ∧ get_pages_for_class cl = some pg ∧
      get_blocks_for_class cl = some nb ∧ nb = pg * PAGE_SIZE / sz ∧ 1 ≤ nb ∧
      1 ≤ pg ∧ pg ≤ 13 ∧ pg ≤ NUM_PAGE_CLASSES ∧
      ∀ k, k < nb → k * sz + sz ≤ pg * PAGE_SIZE := by
  have hok := class_ok_all cl hcl
  unfold class_ok at hok
  unfold get_size_for_class get_pages_for_class get_blocks_for_class
  cases h1 : class_to_size[cl]? with
  | none => simp [h1] at hok
  | some sz =>
    cases h2 : class_to_pages[cl]? with
    | none => simp [h1, h2] at hok
    | some pg =>
      cases h3 : num_blocks_per_pbh[cl]? with
      | none => simp [h1, h2, h3] at hok
      | some nb =>
        simp only [h1, h2, h3, Bool.and_eq_true, decide_eq_true_eq] at hok
        obtain ⟨⟨⟨⟨e1, e2⟩, e3⟩, e4⟩, e5⟩ := hok
        refine ⟨sz, pg, nb, rfl, rfl, rfl, e1, e2, e3, e4, ?_, fun k hk => ?_⟩
        · simp only [NUM_PAGE_CLASSES]; omega
        · have h := Nat.div_mul_le_self (pg * PAGE_SIZE) sz
          rw [← e1] at h
          have h' : (k + 1) * sz ≤ nb * sz := Nat.mul_le_mul_right sz (by omega)
          rw [Nat.add_mul, Nat.one_mul] at h'
          omega

/-- C26: for every size class `cl < NUM_CLASSES`, `num_blocks_per_pbh[cl]` is
`class_to_pages[cl] * 4096 / class_to_size[cl]` rounded down and is at least 1;
`class_to_pages[cl]` lies in `1..13`, hence is at most `NUM_PAGE_CLASSES`; and the
block at offset `k * block_size`, for every `k < num_blocks_per_pbh[cl]`, ends
inside the `class_to_pages[cl]` pages of the page block. -/
theorem blocks_per_pbh_fit (cl : Nat) (hcl : cl < NUM_CLASSES) :
    ∃ sz pg nb, get_size_for_class cl = some sz ∧ get_pages_for_class cl = some pg ∧
      get_blocks_for_class cl = some nb ∧ nb = pg * PAGE_SIZE / sz ∧ 1 ≤ nb ∧
      1 ≤ pg ∧ pg ≤ 13 ∧ pg ≤ NUM_PAGE_CLASSES ∧
      ∀ k, k < nb → k * sz + sz ≤ pg * PAGE_SIZE :=
  class_tables_fit cl hcl

theorem blocks_per_pbh_fit_witness :
    (25 : Nat) < NUM_CLASSES ∧
    ∃ sz pg nb, get_size_for_class 25 = some sz ∧ get_pages_for_class 25 = some pg ∧
      get_blocks_for_class 25 = some nb ∧ nb = pg * PAGE_SIZE / sz ∧ 1 ≤ nb ∧
      1 ≤ pg ∧ pg ≤ 13 ∧ pg ≤ NUM_PAGE_CLASSES ∧
      ∀ k, k < nb → k * sz + sz ≤ pg * PAGE_SIZE :=
  ⟨by decide, blocks_per_pbh_fit 25 (by decide)⟩

/-! ## C30: the pseudo-LRU tables of the page block cache -/

set_option maxRecDepth 100000 in
theorem lru_ok_all : ∀ st, st < 128 → ∀ w, w < 8 → lru_ok st w = true := by decide!

theorem lru_tables_all (st : Nat) (hst : st < 128) (w : Nat) (hw : w < 8) :
    ∃ st', lru_touch st w = some st' ∧ st' < 128 ∧
      ∃ v, g_lru_table[st']? = some v ∧ v < 8 ∧ v ≠ w := by
  have h := lru_ok_all st hst w hw
  unfold lru_ok at h
  unfold lru_touch
  rw [List.get?_eq_getElem?] at h
  cases h1 : g_way_table[w]? with
  | none => simp [h1] at h
  | some e =>
    obtain ⟨m, b⟩ := e
    simp only [h1, Bool.and_eq_true, decide_eq_true_eq, List.get?_eq_getElem?] at h
    obtain ⟨h2, h3⟩ := h
    cases h4 : g_lru_table[(st &&& m) ||| b]? with
    | none => simp [h4] at h3
    | some v =>
      simp only [h4, Bool.and_eq_true, decide_eq_true_eq] at h3
      exact ⟨(st &&& m) ||| b, rfl, h2, v, h4, h3.1, h3.2⟩

set_option maxRecDepth 100000 in
theorem lru_table_ways : ∀ st, st < 128 → ∃ v, g_lru_table[st]? = some v ∧ v < 8 := by
  intro st hst
  obtain ⟨st', h1, h2, v, h3, h4, _⟩ := lru_tables_all st hst 7 (by decide)
  have hl : st < g_lru_table.length := hst
  refine ⟨g_lru_table[st], List.getElem?_eq_getElem hl, ?_⟩
  have hall : ∀ x ∈ g_lru_table, x < 8 := by decide
  exact hall _ (List.getElem_mem hl)

/-- C30: for every state `st < 128` of the pseudo-LRU tree and every way `w < 8`, the
state after a touch of `w`, as `pb_cache_touch` computes it, is again below 128,
the entry of `g_lru_table` at the new state is a way below 8 other than `w`, and
every entry of `g_lru_table` is a way below 8. -/
theorem lru_tables_consistent (c : pb_cache_t) (w : Nat) (hst : c.state < 128) (hw : w < 8) :
    (∃ c', pb_cache_touch c w = some c' ∧
      c'.state = (c.state &&& (g_way_table[w]?.getD (0, 0)).1) ||| (g_way_table[w]?.getD (0, 0)).2 ∧
      c'.state < 128 ∧ c'.block = c.block ∧ c'.tag = c.tag ∧
      ∃ v, g_lru_table[c'.state]? = some v ∧ v < NUM_PB_CACHE_WAY ∧ v ≠ w) ∧
    (∀ st, st < 128 → ∃ v, g_lru_table[st]? = some v ∧ v < NUM_PB_CACHE_WAY) ∧
    g_lru_table.length = 128 ∧ g_way_table.length = NUM_PB_CACHE_WAY := by
  obtain ⟨st', h1, h2, v, h3, h4, h5⟩ := lru_tables_all c.state hst w hw
  refine ⟨?_, lru_table_ways, by rfl, by rfl⟩
  unfold lru_touch at h1
  unfold pb_cache_touch
  cases hg : g_way_table[w]? with
  | none => simp [hg] at h1
  | some e =>
    simp only [hg, Option.map_some', Option.some.injEq] at h1
    have hu : u8 ((c.state &&& e.1) ||| e.2) = st' := by
      rw [h1]
      unfold u8
      omega
    refine ⟨{ c with state := u8 ((c.state &&& e.1) ||| e.2) }, rfl, ?_, ?_, rfl, rfl, v, ?_,
      h4, h5⟩
    · show u8 ((c.state &&& e.1) ||| e.2) = _
      rw [hu, Option.getD_some, h1]
    · show u8 ((c.state &&& e.1) ||| e.2) < 128
      rw [hu]
      exact h2
    · show g_lru_table[u8 ((c.state &&& e.1) ||| e.2)]? = some v
      rw [hu]
      exact h3

set_option maxRecDepth 100000 in
theorem lru_tables_consistent_witness :
    ∃ c', pb_cache_touch pb_cache_zero 3 = some c' ∧ c'.state < 128 ∧
      ∃ v, g_lru_table[c'.state]? = some v ∧ v < NUM_PB_CACHE_WAY ∧ v ≠ 3 := by
  obtain ⟨c', h1, _, h2, _, _, h3⟩ :=
    (lru_tables_consistent pb_cache_zero 3 (by decide) (by decide)).1
  exact ⟨c', h1, h2, h3⟩

/-! ## C24: the leaf cache of the PageMap -/

theorem pm_tag_ne_initial (pg : Nat) (h : pg >>> PMAP_BITS = 0) :
    pg >>> PMAP_LEAF_BIT ≠ 0xFFFFFFFFFFFFFFFF := by
  simp only [PMAP_BITS, PMAP_LEAF_BIT, PMAP_INTERIOR_BIT, MACHINE_BIT, PAGE_SHIFT,
    Nat.shiftRight_eq_div_pow] at h ⊢
  norm_num at h ⊢
  omega

/-- The refresh of the leaf cache for a page whose levels exist leaves the cache
with the leaf of the tree for the page. -/
theorem pagemap_cache_load_sound (s : State) (t pg : Nat) (hh : pm_has s pg)
    (hs : cache_sound s t) :
    ∃ s1, pagemap_cache_load s t (pg >>> PMAP_LEAF_BIT) = some s1 ∧
      (s1.thr t).l_pagemap_tag = pg >>> PMAP_LEAF_BIT ∧
      (s1.thr t).l_pagemap_leaf = pm_leaf_of s pg ∧
      s1.pm_node = s.pm_node ∧ s1.pm_leaf = s.pm_leaf ∧ s1.pm_val = s.pm_val ∧
      s1.cfg = s.cfg := by
  obtain ⟨h1, h2, h3⟩ := hh
  by_cases htag : (s.thr t).l_pagemap_tag = pg >>> PMAP_LEAF_BIT
  · have hlf : (s.thr t).l_pagemap_leaf = pm_leaf_of s pg := by
      rcases hs with e | e
      · exact absurd (htag.symm.trans e) (pm_tag_ne_initial pg h1)
      · rw [e, htag, pm_index_split]; rfl
    refine ⟨s, ?_, htag, hlf, rfl, rfl, rfl, rfl⟩
    unfold pagemap_cache_load
    rw [if_neg (not_not.mpr htag)]
  · have hlt := pm_index_lt pg h1
    refine ⟨set_tlh s t { s.thr t with
      l_pagemap_tag := pg >>> PMAP_LEAF_BIT, l_pagemap_leaf := pm_leaf_of s pg }, ?_, ?_, ?_,
      rfl, rfl, rfl, rfl⟩
    · unfold pagemap_cache_load
      rw [if_pos htag, pm_index_split]
      simp only [hlt, h2, not_true_eq_false, if_false]
      rfl
    · simp [set_tlh, upd]
    · simp [set_tlh, upd]

/-- The read of an entry with the leaf cache and the read without it. -/
theorem pagemap_get_cached (su sc : State) (t pg : Nat)
    (hu : su.cfg.MALLOC_USE_PAGEMAP_CACHE = false) (hc : sc.cfg.MALLOC_USE_PAGEMAP_CACHE = true)
    (ht : same_tree su sc) (hs : cache_sound sc t) (hh : pm_has su pg) :
    ∃ sc', pagemap_get su t pg = some (su.pm_val (pm_leaf_of su pg) (pg &&& (PMAP_LEAF_LEN - 1)), su) ∧
      pagemap_get sc t pg =
        some (su.pm_val (pm_leaf_of su pg) (pg &&& (PMAP_LEAF_LEN - 1)), sc') ∧
      same_tree su sc' ∧ cache_sound sc' t ∧ sc'.cfg = sc.cfg := by
  obtain ⟨tn, tl, tv⟩ := ht
  have hhc : pm_has sc pg := (pm_has_congr su sc tn tl pg).1.mpr hh
  have hlf : pm_leaf_of sc pg = pm_leaf_of su pg := (pm_has_congr su sc tn tl pg).2
  obtain ⟨s1, e1, e2, e3, e4, e5, e6, e7⟩ := pagemap_cache_load_sound sc t pg hhc hs
  obtain ⟨h1, h2, h3⟩ := hh
  have h3c : ¬ pm_leaf_of su pg = 0 := h3
  refine ⟨s1, ?_, ?_, ⟨e4.trans tn, e5.trans tl, e6.trans tv⟩, Or.inr ?_, e7⟩
  · have h2' : ¬ su.pm_node (pg >>> (PMAP_LEAF_BIT + PMAP_INTERIOR_BIT)) = 0 := h2
    have h3' : ¬ su.pm_leaf (su.pm_node (pg >>> (PMAP_LEAF_BIT + PMAP_INTERIOR_BIT)))
        ((pg >>> PMAP_LEAF_BIT) &&& (PMAP_INTERIOR_LEN - 1)) = 0 := h3
    simp only [pagemap_get, hu, Bool.false_eq_true, if_false, h1, ne_eq, not_true_eq_false,
      h2', h3']
    rfl
  · simp only [pagemap_get, hc, if_true, e1, Option.some_bind, e3, hlf, h3c, if_false, e6, tv]
  · rw [e3, e2, pm_index_split, e4, e5]
    rfl

/-- The write of an entry with the leaf cache and the write without it. -/
theorem pagemap_set_cached (su sc : State) (t pg v : Nat)
    (hu : su.cfg.MALLOC_USE_PAGEMAP_CACHE = false) (hc : sc.cfg.MALLOC_USE_PAGEMAP_CACHE = true)
    (ht : same_tree su sc) (hs : cache_sound sc t) (hh : pm_has su pg) :
    ∃ su' sc', pagemap_set su t pg v = some su' ∧ pagemap_set sc t pg v = some sc' ∧
      su'.pm_val = upd su.pm_val (pm_leaf_of su pg)
        (upd (su.pm_val (pm_leaf_of su pg)) (pg &&& (PMAP_LEAF_LEN - 1)) v) ∧
      su'.pm_node = su.pm_node ∧ su'.pm_leaf = su.pm_leaf ∧ su'.cfg = su.cfg ∧
      same_tree su' sc' ∧ cache_sound sc' t ∧ sc'.cfg = sc.cfg := by
  obtain ⟨tn, tl, tv⟩ := ht
  have hhc : pm_has sc pg := (pm_has_congr su sc tn tl pg).1.mpr hh
  have hlf : pm_leaf_of sc pg = pm_leaf_of su pg := (pm_has_congr su sc tn tl pg).2
  obtain ⟨s1, e1, e2, e3, e4, e5, e6, e7⟩ := pagemap_cache_load_sound sc t pg hhc hs
  obtain ⟨h1, h2, h3⟩ := hh
  have h3c : ¬ pm_leaf_of su pg = 0 := h3
  refine ⟨set_pm_val su (pm_leaf_of su pg) (pg &&& (PMAP_LEAF_LEN - 1)) v,
    set_pm_val s1 (pm_leaf_of su pg) (pg &&& (PMAP_LEAF_LEN - 1)) v, ?_, ?_, rfl, rfl, rfl, rfl,
    ⟨e4.trans tn, e5.trans tl, ?_⟩, Or.inr ?_, e7⟩
  · have h2' : ¬ su.pm_node (pg >>> (PMAP_LEAF_BIT + PMAP_INTERIOR_BIT)) = 0 := h2
    have h3' : ¬ su.pm_leaf (su.pm_node (pg >>> (PMAP_LEAF_BIT + PMAP_INTERIOR_BIT)))
        ((pg >>> PMAP_LEAF_BIT) &&& (PMAP_INTERIOR_LEN - 1)) = 0 := h3
    simp only [pagemap_set, hu, Bool.false_eq_true, if_false, h1, ne_eq, not_true_eq_false,
      h2', h3']
    rfl
  · simp only [pagemap_set, hc, if_true, e1, Option.some_bind, e3, hlf, h3c, if_false]
  · show upd s1.pm_val _ _ = upd su.pm_val _ _
    rw [e6, tv]
  · show (s1.thr t).l_pagemap_leaf = s1.pm_leaf (s1.pm_node ((s1.thr t).l_pagemap_tag >>>
      PMAP_INTERIOR_BIT)) ((s1.thr t).l_pagemap_tag &&& (PMAP_INTERIOR_LEN - 1))
    rw [e3, e2, pm_index_split, e4, e5]
    rfl

/-- C24: the one-entry leaf cache of the PageMap is a pure optimisation. For a state
`sc` with `MALLOC_USE_PAGEMAP_CACHE` and a state `su` without it that have the same
PageMap tree, the cache of thread `t` being in its initial state or as a load left
it: for every page whose levels exist, `pagemap_get` returns in both the entry of
the three-level lookup, `pagemap_set` writes in both the same slot of the same
leaf, and every sequence of such calls returns the same values and ends with the
same tree. -/
theorem pagemap_cache_refines (su sc : State) (t : Nat)
    (hu : su.cfg.MALLOC_USE_PAGEMAP_CACHE = false) (hc : sc.cfg.MALLOC_USE_PAGEMAP_CACHE = true)
    (ht : same_tree su sc) (hs : cache_sound sc t) :
    (∀ pg, pm_has su pg →
      ∃ sc', pagemap_get su t pg = some (pagemap_get_checked su pg, su) ∧
        pagemap_get sc t pg = some (pagemap_get_checked su pg, sc') ∧
        same_tree su sc' ∧ cache_sound sc' t) ∧
    (∀ pg v, pm_has su pg →
      ∃ su' sc', pagemap_set su t pg v = some su' ∧ pagemap_set sc t pg v = some sc' ∧
        su'.pm_val = upd su.pm_val (pm_leaf_of su pg)
          (upd (su.pm_val (pm_leaf_of su pg)) (pg &&& (PMAP_LEAF_LEN - 1)) v) ∧
        same_tree su' sc' ∧ cache_sound sc' t) ∧
    (∀ ops : List pm_op, (∀ op ∈ ops, pm_has su op.page) →
      ∃ rs su' sc', pm_run t ops su = some (rs, su') ∧ pm_run t ops sc = some (rs, sc') ∧
        same_tree su' sc') := by
  refine ⟨fun pg hh => ?_, fun pg v hh => ?_, fun ops => ?_⟩
  · obtain ⟨sc', a, b, c, d, _⟩ := pagemap_get_cached su sc t pg hu hc ht hs hh
    rw [(pagemap_get_checked_eq su pg).1 hh]
    exact ⟨sc', a, b, c, d⟩
  · obtain ⟨su', sc', a, b, c, _, _, _, d, e, _⟩ := pagemap_set_cached su sc t pg v hu hc ht hs hh
    exact ⟨su', sc', a, b, c, d, e⟩
  · induction ops generalizing su sc with
    | nil => intro _; exact ⟨[], su, sc, rfl, rfl, ht⟩
    | cons op ops ih =>
      intro hall
      have hop := hall op (List.mem_cons_self _ _)
      cases op with
      | get pg =>
        obtain ⟨sc', a, b, c, d, e⟩ := pagemap_get_cached su sc t pg hu hc ht hs hop
        obtain ⟨rs, su', sc'', r1, r2, r3⟩ := ih su sc' hu (by rw [e]; exact hc) c d
          (fun o ho => hall o (List.mem_cons_of_mem _ ho))
        refine ⟨su.pm_val (pm_leaf_of su pg) (pg &&& (PMAP_LEAF_LEN - 1)) :: rs, su', sc'',
          ?_, ?_, r3⟩
        · simp only [pm_run, a, Option.some_bind, r1, Option.map_some']
        · simp only [pm_run, b, Option.some_bind, r2, Option.map_some']
      | set pg v =>
        obtain ⟨su1, sc1, a, b, _, f, g, h, c, d, e⟩ :=
          pagemap_set_cached su sc t pg v hu hc ht hs hop
        obtain ⟨rs, su', sc'', r1, r2, r3⟩ := ih su1 sc1 (by rw [h]; exact hu)
          (by rw [e]; exact hc) c d
          (fun o ho => (pm_has_congr su su1 f g _).1.mpr (hall o (List.mem_cons_of_mem _ ho)))
        refine ⟨rs, su', sc'', ?_, ?_, r3⟩
        · simp only [pm_run, a, Option.some_bind, r1]
        · simp only [pm_run, b, Option.some_bind, r2]

set_option maxRecDepth 100000 in
theorem warm_heap_has : pm_has warm_heap.2 0x11002 ∧
    (cached_heap.thr 0).l_pagemap_tag = 0xFFFFFFFFFFFFFFFF ∧
    pagemap_get_checked warm_heap.2 0x11002 = 0x11001040 ∧
    warm_heap.2.cfg.MALLOC_USE_PAGEMAP_CACHE = false ∧
    cached_heap.cfg.MALLOC_USE_PAGEMAP_CACHE = true := by
  refine ⟨?_, by decide!, by decide!, by decide!, by decide!⟩
  unfold pm_has
  refine ⟨by decide!, by decide!, by decide!⟩

theorem same_tree_cfg (s : State) (c : Config) : same_tree s { s with cfg := c } :=
  ⟨rfl, rfl, rfl⟩

theorem warm_heap_same_tree : same_tree warm_heap.2 cached_heap :=
  same_tree_cfg warm_heap.2 ⟨true, true, false⟩

theorem pagemap_cache_refines_witness :
    warm_heap.2.cfg.MALLOC_USE_PAGEMAP_CACHE = false ∧
    cached_heap.cfg.MALLOC_USE_PAGEMAP_CACHE = true ∧
    same_tree warm_heap.2 cached_heap ∧ cache_sound cached_heap 0 ∧
    pm_has warm_heap.2 0x11002 ∧
    ∃ sc', pagemap_get warm_heap.2 0 0x11002 =
        some (pagemap_get_checked warm_heap.2 0x11002, warm_heap.2) ∧
      pagemap_get cached_heap 0 0x11002 = some (pagemap_get_checked warm_heap.2 0x11002, sc') ∧
      same_tree warm_heap.2 sc' ∧ cache_sound sc' 0 :=
  ⟨warm_heap_has.2.2.2.1, warm_heap_has.2.2.2.2, warm_heap_same_tree,
    Or.inl warm_heap_has.2.1, warm_heap_has.1,
    (pagemap_cache_refines warm_heap.2 cached_heap 0 warm_heap_has.2.2.2.1
      warm_heap_has.2.2.2.2 warm_heap_same_tree
      (Or.inl warm_heap_has.2.1)).1 0x11002 warm_heap_has.1⟩

/-! ## C23: the remote list word of a page block -/

/-- Reading the link word that `SET_NEXT` has stored gives the stored value. -/
theorem GET_NEXT_SET_NEXT (s s1 : State) (p n : Nat) (hm : s1.mem = (SET_NEXT s p n).mem) :
    GET_NEXT s1 p = u64 n := by
  have hb : ∀ i, i < 8 → (s1.mem (p + i)).val = (u64 n / 256 ^ i) % 256 := by
    intro i hi
    rw [hm]
    simp only [SET_NEXT]
    rw [if_pos ⟨by omega, by omega⟩, Nat.add_sub_cancel_left]
    rfl
  have hg : GET_NEXT s1 p = (s1.mem (p + 0)).val + 256 * ((s1.mem (p + 1)).val + 256 *
      ((s1.mem (p + 2)).val + 256 * ((s1.mem (p + 3)).val + 256 * ((s1.mem (p + 4)).val + 256 *
      ((s1.mem (p + 5)).val + 256 * ((s1.mem (p + 6)).val + 256 *
      ((s1.mem (p + 7)).val + 256 * 0))))))) := rfl
  rw [hg, hb 0 (by omega), hb 1 (by omega), hb 2 (by omega), hb 3 (by omega), hb 4 (by omega),
    hb 5 (by omega), hb 6 (by omega), hb 7 (by omega)]
  have hlt : u64 n < 2 ^ 64 := Nat.mod_lt _ (by norm_num)
  generalize u64 n = v at hlt ⊢
  norm_num at hlt ⊢
  omega

/-- The ordinal of the block `base + size * k` in its page block. -/
theorem block_ordinal (base size k : Nat) (hsz : 0 < size) (hb : base < 2 ^ 64)
    (hp : base + size * k < 2 ^ 64) :
    sub64 (base + size * k) base / size = k := by
  unfold sub64
  rw [Nat.mod_eq_of_lt hb]
  have h1 : base + size * k + 2 ^ 64 - base = size * k + 2 ^ 64 := by omega
  rw [h1, Nat.add_mod_right, Nat.mod_eq_of_lt (by omega), Nat.mul_div_cancel_left k hsz]

/-- C23: a `remote_free(tlh, pbh, first, last, N)` on a page block of a superpage whose
owner is alive succeeds. With `(h, c)` the remote list word of the page block before
the call, `base` the address of its first page and `size` the size of its blocks, and
`first = base + size * k` for a `k` below the number of blocks of the class, the word
after the call is `(k, c + N)`, where `k = (first - base) / size`, and the link word
of `last` is `NULL` when `c = 0` and `base + h * size` otherwise. When the owner `a`
then allocates from this class with empty thread-local lists and this page block,
empty otherwise, at the head of its list, the drain branch of `small_malloc` returns
`first`, resets the word to `(0, 0)` and leaves `cnt_free = c + N - 1`. -/
theorem remote_free_round_trip (s : State) (t a pbh first last N sph cl size nb k : Nat)
    (h0 : pbh ≠ 0)
    (hsph : pbh_get_superpage s pbh = some sph)
    (hown : (s.sph sph).owner_id ≠ DEAD_OWNER)
    (hcls : (s.pbh pbh).sizeclass = cl) (hcl60 : cl < NUM_CLASSES)
    (hsize : get_size_for_class cl = some size)
    (hnb : get_blocks_for_class cl = some nb) (hk : k < nb)
    (hpk : first = u64 ((s.pbh pbh).start_page <<< PAGE_SHIFT) + size * k)
    (hp64 : first < 2 ^ 64)
    (hN : 1 ≤ N) (hcN : (s.pbh pbh).remote_cnt + N < 2 ^ 32)
    (hh : (s.pbh pbh).remote_head < nb)
    (hh64 : u64 ((s.pbh pbh).start_page <<< PAGE_SHIFT) + size * (s.pbh pbh).remote_head
      < 2 ^ 64)
    (hfl : ((s.thr a).blk_list cl).free_blk_list = 0)
    (hun : ((s.thr a).blk_list cl).ptr_to_unused = 0)
    (hpl : ((s.thr a).blk_list cl).pbh_list = pbh)
    (hcf : (s.pbh pbh).cnt_free = 0) (hcu : (s.pbh pbh).cnt_unused = 0) :
    ∃ s1, remote_free s t pbh first last N = some (true, s1) ∧
      (s1.pbh pbh).remote_head = k ∧
      sub64 first (u64 ((s.pbh pbh).start_page <<< PAGE_SHIFT)) / size = k ∧
      (s1.pbh pbh).remote_cnt = (s.pbh pbh).remote_cnt + N ∧
      GET_NEXT s1 last = (if (s.pbh pbh).remote_cnt = 0 then 0
        else u64 ((s.pbh pbh).start_page <<< PAGE_SHIFT) + (s.pbh pbh).remote_head * size) ∧
      ∃ s2, small_malloc s1 a cl = some (first, s2) ∧
        (s2.pbh pbh).remote_head = 0 ∧ (s2.pbh pbh).remote_cnt = 0 ∧
        ((s2.thr a).blk_list cl).cnt_free = (s.pbh pbh).remote_cnt + N - 1 ∧
        ((s2.thr a).blk_list cl).free_blk_list = GET_NEXT s1 first := by
  obtain ⟨sz, pg, nb', e1, e2, e3, e4, e5, e6, e7, e8, e9⟩ := class_tables_fit cl hcl60
  rw [hsize] at e1
  rw [hnb] at e3
  obtain rfl : size = sz := Option.some.inj e1
  obtain rfl : nb = nb' := Option.some.inj e3
  have hsz : 0 < size := by
    rcases Nat.eq_zero_or_pos size with h | h
    · have := e9 0 e5
      rw [h] at e4
      simp at e4
      omega
    · exact h
  have hsz0 : size ≠ 0 := by omega
  have hP : PAGE_SIZE = 4096 := rfl
  rw [hP] at e4 e9
  have hnb16 : nb ≤ 13 * 4096 := by
    have : pg * 4096 / size ≤ pg * 4096 := Nat.div_le_self _ _
    omega
  have hk16 : k < 2 ^ 16 := by omega
  have hb : u64 ((s.pbh pbh).start_page <<< PAGE_SHIFT) < 2 ^ 64 := Nat.mod_lt _ (by norm_num)
  have hsize' : get_size_for_class (s.pbh pbh).sizeclass = some size := by rw [hcls]; exact hsize
  obtain ⟨s1, hrf, h1pbh, h1thr, h1cfg, h1in, h1mem⟩ :=
    remote_free_live s t pbh first last N sph size hsph hsize' hsz0 hown
  have hidx : sub64 first (u64 ((s.pbh pbh).start_page <<< PAGE_SHIFT)) / size = k := by
    rw [hpk]
    exact block_ordinal _ size k hsz hb (by rw [← hpk]; exact hp64)
  have hrc1 : (s1.pbh pbh).remote_cnt = (s.pbh pbh).remote_cnt + N := by
    rw [h1pbh]
    simp only [upd, if_true]
    exact Nat.mod_eq_of_lt hcN
  have hrh1 : (s1.pbh pbh).remote_head = k := by
    rw [h1pbh]
    simp only [upd, if_true, hidx]
    exact Nat.mod_eq_of_lt hk16
  have hhs : size * (s.pbh pbh).remote_head < 2 ^ 32 := by
    have h1 := e9 _ hh
    have h2 : (s.pbh pbh).remote_head * size = size * (s.pbh pbh).remote_head := Nat.mul_comm _ _
    omega
  have hnext : GET_NEXT s1 last = (if (s.pbh pbh).remote_cnt = 0 then 0
      else u64 ((s.pbh pbh).start_page <<< PAGE_SHIFT) + (s.pbh pbh).remote_head * size) := by
    rw [GET_NEXT_SET_NEXT s s1 last _ h1mem]
    by_cases hc : (s.pbh pbh).remote_cnt = 0
    · rw [if_pos hc, if_pos hc]; rfl
    · rw [if_neg hc, if_neg hc]
      have h2 : u32 (size * (s.pbh pbh).remote_head) = size * (s.pbh pbh).remote_head :=
        Nat.mod_eq_of_lt hhs
      rw [h2]
      have h3 : u64 (u64 ((s.pbh pbh).start_page <<< PAGE_SHIFT) +
          size * (s.pbh pbh).remote_head) = u64 ((s.pbh pbh).start_page <<< PAGE_SHIFT) +
          size * (s.pbh pbh).remote_head := Nat.mod_eq_of_lt hh64
      rw [show u64 (u64 (u64 ((s.pbh pbh).start_page <<< PAGE_SHIFT) +
          size * (s.pbh pbh).remote_head)) = u64 (u64 ((s.pbh pbh).start_page <<< PAGE_SHIFT) +
          size * (s.pbh pbh).remote_head) from Nat.mod_mod _ _, h3, Nat.mul_comm]
  refine ⟨s1, hrf, hrh1, hidx, hrc1, hnext, ?_⟩
  have h1a : s1.thr a = s.thr a := by rw [h1thr]
  have hcf1 : (s1.pbh pbh).cnt_free = 0 := by rw [h1pbh]; simp [upd, hcf]
  have hcu1 : (s1.pbh pbh).cnt_unused = 0 := by rw [h1pbh]; simp [upd, hcu]
  have hsp1 : (s1.pbh pbh).start_page = (s.pbh pbh).start_page := by
    rw [h1pbh]; simp [upd]
  have hret : u64 (u64 ((s.pbh pbh).start_page <<< PAGE_SHIFT) + u64 (size * k)) = first := by
    have h1 : size * k < 2 ^ 64 := by omega
    have h2 : u64 (size * k) = size * k := Nat.mod_eq_of_lt h1
    rw [h2, ← hpk]
    exact Nat.mod_eq_of_lt hp64
  have hn : ¬ ¬ cl < NUM_CLASSES := not_not.mpr hcl60
  have c1 : ¬ ((s1.thr a).blk_list cl).free_blk_list ≠ 0 := by rw [h1a, hfl]; simp
  have c2 : ¬ ((s1.thr a).blk_list cl).ptr_to_unused ≠ 0 := by rw [h1a, hun]; simp
  have c3 : ((s1.thr a).blk_list cl).pbh_list = pbh := by rw [h1a, hpl]
  have c4 : ¬ (pbh ≠ 0 ∧ (s1.pbh pbh).cnt_free > 0) := by rw [hcf1]; simp
  have c5 : ¬ (pbh ≠ 0 ∧ (s1.pbh pbh).cnt_unused > 0) := by rw [hcu1]; simp
  have c6 : pbh ≠ 0 ∧ (s1.pbh pbh).remote_cnt > 0 := ⟨h0, by rw [hrc1]; omega⟩
  have hr : u64 (u64 (((set_pbh s1 pbh
      { s1.pbh pbh with remote_head := 0, remote_cnt := 0 }).pbh pbh).start_page <<< PAGE_SHIFT) +
      u64 (size * (s1.pbh pbh).remote_head)) = first := by
    rw [hrh1]
    simp only [set_pbh, upd, if_true, hsp1]
    exact hret
  unfold small_malloc
  simp only [hn, if_false, c1, hsize, Option.bind_eq_bind, Option.some_bind, c2, c3,
    Option.pure_def]
  rw [if_neg c4, if_neg c5, if_pos c6]
  simp only [hr]
  refine ⟨_, rfl, ?_, ?_, ?_, ?_⟩
  · simp [set_blk, set_tlh, set_pbh, upd]
  · simp [set_blk, set_tlh, set_pbh, upd]
  · simp only [set_blk, set_tlh, set_pbh, upd, if_true, hrc1]
    unfold sub32
    have : (1 : Nat) % 2 ^ 32 = 1 := by norm_num
    rw [this]
    have h2 : (s.pbh pbh).remote_cnt + N + 2 ^ 32 - 1 = ((s.pbh pbh).remote_cnt + N - 1) + 2 ^ 32 := by
      omega
    rw [h2, Nat.add_mod_right]
    exact Nat.mod_eq_of_lt (by omega)
  · simp only [set_blk, set_tlh, set_pbh, upd, if_true]
    rfl

set_option maxRecDepth 100000 in
theorem remote_heap_word :
    (remote_heap.2.pbh 0x11001040).remote_head = 0 ∧
    (remote_heap.2.pbh 0x11001040).remote_cnt = 0 := by
  refine ⟨by decide!, by decide!⟩

set_option maxRecDepth 100000 in
theorem remote_free_round_trip_witness :
    ∃ s1, remote_free remote_heap.2 1 0x11001040 0x110020E0 0x110020E0 1 = some (true, s1) ∧
      (s1.pbh 0x11001040).remote_head = 2 ∧
      sub64 0x110020E0 (u64 ((remote_heap.2.pbh 0x11001040).start_page <<< PAGE_SHIFT)) / 112
        = 2 ∧
      (s1.pbh 0x11001040).remote_cnt = (remote_heap.2.pbh 0x11001040).remote_cnt + 1 ∧
      GET_NEXT s1 0x110020E0 = (if (remote_heap.2.pbh 0x11001040).remote_cnt = 0 then 0
        else u64 ((remote_heap.2.pbh 0x11001040).start_page <<< PAGE_SHIFT) +
          (remote_heap.2.pbh 0x11001040).remote_head * 112) ∧
      ∃ s2, small_malloc s1 0 7 = some (0x110020E0, s2) ∧
        (s2.pbh 0x11001040).remote_head = 0 ∧ (s2.pbh 0x11001040).remote_cnt = 0 ∧
        ((s2.thr 0).blk_list 7).cnt_free = (remote_heap.2.pbh 0x11001040).remote_cnt + 1 - 1 ∧
        ((s2.thr 0).blk_list 7).free_blk_list = GET_NEXT s1 0x110020E0 := by
  obtain ⟨hp, hi, ht0, ht1, hcl, hst, hsp, hown, hstart, hrc, hfl, hun, hpl, hcf, hcu⟩ :=
    remote_heap_facts
  obtain ⟨hrh, _⟩ := remote_heap_word
  exact remote_free_round_trip remote_heap.2 1 0 0x11001040 0x110020E0 0x110020E0 1
    0x11001000 7 112 36 2 (by decide) hsp (by rw [hown]; decide) hcl (by decide) (by decide)
    (by decide) (by decide) (by rw [hstart]; decide) (by decide) (by decide)
    (by rw [hrc]; decide) (by rw [hrh]; decide) (by rw [hstart, hrh]; decide)
    hfl hun hpl hcf hcu

/-! ## C27: the remote page block list and the free page block lists -/

set_option maxRecDepth 100000 in
/-- C27 (refuted): thread `0` owns the superpage `0x11001000`; the free page block
list of 10 pages of its heap holds the header `0x11001040` of 10 pages, and the
remote page block list of the superpage holds the block of the 10 pages that
follow. `sph_get_remote_pbs` absorbs these pages into the header `0x11001040`,
whose length becomes 20, and leaves it on the list of 10 pages. The `pb_alloc` of
60 pages that runs it then takes a new superpage, and the next `pb_alloc` of 10
pages pops this header and stops at the assertion `(pbh->length - 1) == c` of
`pb_alloc_from_tlh`, and so does `malloc(40000)`. -/
theorem sph_get_remote_pbs_breaks_free_list :
    (remote_pb_heap.2.sph 0x11001000).owner_id = (remote_pb_heap.2.thr 0).thread_id ∧
    (remote_pb_heap.2.thr 0).sp_list = 0x11001000 ∧
    remote_pb_heap.1 = 0x1100C000 ∧
    (remote_pb_heap.2.sph 0x11001000).remote_pb_list = remote_pb_heap.1 ∧
    free_pb_heads remote_pb_heap.2 0 = [(9, 0x11001040), (32, 0x110017C0)] ∧
    (remote_pb_heap.2.pbh 0x11001040).length = 10 ∧
    (remote_pb_heap.2.pbh 0x110017C0).length = 33 ∧
    (sph_get_remote_pbs remote_pb_heap.2 0 0x11001000).map
      (fun s => (free_pb_heads s 0, (s.pbh 0x11001040).length, (s.pbh 0x11001040).status,
        (s.pbh 0x110012C0).status, pagemap_get_checked s 0x1100C)) =
      some ([(9, 0x11001040), (32, 0x110017C0)], 20, PBH_ON_FREE_LIST, PBH_ON_FREE_LIST,
        0x11001040) ∧
    (sph_get_remote_pbs remote_pb_heap.2 0 0x11001000).map
      (fun s => (pb_alloc_from_tlh s 0 10).map Prod.fst) = some none ∧
    (pb_alloc remote_pb_heap.2 0 60).map Prod.fst = some 0x14001040 ∧
    drained_pb_heap.1 = 0x14002000 ∧
    free_pb_heads drained_pb_heap.2 0 = [(2, 0x14001F40), (9, 0x11001040), (32, 0x110017C0)] ∧
    (drained_pb_heap.2.pbh 0x11001040).length = 20 ∧
    (pb_alloc_from_tlh drained_pb_heap.2 0 10).map Prod.fst = none ∧
    (pb_alloc drained_pb_heap.2 0 10).map Prod.fst = none ∧
    (malloc drained_pb_heap.2 0 40000).map Prod.fst = none := by
  refine ⟨by decide!, by decide!, by decide!, by decide!, by decide!, by decide!, by decide!,
    by decide!, by decide!, by decide!, by decide!, by decide!, by decide!, by decide!,
    by decide!, by decide!⟩

/-! ## C29: coalescing stays inside the superpage -/

theorem hdr_step_set_range_total (s : State) (t M start len v : Nat)
    (hh : ∀ i, i < len → pm_has s (start + i)) (hc : cache_ok s t) (hinj : pm_inj s) :
    ∃ s1, pagemap_set_range s t start len v = some s1 ∧ hdr_step s s1 t M ∧
      (∀ x, (s1.pbh x).length = (s.pbh x).length) ∧ cache_ok s1 t := by
  obtain ⟨s1, h, _⟩ := pagemap_set_range_spec t v len s start hh hc hinj
  obtain ⟨a, b, c, _⟩ := hdr_step_set_range s s1 t M start len v h hh hc hinj
  exact ⟨s1, h, a, b, c⟩

/-- The neighbours of a page block `X` of a superpage with a sound layout, as
`pb_coalesce` and `sph_coalesce_pbs` look them up: the entry of the page before `X`
is not tagged, it is `NULL` when `X` is the first page block, and otherwise a page
block of the same superpage that ends where `X` starts; the entry of the page after
`X` is `NULL` or tagged when `X` is the last page block, and otherwise a page block
of the same superpage that starts where `X` ends. -/
theorem sp_inv_neighbours (s : State) (sph X : Nat) (hi : sp_inv s sph) (hX : hdr_ok s sph X) :
    pagemap_get_checked s (sub64 (s.pbh X).start_page 1) &&& HUGE_MALLOC_MARK = 0 ∧
    ((s.pbh X).start_page = (s.sph sph).start_page →
      pagemap_get_checked s (sub64 (s.pbh X).start_page 1) = 0) ∧
    (pagemap_get_checked s (sub64 (s.pbh X).start_page 1) ≠ 0 →
      hdr_ok s sph (pagemap_get_checked s (sub64 (s.pbh X).start_page 1)) ∧
      pagemap_get_checked s (sub64 (s.pbh X).start_page 1) ≠ X ∧
      (s.pbh (pagemap_get_checked s (sub64 (s.pbh X).start_page 1))).start_page +
        (s.pbh (pagemap_get_checked s (sub64 (s.pbh X).start_page 1))).length =
        (s.pbh X).start_page) ∧
    ((s.pbh X).start_page + (s.pbh X).length = (s.sph sph).start_page + SUPERPAGE_LEN →
      pagemap_get_checked s (u64 ((s.pbh X).start_page + (s.pbh X).length)) = 0 ∨
      pagemap_get_checked s (u64 ((s.pbh X).start_page + (s.pbh X).length)) &&&
        HUGE_MALLOC_MARK ≠ 0) ∧
    (pagemap_get_checked s (u64 ((s.pbh X).start_page + (s.pbh X).length)) ≠ 0 →
      pagemap_get_checked s (u64 ((s.pbh X).start_page + (s.pbh X).length)) &&&
        HUGE_MALLOC_MARK = 0 →
      hdr_ok s sph (pagemap_get_checked s (u64 ((s.pbh X).start_page + (s.pbh X).length))) ∧
      pagemap_get_checked s (u64 ((s.pbh X).start_page + (s.pbh X).length)) ≠ X ∧
      (s.pbh (pagemap_get_checked s (u64 ((s.pbh X).start_page + (s.pbh X).length)))).start_page
        = (s.pbh X).start_page + (s.pbh X).length) := by
  obtain ⟨hsub, hprev0, hprev1⟩ := sp_inv_prev s sph X hi hX
  obtain ⟨hu64, hnext0, hnext1⟩ := sp_inv_next s sph X hi hX
  have c1 : sph % 2 = 0 := hi.1
  rw [hsub, hu64]
  refine ⟨?_, hprev0, fun hne => ?_, hnext0, fun hne hun => ?_⟩
  · by_cases e : (s.pbh X).start_page = (s.sph sph).start_page
    · rw [hprev0 e]; rfl
    · exact (hdr_ok_ne_zero s sph _ (hprev1 e).1).2 c1
  · exact hprev1 (fun e => hne (hprev0 e))
  · refine hnext1 (fun e => ?_)
    rcases hnext0 e with h | h
    · exact hne h
    · exact h hun

/-- The call `sph_coalesce_pbs(X)` on a page block `X` of a superpage with a sound
layout returns: some page block `M` of the superpage, `X` or the one before it,
has taken `l2` more pages, all inside the superpage, and no other header has
changed its layout. -/
theorem sph_coalesce_pbs_spec (s : State) (t sph X : Nat) (hi : sp_inv s sph)
    (hX : hdr_ok s sph X) (hc : cache_ok s t) (hinj : pm_inj s) :
    ∃ s1 M l2, sph_coalesce_pbs s t X = some s1 ∧ hdr_ok s sph M ∧
      (s.pbh M).start_page + (s.pbh M).length + l2 ≤ (s.sph sph).start_page + SUPERPAGE_LEN ∧
      hdr_step s s1 t M ∧ (s1.pbh M).length = (s.pbh M).length + l2 ∧ cache_ok s1 t := by
  have h63 : SUPERPAGE_LEN = 63 := rfl
  have hX' := hX
  obtain ⟨x1, x2, x3, x4, x5, x6⟩ := hX'
  obtain ⟨hPu, _, hP1, _, hN1⟩ := sp_inv_neighbours s sph X hi hX
  have hpmX : ∀ i, i < (s.pbh X).length → pm_has s ((s.pbh X).start_page + i) :=
    fun i hi2 => sp_inv_pm_has s sph hi _ (by omega) (by omega)
  unfold sph_coalesce_pbs
  dsimp only
  generalize pagemap_get_checked s (sub64 (s.pbh X).start_page 1) = P at hPu hP1 ⊢
  generalize pagemap_get_checked s (u64 ((s.pbh X).start_page + (s.pbh X).length)) = Nv
    at hN1 ⊢
  have hNfacts : (if Nv &&& HUGE_MALLOC_MARK ≠ 0 then 0 else Nv) ≠ 0 →
      hdr_ok s sph (if Nv &&& HUGE_MALLOC_MARK ≠ 0 then 0 else Nv) ∧
      (if Nv &&& HUGE_MALLOC_MARK ≠ 0 then 0 else Nv) ≠ X ∧
      (s.pbh (if Nv &&& HUGE_MALLOC_MARK ≠ 0 then 0 else Nv)).start_page =
        (s.pbh X).start_page + (s.pbh X).length := by
    by_cases e : Nv &&& HUGE_MALLOC_MARK ≠ 0
    · rw [if_pos e]; intro h; exact absurd rfl h
    · rw [if_neg e]; intro h; exact hN1 h (not_not.mp e)
  generalize (if Nv &&& HUGE_MALLOC_MARK ≠ 0 then 0 else Nv) = N at hNfacts ⊢
  clear hN1
  rw [if_neg (not_not.mpr hPu)]
  by_cases hB : P ≠ 0 ∧ (s.pbh P).status = PBH_ON_FREE_LIST
  · rw [if_pos hB]
    obtain ⟨p1, p2, p3⟩ := hP1 hB.1
    have p1' := p1
    obtain ⟨q1, q2, q3, q4, q5, q6⟩ := p1'
    obtain ⟨kb, lb, _⟩ := hdr_step_add_length s t P (s.pbh X).length (by omega)
    have hcb : cache_ok (pbh_add_length s P (s.pbh X).length) t := kb.2.2.2.2.2 hc
    have hinjb := (hdr_step_pm s _ t P kb).2 hinj
    have hpmb := (hdr_step_pm s _ t P kb).1
    have hXb : ((pbh_add_length s P (s.pbh X).length).pbh X).start_page = (s.pbh X).start_page ∧
        ((pbh_add_length s P (s.pbh X).length).pbh X).length = (s.pbh X).length :=
      ⟨(kb.1 X).1, (kb.1 X).2.2.2 (Ne.symm p2)⟩
    generalize pbh_add_length s P (s.pbh X).length = sb at kb lb hcb hinjb hpmb hXb ⊢
    by_cases hD : (sb.pbh P).length = SUPERPAGE_LEN
    · rw [if_pos hD]
      exact ⟨sb, P, (s.pbh X).length, rfl, p1, by omega, kb, lb, hcb⟩
    rw [if_neg hD]
    by_cases hE : N ≠ 0 ∧ (sb.pbh N).status = PBH_ON_FREE_LIST
    · rw [if_pos hE]
      obtain ⟨n1, n2, n3⟩ := hNfacts hE.1
      have n1' := n1
      obtain ⟨m1, m2, m3, m4, m5, m6⟩ := n1'
      have hNP : N ≠ P := by
        intro e
        rw [e] at n3
        omega
      have hlenN : (sb.pbh N).length = (s.pbh N).length := (kb.1 N).2.2.2 hNP
      rw [hlenN]
      obtain ⟨kd, ld, _⟩ := hdr_step_add_length sb t P (s.pbh N).length (by rw [lb]; omega)
      have kbd := hdr_step_trans kb kd
      have hcd : cache_ok (pbh_add_length sb P (s.pbh N).length) t := kd.2.2.2.2.2 hcb
      have hinjd := (hdr_step_pm s _ t P kbd).2 hinj
      have hpmd := (hdr_step_pm s _ t P kbd).1
      have hNd : ((pbh_add_length sb P (s.pbh N).length).pbh N).start_page = (s.pbh N).start_page :=
        (kbd.1 N).1
      have hXd : ((pbh_add_length sb P (s.pbh N).length).pbh X).start_page =
          (s.pbh X).start_page ∧
          ((pbh_add_length sb P (s.pbh N).length).pbh X).length = (s.pbh X).length :=
        ⟨(kbd.1 X).1, (kbd.1 X).2.2.2 (Ne.symm p2)⟩
      rw [lb] at ld
      generalize pbh_add_length sb P (s.pbh N).length = sd at kd ld kbd hcd hinjd hpmd hNd hXd ⊢
      by_cases hF : (sd.pbh P).length = SUPERPAGE_LEN
      · rw [if_pos hF]
        exact ⟨sd, P, (s.pbh X).length + (s.pbh N).length, rfl, p1, by omega, kbd,
          by rw [ld]; omega, hcd⟩
      rw [if_neg hF, hNd]
      obtain ⟨se, hse, ke, le, hce⟩ := hdr_step_set_range_total sd t P (s.pbh N).start_page
        (s.pbh N).length P
        (fun i hi2 => hpmd _ (sp_inv_pm_has s sph hi _ (by omega) (by omega))) hcd hinjd
      have kbe := hdr_step_trans kbd ke
      rw [hse, Option.some_bind, (kbe.1 X).1, (kbe.1 X).2.2.2 (Ne.symm p2)]
      obtain ⟨sf, hsf, kf, lf, hcf⟩ := hdr_step_set_range_total se t P (s.pbh X).start_page
        (s.pbh X).length P
        (fun i hi2 => (hdr_step_pm s se t P kbe).1 _ (hpmX i hi2)) hce
        ((hdr_step_pm s se t P kbe).2 hinj)
      exact ⟨sf, P, (s.pbh X).length + (s.pbh N).length, hsf, p1, by omega,
        hdr_step_trans kbe kf, by rw [lf P, le P, ld]; omega, hcf⟩
    · rw [if_neg hE, hXb.1, hXb.2]
      obtain ⟨se, hse, ke, le, hce⟩ := hdr_step_set_range_total sb t P (s.pbh X).start_page
        (s.pbh X).length P (fun i hi2 => hpmb _ (hpmX i hi2)) hcb hinjb
      exact ⟨se, P, (s.pbh X).length, hse, p1, by omega, hdr_step_trans kb ke,
        by rw [le P, lb], hce⟩
  rw [if_neg hB]
  by_cases hC : N ≠ 0 ∧ (s.pbh N).status = PBH_ON_FREE_LIST
  · rw [if_pos hC]
    obtain ⟨n1, n2, n3⟩ := hNfacts hC.1
    have n1' := n1
    obtain ⟨m1, m2, m3, m4, m5, m6⟩ := n1'
    obtain ⟨kb, lb, _⟩ := hdr_step_add_length s t X (s.pbh N).length (by omega)
    have hcb : cache_ok (pbh_add_length s X (s.pbh N).length) t := kb.2.2.2.2.2 hc
    have hinjb := (hdr_step_pm s _ t X kb).2 hinj
    have hpmb := (hdr_step_pm s _ t X kb).1
    have hNb : ((pbh_add_length s X (s.pbh N).length).pbh N).start_page = (s.pbh N).start_page :=
      (kb.1 N).1
    generalize pbh_add_length s X (s.pbh N).length = sb at kb lb hcb hinjb hpmb hNb ⊢
    by_cases hD : (sb.pbh X).length = SUPERPAGE_LEN
    · rw [if_pos hD]
      exact ⟨sb, X, (s.pbh N).length, rfl, hX, by omega, kb, lb, hcb⟩
    · rw [if_neg hD, hNb]
      obtain ⟨se, hse, ke, le, hce⟩ := hdr_step_set_range_total sb t X (s.pbh N).start_page
        (s.pbh N).length X
        (fun i hi2 => hpmb _ (sp_inv_pm_has s sph hi _ (by omega) (by omega))) hcb hinjb
      exact ⟨se, X, (s.pbh N).length, hse, hX, by omega, hdr_step_trans kb ke,
        by rw [le X, lb], hce⟩
  · rw [if_neg hC]
    exact ⟨s, X, 0, rfl, hX, by omega, hdr_step_refl _ _ _, rfl, hc⟩

/-- The layout of a superpage made of two page blocks is sound: the first `n` pages
belong to the header in slot 1 and the other pages to the header in slot `n + 1`. -/
theorem sp_inv_two_blocks (s : State) (sph n sp : Nat) (hn : 1 ≤ n) (hn2 : n < SUPERPAGE_LEN)
    (h2 : sph % 2 = 0) (hsp : (s.sph sph).start_page = sp) (hsp1 : 1 ≤ sp)
    (hsp2 : sp + SUPERPAGE_LEN < 2 ^ PMAP_BITS)
    (h64 : sph + PBH_SIZE * (SUPERPAGE_LEN + 1) < 2 ^ 64)
    (hb1 : pagemap_get_checked s (sp - 1) = 0)
    (hb2 : pagemap_get_checked s (sp + SUPERPAGE_LEN) = 0)
    (a1 : (s.pbh (sph + PBH_SIZE)).start_page = sp)
    (a2 : (s.pbh (sph + PBH_SIZE)).length = n) (a3 : (s.pbh (sph + PBH_SIZE)).index = 1)
    (b1 : (s.pbh (sph + PBH_SIZE * (n + 1))).start_page = sp + n)
    (b2 : (s.pbh (sph + PBH_SIZE * (n + 1))).length = SUPERPAGE_LEN - n)
    (b3 : (s.pbh (sph + PBH_SIZE * (n + 1))).index = n + 1)
    (hpt : ∀ o, o < SUPERPAGE_LEN → pagemap_get_checked s (sp + o) =
      if o < n then sph + PBH_SIZE else sph + PBH_SIZE * (n + 1)) :
    sp_inv s sph ∧ hdr_ok s sph (sph + PBH_SIZE) ∧ hdr_ok s sph (sph + PBH_SIZE * (n + 1)) := by
  have h63 : SUPERPAGE_LEN = 63 := rfl
  refine sp_inv_carve s s sph n hn hn2 h2 (by rw [hsp]; exact hsp1) (by rw [hsp]; exact hsp2) h64
    (by rw [hsp]; exact hb1) (Or.inl (by rw [hsp]; exact hb2)) rfl (by rw [hsp]; exact a1) a2 a3
    (by rw [hsp]; exact b1) b2 b3 (fun q => ?_)
  rw [hsp]
  by_cases c1 : sp + n ≤ q ∧ q < sp + SUPERPAGE_LEN
  · rw [if_pos c1]
    have e : sp + (q - sp) = q := by omega
    have h := hpt (q - sp) (by omega)
    rw [e, if_neg (by omega)] at h
    exact h
  · rw [if_neg c1]
    by_cases c2 : sp ≤ q ∧ q < sp + n
    · rw [if_pos c2]
      have e : sp + (q - sp) = q := by omega
      have h := hpt (q - sp) (by omega)
      rw [e, if_pos (by omega)] at h
      exact h
    · rw [if_neg c2]

/-! ## The layout of the fixture `carved_heap` -/

set_option maxRecDepth 100000 in
theorem carved_heap_sp_inv : sp_inv carved_heap.2 0x11001000 :=
  (sp_inv_two_blocks carved_heap.2 0x11001000 8 0x11002 (by decide) (by decide) (by decide)
    (by decide!) (by decide) (by decide) (by decide) (by decide!) (by decide!) (by decide!)
    (by decide!) (by decide!) (by decide!) (by decide!) (by decide!) (by decide!)).1

set_option maxRecDepth 100000 in
theorem carved_heap_facts :
    carved_heap.2.cfg.MALLOC_USE_PAGEMAP_CACHE = false ∧
    (carved_heap.2.sph 0x11001000).start_page = 0x11002 ∧
    pagemap_get_checked carved_heap.2 0x11002 = 0x11001040 ∧
    pagemap_get_checked carved_heap.2 (0x11002 + 8) = 0x11001240 ∧
    (carved_heap.2.pbh 0x11001040).length = 8 ∧
    (carved_heap.2.pbh 0x11001240).length = 55 ∧
    (carved_heap.2.pbh 0x11001040).start_page = 0x11002 ∧
    (carved_heap.2.pbh 0x11001240).start_page = 0x1100A ∧
    (carved_heap.2.pbh 0x11001040).status = PBH_IN_USE ∧
    (carved_heap.2.pbh 0x11001240).status = PBH_ON_FREE_LIST := by
  refine ⟨by decide!, by decide!, by decide!, by decide!, by decide!, by decide!, by decide!,
    by decide!, by decide!, by decide!⟩

theorem carved_heap_pagemap :
    carved_heap.2.pm_node = upd (fun _ => 0) 0 0x12001000 ∧
    carved_heap.2.pm_leaf 0x12001000 = upd (fun _ => 0) 0 0x13001000 :=
  ⟨rfl, rfl⟩

/-- The fixture `carved_heap`: the superpage `0x11001000` has a sound layout with the
page blocks `0x11001040` (8 pages, in use) and `0x11001240` (55 pages, free). -/
theorem carved_heap_layout :
    sp_inv carved_heap.2 0x11001000 ∧ hdr_ok carved_heap.2 0x11001000 0x11001040 ∧
    hdr_ok carved_heap.2 0x11001000 0x11001240 ∧ cache_ok carved_heap.2 0 ∧
    pm_inj carved_heap.2 := by
  obtain ⟨hcfg, hsp, e1, e2, _⟩ := carved_heap_facts
  have hi := carved_heap_sp_inv
  have h1 := (sp_inv_page carved_heap.2 0x11001000 hi 0x11002 (by rw [hsp]) (by rw [hsp]; decide)).1
  have h2 := (sp_inv_page carved_heap.2 0x11001000 hi (0x11002 + 8) (by rw [hsp]; decide)
    (by rw [hsp]; decide)).1
  rw [e1] at h1
  rw [e2] at h2
  exact ⟨hi, h1, h2, fun h => absurd h (by rw [hcfg]; decide),
    (pm_single carved_heap.2 0x12001000 0x13001000 (by decide) (by decide)
      carved_heap_pagemap.1 carved_heap_pagemap.2).1⟩

/-- C29: for a page block `X` of a superpage whose page blocks tile its 63 pages
(`sp_inv`), the neighbours that `pb_coalesce` and `sph_coalesce_pbs` look up are in
the same superpage. The entry of page `start_page - 1` is never tagged, so the
assertion on it holds; it is `NULL` for the first page block, where the page is the
header page, and otherwise a page block of the same superpage that ends where `X`
starts. The entry of page `start_page + length` is `NULL` or tagged for the last
page block, and otherwise a page block of the same superpage that starts where `X`
ends. Hence when `pb_coalesce` returns the header `M`, and in the state that
`sph_coalesce_pbs` always returns, the merged header `M` is a page block of the
superpage whose new length is the sum of the merged lengths without `uint8_t`
wrap, at most `SUPERPAGE_LEN`, with all its pages inside the superpage. -/
theorem coalesce_within_superpage (s : State) (t sph X : Nat) (hi : sp_inv s sph)
    (hX : hdr_ok s sph X) (hc : cache_ok s t) (hinj : pm_inj s) :
    (pagemap_get_checked s (sub64 (s.pbh X).start_page 1) &&& HUGE_MALLOC_MARK = 0 ∧
      ((s.pbh X).start_page = (s.sph sph).start_page →
        pagemap_get_checked s (sub64 (s.pbh X).start_page 1) = 0) ∧
      (pagemap_get_checked s (sub64 (s.pbh X).start_page 1) ≠ 0 →
        hdr_ok s sph (pagemap_get_checked s (sub64 (s.pbh X).start_page 1)) ∧
        pagemap_get_checked s (sub64 (s.pbh X).start_page 1) ≠ X ∧
        (s.pbh (pagemap_get_checked s (sub64 (s.pbh X).start_page 1))).start_page +
          (s.pbh (pagemap_get_checked s (sub64 (s.pbh X).start_page 1))).length =
          (s.pbh X).start_page) ∧
      ((s.pbh X).start_page + (s.pbh X).length = (s.sph sph).start_page + SUPERPAGE_LEN →
        pagemap_get_checked s (u64 ((s.pbh X).start_page + (s.pbh X).length)) = 0 ∨
        pagemap_get_checked s (u64 ((s.pbh X).start_page + (s.pbh X).length)) &&&
          HUGE_MALLOC_MARK ≠ 0) ∧
      (pagemap_get_checked s (u64 ((s.pbh X).start_page + (s.pbh X).length)) ≠ 0 →
        pagemap_get_checked s (u64 ((s.pbh X).start_page + (s.pbh X).length)) &&&
          HUGE_MALLOC_MARK = 0 →
        hdr_ok s sph (pagemap_get_checked s (u64 ((s.pbh X).start_page + (s.pbh X).length))) ∧
        pagemap_get_checked s (u64 ((s.pbh X).start_page + (s.pbh X).length)) ≠ X ∧
        (s.pbh (pagemap_get_checked s
          (u64 ((s.pbh X).start_page + (s.pbh X).length)))).start_page
          = (s.pbh X).start_page + (s.pbh X).length)) ∧
    (∀ M s1, pb_coalesce s t X = some (M, s1) →
      hdr_ok s sph M ∧ (s.pbh M).length ≤ (s1.pbh M).length ∧
      (s1.pbh M).length ≤ SUPERPAGE_LEN ∧ (s1.pbh M).start_page = (s.pbh M).start_page ∧
      (s.sph sph).start_page ≤ (s1.pbh M).start_page ∧
      (s1.pbh M).start_page + (s1.pbh M).length ≤ (s.sph sph).start_page + SUPERPAGE_LEN ∧
      ∀ x, x ≠ M → (s1.pbh x).length = (s.pbh x).length) ∧
    (∃ s1 M, sph_coalesce_pbs s t X = some s1 ∧
      hdr_ok s sph M ∧ (s.pbh M).length ≤ (s1.pbh M).length ∧
      (s1.pbh M).length ≤ SUPERPAGE_LEN ∧ (s1.pbh M).start_page = (s.pbh M).start_page ∧
      (s.sph sph).start_page ≤ (s1.pbh M).start_page ∧
      (s1.pbh M).start_page + (s1.pbh M).length ≤ (s.sph sph).start_page + SUPERPAGE_LEN ∧
      ∀ x, x ≠ M → (s1.pbh x).length = (s.pbh x).length) := by
  refine ⟨sp_inv_neighbours s sph X hi hX, fun M s1 h => ?_, ?_⟩
  · obtain ⟨l2, hM, hend, _, _, _, _, hstep, hlen, _⟩ := pb_coalesce_spec s s1 t sph X M hi hX hc hinj h
    have hM' := hM
    obtain ⟨m1, _⟩ := hM'
    have hst := (hstep.1 M).1
    refine ⟨hM, by omega, by omega, hst, by omega, by omega, fun x hx => (hstep.1 x).2.2.2 hx⟩
  · obtain ⟨s1, M, l2, h, hM, hend, hstep, hlen, _⟩ := sph_coalesce_pbs_spec s t sph X hi hX hc hinj
    have hM' := hM
    obtain ⟨m1, _⟩ := hM'
    have hst := (hstep.1 M).1
    exact ⟨s1, M, h, hM, by omega, by omega, hst, by omega, by omega,
      fun x hx => (hstep.1 x).2.2.2 hx⟩

theorem coalesce_within_superpage_witness :
    (pagemap_get_checked carved_heap.2
        (sub64 (carved_heap.2.pbh 0x11001040).start_page 1) &&& HUGE_MALLOC_MARK = 0) ∧
    ∃ s1 M, sph_coalesce_pbs carved_heap.2 0 0x11001040 = some s1 ∧
      hdr_ok carved_heap.2 0x11001000 M ∧
      (carved_heap.2.pbh M).length ≤ (s1.pbh M).length ∧
      (s1.pbh M).length ≤ SUPERPAGE_LEN ∧
      (s1.pbh M).start_page = (carved_heap.2.pbh M).start_page ∧
      (carved_heap.2.sph 0x11001000).start_page ≤ (s1.pbh M).start_page ∧
      (s1.pbh M).start_page + (s1.pbh M).length ≤
        (carved_heap.2.sph 0x11001000).start_page + SUPERPAGE_LEN ∧
      ∀ x, x ≠ M → (s1.pbh x).length = (carved_heap.2.pbh x).length :=
  ⟨(coalesce_within_superpage carved_heap.2 0 0x11001000 0x11001040 carved_heap_layout.1
      carved_heap_layout.2.1 carved_heap_layout.2.2.2.1 carved_heap_layout.2.2.2.2).1.1,
    (coalesce_within_superpage carved_heap.2 0 0x11001000 0x11001040 carved_heap_layout.1
      carved_heap_layout.2.1 carved_heap_layout.2.2.2.1 carved_heap_layout.2.2.2.2).2.2⟩

/-! ## C21: what `pb_free` merges -/

/-- The result of `pb_coalesce(tlh, X)` on a page block of a superpage with a sound
layout, when it returns: the merged header is the free page block before `X`, or
`X`; its length is the sum of the lengths of `X` and of its free neighbours; and
every free neighbour has been taken from `free_pb_list[its length - 1]` by
`pbh_list_remove`. -/
theorem pb_coalesce_exact (s s1 : State) (t sph X M : Nat) (hi : sp_inv s sph)
    (hX : hdr_ok s sph X) (hc : cache_ok s t) (hinj : pm_inj s)
    (h : pb_coalesce s t X = some (M, s1)) :
    M = merged_hdr s X ∧ (s1.pbh M).length = merged_len s X ∧
    (is_free_pb s (pb_prev s X) →
      ∃ sa, pbh_list_remove s t (.free_pb ((s.pbh (pb_prev s X)).length - 1)) (pb_prev s X) =
          some sa ∧
        (is_free_pb s (pb_next s X) →
          ∃ sc, pbh_list_remove (pbh_add_length sa (pb_prev s X) (s.pbh X).length) t
            (.free_pb ((s.pbh (pb_next s X)).length - 1)) (pb_next s X) = some sc)) ∧
    (¬ is_free_pb s (pb_prev s X) → is_free_pb s (pb_next s X) →
      ∃ sa, pbh_list_remove s t (.free_pb ((s.pbh (pb_next s X)).length - 1)) (pb_next s X) =
        some sa) := by
  have hi' := hi
  obtain ⟨c1, c2, c3, c4, c5, c6, _⟩ := hi'
  have hX' := hX
  obtain ⟨x1, x2, x3, x4, x5, x6⟩ := hX'
  obtain ⟨hPu, _, hP1, _, hN1⟩ := sp_inv_neighbours s sph X hi hX
  have h63 : SUPERPAGE_LEN = 63 := rfl
  have hpmX : ∀ i, i < (s.pbh X).length → pm_has s ((s.pbh X).start_page + i) :=
    fun i hi2 => sp_inv_pm_has s sph hi _ (by omega) (by omega)
  unfold merged_hdr merged_len is_free_pb pb_prev pb_next
  unfold pb_coalesce at h
  simp only [Option.bind_eq_bind, Option.pure_def] at h
  generalize pagemap_get_checked s (sub64 (s.pbh X).start_page 1) = P at h hPu hP1 ⊢
  generalize pagemap_get_checked s (u64 ((s.pbh X).start_page + (s.pbh X).length)) = Nv
    at h hN1 ⊢
  have hNfacts : (if Nv &&& HUGE_MALLOC_MARK ≠ 0 then 0 else Nv) ≠ 0 →
      hdr_ok s sph (if Nv &&& HUGE_MALLOC_MARK ≠ 0 then 0 else Nv) ∧
      (if Nv &&& HUGE_MALLOC_MARK ≠ 0 then 0 else Nv) ≠ X ∧
      (s.pbh (if Nv &&& HUGE_MALLOC_MARK ≠ 0 then 0 else Nv)).start_page =
        (s.pbh X).start_page + (s.pbh X).length := by
    by_cases e : Nv &&& HUGE_MALLOC_MARK ≠ 0
    · rw [if_pos e]; intro h; exact absurd rfl h
    · rw [if_neg e]; intro h; exact hN1 h (not_not.mp e)
  generalize (if Nv &&& HUGE_MALLOC_MARK ≠ 0 then 0 else Nv) = N at h hNfacts ⊢
  clear hN1
  rw [if_neg (not_not.mpr hPu)] at h
  by_cases hB : P ≠ 0 ∧ (s.pbh P).status = PBH_ON_FREE_LIST
  · rw [if_pos hB] at h
    rw [if_pos hB, if_pos hB]
    obtain ⟨p1, p2, p3⟩ := hP1 hB.1
    have p1' := p1
    obtain ⟨q1, q2, q3, q4, q5, q6⟩ := p1'
    simp only [Option.bind_eq_some] at h
    obtain ⟨r, hr, sa, hrm, h⟩ := h
    have hr' : r = .free_pb ((s.pbh P).length - 1) := by
      unfold free_pb_ref at hr
      split_ifs at hr
      exact (Option.some.inj hr).symm
    rw [hr'] at hrm
    obtain ⟨ka, la, _⟩ := hdr_step_of_no_links s sa t P (pbh_list_remove_no_links s sa t _ P hrm)
    have hlenX : (sa.pbh X).length = (s.pbh X).length := la X
    rw [hlenX] at h
    obtain ⟨kb, lb, _⟩ := hdr_step_add_length sa t P (s.pbh X).length (by rw [la P]; omega)
    rw [la P] at lb
    have kab := hdr_step_trans ka kb
    have hcb : cache_ok (pbh_add_length sa P (s.pbh X).length) t := kab.2.2.2.2.2 hc
    generalize hsb : pbh_add_length sa P (s.pbh X).length = sb at h kb lb kab hcb
    by_cases hD : (sb.pbh P).length = SUPERPAGE_LEN
    · rw [if_pos hD] at h
      simp only [Option.some.injEq, Prod.mk.injEq] at h
      obtain ⟨hM, hs1⟩ := h
      subst hM
      subst hs1
      have hNn : ¬ (N ≠ 0 ∧ (s.pbh N).status = PBH_ON_FREE_LIST) := by
        intro hn
        obtain ⟨n1, _, n3⟩ := hNfacts hn.1
        obtain ⟨_, m2, m3, _⟩ := n1
        rw [lb] at hD
        omega
      rw [if_neg hNn]
      refine ⟨rfl, by rw [lb]; omega, fun _ => ⟨sa, hrm, fun hn => absurd hn hNn⟩,
        fun hn => absurd hB hn⟩
    rw [if_neg hD] at h
    by_cases hE : N ≠ 0 ∧ (sb.pbh N).status = PBH_ON_FREE_LIST
    · rw [if_pos hE] at h
      obtain ⟨n1, n2, n3⟩ := hNfacts hE.1
      have n1' := n1
      obtain ⟨m1, m2, m3, m4, m5, m6⟩ := n1'
      have hNP : N ≠ P := by
        intro e
        rw [e] at n3
        omega
      have hstN : (s.pbh N).status = PBH_ON_FREE_LIST := by
        rw [← hE.2]
        exact ((kab.1 N).2.2.1).symm
      have hlenN : (sb.pbh N).length = (s.pbh N).length := (kab.1 N).2.2.2 hNP
      have hrm2 : ∃ sc, pbh_list_remove sb t (.free_pb ((s.pbh N).length - 1)) N = some sc := by
        have h' := h
        simp only [Option.bind_eq_some] at h'
        obtain ⟨r2, hr2, sc, hsc, _⟩ := h'
        have : r2 = .free_pb ((s.pbh N).length - 1) := by
          unfold free_pb_ref at hr2
          split_ifs at hr2
          rw [← hlenN]
          exact (Option.some.inj hr2).symm
        rw [this] at hsc
        exact ⟨sc, hsc⟩
      obtain ⟨hM, _, lbs, _, _⟩ := pb_coalesce_both_tail sb s1 t P N X M h
        (by rw [lb, hlenN]; omega) (Ne.symm p2)
        (fun i hi2 => (hdr_step_pm s sb t P kab).1 _ (by
          rw [(kab.1 N).1]
          exact sp_inv_pm_has s sph hi _ (by omega) (by rw [hlenN] at hi2; omega)))
        (fun i hi2 => (hdr_step_pm s sb t P kab).1 _ (by
          rw [(kab.1 X).1]
          exact hpmX i (by rw [← (kab.1 X).2.2.2 (Ne.symm p2)]; exact hi2)))
        hcb ((hdr_step_pm s sb t P kab).2 hinj)
      rw [if_pos ⟨hE.1, hstN⟩, hM]
      refine ⟨rfl, by rw [lbs, lb, hlenN], fun _ => ⟨sa, hrm, fun _ => ?_⟩,
        fun hn => absurd hB hn⟩
      rw [hsb]
      exact hrm2
    · rw [if_neg hE] at h
      simp only [Option.bind_eq_some] at h
      obtain ⟨se, hse, h⟩ := h
      simp only [Option.some.injEq, Prod.mk.injEq] at h
      obtain ⟨hM, hs1⟩ := h
      subst hM
      subst hs1
      have hNn : ¬ (N ≠ 0 ∧ (s.pbh N).status = PBH_ON_FREE_LIST) := by
        intro hn
        exact hE ⟨hn.1, ((kab.1 N).2.2.1).trans hn.2⟩
      have hstXb : (sb.pbh X).start_page = (s.pbh X).start_page := (kab.1 X).1
      have hlenXb : (sb.pbh X).length = (s.pbh X).length := (kab.1 X).2.2.2 (Ne.symm p2)
      rw [hstXb, hlenXb] at hse
      obtain ⟨_, le, _, _⟩ := hdr_step_set_range sb se t P _ _ _ hse
        (fun i hi2 => (hdr_step_pm s sb t P kab).1 _ (hpmX i hi2)) hcb
        ((hdr_step_pm s sb t P kab).2 hinj)
      rw [if_neg hNn]
      refine ⟨rfl, by rw [le P, lb]; omega, fun _ => ⟨sa, hrm, fun hn => absurd hn hNn⟩,
        fun hn => absurd hB hn⟩
  rw [if_neg hB] at h
  rw [if_neg hB, if_neg hB]
  by_cases hC : N ≠ 0 ∧ (s.pbh N).status = PBH_ON_FREE_LIST
  · rw [if_pos hC] at h
    rw [if_pos hC]
    obtain ⟨n1, n2, n3⟩ := hNfacts hC.1
    have n1' := n1
    obtain ⟨m1, m2, m3, m4, m5, m6⟩ := n1'
    simp only [Option.bind_eq_some] at h
    obtain ⟨r, hr, sa, hrm, h⟩ := h
    have hr' : r = .free_pb ((s.pbh N).length - 1) := by
      unfold free_pb_ref at hr
      split_ifs at hr
      exact (Option.some.inj hr).symm
    rw [hr'] at hrm
    obtain ⟨ka, la, _⟩ := hdr_step_of_no_links s sa t X (pbh_list_remove_no_links s sa t _ N hrm)
    obtain ⟨kb, lb, _⟩ := hdr_step_add_length sa t X (s.pbh N).length (by rw [la X]; omega)
    rw [la X] at lb
    have kab := hdr_step_trans ka kb
    have hcb : cache_ok (pbh_add_length sa X (s.pbh N).length) t := kab.2.2.2.2.2 hc
    generalize hsb : pbh_add_length sa X (s.pbh N).length = sb at h kb lb kab hcb
    by_cases hD : (sb.pbh X).length = SUPERPAGE_LEN
    · rw [if_pos hD] at h
      simp only [Option.some.injEq, Prod.mk.injEq] at h
      obtain ⟨hM, hs1⟩ := h
      subst hM
      subst hs1
      exact ⟨rfl, by rw [lb]; omega, fun hn => absurd hn hB, fun _ _ => ⟨sa, hrm⟩⟩
    · rw [if_neg hD] at h
      simp only [Option.bind_eq_some] at h
      obtain ⟨se, hse, h⟩ := h
      simp only [Option.some.injEq, Prod.mk.injEq] at h
      obtain ⟨hM, hs1⟩ := h
      subst hM
      subst hs1
      have hstNb : (sb.pbh N).start_page = (s.pbh N).start_page := (kab.1 N).1
      rw [hstNb] at hse
      obtain ⟨_, le, _, _⟩ := hdr_step_set_range sb se t X _ _ _ hse
        (fun i hi2 => (hdr_step_pm s sb t X kab).1 _
          (sp_inv_pm_has s sph hi _ (by omega) (by omega))) hcb
        ((hdr_step_pm s sb t X kab).2 hinj)
      exact ⟨rfl, by rw [le X, lb]; omega, fun hn => absurd hn hB, fun _ _ => ⟨sa, hrm⟩⟩
  · rw [if_neg hC] at h
    rw [if_neg hC]
    simp only [Option.some.injEq, Prod.mk.injEq] at h
    obtain ⟨hM, hs1⟩ := h
    subst hM
    subst hs1
    exact ⟨rfl, by omega, fun hn => absurd hn hB, fun _ hn => absurd hn hC⟩

/-- A page block that takes the whole superpage has no neighbour. -/
theorem merged_alone (s : State) (sph X : Nat) (hi : sp_inv s sph) (hX : hdr_ok s sph X)
    (hlen : ¬ (s.pbh X).length < SUPERPAGE_LEN) :
    merged_hdr s X = X ∧ merged_len s X = (s.pbh X).length ∧
    ¬ is_free_pb s (pb_prev s X) ∧ ¬ is_free_pb s (pb_next s X) := by
  obtain ⟨x1, x2, x3, _⟩ := hX
  obtain ⟨_, hP0, _, hN0, _⟩ := sp_inv_neighbours s sph X hi ⟨x1, x2, x3, ‹_›⟩
  have hP : ¬ is_free_pb s (pb_prev s X) := by
    intro hh
    exact hh.1 (hP0 (by omega))
  have hN : ¬ is_free_pb s (pb_next s X) := by
    intro hh
    apply hh.1
    unfold pb_next
    rcases hN0 (by omega) with e | e
    · rw [e]; simp
    · rw [if_pos e]
  unfold merged_hdr merged_len
  rw [if_neg hP, if_neg hP, if_neg hN]
  exact ⟨rfl, by omega, hP, hN⟩

/-- The steps of `pb_free(tlh, X)` on a page block of a superpage with a sound layout,
when it returns: the merge into `merged_hdr`, then the release of the superpage or
the insertion of the merged header into `free_pb_list[merged_len - 1]`. -/
theorem pb_free_exact (s s' : State) (t sph X : Nat) (hi : sp_inv s sph) (hX : hdr_ok s sph X)
    (hc : cache_ok s t) (hinj : pm_inj s) (h : pb_free s t X = some s') :
    ∃ s1 l2, coalesced s s1 t sph X (merged_hdr s X) l2 ∧
      (s.pbh (merged_hdr s X)).length + l2 = merged_len s X ∧
      ((s.pbh X).length < SUPERPAGE_LEN → pb_coalesce s t X = some (merged_hdr s X, s1)) ∧
      ((merged_len s X = SUPERPAGE_LEN ∧ sph_free s1 t sph = some s') ∨
       (merged_len s X ≠ SUPERPAGE_LEN ∧
          pbh_list_prepend (pbh_field_init s1 (merged_hdr s X)) t
            (.free_pb (merged_len s X - 1)) (merged_hdr s X) = some s')) := by
  unfold pb_free at h
  simp only [Option.bind_eq_bind, Option.pure_def] at h
  by_cases h0 : ¬ (s.pbh X).length ≤ SUPERPAGE_LEN
  · rw [if_pos h0] at h
    exact absurd h (by simp)
  rw [if_neg h0] at h
  simp only [Option.bind_eq_some] at h
  obtain ⟨⟨M, s1⟩, hco, h⟩ := h
  have key : ∃ l2, coalesced s s1 t sph X M l2 ∧ M = merged_hdr s X ∧
      (s1.pbh M).length = merged_len s X ∧
      ((s.pbh X).length < SUPERPAGE_LEN → pb_coalesce s t X = some (M, s1)) := by
    by_cases hlt : (s.pbh X).length < SUPERPAGE_LEN
    · rw [if_pos hlt] at hco
      obtain ⟨l2, hk⟩ := pb_coalesce_spec s s1 t sph X M hi hX hc hinj hco
      obtain ⟨e1, e2, _⟩ := pb_coalesce_exact s s1 t sph X M hi hX hc hinj hco
      exact ⟨l2, hk, e1, e2, fun _ => hco⟩
    · rw [if_neg hlt] at hco
      simp only [Option.some.injEq, Prod.mk.injEq] at hco
      obtain ⟨hM, hs1⟩ := hco
      subst hM
      subst hs1
      obtain ⟨e1, e2, _, _⟩ := merged_alone s sph X hi hX hlt
      refine ⟨0, ⟨hX, by have := hX.2.2.1; omega, le_refl _, by omega, Or.inl rfl,
        fun r r1 r2 => by omega, hdr_step_refl _ _ _, rfl, hc, fun q => ?_⟩, e1.symm, e2.symm,
        fun hh => absurd hh hlt⟩
      rw [if_neg (by omega)]
  obtain ⟨l2, hk, hM, hL, hco2⟩ := key
  subst hM
  have hk' := hk
  obtain ⟨k1, _, _, _, _, _, k7, k8, _, _⟩ := hk'
  refine ⟨s1, l2, hk, by rw [← k8, hL], hco2, ?_⟩
  simp only [] at h
  by_cases hD : (s1.pbh (merged_hdr s X)).length = SUPERPAGE_LEN
  · rw [if_pos hD] at h
    left
    rw [hdr_ok_superpage s s1 sph _ k1 hi.2.2.2.1 (k7.1 _).2.1] at h
    rw [hL] at hD
    exact ⟨hD, h⟩
  · rw [if_neg hD] at h
    right
    simp only [Option.bind_eq_some] at h
    obtain ⟨r, hr, h⟩ := h
    have hfl : ((pbh_field_init s1 (merged_hdr s X)).pbh (merged_hdr s X)).length =
        merged_len s X := by
      rw [← hL]
      simp [pbh_field_init, set_pbh, upd]
    rw [hfl] at hr
    have hr' : r = .free_pb (merged_len s X - 1) := by
      unfold free_pb_ref at hr
      split_ifs at hr
      exact (Option.some.inj hr).symm
    rw [hr'] at h
    rw [hL] at hD
    exact ⟨hD, h⟩

theorem pbh_data_counts (h h' : pbh_t) (e : pbh_data h' = pbh_data h) :
    h'.status = h.status ∧ h'.cnt_free = h.cnt_free ∧ h'.cnt_unused = h.cnt_unused ∧
    h'.remote_cnt = h.remote_cnt := by
  have key : ∀ {β : Type} (f : pbh_t → β), f (pbh_data h') = f (pbh_data h) :=
    fun f => congrArg f e
  exact ⟨key pbh_t.status, key pbh_t.cnt_free, key pbh_t.cnt_unused, key pbh_t.remote_cnt⟩


/-- The effect of `pb_free(tlh, X)` on a page block of a superpage with a sound layout,
when it returns: what is merged, what is taken from the free page block lists, and
the release of the superpage or the insertion of the merged header. -/
theorem pb_free_effect (s s' : State) (t sph X : Nat) (hi : sp_inv s sph)
    (hX : hdr_ok s sph X) (hc : cache_ok s t) (hinj : pm_inj s)
    (h : pb_free s t X = some s') :
    1 ≤ merged_len s X ∧ merged_len s X ≤ SUPERPAGE_LEN ∧
    (is_free_pb s (pb_prev s X) →
      hdr_ok s sph (pb_prev s X) ∧
      (s.pbh (pb_prev s X)).start_page + (s.pbh (pb_prev s X)).length = (s.pbh X).start_page ∧
      ∃ sa, pbh_list_remove s t (.free_pb ((s.pbh (pb_prev s X)).length - 1)) (pb_prev s X) =
          some sa ∧
        (is_free_pb s (pb_next s X) →
          ∃ sc, pbh_list_remove (pbh_add_length sa (pb_prev s X) (s.pbh X).length) t
            (.free_pb ((s.pbh (pb_next s X)).length - 1)) (pb_next s X) = some sc)) ∧
    (is_free_pb s (pb_next s X) →
      hdr_ok s sph (pb_next s X) ∧
      (s.pbh (pb_next s X)).start_page = (s.pbh X).start_page + (s.pbh X).length ∧
      (¬ is_free_pb s (pb_prev s X) →
        ∃ sa, pbh_list_remove s t (.free_pb ((s.pbh (pb_next s X)).length - 1)) (pb_next s X) =
          some sa)) ∧
    (s.pbh (merged_hdr s X)).start_page + merged_len s X =
      (s.pbh X).start_page + (s.pbh X).length +
        (if is_free_pb s (pb_next s X) then (s.pbh (pb_next s X)).length else 0) ∧
    (merged_len s X = SUPERPAGE_LEN →
      ∃ s1, (s1.pbh (merged_hdr s X)).length = SUPERPAGE_LEN ∧ sph_free s1 t sph = some s') ∧
    (merged_len s X ≠ SUPERPAGE_LEN →
      (s'.pbh (merged_hdr s X)).status = PBH_ON_FREE_LIST ∧
      (s'.pbh (merged_hdr s X)).cnt_free = 0 ∧ (s'.pbh (merged_hdr s X)).cnt_unused = 0 ∧
      (s'.pbh (merged_hdr s X)).remote_cnt = 0 ∧
      (s'.pbh (merged_hdr s X)).start_page = (s.pbh (merged_hdr s X)).start_page ∧
      (s'.pbh (merged_hdr s X)).length = merged_len s X ∧
      merged_len s X - 1 < NUM_PAGE_CLASSES ∧
      (s'.thr t).free_pb_list (merged_len s X - 1) = merged_hdr s X ∧
      (∀ q, (s.pbh (merged_hdr s X)).start_page ≤ q →
        q < (s.pbh (merged_hdr s X)).start_page + merged_len s X →
        pagemap_get_checked s' q = merged_hdr s X) ∧
      sp_inv s' sph) := by
  have h63 : SUPERPAGE_LEN = 63 := rfl
  have h62 : NUM_PAGE_CLASSES = 62 := rfl
  have hX' := hX
  obtain ⟨x1, x2, x3, x4, x5, x6⟩ := hX'
  obtain ⟨hPu, hP0, hP1, hN0, hN1⟩ := sp_inv_neighbours s sph X hi hX
  obtain ⟨s1, l2, hk, hL, hco, hrest⟩ := pb_free_exact s s' t sph X hi hX hc hinj h
  have hk' := hk
  obtain ⟨k1, k2, k3, k4, k5, k6, k7, k8, k9, k10⟩ := hk'
  have k1' := k1
  obtain ⟨m1, m2, m3, m4, m5, m6⟩ := k1'
  -- the page block after `X`
  have hNf : is_free_pb s (pb_next s X) → hdr_ok s sph (pb_next s X) ∧
      (s.pbh (pb_next s X)).start_page = (s.pbh X).start_page + (s.pbh X).length := by
    intro hn
    have hn0 := hn.1
    unfold pb_next at hn0 ⊢
    by_cases e : pagemap_get_checked s (u64 ((s.pbh X).start_page + (s.pbh X).length)) &&&
        HUGE_MALLOC_MARK ≠ 0
    · rw [if_pos e] at hn0
      exact absurd rfl hn0
    · rw [if_neg e] at hn0 ⊢
      obtain ⟨a, _, b⟩ := hN1 hn0 (not_not.mp e)
      exact ⟨a, b⟩
  have hPf : is_free_pb s (pb_prev s X) → hdr_ok s sph (pb_prev s X) ∧
      (s.pbh (pb_prev s X)).start_page + (s.pbh (pb_prev s X)).length =
        (s.pbh X).start_page := by
    intro hp
    obtain ⟨a, _, b⟩ := hP1 hp.1
    exact ⟨a, b⟩
  have hlt : is_free_pb s (pb_prev s X) ∨ is_free_pb s (pb_next s X) →
      (s.pbh X).length < SUPERPAGE_LEN := by
    intro hh
    by_contra hge
    obtain ⟨_, _, a, b⟩ := merged_alone s sph X hi hX hge
    exact hh.elim a b
  have hstart : (s.pbh (merged_hdr s X)).start_page + merged_len s X =
      (s.pbh X).start_page + (s.pbh X).length +
        (if is_free_pb s (pb_next s X) then (s.pbh (pb_next s X)).length else 0) := by
    unfold merged_hdr merged_len
    by_cases hp : is_free_pb s (pb_prev s X)
    · rw [if_pos hp, if_pos hp]
      have := (hPf hp).2
      omega
    · rw [if_neg hp, if_neg hp]
      omega
  have hle : merged_len s X ≤ SUPERPAGE_LEN := by omega
  have hge : 1 ≤ merged_len s X := by omega
  refine ⟨hge, hle, fun hp => ?_, fun hn => ?_, hstart, fun hr => ?_, fun hr => ?_⟩
  · obtain ⟨_, _, e3, _⟩ := pb_coalesce_exact s s1 t sph X _ hi hX hc hinj (hco (hlt (Or.inl hp)))
    exact ⟨(hPf hp).1, (hPf hp).2, e3 hp⟩
  · obtain ⟨_, _, _, e4⟩ := pb_coalesce_exact s s1 t sph X _ hi hX hc hinj (hco (hlt (Or.inr hn)))
    exact ⟨(hNf hn).1, (hNf hn).2, fun hp => e4 hp hn⟩
  · rcases hrest with ⟨_, hsf⟩ | ⟨hne, _⟩
    · exact ⟨s1, by rw [k8, hL, hr], hsf⟩
    · exact absurd hr hne
  · rcases hrest with ⟨he, _⟩ | ⟨_, hpp⟩
    · exact absurd he hr
    obtain ⟨kp, lp, pp⟩ := hdr_step_of_no_links _ s' t (merged_hdr s X)
      (pbh_list_prepend_no_links _ s' t _ _ hpp)
    obtain ⟨hd, _⟩ := no_links_fields _ s' (pbh_list_prepend_no_links _ s' t _ _ hpp)
    have hcM := pbh_data_counts _ _ (hd (merged_hdr s X))
    have hfi : ∀ x, ((pbh_field_init s1 (merged_hdr s X)).pbh x).start_page =
          (s1.pbh x).start_page ∧
        ((pbh_field_init s1 (merged_hdr s X)).pbh x).length = (s1.pbh x).length ∧
        ((pbh_field_init s1 (merged_hdr s X)).pbh x).index = (s1.pbh x).index := by
      intro x
      simp only [pbh_field_init, set_pbh, upd]
      by_cases e : x = merged_hdr s X
      · subst e; simp
      · simp [e]
    have hfM : ((pbh_field_init s1 (merged_hdr s X)).pbh (merged_hdr s X)).status =
          PBH_ON_FREE_LIST ∧
        ((pbh_field_init s1 (merged_hdr s X)).pbh (merged_hdr s X)).cnt_free = 0 ∧
        ((pbh_field_init s1 (merged_hdr s X)).pbh (merged_hdr s X)).cnt_unused = 0 ∧
        ((pbh_field_init s1 (merged_hdr s X)).pbh (merged_hdr s X)).remote_cnt = 0 := by
      simp [pbh_field_init, set_pbh, upd]
    have hpm : ∀ q, pagemap_get_checked s' q =
        if (s.pbh (merged_hdr s X)).start_page + (s.pbh (merged_hdr s X)).length ≤ q ∧
          q < (s.pbh (merged_hdr s X)).start_page + (s.pbh (merged_hdr s X)).length + l2
        then merged_hdr s X else pagemap_get_checked s q := by
      intro q
      rw [pp q]
      have : pagemap_get_checked (pbh_field_init s1 (merged_hdr s X)) q =
          pagemap_get_checked s1 q := rfl
      rw [this, k10 q]
      by_cases c : (s.pbh (merged_hdr s X)).start_page + (s.pbh (merged_hdr s X)).length ≤ q ∧
          q < (s.pbh (merged_hdr s X)).start_page + (s.pbh (merged_hdr s X)).length + l2
      · rw [if_pos c, if_pos ⟨by omega, c⟩]
      · rw [if_neg c, if_neg (fun hh => c hh.2)]
    have hdata : ∀ x, (s'.pbh x).start_page = (s.pbh x).start_page ∧
        (s'.pbh x).index = (s.pbh x).index ∧
        (x ≠ merged_hdr s X → (s'.pbh x).length = (s.pbh x).length) := by
      intro x
      obtain ⟨a1, a2, a3, a4⟩ := k7.1 x
      obtain ⟨b1, b2, b3⟩ := hfi x
      obtain ⟨c1, c2, c3, _⟩ := kp.1 x
      exact ⟨c1.trans (b1.trans a1), c2.trans (b3.trans a2),
        fun hx => (lp x).trans (b2.trans (a4 hx))⟩
    have hlenM : (s'.pbh (merged_hdr s X)).length = merged_len s X := by
      rw [lp _, (hfi _).2.1, k8, hL]
    have hhead : (s'.thr t).free_pb_list (merged_len s X - 1) = merged_hdr s X := by
      obtain ⟨s'', e1, e2, _⟩ := pbh_list_prepend_head (pbh_field_init s1 (merged_hdr s X)) t
        (.free_pb (merged_len s X - 1)) (merged_hdr s X)
        (by simp only [pbh_list_ref.valid, decide_eq_true_eq]; omega)
      rw [hpp] at e1
      rw [Option.some.inj e1]
      exact e2
    refine ⟨?_, ?_, ?_, ?_, (hdata _).1, hlenM, by omega, hhead, fun q q1 q2 => ?_, ?_⟩
    · exact hcM.1.trans hfM.1
    · exact hcM.2.1.trans hfM.2.1
    · exact hcM.2.2.1.trans hfM.2.2.1
    · exact hcM.2.2.2.trans hfM.2.2.2
    · rw [hpm q]
      by_cases c : (s.pbh (merged_hdr s X)).start_page + (s.pbh (merged_hdr s X)).length ≤ q
      · rw [if_pos ⟨c, by omega⟩]
      · rw [if_neg (fun hh => c hh.1)]
        have := m6 (q - (s.pbh (merged_hdr s X)).start_page) (by omega)
        rw [show (s.pbh (merged_hdr s X)).start_page +
          (q - (s.pbh (merged_hdr s X)).start_page) = q by omega] at this
        exact this
    · refine sp_inv_merge s s' sph (merged_hdr s X) l2 hi k1 k2 (fun r r1 r2 => (k6 r r1 r2).1) ?_
        (hdata _).1 ?_ (hdata _).2.1
        (fun x hx => ⟨(hdata x).1, (hdata x).2.2 hx, (hdata x).2.1⟩) hpm
      · rw [kp.2.1]
        have : (pbh_field_init s1 (merged_hdr s X)).sph = s1.sph := rfl
        rw [this, k7.2.1]
      · rw [hlenM, hL]

/-- C21: `pb_free(tlh, X)` on a page block `X` of a superpage whose page blocks tile
its pages, when it returns. The neighbours looked up at `start_page - 1` and at
`start_page + length` are adjacent page blocks of the superpage; each of them with
status `ON_FREE_LIST` is taken from `free_pb_list[its length - 1]` by
`pbh_list_remove` and its length is absorbed: the merged header `merged_hdr` is
the free page block before `X`, or `X`, and the merged length `merged_len` is the
sum of the lengths. If the merged length is `SUPERPAGE_LEN`, the superpage is handed
to `sph_free`. Otherwise the merged header has status `ON_FREE_LIST` and zeroed
block counters, starts at the first page of the merged range and has the merged
length, is the first header of `free_pb_list[merged length - 1]`, and every page of
the merged range maps to it in the PageMap; the layout of the superpage is sound
again. -/
theorem pb_free_merges (s s' : State) (t sph X : Nat) (hi : sp_inv s sph)
    (hX : hdr_ok s sph X) (hc : cache_ok s t) (hinj : pm_inj s)
    (h : pb_free s t X = some s') :
    1 ≤ merged_len s X ∧ merged_len s X ≤ SUPERPAGE_LEN ∧
    (is_free_pb s (pb_prev s X) →
      hdr_ok s sph (pb_prev s X) ∧
      (s.pbh (pb_prev s X)).start_page + (s.pbh (pb_prev s X)).length = (s.pbh X).start_page ∧
      ∃ sa, pbh_list_remove s t (.free_pb ((s.pbh (pb_prev s X)).length - 1)) (pb_prev s X) =
          some sa ∧
        (is_free_pb s (pb_next s X) →
          ∃ sc, pbh_list_remove (pbh_add_length sa (pb_prev s X) (s.pbh X).length) t
            (.free_pb ((s.pbh (pb_next s X)).length - 1)) (pb_next s X) = some sc)) ∧
    (is_free_pb s (pb_next s X) →
      hdr_ok s sph (pb_next s X) ∧
      (s.pbh (pb_next s X)).start_page = (s.pbh X).start_page + (s.pbh X).length ∧
      (¬ is_free_pb s (pb_prev s X) →
        ∃ sa, pbh_list_remove s t (.free_pb ((s.pbh (pb_next s X)).length - 1)) (pb_next s X) =
          some sa)) ∧
    (s.pbh (merged_hdr s X)).start_page + merged_len s X =
      (s.pbh X).start_page + (s.pbh X).length +
        (if is_free_pb s (pb_next s X) then (s.pbh (pb_next s X)).length else 0) ∧
    (merged_len s X = SUPERPAGE_LEN →
      ∃ s1, (s1.pbh (merged_hdr s X)).length = SUPERPAGE_LEN ∧ sph_free s1 t sph = some s') ∧
    (merged_len s X ≠ SUPERPAGE_LEN →
      (s'.pbh (merged_hdr s X)).status = PBH_ON_FREE_LIST ∧
      (s'.pbh (merged_hdr s X)).cnt_free = 0 ∧ (s'.pbh (merged_hdr s X)).cnt_unused = 0 ∧
      (s'.pbh (merged_hdr s X)).remote_cnt = 0 ∧
      (s'.pbh (merged_hdr s X)).start_page = (s.pbh (merged_hdr s X)).start_page ∧
      (s'.pbh (merged_hdr s X)).length = merged_len s X ∧
      merged_len s X - 1 < NUM_PAGE_CLASSES ∧
      (s'.thr t).free_pb_list (merged_len s X - 1) = merged_hdr s X ∧
      (∀ q, (s.pbh (merged_hdr s X)).start_page ≤ q →
        q < (s.pbh (merged_hdr s X)).start_page + merged_len s X →
        pagemap_get_checked s' q = merged_hdr s X) ∧
      sp_inv s' sph) :=
  pb_free_effect s s' t sph X hi hX hc hinj h

set_option maxRecDepth 100000 in
theorem carved_heap_freed :
    (pb_free carved_heap.2 0 0x11001040).isSome = true := by
  decide!

theorem pb_free_merges_witness :
    1 ≤ merged_len carved_heap.2 0x11001040 ∧
    merged_len carved_heap.2 0x11001040 ≤ SUPERPAGE_LEN ∧
    (merged_len carved_heap.2 0x11001040 = SUPERPAGE_LEN →
      ∃ s1, (s1.pbh (merged_hdr carved_heap.2 0x11001040)).length = SUPERPAGE_LEN ∧
        sph_free s1 0 0x11001000 =
          some ((pb_free carved_heap.2 0 0x11001040).getD carved_heap.2)) :=
  ⟨(pb_free_merges carved_heap.2 _ 0 0x11001000 0x11001040 carved_heap_layout.1
      carved_heap_layout.2.1 carved_heap_layout.2.2.2.1 carved_heap_layout.2.2.2.2
      (some_getD_of_isSome _ carved_heap.2 carved_heap_freed)).1,
    (pb_free_merges carved_heap.2 _ 0 0x11001000 0x11001040 carved_heap_layout.1
      carved_heap_layout.2.1 carved_heap_layout.2.2.2.1 carved_heap_layout.2.2.2.2
      (some_getD_of_isSome _ carved_heap.2 carved_heap_freed)).2.1,
    (pb_free_merges carved_heap.2 _ 0 0x11001000 0x11001040 carved_heap_layout.1
      carved_heap_layout.2.1 carved_heap_layout.2.2.2.1 carved_heap_layout.2.2.2.2
      (some_getD_of_isSome _ carved_heap.2 carved_heap_freed)).2.2.2.2.2.1⟩

/-! ## C22: the adoption of a superpage -/

/-- A round of the loop of `take_superpage` on a page block of 1 to 62 pages is the
adoption of the page block. -/
theorem take_superpage_round_eq (s : State) (t pbh : Nat)
    (hlen : 1 ≤ (s.pbh pbh).length ∧ (s.pbh pbh).length ≤ NUM_PAGE_CLASSES) :
    (if (s.pbh pbh).status = PBH_ON_FREE_LIST then
        (free_pb_ref (s.pbh pbh).length).bind fun r => pbh_list_prepend s t r pbh
      else if (s.pbh pbh).sizeclass < NUM_CLASSES then
        (get_blocks_for_class (s.pbh pbh).sizeclass).bind fun blocks =>
        if u32 ((s.pbh pbh).cnt_free + (s.pbh pbh).cnt_unused + (s.pbh pbh).remote_cnt) = blocks
        then
          (free_pb_ref (s.pbh pbh).length).bind fun r =>
            pbh_list_prepend (pbh_field_init s pbh) t r pbh
        else pbh_list_prepend s t (.blk (s.pbh pbh).sizeclass) pbh
      else some s) = adopt_pbh s t pbh := by
  have href : free_pb_ref (s.pbh pbh).length = some (.free_pb ((s.pbh pbh).length - 1)) := by
    unfold free_pb_ref
    rw [if_pos hlen]
  unfold adopt_pbh
  rw [href]
  simp only [Option.some_bind]

/-- The adoption of a page block leaves the superpage headers and the superpage
lists alone. -/
theorem adopt_pbh_keeps (s s1 : State) (t pbh : Nat) (h : adopt_pbh s t pbh = some s1) :
    s1.sph = s.sph ∧ ∀ u, (s1.thr u).sp_list = (s.thr u).sp_list ∧
      (s1.thr u).thread_id = (s.thr u).thread_id := by
  have hp : ∀ (sa : State) (r : pbh_list_ref), sa.sph = s.sph →
      (∀ u, (sa.thr u).sp_list = (s.thr u).sp_list ∧
        (sa.thr u).thread_id = (s.thr u).thread_id) →
      pbh_list_prepend sa t r pbh = some s1 →
      s1.sph = s.sph ∧ ∀ u, (s1.thr u).sp_list = (s.thr u).sp_list ∧
        (s1.thr u).thread_id = (s.thr u).thread_id := by
    intro sa r e1 e2 hh
    obtain ⟨_, a, _, _, _, _, _, _, b⟩ :=
      no_links_fields sa s1 (pbh_list_prepend_no_links sa s1 t r pbh hh)
    refine ⟨a.trans e1, fun u => ?_⟩
    obtain ⟨_, _, c, d, _⟩ := tlh_nolists_cache _ _ (b u)
    exact ⟨d.trans (e2 u).1, c.trans (e2 u).2⟩
  unfold adopt_pbh at h
  by_cases h1 : (s.pbh pbh).status = PBH_ON_FREE_LIST
  · rw [if_pos h1] at h
    exact hp s _ rfl (fun _ => ⟨rfl, rfl⟩) h
  · rw [if_neg h1] at h
    by_cases h2 : (s.pbh pbh).sizeclass < NUM_CLASSES
    · rw [if_pos h2] at h
      simp only [Option.bind_eq_some] at h
      obtain ⟨b, _, h⟩ := h
      by_cases h3 : u32 ((s.pbh pbh).cnt_free + (s.pbh pbh).cnt_unused + (s.pbh pbh).remote_cnt) = b
      · rw [if_pos h3] at h
        exact hp (pbh_field_init s pbh) _ rfl (fun _ => ⟨rfl, rfl⟩) h
      · rw [if_neg h3] at h
        exact hp s _ rfl (fun _ => ⟨rfl, rfl⟩) h
    · rw [if_neg h2] at h
      rw [← Option.some.inj h]
      exact ⟨rfl, fun _ => ⟨rfl, rfl⟩⟩

theorem adopt_all_keeps (t : Nat) : ∀ (hs : List Nat) (s s1 : State),
    adopt_all t hs s = some s1 →
    s1.sph = s.sph ∧ ∀ u, (s1.thr u).sp_list = (s.thr u).sp_list ∧
      (s1.thr u).thread_id = (s.thr u).thread_id := by
  intro hs
  induction hs with
  | nil =>
    intro s s1 h
    rw [← Option.some.inj h]
    exact ⟨rfl, fun _ => ⟨rfl, rfl⟩⟩
  | cons x xs ih =>
    intro s s1 h
    simp only [adopt_all, Option.bind_eq_some] at h
    obtain ⟨sa, h1, h2⟩ := h
    obtain ⟨a1, a2⟩ := adopt_pbh_keeps s sa t x h1
    obtain ⟨b1, b2⟩ := ih sa s1 h2
    exact ⟨b1.trans a1, fun u => ⟨(b2 u).1.trans (a2 u).1, (b2 u).2.trans (a2 u).2⟩⟩

/-- The loop of `take_superpage` on a superpage with a sound layout whose first page
block does not take the whole superpage: from any page block boundary the loop
returns, and its result is the adoption of the headers of the walk, one after the
other. -/
theorem take_superpage_loop_eq (s : State) (t sph : Nat) (hi : sp_inv s sph)
    (hfirst : (s.pbh (sph + PBH_SIZE)).length < SUPERPAGE_LEN) :
    ∀ fuel k s1, same_layout s s1 → k ≤ SUPERPAGE_LEN → SUPERPAGE_LEN - k ≤ fuel →
      (k < SUPERPAGE_LEN →
        (s.pbh (pagemap_get_checked s ((s.sph sph).start_page + k))).start_page =
          (s.sph sph).start_page + k) →
      ∃ s2, take_superpage_loop t fuel s1 (sph + PBH_SIZE * (k + 1)) k =
          some (s2, SUPERPAGE_LEN) ∧
        adopt_all t (superpage_headers s fuel (sph + PBH_SIZE * (k + 1)) k) s1 = some s2 ∧
        same_layout s s2 := by
  intro fuel
  induction fuel with
  | zero =>
    intro k s1 hl h1 h2 _
    have : k = SUPERPAGE_LEN := by omega
    subst this
    exact ⟨s1, by simp [take_superpage_loop], rfl, hl⟩
  | succ f ih =>
    intro k s1 hl h1 h2 hb
    rw [take_superpage_loop_succ]
    by_cases hk : k < SUPERPAGE_LEN
    · obtain ⟨_, _, _, b4, b5, b6, b7⟩ := sp_inv_boundary s sph k hi hk (hb hk)
      obtain ⟨e1, e2, e3⟩ := hl.1 (sph + PBH_SIZE * (k + 1))
      have hu1 : u32 (k + 1) = k + 1 := by
        unfold u32
        simp only [SUPERPAGE_LEN, NUM_PAGE_CLASSES] at hk
        omega
      have hu2 : u32 (k + (s.pbh (sph + PBH_SIZE * (k + 1))).length) =
          k + (s.pbh (sph + PBH_SIZE * (k + 1))).length := by
        unfold u32
        simp only [SUPERPAGE_LEN, NUM_PAGE_CLASSES] at b6
        omega
      have hlen : 1 ≤ (s1.pbh (sph + PBH_SIZE * (k + 1))).length ∧
          (s1.pbh (sph + PBH_SIZE * (k + 1))).length ≤ NUM_PAGE_CLASSES := by
        rw [e2]
        refine ⟨b4, ?_⟩
        rcases Nat.eq_zero_or_pos k with h0 | h0
        · subst h0
          rw [show sph + PBH_SIZE * (0 + 1) = sph + PBH_SIZE by simp] at b6 ⊢
          simp only [SUPERPAGE_LEN, NUM_PAGE_CLASSES] at hfirst ⊢
          omega
        · simp only [SUPERPAGE_LEN, NUM_PAGE_CLASSES] at b6 ⊢
          omega
      obtain ⟨s1', hr, hl'⟩ := take_superpage_round s1 t (sph + PBH_SIZE * (k + 1)) hlen
      have hr2 := hr
      rw [take_superpage_round_eq s1 t _ hlen] at hr2
      rw [if_neg (not_not.mpr hk), e2, e3, if_neg (not_not.mpr (by omega)), b5, hu1,
        if_neg (not_not.mpr rfl), hu2]
      rw [e2] at hr
      rw [hr]
      simp only [Option.some_bind]
      obtain ⟨s2, g1, g2, g3⟩ := ih (k + (s.pbh (sph + PBH_SIZE * (k + 1))).length) s1'
        (same_layout_trans hl hl') b6 (by omega) b7
      have haddr : sph + PBH_SIZE * (k + (s.pbh (sph + PBH_SIZE * (k + 1))).length + 1) =
          sph + PBH_SIZE * (k + 1) + PBH_SIZE * (s.pbh (sph + PBH_SIZE * (k + 1))).length := by
        simp only [PBH_SIZE]; omega
      rw [haddr] at g1 g2
      refine ⟨s2, g1, ?_, g3⟩
      simp only [superpage_headers, if_pos hk, adopt_all, hr2, Option.some_bind]
      exact g2
    · have : k = SUPERPAGE_LEN := by omega
      subst this
      rw [if_pos hk]
      refine ⟨s1, rfl, ?_, hl⟩
      simp only [superpage_headers, if_neg hk, adopt_all]

/-- The headers of the walk over a superpage with a sound layout are its page
blocks: each is a page block of the superpage, and the page block of every page
from the boundary on is among them. -/
theorem superpage_headers_spec (s : State) (sph : Nat) (hi : sp_inv s sph) :
    ∀ fuel k, k ≤ SUPERPAGE_LEN → SUPERPAGE_LEN - k ≤ fuel →
      (k < SUPERPAGE_LEN →
        (s.pbh (pagemap_get_checked s ((s.sph sph).start_page + k))).start_page =
          (s.sph sph).start_page + k) →
      (∀ h, h ∈ superpage_headers s fuel (sph + PBH_SIZE * (k + 1)) k → hdr_ok s sph h) ∧
      (∀ o, k ≤ o → o < SUPERPAGE_LEN →
        pagemap_get_checked s ((s.sph sph).start_page + o) ∈
          superpage_headers s fuel (sph + PBH_SIZE * (k + 1)) k) := by
  intro fuel
  induction fuel with
  | zero =>
    intro k h1 h2 _
    refine ⟨fun h hh => ?_, fun o o1 o2 => ?_⟩
    · simp [superpage_headers] at hh
    · omega
  | succ f ih =>
    intro k h1 h2 hb
    by_cases hk : k < SUPERPAGE_LEN
    · obtain ⟨b1, b2, b3, b4, b5, b6, b7⟩ := sp_inv_boundary s sph k hi hk (hb hk)
      obtain ⟨g1, g2⟩ := ih (k + (s.pbh (sph + PBH_SIZE * (k + 1))).length) b6 (by omega) b7
      have haddr : sph + PBH_SIZE * (k + (s.pbh (sph + PBH_SIZE * (k + 1))).length + 1) =
          sph + PBH_SIZE * (k + 1) + PBH_SIZE * (s.pbh (sph + PBH_SIZE * (k + 1))).length := by
        simp only [PBH_SIZE]; omega
      rw [haddr] at g1 g2
      simp only [superpage_headers, if_pos hk, List.mem_cons]
      refine ⟨fun h hh => ?_, fun o o1 o2 => ?_⟩
      · rcases hh with e | e
        · rw [e]; exact b2
        · exact g1 h e
      · by_cases c : o < k + (s.pbh (sph + PBH_SIZE * (k + 1))).length
        · left
          have := b2.2.2.2.2.2 (o - k) (by omega)
          rw [b3, show (s.sph sph).start_page + k + (o - k) = (s.sph sph).start_page + o by
            omega] at this
          exact this
        · right
          exact g2 o (by omega) o2
    · refine ⟨fun h hh => ?_, fun o o1 o2 => ?_⟩
      · simp [superpage_headers, hk] at hh
      · omega

theorem same_layout_set_sph (s : State) (a : Nat) (v : sph_t)
    (h : v.start_page = (s.sph a).start_page) : same_layout s (set_sph s a v) := by
  refine ⟨fun _ => ⟨rfl, rfl, rfl⟩, fun x => ?_, rfl, rfl, rfl⟩
  simp only [set_sph, upd]
  by_cases e : x = a
  · rw [if_pos e, e]; exact h
  · rw [if_neg e]

theorem set_sph_owner (s : State) (a : Nat) (v : sph_t) (h : v.owner_id = (s.sph a).owner_id) :
    ∀ x, ((set_sph s a v).sph x).owner_id = (s.sph x).owner_id := by
  intro x
  simp only [set_sph, upd]
  by_cases e : x = a
  · rw [if_pos e, e]; exact h
  · rw [if_neg e]

/-- The superpage list insertion `sph_list_prepend` makes the superpage the first of
the list and changes no owner and no page block header. -/
theorem sph_list_prepend_owner (s : State) (t sph : Nat) :
    (∀ x, ((sph_list_prepend s t sph).sph x).owner_id = (s.sph x).owner_id) ∧
    ((sph_list_prepend s t sph).thr t).sp_list = sph ∧ (sph_list_prepend s t sph).pbh = s.pbh := by
  unfold sph_list_prepend
  by_cases htop : (s.thr t).sp_list ≠ 0
  · simp only [if_pos htop]
    refine ⟨fun x => ?_, by simp [set_tlh, upd], rfl⟩
    have e1 := set_sph_owner s sph { s.sph sph with next := (s.thr t).sp_list } rfl
    generalize set_sph s sph { s.sph sph with next := (s.thr t).sp_list } = s1 at e1 ⊢
    have e2 := set_sph_owner s1 sph { s1.sph sph with prev := (s1.sph (s.thr t).sp_list).prev } rfl
    generalize set_sph s1 sph { s1.sph sph with prev := (s1.sph (s.thr t).sp_list).prev } = s2
      at e2 ⊢
    have e3 := set_sph_owner s2 (s2.sph (s.thr t).sp_list).prev
      { s2.sph (s2.sph (s.thr t).sp_list).prev with next := sph } rfl
    generalize set_sph s2 (s2.sph (s.thr t).sp_list).prev
      { s2.sph (s2.sph (s.thr t).sp_list).prev with next := sph } = s3 at e3 ⊢
    have e4 := set_sph_owner s3 (s.thr t).sp_list { s3.sph (s.thr t).sp_list with prev := sph } rfl
    exact (e4 x).trans ((e3 x).trans ((e2 x).trans (e1 x)))
  · simp only [if_neg htop]
    refine ⟨fun x => ?_, by simp [set_tlh, upd], rfl⟩
    exact set_sph_owner s sph { s.sph sph with next := sph, prev := sph } rfl x

/-- The adoption of a superpage whose owner is `DEAD_OWNER`: `take_superpage` returns
`true`, as `take_superpage_spec` does, with the same state. -/
theorem take_superpage_dead (s : State) (t sph : Nat) (hi : sp_inv s sph)
    (hfirst : (s.pbh (sph + PBH_SIZE)).length < SUPERPAGE_LEN)
    (hrem : (s.sph sph).remote_pb_list = 0) (hd : (s.sph sph).owner_id = DEAD_OWNER) :
    ∃ s2, take_superpage s t sph = some (true, s2) ∧
      take_superpage_spec s t sph = some (true, s2) ∧
      (s2.sph sph).owner_id = (s.thr t).thread_id ∧ (s2.thr t).sp_list = sph ∧
      ∀ x, (s2.pbh x).start_page = (s.pbh x).start_page ∧
        (s2.pbh x).length = (s.pbh x).length ∧ (s2.pbh x).index = (s.pbh x).index := by
  have hz : sph + PBH_SIZE * (0 + 1) = sph + PBH_SIZE := by simp
  have hl0 : same_layout s (set_sph s sph { s.sph sph with owner_id := (s.thr t).thread_id }) :=
    same_layout_set_sph s sph _ rfl
  obtain ⟨s2, e1, e2, e3⟩ := take_superpage_loop_eq s t sph hi hfirst SUPERPAGE_LEN 0 _ hl0
    (Nat.zero_le _) (le_refl _) (fun _ => sp_inv_boundary_zero s sph hi)
  rw [hz] at e1 e2
  obtain ⟨k1, k2⟩ := adopt_all_keeps t _ _ s2 e2
  have hrem' : ¬ ((set_sph s sph { s.sph sph with owner_id := (s.thr t).thread_id }).sph
      sph).remote_pb_list ≠ 0 := by
    simp only [set_sph, upd, if_true]
    exact not_not.mpr hrem
  refine ⟨sph_list_prepend s2 t sph, ?_, ?_, ?_, ?_, fun x => ?_⟩
  · unfold take_superpage
    rw [if_neg (not_not.mpr hd)]
    simp only []
    rw [if_neg hrem']
    simp only [Option.some_bind, e1]
    rw [if_neg (not_not.mpr rfl)]
  · unfold take_superpage_spec
    rw [if_neg (not_not.mpr hd), e2]
    rfl
  · rw [(sph_list_prepend_owner s2 t sph).1 sph, k1]
    simp [set_sph, upd]
  · exact (sph_list_prepend_owner s2 t sph).2.1
  · rw [(sph_list_prepend_owner s2 t sph).2.2]
    exact e3.1 x

/-- C22: `take_superpage(tlh, sph)` on a superpage whose page blocks tile its pages,
whose first page block does not take all of them and whose remote page block list
is empty. When `owner_id` is not `DEAD_OWNER` the call returns `false` and the
state is unchanged. When it is `DEAD_OWNER` the call returns `true`; it is the
adoption as the specification words it (`take_superpage_spec`): the owner becomes
the thread, each header of the walk is adopted by `adopt_pbh` (free page block on
`free_pb_list[length - 1]`, totally free small page block reset and on
`free_pb_list[length - 1]`, partially used small page block on
`blk_list[sizeclass].pbh_list`, large page block in use untouched), and the
superpage is the first of the superpage list of the thread; no assertion of the
walk fails and no header changes its pages. The headers of the walk are page blocks
of the superpage, and the page block of every page is among them. -/
theorem take_superpage_adopts (s : State) (t sph : Nat) (hi : sp_inv s sph)
    (hfirst : (s.pbh (sph + PBH_SIZE)).length < SUPERPAGE_LEN)
    (hrem : (s.sph sph).remote_pb_list = 0) :
    take_superpage s t sph = take_superpage_spec s t sph ∧
    ((s.sph sph).owner_id ≠ DEAD_OWNER → take_superpage s t sph = some (false, s)) ∧
    ((s.sph sph).owner_id = DEAD_OWNER →
      ∃ s2, take_superpage s t sph = some (true, s2) ∧
        (s2.sph sph).owner_id = (s.thr t).thread_id ∧ (s2.thr t).sp_list = sph ∧
        ∀ x, (s2.pbh x).start_page = (s.pbh x).start_page ∧
          (s2.pbh x).length = (s.pbh x).length ∧ (s2.pbh x).index = (s.pbh x).index) ∧
    (∀ h, h ∈ superpage_headers s SUPERPAGE_LEN (sph + PBH_SIZE) 0 → hdr_ok s sph h) ∧
    (∀ o, o < SUPERPAGE_LEN → pagemap_get_checked s ((s.sph sph).start_page + o) ∈
      superpage_headers s SUPERPAGE_LEN (sph + PBH_SIZE) 0) ∧
    (∀ s1 h, (s1.pbh h).status ≠ PBH_ON_FREE_LIST → ¬ (s1.pbh h).sizeclass < NUM_CLASSES →
      adopt_pbh s1 t h = some s1) := by
  have hz : sph + PBH_SIZE * (0 + 1) = sph + PBH_SIZE := by simp
  obtain ⟨g1, g2⟩ := superpage_headers_spec s sph hi SUPERPAGE_LEN 0 (Nat.zero_le _) (le_refl _)
    (fun _ => sp_inv_boundary_zero s sph hi)
  rw [hz] at g1 g2
  have hdead := take_superpage_dead s t sph hi hfirst hrem
  refine ⟨?_, fun hne => ?_, fun hd => ?_, g1, fun o ho => g2 o (Nat.zero_le _) ho,
    fun s1 h a b => ?_⟩
  · by_cases hd : (s.sph sph).owner_id = DEAD_OWNER
    · obtain ⟨s2, a, b, _⟩ := hdead hd
      rw [a, b]
    · unfold take_superpage take_superpage_spec
      rw [if_pos hd, if_pos hd]
  · unfold take_superpage
    rw [if_pos hne]
  · obtain ⟨s2, a, _, c⟩ := hdead hd
    exact ⟨s2, a, c⟩
  · unfold adopt_pbh
    rw [if_neg a, if_neg b]

theorem orphan_heap_layout : sp_inv orphan_heap 0x11001000 :=
  sp_inv_of_same_layout carved_heap.2 orphan_heap 0x11001000
    (same_layout_set_sph carved_heap.2 0x11001000 _ rfl) carved_heap_layout.1

set_option maxRecDepth 100000 in
theorem orphan_heap_facts :
    (orphan_heap.pbh (0x11001000 + PBH_SIZE)).length < SUPERPAGE_LEN ∧
    (orphan_heap.sph 0x11001000).remote_pb_list = 0 ∧
    (orphan_heap.sph 0x11001000).owner_id = DEAD_OWNER := by
  refine ⟨by decide!, by decide!, by decide!⟩

theorem take_superpage_adopts_witness :
    take_superpage orphan_heap 0 0x11001000 = take_superpage_spec orphan_heap 0 0x11001000 ∧
    ∃ s2, take_superpage orphan_heap 0 0x11001000 = some (true, s2) ∧
      (s2.sph 0x11001000).owner_id = (orphan_heap.thr 0).thread_id ∧
      (s2.thr 0).sp_list = 0x11001000 ∧
      ∀ x, (s2.pbh x).start_page = (orphan_heap.pbh x).start_page ∧
        (s2.pbh x).length = (orphan_heap.pbh x).length ∧
        (s2.pbh x).index = (orphan_heap.pbh x).index :=
  ⟨(take_superpage_adopts orphan_heap 0 0x11001000 orphan_heap_layout orphan_heap_facts.1
      orphan_heap_facts.2.1).1,
    (take_superpage_adopts orphan_heap 0 0x11001000 orphan_heap_layout orphan_heap_facts.1
      orphan_heap_facts.2.1).2.2.1 orphan_heap_facts.2.2⟩

/-! ## The fixture `fresh_heap` -/

set_option maxRecDepth 100000 in
theorem fresh_heap_facts :
    (sph_alloc started_heap 0).isSome = true ∧ fresh_heap.1 = 0x11001000 ∧
    (∀ c, 8 - 1 ≤ c → c < NUM_PAGE_CLASSES → (started_heap.thr 0).free_pb_list c = 0) ∧
    ¬ ((started_heap.thr 0).sp_list ≠ 0 ∧
      (started_heap.sph (started_heap.thr 0).sp_list).remote_pb_list ≠ 0) ∧
    (fresh_heap.2.sph 0x11001000).start_page = 0x11002 ∧
    pagemap_get_checked fresh_heap.2 (0x11002 - 1) = 0 ∧
    pagemap_get_checked fresh_heap.2 (0x11002 + SUPERPAGE_LEN) = 0 ∧
    fresh_heap.2.cfg.MALLOC_USE_PAGEMAP_CACHE = false := by
  refine ⟨by decide!, by decide!, by decide!, by decide!, by decide!, by decide!, by decide!,
    by decide!⟩

theorem fresh_heap_pagemap :
    fresh_heap.2.pm_node = upd (fun _ => 0) 0 0x12001000 ∧
    fresh_heap.2.pm_leaf 0x12001000 = upd (fun _ => 0) 0 0x13001000 :=
  ⟨rfl, rfl⟩

/-- The call `pb_alloc(tlh, 8)` of thread `0` in the started process carves a fresh
superpage. -/
theorem started_fresh_carve : fresh_carve started_heap fresh_heap.2 0 8 0x11001000 := by
  obtain ⟨f1, f2, f3, f4, f5, f6, f7, f8⟩ := fresh_heap_facts
  obtain ⟨hinj, hhas⟩ := pm_single fresh_heap.2 0x12001000 0x13001000 (by decide) (by decide)
    fresh_heap_pagemap.1 fresh_heap_pagemap.2
  have hsa : sph_alloc started_heap 0 = some (0x11001000, fresh_heap.2) := by
    have h := some_getD_of_isSome (sph_alloc started_heap 0)
      (0, State.boot ⟨true, false, false⟩ os_linear) f1
    rw [h]
    show some fresh_heap = _
    rw [← f2]
  refine ⟨by decide, by decide, f3, f4, hsa, by decide, by rw [f5]; decide, by rw [f5]; decide,
    by decide, by rw [f5]; exact f6, Or.inl (by rw [f5]; exact f7),
    fun i hi => hhas _ (by
      rw [f5]
      have h63 : SUPERPAGE_LEN = 63 := rfl
      rw [h63] at hi
      have : (2 : Nat) ^ 18 = 262144 := by norm_num
      omega),
    fun h => absurd h (by rw [f8]; decide), hinj⟩

/-! ## C18: the walk over the headers of a superpage -/

theorem walk_ok_congr (s s' : State)
    (h : ∀ x, (s'.pbh x).length = (s.pbh x).length ∧ (s'.pbh x).index = (s.pbh x).index) :
    ∀ fuel p k, walk_ok s fuel p k → walk_ok s' fuel p k := by
  intro fuel
  induction fuel with
  | zero => intro p k hw; exact hw
  | succ f ih =>
    intro p k hw
    simp only [walk_ok] at hw ⊢
    rcases hw with e | ⟨a, b, c, d, e⟩
    · exact Or.inl e
    · right
      rw [(h p).1, (h p).2]
      exact ⟨a, b, c, d, ih _ _ e⟩

/-- A merge that does not take the whole superpage keeps the layout sound. -/
theorem coalesced_sp_inv (s s1 : State) (t sph X M l2 : Nat) (hi : sp_inv s sph)
    (hk : coalesced s s1 t sph X M l2) (hne : (s.pbh M).length + l2 ≠ SUPERPAGE_LEN) :
    sp_inv s1 sph := by
  obtain ⟨k1, k2, k3, k4, k5, k6, k7, k8, k9, k10⟩ := hk
  refine sp_inv_merge s s1 sph M l2 hi k1 k2 (fun r r1 r2 => (k6 r r1 r2).1) (by rw [k7.2.1])
    (k7.1 M).1 k8 (k7.1 M).2.1 (fun x hx => ⟨(k7.1 x).1, (k7.1 x).2.2.2 hx, (k7.1 x).2.1⟩)
    (fun q => ?_)
  rw [k10 q]
  by_cases c : (s.pbh M).start_page + (s.pbh M).length ≤ q ∧
      q < (s.pbh M).start_page + (s.pbh M).length + l2
  · rw [if_pos c, if_pos ⟨hne, c⟩]
  · rw [if_neg c, if_neg (fun hh => c hh.2)]

/-- The carving of a fresh superpage by `pb_alloc`: the call returns the first header
of the superpage and leaves a sound layout. -/
theorem pb_alloc_carves (s s0 : State) (t n sph : Nat) (h : fresh_carve s s0 t n sph) :
    ∃ s', pb_alloc s t n = some (sph + PBH_SIZE, s') ∧ sp_inv s' sph ∧
      hdr_ok s' sph (sph + PBH_SIZE) ∧ (s'.pbh (sph + PBH_SIZE)).length = n ∧
      (s'.pbh (sph + PBH_SIZE)).status = PBH_IN_USE ∧
      (s'.pbh (sph + PBH_SIZE * (n + 1))).length = SUPERPAGE_LEN - n ∧
      (s'.thr t).free_pb_list (SUPERPAGE_LEN - n - 1) = sph + PBH_SIZE * (n + 1) ∧
      cache_ok s' t ∧ pm_inj s' := by
  obtain ⟨h1, h2, h3, h4, h5, h6, h7, h8, h9, h10, h11, h12, h13, h14⟩ := h
  obtain ⟨s', a1, a2, a3, _, _, _, a7, a8, _, a10, _, a12, _, a14, a15⟩ :=
    pb_alloc_fresh s s0 t n sph h1 h2 h3 h4 h5 h6 h7 h8 h9 h10 h11 h12 h13 h14
  exact ⟨s', a1, a2, a3, a7, a8, a10, a12, a14, a15⟩

/-- C18: in a superpage whose page blocks tile its 63 pages (`sp_inv`), the walk over
the embedded headers from slot 1, advancing by the length of each header, visits
headers of positive length whose `index` is the running total plus 1, and the total
ends at exactly `SUPERPAGE_LEN` (`walk_ok`). The layout holds after `pb_alloc` has
carved a fresh superpage; `pb_split` returns and keeps it; `pb_coalesce` and
`pb_free`, when they return without a merged block of 63 pages, keep it. Hence the
walk of `take_superpage` (dead owner, empty remote page block list, first page block
shorter than the superpage) returns `true` with both assertions holding in every
round, and the sweep of `try_to_free_superpage` ends with
`total_len == SUPERPAGE_LEN`. -/
theorem superpage_walk_invariant (s : State) (t sph : Nat) (hi : sp_inv s sph)
    (hc : cache_ok s t) (hinj : pm_inj s) :
    walk_ok s SUPERPAGE_LEN (sph + PBH_SIZE) 0 ∧
    (∀ sa s0 n sp, fresh_carve sa s0 t n sp →
      ∃ s', pb_alloc sa t n = some (sp + PBH_SIZE, s') ∧ sp_inv s' sp ∧
        walk_ok s' SUPERPAGE_LEN (sp + PBH_SIZE) 0) ∧
    (∀ X n, hdr_ok s sph X → 1 ≤ n → n < (s.pbh X).length →
      ∃ s', pb_split s t X n = some s' ∧ sp_inv s' sph ∧
        walk_ok s' SUPERPAGE_LEN (sph + PBH_SIZE) 0) ∧
    (∀ X M s1, hdr_ok s sph X → pb_coalesce s t X = some (M, s1) →
      (s1.pbh M).length ≠ SUPERPAGE_LEN →
      sp_inv s1 sph ∧ walk_ok s1 SUPERPAGE_LEN (sph + PBH_SIZE) 0) ∧
    (∀ X s', hdr_ok s sph X → pb_free s t X = some s' → merged_len s X ≠ SUPERPAGE_LEN →
      sp_inv s' sph ∧ walk_ok s' SUPERPAGE_LEN (sph + PBH_SIZE) 0) ∧
    ((s.pbh (sph + PBH_SIZE)).length < SUPERPAGE_LEN → (s.sph sph).remote_pb_list = 0 →
      (s.sph sph).owner_id = DEAD_OWNER →
      ∃ s2, take_superpage s t sph = some (true, s2) ∧
        walk_ok s2 SUPERPAGE_LEN (sph + PBH_SIZE) 0) ∧
    (∃ s2 c2, try_to_free_superpage_loop t SUPERPAGE_LEN s (sph + PBH_SIZE) 0 0 0 =
      some (s2, c2, SUPERPAGE_LEN)) := by
  have hz : sph + PBH_SIZE * (0 + 1) = sph + PBH_SIZE := by simp
  refine ⟨sp_inv_walk s sph hi, fun sa s0 n sp hf => ?_, fun X n hX n1 n2 => ?_,
    fun X M s1 hX hco hne => ?_, fun X s' hX h hne => ?_, fun hfirst hrem hd => ?_, ?_⟩
  · obtain ⟨s', a1, a2, _⟩ := pb_alloc_carves sa s0 t n sp hf
    exact ⟨s', a1, a2, sp_inv_walk s' sp a2⟩
  · obtain ⟨s', a1, a2, _⟩ := pb_split_inv s t sph X n hi hX n1 n2 hc hinj
    exact ⟨s', a1, a2, sp_inv_walk s' sph a2⟩
  · obtain ⟨l2, hk⟩ := pb_coalesce_spec s s1 t sph X M hi hX hc hinj hco
    have hi1 := coalesced_sp_inv s s1 t sph X M l2 hi hk (by rw [← hk.2.2.2.2.2.2.2.1]; exact hne)
    exact ⟨hi1, sp_inv_walk s1 sph hi1⟩
  · obtain ⟨_, _, _, _, _, _, g7⟩ := pb_free_effect s s' t sph X hi hX hc hinj h
    have hi1 := (g7 hne).2.2.2.2.2.2.2.2.2
    exact ⟨hi1, sp_inv_walk s' sph hi1⟩
  · obtain ⟨s2, a, _, _, _, e⟩ := take_superpage_dead s t sph hi hfirst hrem hd
    exact ⟨s2, a, walk_ok_congr s s2 (fun x => ⟨(e x).2.1, (e x).2.2⟩) _ _ _ (sp_inv_walk s sph hi)⟩
  · have hsw : sweep_inv s s t sph 0 0 :=
      ⟨fun _ => rfl, fun _ _ => rfl, rfl, rfl, hc, by simp only [PBH_SIZE]; omega⟩
    obtain ⟨s2, c2, e⟩ := try_to_free_superpage_loop_ok s t sph hi hinj SUPERPAGE_LEN 0 s 0 0 hsw
      (Nat.zero_le _) (le_refl _) (fun _ => sp_inv_boundary_zero s sph hi)
    rw [hz] at e
    exact ⟨s2, c2, e⟩

theorem superpage_walk_invariant_witness :
    walk_ok carved_heap.2 SUPERPAGE_LEN (0x11001000 + PBH_SIZE) 0 ∧
    (∃ s', pb_alloc started_heap 0 8 = some (0x11001000 + PBH_SIZE, s') ∧
      sp_inv s' 0x11001000 ∧ walk_ok s' SUPERPAGE_LEN (0x11001000 + PBH_SIZE) 0) ∧
    ∃ s2 c2, try_to_free_superpage_loop 0 SUPERPAGE_LEN carved_heap.2 (0x11001000 + PBH_SIZE)
      0 0 0 = some (s2, c2, SUPERPAGE_LEN) :=
  ⟨(superpage_walk_invariant carved_heap.2 0 0x11001000 carved_heap_layout.1
      carved_heap_layout.2.2.2.1 carved_heap_layout.2.2.2.2).1,
    (superpage_walk_invariant carved_heap.2 0 0x11001000 carved_heap_layout.1
      carved_heap_layout.2.2.2.1 carved_heap_layout.2.2.2.2).2.1 started_heap fresh_heap.2 8
      0x11001000 started_fresh_carve,
    (superpage_walk_invariant carved_heap.2 0 0x11001000 carved_heap_layout.1
      carved_heap_layout.2.2.2.1 carved_heap_layout.2.2.2.2).2.2.2.2.2.2⟩

/-! ## C17: the PageMap entries of live pages -/

theorem same_layout_set_tlh (s : State) (t : Nat) (v : tlh_t) : same_layout s (set_tlh s t v) :=
  ⟨fun _ => ⟨rfl, rfl, rfl⟩, fun _ => rfl, rfl, rfl, rfl⟩

theorem same_layout_set_blk (s : State) (t cl : Nat) (b : blk_list_t) :
    same_layout s (set_blk s t cl b) :=
  same_layout_set_tlh s t _

theorem same_layout_SET_NEXT (s : State) (p n : Nat) : same_layout s (SET_NEXT s p n) :=
  ⟨fun _ => ⟨rfl, rfl, rfl⟩, fun _ => rfl, rfl, rfl, rfl⟩

theorem bump_alloc_loop_layout (size : Nat) : ∀ (n : Nat) (s : State) (fb : Nat),
    same_layout s (bump_alloc_loop size n s fb).1 := by
  intro n
  induction n with
  | zero => intro s fb; exact same_layout_refl s
  | succ k ih =>
    intro s fb
    simp only [bump_alloc_loop]
    exact same_layout_trans (same_layout_SET_NEXT s fb _) (ih _ _)

/-- The call `bump_alloc` changes no page block layout and no PageMap entry. -/
theorem bump_alloc_layout (s s' : State) (t cl size p : Nat)
    (h : bump_alloc s t cl size = some (p, s')) : same_layout s s' := by
  unfold bump_alloc at h
  by_cases h1 : ¬ cl < NUM_CLASSES
  · rw [if_pos h1] at h
    exact absurd h (by simp)
  rw [if_neg h1] at h
  simp only [] at h
  by_cases h2 : size ≤ CACHE_LINE_SIZE / 2
  · rw [if_pos h2] at h
    by_cases h3 : size = 0
    · rw [if_pos h3] at h
      exact absurd h (by simp)
    rw [if_neg h3] at h
    simp only [Option.some.injEq, Prod.mk.injEq] at h
    rw [← h.2]
    exact same_layout_trans (same_layout_trans (bump_alloc_loop_layout size _ s _)
      (same_layout_SET_NEXT _ _ _)) (same_layout_set_blk _ _ _ _)
  · rw [if_neg h2] at h
    simp only [Option.some.injEq, Prod.mk.injEq] at h
    rw [← h.2]
    exact same_layout_set_blk _ _ _ _

theorem pbh_list_append_no_links (s s' : State) (t : Nat) (r : pbh_list_ref) (pbh : Nat)
    (h : pbh_list_append s t r pbh = some s') : no_links s' = no_links s := by
  unfold pbh_list_append at h
  split_ifs at h with h1 h2
  · simp only [Option.some.injEq] at h
    subst h
    rw [no_links_pbh_link_before]
  · simp only [Option.some.injEq] at h
    subst h
    rw [no_links_set_list_head, no_links_pbh_link_init]

/-- The call `small_malloc(cl)`, when it returns, changes no page block layout and no
PageMap entry, apart from what the `pb_alloc` of its last case changes. -/
theorem small_malloc_layout (s s' : State) (t cl p : Nat)
    (h : small_malloc s t cl = some (p, s')) :
    same_layout s s' ∨
    ∃ n pbh s1, get_pages_for_class cl = some n ∧ pb_alloc s t n = some (pbh, s1) ∧
      ((s.thr t).blk_list cl).free_blk_list = 0 ∧ ((s.thr t).blk_list cl).ptr_to_unused = 0 ∧
      same_layout s1 s' := by
  unfold small_malloc at h
  simp only [Option.bind_eq_bind, Option.pure_def] at h
  by_cases h0 : ¬ cl < NUM_CLASSES
  · rw [if_pos h0] at h
    exact absurd h (by simp)
  rw [if_neg h0] at h
  by_cases h1 : ((s.thr t).blk_list cl).free_blk_list ≠ 0
  · rw [if_pos h1] at h
    by_cases h1' : ¬ ((s.thr t).blk_list cl).cnt_free > 0
    · rw [if_pos h1'] at h
      exact absurd h (by simp)
    rw [if_neg h1'] at h
    simp only [Option.some.injEq, Prod.mk.injEq] at h
    rw [← h.2]
    exact Or.inl (same_layout_set_blk _ _ _ _)
  rw [if_neg h1] at h
  simp only [Option.bind_eq_some] at h
  obtain ⟨size, hsize, h⟩ := h
  by_cases h2 : ((s.thr t).blk_list cl).ptr_to_unused ≠ 0
  · rw [if_pos h2] at h
    by_cases h2' : ¬ ((s.thr t).blk_list cl).cnt_unused > 0
    · rw [if_pos h2'] at h
      exact absurd h (by simp)
    rw [if_neg h2'] at h
    exact Or.inl (bump_alloc_layout s s' t cl size p h)
  rw [if_neg h2] at h
  by_cases h3 : ((s.thr t).blk_list cl).pbh_list ≠ 0 ∧
      (s.pbh ((s.thr t).blk_list cl).pbh_list).cnt_free > 0
  · rw [if_pos h3] at h
    by_cases h3' : (s.pbh ((s.thr t).blk_list cl).pbh_list).free_list = 0
    · rw [if_pos h3'] at h
      exact absurd h (by simp)
    rw [if_neg h3'] at h
    simp only [Option.some.injEq, Prod.mk.injEq] at h
    rw [← h.2]
    exact Or.inl (same_layout_trans (same_layout_set_pbh s _ _ (by rfl) (by rfl) (by rfl))
      (same_layout_set_blk _ _ _ _))
  rw [if_neg h3] at h
  by_cases h4 : ((s.thr t).blk_list cl).pbh_list ≠ 0 ∧
      (s.pbh ((s.thr t).blk_list cl).pbh_list).cnt_unused > 0
  · rw [if_pos h4] at h
    by_cases h4' : (s.pbh ((s.thr t).blk_list cl).pbh_list).unallocated = 0
    · rw [if_pos h4'] at h
      exact absurd h (by simp)
    rw [if_neg h4'] at h
    exact Or.inl (same_layout_trans (same_layout_trans (same_layout_set_pbh s _ _ (by rfl) (by rfl) (by rfl))
      (same_layout_set_blk _ _ _ _)) (bump_alloc_layout _ s' t cl size p h))
  rw [if_neg h4] at h
  by_cases h5 : ((s.thr t).blk_list cl).pbh_list ≠ 0 ∧
      (s.pbh ((s.thr t).blk_list cl).pbh_list).remote_cnt > 0
  · rw [if_pos h5] at h
    simp only [Option.some.injEq, Prod.mk.injEq] at h
    rw [← h.2]
    exact Or.inl (same_layout_trans (same_layout_set_pbh s _ _ (by rfl) (by rfl) (by rfl))
      (same_layout_set_blk _ _ _ _))
  rw [if_neg h5] at h
  right
  simp only [Option.bind_eq_some] at h
  obtain ⟨n, hn, ⟨pbh, s1⟩, hpa, sa, happ, blks, _, h⟩ := h
  refine ⟨n, pbh, s1, hn, hpa, not_not.mp h1, not_not.mp h2, ?_⟩
  have l1 := same_layout_of_no_links s1 sa (pbh_list_append_no_links s1 sa t _ pbh happ)
  refine same_layout_trans l1 ?_
  refine same_layout_trans ?_ (bump_alloc_layout _ s' t cl size p h)
  refine same_layout_trans ?_ (same_layout_set_blk _ _ _ _)
  refine same_layout_trans ?_ (same_layout_set_pbh _ _ _ (by rfl) (by rfl) (by rfl))
  refine same_layout_trans ?_ (same_layout_set_pbh _ _ _ (by rfl) (by rfl) (by rfl))
  by_cases h6 : size &&& (CACHE_LINE_SIZE - 1) ≠ 0
  · rw [if_pos h6]
    refine same_layout_trans ?_ (same_layout_set_pbh _ _ _ (by rfl) (by rfl) (by rfl))
    exact same_layout_set_pbh _ _ _ (by rfl) (by rfl) (by rfl)
  · rw [if_neg h6]
    exact same_layout_set_pbh _ _ _ (by rfl) (by rfl) (by rfl)

/-- A merge leaves the pages of the other page blocks that are in use alone: the
PageMap entry of a page whose page block is neither `X` nor free is as before, and
so are the pages and the status of its page block. -/
theorem coalesced_outside (s s1 : State) (t sph X M l2 : Nat)
    (hk : coalesced s s1 t sph X M l2) (q : Nat)
    (qx : pagemap_get_checked s q ≠ X)
    (qf : (s.pbh (pagemap_get_checked s q)).status ≠ PBH_ON_FREE_LIST) :
    pagemap_get_checked s1 q = pagemap_get_checked s q ∧
    (s1.pbh (pagemap_get_checked s q)).start_page =
      (s.pbh (pagemap_get_checked s q)).start_page ∧
    (s1.pbh (pagemap_get_checked s q)).length = (s.pbh (pagemap_get_checked s q)).length ∧
    (s1.pbh (pagemap_get_checked s q)).status = (s.pbh (pagemap_get_checked s q)).status := by
  obtain ⟨k1, k2, k3, k4, k5, k6, k7, k8, k9, k10⟩ := hk
  have hne : pagemap_get_checked s q ≠ M := by
    intro e
    rcases k5 with e2 | e2
    · exact qx (e.trans e2)
    · rw [e] at qf
      exact qf e2
  have hout : ¬ ((s.pbh M).start_page + (s.pbh M).length ≤ q ∧
      q < (s.pbh M).start_page + (s.pbh M).length + l2) := by
    intro hin
    rcases (k6 q hin.1 hin.2).2 with e | e
    · exact qx e
    · exact qf e
  refine ⟨?_, (k7.1 _).1, (k7.1 _).2.2.2 hne, (k7.1 _).2.2.1⟩
  rw [k10 q, if_neg (fun hh => hout hh.2)]

/-- A local `small_free` below the threshold of the class pushes the block on the
free block list of the thread and changes no page block layout and no PageMap
entry. -/
theorem small_free_push_layout (s : State) (t p pbh cl th : Nat)
    (hcl : (s.pbh pbh).sizeclass = cl) (hcl60 : cl < NUM_CLASSES)
    (hth : get_blocks_for_class cl = some th)
    (hlocal : (s.pbh pbh).status ≠ PBH_AGAINST_FALSE_SHARING ∨
      ∃ sph, pbh_get_superpage s pbh = some sph ∧ (s.sph sph).owner_id = (s.thr t).thread_id)
    (hlt : ((s.thr t).blk_list cl).cnt_free < th) :
    small_free s t p pbh = some (blk_push s t cl p) ∧ same_layout s (blk_push s t cl p) := by
  rw [small_free_local s t p pbh cl th hcl hcl60 hth hlocal, if_neg (by omega)]
  refine ⟨rfl, ?_⟩
  unfold blk_push
  exact same_layout_trans (same_layout_SET_NEXT s _ _) (same_layout_set_blk _ _ _ _)

/-- C17: in a superpage whose page blocks tile its pages (`sp_inv`), the PageMap entry
of every page is non-null, not tagged, and names a page block header whose range
`start_page .. start_page + length` holds the page, and all pages of that page block
map to the same header. The layout is established by `pb_alloc` on a fresh
superpage, whose returned page block of `n` pages, in use, has all its pages mapped
to it. It is kept by `pb_split`, which also leaves the entries of all pages outside
the split-off remainder as they were; `pb_coalesce` and `pb_free` of a page block
leave the entry, the pages and the status of every other page block that is in use
as they were, when they return; `small_malloc`, when it returns, changes no page
block layout and no PageMap entry except through the `pb_alloc` of its last case,
and neither does a local `small_free` below the threshold of the class. A state with
the same layout has the same invariant. -/
theorem live_page_entry (s : State) (t sph : Nat) (hi : sp_inv s sph)
    (hc : cache_ok s t) (hinj : pm_inj s) :
    (∀ q, (s.sph sph).start_page ≤ q → q < (s.sph sph).start_page + SUPERPAGE_LEN →
      pagemap_get_checked s q ≠ 0 ∧ pagemap_get_checked s q &&& HUGE_MALLOC_MARK = 0 ∧
      (s.pbh (pagemap_get_checked s q)).start_page ≤ q ∧
      q < (s.pbh (pagemap_get_checked s q)).start_page +
        (s.pbh (pagemap_get_checked s q)).length ∧
      ∀ i, i < (s.pbh (pagemap_get_checked s q)).length →
        pagemap_get_checked s ((s.pbh (pagemap_get_checked s q)).start_page + i) =
          pagemap_get_checked s q) ∧
    (∀ sa s0 n sp, fresh_carve sa s0 t n sp →
      ∃ s', pb_alloc sa t n = some (sp + PBH_SIZE, s') ∧ sp_inv s' sp ∧
        (s'.pbh (sp + PBH_SIZE)).length = n ∧ (s'.pbh (sp + PBH_SIZE)).status = PBH_IN_USE ∧
        ∀ i, i < n →
          pagemap_get_checked s' ((s'.pbh (sp + PBH_SIZE)).start_page + i) = sp + PBH_SIZE) ∧
    (∀ X n, hdr_ok s sph X → 1 ≤ n → n < (s.pbh X).length →
      ∃ s', pb_split s t X n = some s' ∧ sp_inv s' sph ∧ hdr_ok s' sph X ∧
        (s'.pbh X).length = n ∧ (s'.pbh X).start_page = (s.pbh X).start_page ∧
        (s'.pbh X).status = (s.pbh X).status ∧
        ∀ q, ¬ ((s.pbh X).start_page + n ≤ q ∧ q < (s.pbh X).start_page + (s.pbh X).length) →
          pagemap_get_checked s' q = pagemap_get_checked s q) ∧
    (∀ X M s1, hdr_ok s sph X → pb_coalesce s t X = some (M, s1) →
      ∀ q, pagemap_get_checked s q ≠ X →
        (s.pbh (pagemap_get_checked s q)).status ≠ PBH_ON_FREE_LIST →
        pagemap_get_checked s1 q = pagemap_get_checked s q ∧
        (s1.pbh (pagemap_get_checked s q)).start_page =
          (s.pbh (pagemap_get_checked s q)).start_page ∧
        (s1.pbh (pagemap_get_checked s q)).length =
          (s.pbh (pagemap_get_checked s q)).length ∧
        (s1.pbh (pagemap_get_checked s q)).status =
          (s.pbh (pagemap_get_checked s q)).status) ∧
    (∀ X s', hdr_ok s sph X → pb_free s t X = some s' →
      ∀ q, (s.sph sph).start_page ≤ q → q < (s.sph sph).start_page + SUPERPAGE_LEN →
        pagemap_get_checked s q ≠ X →
        (s.pbh (pagemap_get_checked s q)).status ≠ PBH_ON_FREE_LIST →
        pagemap_get_checked s' q = pagemap_get_checked s q ∧
        (s'.pbh (pagemap_get_checked s q)).start_page =
          (s.pbh (pagemap_get_checked s q)).start_page ∧
        (s'.pbh (pagemap_get_checked s q)).length =
          (s.pbh (pagemap_get_checked s q)).length ∧
        (s'.pbh (pagemap_get_checked s q)).status =
          (s.pbh (pagemap_get_checked s q)).status) ∧
    (∀ cl p s', small_malloc s t cl = some (p, s') →
      same_layout s s' ∨
      ∃ n pbh s1, get_pages_for_class cl = some n ∧ pb_alloc s t n = some (pbh, s1) ∧
        ((s.thr t).blk_list cl).free_blk_list = 0 ∧
        ((s.thr t).blk_list cl).ptr_to_unused = 0 ∧ same_layout s1 s') ∧
    (∀ p pbh cl th, (s.pbh pbh).sizeclass = cl → cl < NUM_CLASSES →
      get_blocks_for_class cl = some th →
      ((s.pbh pbh).status ≠ PBH_AGAINST_FALSE_SHARING ∨
        ∃ sp, pbh_get_superpage s pbh = some sp ∧ (s.sph sp).owner_id = (s.thr t).thread_id) →
      ((s.thr t).blk_list cl).cnt_free < th →
      small_free s t p pbh = some (blk_push s t cl p) ∧ same_layout s (blk_push s t cl p)) ∧
    (∀ s', same_layout s s' →
      sp_inv s' sph ∧ ∀ q, pagemap_get_checked s' q = pagemap_get_checked s q) := by
  refine ⟨fun q q1 q2 => ?_, fun sa s0 n sp hf => ?_, fun X n hX n1 n2 => ?_,
    fun X M s1 hX hco q qx qf => ?_, fun X s' hX h => ?_, fun cl p s' h => ?_,
    fun p pbh cl th a b c d e => ?_, fun s' hl => ?_⟩
  · obtain ⟨a1, a2, a3⟩ := sp_inv_page s sph hi q q1 q2
    obtain ⟨b1, b2⟩ := hdr_ok_ne_zero s sph _ a1
    exact ⟨b1, b2 hi.1, a2, a3, a1.2.2.2.2.2⟩
  · obtain ⟨s', a1, a2, a3, a4, a5, _⟩ := pb_alloc_carves sa s0 t n sp hf
    refine ⟨s', a1, a2, a4, a5, fun i hi2 => ?_⟩
    exact a3.2.2.2.2.2 i (by rw [a4]; exact hi2)
  · obtain ⟨s', a1, a2, a3, a4, a5, a6, _, _, _, _, a11, _⟩ :=
      pb_split_inv s t sph X n hi hX n1 n2 hc hinj
    exact ⟨s', a1, a2, a3, a4, a5, a6, a11⟩
  · obtain ⟨l2, hk⟩ := pb_coalesce_spec s s1 t sph X M hi hX hc hinj hco
    exact coalesced_outside s s1 t sph X M l2 hk q qx qf
  · exact (pb_free_inv s s' t sph X hi hX hc hinj h).2
  · exact small_malloc_layout s s' t cl p h
  · exact small_free_push_layout s t p pbh cl th a b c d e
  · exact ⟨sp_inv_of_same_layout s s' sph hl hi, same_layout_pm s s' hl⟩

theorem live_page_entry_witness :
    (∀ q, (carved_heap.2.sph 0x11001000).start_page ≤ q →
      q < (carved_heap.2.sph 0x11001000).start_page + SUPERPAGE_LEN →
      pagemap_get_checked carved_heap.2 q ≠ 0 ∧
      pagemap_get_checked carved_heap.2 q &&& HUGE_MALLOC_MARK = 0 ∧
      (carved_heap.2.pbh (pagemap_get_checked carved_heap.2 q)).start_page ≤ q ∧
      q < (carved_heap.2.pbh (pagemap_get_checked carved_heap.2 q)).start_page +
        (carved_heap.2.pbh (pagemap_get_checked carved_heap.2 q)).length ∧
      ∀ i, i < (carved_heap.2.pbh (pagemap_get_checked carved_heap.2 q)).length →
        pagemap_get_checked carved_heap.2
          ((carved_heap.2.pbh (pagemap_get_checked carved_heap.2 q)).start_page + i) =
          pagemap_get_checked carved_heap.2 q) ∧
    ∃ s', pb_alloc started_heap 0 8 = some (0x11001000 + PBH_SIZE, s') ∧
      sp_inv s' 0x11001000 ∧
      (s'.pbh (0x11001000 + PBH_SIZE)).length = 8 ∧
      (s'.pbh (0x11001000 + PBH_SIZE)).status = PBH_IN_USE ∧
      ∀ i, i < 8 →
        pagemap_get_checked s' ((s'.pbh (0x11001000 + PBH_SIZE)).start_page + i) =
          0x11001000 + PBH_SIZE :=
  ⟨(live_page_entry carved_heap.2 0 0x11001000 carved_heap_layout.1
      carved_heap_layout.2.2.2.1 carved_heap_layout.2.2.2.2).1,
    (live_page_entry carved_heap.2 0 0x11001000 carved_heap_layout.1
      carved_heap_layout.2.2.2.1 carved_heap_layout.2.2.2.2).2.1 started_heap fresh_heap.2 8
      0x11001000 started_fresh_carve⟩

/-! ## C28: the indices of `free_pb_list` -/

/-- In a superpage with a sound layout whose first page block does not take all the
pages, every page block has 1 to 62 pages. -/
theorem hdr_len_le (s : State) (sph h : Nat) (hh : hdr_ok s sph h)
    (hfirst : (s.pbh (sph + PBH_SIZE)).length < SUPERPAGE_LEN) :
    1 ≤ (s.pbh h).length ∧ (s.pbh h).length ≤ NUM_PAGE_CLASSES := by
  obtain ⟨a1, a2, a3, a4, a5, _⟩ := hh
  refine ⟨a2, ?_⟩
  by_contra hc
  simp only [SUPERPAGE_LEN, NUM_PAGE_CLASSES] at a3 hc hfirst
  have hidx : (s.pbh h).index = 1 := by omega
  have hh1 : h = sph + PBH_SIZE := by
    rw [a5, hidx, Nat.mul_one]
  rw [← hh1] at hfirst
  omega

/-- The remainder that `pb_split` leaves: its header, its length and its list. -/
theorem pb_split_list (s : State) (t sph X n : Nat) (hi : sp_inv s sph) (hX : hdr_ok s sph X)
    (hn : 1 ≤ n) (hL : n < (s.pbh X).length) (hc : cache_ok s t) (hinj : pm_inj s) :
    ∃ s', pb_split s t X n = some s' ∧
      1 ≤ (s.pbh X).length - n ∧ (s.pbh X).length - n ≤ NUM_PAGE_CLASSES ∧
      (s'.pbh (pagemap_get_checked s' ((s.pbh X).start_page + n))).length =
        (s.pbh X).length - n ∧
      (s'.thr t).free_pb_list ((s.pbh X).length - n - 1) =
        pagemap_get_checked s' ((s.pbh X).start_page + n) := by
  have hi' := hi
  obtain ⟨c1, c2, c3, c4, c5, c6, c7⟩ := hi'
  have hX' := hX
  obtain ⟨x1, x2, x3, x4, x5, x6⟩ := hX'
  have h52 : PMAP_BITS = 52 := rfl
  obtain ⟨s', hs', _, _, _, _, _, e6, _, _, e9, e10, _⟩ :=
    pb_split_spec s t X n sph hn hL x1 x3 (by rw [h52] at c3; exact c3) x4 x5 c4
      (fun i hi2 => sp_inv_pm_has s sph hi _ (by omega) (by omega)) hc hinj
  have hRn : pagemap_get_checked s' ((s.pbh X).start_page + n) =
      sph + PBH_SIZE * ((s.pbh X).index + n) := by
    rw [e10, if_pos ⟨le_refl _, by omega⟩]
  refine ⟨s', hs', by omega, ?_, by rw [hRn]; exact e6, by rw [hRn]; exact e9⟩
  simp only [SUPERPAGE_LEN, NUM_PAGE_CLASSES] at x3 ⊢
  omega

/-- C28: every index used to access `free_pb_list` is below `NUM_PAGE_CLASSES = 62`,
in a superpage whose page blocks tile its pages. `pb_alloc` takes a length from 1
to 62 only, so that the remainder `SUPERPAGE_LEN - page_len` of a fresh superpage
has 1 to 62 pages. `pb_split` of a page block `X` returns, and its remainder has 1
to 62 pages and heads `free_pb_list[its length - 1]`. The free neighbours that
`pb_free` takes from their lists have 1 to 62 pages; when `pb_free` returns, a
merged block of fewer than 63 pages has 1 to 62 pages and heads
`free_pb_list[its length - 1]`, and a merged block of 63 pages goes to `sph_free`,
which leaves the free page block lists as they were after the removals. When the
first page block does not take all the pages, every header of the walk of
`take_superpage` has 1 to 62 pages, and for an empty remote page block list and a
dead owner the call returns. -/
theorem free_pb_index_in_range (s : State) (t sph X : Nat) (hi : sp_inv s sph)
    (hX : hdr_ok s sph X) (hc : cache_ok s t) (hinj : pm_inj s) :
    (∀ n p s', pb_alloc s t n = some (p, s') → 1 ≤ n ∧ n ≤ NUM_PAGE_CLASSES) ∧
    (∀ n, 1 ≤ n → n ≤ NUM_PAGE_CLASSES →
      1 ≤ SUPERPAGE_LEN - n ∧ SUPERPAGE_LEN - n ≤ NUM_PAGE_CLASSES ∧
      free_pb_ref (SUPERPAGE_LEN - n) = some (.free_pb (SUPERPAGE_LEN - n - 1)) ∧
      SUPERPAGE_LEN - n - 1 < NUM_PAGE_CLASSES) ∧
    (∀ n, 1 ≤ n → n < (s.pbh X).length →
      ∃ s', pb_split s t X n = some s' ∧
        1 ≤ (s.pbh X).length - n ∧ (s.pbh X).length - n ≤ NUM_PAGE_CLASSES ∧
        (s'.pbh (pagemap_get_checked s' ((s.pbh X).start_page + n))).length =
          (s.pbh X).length - n ∧
        (s'.thr t).free_pb_list ((s.pbh X).length - n - 1) =
          pagemap_get_checked s' ((s.pbh X).start_page + n)) ∧
    (is_free_pb s (pb_prev s X) →
      1 ≤ (s.pbh (pb_prev s X)).length ∧ (s.pbh (pb_prev s X)).length ≤ NUM_PAGE_CLASSES) ∧
    (is_free_pb s (pb_next s X) →
      1 ≤ (s.pbh (pb_next s X)).length ∧ (s.pbh (pb_next s X)).length ≤ NUM_PAGE_CLASSES) ∧
    (∀ s', pb_free s t X = some s' →
      (merged_len s X ≠ SUPERPAGE_LEN →
        1 ≤ merged_len s X ∧ merged_len s X ≤ NUM_PAGE_CLASSES ∧
        (s'.pbh (merged_hdr s X)).length = merged_len s X ∧
        (s'.thr t).free_pb_list (merged_len s X - 1) = merged_hdr s X) ∧
      (merged_len s X = SUPERPAGE_LEN →
        ∃ s1 l2, coalesced s s1 t sph X (merged_hdr s X) l2 ∧ sph_free s1 t sph = some s' ∧
          (s'.thr t).free_pb_list = (s1.thr t).free_pb_list)) ∧
    ((s.pbh (sph + PBH_SIZE)).length < SUPERPAGE_LEN →
      (∀ h, h ∈ superpage_headers s SUPERPAGE_LEN (sph + PBH_SIZE) 0 →
        1 ≤ (s.pbh h).length ∧ (s.pbh h).length ≤ NUM_PAGE_CLASSES) ∧
      ((s.sph sph).remote_pb_list = 0 → (s.sph sph).owner_id = DEAD_OWNER →
        ∃ s2, take_superpage s t sph = some (true, s2))) := by
  have h63 : SUPERPAGE_LEN = 63 := rfl
  have h62 : NUM_PAGE_CLASSES = 62 := rfl
  have hX' := hX
  obtain ⟨x1, x2, x3, x4, x5, x6⟩ := hX'
  refine ⟨fun n p s' h => ?_, fun n n1 n2 => ?_, fun n n1 n2 => ?_, fun hp => ?_, fun hn => ?_,
    fun s' h => ?_, fun hfirst => ?_⟩
  · unfold pb_alloc at h
    by_contra hne
    rw [if_pos (by omega)] at h
    exact absurd h (by simp)
  · refine ⟨by omega, by omega, ?_, by omega⟩
    unfold free_pb_ref
    rw [if_pos ⟨by omega, by omega⟩]
  · exact pb_split_list s t sph X n hi hX n1 n2 hc hinj
  · obtain ⟨_, _, hP1, _, _⟩ := sp_inv_neighbours s sph X hi hX
    obtain ⟨⟨p1, p2, p3, _⟩, _, p5⟩ := hP1 hp.1
    unfold pb_prev
    exact ⟨p2, by omega⟩
  · obtain ⟨_, _, _, _, hN1⟩ := sp_inv_neighbours s sph X hi hX
    have hn0 := hn.1
    unfold pb_next at hn0 ⊢
    by_cases e : pagemap_get_checked s (u64 ((s.pbh X).start_page + (s.pbh X).length)) &&&
        HUGE_MALLOC_MARK ≠ 0
    · rw [if_pos e] at hn0
      exact absurd rfl hn0
    · rw [if_neg e] at hn0 ⊢
      obtain ⟨⟨n1, n2, n3, _⟩, _, n5⟩ := hN1 hn0 (not_not.mp e)
      exact ⟨n2, by omega⟩
  · obtain ⟨g1, g2, _, _, _, _, g7⟩ := pb_free_effect s s' t sph X hi hX hc hinj h
    refine ⟨fun hne => ?_, fun he => ?_⟩
    · obtain ⟨_, _, _, _, _, a6, _, a8, _⟩ := g7 hne
      exact ⟨g1, by omega, a6, a8⟩
    · obtain ⟨s1, l2, hk, _, _, hrest⟩ := pb_free_exact s s' t sph X hi hX hc hinj h
      rcases hrest with ⟨_, hsf⟩ | ⟨hne, _⟩
      · obtain ⟨_, hl, _⟩ := sph_free_effect s1 s' t sph hsf
        exact ⟨s1, l2, hk, hsf, (hl t).1⟩
      · exact absurd he hne
  · obtain ⟨g1, _⟩ := superpage_headers_spec s sph hi SUPERPAGE_LEN 0 (Nat.zero_le _)
      (le_refl _) (fun _ => sp_inv_boundary_zero s sph hi)
    rw [show sph + PBH_SIZE * (0 + 1) = sph + PBH_SIZE by simp] at g1
    refine ⟨fun h hh => hdr_len_le s sph h (g1 h hh) hfirst, fun hrem hd => ?_⟩
    obtain ⟨s2, a, _⟩ := take_superpage_dead s t sph hi hfirst hrem hd
    exact ⟨s2, a⟩

theorem free_pb_index_in_range_witness :
    (∀ n, 1 ≤ n → n < (carved_heap.2.pbh 0x11001040).length →
      ∃ s', pb_split carved_heap.2 0 0x11001040 n = some s' ∧
        1 ≤ (carved_heap.2.pbh 0x11001040).length - n ∧
        (carved_heap.2.pbh 0x11001040).length - n ≤ NUM_PAGE_CLASSES ∧
        (s'.pbh (pagemap_get_checked s'
          ((carved_heap.2.pbh 0x11001040).start_page + n))).length =
          (carved_heap.2.pbh 0x11001040).length - n ∧
        (s'.thr 0).free_pb_list ((carved_heap.2.pbh 0x11001040).length - n - 1) =
          pagemap_get_checked s' ((carved_heap.2.pbh 0x11001040).start_page + n)) ∧
    (is_free_pb carved_heap.2 (pb_next carved_heap.2 0x11001040) →
      1 ≤ (carved_heap.2.pbh (pb_next carved_heap.2 0x11001040)).length ∧
      (carved_heap.2.pbh (pb_next carved_heap.2 0x11001040)).length ≤ NUM_PAGE_CLASSES) :=
  ⟨(free_pb_index_in_range carved_heap.2 0 0x11001000 0x11001040 carved_heap_layout.1
      carved_heap_layout.2.1 carved_heap_layout.2.2.2.1 carved_heap_layout.2.2.2.2).2.2.1,
    (free_pb_index_in_range carved_heap.2 0 0x11001000 0x11001040 carved_heap_layout.1
      carved_heap_layout.2.1 carved_heap_layout.2.2.2.1 carved_heap_layout.2.2.2.2).2.2.2.2.1⟩

/-! ## C8: `realloc` of a live block -/

theorem memcpy_bytes (s : State) (dst src n : Nat) :
    (∀ i, i < n → (memcpy s dst src n).mem (dst + i) = s.mem (src + i)) ∧
    (∀ a, ¬ (dst ≤ a ∧ a < dst + n) → (memcpy s dst src n).mem a = s.mem a) ∧
    { memcpy s dst src n with mem := s.mem } = s := by
  refine ⟨fun i hi => ?_, fun a ha => ?_, rfl⟩
  · show (if dst ≤ dst + i ∧ dst + i < dst + n then s.mem (src + (dst + i - dst)) else
      s.mem (dst + i)) = _
    rw [if_pos ⟨by omega, by omega⟩, show dst + i - dst = i by omega]
  · show (if dst ≤ a ∧ a < dst + n then s.mem (src + (a - dst)) else s.mem a) = _
    rw [if_neg ha]

/-- A state that holds the bytes of `src` in the `n` bytes at `dst` and agrees with
`s` everywhere else is the state that `memcpy` leaves. -/
theorem memcpy_unique (s s2 : State) (dst src n : Nat)
    (h1 : ∀ i, i < n → s2.mem (dst + i) = s.mem (src + i))
    (h2 : ∀ a, ¬ (dst ≤ a ∧ a < dst + n) → s2.mem a = s.mem a)
    (h3 : { s2 with mem := s.mem } = s) :
    s2 = memcpy s dst src n := by
  have hm : s2.mem = fun x => if dst ≤ x ∧ x < dst + n then s.mem (src + (x - dst)) else s.mem x := by
    funext x
    by_cases hx : dst ≤ x ∧ x < dst + n
    · rw [if_pos hx]
      have := h1 (x - dst) (by omega)
      rw [show dst + (x - dst) = x by omega] at this
      exact this
    · rw [if_neg hx]
      exact h2 x hx
  unfold memcpy
  rw [← hm, ← h3]

/-- C8: for a non-null pointer `p` whose PageMap entry `val` is non-null and a size
`n > 0`, with `old_size` the tagged size of a huge allocation, the block size of the
size class of a small block, and `length * 4096` for a large page block:
when `n > old_size` or `n < old_size / 2`, `realloc(p, n)` returns `q` exactly when
`malloc(n)` returns the new block `q`, the `min(old_size, n)` bytes at `q` then hold
the bytes at `p` while every other byte and the rest of the heap are as `malloc` left
them, and `free(p)` returns from that state, whose result is the heap `realloc`
leaves; otherwise `realloc(p, n)` returns `p` with the heap as the lookup left it
(unchanged, up to the leaf cache of the thread). -/
theorem realloc_resizes (s : State) (t p n val : Nat) (s0 : State)
    (hp : p ≠ 0) (hn : 0 < n)
    (hget : pagemap_get s t (p >>> PAGE_SHIFT) = some (val, s0)) (hval : val ≠ 0) :
    (s.cfg.MALLOC_USE_PAGEMAP_CACHE = false → s0 = s) ∧
    (∃ tag leaf, s0 = set_tlh s t { s.thr t with l_pagemap_tag := tag, l_pagemap_leaf := leaf }) ∧
    ∃ old_size,
      (val &&& HUGE_MALLOC_MARK ≠ 0 → old_size = val - 1) ∧
      (val &&& HUGE_MALLOC_MARK = 0 → (s.pbh val).sizeclass < NUM_CLASSES →
        get_size_for_class (s.pbh val).sizeclass = some old_size) ∧
      (val &&& HUGE_MALLOC_MARK = 0 → ¬ (s.pbh val).sizeclass < NUM_CLASSES →
        old_size = (s.pbh val).length * 4096) ∧
      (n > old_size ∨ n < old_size / 2 →
        ∀ q s3, realloc s t p n = some (q, s3) ↔
          ∃ s1 s2, malloc s0 t n = some (q, s1) ∧
            (∀ i, i < min old_size n → s2.mem (q + i) = s1.mem (p + i)) ∧
            (∀ a, ¬ (q ≤ a ∧ a < q + min old_size n) → s2.mem a = s1.mem a) ∧
            { s2 with mem := s1.mem } = s1 ∧
            free s2 t p = some s3) ∧
      (¬ (n > old_size ∨ n < old_size / 2) → realloc s t p n = some (p, s0)) := by
  obtain ⟨h1, tag, leaf, h2⟩ := pagemap_get_state s t _ val s0 hget
  refine ⟨h1, ⟨tag, leaf, h2⟩, ?_⟩
  have hpbh : s0.pbh = s.pbh := by rw [h2]; rfl
  have hn0 : n ≠ 0 := by omega
  -- the size found for the block
  obtain ⟨old, ho1, ho2, ho3, hold⟩ : ∃ old_size,
      (val &&& HUGE_MALLOC_MARK ≠ 0 → old_size = val - 1) ∧
      (val &&& HUGE_MALLOC_MARK = 0 → (s.pbh val).sizeclass < NUM_CLASSES →
        get_size_for_class (s.pbh val).sizeclass = some old_size) ∧
      (val &&& HUGE_MALLOC_MARK = 0 → ¬ (s.pbh val).sizeclass < NUM_CLASSES →
        old_size = (s.pbh val).length * 4096) ∧
      realloc_old_size s t p = some (old_size, s0) := by
    rw [realloc_old_size_unfold s t p val s0 hget hval, hpbh]
    by_cases hm : val &&& HUGE_MALLOC_MARK = 0
    · by_cases hc : (s.pbh val).sizeclass < NUM_CLASSES
      · obtain ⟨sz, hsz⟩ := get_size_for_class_some _ hc
        refine ⟨sz, fun h => absurd hm h, fun _ _ => hsz, fun _ h => absurd hc h, ?_⟩
        simp only [hm, hc, hsz, ne_eq, not_true_eq_false, if_false, if_true, Option.map_some']
      · refine ⟨(s.pbh val).length * 4096, fun h => absurd hm h, fun _ h => absurd h hc,
          fun _ _ => rfl, ?_⟩
        have hps : PAGE_SIZE = 4096 := by decide
        simp only [hm, hc, hps, ne_eq, not_true_eq_false, if_false]
    · have hone : val &&& HUGE_MALLOC_MARK = 1 := by
        have : val &&& HUGE_MALLOC_MARK = val % 2 := Nat.and_one_is_mod val
        rw [this] at hm ⊢
        omega
      refine ⟨val - 1, fun _ => rfl, fun h => absurd h hm, fun h => absurd h hm, ?_⟩
      simp only [hone, ne_eq, one_ne_zero, not_false_eq_true, if_true]
  refine ⟨old, ho1, ho2, ho3, ?_, ?_⟩
  · intro hre q s3
    rw [realloc_unfold s t p n hp hn0, hold, Option.some_bind, if_pos hre]
    constructor
    · intro h
      obtain ⟨r, hr, h⟩ := Option.bind_eq_some.mp h
      obtain ⟨s3', hf, h⟩ := Option.map_eq_some'.mp h
      cases h
      obtain ⟨c1, c2, c3⟩ := memcpy_bytes r.2 r.1 p (min old n)
      exact ⟨r.2, memcpy r.2 r.1 p (min old n), hr, c1, c2, c3, hf⟩
    · rintro ⟨s1, s2, hm, c1, c2, c3, hf⟩
      have e := memcpy_unique s1 s2 q p (min old n) c1 c2 c3
      rw [hm, Option.some_bind]
      show (free (memcpy s1 q p (min old n)) t p).map (fun s3 => (q, s3)) = some (q, s3)
      rw [← e, hf]
      rfl
  · intro hre
    rw [realloc_unfold s t p n hp hn0, hold, Option.some_bind, if_neg hre]

set_option maxRecDepth 100000 in
theorem written_heap_lookup :
    pagemap_get written_heap 0 (0x11002000 >>> PAGE_SHIFT) = some (0x11001040, written_heap) := by
  rfl

set_option maxRecDepth 100000 in
theorem written_heap_class : (written_heap.pbh 0x11001040).sizeclass = 7 := by decide!

set_option maxRecDepth 100000 in
theorem written_heap_realloc :
    ((realloc written_heap 0 0x11002000 300).map fun r =>
      (r.1, (List.range 8).map (fun i => (r.2.mem (r.1 + i)).val), (r.2.mem (r.1 + 99)).val,
        ((r.2.thr 0).blk_list 7).free_blk_list, ((r.2.thr 0).blk_list 7).cnt_free)) =
      some (0x11003000, [1, 2, 3, 4, 5, 6, 7, 8], 100, 0x11002000, 1) := by
  decide!

theorem realloc_resizes_witness :
    (0x11002000 : Nat) ≠ 0 ∧ 0 < 300 ∧
    pagemap_get written_heap 0 (0x11002000 >>> PAGE_SHIFT) = some (0x11001040, written_heap) ∧
    (0x11001040 : Nat) ≠ 0 ∧
    (∃ s1 s2 s3, realloc written_heap 0 0x11002000 300 = some (0x11003000, s3) ∧
      malloc written_heap 0 300 = some (0x11003000, s1) ∧
      (∀ i, i < 112 → s2.mem (0x11003000 + i) = s1.mem (0x11002000 + i)) ∧
      free s2 0 0x11002000 = some s3 ∧
      ((List.range 8).map fun i => (s3.mem (0x11003000 + i)).val) = [1, 2, 3, 4, 5, 6, 7, 8] ∧
      (s3.mem (0x11003000 + 99)).val = 100 ∧
      ((s3.thr 0).blk_list 7).free_blk_list = 0x11002000) ∧
    realloc written_heap 0 0x11002000 100 = some (0x11002000, written_heap) := by
  refine ⟨by decide, by decide, written_heap_lookup, by decide, ?_, ?_⟩
  · obtain ⟨_, _, old, _, h2, _, hres, _⟩ :=
      realloc_resizes written_heap 0 0x11002000 300 0x11001040 written_heap (by decide)
        (by decide) written_heap_lookup (by decide)
    have hold := h2 (by decide) (by rw [written_heap_class]; decide)
    rw [written_heap_class] at hold
    have h112 : old = 112 := by
      have : get_size_for_class 7 = some 112 := by decide
      rw [this] at hold
      exact (Option.some.inj hold).symm
    subst h112
    have hev := written_heap_realloc
    obtain ⟨⟨q, s3⟩, hr, hv⟩ := Option.map_eq_some'.mp hev
    simp only [Prod.mk.injEq] at hv
    obtain ⟨hq, hb, h99, hhead, _⟩ := hv
    subst hq
    obtain ⟨s1, s2, hm, hc, _, _, hf⟩ := (hres (Or.inl (by decide)) _ s3).mp hr
    exact ⟨s1, s2, s3, hr, hm, fun i hi => hc i (by simpa using hi), hf, hb, h99, hhead⟩
  · obtain ⟨_, _, old, _, h2, _, _, hkeep⟩ :=
      realloc_resizes written_heap 0 0x11002000 100 0x11001040 written_heap (by decide)
        (by decide) written_heap_lookup (by decide)
    have hold := h2 (by decide) (by rw [written_heap_class]; decide)
    rw [written_heap_class] at hold
    have h112 : old = 112 := by
      have : get_size_for_class 7 = some 112 := by decide
      rw [this] at hold
      exact (Option.some.inj hold).symm
    subst h112
    exact hkeep (by decide)

/-! ## C4: the alignment of the blocks of `posix_memalign` -/

theorem u64_dvd (d x : Nat) (hd : d ∣ 2 ^ 64) (h : d ∣ x) : d ∣ u64 x := by
  unfold u64
  exact (Nat.dvd_mod_iff hd).mpr h

theorem page_dvd_u64 : PAGE_SIZE ∣ 2 ^ 64 := by
  show 4096 ∣ 2 ^ 64
  norm_num

theorem gcd_page_dvd_u64 (sz : Nat) : Nat.gcd sz PAGE_SIZE ∣ 2 ^ 64 :=
  dvd_trans (Nat.gcd_dvd_right sz PAGE_SIZE) page_dvd_u64

theorem page_addr_dvd (x : Nat) : PAGE_SIZE ∣ u64 (x <<< PAGE_SHIFT) := by
  apply u64_dvd _ _ page_dvd_u64
  rw [Nat.shiftLeft_eq]
  exact Dvd.intro_left _ rfl

/-- The block that `bump_alloc` returns is the one at the pointer to the unused
blocks. -/
theorem bump_alloc_ret (s s' : State) (t cl size p : Nat)
    (h : bump_alloc s t cl size = some (p, s')) :
    p = ((s.thr t).blk_list cl).ptr_to_unused := by
  unfold bump_alloc at h
  by_cases h1 : ¬ cl < NUM_CLASSES
  · rw [if_pos h1] at h; exact absurd h (by simp)
  rw [if_neg h1] at h
  by_cases h2 : size ≤ CACHE_LINE_SIZE / 2
  · rw [if_pos h2] at h
    by_cases h3 : size = 0
    · rw [if_pos h3] at h; exact absurd h (by simp)
    rw [if_neg h3] at h
    simp only [Option.some.injEq, Prod.mk.injEq] at h
    exact h.1.symm
  · rw [if_neg h2] at h
    simp only [Option.some.injEq, Prod.mk.injEq] at h
    exact h.1.symm

/-- Every block that `small_malloc` returns from a heap whose block sources hold
block addresses lies a multiple of `gcd(sz, PAGE_SIZE)` bytes from address `0`, for
the block size `sz` of its class. -/
theorem small_malloc_aligned (s s' : State) (t cl sz p : Nat)
    (hsz : get_size_for_class cl = some sz) (hsrc : blocks_aligned s t)
    (h : small_malloc s t cl = some (p, s')) :
    Nat.gcd sz PAGE_SIZE ∣ p := by
  unfold small_malloc at h
  by_cases hcl : cl < NUM_CLASSES
  swap
  · rw [if_pos hcl] at h; exact absurd h (by simp)
  rw [if_neg (not_not.mpr hcl)] at h
  obtain ⟨g1, g2, g3, g4⟩ := hsrc.1 cl hcl
  simp only [hsz, Option.getD_some] at g1 g2 g3 g4
  by_cases c1 : ((s.thr t).blk_list cl).free_blk_list ≠ 0
  · rw [if_pos c1] at h
    by_cases c1' : ¬ ((s.thr t).blk_list cl).cnt_free > 0
    · rw [if_pos c1'] at h; exact absurd h (by simp)
    rw [if_neg c1'] at h
    simp only [Option.some.injEq, Prod.mk.injEq] at h
    rw [← h.1]; exact g1
  rw [if_neg c1] at h
  simp only [hsz, Option.bind_eq_bind, Option.some_bind, Option.pure_def] at h
  by_cases c2 : ((s.thr t).blk_list cl).ptr_to_unused ≠ 0
  · rw [if_pos c2] at h
    by_cases c2' : ¬ ((s.thr t).blk_list cl).cnt_unused > 0
    · rw [if_pos c2'] at h; exact absurd h (by simp)
    rw [if_neg c2'] at h
    rw [bump_alloc_ret _ _ _ _ _ _ h]; exact g2
  rw [if_neg c2] at h
  by_cases c3 : ((s.thr t).blk_list cl).pbh_list ≠ 0 ∧
      (s.pbh ((s.thr t).blk_list cl).pbh_list).cnt_free > 0
  · rw [if_pos c3] at h
    by_cases c3' : (s.pbh ((s.thr t).blk_list cl).pbh_list).free_list = 0
    · rw [if_pos c3'] at h; exact absurd h (by simp)
    rw [if_neg c3'] at h
    simp only [Option.some.injEq, Prod.mk.injEq] at h
    rw [← h.1]; exact g3
  rw [if_neg c3] at h
  by_cases c4 : ((s.thr t).blk_list cl).pbh_list ≠ 0 ∧
      (s.pbh ((s.thr t).blk_list cl).pbh_list).cnt_unused > 0
  · rw [if_pos c4] at h
    by_cases c4' : (s.pbh ((s.thr t).blk_list cl).pbh_list).unallocated = 0
    · rw [if_pos c4'] at h; exact absurd h (by simp)
    rw [if_neg c4'] at h
    rw [bump_alloc_ret _ _ _ _ _ _ h]
    split
    · simp only [set_blk, set_tlh, upd, if_true]
      exact g4
    · simp only [set_blk, set_tlh, upd, if_true]
      exact g4
  rw [if_neg c4] at h
  by_cases c5 : ((s.thr t).blk_list cl).pbh_list ≠ 0 ∧
      (s.pbh ((s.thr t).blk_list cl).pbh_list).remote_cnt > 0
  · rw [if_pos c5] at h
    simp only [Option.some.injEq, Prod.mk.injEq] at h
    rw [← h.1]
    apply u64_dvd _ _ (gcd_page_dvd_u64 sz)
    apply dvd_add
    · exact dvd_trans (Nat.gcd_dvd_right sz PAGE_SIZE) (page_addr_dvd _)
    · apply u64_dvd _ _ (gcd_page_dvd_u64 sz)
      exact Dvd.dvd.mul_right (Nat.gcd_dvd_left sz PAGE_SIZE) _
  rw [if_neg c5] at h
  -- a new page block
  simp only [Option.bind_eq_some] at h
  obtain ⟨page_num, _, ⟨pbh, sa⟩, _, sb, _, blks, _, h⟩ := h
  rw [bump_alloc_ret _ _ _ _ _ _ h]
  simp only [set_blk, set_tlh, upd, if_true]
  exact dvd_trans (Nat.gcd_dvd_right sz PAGE_SIZE) (page_addr_dvd _)

/-- Every page block that `large_malloc` returns starts at a page, when those kept
in the page block cache do. -/
theorem large_malloc_aligned (s s' : State) (t n p : Nat)
    (hsrc : ∀ pos, pos < NUM_PB_CACHE_WAY → PAGE_SIZE ∣ ((s.thr t).pb_cache.block pos).data)
    (h : large_malloc s t n = some (p, s')) : PAGE_SIZE ∣ p := by
  have hret : ∀ (X : Nat) (Y : State) (p : Nat) (s' : State),
      some (u64 (X <<< PAGE_SHIFT), Y) = some (p, s') → PAGE_SIZE ∣ p := by
    intro X Y p s' hx
    simp only [Option.some.injEq, Prod.mk.injEq] at hx
    rw [← hx.1]
    exact page_addr_dvd _
  unfold large_malloc at h
  simp only [Option.bind_eq_bind, Option.pure_def] at h
  by_cases hc : s.cfg.MALLOC_USE_PAGE_BLOCK_CACHE = true
  · rw [if_pos hc] at h
    cases hhit : pb_cache_hit (s.thr t).pb_cache (u8 n) with
    | some pos =>
      rw [hhit] at h
      simp only [Option.bind_eq_some] at h
      obtain ⟨c, hc1, h⟩ := h
      have hpos : pos < NUM_PB_CACHE_WAY := by
        unfold pb_cache_hit at hhit
        have := List.mem_of_find?_eq_some hhit
        simpa using this
      have hblk : c.block = (s.thr t).pb_cache.block := by
        unfold pb_cache_touch at hc1
        obtain ⟨w, _, hw⟩ := Option.map_eq_some'.mp hc1
        rw [← hw]
      by_cases hd : (c.block pos).data ≠ 0
      · rw [if_pos hd] at h
        simp only [Option.some.injEq, Prod.mk.injEq] at h
        rw [← h.1, hblk]
        exact hsrc pos hpos
      · rw [if_neg hd] at h
        simp only [Option.bind_eq_some] at h
        obtain ⟨a, _, h⟩ := h
        exact hret _ _ _ _ h
    | none =>
      rw [hhit] at h
      simp only [Option.bind_eq_some] at h
      obtain ⟨pos, _, c, _, sx, _, a, _, h⟩ := h
      exact hret _ _ _ _ h
  · rw [if_neg hc] at h
    simp only [Option.bind_eq_some] at h
    obtain ⟨a, _, h⟩ := h
    exact hret _ _ _ _ h

/-- The block that `huge_malloc` returns is the answer of `mmap`. -/
theorem huge_malloc_aligned (s s' : State) (t n p : Nat)
    (hos : ∀ m a, s.os_mmap s.os_calls m = some a → PAGE_SIZE ∣ a)
    (h : huge_malloc s t n = some (p, s')) : PAGE_SIZE ∣ p := by
  unfold huge_malloc at h
  simp only [Option.bind_eq_bind, Option.pure_def, Option.bind_eq_some] at h
  obtain ⟨⟨ret, s1⟩, hm, s2, _, s3, _, h⟩ := h
  simp only [Option.some.injEq, Prod.mk.injEq] at h
  rw [← h.1]
  unfold do_mmap at hm
  cases ha : s.os_mmap s.os_calls (u64 (n <<< PAGE_SHIFT)) with
  | none => rw [ha] at hm; exact absurd hm (by simp)
  | some a =>
    rw [ha] at hm
    simp only [Option.some.injEq, Prod.mk.injEq] at hm
    rw [← hm.1]
    exact hos _ _ ha

/-- A request of the block size of a class is served by the class itself. -/
theorem sizeclass_of_block_size (cl sz : Nat) (hsz : get_size_for_class cl = some sz) :
    sz ≤ MAX_SIZE ∧ get_sizeclass sz = some cl := by
  have hsz' : class_to_size[cl]? = some sz := hsz
  have hlen := (List.getElem?_eq_some.mp hsz').1
  rw [class_to_size_length] at hlen
  have h59 : class_to_size[59]? = some 32768 := by decide
  have hle : sz ≤ 32768 := by
    by_cases h : cl = 59
    · subst h
      rw [h59] at hsz'
      cases hsz'
      exact le_refl _
    · exact le_of_lt (class_to_size_lt cl 59 sz 32768 (by omega) hsz' h59)
  refine ⟨hle, ?_⟩
  obtain ⟨cl', hcl', _, sz', hsz1, hle'⟩ := sizeclass_some sz hle
  have h1 : cl' ≤ cl := sizeclass_tight sz hle cl' hcl' cl sz hsz' (le_refl _)
  by_cases h : cl' = cl
  · rw [← h]; exact hcl'
  · have := class_to_size_lt cl' cl sz' sz (by omega) hsz1 hsz'
    omega

theorem u32_u32 (x : Nat) : u32 (u32 x) = u32 x := by
  unfold u32
  exact Nat.mod_mod _ _

/-- The alignment of a request is a power of two, at most the page size. -/
theorem get_alignment_some (size : Nat) :
    ∃ j, j ≤ 12 ∧ get_alignment size = some (2 ^ j) ∧
      (size ≤ MAX_SIZE → 2 ^ j = small_alignment size) := by
  have hu : get_alignment size = get_alignment (u32 size) := by
    unfold get_alignment
    simp only [u32_u32]
  have hlt : u32 size < 2 ^ 32 := by unfold u32; exact Nat.mod_lt _ (by norm_num)
  obtain ⟨hget, ⟨j, hj⟩, _⟩ := get_alignment_rule (u32 size) hlt
  have hle : alignment_rule (u32 size) ≤ 4096 := by
    by_cases hsm : u32 size ≤ 32768
    · rw [alignment_rule_small _ hsm]
      unfold small_alignment
      split_ifs <;> omega
    · unfold alignment_rule
      have hM : MAX_SIZE = 32768 := by decide
      have hP : PAGE_SIZE = 4096 := by decide
      rw [hM, hP]
      split_ifs <;> omega
  have hj12 : j ≤ 12 := by
    rw [hj] at hle
    by_contra hc
    have : 2 ^ 13 ≤ 2 ^ j := Nat.pow_le_pow_right (by decide) (by omega)
    omega
  refine ⟨j, hj12, by rw [hu, hget, hj], fun hs => ?_⟩
  have hM : MAX_SIZE = 32768 := by decide
  have hus : u32 size = size := by unfold u32; omega
  rw [← hj, hus, alignment_rule_small size (by omega)]

theorem pow2_and_pred (k x : Nat) (hk : k < 64) :
    sub64 (2 ^ k) 1 = 2 ^ k - 1 ∧ x &&& sub64 (2 ^ k) 1 = x % 2 ^ k := by
  have h1 : 1 ≤ 2 ^ k := Nat.one_le_two_pow
  have h2 : 2 ^ k < 2 ^ 64 := Nat.pow_lt_pow_right (by decide) hk
  have e : sub64 (2 ^ k) 1 = 2 ^ k - 1 := by
    unfold sub64
    omega
  exact ⟨e, by rw [e, Nat.and_pow_two_sub_one_eq_mod]⟩

/-- The class that the loop of `posix_memalign` stops at has a block size that is a
multiple of the alignment, unless the loop has run through all classes. -/
theorem memalign_class_spec (k : Nat) (hk : k < 64) :
    ∀ (n cl0 cl : Nat), memalign_class (2 ^ k) n cl0 = some cl →
      cl0 ≤ cl ∧ (cl < cl0 + n → cl < NUM_CLASSES →
        ∃ sz, get_size_for_class cl = some sz ∧ sz % 2 ^ k = 0) := by
  intro n
  induction n with
  | zero =>
    intro cl0 cl h
    unfold memalign_class at h
    cases h
    exact ⟨le_refl _, fun h => absurd h (by omega)⟩
  | succ n ih =>
    intro cl0 cl h
    unfold memalign_class at h
    by_cases hc : cl0 < NUM_CLASSES
    · rw [if_pos hc] at h
      obtain ⟨sz, hsz, h⟩ := Option.bind_eq_some.mp h
      by_cases ha : sz &&& sub64 (2 ^ k) 1 ≠ 0
      · rw [if_pos ha] at h
        obtain ⟨h1, h2⟩ := ih (cl0 + 1) cl h
        exact ⟨by omega, fun h3 h4 => h2 (by omega) h4⟩
      · rw [if_neg ha] at h
        cases h
        refine ⟨le_refl _, fun _ _ => ⟨sz, hsz, ?_⟩⟩
        rw [← (pow2_and_pred k sz hk).2]
        exact not_not.mp ha
    · rw [if_neg hc] at h
      cases h
      exact ⟨le_refl _, fun _ h => absurd h hc⟩

/-- The pointer at which the loop `while ((ret_blk & (alignment - 1)) != 0)` of
`posix_memalign` ends is a multiple of the alignment. -/
theorem memalign_advance_aligned (k : Nat) (hk : k < 64) :
    ∀ (n p q : Nat), memalign_advance (2 ^ k) n p = some q → q % 2 ^ k = 0 := by
  intro n
  induction n with
  | zero =>
    intro p q h
    unfold memalign_advance at h
    by_cases ha : p &&& sub64 (2 ^ k) 1 ≠ 0
    · rw [if_pos ha] at h; exact absurd h (by simp)
    · rw [if_neg ha] at h
      cases h
      rw [← (pow2_and_pred k p hk).2]
      exact not_not.mp ha
  | succ n ih =>
    intro p q h
    unfold memalign_advance at h
    by_cases ha : p &&& sub64 (2 ^ k) 1 ≠ 0
    · rw [if_pos ha] at h
      exact ih _ q h
    · rw [if_neg ha] at h
      cases h
      rw [← (pow2_and_pred k p hk).2]
      exact not_not.mp ha

/-- In a live thread of an initialised process, `malloc` goes straight to the
allocator for the size. -/
theorem malloc_live (s : State) (t size : Nat) (hi : s.g_initialized ≠ 0)
    (ht : (s.thr t).thread_id ≠ 0) :
    malloc s t size =
      if size ≤ MAX_SIZE then (get_sizeclass size).bind fun cl => small_malloc s t cl
      else if GET_PAGE_LEN size ≤ NUM_PAGE_CLASSES then large_malloc s t (GET_PAGE_LEN size)
      else huge_malloc s t (GET_PAGE_LEN size) := by
  unfold malloc
  by_cases hc : s.cfg.MALLOC_NEED_INIT = true
  · simp only [hc, hi, ht, if_true, if_false, Option.bind_eq_bind, Option.some_bind,
      Option.pure_def]
  · simp only [hc, hi, if_false, Option.bind_eq_bind, Option.some_bind, Option.pure_def,
      Bool.false_eq_true]

/-- The blocks of `malloc` in a live thread: a small block lies a multiple of
`gcd(sz, PAGE_SIZE)` bytes after a page start, for the block size `sz` of its class;
a large or huge block starts at a page. -/
theorem malloc_aligned (s s' : State) (t size p : Nat) (hi : s.g_initialized ≠ 0)
    (ht : (s.thr t).thread_id ≠ 0) (hsrc : blocks_aligned s t)
    (hos : ∀ m a, s.os_mmap s.os_calls m = some a → PAGE_SIZE ∣ a)
    (h : malloc s t size = some (p, s')) :
    (size ≤ MAX_SIZE → ∀ cl sz, get_sizeclass size = some cl → get_size_for_class cl = some sz →
      Nat.gcd sz PAGE_SIZE ∣ p) ∧
    (MAX_SIZE < size → PAGE_SIZE ∣ p) := by
  rw [malloc_live s t size hi ht] at h
  constructor
  · intro hs cl sz hcl hsz
    rw [if_pos hs, hcl, Option.some_bind] at h
    exact small_malloc_aligned s s' t cl sz p hsz hsrc h
  · intro hs
    rw [if_neg (by omega)] at h
    by_cases hl : GET_PAGE_LEN size ≤ NUM_PAGE_CLASSES
    · rw [if_pos hl] at h
      exact large_malloc_aligned s s' t _ p hsrc.2 h
    · rw [if_neg hl] at h
      exact huge_malloc_aligned s s' t _ p hos h

theorem pow2_dvd_page (k : Nat) (hk : k ≤ 12) : 2 ^ k ∣ PAGE_SIZE := by
  show 2 ^ k ∣ 4096
  have : (4096 : Nat) = 2 ^ 12 := by norm_num
  rw [this]
  exact pow_dvd_pow 2 hk

theorem pow2_le_iff (j k : Nat) (h : 2 ^ j ≤ 2 ^ k) : j ≤ k :=
  (Nat.pow_le_pow_iff_right (by decide : 1 < 2)).mp h

/-- The loop that looks for the aligned page ends within `alignment / PAGE_SIZE`
rounds on a pointer to a page, and moves the pointer by less than the alignment. -/
theorem memalign_advance_some (A : Nat) (hA : PAGE_SIZE ∣ A) (hA64 : A ∣ 2 ^ 64) (hA0 : 0 < A)
    (hand : ∀ x, x &&& sub64 A 1 = x % A) :
    ∀ (n p : Nat), p < 2 ^ 64 → PAGE_SIZE ∣ p → (A - p % A) % A ≤ n * PAGE_SIZE →
      ∃ q, memalign_advance A n p = some q ∧ q < 2 ^ 64 ∧ sub64 q p = (A - p % A) % A := by
  have hP : PAGE_SIZE = 4096 := by decide
  rw [hP] at hA
  simp only [hP]
  obtain ⟨m, hm⟩ := hA
  have hsub : ∀ p, p < 2 ^ 64 → sub64 p p = 0 := by
    intro p hp
    unfold sub64
    omega
  have hA_le : A ≤ 2 ^ 64 := Nat.le_of_dvd (by norm_num) hA64
  have key : ∀ q p D : Nat, q < 2 ^ 64 → p < 2 ^ 64 → 4096 ≤ D → D < 2 ^ 64 →
      sub64 q (u64 (p + 4096)) = D - 4096 → sub64 q p = D := by
    intro q p D h1 h2 h3 h4 h5
    unfold sub64 u64 at *
    omega
  intro n
  induction n with
  | zero =>
    intro p hp hpd hle
    have hr0 : p % A = 0 := by
      by_contra hne
      have hlt := Nat.mod_lt p hA0
      have : (A - p % A) % A = A - p % A := Nat.mod_eq_of_lt (by omega)
      omega
    refine ⟨p, ?_, hp, ?_⟩
    · unfold memalign_advance
      rw [hand, hr0]
      simp
    · rw [hsub p hp, hr0, Nat.sub_zero, Nat.mod_self]
  | succ n ih =>
    intro p hp hpd hle
    by_cases hr0 : p % A = 0
    · refine ⟨p, ?_, hp, ?_⟩
      · unfold memalign_advance
        rw [hand, hr0]
        simp
      · rw [hsub p hp, hr0, Nat.sub_zero, Nat.mod_self]
    · have hlt := Nat.mod_lt p hA0
      obtain ⟨r0, hr⟩ : (4096 : Nat) ∣ p % A := (Nat.dvd_mod_iff ⟨m, hm⟩).mpr hpd
      have hD : (A - p % A) % A = A - p % A := Nat.mod_eq_of_lt (by omega)
      have hp' : u64 (p + 4096) < 2 ^ 64 := by unfold u64; exact Nat.mod_lt _ (by norm_num)
      have hpd' : (4096 : Nat) ∣ u64 (p + 4096) :=
        u64_dvd _ _ (by norm_num) (dvd_add hpd (dvd_refl _))
      have hr' : u64 (p + 4096) % A = (p % A + 4096) % A := by
        unfold u64
        rw [Nat.mod_mod_of_dvd _ hA64, Nat.add_mod]
        by_cases h1 : 4096 < A
        · rw [Nat.mod_eq_of_lt h1]
        · have hA1 : A = 4096 := by
            rcases m with _ | _ | m
            · omega
            · omega
            · omega
          subst hA1
          simp
      have hle' : p % A + 4096 ≤ A := by omega
      have hD' : (A - u64 (p + 4096) % A) % A = A - p % A - 4096 := by
        rw [hr']
        by_cases h2 : p % A + 4096 = A
        · rw [h2, Nat.mod_self, Nat.sub_zero, Nat.mod_self]
          omega
        · have e1 : (p % A + 4096) % A = p % A + 4096 := Nat.mod_eq_of_lt (by omega)
          rw [e1]
          have e2 : (A - (p % A + 4096)) % A = A - (p % A + 4096) := Nat.mod_eq_of_lt (by omega)
          rw [e2]
          omega
      have hle2 : A - p % A ≤ (n + 1) * 4096 := by rw [hD] at hle; exact hle
      obtain ⟨q, hq, hq64, hqs⟩ := ih (u64 (p + 4096)) hp' hpd' (by rw [hD']; omega)
      refine ⟨q, ?_, hq64, ?_⟩
      · unfold memalign_advance
        rw [hand, if_pos hr0]
        exact hq
      · rw [hD]
        rw [hD'] at hqs
        exact key q p (A - p % A) hq64 hp (by omega) (by omega) hqs

/-! ## C10: `malloc` followed by `free` of the block -/

/-- A read of the PageMap entry of a page whose levels exist, by a thread whose leaf
cache is sound, returns the entry of the tree and changes the leaf cache only. -/
theorem pagemap_get_spec (s : State) (t pg : Nat) (hh : pm_has s pg) (hc : cache_ok s t) :
    ∃ s', pagemap_get s t pg = some (pagemap_get_checked s pg, s') ∧ no_pm s' = no_pm s ∧
      cache_ok s' t ∧ s'.pm_val = s.pm_val := by
  have hval := (pagemap_get_checked_eq s pg).1 hh
  obtain ⟨h1, h2, h3⟩ := hh
  have hne : ¬ pm_leaf_of s pg = 0 := h3
  by_cases hcfg : s.cfg.MALLOC_USE_PAGEMAP_CACHE = true
  · have hck := hc hcfg
    by_cases htag : (s.thr t).l_pagemap_tag = pg >>> PMAP_LEAF_BIT
    · have hlf : (s.thr t).l_pagemap_leaf = pm_leaf_of s pg := by
        rw [hck, htag, pm_index_split]; rfl
      have hl : pagemap_cache_load s t (pg >>> PMAP_LEAF_BIT) = some s := by
        unfold pagemap_cache_load
        rw [if_neg (not_not.mpr htag)]
      refine ⟨s, ?_, rfl, hc, rfl⟩
      simp only [pagemap_get, hcfg, if_true, hl, Option.some_bind, hlf, hne, if_false, hval]
    · have hlt := pm_index_lt pg h1
      obtain ⟨s1, hs1⟩ : ∃ s1, s1 = set_tlh s t { s.thr t with
          l_pagemap_tag := pg >>> PMAP_LEAF_BIT, l_pagemap_leaf := pm_leaf_of s pg } := ⟨_, rfl⟩
      have hl : pagemap_cache_load s t (pg >>> PMAP_LEAF_BIT) = some s1 := by
        unfold pagemap_cache_load
        rw [if_pos htag, pm_index_split, hs1]
        simp only [hlt, h2, not_true_eq_false, if_false]
        rfl
      have hthr : s1.thr t = { s.thr t with
          l_pagemap_tag := pg >>> PMAP_LEAF_BIT, l_pagemap_leaf := pm_leaf_of s pg } := by
        rw [hs1]; simp [set_tlh, upd]
      have hpv : s1.pm_val = s.pm_val := by rw [hs1]; rfl
      refine ⟨s1, ?_, ?_, ?_, hpv⟩
      · simp only [pagemap_get, hcfg, if_true, hl, Option.some_bind, hthr, hne, if_false, hval,
          hpv]
      · rw [hs1, no_pm_set_cache]
      · intro _
        show (s1.thr t).l_pagemap_leaf = s1.pm_leaf (s1.pm_node ((s1.thr t).l_pagemap_tag >>>
          PMAP_INTERIOR_BIT)) ((s1.thr t).l_pagemap_tag &&& (PMAP_INTERIOR_LEN - 1))
        rw [hthr]
        simp only [pm_index_split]
        rw [hs1]
        rfl
  · have hcfg' : s.cfg.MALLOC_USE_PAGEMAP_CACHE = false := by simpa using hcfg
    refine ⟨s, ?_, rfl, hc, rfl⟩
    have h2' : ¬ s.pm_node (pg >>> (PMAP_LEAF_BIT + PMAP_INTERIOR_BIT)) = 0 := h2
    have h3' : ¬ s.pm_leaf (s.pm_node (pg >>> (PMAP_LEAF_BIT + PMAP_INTERIOR_BIT)))
        ((pg >>> PMAP_LEAF_BIT) &&& (PMAP_INTERIOR_LEN - 1)) = 0 := h3
    simp only [pagemap_get, hcfg', Bool.false_eq_true, if_false, h1, ne_eq, not_true_eq_false,
      h2', h3', hval]
    rfl

/-- The call `pagemap_expand(page_id, 1)` on a page whose levels exist changes
nothing. -/
theorem pagemap_expand_present (s : State) (pg : Nat) (hh : pm_has s pg) :
    pagemap_expand s pg 1 = some s := by
  obtain ⟨h1, h2, h3⟩ := hh
  have hlt := pm_index_lt pg h1
  have hlt2 : (pg >>> PMAP_LEAF_BIT) &&& (PMAP_INTERIOR_LEN - 1) < PMAP_INTERIOR_LEN := by
    have : PMAP_INTERIOR_LEN = 2 ^ 17 := by decide
    rw [this, Nat.and_pow_two_sub_one_eq_mod]
    exact Nat.mod_lt _ (by decide)
  have hround : pagemap_expand_round s pg =
      some (s, u64 (((pg >>> PMAP_LEAF_BIT) + 1) <<< PMAP_LEAF_BIT)) := by
    unfold pagemap_expand_round
    have hnn : ¬ ¬ (pg >>> (PMAP_LEAF_BIT + PMAP_INTERIOR_BIT) < PMAP_INTERIOR_LEN ∧
        (pg >>> PMAP_LEAF_BIT) &&& (PMAP_INTERIOR_LEN - 1) < PMAP_INTERIOR_LEN) :=
      not_not.mpr ⟨hlt, hlt2⟩
    simp only [hnn, if_false, h2, h3, Option.some_bind, Option.map_some']
  have hpg52 : pg < 2 ^ 52 := by
    simp only [PMAP_BITS, MACHINE_BIT, PAGE_SHIFT, Nat.shiftRight_eq_div_pow] at h1
    norm_num at h1
    omega
  have hlim : u64 (pg + 1) = pg + 1 := by unfold u64; omega
  have hkey : ¬ u64 (((pg >>> PMAP_LEAF_BIT) + 1) <<< PMAP_LEAF_BIT) < pg + 1 := by
    simp only [PMAP_LEAF_BIT, PMAP_BITS, PMAP_INTERIOR_BIT, MACHINE_BIT, PAGE_SHIFT, u64,
      Nat.shiftRight_eq_div_pow, Nat.shiftLeft_eq]
    norm_num
    omega
  have e1 : ∀ (limit fuel : Nat) (s : State) (key : Nat),
      pagemap_expand_loop limit (fuel + 1) s key =
        if key < limit then
          (pagemap_expand_round s key).bind fun (x : State × Nat) =>
            pagemap_expand_loop limit fuel x.1 x.2
        else some s := fun _ _ _ _ => rfl
  have e0 : ∀ (limit : Nat) (s : State) (key : Nat), pagemap_expand_loop limit 0 s key =
      if key < limit then none else some s := fun _ _ _ => rfl
  unfold pagemap_expand
  rw [hlim, e1 (pg + 1) 0 s pg, if_pos (Nat.lt_succ_self pg), hround, Option.some_bind, e0,
    if_neg hkey]

/-- The shape of the heap of a thread depends on the entries of the PageMap and on
the thread-local data without the leaf cache. -/
theorem heap_shape_congr (s s' : State) (t : Nat)
    (hpm : ∀ q, pagemap_get_checked s' q = pagemap_get_checked s q)
    (hthr : clear_cache (s'.thr t) = clear_cache (s.thr t)) (pg cl : Nat) :
    heap_shape s' t pg cl = heap_shape s t pg cl := by
  obtain ⟨h1, h2, h3, _⟩ := clear_cache_lists _ _ hthr
  unfold heap_shape free_pb_heads
  rw [hpm, h1, h2, h3]

/-- In a live thread, `free` of a pointer other than `NULL` looks up the page of the
pointer. -/
theorem free_live (s : State) (t p : Nat) (hp : p ≠ 0) (ht : (s.thr t).thread_id ≠ 0) :
    free s t p =
      (pagemap_get s t (p >>> PAGE_SHIFT)).bind fun r =>
        if r.1 = 0 then none
        else if r.1 &&& HUGE_MALLOC_MARK ≠ 0 then
          huge_free r.2 t p (r.1 - (r.1 &&& HUGE_MALLOC_MARK))
        else if (r.2.pbh r.1).sizeclass < NUM_CLASSES then small_free r.2 t p r.1
        else large_free r.2 t p r.1 := by
  unfold free
  simp only [ht, and_false, if_false, Option.bind_eq_bind, Option.some_bind, hp,
    Option.pure_def]

/-- The round trip of a huge size. In a live thread, for a request of more than 62
pages that `mmap` answers with `p`, when the levels of the PageMap exist for the
page of `p`, its entry is `NULL`, and no node of the PageMap lies in the mapped
range: `malloc(size)` returns `p`, `free(p)` returns, the mapping is handed back to
the system, and the shape of the heap is the one before the two calls. -/
theorem huge_round_trip (s : State) (t size p : Nat)
    (hsize : NUM_PAGE_CLASSES * PAGE_SIZE < size)
    (hinit : s.g_initialized ≠ 0) (hlive : (s.thr t).thread_id ≠ 0)
    (hmm : s.os_mmap s.os_calls (u64 (GET_PAGE_LEN size <<< PAGE_SHIFT)) = some p)
    (hp0 : p ≠ 0)
    (hhas : pm_has s (p >>> PAGE_SHIFT)) (hc : cache_ok s t)
    (hzero : pagemap_get_checked s (p >>> PAGE_SHIFT) = 0)
    (hnode : ∀ i, ¬ (p ≤ s.pm_node i ∧
      s.pm_node i < p + u64 (GET_PAGE_LEN size <<< PAGE_SHIFT)))
    (hleaf : ∀ i j, ¬ (p ≤ s.pm_leaf (s.pm_node i) j ∧
      s.pm_leaf (s.pm_node i) j < p + u64 (GET_PAGE_LEN size <<< PAGE_SHIFT))) :
    ∃ s1 s2, malloc s t size = some (p, s1) ∧ free s1 t p = some s2 ∧
      (∀ pg cl, heap_shape s2 t pg cl = heap_shape s t pg cl) ∧
      s2.os_unmapped = (p, u64 (GET_PAGE_LEN size <<< PAGE_SHIFT)) :: s.os_unmapped := by
  obtain ⟨sz, hsz⟩ : ∃ sz, sz = u64 (GET_PAGE_LEN size <<< PAGE_SHIFT) := ⟨_, rfl⟩
  rw [← hsz] at hmm hnode hleaf ⊢
  have hev : sz % 2 = 0 := by
    rw [hsz]
    simp only [u64, PAGE_SHIFT, Nat.shiftLeft_eq]
    omega
  obtain ⟨hor, hand⟩ := or_one_of_even sz hev
  obtain ⟨pg, hpg⟩ : ∃ pg, pg = p >>> PAGE_SHIFT := ⟨_, rfl⟩
  rw [← hpg] at hhas hzero
  -- the mapping
  obtain ⟨sA, hsA⟩ : ∃ sA, sA = zero_range { s with os_calls := s.os_calls + 1 } p sz := ⟨_, rfl⟩
  have hmap : do_mmap s sz = some (p, sA) := by rw [hsA]; exact do_mmap_some s sz p hmm
  have hAn : sA.pm_node = s.pm_node := by rw [hsA]; rfl
  have hAl : ∀ i, sA.pm_leaf (s.pm_node i) = s.pm_leaf (s.pm_node i) := by
    intro i
    rw [hsA]
    show (if p ≤ s.pm_node i ∧ s.pm_node i < p + sz then (fun _ => 0)
      else s.pm_leaf (s.pm_node i)) = _
    rw [if_neg (hnode i)]
  have hAv : ∀ i j, sA.pm_val (s.pm_leaf (s.pm_node i) j) = s.pm_val (s.pm_leaf (s.pm_node i) j) := by
    intro i j
    rw [hsA]
    show (if p ≤ s.pm_leaf (s.pm_node i) j ∧ s.pm_leaf (s.pm_node i) j < p + sz then (fun _ => 0)
      else s.pm_val (s.pm_leaf (s.pm_node i) j)) = _
    rw [if_neg (hleaf i j)]
  have hAthr : sA.thr = s.thr := by rw [hsA]; rfl
  have hAcfg : sA.cfg = s.cfg := by rw [hsA]; rfl
  have hAhas : ∀ q, pm_has sA q ↔ pm_has s q := by
    intro q
    unfold pm_has
    rw [hAn, hAl]
  have hAlf : ∀ q, pm_leaf_of sA q = pm_leaf_of s q := by
    intro q
    unfold pm_leaf_of
    rw [hAn, hAl]
  have hAchk : ∀ q, pagemap_get_checked sA q = pagemap_get_checked s q := by
    intro q
    unfold pagemap_get_checked
    simp only [hAn, hAl, hAv]
  have hAc : cache_ok sA t := by
    unfold cache_ok at hc ⊢
    rw [hAcfg, hAthr, hAn, hAl]
    exact hc
  have hAhas' : pm_has sA pg := (hAhas pg).mpr hhas
  -- the entry is written
  have hexp : pagemap_expand sA pg 1 = some sA := pagemap_expand_present sA pg hAhas'
  obtain ⟨sC, hset, hCpm, hCc, hCv⟩ := pagemap_set_spec sA t pg (sz ||| HUGE_MALLOC_MARK) hAhas' hAc
  obtain ⟨_, _, _, _, hCn, hCl, _, _, _, _, hCu, hCcfg, hCthr⟩ := no_pm_fields sA sC hCpm
  have hm : malloc s t size = some (p, sC) := by
    rw [malloc_huge_live s t size hsize hinit hlive]
    simp only [huge_malloc, ← hsz, hmap, Option.bind_eq_bind, Option.some_bind, Option.pure_def,
      ← hpg, hexp, hset]
  have hChas : pm_has sC pg := (pm_has_congr sA sC hCn hCl pg).1.mpr hAhas'
  have hCval : pagemap_get_checked sC pg = sz ||| HUGE_MALLOC_MARK := by
    rw [(pagemap_get_checked_eq sC pg).1 hChas, (pm_has_congr sA sC hCn hCl pg).2, hCv]
    simp [upd]
  -- the lookup of `free`
  obtain ⟨sC', hget, hC'pm, hC'c, hC'v⟩ := pagemap_get_spec sC t pg hChas hCc
  rw [hCval] at hget
  obtain ⟨_, _, _, _, hC'n, hC'l, _, _, _, _, hC'u, hC'cfg, hC'thr⟩ := no_pm_fields sC sC' hC'pm
  -- the entry is reset
  have hDhas : pm_has (do_munmap sC' p sz) pg :=
    (pm_has_congr sC (do_munmap sC' p sz) hC'n hC'l pg).1.mpr hChas
  have hDc : cache_ok (do_munmap sC' p sz) t := hC'c
  obtain ⟨sD, hsetD, hDpm, _, hDv⟩ := pagemap_set_spec (do_munmap sC' p sz) t pg 0 hDhas hDc
  obtain ⟨_, _, _, _, hDn, hDl, _, _, _, _, hDu, _, hDthr⟩ :=
    no_pm_fields (do_munmap sC' p sz) sD hDpm
  have hliveC : (sC.thr t).thread_id ≠ 0 := by
    rw [(clear_cache_lists _ _ (hCthr t)).2.2.2, hAthr]; exact hlive
  have hv0 : sz ||| HUGE_MALLOC_MARK ≠ 0 := by
    show sz ||| 1 ≠ 0
    rw [hor]; omega
  have hv1 : (sz ||| HUGE_MALLOC_MARK) &&& HUGE_MALLOC_MARK ≠ 0 := by
    show (sz ||| 1) &&& 1 ≠ 0
    rw [hand]; decide
  have hsub : (sz ||| HUGE_MALLOC_MARK) - ((sz ||| HUGE_MALLOC_MARK) &&& HUGE_MALLOC_MARK) = sz := by
    show (sz ||| 1) - ((sz ||| 1) &&& 1) = sz
    rw [hand, hor]; omega
  have hfree : free sC t p = some sD := by
    rw [free_live sC t p hp0 hliveC, ← hpg, hget, Option.some_bind]
    simp only [hv0, hv1, ne_eq, not_true_eq_false, not_false_eq_true, if_true, if_false, hsub,
      huge_free, ← hpg, hsetD]
  refine ⟨sC, sD, hm, hfree, ?_, ?_⟩
  · -- the shape
    have hnodeD : sD.pm_node = sA.pm_node := hDn.trans (hC'n.trans hCn)
    have hleafD : sD.pm_leaf = sA.pm_leaf := hDl.trans (hC'l.trans hCl)
    have hlfD : pm_leaf_of (do_munmap sC' p sz) pg = pm_leaf_of sA pg :=
      (pm_has_congr sA (do_munmap sC' p sz) (hC'n.trans hCn) (hC'l.trans hCl) pg).2
    have hvalD : (do_munmap sC' p sz).pm_val = sC.pm_val := hC'v
    have hz : sA.pm_val (pm_leaf_of sA pg) (pg &&& (PMAP_LEAF_LEN - 1)) = 0 := by
      rw [← (pagemap_get_checked_eq sA pg).1 hAhas', hAchk, hzero]
    have hpv : sD.pm_val = sA.pm_val := by
      rw [hDv, hlfD, hvalD, hCv]
      funext a b
      by_cases ha : a = pm_leaf_of sA pg
      · subst ha
        by_cases hb : b = pg &&& (PMAP_LEAF_LEN - 1)
        · subst hb
          simp [upd, hz]
        · simp [upd, hb]
      · simp [upd, ha]
    intro q cl
    apply heap_shape_congr
    · intro q'
      rw [pagemap_get_checked_congr sA sD hnodeD hleafD hpv q', hAchk]
    · rw [hDthr t]
      show clear_cache (sC'.thr t) = _
      rw [hC'thr t, hCthr t, hAthr]
  · rw [hDu]
    show (p, sz) :: sC'.os_unmapped = _
    rw [hC'u, hCu, hsA]
    rfl

theorem set_pb_cache_thr (s : State) (t : Nat) (c : pb_cache_t) :
    ((set_pb_cache s t c).thr t) = { s.thr t with pb_cache := c } := by
  simp [set_pb_cache, set_tlh, upd]

theorem pagemap_cache_load_set_pb_cache (s s' : State) (t tag : Nat) (c : pb_cache_t)
    (h : pagemap_cache_load s t tag = some s') :
    pagemap_cache_load (set_pb_cache s t c) t tag = some (set_pb_cache s' t c) ∧
    (s'.thr t).pb_cache = (s.thr t).pb_cache ∧ s'.mem = s.mem ∧ s'.pbh = s.pbh ∧
    s'.sph = s.sph ∧ (s'.thr t).thread_id = (s.thr t).thread_id ∧
    s'.pm_val = s.pm_val ∧ s'.cfg = s.cfg := by
  unfold pagemap_cache_load at h ⊢
  rw [set_pb_cache_thr]
  by_cases h1 : (s.thr t).l_pagemap_tag ≠ tag
  · rw [if_pos h1] at h
    rw [if_pos h1]
    by_cases h2 : tag >>> PMAP_INTERIOR_BIT < PMAP_INTERIOR_LEN
    · by_cases h3 : s.pm_node (tag >>> PMAP_INTERIOR_BIT) = 0
      · simp [h2, h3] at h
      · simp only [h2, h3, not_true_eq_false, if_false, Option.some.injEq] at h
        subst h
        have h3' : (set_pb_cache s t c).pm_node (tag >>> PMAP_INTERIOR_BIT) ≠ 0 := h3
        simp only [h2, h3', not_true_eq_false, if_false]
        simp [set_pb_cache, set_tlh, upd_same, upd_upd]
    · simp [h2] at h
  · rw [if_neg h1] at h
    rw [if_neg h1]
    cases h
    simp

/-- A PageMap lookup is not affected by a write of the page block cache, and
commutes with it. -/
theorem pagemap_get_set_pb_cache (s s' : State) (t pg val : Nat) (c : pb_cache_t)
    (h : pagemap_get s t pg = some (val, s')) :
    pagemap_get (set_pb_cache s t c) t pg = some (val, set_pb_cache s' t c) ∧
    (s'.thr t).pb_cache = (s.thr t).pb_cache ∧ s'.mem = s.mem ∧ s'.pbh = s.pbh ∧
    s'.sph = s.sph ∧ (s'.thr t).thread_id = (s.thr t).thread_id ∧ s'.cfg = s.cfg := by
  by_cases hc : s.cfg.MALLOC_USE_PAGEMAP_CACHE = true
  · have hc' : (set_pb_cache s t c).cfg.MALLOC_USE_PAGEMAP_CACHE = true := hc
    simp only [pagemap_get, hc, if_true, Option.bind_eq_some] at h
    obtain ⟨s2, hl, h⟩ := h
    obtain ⟨hl', hb, hm, hp, hs, ht, hv, hcf⟩ := pagemap_cache_load_set_pb_cache s s2 t _ c hl
    by_cases h0 : (s2.thr t).l_pagemap_leaf = 0
    · simp [h0] at h
    · simp only [h0, if_false, Option.some.injEq, Prod.mk.injEq] at h
      obtain ⟨hval, rfl⟩ := h
      refine ⟨?_, hb, hm, hp, hs, ht, hcf⟩
      simp only [pagemap_get, hc', if_true, hl', Option.some_bind]
      have e1 : ((set_pb_cache s2 t c).thr t).l_pagemap_leaf = (s2.thr t).l_pagemap_leaf := by
        rw [set_pb_cache_thr]
      have e2 : (set_pb_cache s2 t c).pm_val = s2.pm_val := rfl
      rw [e1, e2, if_neg h0, hval]
  · have hc' : ¬ (set_pb_cache s t c).cfg.MALLOC_USE_PAGEMAP_CACHE = true := hc
    have hs : s' = s := ((pagemap_get_state s t pg val s' h).1 (by simpa using hc))
    subst hs
    refine ⟨?_, rfl, rfl, rfl, rfl, rfl, rfl⟩
    simp only [pagemap_get, hc, hc'] at h ⊢
    exact (by
      split_ifs at h ⊢ <;> simp_all [set_pb_cache, set_tlh])

theorem pb_cache_touch_some (c : pb_cache_t) (pos : Nat) (h : pos < NUM_PB_CACHE_WAY) :
    ∃ w, g_way_table[pos]? = some w ∧
      pb_cache_touch c pos = some { c with state := u8 ((c.state &&& w.1) ||| w.2) } := by
  have hl : pos < g_way_table.length := h
  refine ⟨g_way_table[pos], List.getElem?_eq_getElem hl, ?_⟩
  unfold pb_cache_touch
  rw [List.getElem?_eq_getElem hl]
  rfl

theorem pb_cache_hit_lt (c : pb_cache_t) (v pos : Nat) (h : pb_cache_hit c v = some pos) :
    pos < NUM_PB_CACHE_WAY := by
  unfold pb_cache_hit at h
  have := List.mem_of_find?_eq_some h
  simpa using this

theorem pb_cache_hit_congr (c c' : pb_cache_t) (v : Nat) (h : c'.tag = c.tag) :
    pb_cache_hit c' v = pb_cache_hit c v := by
  unfold pb_cache_hit
  rw [h]

/-- The round trip of a large size through the page block cache. In a live thread
with `MALLOC_USE_PAGE_BLOCK_CACHE`, when the way of the cache for the page length
of the request holds one or two page blocks, the first of them at `p`, and the page
of `p` is registered to a large page block of that length: `malloc(size)` returns
`p` and the `free(p)` that follows leaves the state `s'` of a PageMap lookup from
the prior state, up to the LRU state of the page block cache. -/
theorem large_cached_round_trip (s s' : State) (t size p pos pbh : Nat)
    (hsize : MAX_SIZE < size) (hlen : GET_PAGE_LEN size ≤ NUM_PAGE_CLASSES)
    (hinit : s.g_initialized ≠ 0) (hlive : (s.thr t).thread_id ≠ 0)
    (hcfg : s.cfg.MALLOC_USE_PAGE_BLOCK_CACHE = true)
    (hhit : pb_cache_hit (s.thr t).pb_cache (u8 (GET_PAGE_LEN size)) = some pos)
    (hdata : ((s.thr t).pb_cache.block pos).data = p) (hp : p ≠ 0)
    (hcnt1 : 1 ≤ ((s.thr t).pb_cache.block pos).length)
    (hcnt2 : ((s.thr t).pb_cache.block pos).length ≤ 2)
    (hget : pagemap_get s t (p >>> PAGE_SHIFT) = some (pbh, s'))
    (h0 : pbh ≠ 0) (hnh : pbh &&& HUGE_MALLOC_MARK = 0)
    (hcls : ¬ (s.pbh pbh).sizeclass < NUM_CLASSES)
    (hpl : u8 (s.pbh pbh).length = u8 (GET_PAGE_LEN size)) :
    ∃ s1 s2 st, malloc s t size = some (p, s1) ∧ free s1 t p = some s2 ∧
      s2 = set_pb_cache s' t { (s'.thr t).pb_cache with state := st } := by
  obtain ⟨n, hn⟩ : ∃ n, n = GET_PAGE_LEN size := ⟨_, rfl⟩
  rw [← hn] at hlen hhit hpl
  obtain ⟨c, hc⟩ : ∃ c, c = (s.thr t).pb_cache := ⟨_, rfl⟩
  rw [← hc] at hhit hdata hcnt1 hcnt2
  have hpos := pb_cache_hit_lt c _ pos hhit
  obtain ⟨w, hw, htouch⟩ := pb_cache_touch_some c pos hpos
  obtain ⟨len, hlenb⟩ : ∃ len, len = (c.block pos).length := ⟨_, rfl⟩
  rw [← hlenb] at hcnt1 hcnt2
  have hblk : c.block pos = ⟨p, len⟩ := by
    rw [← hdata, hlenb]
  obtain ⟨st1, hst1⟩ : ∃ st1, st1 = u8 ((c.state &&& w.1) ||| w.2) := ⟨_, rfl⟩
  rw [← hst1] at htouch
  -- the state after `malloc`
  obtain ⟨c2, hc2⟩ : ∃ c2 : pb_cache_t, c2 =
      { block := upd c.block pos ⟨GET_NEXT s p, sub64 len 1⟩, tag := c.tag, state := st1 } :=
    ⟨_, rfl⟩
  have hm : malloc s t size = some (p, set_pb_cache s t c2) := by
    rw [malloc_live s t size hinit hlive, if_neg (by omega), ← hn, if_pos hlen]
    unfold large_malloc
    simp only [hcfg, if_true, ← hc, hhit, Option.bind_eq_bind, Option.pure_def, htouch,
      Option.some_bind, hblk, ne_eq, hp, not_false_eq_true, hc2]
  obtain ⟨hget1, hpc, hmem, hpbh, hsph, htid, hcf⟩ := pagemap_get_set_pb_cache s s' t _ pbh c2 hget
  have hlive1 : ((set_pb_cache s t c2).thr t).thread_id ≠ 0 := by
    rw [set_pb_cache_thr]; exact hlive
  have hsub : sub64 len 1 = len - 1 := by unfold sub64; omega
  have hu : u64 (len - 1 + 1) = len := by unfold u64; omega
  obtain ⟨w', hw', htouch2⟩ := pb_cache_touch_some
    { block := c.block, tag := c.tag, state := st1 } pos hpos
  rw [hw] at hw'
  cases hw'
  have hf : free (set_pb_cache s t c2) t p =
      some (set_pb_cache s' t { (s'.thr t).pb_cache with state := u8 ((st1 &&& w.1) ||| w.2) }) := by
    rw [free_live _ t p hp hlive1, hget1, Option.some_bind]
    have hcls' : ¬ ((set_pb_cache s' t c2).pbh pbh).sizeclass < NUM_CLASSES := by
      show ¬ (s'.pbh pbh).sizeclass < NUM_CLASSES
      rw [hpbh]; exact hcls
    simp only [h0, hnh, hcls', ne_eq, not_true_eq_false, if_false]
    unfold large_free
    have hcfg' : (set_pb_cache s' t c2).cfg.MALLOC_USE_PAGE_BLOCK_CACHE = true := by
      show s'.cfg.MALLOC_USE_PAGE_BLOCK_CACHE = true
      rw [hcf]; exact hcfg
    have hthr : ((set_pb_cache s' t c2).thr t).pb_cache = c2 := by rw [set_pb_cache_thr]
    have hv : u8 ((set_pb_cache s' t c2).pbh pbh).length = u8 n := by
      show u8 (s'.pbh pbh).length = u8 n
      rw [hpbh]; exact hpl
    have hhit2 : pb_cache_hit c2 (u8 n) = some pos := by
      rw [pb_cache_hit_congr c c2 (u8 n) (by rw [hc2]), hhit]
    have hb2 : c2.block pos = ⟨GET_NEXT s p, len - 1⟩ := by
      rw [hc2]
      simp [upd, hsub]
    have hlt2 : (len - 1 : Nat) < 2 := by omega
    simp only [hcfg', if_true, hthr, hv, hhit2, hb2, hlt2, Option.bind_eq_bind, Option.some_bind,
      Option.pure_def]
    have hmem' : (set_pb_cache s' t c2).mem = s.mem := hmem
    rw [SET_NEXT_GET_NEXT s (set_pb_cache s' t c2) p hmem']
    have hc3 : ({ c2 with block := upd c2.block pos ⟨p, u64 (len - 1 + 1)⟩ } : pb_cache_t) =
        { block := c.block, tag := c.tag, state := st1 } := by
      rw [hc2, hu]
      simp only [upd_upd]
      rw [← hblk, upd_self]
    rw [hc3]
    have hthr3 : ((set_pb_cache (set_pb_cache s' t c2) t
        { block := c.block, tag := c.tag, state := st1 }).thr t).pb_cache =
        { block := c.block, tag := c.tag, state := st1 } := by rw [set_pb_cache_thr]
    rw [hthr3, htouch2]
    simp only [Option.some_bind, Option.some.injEq]
    have hpc' : (s'.thr t).pb_cache = c := by rw [hpc, hc]
    rw [hpc']
    simp [set_pb_cache, set_tlh, upd_same, upd_upd]
  exact ⟨_, _, _, hm, hf, rfl⟩

/-! ### The heads of the free page block lists -/

theorem set_free_pb_thr (s : State) (t c v : Nat) :
    (set_free_pb s t c v).thr t = { s.thr t with free_pb_list := upd (s.thr t).free_pb_list c v } := by
  simp [set_free_pb, set_tlh, upd]

theorem free_pb_valid (c : Nat) (hc : c < NUM_PAGE_CLASSES) :
    (pbh_list_ref.free_pb c).valid = true := by
  simp [pbh_list_ref.valid, hc]

theorem free_pb_ref_some (len : Nat) (h1 : 1 ≤ len) (h2 : len ≤ NUM_PAGE_CLASSES) :
    free_pb_ref len = some (.free_pb (len - 1)) := by
  unfold free_pb_ref
  rw [if_pos ⟨h1, h2⟩]

/-- The call `pbh_list_pop(&tlh->free_pb_list[c])` on a list that is not empty
returns its first header and leaves the second one as the first, if there is
one. -/
theorem pbh_list_pop_free_pb (s : State) (t c H : Nat) (hc : c < NUM_PAGE_CLASSES)
    (hH : (s.thr t).free_pb_list c = H) (h0 : H ≠ 0) :
    ∃ s', pbh_list_pop s t (.free_pb c) = some (H, s') ∧ no_links s' = no_links s ∧
      (s'.thr t).free_pb_list = upd (s.thr t).free_pb_list c
        (if H ≠ (s.pbh H).next then (s.pbh H).next else 0) := by
  have hv := free_pb_valid c hc
  have hhead : list_head s t (.free_pb c) = H := hH
  unfold pbh_list_pop
  simp only [hv, not_true_eq_false, if_false, hhead, h0]
  refine ⟨_, rfl, ?_, ?_⟩
  · rw [no_links_pbh_link_init, no_links_pbh_unlink, no_links_set_list_head]
  · show ((set_free_pb s t c _).thr t).free_pb_list = _
    rw [set_free_pb_thr]

/-- The call `pbh_list_prepend(&tlh->free_pb_list[c], X)` makes `X` the first header
of the list, and the former first header the one after `X`. -/
theorem pbh_list_prepend_free_pb (s : State) (t c X : Nat) (hc : c < NUM_PAGE_CLASSES) :
    ∃ s', pbh_list_prepend s t (.free_pb c) X = some s' ∧ no_links s' = no_links s ∧
      (s'.thr t).free_pb_list = upd (s.thr t).free_pb_list c X ∧
      (((s.thr t).free_pb_list c = 0 ∨
          ((s.thr t).free_pb_list c ≠ X ∧ (s.pbh ((s.thr t).free_pb_list c)).prev ≠ X)) →
        (s'.pbh X).next =
          if (s.thr t).free_pb_list c ≠ 0 then (s.thr t).free_pb_list c else X) := by
  have hv := free_pb_valid c hc
  obtain ⟨M, hM⟩ : ∃ M, M = (s.thr t).free_pb_list c := ⟨_, rfl⟩
  have hhead : list_head s t (.free_pb c) = M := hM.symm
  rw [← hM]
  unfold pbh_list_prepend
  simp only [hv, not_true_eq_false, if_false, hhead]
  refine ⟨_, rfl, ?_, ?_, ?_⟩
  · rw [no_links_set_list_head]
    split
    · exact no_links_pbh_link_before _ _ _
    · exact no_links_pbh_link_init _ _
  · show ((set_free_pb _ t c X).thr t).free_pb_list = _
    rw [set_free_pb_thr]
    by_cases hm : M ≠ 0
    · rw [if_pos hm]; rfl
    · rw [if_neg hm]; rfl
  · intro hcond
    show ((if M ≠ 0 then pbh_link_before s M X else pbh_link_init s X).pbh X).next = _
    by_cases hm : M ≠ 0
    · rw [if_pos hm, if_pos hm]
      rcases hcond with h | ⟨h1, h2⟩
      · exact absurd h hm
      · unfold pbh_link_before
        simp only [set_pbh, upd]
        have e1 : ¬ X = M := fun e => h1 e.symm
        have e2 : ¬ M = X := h1
        simp only [e1, e2, if_false, if_true]
        have e3 : ¬ X = (s.pbh M).prev := fun e => h2 e.symm
        simp only [e3, if_false]
    · rw [if_neg hm, if_neg hm]
      simp [pbh_link_init, set_pbh, upd]

/-- The call `pbh_list_remove(&tlh->free_pb_list[c], X)` on the first header of the
list leaves the header after it as the first, if there is one. -/
theorem pbh_list_remove_free_pb (s : State) (t c X : Nat) (hc : c < NUM_PAGE_CLASSES)
    (hX : (s.thr t).free_pb_list c = X) :
    ∃ s', pbh_list_remove s t (.free_pb c) X = some s' ∧ no_links s' = no_links s ∧
      (s'.thr t).free_pb_list = upd (s.thr t).free_pb_list c
        (if X = (s.pbh X).next then 0 else (s.pbh X).next) := by
  have hv := free_pb_valid c hc
  have hhead : list_head s t (.free_pb c) = X := hX
  unfold pbh_list_remove
  simp only [hv, not_true_eq_false, if_false, hhead]
  by_cases hx : X = (s.pbh X).next
  · rw [if_pos hx, if_pos hx]
    simp only [ne_eq, not_true_eq_false, if_false]
    refine ⟨_, rfl, no_links_set_list_head _ _ _ _, ?_⟩
    show ((set_free_pb s t c 0).thr t).free_pb_list = _
    rw [set_free_pb_thr]
  · rw [if_neg hx, if_neg hx]
    simp only [if_true]
    refine ⟨_, rfl, ?_, ?_⟩
    · rw [no_links_pbh_link_init, no_links_pbh_unlink, no_links_set_list_head]
    · show ((set_free_pb s t c _).thr t).free_pb_list = _
      rw [set_free_pb_thr]

theorem tlh_same_refl (x : tlh_t) : tlh_same x x := ⟨fun _ => ⟨rfl, rfl⟩, rfl, rfl⟩

theorem tlh_same_trans (x y z : tlh_t) (h1 : tlh_same x y) (h2 : tlh_same y z) : tlh_same x z :=
  ⟨fun cl => ⟨(h1.1 cl).1.trans (h2.1 cl).1, (h1.1 cl).2.trans (h2.1 cl).2⟩,
    h1.2.1.trans h2.2.1, h1.2.2.trans h2.2.2⟩

theorem tlh_same_of_nolists (x y : tlh_t) (h : tlh_nolists x = tlh_nolists y) : tlh_same x y := by
  have key : ∀ {β : Type} (f : tlh_t → β), f (tlh_nolists x) = f (tlh_nolists y) :=
    fun f => congrArg f h
  exact ⟨fun cl => ⟨key (fun v => (v.blk_list cl).free_blk_list),
    key (fun v => (v.blk_list cl).cnt_free)⟩, key tlh_t.sp_list, key tlh_t.thread_id⟩

theorem tlh_same_of_clear_cache (x y : tlh_t) (h : clear_cache x = clear_cache y) :
    tlh_same x y := by
  obtain ⟨_, h2, h3, h4⟩ := clear_cache_lists x y h
  exact ⟨fun cl => by rw [h2]; exact ⟨rfl, rfl⟩, h3, h4⟩

/-- The shape of the heap of a thread depends on the entries of the PageMap, on the
first headers of the free page block lists, and on the free block lists and the
superpage list of the thread. -/
theorem heap_shape_same (s s' : State) (t : Nat)
    (hpm : ∀ q, pagemap_get_checked s' q = pagemap_get_checked s q)
    (hfl : (s'.thr t).free_pb_list = (s.thr t).free_pb_list)
    (hthr : tlh_same (s'.thr t) (s.thr t)) (pg cl : Nat) :
    heap_shape s' t pg cl = heap_shape s t pg cl := by
  unfold heap_shape free_pb_heads
  rw [hpm, hfl, (hthr.1 cl).1, (hthr.1 cl).2, hthr.2.1]

theorem pbh_alloc_set (s s2 : State) (sph pg len R : Nat)
    (h : pbh_alloc s sph pg len = some (R, s2)) : ∃ v, s2 = set_pbh s R v := by
  unfold pbh_alloc at h
  dsimp only at h
  split_ifs at h
  simp only [Option.some.injEq, Prod.mk.injEq] at h
  exact ⟨_, by rw [← h.2, ← h.1]⟩

/-- What `pb_split` does to the lists of the thread: the header of the remaining
pages becomes the first of the free page block list of its length. -/
theorem pb_split_lists (s s' : State) (t pbh n : Nat) (h : pb_split s t pbh n = some s') :
    ∃ R d, free_pb_ref (sub64 (s.pbh pbh).length n) = some (.free_pb d) ∧
      d < NUM_PAGE_CLASSES ∧
      (s'.thr t).free_pb_list = upd (s.thr t).free_pb_list d R ∧
      tlh_same (s'.thr t) (s.thr t) ∧
      (pbh ≠ R → ((s.thr t).free_pb_list d = 0 ∨
          ((s.thr t).free_pb_list d ≠ R ∧ (s.pbh ((s.thr t).free_pb_list d)).prev ≠ R)) →
        (s'.pbh R).next =
          if (s.thr t).free_pb_list d ≠ 0 then (s.thr t).free_pb_list d else R) := by
  rw [pb_split_unfold] at h
  by_cases hL : ¬ (s.pbh pbh).length > n
  · rw [if_pos hL] at h; exact absurd h (by simp)
  rw [if_neg hL] at h
  simp only [Option.bind_eq_some] at h
  obtain ⟨sph, _, ⟨R, s2⟩, halloc, ref, href, s4, hprep, hset⟩ := h
  have href' := href
  unfold free_pb_ref at href'
  by_cases hr : 1 ≤ sub64 (s.pbh pbh).length n ∧ sub64 (s.pbh pbh).length n ≤ NUM_PAGE_CLASSES
  swap
  · rw [if_neg hr] at href'; exact absurd href' (by simp)
  rw [if_pos hr] at href'
  obtain ⟨d, hd⟩ : ∃ d, d = sub64 (s.pbh pbh).length n - 1 := ⟨_, rfl⟩
  rw [← hd] at href'
  have hrefd : ref = .free_pb d := (Option.some.inj href').symm
  have hd62 : d < NUM_PAGE_CLASSES := by omega
  rw [hrefd] at hprep href
  -- the state before the list is changed
  obtain ⟨v2, h2⟩ := pbh_alloc_set _ _ _ _ _ _ halloc
  obtain ⟨s3, hs3⟩ : ∃ s3, s3 = set_pbh s2 R { s2.pbh R with status := PBH_ON_FREE_LIST } :=
    ⟨_, rfl⟩
  have hprep' : pbh_list_prepend s3 t (.free_pb d) R = some s4 := by rw [hs3]; exact hprep
  have h3thr : s3.thr = s.thr := by rw [hs3, h2]; rfl
  obtain ⟨s4', hp4, hnl4, hfl4, hnext4⟩ := pbh_list_prepend_free_pb s3 t d R hd62
  rw [hprep'] at hp4
  have e4 : s4' = s4 := (Option.some.inj hp4).symm
  subst e4
  have hnp := pagemap_set_range_no_pm t R _ s4' s' _ hset
  obtain ⟨hpbh5, _, _, _, _, _, _, _, _, _, _, _, hthr5⟩ := no_pm_fields s4' s' hnp
  obtain ⟨hfl5, hbl5, hsp5, _⟩ := clear_cache_lists _ _ (hthr5 t)
  obtain ⟨_, _, _, _, _, _, _, _, hthr4⟩ := no_links_fields s3 s4' hnl4
  refine ⟨R, d, href, hd62, ?_, ?_, ?_⟩
  · rw [hfl5, hfl4, h3thr]
  · refine tlh_same_trans _ _ _ (tlh_same_of_clear_cache _ _ (hthr5 t)) ?_
    have := tlh_same_of_nolists _ _ (hthr4 t)
    rw [h3thr] at this
    exact this
  · intro hne hcond
    rw [hpbh5]
    rw [h3thr] at hnext4
    apply hnext4
    rcases hcond with hc0 | ⟨hc1, hc2⟩
    · exact Or.inl hc0
    · refine Or.inr ⟨hc1, ?_⟩
      rw [hs3, h2]
      simp only [set_pbh, upd, if_neg hc1]
      by_cases hm : (s.thr t).free_pb_list d = pbh
      · rw [if_pos hm]
        simp only
        rw [← hm]
        exact hc2
      · rw [if_neg hm]
        exact hc2

/-- The call `pb_free(tlh, H)` on a page block whose neighbour before it is not free
and whose neighbour after it, `R`, is the first header of the free page block list
of its length: the call returns; `R` is taken from its list, its pages are
registered to `H`, and `H` becomes the first header of the free page block list of
the length of both. -/
theorem pb_free_merge_next (s : State) (t H R : Nat)
    (hP1 : pagemap_get_checked s (sub64 (s.pbh H).start_page 1) &&& HUGE_MALLOC_MARK = 0)
    (hP2 : ¬ (pagemap_get_checked s (sub64 (s.pbh H).start_page 1) ≠ 0 ∧
      (s.pbh (pagemap_get_checked s (sub64 (s.pbh H).start_page 1))).status = PBH_ON_FREE_LIST))
    (hN : pagemap_get_checked s (u64 ((s.pbh H).start_page + (s.pbh H).length)) = R)
    (hR0 : R ≠ 0) (hRh : R &&& HUGE_MALLOC_MARK = 0) (hRH : R ≠ H)
    (hRst : (s.pbh R).status = PBH_ON_FREE_LIST)
    (hl1 : 1 ≤ (s.pbh H).length) (hl2 : 1 ≤ (s.pbh R).length)
    (hsum : (s.pbh H).length + (s.pbh R).length ≤ NUM_PAGE_CLASSES)
    (hhead : (s.thr t).free_pb_list ((s.pbh R).length - 1) = R)
    (hpm : ∀ i, i < (s.pbh R).length → pm_has s ((s.pbh R).start_page + i))
    (hc : cache_ok s t) (hinj : pm_inj s) :
    ∃ s2, pb_free s t H = some s2 ∧
      (∀ q, pagemap_get_checked s2 q =
        if (s.pbh R).start_page ≤ q ∧ q < (s.pbh R).start_page + (s.pbh R).length then H
        else pagemap_get_checked s q) ∧
      (s2.thr t).free_pb_list = upd (upd (s.thr t).free_pb_list ((s.pbh R).length - 1)
          (if R = (s.pbh R).next then 0 else (s.pbh R).next))
        ((s.pbh H).length + (s.pbh R).length - 1) H ∧
      tlh_same (s2.thr t) (s.thr t) := by
  have h62 : NUM_PAGE_CLASSES = 62 := rfl
  have h63 : SUPERPAGE_LEN = 63 := rfl
  rw [h62] at hsum
  obtain ⟨LH, hLH⟩ : ∃ LH, LH = (s.pbh H).length := ⟨_, rfl⟩
  obtain ⟨LR, hLR⟩ : ∃ LR, LR = (s.pbh R).length := ⟨_, rfl⟩
  obtain ⟨SR, hSR⟩ : ∃ SR, SR = (s.pbh R).start_page := ⟨_, rfl⟩
  rw [← hLH] at hl1 hsum hN ⊢
  rw [← hLR] at hl2 hsum hhead hpm ⊢
  rw [← hSR] at hpm ⊢
  -- the neighbour leaves its list
  obtain ⟨sa, hrm, hnla, hfla⟩ := pbh_list_remove_free_pb s t (LR - 1) R (by omega) hhead
  obtain ⟨hlaya, hspha, hna, hla, hcfga, hcka, hchka⟩ := no_links_lay s sa t hnla
  obtain ⟨_, _, _, _, _, _, hva, _, hthra⟩ := no_links_fields s sa hnla
  -- the length of both
  obtain ⟨sb, hsb⟩ : ∃ sb, sb = pbh_add_length sa H LR := ⟨_, rfl⟩
  have hu8 : u8 (LH + LR) = LH + LR := by unfold u8; omega
  have hbH : sb.pbh H = { sa.pbh H with length := LH + LR } := by
    rw [hsb]
    simp only [pbh_add_length, set_pbh, upd, if_true]
    rw [(hlaya H).2.1, ← hLH, hu8]
  have hbo : ∀ h, h ≠ H → sb.pbh h = sa.pbh h := by
    intro h hh
    rw [hsb]
    simp [pbh_add_length, set_pbh, upd, hh]
  have hbthr : sb.thr = sa.thr := by rw [hsb]; rfl
  have hbn : sb.pm_node = s.pm_node := by rw [hsb]; exact hna
  have hbl : sb.pm_leaf = s.pm_leaf := by rw [hsb]; exact hla
  have hbv : sb.pm_val = s.pm_val := by rw [hsb]; exact hva
  have hbcfg : sb.cfg = s.cfg := by rw [hsb]; exact hcfga
  have hbck : cache_ok sb t := by
    have := hcka hc
    rw [hsb]
    exact this
  have hbchk : ∀ q, pagemap_get_checked sb q = pagemap_get_checked s q :=
    fun q => pagemap_get_checked_congr s sb hbn hbl hbv q
  have hbR : (sb.pbh R).start_page = SR := by
    rw [hbo R hRH, (hlaya R).1, hSR]
  -- the pages of the neighbour
  obtain ⟨sc, hset, hpmc, hcck, hcchk⟩ := pagemap_set_range_spec t H LR sb SR
    (fun i hi => (pm_has_congr s sb hbn hbl _).1.mpr (hpm i hi)) hbck
    (pm_inj_congr s sb hbn hbl hinj)
  obtain ⟨hcp, _, _, _, hcn, hcl, _, _, _, _, _, hccfg, hcthr⟩ := no_pm_fields sb sc hpmc
  have hco : pb_coalesce s t H = some (H, sc) := by
    unfold pb_coalesce
    have hr : free_pb_ref LR = some (.free_pb (LR - 1)) :=
      free_pb_ref_some LR hl2 (by rw [h62]; omega)
    have hlen63 : ¬ (sb.pbh H).length = SUPERPAGE_LEN := by
      rw [hbH, h63]
      show ¬ LH + LR = 63
      omega
    simp only [hP1, ne_eq, not_true_eq_false, if_false, hP2, ← hLH, hN, hRh, hR0,
      not_false_eq_true, hRst, and_self, if_true, ← hLR, hr, Option.pure_def,
      Option.bind_eq_bind, Option.some_bind, hrm, ← hsb, hlen63, hbR, hset]
  -- the merged header goes on its list
  obtain ⟨sd, hsd⟩ : ∃ sd, sd = pbh_field_init sc H := ⟨_, rfl⟩
  have hcH : (sc.pbh H).length = LH + LR := by rw [hcp, hbH]
  have hdH : (sd.pbh H).length = LH + LR := by
    rw [hsd]
    simp only [pbh_field_init, set_pbh, upd, if_true]
    exact hcH
  obtain ⟨s2, hpre, hnl2, hfl2, _⟩ := pbh_list_prepend_free_pb sd t (LH + LR - 1) H (by omega)
  obtain ⟨_, _, hn2, hl2', _, _, hchk2⟩ := no_links_lay sd s2 t hnl2
  obtain ⟨_, _, _, _, _, _, _, _, hthr2⟩ := no_links_fields sd s2 hnl2
  have hdthr : sd.thr = sc.thr := by rw [hsd]; rfl
  have hdchk : ∀ q, pagemap_get_checked sd q = pagemap_get_checked sc q := by
    intro q
    rw [hsd]
    exact pagemap_get_checked_congr sc _ rfl rfl rfl q
  have hcfl : (sc.thr t).free_pb_list = (sa.thr t).free_pb_list := by
    rw [(clear_cache_lists _ _ (hcthr t)).1, hbthr]
  refine ⟨s2, ?_, fun q => ?_, ?_, ?_⟩
  · unfold pb_free
    have hle : (s.pbh H).length ≤ SUPERPAGE_LEN := by rw [← hLH, h63]; omega
    have hlt : (s.pbh H).length < SUPERPAGE_LEN := by rw [← hLH, h63]; omega
    have hlen63 : ¬ (sc.pbh H).length = SUPERPAGE_LEN := by rw [hcH, h63]; omega
    have hr : free_pb_ref (LH + LR) = some (.free_pb (LH + LR - 1)) :=
      free_pb_ref_some _ (by omega) (by rw [h62]; omega)
    simp only [hle, not_true_eq_false, if_false, hlt, if_true, hco, Option.pure_def,
      Option.bind_eq_bind, Option.some_bind, hlen63, ← hsd, hdH, hr, hpre]
  · rw [hchk2 q, hdchk q, hcchk q, hbchk q]
  · rw [hfl2, hdthr, hcfl, hfla]
  · refine tlh_same_trans _ _ _ (tlh_same_of_nolists _ _ (hthr2 t)) ?_
    rw [hdthr]
    refine tlh_same_trans _ _ _ (tlh_same_of_clear_cache _ _ (hcthr t)) ?_
    rw [hbthr]
    exact tlh_same_of_nolists _ _ (hthra t)

/-- The call `pb_free(tlh, H)` on a page block of at most 62 pages neither of whose
neighbours is free: the call returns, the PageMap is as before, and `H` becomes the
first header of the free page block list of its length. -/
theorem pb_free_alone (s : State) (t H : Nat)
    (hP1 : pagemap_get_checked s (sub64 (s.pbh H).start_page 1) &&& HUGE_MALLOC_MARK = 0)
    (hP2 : ¬ is_free_pb s (pb_prev s H)) (hN : ¬ is_free_pb s (pb_next s H))
    (hl1 : 1 ≤ (s.pbh H).length) (hl2 : (s.pbh H).length ≤ NUM_PAGE_CLASSES) :
    ∃ s2, pb_free s t H = some s2 ∧
      (∀ q, pagemap_get_checked s2 q = pagemap_get_checked s q) ∧
      (s2.thr t).free_pb_list = upd (s.thr t).free_pb_list ((s.pbh H).length - 1) H ∧
      tlh_same (s2.thr t) (s.thr t) := by
  have h62 : NUM_PAGE_CLASSES = 62 := rfl
  have h63 : SUPERPAGE_LEN = 63 := rfl
  rw [h62] at hl2
  have hco : pb_coalesce s t H = some (H, s) := by
    unfold is_free_pb pb_prev at hP2
    unfold is_free_pb pb_next at hN
    unfold pb_coalesce
    simp only [hP1, ne_eq, not_true_eq_false, if_false, hP2, Option.pure_def,
      Option.bind_eq_bind]
    rw [if_neg hN]
  obtain ⟨sd, hsd⟩ : ∃ sd, sd = pbh_field_init s H := ⟨_, rfl⟩
  have hdH : (sd.pbh H).length = (s.pbh H).length := by
    rw [hsd]
    simp only [pbh_field_init, set_pbh, upd, if_true]
  obtain ⟨s2, hpre, hnl2, hfl2, _⟩ :=
    pbh_list_prepend_free_pb sd t ((s.pbh H).length - 1) H (by omega)
  obtain ⟨_, _, _, _, _, _, hchk2⟩ := no_links_lay sd s2 t hnl2
  obtain ⟨_, _, _, _, _, _, _, _, hthr2⟩ := no_links_fields sd s2 hnl2
  have hdthr : sd.thr = s.thr := by rw [hsd]; rfl
  refine ⟨s2, ?_, fun q => ?_, ?_, ?_⟩
  · unfold pb_free
    have hle : (s.pbh H).length ≤ SUPERPAGE_LEN := by rw [h63]; omega
    have hlt : (s.pbh H).length < SUPERPAGE_LEN := by rw [h63]; omega
    have hlen63 : ¬ (s.pbh H).length = SUPERPAGE_LEN := by rw [h63]; omega
    have hr : free_pb_ref (s.pbh H).length = some (.free_pb ((s.pbh H).length - 1)) :=
      free_pb_ref_some _ hl1 (by rw [h62]; omega)
    simp only [hle, not_true_eq_false, if_false, hlt, if_true, hco, Option.pure_def,
      Option.bind_eq_bind, Option.some_bind, hlen63, ← hsd, hdH, hr, hpre]
  · rw [hchk2 q, hsd]
    exact pagemap_get_checked_congr s _ rfl rfl rfl q
  · rw [hfl2, hdthr]
  · have := tlh_same_of_nolists _ _ (hthr2 t)
    rw [hdthr] at this
    exact this

/-- The call `pbh_list_pop(list)` changes the link `prev` of no header but the one
it takes from the list and the one after it. -/
theorem pbh_list_pop_prev (s s' : State) (t : Nat) (r : pbh_list_ref) (H : Nat)
    (h : pbh_list_pop s t r = some (H, s')) (M : Nat) (h1 : M ≠ H)
    (h2 : M ≠ (s.pbh H).next) : (s'.pbh M).prev = (s.pbh M).prev := by
  unfold pbh_list_pop at h
  by_cases hv : ¬ r.valid
  · rw [if_pos hv] at h; exact absurd h (by simp)
  rw [if_neg hv] at h
  by_cases h0 : list_head s t r = 0
  · simp only [h0, if_true] at h; exact absurd h (by simp)
  simp only [h0, if_false, Option.some.injEq, Prod.mk.injEq] at h
  obtain ⟨e1, e2⟩ := h
  rw [e1] at e2
  have hp : ∀ v, (set_list_head s t r v).pbh = s.pbh := by
    intro v
    cases r <;> rfl
  obtain ⟨s0, hs0⟩ : ∃ s0, s0 = set_list_head s t r
      (if H ≠ (s.pbh H).next then (s.pbh H).next else 0) := ⟨_, rfl⟩
  rw [← hs0] at e2
  have h0p : s0.pbh = s.pbh := by rw [hs0]; exact hp _
  obtain ⟨s1, hs1⟩ : ∃ s1, s1 = set_pbh s0 (s0.pbh H).prev
      { s0.pbh (s0.pbh H).prev with next := (s0.pbh H).next } := ⟨_, rfl⟩
  have h1prev : ∀ x, (s1.pbh x).prev = (s.pbh x).prev := by
    intro x
    rw [hs1]
    simp only [set_pbh, upd]
    split
    · rename_i e
      rw [e, h0p]
    · rw [h0p]
  have h1next : (s1.pbh H).next = (s.pbh H).next := by
    rw [hs1]
    simp only [set_pbh, upd]
    split
    · rw [h0p]
    · rw [h0p]
  have e3 : s' = set_pbh (set_pbh s1 (s1.pbh H).next
      { s1.pbh (s1.pbh H).next with prev := (s1.pbh H).prev }) H
      { (set_pbh s1 (s1.pbh H).next
          { s1.pbh (s1.pbh H).next with prev := (s1.pbh H).prev }).pbh H with
        next := H, prev := H } := by
    rw [← e2, hs1]
    rfl
  rw [e3]
  simp only [set_pbh, upd]
  rw [if_neg h1, h1next, if_neg h2]
  exact h1prev M

/-- The call `pb_alloc(tlh, n)` when the first free page block list from length `n`
on that is not empty is `free_pb_list[c]`, headed by a page block `H` of `c + 1`
pages: the call takes `H` from the list, gives it the status `IN_USE`, and splits it
when it has more than `n` pages; nothing but the links and the status of `H` has
changed before the split. -/
theorem pb_alloc_listed_pop (s : State) (t n c H : Nat) (hn1 : 1 ≤ n) (hn : n ≤ c + 1)
    (hc : c < NUM_PAGE_CLASSES)
    (hempty : ∀ c', n - 1 ≤ c' → c' < c → (s.thr t).free_pb_list c' = 0)
    (hH : (s.thr t).free_pb_list c = H) (hH0 : H ≠ 0) (hL : (s.pbh H).length = c + 1) :
    ∃ sI, pb_alloc s t n =
        (if c > n - 1 then pb_split sI t H n else some sI).bind (fun s3 => some (H, s3)) ∧
      (sI.pbh H).status = PBH_IN_USE ∧ (sI.pbh H).start_page = (s.pbh H).start_page ∧
      (sI.pbh H).length = c + 1 ∧ (sI.pbh H).index = (s.pbh H).index ∧
      (∀ h, h ≠ H → pbh_data (sI.pbh h) = pbh_data (s.pbh h)) ∧
      (∀ h, h ≠ H → h ≠ (s.pbh H).next → (sI.pbh h).prev = (s.pbh h).prev) ∧
      sI.sph = s.sph ∧ sI.pm_node = s.pm_node ∧ sI.pm_leaf = s.pm_leaf ∧
      sI.pm_val = s.pm_val ∧ sI.cfg = s.cfg ∧ (cache_ok s t → cache_ok sI t) ∧
      tlh_same (sI.thr t) (s.thr t) ∧
      (sI.thr t).free_pb_list = upd (s.thr t).free_pb_list c
        (if H ≠ (s.pbh H).next then (s.pbh H).next else 0) := by
  have h62 : NUM_PAGE_CLASSES = 62 := rfl
  -- the pop
  obtain ⟨sP, hpop, hnlP, hflP⟩ := pbh_list_pop_free_pb s t c H hc hH hH0
  obtain ⟨hlayP, hsphP, hnP, hlP, hcfgP, hckP, _⟩ := no_links_lay s sP t hnlP
  obtain ⟨hdP, _, _, _, _, _, hvP, _, hthrP⟩ := no_links_fields s sP hnlP
  have hprevP := pbh_list_pop_prev s sP t _ H hpop
  -- the header in use
  obtain ⟨sI, hsI⟩ : ∃ sI, sI = set_pbh sP H { sP.pbh H with status := PBH_IN_USE } := ⟨_, rfl⟩
  have hIH : sI.pbh H = { sP.pbh H with status := PBH_IN_USE } := by
    rw [hsI]; simp [set_pbh, upd]
  have hIo : ∀ h, h ≠ H → sI.pbh h = sP.pbh h := by
    intro h hh
    rw [hsI]; simp [set_pbh, upd, hh]
  have hIthr : sI.thr = sP.thr := by rw [hsI]; rfl
  have hIcfg : sI.cfg = s.cfg := by rw [hsI]; exact hcfgP
  have hIn : sI.pm_node = s.pm_node := by rw [hsI]; exact hnP
  have hIl : sI.pm_leaf = s.pm_leaf := by rw [hsI]; exact hlP
  have hIck : cache_ok s t → cache_ok sI t := by
    intro hck
    have := hckP hck
    rw [hsI]
    exact this
  have g1 : (sI.pbh H).status = PBH_IN_USE := by rw [hIH]
  have g2 : (sI.pbh H).start_page = (s.pbh H).start_page := by rw [hIH]; exact (hlayP H).1
  have g3 : (sI.pbh H).length = c + 1 := by rw [hIH]; exact (hlayP H).2.1.trans hL
  have g4 : (sI.pbh H).index = (s.pbh H).index := by rw [hIH]; exact (hlayP H).2.2.1
  have g5 : ∀ h, h ≠ H → pbh_data (sI.pbh h) = pbh_data (s.pbh h) := by
    intro h hh
    rw [hIo h hh]
    exact hdP h
  have g6 : ∀ h, h ≠ H → h ≠ (s.pbh H).next → (sI.pbh h).prev = (s.pbh h).prev := by
    intro h hh hh2
    rw [hIo h hh]
    exact hprevP h hh hh2
  have g7 : sI.sph = s.sph := by rw [hsI]; exact hsphP
  have g8 : sI.pm_val = s.pm_val := by rw [hsI]; exact hvP
  have g9 : tlh_same (sI.thr t) (s.thr t) := by
    rw [hIthr]; exact tlh_same_of_nolists _ _ (hthrP t)
  have g10 : (sI.thr t).free_pb_list = upd (s.thr t).free_pb_list c
      (if H ≠ (s.pbh H).next then (s.pbh H).next else 0) := by
    rw [hIthr]; exact hflP
  -- the search of the lists
  have hloop : pb_alloc_from_tlh s t n =
      (if c > n - 1 then pb_split sI t H n else some sI).bind fun s3 => some (H, s3) := by
    unfold pb_alloc_from_tlh
    rw [if_neg (not_not.mpr hn1)]
    show pb_alloc_from_tlh_loop t n (n - 1) (NUM_PAGE_CLASSES - (n - 1)) s (n - 1) = _
    have e : NUM_PAGE_CLASSES - (n - 1) = (NUM_PAGE_CLASSES - c - 1 + 1) + (c - (n - 1)) := by
      omega
    rw [e, pb_alloc_from_tlh_loop_skip t n (n - 1) s (c - (n - 1)) _ (n - 1)
      (fun c' h1 h2 => hempty c' h1 (by omega))]
    rw [show n - 1 + (c - (n - 1)) = c by omega, pb_alloc_from_tlh_loop_succ]
    have hne : (s.thr t).free_pb_list c ≠ 0 := by rw [hH]; exact hH0
    rw [if_pos hne, hpop, Option.some_bind]
    have hlenP : ¬ (sP.pbh H).length ≠ c + 1 := not_not.mpr ((hlayP H).2.1.trans hL)
    simp only [hlenP, if_false, ← hsI]
  have hall : pb_alloc s t n =
      (if c > n - 1 then pb_split sI t H n else some sI).bind (fun s3 => some (H, s3)) := by
    unfold pb_alloc
    have hcond : ¬ ¬ (n > 0 ∧ n ≤ NUM_PAGE_CLASSES) := not_not.mpr ⟨by omega, by omega⟩
    rw [if_neg hcond, hloop]
    cases hx : (if c > n - 1 then pb_split sI t H n else some sI) with
    | none => rfl
    | some s3 =>
      simp only [Option.bind_eq_bind, Option.some_bind, Option.pure_def, ne_eq, hH0,
        not_false_eq_true, if_true]
  exact ⟨sI, hall, g1, g2, g3, g4, g5, g6, g7, hIn, hIl, g8, hIcfg, hIck, g9, g10⟩

/-- Without the page block cache, `free(p)` of the first byte of a large page block
`H` of a superpage that the thread owns is `pb_free(tlh, H)`, after the look-up of
the page of `p` in the PageMap. -/
theorem large_free_owner (s : State) (t p H sph : Nat)
    (hlive : (s.thr t).thread_id ≠ 0) (hp0 : p ≠ 0)
    (hcfg : s.cfg.MALLOC_USE_PAGE_BLOCK_CACHE = false)
    (hhas : pm_has s (p >>> PAGE_SHIFT)) (hck : cache_ok s t)
    (hval : pagemap_get_checked s (p >>> PAGE_SHIFT) = H)
    (hH0 : H ≠ 0) (hHe : H &&& HUGE_MALLOC_MARK = 0)
    (hcls : ¬ (s.pbh H).sizeclass < NUM_CLASSES)
    (hsup : pbh_get_superpage s H = some sph)
    (hown : (s.sph sph).owner_id = (s.thr t).thread_id) :
    ∃ sg, no_pm sg = no_pm s ∧ cache_ok sg t ∧ sg.pm_val = s.pm_val ∧
      free s t p = pb_free sg t H := by
  obtain ⟨sg, hget, hpm, hcg, hv⟩ := pagemap_get_spec s t _ hhas hck
  rw [hval] at hget
  obtain ⟨hgp, hgs, _, _, _, _, _, _, _, _, _, hgcfg, hgthr⟩ := no_pm_fields s sg hpm
  refine ⟨sg, hpm, hcg, hv, ?_⟩
  have hgid : (sg.thr t).thread_id = (s.thr t).thread_id :=
    (clear_cache_lists _ _ (hgthr t)).2.2.2
  have hsup' : pbh_get_superpage sg H = some sph := by
    unfold pbh_get_superpage at hsup ⊢
    rw [hgp]
    exact hsup
  have hc' : ¬ sg.cfg.MALLOC_USE_PAGE_BLOCK_CACHE = true := by
    rw [hgcfg, hcfg]
    decide
  have hcls' : ¬ (sg.pbh H).sizeclass < NUM_CLASSES := by rw [hgp]; exact hcls
  have hown' : (sg.sph sph).owner_id = (sg.thr t).thread_id := by rw [hgs, hgid]; exact hown
  rw [free_live s t p hp0 hlive, hget, Option.some_bind]
  simp only [hH0, if_false, hHe, ne_eq, not_true_eq_false, hcls']
  unfold large_free
  rw [if_neg hc']
  unfold large_free_to_owner
  simp only [hsup', Option.bind_eq_bind, Option.some_bind, Option.pure_def, hown', if_true]

/-- Without the page block cache, `malloc` of a large size is `pb_alloc` of its pages;
the page block gets the class `NUM_CLASSES`, and its first byte is returned. -/
theorem large_malloc_nocache (s : State) (t size : Nat) (hsize : MAX_SIZE < size)
    (hlen : GET_PAGE_LEN size ≤ NUM_PAGE_CLASSES)
    (hinit : s.g_initialized ≠ 0) (hlive : (s.thr t).thread_id ≠ 0)
    (hcfg : s.cfg.MALLOC_USE_PAGE_BLOCK_CACHE = false) :
    malloc s t size = (pb_alloc s t (GET_PAGE_LEN size)).bind fun r =>
      some (u64 ((r.2.pbh r.1).start_page <<< PAGE_SHIFT),
        set_pbh r.2 r.1 { r.2.pbh r.1 with sizeclass := NUM_CLASSES }) := by
  rw [malloc_live s t size hinit hlive, if_neg (by omega), if_pos hlen]
  unfold large_malloc
  have hc' : ¬ s.cfg.MALLOC_USE_PAGE_BLOCK_CACHE = true := by rw [hcfg]; decide
  rw [if_neg hc']
  simp only [Option.bind_eq_bind, Option.pure_def]
  cases pb_alloc s t (GET_PAGE_LEN size) with
  | none => simp only [Option.none_bind]
  | some r =>
    obtain ⟨a, b⟩ := r
    simp only [Option.some_bind, set_pbh, upd, if_true]

/-- The first byte of a page of the PageMap lies on that page. -/
theorem page_of_first_byte (pg : Nat) (h : pg < 2 ^ 52) :
    u64 (pg <<< PAGE_SHIFT) >>> PAGE_SHIFT = pg ∧ (pg ≠ 0 → u64 (pg <<< PAGE_SHIFT) ≠ 0) := by
  simp only [u64, PAGE_SHIFT, Nat.shiftLeft_eq, Nat.shiftRight_eq_div_pow]
  constructor
  · omega
  · intro h0
    omega

/-- The header in slot `idx` of the superpage `sph` belongs to `sph`. -/
theorem pbh_get_superpage_slot (s : State) (sph H idx : Nat) (hidx : (s.pbh H).index = idx)
    (h1 : 1 ≤ idx) (h2 : idx ≤ SUPERPAGE_LEN) (hH : H = sph + PBH_SIZE * idx)
    (h64 : sph + PBH_SIZE * (SUPERPAGE_LEN + 1) < 2 ^ 64) :
    pbh_get_superpage s H = some sph := by
  have a63 : SUPERPAGE_LEN = 63 := rfl
  have a64 : PBH_SIZE = 64 := rfl
  rw [a63, a64] at h64
  rw [a63] at h2
  rw [a64] at hH
  have h0 : H ≠ 0 := by omega
  have hr : ¬ ¬ ((s.pbh H).index > 0 ∧ (s.pbh H).index ≤ SUPERPAGE_LEN) := by
    rw [hidx, a63]
    exact not_not.mpr ⟨h1, h2⟩
  unfold pbh_get_superpage
  rw [if_neg h0, if_neg hr, hidx, a64]
  congr 1
  unfold sub64
  omega

/-- Without the page block cache, `free` of the first byte of a large page block `H`
of `n` pages whose neighbour before it is not free and whose neighbour after it,
`R`, is the first header of the free page block list of its length: the call
returns; `R` is taken from its list, its pages are registered to `H`, and `H`
becomes the first header of the free page block list of the length `L` of both. -/
theorem large_free_merge (s : State) (t sph H R st n L idx : Nat)
    (hlive : (s.thr t).thread_id ≠ 0)
    (hcfg : s.cfg.MALLOC_USE_PAGE_BLOCK_CACHE = false)
    (hst : (s.pbh H).start_page = st) (hlenH : (s.pbh H).length = n)
    (hidx : (s.pbh H).index = idx) (hcls : ¬ (s.pbh H).sizeclass < NUM_CLASSES)
    (hH : H = sph + PBH_SIZE * idx) (hR : R = sph + PBH_SIZE * (idx + n))
    (hi1 : 1 ≤ idx) (hi2 : idx + L ≤ SUPERPAGE_LEN + 1)
    (h64 : sph + PBH_SIZE * (SUPERPAGE_LEN + 1) < 2 ^ 64) (heven : sph % 2 = 0)
    (hst1 : 1 ≤ st) (hst52 : st + L < 2 ^ 52)
    (hown : (s.sph sph).owner_id = (s.thr t).thread_id)
    (hchkH : pagemap_get_checked s st = H)
    (hP1 : pagemap_get_checked s (st - 1) &&& HUGE_MALLOC_MARK = 0)
    (hP2 : ¬ (pagemap_get_checked s (st - 1) ≠ 0 ∧
      (s.pbh (pagemap_get_checked s (st - 1))).status = PBH_ON_FREE_LIST))
    (hchkR : pagemap_get_checked s (st + n) = R)
    (hRst : (s.pbh R).start_page = st + n) (hRlen : (s.pbh R).length = L - n)
    (hRfree : (s.pbh R).status = PBH_ON_FREE_LIST)
    (hhead : (s.thr t).free_pb_list (L - n - 1) = R)
    (hn1 : 1 ≤ n) (hnL : n < L) (hL : L ≤ NUM_PAGE_CLASSES)
    (hpm : ∀ q, st ≤ q → q < st + L → pm_has s q)
    (hck : cache_ok s t) (hinj : pm_inj s) :
    ∃ s2, free s t (u64 (st <<< PAGE_SHIFT)) = some s2 ∧
      (∀ q, pagemap_get_checked s2 q =
        if st + n ≤ q ∧ q < st + L then H else pagemap_get_checked s q) ∧
      (s2.thr t).free_pb_list = upd (upd (s.thr t).free_pb_list (L - n - 1)
          (if R = (s.pbh R).next then 0 else (s.pbh R).next)) (L - 1) H ∧
      tlh_same (s2.thr t) (s.thr t) := by
  have a62 : NUM_PAGE_CLASSES = 62 := rfl
  have a63 : SUPERPAGE_LEN = 63 := rfl
  have a64 : PBH_SIZE = 64 := rfl
  -- arithmetic
  have b1 : idx ≤ SUPERPAGE_LEN := by rw [a63] at hi2 ⊢; omega
  have b2 : H ≠ 0 := by rw [a64] at hH; omega
  have b3 : R ≠ H := by rw [a64] at hH hR; omega
  have b4 : R ≠ 0 := by rw [a64] at hR; omega
  have b5 : R % 2 = 0 := by rw [a64] at hR; omega
  have b6 : H % 2 = 0 := by rw [a64] at hH; omega
  have b7 : sub64 st 1 = st - 1 := by unfold sub64; omega
  have b8 : u64 (st + n) = st + n := by unfold u64; omega
  have b9 : 1 ≤ L - n := by omega
  have b10 : n + (L - n) ≤ NUM_PAGE_CLASSES := by omega
  have b11 : n + (L - n) - 1 = L - 1 := by omega
  have b12 : st + n + (L - n) = st + L := by omega
  have b13 : st < 2 ^ 52 := by omega
  have b14 : ∀ i, i < L - n → st ≤ st + n + i ∧ st + n + i < st + L := by
    intro i hi
    omega
  have b15 : st ≠ 0 := by omega
  have b16 : 0 < n := hn1
  have b17 : st < st + L := by omega
  have hsup : pbh_get_superpage s H = some sph :=
    pbh_get_superpage_slot s sph H idx hidx hi1 b1 hH h64
  clear hi1 hi2 h64 hst1 hst52 hn1 hnL hL
  have hRe : R &&& HUGE_MALLOC_MARK = 0 := by
    simp only [HUGE_MALLOC_MARK, Nat.and_one_is_mod]
    exact b5
  have hHe : H &&& HUGE_MALLOC_MARK = 0 := by
    simp only [HUGE_MALLOC_MARK, Nat.and_one_is_mod]
    exact b6
  obtain ⟨hpg, hp0⟩ := page_of_first_byte st b13
  -- the look-up
  obtain ⟨sg, hgpm, hgck, hgv, hfree⟩ := large_free_owner s t (u64 (st <<< PAGE_SHIFT)) H sph
    hlive (hp0 b15) hcfg (by rw [hpg]; exact hpm st (le_refl _) b17)
    hck (by rw [hpg]; exact hchkH) b2 hHe hcls hsup hown
  obtain ⟨hgp, _, _, _, hgn, hgl, _, _, _, _, _, _, hgthr⟩ := no_pm_fields s sg hgpm
  have hgchk : ∀ q, pagemap_get_checked sg q = pagemap_get_checked s q :=
    fun q => pagemap_get_checked_congr s sg hgn hgl hgv q
  have hgfl : (sg.thr t).free_pb_list = (s.thr t).free_pb_list :=
    (clear_cache_lists _ _ (hgthr t)).1
  -- the page block is freed
  obtain ⟨s2, hpf, hchk2, hfl2, hths2⟩ := pb_free_merge_next sg t H R
    (by rw [hgp, hst, b7, hgchk]; exact hP1)
    (by rw [hgp, hst, b7, hgchk]; exact hP2)
    (by rw [hgp, hst, hlenH, b8, hgchk]; exact hchkR)
    b4 hRe b3 (by rw [hgp]; exact hRfree) (by rw [hgp, hlenH]; exact b16)
    (by rw [hgp, hRlen]; exact b9) (by rw [hgp, hlenH, hRlen]; exact b10)
    (by rw [hgp, hRlen, hgfl]; exact hhead)
    (by
      intro i hi
      rw [hgp, hRlen] at hi
      rw [hgp, hRst]
      exact (pm_has_congr s sg hgn hgl _).1.mpr (hpm _ (b14 i hi).1 (b14 i hi).2))
    hgck (pm_inj_congr s sg hgn hgl hinj)
  rw [hgp, hRst, hRlen, b12] at hchk2
  rw [hgp, hRlen, hlenH, b11, hgfl] at hfl2
  refine ⟨s2, by rw [hfree]; exact hpf, fun q => ?_, hfl2, ?_⟩
  · rw [hchk2 q, hgchk q]
  · exact tlh_same_trans _ _ _ hths2 (tlh_same_of_clear_cache _ _ (hgthr t))

/-- Without the page block cache, `free` of the first byte of a large page block `H`
neither of whose neighbours is free: the call returns, the PageMap is as before, and
`H` becomes the first header of the free page block list of its length. -/
theorem large_free_alone (s : State) (t sph H st n idx : Nat)
    (hlive : (s.thr t).thread_id ≠ 0)
    (hcfg : s.cfg.MALLOC_USE_PAGE_BLOCK_CACHE = false)
    (hst : (s.pbh H).start_page = st) (hlenH : (s.pbh H).length = n)
    (hidx : (s.pbh H).index = idx) (hcls : ¬ (s.pbh H).sizeclass < NUM_CLASSES)
    (hH : H = sph + PBH_SIZE * idx)
    (hi1 : 1 ≤ idx) (hi2 : idx ≤ SUPERPAGE_LEN)
    (h64 : sph + PBH_SIZE * (SUPERPAGE_LEN + 1) < 2 ^ 64) (heven : sph % 2 = 0)
    (hst1 : 1 ≤ st) (hst52 : st < 2 ^ 52)
    (hown : (s.sph sph).owner_id = (s.thr t).thread_id)
    (hchkH : pagemap_get_checked s st = H) (hhas : pm_has s st)
    (hP1 : pagemap_get_checked s (sub64 st 1) &&& HUGE_MALLOC_MARK = 0)
    (hP2 : ¬ is_free_pb s (pb_prev s H)) (hN : ¬ is_free_pb s (pb_next s H))
    (hn1 : 1 ≤ n) (hn2 : n ≤ NUM_PAGE_CLASSES)
    (hck : cache_ok s t) :
    ∃ s2, free s t (u64 (st <<< PAGE_SHIFT)) = some s2 ∧
      (∀ q, pagemap_get_checked s2 q = pagemap_get_checked s q) ∧
      (s2.thr t).free_pb_list = upd (s.thr t).free_pb_list (n - 1) H ∧
      tlh_same (s2.thr t) (s.thr t) := by
  have a64 : PBH_SIZE = 64 := rfl
  have b2 : H ≠ 0 := by rw [a64] at hH; omega
  have b6 : H % 2 = 0 := by rw [a64] at hH; omega
  have b15 : st ≠ 0 := by omega
  have hsup : pbh_get_superpage s H = some sph :=
    pbh_get_superpage_slot s sph H idx hidx hi1 hi2 hH h64
  have hHe : H &&& HUGE_MALLOC_MARK = 0 := by
    simp only [HUGE_MALLOC_MARK, Nat.and_one_is_mod]
    exact b6
  obtain ⟨hpg, hp0⟩ := page_of_first_byte st hst52
  obtain ⟨sg, hgpm, hgck, hgv, hfree⟩ := large_free_owner s t (u64 (st <<< PAGE_SHIFT)) H sph
    hlive (hp0 b15) hcfg (by rw [hpg]; exact hhas) hck (by rw [hpg]; exact hchkH) b2 hHe hcls
    hsup hown
  obtain ⟨hgp, _, _, _, hgn, hgl, _, _, _, _, _, _, hgthr⟩ := no_pm_fields s sg hgpm
  have hgchk : ∀ q, pagemap_get_checked sg q = pagemap_get_checked s q :=
    fun q => pagemap_get_checked_congr s sg hgn hgl hgv q
  have hgfl : (sg.thr t).free_pb_list = (s.thr t).free_pb_list :=
    (clear_cache_lists _ _ (hgthr t)).1
  have hgP : pb_prev sg H = pb_prev s H := by
    unfold pb_prev
    rw [hgp, hgchk]
  have hgN : pb_next sg H = pb_next s H := by
    unfold pb_next
    rw [hgp, hgchk]
  obtain ⟨s2, hpf, hchk2, hfl2, hths2⟩ := pb_free_alone sg t H
    (by rw [hgp, hst, hgchk]; exact hP1)
    (by unfold is_free_pb; rw [hgP, hgp]; exact hP2)
    (by unfold is_free_pb; rw [hgN, hgp]; exact hN)
    (by rw [hgp, hlenH]; exact hn1) (by rw [hgp, hlenH]; exact hn2)
  rw [hgp, hlenH, hgfl] at hfl2
  refine ⟨s2, by rw [hfree]; exact hpf, fun q => ?_, hfl2, ?_⟩
  · rw [hchk2 q, hgchk q]
  · exact tlh_same_trans _ _ _ hths2 (tlh_same_of_clear_cache _ _ (hgthr t))

/-- Without the page block cache, `malloc` of a large size of `n` pages that is served
by the split of a listed free page block `H` of `c + 1 > n` pages, the first of the
first free page block list from length `n` on that is not empty: the call returns
the first byte of `H`, which keeps its first `n` pages; the header `R` in the slot
of page `n` of `H` takes the other pages, at the head of the free page block list
of their number, before the former first header `M` of that list. -/
theorem large_malloc_split (s : State) (t size sph c H n st idx sp R M : Nat)
    (hn : GET_PAGE_LEN size = n) (hst : (s.pbh H).start_page = st)
    (hidx : (s.pbh H).index = idx) (hsp : (s.sph sph).start_page = sp)
    (hR : R = sph + PBH_SIZE * (idx + n)) (hM : (s.thr t).free_pb_list (c - n) = M)
    (hsize : MAX_SIZE < size) (hlen : n < c + 1) (hc : c < NUM_PAGE_CLASSES)
    (hinit : s.g_initialized ≠ 0) (hlive : (s.thr t).thread_id ≠ 0)
    (hcfg : s.cfg.MALLOC_USE_PAGE_BLOCK_CACHE = false)
    (hempty : ∀ c', n - 1 ≤ c' → c' < c → (s.thr t).free_pb_list c' = 0)
    (hH : (s.thr t).free_pb_list c = H) (hH0 : H ≠ 0) (hL : (s.pbh H).length = c + 1)
    (x1 : sp ≤ st) (x3 : st + (c + 1) ≤ sp + SUPERPAGE_LEN) (x4 : idx = st - sp + 1)
    (x5 : H = sph + PBH_SIZE * idx) (c3 : sp + SUPERPAGE_LEN < 2 ^ 52)
    (c4 : sph + PBH_SIZE * (SUPERPAGE_LEN + 1) < 2 ^ 64)
    (hpm : ∀ q, st ≤ q → q < st + (c + 1) → pm_has s q)
    (hck : cache_ok s t) (hinj : pm_inj s)
    (hrem : M = 0 ∨ (M ≠ R ∧ M ≠ H ∧ M ≠ (s.pbh H).next ∧ (s.pbh M).prev ≠ R)) :
    ∃ s1, malloc s t size = some (u64 (st <<< PAGE_SHIFT), s1) ∧
      (s1.pbh H).start_page = st ∧ (s1.pbh H).length = n ∧ (s1.pbh H).index = idx ∧
      (s1.pbh H).sizeclass = NUM_CLASSES ∧
      (∀ h, h ≠ H → h ≠ R → (s1.pbh h).status = (s.pbh h).status) ∧
      (s1.pbh R).start_page = st + n ∧ (s1.pbh R).length = c + 1 - n ∧
      (s1.pbh R).status = PBH_ON_FREE_LIST ∧
      (s1.pbh R).next = (if M ≠ 0 then M else R) ∧
      (∀ q, pagemap_get_checked s1 q =
        if st + n ≤ q ∧ q < st + (c + 1) then R else pagemap_get_checked s q) ∧
      (s1.thr t).free_pb_list = upd (upd (s.thr t).free_pb_list c
        (if H ≠ (s.pbh H).next then (s.pbh H).next else 0)) (c - n) R ∧
      tlh_same (s1.thr t) (s.thr t) ∧
      s1.sph = s.sph ∧ s1.pm_node = s.pm_node ∧ s1.pm_leaf = s.pm_leaf ∧ s1.cfg = s.cfg ∧
      cache_ok s1 t := by
  have a62 : NUM_PAGE_CLASSES = 62 := rfl
  have a63 : SUPERPAGE_LEN = 63 := rfl
  have a64 : PBH_SIZE = 64 := rfl
  have hn1 : 1 ≤ n := by
    have hM : MAX_SIZE = 32768 := rfl
    rw [← hn]
    simp only [GET_PAGE_LEN, PAGE_SHIFT, PAGE_SIZE, Nat.shiftLeft_eq, Nat.one_mul,
      Nat.shiftRight_eq_div_pow]
    split_ifs <;> omega
  -- arithmetic
  have b1 : n ≤ NUM_PAGE_CLASSES := by omega
  have b2 : n ≤ c + 1 := by omega
  have b3 : c > n - 1 := by omega
  have b4 : sub64 (c + 1) n = c + 1 - n := by unfold sub64; omega
  have b5 : 1 ≤ c + 1 - n := by omega
  have b6 : c + 1 - n ≤ NUM_PAGE_CLASSES := by omega
  have b7 : c + 1 - n - 1 = c - n := by omega
  have b8 : c - n ≠ c := by omega
  have b9 : H ≠ R := by rw [a64] at x5 hR; omega
  have b10 : ∀ i, i < c + 1 - n → st ≤ st + n + i ∧ st + n + i < st + (c + 1) := by
    intro i hi
    omega
  have hmal := large_malloc_nocache s t size hsize (by rw [hn]; exact b1) hinit hlive hcfg
  rw [hn] at hmal
  clear hsize hinit hlive hcfg hn
  -- the page block leaves its list
  obtain ⟨sI, hall, g1, g2, g3, g4, g5, g6, g7, gn, gl, gv, gcfg, gck, gths, gfl⟩ :=
    pb_alloc_listed_pop s t n c H hn1 b2 hc hempty hH hH0 hL
  clear hempty
  rw [hst] at g2
  rw [hidx] at g4
  rw [if_pos b3] at hall
  have gchk : ∀ q, pagemap_get_checked sI q = pagemap_get_checked s q :=
    fun q => pagemap_get_checked_congr s sI gn gl gv q
  have hMI : (sI.thr t).free_pb_list (c - n) = M := by
    rw [gfl, ← hM]
    simp only [upd]
    rw [if_neg b8]
  have hremI : (sI.thr t).free_pb_list (c - n) = 0 ∨
      ((sI.thr t).free_pb_list (c - n) ≠ R ∧
        (sI.pbh ((sI.thr t).free_pb_list (c - n))).prev ≠ R) := by
    rw [hMI]
    rcases hrem with h0 | ⟨r1, r2, r3, r4⟩
    · exact Or.inl h0
    · refine Or.inr ⟨r1, ?_⟩
      rw [g6 M r2 r3]
      exact r4
  clear hrem
  -- the split
  obtain ⟨sS, hS, e1, e2, e3, e4, e5, e6, e7, e8, e9, e10, e11, e12, e13, e14, e15, e16⟩ :=
    pb_split_spec sI t H n sph hn1 (by rw [g3]; exact hlen)
      (by rw [g7, g2, hsp]; exact x1) (by rw [g7, g2, g3, hsp]; exact x3)
      (by rw [g7, hsp]; exact c3) (by rw [g4, g2, g7, hsp]; exact x4)
      (by rw [g4]; exact x5) c4
      (fun i hi2 => (pm_has_congr s sI gn gl _).1.mpr (by
        rw [g3] at hi2
        rw [g2]
        exact hpm _ (b10 i hi2).1 (b10 i hi2).2))
      (gck hck) (pm_inj_congr s sI gn gl hinj)
  rw [g4, ← hR] at e5 e6 e7 e8 e11
  rw [g3, g4, ← hR] at e9
  rw [g2] at e2 e5
  rw [g3] at e6
  rw [g4] at e3
  rw [g1] at e4
  have hSchk : ∀ q, pagemap_get_checked sS q =
      if st + n ≤ q ∧ q < st + (c + 1) then R else pagemap_get_checked s q := by
    intro q
    rw [e10 q, gchk q, g2, g3, g4, ← hR]
  clear e10
  -- the list of the remaining pages
  have hlists : (sS.thr t).free_pb_list = upd (sI.thr t).free_pb_list (c - n) R ∧
      tlh_same (sS.thr t) (sI.thr t) ∧ (sS.pbh R).next = if M ≠ 0 then M else R := by
    obtain ⟨R', d, href, _, hfl, hths, hnext⟩ := pb_split_lists sI sS t H n hS
    rw [g3, b4, free_pb_ref_some (c + 1 - n) b5 b6, b7] at href
    have hd : c - n = d := by
      have h1 := Option.some.inj href
      injection h1
    rw [← hd] at hfl hnext
    have hR' : R' = R := by
      have e := e9
      rw [b7, hfl] at e
      simp only [upd, if_true] at e
      exact e
    rw [hR'] at hfl hnext
    have := hnext b9 hremI
    rw [hMI] at this
    exact ⟨hfl, hths, this⟩
  obtain ⟨hfl, hths, hRnext⟩ := hlists
  -- the state after `malloc`
  obtain ⟨s1, hs1⟩ : ∃ s1, s1 = set_pbh sS H { sS.pbh H with sizeclass := NUM_CLASSES } :=
    ⟨_, rfl⟩
  have hm : malloc s t size = some (u64 (st <<< PAGE_SHIFT), s1) := by
    rw [hmal, hall, hS, Option.some_bind, Option.some_bind, hs1]
    show some (u64 ((sS.pbh H).start_page <<< PAGE_SHIFT), _) = _
    rw [e2]
  have h1H : s1.pbh H = { sS.pbh H with sizeclass := NUM_CLASSES } := by
    rw [hs1]; simp [set_pbh, upd]
  have h1o : ∀ h, h ≠ H → s1.pbh h = sS.pbh h := by
    intro h hh
    rw [hs1]; simp [set_pbh, upd, hh]
  have h1thr : s1.thr = sS.thr := by rw [hs1]; rfl
  have f1 : (s1.pbh H).start_page = st := by rw [h1H]; exact e2
  have f2 : (s1.pbh H).length = n := by rw [h1H]; exact e1
  have f3 : (s1.pbh H).index = idx := by rw [h1H]; exact e3
  have f4 : (s1.pbh H).sizeclass = NUM_CLASSES := by rw [h1H]
  have f5 : ∀ h, h ≠ H → h ≠ R → (s1.pbh h).status = (s.pbh h).status := by
    intro h a b
    rw [h1o h a, (pbh_data_fields _ _ (e11 h a b)).2.2.2.2,
      (pbh_data_fields _ _ (g5 h a)).2.2.2.2]
  have hRH : R ≠ H := Ne.symm b9
  have f6 : (s1.pbh R).start_page = st + n := by rw [h1o R hRH]; exact e5
  have f7 : (s1.pbh R).length = c + 1 - n := by rw [h1o R hRH]; exact e6
  have f8 : (s1.pbh R).status = PBH_ON_FREE_LIST := by rw [h1o R hRH]; exact e8
  have f9 : (s1.pbh R).next = (if M ≠ 0 then M else R) := by rw [h1o R hRH]; exact hRnext
  have f10 : ∀ q, pagemap_get_checked s1 q =
      if st + n ≤ q ∧ q < st + (c + 1) then R else pagemap_get_checked s q := by
    intro q
    rw [← hSchk q, hs1]
    exact pagemap_get_checked_congr sS _ rfl rfl rfl q
  have f11 : (s1.thr t).free_pb_list = upd (upd (s.thr t).free_pb_list c
      (if H ≠ (s.pbh H).next then (s.pbh H).next else 0)) (c - n) R := by
    rw [h1thr, hfl, gfl]
  have f12 : tlh_same (s1.thr t) (s.thr t) := by
    rw [h1thr]
    exact tlh_same_trans _ _ _ hths gths
  have f13 : s1.sph = s.sph := by rw [hs1]; exact e12.trans g7
  have f14 : s1.pm_node = s.pm_node := by rw [hs1]; exact e13.trans gn
  have f15 : s1.pm_leaf = s.pm_leaf := by rw [hs1]; exact e14.trans gl
  have f16 : s1.cfg = s.cfg := by rw [hs1]; exact e15.trans gcfg
  have f17 : cache_ok s1 t := by rw [hs1]; exact e16
  exact ⟨s1, hm, f1, f2, f3, f4, f5, f6, f7, f8, f9, f10, f11, f12, f13, f14, f15, f16, f17⟩

/-- Without the page block cache, `malloc` of a large size of `n` pages that is served
by a listed free page block `H` of exactly `n` pages, the first of
`free_pb_list[n - 1]`: the call takes `H` from its list and returns its first
byte; the PageMap is as before. -/
theorem large_malloc_exact (s : State) (t size c H st idx : Nat)
    (hn : GET_PAGE_LEN size = c + 1) (hst : (s.pbh H).start_page = st)
    (hidx : (s.pbh H).index = idx)
    (hsize : MAX_SIZE < size) (hc : c < NUM_PAGE_CLASSES)
    (hinit : s.g_initialized ≠ 0) (hlive : (s.thr t).thread_id ≠ 0)
    (hcfg : s.cfg.MALLOC_USE_PAGE_BLOCK_CACHE = false)
    (hH : (s.thr t).free_pb_list c = H) (hH0 : H ≠ 0) (hL : (s.pbh H).length = c + 1)
    (hck : cache_ok s t) :
    ∃ s1, malloc s t size = some (u64 (st <<< PAGE_SHIFT), s1) ∧
      (s1.pbh H).start_page = st ∧ (s1.pbh H).length = c + 1 ∧ (s1.pbh H).index = idx ∧
      (s1.pbh H).sizeclass = NUM_CLASSES ∧
      (∀ h, h ≠ H → (s1.pbh h).status = (s.pbh h).status) ∧
      (∀ q, pagemap_get_checked s1 q = pagemap_get_checked s q) ∧
      (s1.thr t).free_pb_list = upd (s.thr t).free_pb_list c
        (if H ≠ (s.pbh H).next then (s.pbh H).next else 0) ∧
      tlh_same (s1.thr t) (s.thr t) ∧
      s1.sph = s.sph ∧ s1.pm_node = s.pm_node ∧ s1.pm_leaf = s.pm_leaf ∧ s1.cfg = s.cfg ∧
      cache_ok s1 t := by
  have a62 : NUM_PAGE_CLASSES = 62 := rfl
  have b1 : c + 1 ≤ NUM_PAGE_CLASSES := by omega
  have b3 : ¬ c > c + 1 - 1 := by omega
  have hmal := large_malloc_nocache s t size hsize (by rw [hn]; exact b1) hinit hlive hcfg
  rw [hn] at hmal
  obtain ⟨sI, hall, g1, g2, g3, g4, g5, g6, g7, gn, gl, gv, gcfg, gck, gths, gfl⟩ :=
    pb_alloc_listed_pop s t (c + 1) c H (Nat.le_add_left 1 c) (le_refl _) hc
      (fun c' h1 h2 => absurd h2 (by
        have : c + 1 - 1 = c := rfl
        rw [this] at h1
        exact Nat.not_lt.mpr h1)) hH hH0 hL
  rw [hst] at g2
  rw [hidx] at g4
  rw [if_neg b3] at hall
  obtain ⟨s1, hs1⟩ : ∃ s1, s1 = set_pbh sI H { sI.pbh H with sizeclass := NUM_CLASSES } :=
    ⟨_, rfl⟩
  have hm : malloc s t size = some (u64 (st <<< PAGE_SHIFT), s1) := by
    rw [hmal, hall, Option.some_bind, Option.some_bind, hs1]
    show some (u64 ((sI.pbh H).start_page <<< PAGE_SHIFT), _) = _
    rw [g2]
  have h1H : s1.pbh H = { sI.pbh H with sizeclass := NUM_CLASSES } := by
    rw [hs1]; simp [set_pbh, upd]
  have h1o : ∀ h, h ≠ H → s1.pbh h = sI.pbh h := by
    intro h hh
    rw [hs1]; simp [set_pbh, upd, hh]
  have h1thr : s1.thr = sI.thr := by rw [hs1]; rfl
  have f1 : (s1.pbh H).start_page = st := by rw [h1H]; exact g2
  have f2 : (s1.pbh H).length = c + 1 := by rw [h1H]; exact g3
  have f3 : (s1.pbh H).index = idx := by rw [h1H]; exact g4
  have f4 : (s1.pbh H).sizeclass = NUM_CLASSES := by rw [h1H]
  have f5 : ∀ h, h ≠ H → (s1.pbh h).status = (s.pbh h).status := by
    intro h a
    rw [h1o h a, (pbh_data_fields _ _ (g5 h a)).2.2.2.2]
  have f10 : ∀ q, pagemap_get_checked s1 q = pagemap_get_checked s q := by
    intro q
    rw [← pagemap_get_checked_congr s sI gn gl gv q, hs1]
    exact pagemap_get_checked_congr sI _ rfl rfl rfl q
  have f11 : (s1.thr t).free_pb_list = upd (s.thr t).free_pb_list c
      (if H ≠ (s.pbh H).next then (s.pbh H).next else 0) := by
    rw [h1thr, gfl]
  have f12 : tlh_same (s1.thr t) (s.thr t) := by
    rw [h1thr]
    exact gths
  have f13 : s1.sph = s.sph := by rw [hs1]; exact g7
  have f14 : s1.pm_node = s.pm_node := by rw [hs1]; exact gn
  have f15 : s1.pm_leaf = s.pm_leaf := by rw [hs1]; exact gl
  have f16 : s1.cfg = s.cfg := by rw [hs1]; exact gcfg
  have f17 : cache_ok s1 t := by rw [hs1]; exact gck hck
  exact ⟨s1, hm, f1, f2, f3, f4, f5, f10, f11, f12, f13, f14, f15, f16, f17⟩

theorem large_split_round_trip_aux (s : State) (t size sph c H n st idx sp R M P : Nat)
    (hn : GET_PAGE_LEN size = n) (hst : (s.pbh H).start_page = st)
    (hidx : (s.pbh H).index = idx) (hsp : (s.sph sph).start_page = sp)
    (hR : R = sph + PBH_SIZE * (idx + n)) (hM : (s.thr t).free_pb_list (c - n) = M)
    (hP : pagemap_get_checked s (sub64 st 1) = P)
    (hsize : MAX_SIZE < size) (hlen : n < c + 1) (hc : c < NUM_PAGE_CLASSES)
    (hinit : s.g_initialized ≠ 0) (hlive : (s.thr t).thread_id ≠ 0)
    (hcfg : s.cfg.MALLOC_USE_PAGE_BLOCK_CACHE = false)
    (hempty : ∀ c', n - 1 ≤ c' → c' < c → (s.thr t).free_pb_list c' = 0)
    (hH : (s.thr t).free_pb_list c = H) (hH0 : H ≠ 0) (hL : (s.pbh H).length = c + 1)
    (x1 : sp ≤ st) (x3 : st + (c + 1) ≤ sp + SUPERPAGE_LEN) (x4 : idx = st - sp + 1)
    (x5 : H = sph + PBH_SIZE * idx)
    (x6 : ∀ i, i < c + 1 → pagemap_get_checked s (st + i) = H)
    (c1 : sph % 2 = 0) (c2 : 1 ≤ sp) (c3 : sp + SUPERPAGE_LEN < 2 ^ 52)
    (c4 : sph + PBH_SIZE * (SUPERPAGE_LEN + 1) < 2 ^ 64)
    (hpmS : ∀ q, sp ≤ q → q < sp + SUPERPAGE_LEN → pm_has s q)
    (hck : cache_ok s t) (hinj : pm_inj s)
    (hown : (s.sph sph).owner_id = (s.thr t).thread_id)
    (hPu : P &&& HUGE_MALLOC_MARK = 0)
    (hPfree : ¬ (P ≠ 0 ∧ (s.pbh P).status = PBH_ON_FREE_LIST))
    (hPne : P ≠ 0 → P ≠ H ∧ P ≠ R)
    (hrem : M = 0 ∨ (M ≠ R ∧ M ≠ H ∧ M ≠ (s.pbh H).next ∧ (s.pbh M).prev ≠ R)) :
    ∃ s1 s2, malloc s t size = some (u64 (st <<< PAGE_SHIFT), s1) ∧
      free s1 t (u64 (st <<< PAGE_SHIFT)) = some s2 ∧
      ∀ pg cl, heap_shape s2 t pg cl = heap_shape s t pg cl := by
  have a62 : NUM_PAGE_CLASSES = 62 := rfl
  have a63 : SUPERPAGE_LEN = 63 := rfl
  have hn1 : 1 ≤ n := by
    have hM : MAX_SIZE = 32768 := rfl
    rw [← hn]
    simp only [GET_PAGE_LEN, PAGE_SHIFT, PAGE_SIZE, Nat.shiftLeft_eq, Nat.one_mul,
      Nat.shiftRight_eq_div_pow]
    split_ifs <;> omega
  -- arithmetic
  have b1 : 1 ≤ idx := by omega
  have b2 : idx + (c + 1) ≤ SUPERPAGE_LEN + 1 := by omega
  have b3 : 1 ≤ st := by omega
  have b4 : st + (c + 1) < 2 ^ 52 := by omega
  have b5 : ¬ (st + n ≤ st ∧ st < st + (c + 1)) := by omega
  have b6 : ¬ (st + n ≤ st - 1 ∧ st - 1 < st + (c + 1)) := by omega
  have b7 : st + n ≤ st + n ∧ st + n < st + (c + 1) := by omega
  have b8 : sub64 st 1 = st - 1 := by unfold sub64; omega
  have b9 : c + 1 - n - 1 = c - n := by omega
  have b10 : c + 1 ≤ NUM_PAGE_CLASSES := by omega
  have b11 : c + 1 - 1 = c := rfl
  have b12 : c - n ≠ c := by omega
  have b13 : ∀ q, st ≤ q → q < st + (c + 1) → sp ≤ q ∧ q < sp + SUPERPAGE_LEN := by
    intro q h1 h2
    omega
  have b14 : ∀ q, st + n ≤ q ∧ q < st + (c + 1) → q - st < c + 1 ∧ st + (q - st) = q := by
    intro q h
    omega
  have b15 : st + 0 = st := rfl
  have b16 : 0 < c + 1 := Nat.succ_pos c
  have hpm : ∀ q, st ≤ q → q < st + (c + 1) → pm_has s q :=
    fun q h1 h2 => hpmS q (b13 q h1 h2).1 (b13 q h1 h2).2
  have hMR : M ≠ 0 → M ≠ R := by
    intro h0
    rcases hrem with h | ⟨r1, _⟩
    · exact absurd h h0
    · exact r1
  rw [b8] at hP
  -- `malloc`
  obtain ⟨s1, hm, f1, f2, f3, f4, f5, f6, f7, f8, f9, f10, f11, f12, f13, f14, f15, f16, f17⟩ :=
    large_malloc_split s t size sph c H n st idx sp R M hn hst hidx hsp hR hM hsize hlen hc
      hinit hlive hcfg hempty hH hH0 hL x1 x3 x4 x5 c3 c4 hpm hck hinj hrem
  clear hempty hrem x1 x3 x4 c2 c3 hpmS
  have h1P : pagemap_get_checked s1 (st - 1) = P := by
    rw [f10, if_neg b6, hP]
  -- `free`
  obtain ⟨s2, hfr, hchk2, hfl2, hths2⟩ := large_free_merge s1 t sph H R st n (c + 1) idx
    (by rw [f12.2.2]; exact hlive) (by rw [f16]; exact hcfg) f1 f2 f3
    (by rw [f4]; exact Nat.lt_irrefl _) x5 hR b1 b2 c4 c1 b3 b4
    (by rw [f13, f12.2.2]; exact hown)
    (by rw [f10, if_neg b5, ← b15]; exact x6 0 b16)
    (by rw [h1P]; exact hPu)
    (by
      rw [h1P]
      rintro ⟨a, b⟩
      rw [f5 P (hPne a).1 (hPne a).2] at b
      exact hPfree ⟨a, b⟩)
    (by rw [f10, if_pos b7]) f6 f7 f8
    (by rw [f11, b9]; simp only [upd, if_true]) hn1 hlen b10
    (fun q h1 h2 => (pm_has_congr s s1 f14 f15 q).1.mpr (hpm q h1 h2))
    f17 (pm_inj_congr s s1 f14 f15 hinj)
  rw [f9, f11, b9, b11] at hfl2
  refine ⟨s1, s2, hm, hfr, ?_⟩
  apply heap_shape_same
  · intro q
    rw [hchk2 q, f10 q]
    by_cases hq : st + n ≤ q ∧ q < st + (c + 1)
    · rw [if_pos hq]
      have := x6 (q - st) (b14 q hq).1
      rw [(b14 q hq).2] at this
      exact this.symm
    · rw [if_neg hq, if_neg hq]
  · rw [hfl2]
    funext k
    simp only [upd]
    by_cases k1 : k = c
    · rw [if_pos k1, k1, hH]
    · rw [if_neg k1]
      by_cases k2 : k = c - n
      · rw [if_pos k2, k2, hM]
        by_cases m0 : M = 0
        · rw [if_neg (not_not.mpr m0), if_pos rfl, m0]
        · rw [if_pos m0, if_neg (Ne.symm (hMR m0))]
      · rw [if_neg k2, if_neg k2, if_neg k1]
  · exact tlh_same_trans _ _ _ hths2 f12

theorem large_exact_round_trip_aux (s : State) (t size sph c H st idx sp : Nat)
    (hn : GET_PAGE_LEN size = c + 1) (hst : (s.pbh H).start_page = st)
    (hidx : (s.pbh H).index = idx)
    (hsize : MAX_SIZE < size) (hc : c < NUM_PAGE_CLASSES)
    (hinit : s.g_initialized ≠ 0) (hlive : (s.thr t).thread_id ≠ 0)
    (hcfg : s.cfg.MALLOC_USE_PAGE_BLOCK_CACHE = false)
    (hH : (s.thr t).free_pb_list c = H) (hH0 : H ≠ 0) (hL : (s.pbh H).length = c + 1)
    (x1 : sp ≤ st) (x3 : st + (c + 1) ≤ sp + SUPERPAGE_LEN) (x4 : idx = st - sp + 1)
    (x5 : H = sph + PBH_SIZE * idx) (x6 : pagemap_get_checked s st = H)
    (c1 : sph % 2 = 0) (c2 : 1 ≤ sp) (c3 : sp + SUPERPAGE_LEN < 2 ^ 52)
    (c4 : sph + PBH_SIZE * (SUPERPAGE_LEN + 1) < 2 ^ 64)
    (hhas : pm_has s st) (hck : cache_ok s t)
    (hown : (s.sph sph).owner_id = (s.thr t).thread_id)
    (hPu : pagemap_get_checked s (sub64 st 1) &&& HUGE_MALLOC_MARK = 0)
    (hprev : ¬ is_free_pb s (pb_prev s H)) (hnext : ¬ is_free_pb s (pb_next s H))
    (hPne : pb_prev s H ≠ 0 → pb_prev s H ≠ H) (hNne : pb_next s H ≠ 0 → pb_next s H ≠ H) :
    ∃ s1 s2, malloc s t size = some (u64 (st <<< PAGE_SHIFT), s1) ∧
      free s1 t (u64 (st <<< PAGE_SHIFT)) = some s2 ∧
      ∀ pg cl, heap_shape s2 t pg cl = heap_shape s t pg cl := by
  have a62 : NUM_PAGE_CLASSES = 62 := rfl
  have a63 : SUPERPAGE_LEN = 63 := rfl
  have b1 : 1 ≤ idx := by omega
  have b2 : idx ≤ SUPERPAGE_LEN := by omega
  have b3 : 1 ≤ st := by omega
  have b4 : st < 2 ^ 52 := by omega
  have b10 : c + 1 ≤ NUM_PAGE_CLASSES := by omega
  have b11 : c + 1 - 1 = c := rfl
  clear x1 x3 x4 c2 c3
  obtain ⟨s1, hm, f1, f2, f3, f4, f5, f10, f11, f12, f13, f14, f15, f16, f17⟩ :=
    large_malloc_exact s t size c H st idx hn hst hidx hsize hc hinit hlive hcfg hH hH0 hL hck
  have h1P : pb_prev s1 H = pb_prev s H := by
    unfold pb_prev
    rw [f1, hst, f10]
  have h1N : pb_next s1 H = pb_next s H := by
    unfold pb_next
    rw [f1, f2, hst, hL, f10]
  obtain ⟨s2, hfr, hchk2, hfl2, hths2⟩ := large_free_alone s1 t sph H st (c + 1) idx
    (by rw [f12.2.2]; exact hlive) (by rw [f16]; exact hcfg) f1 f2 f3
    (by rw [f4]; exact Nat.lt_irrefl _) x5 b1 b2 c4 c1 b3 b4
    (by rw [f13, f12.2.2]; exact hown)
    (by rw [f10]; exact x6) ((pm_has_congr s s1 f14 f15 st).1.mpr hhas)
    (by rw [f10]; exact hPu)
    (by
      rw [is_free_pb, h1P]
      rintro ⟨a, b⟩
      rw [f5 _ (hPne a)] at b
      exact hprev ⟨a, b⟩)
    (by
      rw [is_free_pb, h1N]
      rintro ⟨a, b⟩
      rw [f5 _ (hNne a)] at b
      exact hnext ⟨a, b⟩)
    (Nat.le_add_left 1 c) b10 f17
  rw [f11, b11] at hfl2
  refine ⟨s1, s2, hm, hfr, ?_⟩
  apply heap_shape_same
  · intro q
    rw [hchk2 q, f10 q]
  · rw [hfl2]
    funext k
    simp only [upd]
    by_cases k1 : k = c
    · rw [if_pos k1, k1, hH]
    · rw [if_neg k1, if_neg k1]
  · exact tlh_same_trans _ _ _ hths2 f12

/-- The round trip of a large size that is served by a listed free page block.
Without the page block cache, in a live thread: the first free page block list from
the page length `n` of the request on that is not empty is `free_pb_list[c]`, headed
by a page block `H` of `c + 1` pages of a superpage with a sound layout that the
thread owns; the page block before `H` is not free; when `H` has exactly `n` pages,
the page block after it is not free either; when it has more, the slot of page `n`
of `H` is not linked into `free_pb_list[c - n]`, whose first header is on no other
list. Then `malloc(size)` returns the first byte of `H`, `free` of it returns, and
the shape of the heap is the one before the two calls. -/
theorem large_listed_round_trip (s : State) (t size sph c H : Nat)
    (hsize : MAX_SIZE < size) (hlen : GET_PAGE_LEN size ≤ c + 1) (hc : c < NUM_PAGE_CLASSES)
    (hinit : s.g_initialized ≠ 0) (hlive : (s.thr t).thread_id ≠ 0)
    (hcfg : s.cfg.MALLOC_USE_PAGE_BLOCK_CACHE = false)
    (hempty : ∀ c', GET_PAGE_LEN size - 1 ≤ c' → c' < c → (s.thr t).free_pb_list c' = 0)
    (hH : (s.thr t).free_pb_list c = H) (hH0 : H ≠ 0) (hL : (s.pbh H).length = c + 1)
    (hi : sp_inv s sph) (hX : hdr_ok s sph H) (hck : cache_ok s t) (hinj : pm_inj s)
    (hown : (s.sph sph).owner_id = (s.thr t).thread_id)
    (hprev : ¬ is_free_pb s (pb_prev s H))
    (hnext : GET_PAGE_LEN size = c + 1 → ¬ is_free_pb s (pb_next s H))
    (hrem : GET_PAGE_LEN size < c + 1 →
      (s.thr t).free_pb_list (c - GET_PAGE_LEN size) = 0 ∨
      ((s.thr t).free_pb_list (c - GET_PAGE_LEN size) ≠
          sph + PBH_SIZE * ((s.pbh H).index + GET_PAGE_LEN size) ∧
        (s.thr t).free_pb_list (c - GET_PAGE_LEN size) ≠ H ∧
        (s.thr t).free_pb_list (c - GET_PAGE_LEN size) ≠ (s.pbh H).next ∧
        (s.pbh ((s.thr t).free_pb_list (c - GET_PAGE_LEN size))).prev ≠
          sph + PBH_SIZE * ((s.pbh H).index + GET_PAGE_LEN size))) :
    ∃ s1 s2, malloc s t size = some (u64 ((s.pbh H).start_page <<< PAGE_SHIFT), s1) ∧
      free s1 t (u64 ((s.pbh H).start_page <<< PAGE_SHIFT)) = some s2 ∧
      ∀ pg cl, heap_shape s2 t pg cl = heap_shape s t pg cl := by
  have a52 : PMAP_BITS = 52 := rfl
  have a63 : SUPERPAGE_LEN = 63 := rfl
  obtain ⟨hPu, _, hP1, _, hN1⟩ := sp_inv_neighbours s sph H hi hX
  have hpmS : ∀ q, (s.sph sph).start_page ≤ q → q < (s.sph sph).start_page + SUPERPAGE_LEN →
      pm_has s q := fun q a b => sp_inv_pm_has s sph hi q a b
  obtain ⟨c1, c2, c3, c4, _, _, _⟩ := hi
  obtain ⟨x1, _, x3, x4, x5, x6⟩ := hX
  rw [a52] at c3
  rw [hL] at x3 x6
  have x60 : pagemap_get_checked s (s.pbh H).start_page = H := x6 0 (Nat.succ_pos c)
  by_cases hcase : GET_PAGE_LEN size = c + 1
  · refine large_exact_round_trip_aux s t size sph c H _ _ _ hcase rfl rfl hsize hc hinit
      hlive hcfg hH hH0 hL x1 x3 x4 x5 x60 c1 c2 c3 c4 (hpmS _ x1 ?_) hck hown hPu hprev
      (hnext hcase) (fun h => (hP1 h).2.1) ?_
    · rw [a63]; omega
    · intro h
      unfold pb_next at h ⊢
      by_cases e : pagemap_get_checked s (u64 ((s.pbh H).start_page + (s.pbh H).length)) &&&
          HUGE_MALLOC_MARK ≠ 0
      · rw [if_pos e] at h
        exact absurd rfl h
      · rw [if_neg e] at h ⊢
        exact (hN1 h (not_not.mp e)).2.1
  · have hlt : GET_PAGE_LEN size < c + 1 := Nat.lt_of_le_of_ne hlen hcase
    refine large_split_round_trip_aux s t size sph c H _ _ _ _ _ _ _ rfl rfl rfl rfl rfl rfl
      rfl hsize hlt hc hinit hlive hcfg hempty hH hH0 hL x1 x3 x4 x5 x6 c1 c2 c3 c4 hpmS hck
      hinj hown hPu hprev ?_ (hrem hlt)
    intro h0
    obtain ⟨p1, p2, p3⟩ := hP1 h0
    refine ⟨p2, ?_⟩
    obtain ⟨q1, q2, _, q4, q5, _⟩ := p1
    have a64 : PBH_SIZE = 64 := rfl
    rw [a64] at q5 ⊢
    omega

/-- The call `sph_list_remove(&tlh->sp_list, sph)` on the first superpage of the list
returns; the superpage after it, if there is one, becomes the first. -/
theorem sph_list_remove_first (s : State) (t sph : Nat) (hhead : (s.thr t).sp_list = sph) :
    ∃ sa, sph_list_remove s t sph = some sa ∧
      sa.thr t = { s.thr t with
        sp_list := if sph = (s.sph sph).next then 0 else (s.sph sph).next } := by
  unfold sph_list_remove
  by_cases h1 : sph = (s.sph sph).next
  · rw [if_pos h1, if_neg (not_not.mpr hhead), if_pos h1]
    refine ⟨_, rfl, ?_⟩
    simp [set_tlh, upd]
  · rw [if_neg h1, if_pos hhead, if_neg h1]
    refine ⟨_, rfl, ?_⟩
    simp [sph_link_init, set_sph, set_tlh, upd]

/-- The call `sph_free(tlh, sph)` on the first superpage of the superpage list of the
thread, with no hazard mark, whose pages have their levels in the PageMap: the call
returns; the PageMap entries of the pages of the superpage are `NULL`, and the
superpage has left the superpage list. -/
theorem sph_free_first (s : State) (t sph : Nat) (hhead : (s.thr t).sp_list = sph)
    (hmark : (s.sph sph).hazard_mark = 0)
    (hpm : ∀ i, i < SUPERPAGE_LEN → pm_has s ((s.sph sph).start_page + i))
    (hck : cache_ok s t) (hinj : pm_inj s) :
    ∃ s2, sph_free s t sph = some s2 ∧
      (∀ q, pagemap_get_checked s2 q =
        if (s.sph sph).start_page ≤ q ∧ q < (s.sph sph).start_page + SUPERPAGE_LEN then 0
        else pagemap_get_checked s q) ∧
      (s2.thr t).free_pb_list = (s.thr t).free_pb_list ∧
      (s2.thr t).blk_list = (s.thr t).blk_list ∧
      (s2.thr t).thread_id = (s.thr t).thread_id ∧
      (s2.thr t).sp_list = (if sph = (s.sph sph).next then 0 else (s.sph sph).next) := by
  obtain ⟨sa, hrem, hathr⟩ := sph_list_remove_first s t sph hhead
  obtain ⟨_, han, hal, hav, hacfg, hast, hathr2⟩ := sph_list_remove_effect s sa t sph hrem
  obtain ⟨_, _, _, _, _, _, hamk⟩ := sph_list_remove_globals s sa t sph hrem
  have hack : cache_ok sa t :=
    cache_ok_congr s sa t hacfg han hal (hathr2 t).2.2.1 (hathr2 t).2.2.2 hck
  obtain ⟨sb, hset, hbpm, hbck, hbchk⟩ := pagemap_set_range_spec t 0 SUPERPAGE_LEN sa
    (s.sph sph).start_page (fun i hi => (pm_has_congr s sa han hal _).1.mpr (hpm i hi)) hack
    (pm_inj_congr s sa han hal hinj)
  obtain ⟨_, hbsph, _, _, _, _, _, _, _, _, _, _, hbthr⟩ := no_pm_fields sa sb hbpm
  obtain ⟨hb1, hb2, hb3, hb4⟩ := clear_cache_lists _ _ (hbthr t)
  have hbmk : (sb.sph sph).hazard_mark = 0 := by rw [hbsph, hamk, hmark]
  have hset' : pagemap_set_range sa t (sa.sph sph).start_page SUPERPAGE_LEN 0 = some sb := by
    rw [hast sph]; exact hset
  have hachk : ∀ q, pagemap_get_checked sa q = pagemap_get_checked s q :=
    fun q => pagemap_get_checked_congr s sa han hal hav q
  have hfree : ∃ s2, sph_free s t sph = some s2 ∧ s2.thr = sb.thr ∧ s2.pm_node = sb.pm_node ∧
      s2.pm_leaf = sb.pm_leaf ∧ s2.pm_val = sb.pm_val := by
    unfold sph_free
    simp only [Option.bind_eq_bind, Option.pure_def, hrem, Option.some_bind, hset', hbmk,
      ne_eq, not_true_eq_false, if_false, false_or]
    split
    · exact ⟨_, rfl, rfl, rfl, rfl, rfl⟩
    · exact ⟨_, rfl, rfl, rfl, rfl, rfl⟩
  obtain ⟨s2, hs2, h2thr, h2n, h2l, h2v⟩ := hfree
  refine ⟨s2, hs2, fun q => ?_, ?_, ?_, ?_, ?_⟩
  · rw [pagemap_get_checked_congr sb s2 h2n h2l h2v q, hbchk q, hachk q]
  · rw [h2thr, hb1, hathr]
  · rw [h2thr, hb2, hathr]
  · rw [h2thr, hb4, hathr]
  · rw [h2thr, hb3, hathr]

/-- The call `pb_free(tlh, H)` on a page block with no page block before it whose
neighbour after it, `R`, is free, is the first header of the free page block list of
its length and takes all the other pages of the superpage, the first of the
superpage list of the thread: the call returns; `R` is taken from its list, the
PageMap entries of the superpage are `NULL`, and the superpage has left the
superpage list. -/
theorem pb_free_completes (s : State) (t sph H R : Nat)
    (hP : pagemap_get_checked s (sub64 (s.pbh H).start_page 1) = 0)
    (hN : pagemap_get_checked s (u64 ((s.pbh H).start_page + (s.pbh H).length)) = R)
    (hR0 : R ≠ 0) (hRh : R &&& HUGE_MALLOC_MARK = 0)
    (hRst : (s.pbh R).status = PBH_ON_FREE_LIST)
    (hl1 : 1 ≤ (s.pbh H).length) (hl2 : 1 ≤ (s.pbh R).length)
    (hsum : (s.pbh H).length + (s.pbh R).length = SUPERPAGE_LEN)
    (hhead : (s.thr t).free_pb_list ((s.pbh R).length - 1) = R)
    (hsup : pbh_get_superpage s H = some sph)
    (hsl : (s.thr t).sp_list = sph) (hmark : (s.sph sph).hazard_mark = 0)
    (hpm : ∀ i, i < SUPERPAGE_LEN → pm_has s ((s.sph sph).start_page + i))
    (hc : cache_ok s t) (hinj : pm_inj s) :
    ∃ s2, pb_free s t H = some s2 ∧
      (∀ q, pagemap_get_checked s2 q =
        if (s.sph sph).start_page ≤ q ∧ q < (s.sph sph).start_page + SUPERPAGE_LEN then 0
        else pagemap_get_checked s q) ∧
      (s2.thr t).free_pb_list = upd (s.thr t).free_pb_list ((s.pbh R).length - 1)
        (if R = (s.pbh R).next then 0 else (s.pbh R).next) ∧
      (∀ cl, ((s2.thr t).blk_list cl).free_blk_list = ((s.thr t).blk_list cl).free_blk_list ∧
        ((s2.thr t).blk_list cl).cnt_free = ((s.thr t).blk_list cl).cnt_free) ∧
      (s2.thr t).thread_id = (s.thr t).thread_id ∧
      (s2.thr t).sp_list = (if sph = (s.sph sph).next then 0 else (s.sph sph).next) := by
  have h62 : NUM_PAGE_CLASSES = 62 := rfl
  have h63 : SUPERPAGE_LEN = 63 := rfl
  obtain ⟨LH, hLH⟩ : ∃ LH, LH = (s.pbh H).length := ⟨_, rfl⟩
  obtain ⟨LR, hLR⟩ : ∃ LR, LR = (s.pbh R).length := ⟨_, rfl⟩
  rw [← hLH] at hl1 hsum hN
  rw [← hLR] at hl2 hsum hhead ⊢
  rw [h63] at hsum
  have b1 : LR - 1 < NUM_PAGE_CLASSES := by omega
  have b2 : LR ≤ NUM_PAGE_CLASSES := by omega
  have b3 : u8 (LH + LR) = SUPERPAGE_LEN := by unfold u8; omega
  have b4 : LH ≤ SUPERPAGE_LEN := by omega
  have b5 : LH < SUPERPAGE_LEN := by omega
  -- the neighbour leaves its list
  obtain ⟨sa, hrm, hnla, hfla⟩ := pbh_list_remove_free_pb s t (LR - 1) R b1 hhead
  obtain ⟨hlaya, hspha, hna, hla, hcfga, hcka, hchka⟩ := no_links_lay s sa t hnla
  obtain ⟨_, _, _, _, _, _, hva, _, hthra⟩ := no_links_fields s sa hnla
  obtain ⟨_, _, hatid, haspl, _⟩ := tlh_nolists_cache _ _ (hthra t)
  have habl : ∀ cl, ((sa.thr t).blk_list cl).free_blk_list = ((s.thr t).blk_list cl).free_blk_list ∧
      ((sa.thr t).blk_list cl).cnt_free = ((s.thr t).blk_list cl).cnt_free :=
    (tlh_same_of_nolists _ _ (hthra t)).1
  -- the length of both
  obtain ⟨sb, hsb⟩ : ∃ sb, sb = pbh_add_length sa H LR := ⟨_, rfl⟩
  have hbH : (sb.pbh H).length = SUPERPAGE_LEN := by
    rw [hsb]
    simp only [pbh_add_length, set_pbh, upd, if_true]
    rw [(hlaya H).2.1, ← hLH, b3]
  have hbidx : (sb.pbh H).index = (s.pbh H).index := by
    rw [hsb]
    simp only [pbh_add_length, set_pbh, upd, if_true]
    exact (hlaya H).2.2.1
  have hbthr : sb.thr = sa.thr := by rw [hsb]; rfl
  have hbsph : sb.sph = s.sph := by rw [hsb]; exact hspha
  have hbn : sb.pm_node = s.pm_node := by rw [hsb]; exact hna
  have hbl : sb.pm_leaf = s.pm_leaf := by rw [hsb]; exact hla
  have hbv : sb.pm_val = s.pm_val := by rw [hsb]; exact hva
  have hbck : cache_ok sb t := by
    have := hcka hc
    rw [hsb]
    exact this
  have hco : pb_coalesce s t H = some (H, sb) := by
    unfold pb_coalesce
    have hr : free_pb_ref LR = some (.free_pb (LR - 1)) := free_pb_ref_some LR hl2 b2
    have e1 : (0 : Nat) &&& HUGE_MALLOC_MARK = 0 := by simp
    simp only [hP, e1, ne_eq, not_true_eq_false, if_false, false_and, ← hLH, hN, hRh, hR0,
      not_false_eq_true, hRst, and_self, if_true, ← hLR, hr, Option.pure_def,
      Option.bind_eq_bind, Option.some_bind, hrm, ← hsb, hbH]
  have hsupb : pbh_get_superpage sb H = some sph := by
    unfold pbh_get_superpage at hsup ⊢
    rw [hbidx]
    exact hsup
  obtain ⟨s2, hfr, hchk2, hfl2, hbl2, htid2, hsl2⟩ := sph_free_first sb t sph
    (by rw [hbthr, haspl]; exact hsl) (by rw [hbsph]; exact hmark)
    (fun i hi => (pm_has_congr s sb hbn hbl _).1.mpr (by rw [hbsph]; exact hpm i hi))
    hbck (pm_inj_congr s sb hbn hbl hinj)
  rw [hbsph] at hchk2 hsl2
  refine ⟨s2, ?_, fun q => ?_, ?_, ?_, ?_, hsl2⟩
  · unfold pb_free
    rw [← hLH]
    simp only [b4, not_true_eq_false, if_false, b5, if_true, hco, Option.pure_def,
      Option.bind_eq_bind, Option.some_bind, hbH, hsupb, hfr]
  · rw [hchk2 q, pagemap_get_checked_congr s sb hbn hbl hbv q]
  · rw [hfl2, hbthr, hfla]
  · rw [hbl2, hbthr]
    exact habl
  · rw [htid2, hbthr, hatid]

/-- Without the page block cache, `free` of the first byte of a large page block `H`
of `n` pages that starts its superpage, the first of the superpage list of the
thread, whose neighbour after it, `R`, is free, is the first header of the free
page block list of its length and takes all the other pages: the call returns; `R`
is taken from its list, the PageMap entries of the superpage are `NULL`, and the
superpage has left the superpage list. -/
theorem large_free_completes (s : State) (t sph H R sp n : Nat)
    (hlive : (s.thr t).thread_id ≠ 0)
    (hcfg : s.cfg.MALLOC_USE_PAGE_BLOCK_CACHE = false)
    (hsps : (s.sph sph).start_page = sp)
    (hst : (s.pbh H).start_page = sp) (hlenH : (s.pbh H).length = n)
    (hidx : (s.pbh H).index = 1) (hcls : ¬ (s.pbh H).sizeclass < NUM_CLASSES)
    (hH : H = sph + PBH_SIZE) (hR : R = sph + PBH_SIZE * (n + 1))
    (h64 : sph + PBH_SIZE * (SUPERPAGE_LEN + 1) < 2 ^ 64) (heven : sph % 2 = 0)
    (hsp1 : 1 ≤ sp) (hsp52 : sp + SUPERPAGE_LEN < 2 ^ 52)
    (hown : (s.sph sph).owner_id = (s.thr t).thread_id)
    (hchkH : pagemap_get_checked s sp = H)
    (hP : pagemap_get_checked s (sp - 1) = 0)
    (hchkR : pagemap_get_checked s (sp + n) = R)
    (hRlen : (s.pbh R).length = SUPERPAGE_LEN - n)
    (hRfree : (s.pbh R).status = PBH_ON_FREE_LIST)
    (hhead : (s.thr t).free_pb_list (SUPERPAGE_LEN - n - 1) = R)
    (hn1 : 1 ≤ n) (hn2 : n ≤ NUM_PAGE_CLASSES)
    (hsl : (s.thr t).sp_list = sph) (hmark : (s.sph sph).hazard_mark = 0)
    (hpm : ∀ i, i < SUPERPAGE_LEN → pm_has s (sp + i))
    (hck : cache_ok s t) (hinj : pm_inj s) :
    ∃ s2, free s t (u64 (sp <<< PAGE_SHIFT)) = some s2 ∧
      (∀ q, pagemap_get_checked s2 q =
        if sp ≤ q ∧ q < sp + SUPERPAGE_LEN then 0 else pagemap_get_checked s q) ∧
      (s2.thr t).free_pb_list = upd (s.thr t).free_pb_list (SUPERPAGE_LEN - n - 1)
        (if R = (s.pbh R).next then 0 else (s.pbh R).next) ∧
      (∀ cl, ((s2.thr t).blk_list cl).free_blk_list = ((s.thr t).blk_list cl).free_blk_list ∧
        ((s2.thr t).blk_list cl).cnt_free = ((s.thr t).blk_list cl).cnt_free) ∧
      (s2.thr t).thread_id = (s.thr t).thread_id ∧
      (s2.thr t).sp_list = (if sph = (s.sph sph).next then 0 else (s.sph sph).next) := by
  have a62 : NUM_PAGE_CLASSES = 62 := rfl
  have a63 : SUPERPAGE_LEN = 63 := rfl
  have a64 : PBH_SIZE = 64 := rfl
  -- arithmetic
  have b2 : H ≠ 0 := by rw [a64] at hH; omega
  have b4 : R ≠ 0 := by rw [a64] at hR; omega
  have b5 : R % 2 = 0 := by rw [a64] at hR; omega
  have b6 : H % 2 = 0 := by rw [a64] at hH; omega
  have b7 : sub64 sp 1 = sp - 1 := by unfold sub64; omega
  have b8 : u64 (sp + n) = sp + n := by unfold u64; rw [a63] at hsp52; rw [a62] at hn2; omega
  have b9 : 1 ≤ SUPERPAGE_LEN - n := by rw [a63]; rw [a62] at hn2; omega
  have b10 : n + (SUPERPAGE_LEN - n) = SUPERPAGE_LEN := by rw [a63]; rw [a62] at hn2; omega
  have b13 : sp < 2 ^ 52 := by omega
  have b15 : sp ≠ 0 := by omega
  have hsup : pbh_get_superpage s H = some sph :=
    pbh_get_superpage_slot s sph H 1 hidx (le_refl _) (by rw [a63]; omega)
      (by rw [hH, Nat.mul_one]) h64
  clear h64 hsp1 hsp52 hn2
  have hRe : R &&& HUGE_MALLOC_MARK = 0 := by
    simp only [HUGE_MALLOC_MARK, Nat.and_one_is_mod]
    exact b5
  have hHe : H &&& HUGE_MALLOC_MARK = 0 := by
    simp only [HUGE_MALLOC_MARK, Nat.and_one_is_mod]
    exact b6
  obtain ⟨hpg, hp0⟩ := page_of_first_byte sp b13
  -- the look-up
  obtain ⟨sg, hgpm, hgck, hgv, hfree⟩ := large_free_owner s t (u64 (sp <<< PAGE_SHIFT)) H sph
    hlive (hp0 b15) hcfg (by rw [hpg]; exact hpm 0 (by rw [a63]; omega))
    hck (by rw [hpg]; exact hchkH) b2 hHe hcls hsup hown
  obtain ⟨hgp, hgsph, _, _, hgn, hgl, _, _, _, _, _, _, hgthr⟩ := no_pm_fields s sg hgpm
  have hgchk : ∀ q, pagemap_get_checked sg q = pagemap_get_checked s q :=
    fun q => pagemap_get_checked_congr s sg hgn hgl hgv q
  obtain ⟨hgfl, hgbl, hgsl, hgtid⟩ := clear_cache_lists _ _ (hgthr t)
  have hgsup : pbh_get_superpage sg H = some sph := by
    unfold pbh_get_superpage
    rw [hgp]
    exact hsup
  -- the page block is freed
  obtain ⟨s2, hpf, hchk2, hfl2, hbl2, htid2, hsl2⟩ := pb_free_completes sg t sph H R
    (by rw [hgp, hst, b7, hgchk]; exact hP)
    (by rw [hgp, hst, hlenH, b8, hgchk]; exact hchkR)
    b4 hRe (by rw [hgp]; exact hRfree) (by rw [hgp, hlenH]; exact hn1)
    (by rw [hgp, hRlen]; exact b9) (by rw [hgp, hlenH, hRlen]; exact b10)
    (by rw [hgp, hRlen, hgfl]; exact hhead) hgsup (by rw [hgsl]; exact hsl)
    (by rw [hgsph]; exact hmark)
    (by
      intro i hi
      rw [hgsph, hsps]
      exact (pm_has_congr s sg hgn hgl _).1.mpr (hpm i hi))
    hgck (pm_inj_congr s sg hgn hgl hinj)
  rw [hgsph, hsps] at hchk2
  rw [hgp, hRlen, hgfl] at hfl2
  rw [hgsph] at hsl2
  refine ⟨s2, by rw [hfree]; exact hpf, fun q => ?_, hfl2, fun cl => ?_, ?_, hsl2⟩
  · rw [hchk2 q, hgchk q]
  · rw [(hbl2 cl).1, (hbl2 cl).2, hgbl]
    exact ⟨rfl, rfl⟩
  · rw [htid2, hgtid]

/-- The call `do_mmap` leaves the heaps of the threads and the build switches as they
are. -/
theorem do_mmap_thr (x y : State) (n a : Nat) (hx : do_mmap x n = some (a, y)) :
    y.thr = x.thr ∧ y.cfg = x.cfg := by
  unfold do_mmap at hx
  cases ho : x.os_mmap x.os_calls n with
  | none => rw [ho] at hx; exact absurd hx (by simp)
  | some m =>
    rw [ho] at hx
    simp only [Option.some.injEq, Prod.mk.injEq] at hx
    rw [← hx.2]
    exact ⟨rfl, rfl⟩

/-- One round of the loop of `pagemap_expand` leaves the heaps of the threads and the
build switches as they are. -/
theorem pagemap_expand_round_thr (s s1 : State) (key k1 : Nat)
    (h : pagemap_expand_round s key = some (s1, k1)) : s1.thr = s.thr ∧ s1.cfg = s.cfg := by
  unfold pagemap_expand_round at h
  dsimp only at h
  split at h
  · exact absurd h (by simp)
  · obtain ⟨sa, ha, h⟩ := Option.bind_eq_some.mp h
    have e1 : sa.thr = s.thr ∧ sa.cfg = s.cfg := by
      split at ha
      · obtain ⟨r, hr, hr2⟩ := Option.map_eq_some'.mp ha
        obtain ⟨q1, q2⟩ := do_mmap_thr s r.2 _ r.1 hr
        rw [← hr2]
        exact ⟨q1, q2⟩
      · simp only [Option.some.injEq] at ha
        rw [← ha]
        exact ⟨rfl, rfl⟩
    split at h
    · exact absurd h (by simp)
    · obtain ⟨sb, hb, h⟩ := Option.map_eq_some'.mp h
      simp only [Prod.mk.injEq] at h
      rw [← h.1]
      split at hb
      · obtain ⟨r, hr, hr2⟩ := Option.map_eq_some'.mp hb
        obtain ⟨q1, q2⟩ := do_mmap_thr sa r.2 _ r.1 hr
        rw [← hr2]
        exact ⟨q1.trans e1.1, q2.trans e1.2⟩
      · simp only [Option.some.injEq] at hb
        rw [← hb]
        exact e1

/-- The call `pagemap_expand` leaves the heaps of the threads and the build switches
as they are. -/
theorem pagemap_expand_thr (s s' : State) (pg n : Nat)
    (h : pagemap_expand s pg n = some s') : s'.thr = s.thr ∧ s'.cfg = s.cfg := by
  have hloop : ∀ (limit fuel : Nat) (x : State) (key : Nat) (y : State),
      pagemap_expand_loop limit fuel x key = some y → y.thr = x.thr ∧ y.cfg = x.cfg := by
    intro limit fuel
    induction fuel with
    | zero =>
      intro x key y hy
      unfold pagemap_expand_loop at hy
      split at hy
      · exact absurd hy (by simp)
      · simp only [Option.some.injEq] at hy
        rw [← hy]
        exact ⟨rfl, rfl⟩
    | succ fuel ih =>
      intro x key y hy
      unfold pagemap_expand_loop at hy
      split at hy
      · obtain ⟨r, hr, hr2⟩ := Option.bind_eq_some.mp hy
        obtain ⟨q1, q2⟩ := pagemap_expand_round_thr x r.1 key r.2 hr
        obtain ⟨q3, q4⟩ := ih r.1 r.2 y hr2
        exact ⟨q3.trans q1, q4.trans q2⟩
      · simp only [Option.some.injEq] at hy
        rw [← hy]
        exact ⟨rfl, rfl⟩
  exact hloop _ _ _ _ _ h

/-- The call `sph_list_prepend(&tlh->sp_list, sph)` changes one thing in the heap of
the thread: `sph` is the first of its superpage list. -/
theorem sph_list_prepend_thr (y : State) (t a : Nat) :
    (sph_list_prepend y t a).thr t = { y.thr t with sp_list := a } ∧
      (sph_list_prepend y t a).cfg = y.cfg := by
  unfold sph_list_prepend
  dsimp only
  by_cases htop : (y.thr t).sp_list ≠ 0
  · rw [if_pos htop]
    refine ⟨?_, rfl⟩
    simp only [set_tlh, upd, if_true, set_sph]
  · rw [if_neg htop]
    refine ⟨?_, rfl⟩
    simp only [set_tlh, upd, if_true, set_sph, sph_link_init]

/-- The call `sph_alloc(tlh)` changes one thing in the heap of the thread: the new
superpage is the first of its superpage list. -/
theorem sph_alloc_thr (s s0 : State) (t sph : Nat) (hsa : sph_alloc s t = some (sph, s0)) :
    s0.thr t = { s.thr t with sp_list := sph } ∧ s0.cfg = s.cfg := by
  unfold sph_alloc at hsa
  simp only [Option.bind_eq_bind, Option.pure_def] at hsa
  obtain ⟨⟨a, x⟩, hr, hr2⟩ := Option.bind_eq_some.mp hsa
  simp only [Option.some.injEq, Prod.mk.injEq] at hr2
  obtain ⟨ha, hx⟩ := hr2
  subst ha
  have e1 : x.thr = s.thr ∧ x.cfg = s.cfg := by
    by_cases hg : s.g_free_sp_list ≠ 0
    · rw [if_pos hg] at hr
      split_ifs at hr <;>
        (simp only [Option.some.injEq, Prod.mk.injEq] at hr
         rw [← hr.2]
         exact ⟨rfl, rfl⟩)
    · rw [if_neg hg] at hr
      obtain ⟨m, hm, hm2⟩ := Option.bind_eq_some.mp hr
      obtain ⟨y, hy, hy2⟩ := Option.bind_eq_some.mp hm2
      simp only [Option.some.injEq, Prod.mk.injEq] at hy2
      obtain ⟨q1, q2⟩ := do_mmap_thr s m.2 _ m.1 hm
      obtain ⟨q3, q4⟩ := pagemap_expand_thr _ y _ _ hy
      rw [← hy2.2]
      exact ⟨q3.trans q1, q4.trans q2⟩
  clear hr hsa
  obtain ⟨p1, p2⟩ := sph_list_prepend_thr
    (set_sph x a { x.sph a with owner_id := (x.thr t).thread_id }) t a
  rw [← hx]
  refine ⟨?_, p2.trans e1.2⟩
  rw [p1]
  show { x.thr t with sp_list := a } = _
  rw [e1.1]

/-- What `pb_alloc` does to the lists of the thread when it carves a page block from
a new superpage: the header `R` of the remaining pages becomes the first of the free
page block list of their number; the other lists, the superpage headers and the
build switches are those after `sph_alloc`. -/
theorem pb_alloc_fresh_lists (s s0 s' : State) (t n sph H : Nat) (hn : 1 ≤ n)
    (hn2 : n ≤ NUM_PAGE_CLASSES)
    (hempty : ∀ c, n - 1 ≤ c → c < NUM_PAGE_CLASSES → (s.thr t).free_pb_list c = 0)
    (hrem : ¬ ((s.thr t).sp_list ≠ 0 ∧ (s.sph (s.thr t).sp_list).remote_pb_list ≠ 0))
    (hsa : sph_alloc s t = some (sph, s0))
    (hall : pb_alloc s t n = some (H, s')) :
    ∃ R, s'.sph = s0.sph ∧ s'.cfg = s0.cfg ∧
      (s'.thr t).free_pb_list = upd (s0.thr t).free_pb_list (SUPERPAGE_LEN - n - 1) R ∧
      tlh_same (s'.thr t) (s0.thr t) ∧
      (∀ M, (s0.thr t).free_pb_list (SUPERPAGE_LEN - n - 1) = M →
        (M = 0 ∨ (M ≠ R ∧ M ≠ H ∧ (s0.pbh M).prev ≠ R)) →
        (s'.pbh R).next = if M ≠ 0 then M else R) := by
  have h63 : SUPERPAGE_LEN = 63 := rfl
  have h62 : NUM_PAGE_CLASSES = 62 := rfl
  rw [h62] at hn2
  have hlt : ¬ ¬ n < SUPERPAGE_LEN := by rw [h63]; omega
  have hc : SUPERPAGE_LEN - n - 1 < NUM_PAGE_CLASSES := by rw [h63, h62]; omega
  have href : free_pb_ref (SUPERPAGE_LEN - n) = some (.free_pb (SUPERPAGE_LEN - n - 1)) := by
    unfold free_pb_ref
    rw [if_pos ⟨by rw [h63]; omega, by rw [h63, h62]; omega⟩]
  rw [pb_alloc_fresh_unfold s t n ⟨hn, by rw [h62]; exact hn2⟩
    (pb_alloc_from_tlh_empty s t n hn hempty) hrem, hsa] at hall
  simp only [Option.some_bind] at hall
  obtain ⟨⟨A, sa⟩, ha, hall⟩ := Option.bind_eq_some.mp hall
  obtain ⟨s1, hs1, hall⟩ := Option.bind_eq_some.mp hall
  rw [if_neg hlt] at hall
  obtain ⟨⟨B, sb⟩, hb, hall⟩ := Option.bind_eq_some.mp hall
  rw [href] at hall
  simp only [Option.some_bind] at hall
  obtain ⟨s2, hs2, hall⟩ := Option.bind_eq_some.mp hall
  obtain ⟨s3, hs3, hall⟩ := Option.bind_eq_some.mp hall
  simp only [Option.some.injEq, Prod.mk.injEq] at hall
  obtain ⟨hAH, h3⟩ := hall
  dsimp only at hs1 hb hs2 hs3 hAH
  subst h3
  subst hAH
  -- the first header
  obtain ⟨va, hva⟩ := pbh_alloc_set s0 sa sph _ n A ha
  obtain ⟨sA, hsA⟩ : ∃ sA, sA = set_pbh sa A { sa.pbh A with status := PBH_IN_USE } := ⟨_, rfl⟩
  rw [← hsA] at hs1
  have kA : sA.sph = s0.sph ∧ sA.cfg = s0.cfg ∧ sA.thr = s0.thr ∧
      ∀ x, x ≠ A → sA.pbh x = s0.pbh x := by
    rw [hsA, hva]
    refine ⟨rfl, rfl, rfl, fun x hx => ?_⟩
    simp only [set_pbh, upd, if_neg hx]
  obtain ⟨k1p, k1s, _, _, _, _, _, _, _, _, _, k1c, k1t⟩ :=
    no_pm_fields sA s1 (pagemap_set_range_no_pm t A n sA s1 _ hs1)
  -- the second header
  obtain ⟨vb, hvb⟩ := pbh_alloc_set s1 sb sph _ _ B hb
  obtain ⟨sB, hsB⟩ : ∃ sB, sB = set_pbh sb B { sb.pbh B with status := PBH_ON_FREE_LIST } :=
    ⟨_, rfl⟩
  rw [← hsB] at hs2
  have kB : sB.sph = s1.sph ∧ sB.cfg = s1.cfg ∧ sB.thr = s1.thr ∧
      ∀ x, x ≠ B → sB.pbh x = s1.pbh x := by
    rw [hsB, hvb]
    refine ⟨rfl, rfl, rfl, fun x hx => ?_⟩
    simp only [set_pbh, upd, if_neg hx]
  obtain ⟨s2', h2', hnl, hfl, hnext⟩ := pbh_list_prepend_free_pb sB t (SUPERPAGE_LEN - n - 1) B hc
  rw [hs2] at h2'
  simp only [Option.some.injEq] at h2'
  subst h2'
  obtain ⟨_, k2s, _, _, _, _, _, k2c, k2t⟩ := no_links_fields sB s2 hnl
  obtain ⟨k3p, k3s, _, _, _, _, _, _, _, _, _, k3c, k3t⟩ :=
    no_pm_fields s2 s3 (pagemap_set_range_no_pm t B _ s2 s3 _ hs3)
  have f1 : (sB.thr t).free_pb_list = (s0.thr t).free_pb_list := by
    rw [kB.2.2.1, (clear_cache_lists _ _ (k1t t)).1, kA.2.2.1]
  refine ⟨B, ?_, ?_, ?_, ?_, ?_⟩
  · rw [k3s, k2s, kB.1, k1s, kA.1]
  · rw [k3c, k2c, kB.2.1, k1c, kA.2.1]
  · rw [(clear_cache_lists _ _ (k3t t)).1, hfl, f1]
  · refine tlh_same_trans _ _ _ (tlh_same_of_clear_cache _ _ (k3t t))
      (tlh_same_trans _ _ _ (tlh_same_of_nolists _ _ (k2t t)) ?_)
    rw [kB.2.2.1]
    refine tlh_same_trans _ _ _ (tlh_same_of_clear_cache _ _ (k1t t)) ?_
    rw [kA.2.2.1]
    exact ⟨fun _ => ⟨rfl, rfl⟩, rfl, rfl⟩
  · intro M hM hcond
    rw [k3p]
    rw [f1, hM] at hnext
    refine hnext ?_
    rcases hcond with h0 | ⟨hR, hH, hp⟩
    · exact Or.inl h0
    · refine Or.inr ⟨hR, ?_⟩
      rw [kB.2.2.2 M hR, k1p, kA.2.2.2 M hH]
      exact hp

theorem large_fresh_round_trip_aux (s s0 : State) (t size sph n sp H R M top : Nat)
    (hn : GET_PAGE_LEN size = n) (hsp : (s0.sph sph).start_page = sp)
    (hH : H = sph + PBH_SIZE) (hR : R = sph + PBH_SIZE * (n + 1))
    (hM : (s.thr t).free_pb_list (SUPERPAGE_LEN - n - 1) = M)
    (htopd : (s.thr t).sp_list = top)
    (hsize : MAX_SIZE < size) (hlen : n ≤ NUM_PAGE_CLASSES)
    (hinit : s.g_initialized ≠ 0) (hlive : (s.thr t).thread_id ≠ 0)
    (hcfg : s.cfg.MALLOC_USE_PAGE_BLOCK_CACHE = false)
    (hempty : ∀ c, n - 1 ≤ c → c < NUM_PAGE_CLASSES → (s.thr t).free_pb_list c = 0)
    (hrem : ¬ ((s.thr t).sp_list ≠ 0 ∧ (s.sph (s.thr t).sp_list).remote_pb_list ≠ 0))
    (hsa : sph_alloc s t = some (sph, s0))
    (h2 : sph % 2 = 0) (hsp1 : 1 ≤ sp) (hsp2 : sp + SUPERPAGE_LEN < 2 ^ PMAP_BITS)
    (h64 : sph + PBH_SIZE * (SUPERPAGE_LEN + 1) < 2 ^ 64)
    (hb1 : pagemap_get_checked s0 (sp - 1) = 0)
    (hb2 : pagemap_get_checked s0 (sp + SUPERPAGE_LEN) = 0 ∨
      pagemap_get_checked s0 (sp + SUPERPAGE_LEN) &&& HUGE_MALLOC_MARK ≠ 0)
    (hpm : ∀ i, i < SUPERPAGE_LEN → pm_has s0 (sp + i))
    (hc : cache_ok s0 t) (hinj : pm_inj s0)
    (hz : ∀ q, pagemap_get_checked s0 q = pagemap_get_checked s q)
    (hz0 : ∀ i, i < SUPERPAGE_LEN → pagemap_get_checked s0 (sp + i) = 0)
    (hmark : (s0.sph sph).hazard_mark = 0)
    (hown : (s0.sph sph).owner_id = (s.thr t).thread_id)
    (hnext : (s0.sph sph).next = if top ≠ 0 then top else sph) (htop : top ≠ sph)
    (hMc : M = 0 ∨ (M ≠ R ∧ M ≠ H ∧ (s0.pbh M).prev ≠ R)) :
    ∃ s1 s2, malloc s t size = some (u64 (sp <<< PAGE_SHIFT), s1) ∧
      free s1 t (u64 (sp <<< PAGE_SHIFT)) = some s2 ∧
      ∀ pg cl, heap_shape s2 t pg cl = heap_shape s t pg cl := by
  have a62 : NUM_PAGE_CLASSES = 62 := rfl
  have a63 : SUPERPAGE_LEN = 63 := rfl
  have a64 : PBH_SIZE = 64 := rfl
  have a52 : PMAP_BITS = 52 := rfl
  have hn1 : 1 ≤ n := by
    have hM : MAX_SIZE = 32768 := rfl
    rw [← hn]
    simp only [GET_PAGE_LEN, PAGE_SHIFT, PAGE_SIZE, Nat.shiftLeft_eq, Nat.one_mul,
      Nat.shiftRight_eq_div_pow]
    split_ifs <;> omega
  -- arithmetic
  have b1 : R ≠ H := by rw [a64] at hH hR; omega
  have b2 : ¬ (sp + n ≤ sp ∧ sp < sp + SUPERPAGE_LEN) := by omega
  have b3 : sp ≤ sp ∧ sp < sp + n := by omega
  have b4 : ¬ (sp + n ≤ sp - 1 ∧ sp - 1 < sp + SUPERPAGE_LEN) := by omega
  have b5 : ¬ (sp ≤ sp - 1 ∧ sp - 1 < sp + n) := by omega
  have b6 : sp + n ≤ sp + n ∧ sp + n < sp + SUPERPAGE_LEN := by rw [a63]; rw [a62] at hlen; omega
  have b7 : ∀ q, ¬ (sp ≤ q ∧ q < sp + SUPERPAGE_LEN) →
      ¬ (sp + n ≤ q ∧ q < sp + SUPERPAGE_LEN) ∧ ¬ (sp ≤ q ∧ q < sp + n) := by
    intro q hq
    rw [a63] at hq ⊢
    rw [a62] at hlen
    omega
  have b8 : ∀ q, sp ≤ q ∧ q < sp + SUPERPAGE_LEN → q - sp < SUPERPAGE_LEN ∧ sp + (q - sp) = q := by
    intro q hq
    omega
  have b9 : sp + SUPERPAGE_LEN < 2 ^ 52 := by rw [← a52]; exact hsp2
  -- the heap of the thread after `sph_alloc`
  obtain ⟨hthr0, hcfg0⟩ := sph_alloc_thr s s0 t sph hsa
  have t1 : (s0.thr t).free_pb_list = (s.thr t).free_pb_list := by rw [hthr0]
  have t2 : (s0.thr t).thread_id = (s.thr t).thread_id := by rw [hthr0]
  have t3 : (s0.thr t).sp_list = sph := by rw [hthr0]
  have t4 : (s0.thr t).blk_list = (s.thr t).blk_list := by rw [hthr0]
  -- `malloc`
  have hmal := large_malloc_nocache s t size hsize (by rw [hn]; exact hlen) hinit hlive hcfg
  rw [hn] at hmal
  obtain ⟨sI, hall, i1, iH, _, e_sp, a1, a2, _, _, r2, r4, hhead, hpm3, c3, inj3⟩ :=
    pb_alloc_fresh s s0 t n sph hn1 hlen hempty hrem hsa h2 (by rw [hsp]; exact hsp1)
      (by rw [hsp]; exact hsp2) h64 (by rw [hsp]; exact hb1) (by rw [hsp]; exact hb2)
      (by rw [hsp]; exact hpm) hc hinj
  rw [hsp] at e_sp a1 hpm3
  rw [← hH] at hall iH a1 a2
  rw [← hR] at r2 r4 hhead hpm3
  rw [← hH] at hpm3
  obtain ⟨R', l1, l2, l3, l4, l5⟩ := pb_alloc_fresh_lists s s0 sI t n sph H hn1 hlen hempty hrem
    hsa hall
  have hR' : R' = R := by
    have e := congrFun l3 (SUPERPAGE_LEN - n - 1)
    rw [hhead] at e
    simp only [upd, if_true] at e
    exact e.symm
  rw [hR'] at l3 l5
  have hnx : (sI.pbh R).next = if M ≠ 0 then M else R := l5 M (by rw [t1]; exact hM) hMc
  have hidx : (sI.pbh H).index = 1 := by
    obtain ⟨_, _, _, x4, _, _⟩ := iH
    rw [x4, a1, e_sp]
    omega
  have hpmI : ∀ i, i < SUPERPAGE_LEN → pm_has sI (sp + i) := by
    intro i hi
    refine sp_inv_pm_has sI sph i1 _ ?_ ?_
    · rw [e_sp]; omega
    · rw [e_sp]; omega
  clear hempty hrem hsa hpm hc hinj i1 iH l5 hb2 hthr0
  obtain ⟨s1, hs1⟩ : ∃ s1, s1 = set_pbh sI H { sI.pbh H with sizeclass := NUM_CLASSES } :=
    ⟨_, rfl⟩
  have hm : malloc s t size = some (u64 (sp <<< PAGE_SHIFT), s1) := by
    rw [hmal, hall, Option.some_bind, hs1]
    show some (u64 ((sI.pbh H).start_page <<< PAGE_SHIFT), _) = _
    rw [a1]
  have h1H : s1.pbh H = { sI.pbh H with sizeclass := NUM_CLASSES } := by
    rw [hs1]; simp [set_pbh, upd]
  have h1R : s1.pbh R = sI.pbh R := by
    rw [hs1]; simp [set_pbh, upd, b1]
  have h1thr : s1.thr = sI.thr := by rw [hs1]; rfl
  have h1sph : s1.sph = s0.sph := by rw [hs1]; exact l1
  have h1chk : ∀ q, pagemap_get_checked s1 q = pagemap_get_checked sI q := by
    intro q
    rw [hs1]
    exact pagemap_get_checked_congr sI _ rfl rfl rfl q
  -- `free`
  obtain ⟨s2, hfr, hchk2, hfl2, hbl2, htid2, hsl2⟩ := large_free_completes s1 t sph H R sp n
    (by rw [h1thr, l4.2.2, t2]; exact hlive)
    (by rw [hs1]; show sI.cfg.MALLOC_USE_PAGE_BLOCK_CACHE = false; rw [l2, hcfg0]; exact hcfg)
    (by rw [h1sph]; exact hsp)
    (by rw [h1H]; exact a1) (by rw [h1H]; exact a2) (by rw [h1H]; exact hidx)
    (by rw [h1H]; exact Nat.lt_irrefl _) hH hR h64 h2 hsp1 b9
    (by rw [h1sph, h1thr, l4.2.2, t2]; exact hown)
    (by rw [h1chk, hpm3, if_neg b2, if_pos b3])
    (by rw [h1chk, hpm3, if_neg b4, if_neg b5]; exact hb1)
    (by rw [h1chk, hpm3, if_pos b6])
    (by rw [h1R]; exact r2) (by rw [h1R]; exact r4) (by rw [h1thr]; exact hhead)
    hn1 hlen (by rw [h1thr, l4.2.1]; exact t3) (by rw [h1sph]; exact hmark)
    (fun i hi => (pm_has_congr sI s1 (by rw [hs1]; rfl) (by rw [hs1]; rfl) _).1.mpr (hpmI i hi))
    (by rw [hs1]; exact c3) (by rw [hs1]; exact inj3)
  refine ⟨s1, s2, hm, hfr, fun pg cl => heap_shape_same s s2 t ?_ ?_ ?_ pg cl⟩
  · intro q
    rw [hchk2 q]
    by_cases hq : sp ≤ q ∧ q < sp + SUPERPAGE_LEN
    · rw [if_pos hq, ← hz q, ← (b8 q hq).2]
      exact (hz0 _ (b8 q hq).1).symm
    · rw [if_neg hq, h1chk, hpm3, if_neg (b7 q hq).1, if_neg (b7 q hq).2, hz q]
  · rw [hfl2, h1thr, l3, h1R, hnx, t1]
    funext c
    by_cases hcc : c = SUPERPAGE_LEN - n - 1
    · simp only [upd, hcc, if_true]
      rw [hM]
      by_cases hm0 : M ≠ 0
      · rw [if_pos hm0]
        rcases hMc with h | ⟨h, _⟩
        · exact absurd h hm0
        · rw [if_neg (fun e => h e.symm)]
      · rw [if_neg hm0, if_pos rfl]
        exact (not_not.mp hm0).symm
    · simp only [upd, if_neg hcc]
  · refine ⟨fun k => ?_, ?_, ?_⟩
    · rw [(hbl2 k).1, (hbl2 k).2, h1thr, (l4.1 k).1, (l4.1 k).2, t4]
      exact ⟨rfl, rfl⟩
    · rw [hsl2, h1sph, hnext, htopd]
      by_cases ht0 : top ≠ 0
      · rw [if_pos ht0, if_neg (fun e => htop e.symm)]
      · rw [if_neg ht0, if_pos rfl]
        exact (not_not.mp ht0).symm
    · rw [htid2, h1thr, l4.2.2, t2]

/-- Without the page block cache, `p = malloc(size); free(p)` for a large size that no
listed free page block can serve, so that `pb_alloc` carves the block from a new
superpage `sph` obtained by `sph_alloc`, whose pages had no PageMap entry: both calls
return; `free` merges the block with the rest of the superpage and gives the whole
superpage back with `sph_free`, and the PageMap entries, the free block lists, the
free page block lists and the superpage list of the thread are those from before. -/
theorem large_fresh_round_trip (s s0 : State) (t size sph : Nat)
    (hsize : MAX_SIZE < size)
    (hinit : s.g_initialized ≠ 0) (hlive : (s.thr t).thread_id ≠ 0)
    (hcfg : s.cfg.MALLOC_USE_PAGE_BLOCK_CACHE = false)
    (hfc : fresh_carve s s0 t (GET_PAGE_LEN size) sph)
    (hz : ∀ q, pagemap_get_checked s0 q = pagemap_get_checked s q)
    (hz0 : ∀ i, i < SUPERPAGE_LEN → pagemap_get_checked s0 ((s0.sph sph).start_page + i) = 0)
    (hmark : (s0.sph sph).hazard_mark = 0)
    (hown : (s0.sph sph).owner_id = (s.thr t).thread_id)
    (hnext : (s0.sph sph).next = if (s.thr t).sp_list ≠ 0 then (s.thr t).sp_list else sph)
    (htop : (s.thr t).sp_list ≠ sph)
    (hrem : (s.thr t).free_pb_list (SUPERPAGE_LEN - GET_PAGE_LEN size - 1) = 0 ∨
      ((s.thr t).free_pb_list (SUPERPAGE_LEN - GET_PAGE_LEN size - 1) ≠
          sph + PBH_SIZE * (GET_PAGE_LEN size + 1) ∧
        (s.thr t).free_pb_list (SUPERPAGE_LEN - GET_PAGE_LEN size - 1) ≠ sph + PBH_SIZE ∧
        (s0.pbh ((s.thr t).free_pb_list (SUPERPAGE_LEN - GET_PAGE_LEN size - 1))).prev ≠
          sph + PBH_SIZE * (GET_PAGE_LEN size + 1))) :
    ∃ s1 s2, malloc s t size = some (u64 ((s0.sph sph).start_page <<< PAGE_SHIFT), s1) ∧
      free s1 t (u64 ((s0.sph sph).start_page <<< PAGE_SHIFT)) = some s2 ∧
      ∀ pg cl, heap_shape s2 t pg cl = heap_shape s t pg cl := by
  obtain ⟨_, hlen, hempty, hrm, hsa, h2, hsp1, hsp2, h64, hb1, hb2, hpm, hc, hinj⟩ := hfc
  exact large_fresh_round_trip_aux s s0 t size sph _ _ _ _ _ _ rfl rfl rfl rfl rfl rfl hsize hlen
    hinit hlive hcfg hempty hrm hsa h2 hsp1 hsp2 h64 hb1 hb2 hpm hc hinj hz hz0 hmark hown hnext
    htop hrem

/-- No page has a PageMap entry in the started process, nor after `sph_alloc` has
given thread `0` its first superpage. -/
theorem fresh_heap_entries (q : Nat) :
    pagemap_get_checked fresh_heap.2 q = 0 ∧ pagemap_get_checked started_heap q = 0 := by
  have hn : started_heap.pm_node = fun _ => 0 := rfl
  have hv : ∀ i, fresh_heap.2.pm_val 0x13001000 i = 0 := fun i => rfl
  obtain ⟨fn, fl⟩ := fresh_heap_pagemap
  refine ⟨?_, ?_⟩
  · unfold pagemap_get_checked
    dsimp only
    by_cases h1 : q >>> (PMAP_LEAF_BIT + PMAP_INTERIOR_BIT) = 0
    · have e1 : fresh_heap.2.pm_node (q >>> (PMAP_LEAF_BIT + PMAP_INTERIOR_BIT)) = 0x12001000 := by
        rw [fn, h1]
        rfl
      rw [e1]
      by_cases h2 : (q >>> PMAP_LEAF_BIT) &&& (PMAP_INTERIOR_LEN - 1) = 0
      · have e2 : fresh_heap.2.pm_leaf 0x12001000
            ((q >>> PMAP_LEAF_BIT) &&& (PMAP_INTERIOR_LEN - 1)) = 0x13001000 := by
          rw [fl, h2]
          rfl
        rw [e2, hv]
        exact ite_self 0
      · have e2 : fresh_heap.2.pm_leaf 0x12001000
            ((q >>> PMAP_LEAF_BIT) &&& (PMAP_INTERIOR_LEN - 1)) = 0 := by
          rw [fl]
          simp only [upd, if_neg h2]
        rw [e2, if_pos (Or.inr (Or.inr rfl))]
    · have e1 : fresh_heap.2.pm_node (q >>> (PMAP_LEAF_BIT + PMAP_INTERIOR_BIT)) = 0 := by
        rw [fn]
        simp only [upd, if_neg h1]
      rw [e1, if_pos (Or.inr (Or.inl rfl))]
  · unfold pagemap_get_checked
    dsimp only
    rw [hn, if_pos (Or.inr (Or.inl rfl))]

set_option maxRecDepth 100000 in
theorem fresh_heap_superpage :
    started_heap.g_initialized ≠ 0 ∧ (started_heap.thr 0).thread_id = 1 ∧
    started_heap.cfg.MALLOC_USE_PAGE_BLOCK_CACHE = false ∧
    (started_heap.thr 0).sp_list = 0 ∧
    (fresh_heap.2.sph 0x11001000).hazard_mark = 0 ∧
    (fresh_heap.2.sph 0x11001000).owner_id = 1 ∧
    (fresh_heap.2.sph 0x11001000).next = 0x11001000 := by
  refine ⟨by decide!, by decide!, by decide!, by decide!, by decide!, by decide!, by decide!⟩

/-- The loop of `posix_memalign` over the classes, started at a class and run for
the number of classes that are left, ends at a class, for an alignment below the
page size: the block size of the last class is a multiple of it. -/
theorem memalign_class_total (k : Nat) (hk : k < 12) :
    ∀ (n cl0 : Nat), cl0 + n = NUM_CLASSES → 1 ≤ n →
      ∃ cl, memalign_class (2 ^ k) n cl0 = some cl ∧ cl0 ≤ cl ∧ cl < NUM_CLASSES := by
  have h60 : NUM_CLASSES = 60 := rfl
  intro n
  induction n with
  | zero => intro cl0 _ h; omega
  | succ n ih =>
    intro cl0 hsum _
    have hlt : cl0 < NUM_CLASSES := by omega
    obtain ⟨sz, hsz⟩ := get_size_for_class_some cl0 hlt
    unfold memalign_class
    rw [if_pos hlt, hsz, Option.some_bind]
    by_cases hstop : sz &&& sub64 (2 ^ k) 1 ≠ 0
    · rw [if_pos hstop]
      by_cases hn : n = 0
      · exfalso
        subst hn
        have e : cl0 = 59 := by omega
        subst e
        have : sz = 32768 := by
          have h59 : get_size_for_class 59 = some 32768 := by decide
          rw [h59] at hsz
          exact (Option.some.inj hsz).symm
        subst this
        apply hstop
        rw [(pow2_and_pred k 32768 (by omega)).2]
        have : (32768 : Nat) = 2 ^ (15 - k) * 2 ^ k := by
          rw [← pow_add]
          have : 15 - k + k = 15 := by omega
          rw [this]
          norm_num
        rw [this]
        exact Nat.mul_mod_left _ _
      · obtain ⟨cl, h1, h2, h3⟩ := ih (cl0 + 1) (by omega) (by omega)
        exact ⟨cl, h1, by omega, h3⟩
    · rw [if_neg hstop]
      exact ⟨cl0, rfl, le_refl _, hlt⟩

/-- The four branches of `posix_memalign` for a power of two and a size other than
`0`: what every call that returns has done. -/
theorem posix_memalign_cases (s s' : State) (t k size r p al : Nat) (hk : k < 64)
    (hsize : size ≠ 0) (hal : get_alignment size = some al)
    (h : posix_memalign s t (2 ^ k) size = some (r, p, s')) :
    r = 0 ∧
    ((2 ^ k ≤ al ∧ malloc s t size = some (p, s') ∧ p % 2 ^ k = 0) ∨
     (al < 2 ^ k ∧ 2 ^ k < PAGE_SIZE ∧ size ≤ MAX_SIZE ∧
        ∃ cl sz, get_size_for_class cl = some sz ∧ sz % 2 ^ k = 0 ∧
          malloc s t sz = some (p, s')) ∨
     (al < 2 ^ k ∧ 2 ^ k ≤ PAGE_SIZE ∧
        (if GET_PAGE_LEN size ≤ NUM_PAGE_CLASSES then large_malloc s t (GET_PAGE_LEN size)
         else huge_malloc s t (GET_PAGE_LEN size)) = some (p, s')) ∨
     (al < 2 ^ k ∧ PAGE_SIZE < 2 ^ k ∧
        ∃ new_blk s1, huge_malloc s t (GET_PAGE_LEN (u64 (size + 2 ^ k))) = some (new_blk, s1) ∧
          new_blk ≠ 0 ∧ memalign_advance (2 ^ k) (2 ^ k >>> PAGE_SHIFT) new_blk = some p ∧
          sub64 p new_blk >>> PAGE_SHIFT < GET_PAGE_LEN (u64 (size + 2 ^ k)))) := by
  have hpow : ¬ (2 ^ k &&& sub64 (2 ^ k) 1 ≠ 0) := by
    rw [(pow2_and_pred k (2 ^ k) hk).2, Nat.mod_self]
    exact fun hh => hh rfl
  have h2k : (2 : Nat) ^ k ≠ 0 := by positivity
  unfold posix_memalign at h
  simp only [Option.bind_eq_bind, Option.pure_def] at h
  rw [if_neg hsize, if_neg hpow, hal, Option.some_bind] at h
  by_cases h1 : 2 ^ k ≤ al
  · rw [if_pos h1] at h
    obtain ⟨x, hx, h⟩ := Option.bind_eq_some.mp h
    rw [if_neg h2k] at h
    by_cases hm : x.1 % 2 ^ k ≠ 0
    · rw [if_pos hm] at h; exact absurd h (by simp)
    · rw [if_neg hm] at h
      simp only [Option.some.injEq, Prod.mk.injEq] at h
      obtain ⟨e1, e2, e3⟩ := h
      refine ⟨e1.symm, Or.inl ⟨h1, ?_, ?_⟩⟩
      · rw [hx, ← e2, ← e3]
      · rw [← e2]; exact not_not.mp hm
  rw [if_neg h1] at h
  have h1' : al < 2 ^ k := by omega
  obtain ⟨lift, hl, h⟩ := Option.bind_eq_some.mp h
  cases lift with
  | some size1 =>
    simp only at h
    obtain ⟨x, hx, h⟩ := Option.bind_eq_some.mp h
    simp only [Option.some.injEq, Prod.mk.injEq] at h
    obtain ⟨e1, e2, e3⟩ := h
    refine ⟨e1.symm, Or.inr (Or.inl ?_)⟩
    by_cases hc : size ≤ MAX_SIZE ∧ 2 ^ k < PAGE_SIZE
    · rw [if_pos hc] at hl
      obtain ⟨cl0, hcl0, hl⟩ := Option.bind_eq_some.mp hl
      obtain ⟨cl, hcl, hl⟩ := Option.bind_eq_some.mp hl
      by_cases hlt : cl < NUM_CLASSES
      · rw [if_pos hlt] at hl
        obtain ⟨sz, hsz, hl⟩ := Option.map_eq_some'.mp hl
        have esz : size1 = sz := (Option.some.inj hl).symm
        rw [esz] at hx
        obtain ⟨cl0', hcl0', hcl060, _⟩ := sizeclass_some size hc.1
        rw [hcl0] at hcl0'
        cases hcl0'
        obtain ⟨_, hspec⟩ := memalign_class_spec k hk _ _ _ hcl
        obtain ⟨sz', hsz', hmod⟩ := hspec (by
          have : NUM_CLASSES = 60 := rfl
          omega) hlt
        rw [hsz] at hsz'
        cases hsz'
        exact ⟨h1', hc.2, hc.1, cl, sz, hsz, hmod, by rw [hx, ← e2, ← e3]⟩
      · rw [if_neg hlt] at hl
        exact absurd hl (by simp)
    · rw [if_neg hc] at hl
      exact absurd hl (by simp)
  | none =>
    simp only at h
    by_cases h2 : 2 ^ k ≤ PAGE_SIZE
    · rw [if_pos h2] at h
      obtain ⟨x, hx, h⟩ := Option.bind_eq_some.mp h
      simp only [Option.some.injEq, Prod.mk.injEq] at h
      obtain ⟨e1, e2, e3⟩ := h
      exact ⟨e1.symm, Or.inr (Or.inr (Or.inl ⟨h1', h2, by rw [hx, ← e2, ← e3]⟩))⟩
    · rw [if_neg h2] at h
      obtain ⟨x, hx, h⟩ := Option.bind_eq_some.mp h
      by_cases h0 : x.1 = 0
      · rw [if_pos h0] at h; exact absurd h (by simp)
      rw [if_neg h0] at h
      obtain ⟨ret_blk, hret, h⟩ := Option.bind_eq_some.mp h
      by_cases h3 : ¬ sub64 ret_blk x.1 >>> PAGE_SHIFT < GET_PAGE_LEN (u64 (size + 2 ^ k))
      · rw [if_pos h3] at h; exact absurd h (by simp)
      rw [if_neg h3] at h
      have hres : r = 0 ∧ p = ret_blk := by
        by_cases h4 : ret_blk ≠ x.1
        · rw [if_pos h4] at h
          simp only [Option.bind_eq_some] at h
          obtain ⟨_, _, _, _, _, _, _, _, h⟩ := h
          simp only [Option.some.injEq, Prod.mk.injEq] at h
          exact ⟨h.1.symm, h.2.1.symm⟩
        · rw [if_neg h4] at h
          simp only [Option.some.injEq, Prod.mk.injEq] at h
          exact ⟨h.1.symm, h.2.1.symm⟩
      refine ⟨hres.1, Or.inr (Or.inr (Or.inr ⟨h1', by omega, x.1, x.2, hx, h0, ?_, ?_⟩))⟩
      · rw [hres.2]; exact hret
      · rw [hres.2]; exact not_not.mp h3

/-- C4: in a live thread of an initialised process whose block sources hold block
addresses and whose next `mmap` answers with the address of a page, for every alignment
`2^k` (`k < 64`) and every size `size > 0`: every call
`posix_memalign(&p, 2^k, size)` that returns, returns `0` and stores a pointer `p`
that is a multiple of `2^k`, in each of its four branches; and the call returns
whenever the allocation it makes and the PageMap calls after it do.
In the fall-back branch the assertion `p % alignment == 0` always holds, so that the
call is `malloc(size)`. In the branch of the size classes the loop over the classes
ends at a class whose block size `sz` is a multiple of `2^k` and at least `size`,
and the call is `malloc(sz)`. In the branch of the page allocator the call is
`large_malloc` or `huge_malloc` of the pages of `size`. In the branch that
over-allocates, the loop over the pages of the mapping ends at a pointer that is a
multiple of `2^k`, less than `2^k` bytes after the start of the mapping; when
`size + 2^k` does not wrap, the `size` bytes after it lie inside the mapping, the
assertion on the pointer holds, and the call stores the pointer after it has
unmapped the pages before it and registered the rest in the PageMap. -/
theorem posix_memalign_aligned (s : State) (t k size : Nat) (hk : k < 64) (hsize : 0 < size)
    (hi : s.g_initialized ≠ 0) (ht : (s.thr t).thread_id ≠ 0)
    (hsrc : blocks_aligned s t)
    (hos : ∀ m a, s.os_mmap s.os_calls m = some a → PAGE_SIZE ∣ a ∧ a < 2 ^ 64) :
    (∀ r p s', posix_memalign s t (2 ^ k) size = some (r, p, s') → r = 0 ∧ p % 2 ^ k = 0) ∧
    (∀ al, get_alignment size = some al → 2 ^ k ≤ al →
      posix_memalign s t (2 ^ k) size = (malloc s t size).map fun x => (0, x.1, x.2)) ∧
    (∀ al, get_alignment size = some al → al < 2 ^ k → size ≤ MAX_SIZE → 2 ^ k < PAGE_SIZE →
      ∃ cl sz, get_size_for_class cl = some sz ∧ size ≤ sz ∧ sz % 2 ^ k = 0 ∧
        posix_memalign s t (2 ^ k) size = (malloc s t sz).map fun x => (0, x.1, x.2)) ∧
    (∀ al, get_alignment size = some al → al < 2 ^ k → 2 ^ k ≤ PAGE_SIZE →
      MAX_SIZE < size ∨ 2 ^ k = PAGE_SIZE →
      posix_memalign s t (2 ^ k) size =
        (if GET_PAGE_LEN size ≤ NUM_PAGE_CLASSES then large_malloc s t (GET_PAGE_LEN size)
         else huge_malloc s t (GET_PAGE_LEN size)).map fun x => (0, x.1, x.2)) ∧
    (PAGE_SIZE < 2 ^ k → ∀ new_blk s1,
      huge_malloc s t (GET_PAGE_LEN (u64 (size + 2 ^ k))) = some (new_blk, s1) →
      ∃ ret_blk, memalign_advance (2 ^ k) (2 ^ k >>> PAGE_SHIFT) new_blk = some ret_blk ∧
        ret_blk % 2 ^ k = 0 ∧ sub64 ret_blk new_blk < 2 ^ k ∧
        (∀ r p s', posix_memalign s t (2 ^ k) size = some (r, p, s') → p = ret_blk) ∧
        (size + 2 ^ k < 2 ^ 64 →
          sub64 ret_blk new_blk + size ≤ GET_PAGE_LEN (u64 (size + 2 ^ k)) * PAGE_SIZE ∧
          sub64 ret_blk new_blk >>> PAGE_SHIFT < GET_PAGE_LEN (u64 (size + 2 ^ k)) ∧
          (new_blk ≠ 0 →
            posix_memalign s t (2 ^ k) size =
              if ret_blk ≠ new_blk then
                (pagemap_get s1 t (new_blk >>> PAGE_SHIFT)).bind fun v =>
                (huge_free v.2 t new_blk (sub64 ret_blk new_blk)).bind fun s2 =>
                (pagemap_expand s2 (ret_blk >>> PAGE_SHIFT) 1).bind fun s3 =>
                (pagemap_set s3 t (ret_blk >>> PAGE_SHIFT)
                  (sub64 (v.1 - (v.1 &&& HUGE_MALLOC_MARK)) (sub64 ret_blk new_blk) |||
                    HUGE_MALLOC_MARK)).bind fun s4 => some (0, ret_blk, s4)
              else some (0, ret_blk, s1)))) := by
  have hsize0 : size ≠ 0 := by omega
  have hos' : ∀ m a, s.os_mmap s.os_calls m = some a → PAGE_SIZE ∣ a := fun m a h => (hos m a h).1
  obtain ⟨j, hj12, hal, hsmall⟩ := get_alignment_some size
  have hP : PAGE_SIZE = 4096 := by decide
  have h2k : (2 : Nat) ^ k ≠ 0 := by positivity
  -- the blocks of `malloc(size)` are multiples of every power of two up to the alignment
  have hfall : 2 ^ k ≤ 2 ^ j → ∀ p s', malloc s t size = some (p, s') → p % 2 ^ k = 0 := by
    intro hle p s' hm
    have hkj : k ≤ j := pow2_le_iff k j hle
    obtain ⟨m1, m2⟩ := malloc_aligned s s' t size p hi ht hsrc hos' hm
    apply Nat.mod_eq_zero_of_dvd
    by_cases hs : size ≤ MAX_SIZE
    · obtain ⟨cl, hcl, _, sz, hsz, _⟩ := sizeclass_some size hs
      have hd := alignment_dvd_block_size size cl sz hs hcl hsz
      rw [← hsmall hs] at hd
      have hpg := small_alignment_dvd_page size
      rw [← hsmall hs] at hpg
      exact dvd_trans (pow_dvd_pow 2 hkj)
        (dvd_trans (Nat.dvd_gcd hd hpg) (m1 hs cl sz hcl hsz))
    · exact dvd_trans (pow2_dvd_page k (by omega)) (m2 (by omega))
  have hpow : ¬ (2 ^ k &&& sub64 (2 ^ k) 1 ≠ 0) := by
    rw [(pow2_and_pred k (2 ^ k) hk).2, Nat.mod_self]
    exact fun hh => hh rfl
  have hunf : ∀ al, get_alignment size = some al → al < 2 ^ k →
      posix_memalign s t (2 ^ k) size =
        (if size ≤ MAX_SIZE ∧ 2 ^ k < PAGE_SIZE then
          (get_sizeclass size).bind fun cl0 =>
          (memalign_class (2 ^ k) (NUM_CLASSES - cl0) cl0).bind fun cl =>
          if cl < NUM_CLASSES then (get_size_for_class cl).map some else some none
        else some none).bind fun x =>
        match x with
        | some size1 => (malloc s t size1).bind fun x => some (0, x.1, x.2)
        | none =>
          if 2 ^ k ≤ PAGE_SIZE then
            (if GET_PAGE_LEN size ≤ NUM_PAGE_CLASSES then large_malloc s t (GET_PAGE_LEN size)
             else huge_malloc s t (GET_PAGE_LEN size)).bind fun x => some (0, x.1, x.2)
          else
            (huge_malloc s t (GET_PAGE_LEN (u64 (size + 2 ^ k)))).bind fun x =>
            if x.1 = 0 then none else
            (memalign_advance (2 ^ k) (2 ^ k >>> PAGE_SHIFT) x.1).bind fun ret_blk =>
            if ¬ (sub64 ret_blk x.1 >>> PAGE_SHIFT < GET_PAGE_LEN (u64 (size + 2 ^ k))) then none
            else if ret_blk ≠ x.1 then
              (pagemap_get x.2 t (x.1 >>> PAGE_SHIFT)).bind fun v =>
              (huge_free v.2 t x.1 (sub64 ret_blk x.1)).bind fun s2 =>
              (pagemap_expand s2 (ret_blk >>> PAGE_SHIFT) 1).bind fun s3 =>
              (pagemap_set s3 t (ret_blk >>> PAGE_SHIFT)
                (sub64 (v.1 - (v.1 &&& HUGE_MALLOC_MARK)) (sub64 ret_blk x.1) |||
                  HUGE_MALLOC_MARK)).bind fun s4 => some (0, ret_blk, s4)
            else some (0, ret_blk, x.2) := by
    intro al hal' hlt
    unfold posix_memalign
    simp only [Option.bind_eq_bind, Option.pure_def]
    rw [if_neg hsize0, if_neg hpow, hal', Option.some_bind, if_neg (by omega)]
    all_goals rfl
  have hmap : ∀ (x : Option (Nat × State)),
      (x.bind fun x => some (0, x.1, x.2)) = x.map fun x => ((0 : Nat), x.1, x.2) := by
    intro x
    cases x <;> rfl
  refine ⟨?_, ?_, ?_, ?_, ?_⟩
  · intro r p s' h
    obtain ⟨hr, hc⟩ := posix_memalign_cases s s' t k size r p (2 ^ j) hk hsize0 hal h
    refine ⟨hr, ?_⟩
    rcases hc with ⟨_, _, hm⟩ | ⟨_, hlt, _, cl, sz, hsz, hmod, hm⟩ | ⟨_, hle, hm⟩ |
      ⟨_, _, new_blk, s1, _, _, hadv, _⟩
    · exact hm
    · obtain ⟨hszle, hcl⟩ := sizeclass_of_block_size cl sz hsz
      obtain ⟨m1, _⟩ := malloc_aligned s s' t sz p hi ht hsrc hos' hm
      have hk12 : k ≤ 12 := by
        rw [hP] at hlt
        by_contra hc
        have : 2 ^ 12 ≤ 2 ^ k := Nat.pow_le_pow_right (by decide) (by omega)
        omega
      exact Nat.mod_eq_zero_of_dvd (dvd_trans
        (Nat.dvd_gcd (Nat.dvd_of_mod_eq_zero hmod) (pow2_dvd_page k hk12))
        (m1 hszle cl sz hcl hsz))
    · have hk12 : k ≤ 12 := by
        rw [hP] at hle
        by_contra hc
        have : 2 ^ 13 ≤ 2 ^ k := Nat.pow_le_pow_right (by decide) (by omega)
        omega
      apply Nat.mod_eq_zero_of_dvd
      refine dvd_trans (pow2_dvd_page k hk12) ?_
      by_cases hl : GET_PAGE_LEN size ≤ NUM_PAGE_CLASSES
      · rw [if_pos hl] at hm
        exact large_malloc_aligned s s' t _ p hsrc.2 hm
      · rw [if_neg hl] at hm
        exact huge_malloc_aligned s s' t _ p hos' hm
    · exact memalign_advance_aligned k hk _ _ _ hadv
  · intro al hal' hle
    rw [hal] at hal'
    cases hal'
    unfold posix_memalign
    simp only [Option.bind_eq_bind, Option.pure_def]
    rw [if_neg hsize0, if_neg hpow, hal, Option.some_bind, if_pos hle]
    cases hm : malloc s t size with
    | none => rfl
    | some x =>
      obtain ⟨p, s1⟩ := x
      have := hfall hle p s1 hm
      simp only [Option.some_bind, Option.map_some', if_neg h2k, this, ne_eq,
        not_true_eq_false, if_false]
  · intro al hal' hlt hs hlt2
    obtain ⟨cl0, hcl0, hcl060, sz0, hsz0, hle0⟩ := sizeclass_some size hs
    have hk12 : k < 12 := by
      rw [hP] at hlt2
      by_contra hc
      have : 2 ^ 12 ≤ 2 ^ k := Nat.pow_le_pow_right (by decide) (by omega)
      omega
    have h60 : NUM_CLASSES = 60 := rfl
    obtain ⟨cl, hcl, hge, hcl60⟩ := memalign_class_total k hk12 (NUM_CLASSES - cl0) cl0
      (by omega) (by omega)
    obtain ⟨_, hspec⟩ := memalign_class_spec k hk _ _ _ hcl
    obtain ⟨sz, hsz, hmod⟩ := hspec (by omega) hcl60
    refine ⟨cl, sz, hsz, ?_, hmod, ?_⟩
    · by_cases e : cl0 = cl
      · subst e
        rw [hsz0] at hsz
        cases hsz
        exact hle0
      · have := class_to_size_lt cl0 cl sz0 sz (by omega) hsz0 hsz
        omega
    · rw [hunf al hal' hlt, if_pos ⟨hs, hlt2⟩, hcl0, Option.some_bind, hcl, Option.some_bind,
        if_pos hcl60, hsz, Option.map_some', Option.some_bind]
      exact hmap _
  · intro al hal' hlt hle hcase
    have hno : ¬ (size ≤ MAX_SIZE ∧ 2 ^ k < PAGE_SIZE) := by
      rcases hcase with h | h
      · exact fun hh => absurd hh.1 (by omega)
      · exact fun hh => absurd hh.2 (by omega)
    rw [hunf al hal' hlt, if_neg hno, Option.some_bind]
    show (if 2 ^ k ≤ PAGE_SIZE then _ else _) = _
    rw [if_pos hle]
    exact hmap _
  · intro hbig new_blk s1 hm
    have hk12 : 12 < k := by
      rw [hP] at hbig
      by_contra hc
      have : 2 ^ k ≤ 2 ^ 12 := Nat.pow_le_pow_right (by decide) (by omega)
      omega
    have hAdvd : PAGE_SIZE ∣ 2 ^ k := by
      rw [hP]
      have : (4096 : Nat) = 2 ^ 12 := by norm_num
      rw [this]
      exact pow_dvd_pow 2 (by omega)
    have hA64 : 2 ^ k ∣ 2 ^ 64 := pow_dvd_pow 2 (by omega)
    have hnew : PAGE_SIZE ∣ new_blk ∧ new_blk < 2 ^ 64 := by
      unfold huge_malloc at hm
      simp only [Option.bind_eq_bind, Option.pure_def, Option.bind_eq_some] at hm
      obtain ⟨⟨ret, sa⟩, hmm, s2, _, s3, _, hm⟩ := hm
      simp only [Option.some.injEq, Prod.mk.injEq] at hm
      rw [← hm.1]
      unfold do_mmap at hmm
      cases ha : s.os_mmap s.os_calls
          (u64 (GET_PAGE_LEN (u64 (size + 2 ^ k)) <<< PAGE_SHIFT)) with
      | none => rw [ha] at hmm; exact absurd hmm (by simp)
      | some a =>
        rw [ha] at hmm
        simp only [Option.some.injEq, Prod.mk.injEq] at hmm
        rw [← hmm.1]
        exact hos _ _ ha
    obtain ⟨m, hm4⟩ := hAdvd
    rw [hP] at hm4
    have hshift : 2 ^ k >>> PAGE_SHIFT = m := by
      rw [Nat.shiftRight_eq_div_pow, hm4]
      show 4096 * m / 2 ^ 12 = m
      omega
    have hD : (2 ^ k - new_blk % 2 ^ k) % 2 ^ k ≤ m * 4096 ∧
        (2 ^ k - new_blk % 2 ^ k) % 2 ^ k + 4096 ≤ 2 ^ k ∨
        (2 ^ k - new_blk % 2 ^ k) % 2 ^ k = 0 := by
      by_cases hr0 : new_blk % 2 ^ k = 0
      · right
        rw [hr0, Nat.sub_zero, Nat.mod_self]
      · left
        have hlt := Nat.mod_lt new_blk (Nat.pos_of_ne_zero h2k)
        obtain ⟨r0, hr⟩ : (4096 : Nat) ∣ new_blk % 2 ^ k :=
          (Nat.dvd_mod_iff ⟨m, hm4⟩).mpr (by rw [← hP]; exact hnew.1)
        rw [Nat.mod_eq_of_lt (by omega)]
        omega
    obtain ⟨q, hq, hq64, hqs⟩ := memalign_advance_some (2 ^ k) ⟨m, by rw [hP]; exact hm4⟩ hA64
      (Nat.pos_of_ne_zero h2k) (fun x => (pow2_and_pred k x hk).2) (2 ^ k >>> PAGE_SHIFT) new_blk
      hnew.2 hnew.1 (by
        rw [hshift, hP]
        rcases hD with h | h
        · exact h.1
        · rw [h]; exact Nat.zero_le _)
    have hsublt : sub64 q new_blk + 4096 ≤ 2 ^ k ∨ sub64 q new_blk = 0 := by
      rw [hqs]
      rcases hD with h | h
      · exact Or.inl h.2
      · exact Or.inr h
    have hjk : 2 ^ j < 2 ^ k := by
      have : 2 ^ j ≤ 2 ^ 12 := Nat.pow_le_pow_right (by decide) hj12
      rw [hP] at hbig
      omega
    refine ⟨q, hq, memalign_advance_aligned k hk _ _ _ hq, ?_, ?_, ?_⟩
    · rcases hsublt with h | h
      · omega
      · rw [h]; exact Nat.pos_of_ne_zero h2k
    · intro r p s' h
      obtain ⟨_, hc⟩ := posix_memalign_cases s s' t k size r p (2 ^ j) hk hsize0 hal h
      rcases hc with ⟨h1, _⟩ | ⟨_, h1, _⟩ | ⟨_, h1, _⟩ | ⟨_, _, nb, sx, hx, _, hadv, _⟩
      · omega
      · omega
      · omega
      · rw [hm] at hx
        simp only [Option.some.injEq, Prod.mk.injEq] at hx
        rw [← hx.1, hq] at hadv
        exact (Option.some.inj hadv).symm
    · intro hwrap
      have hu : u64 (size + 2 ^ k) = size + 2 ^ k := by unfold u64; omega
      have hlen : size + 2 ^ k ≤ GET_PAGE_LEN (size + 2 ^ k) * 4096 ∧
          m ≤ GET_PAGE_LEN (size + 2 ^ k) := by
        have e1 : (size + 2 ^ k) >>> 12 = (size + 2 ^ k) / 4096 := by
          rw [Nat.shiftRight_eq_div_pow]
        have e2 : (size + 2 ^ k) &&& 4095 = (size + 2 ^ k) % 4096 :=
          Nat.and_pow_two_sub_one_eq_mod _ 12
        simp only [GET_PAGE_LEN, PAGE_SHIFT, PAGE_SIZE, Nat.shiftLeft_eq, Nat.one_mul]
        norm_num
        rw [e1, e2]
        split_ifs <;> omega
      have hassert : sub64 q new_blk >>> PAGE_SHIFT < GET_PAGE_LEN (u64 (size + 2 ^ k)) := by
        rw [hu, Nat.shiftRight_eq_div_pow]
        show sub64 q new_blk / 2 ^ 12 < _
        rcases hsublt with h | h
        · have : sub64 q new_blk / 2 ^ 12 < m := by
            rw [Nat.div_lt_iff_lt_mul (by norm_num)]
            omega
          omega
        · rw [h]
          simp only [Nat.zero_div]
          omega
      refine ⟨?_, hassert, ?_⟩
      · rw [hu, hP]
        rcases hsublt with h | h <;> omega
      · intro hnb
        have hno : ¬ (size ≤ MAX_SIZE ∧ 2 ^ k < PAGE_SIZE) := fun hh => absurd hh.2 (by omega)
        rw [hunf (2 ^ j) hal hjk, if_neg hno, Option.some_bind]
        show (if 2 ^ k ≤ PAGE_SIZE then _ else _) = _
        rw [if_neg (by omega), hm, Option.some_bind]
        show (if new_blk = 0 then _ else _) = _
        rw [if_neg hnb, hq, Option.some_bind]
        show (if ¬ (sub64 q new_blk >>> PAGE_SHIFT < GET_PAGE_LEN (u64 (size + 2 ^ k))) then _
          else _) = _
        rw [if_neg (not_not.mpr hassert)]

set_option maxRecDepth 100000 in
theorem warm_heap_blocks_aligned : blocks_aligned warm_heap.2 0 := by
  unfold blocks_aligned
  decide!

set_option maxRecDepth 100000 in
theorem warm_heap_memalign :
    ([3, 5, 12, 13].map fun k =>
      (posix_memalign warm_heap.2 0 (2 ^ k) 100).map fun r => (r.1, r.2.1, r.2.1 % 2 ^ k)) =
    [some (0, 0x11002070, 0), some (0, 0x11003000, 0), some (0, 0x11003000, 0),
      some (0, 0x14002000, 0)] := by
  decide!

theorem posix_memalign_aligned_witness :
    (13 : Nat) < 64 ∧ 0 < 100 ∧ warm_heap.2.g_initialized ≠ 0 ∧
    (warm_heap.2.thr 0).thread_id ≠ 0 ∧ blocks_aligned warm_heap.2 0 ∧
    (∀ r p s', posix_memalign warm_heap.2 0 (2 ^ 13) 100 = some (r, p, s') →
      r = 0 ∧ p % 2 ^ 13 = 0) ∧
    ([3, 5, 12, 13].map fun k =>
      (posix_memalign warm_heap.2 0 (2 ^ k) 100).map fun r => (r.1, r.2.1, r.2.1 % 2 ^ k)) =
    [some (0, 0x11002070, 0), some (0, 0x11003000, 0), some (0, 0x11003000, 0),
      some (0, 0x14002000, 0)] := by
  obtain ⟨ho, hk, hi, ht, _⟩ := warm_heap_os
  have hi' : warm_heap.2.g_initialized ≠ 0 := by rw [hi]; decide
  have ht' : (warm_heap.2.thr 0).thread_id ≠ 0 := by rw [ht]; decide
  refine ⟨by decide, by decide, hi', ht', warm_heap_blocks_aligned, ?_, warm_heap_memalign⟩
  exact (posix_memalign_aligned warm_heap.2 0 13 100 (by decide) (by decide) hi' ht'
    warm_heap_blocks_aligned (by
      rw [ho, hk]
      intro m a h
      have e : a = 0x10001000 + 0x1000000 * 4 := (Option.some.inj h).symm
      subst e
      exact ⟨by decide, by decide⟩)).1

/-- The shape of the heap does not depend on the leaf cache of the thread. -/
theorem heap_shape_set_cache (s : State) (t tag leaf pg cl : Nat) :
    heap_shape (set_tlh s t { s.thr t with l_pagemap_tag := tag, l_pagemap_leaf := leaf }) t pg cl =
      heap_shape s t pg cl := by
  apply heap_shape_congr
  · intro q
    exact pagemap_get_checked_congr s _ rfl rfl rfl q
  · simp [set_tlh, upd, clear_cache]

/-- The shape of the heap does not depend on the LRU state of the page block
cache. -/
theorem heap_shape_set_lru (s : State) (t st pg cl : Nat) :
    heap_shape (set_pb_cache s t { (s.thr t).pb_cache with state := st }) t pg cl =
      heap_shape s t pg cl := by
  apply heap_shape_same
  · intro q
    exact pagemap_get_checked_congr s _ rfl rfl rfl q
  · simp [set_pb_cache, set_tlh, upd]
  · simp [set_pb_cache, set_tlh, upd, tlh_same]

set_option maxRecDepth 100000 in
theorem pb_cached_heap_facts :
    pb_cached_heap.1 = 0x11002000 ∧ pb_cached_heap.2.g_initialized = 1 ∧
    (pb_cached_heap.2.thr 0).thread_id = 1 ∧
    pb_cached_heap.2.cfg.MALLOC_USE_PAGE_BLOCK_CACHE = true ∧
    pb_cache_hit (pb_cached_heap.2.thr 0).pb_cache (u8 (GET_PAGE_LEN 32769)) = some 0 ∧
    ((pb_cached_heap.2.thr 0).pb_cache.block 0).data = 0x11002000 ∧
    ((pb_cached_heap.2.thr 0).pb_cache.block 0).length = 1 ∧
    (pb_cached_heap.2.pbh 0x11001040).sizeclass = 60 ∧
    (pb_cached_heap.2.pbh 0x11001040).length = 9 := by
  decide!

set_option maxRecDepth 100000 in
theorem pb_cached_heap_lookup :
    pagemap_get pb_cached_heap.2 0 (pb_cached_heap.1 >>> PAGE_SHIFT) =
      some (0x11001040, pb_cached_heap.2) := by
  rfl

set_option maxRecDepth 100000 in
/-- C10 (as stated, refuted): `p = malloc(size); free(p)` does not return the heap
to its prior state for any of the listed small sizes on the heap of a thread that
holds one block of 100 bytes, nor for the large size `32769` in the started process
with the page block cache. In the first heap, before the two calls the free block
list of the class is empty and the free page block of 62 pages is listed; after
them the free block list holds `p` (and the other blocks of its cache line), the
page block of `p` stays with the size class, only the rest of the free page block
is listed, and for the classes of one page the PageMap entry of the page after `p`
names another page block header. In the second, before the two calls the thread
owns no superpage and the page of `p` has no PageMap entry; after them the block
is kept in the page block cache, its page is registered to its page block header,
the rest of the superpage is listed as a free page block of 54 pages, and the
thread owns the superpage. -/
theorem malloc_free_keeps_block_cached :
    ([1, 7, 8, 15, 16, 63, 64, 128, 4095, 4096, 12345, 32767, 32768].map fun size =>
      (round_trip warm_heap.2 0 size).map fun r =>
        (heap_shape warm_heap.2 0 ((r.1 >>> PAGE_SHIFT) + 1) ((get_sizeclass size).getD 0),
         heap_shape r.2 0 ((r.1 >>> PAGE_SHIFT) + 1) ((get_sizeclass size).getD 0))) =
    ([(8, 0x110010c0, 60), (8, 0x110010c0, 60), (8, 0x110010c0, 60), (4, 0x110010c0, 60),
      (4, 0x110010c0, 60), (1, 0x110010c0, 60), (1, 0x110010c0, 60), (1, 0x110010c0, 60),
      (1, 0x110010c0, 60), (1, 0x110010c0, 60), (1, 0x11001240, 54), (1, 0x11001280, 53),
      (1, 0x11001280, 53)].map fun x =>
      some ((0x11001080, (0, 0), [(61, 0x11001080)], 0x11001000),
        (if x.2.2 = 60 then x.2.1 else 0x11001080, (0x11003000, x.1), [(x.2.2, x.2.1)],
          0x11001000))) ∧
    ((started ⟨true, false, true⟩).bind fun s =>
      (round_trip s 0 32769).map fun r =>
        (r.1, heap_shape s 0 (r.1 >>> PAGE_SHIFT) 0, heap_shape r.2 0 (r.1 >>> PAGE_SHIFT) 0,
          ((r.2.thr 0).pb_cache.block 0).data, ((r.2.thr 0).pb_cache.block 0).length)) =
      some (0x11002000, (0, (0, 0), [], 0),
        (0x11001040, (0, 0), [(53, 0x11001280)], 0x11001000), 0x11002000, 1) := by
  exact ⟨rfl, rfl⟩

/-- C10 (what holds): in a live thread of an initialised process, the statements
`p = malloc(size); free(p)` return and leave the PageMap entries, the free block
lists, the free page block lists and the superpage list of the thread as they were
(`heap_shape`) in each of these cases.
A small size (at most `MAX_SIZE = 32768`): the free block list of its class is not
empty and holds at most the threshold of the class, and its first block `p` lies on
a page that the PageMap registers to a page block of that class which the thread
frees locally; the two calls then leave the whole state `s'` of a PageMap lookup of
that page from the prior state.
A large size (up to 62 pages) with the page block cache: the way of the cache for
the page length of the request holds one or two page blocks, the first of them at
`p`, on a page registered to a large page block of that length; the two calls then
leave the state `s'` of the lookup up to the LRU state of the cache.
A large size of `n` pages without the page block cache: the first free page block
list from length `n` on that is not empty is `free_pb_list[c]`, headed by a page
block `H` of `c + 1` pages of a superpage with a sound layout that the thread owns;
the page block before `H` is not free, nor the one after it when `H` has exactly
`n` pages; and when `H` has more, the slot of page `n` of `H` is not linked into
`free_pb_list[c - n]`, whose first header is on no other list. `malloc` splits `H`
if it has more than `n` pages, and `free` merges the two parts again.
A large size of `n` pages without the page block cache that no listed free page block
can serve: `pb_alloc` carves the block from a superpage `sph` that `sph_alloc` obtains
(`fresh_carve`), leaving the state `s0`, in which the PageMap entries are those from
before, `NULL` for the pages of `sph`, and `sph` is owned by the thread, has no hazard
mark and is linked before the former first superpage; the slot of page `n` of `sph` is
not linked into the free page block list of length `63 - n`. `free` merges the block
with the rest of the superpage and hands the superpage back with `sph_free`.
A huge size (more than 62 pages): `mmap` answers the request with `p`, the levels of
the PageMap exist for the page of `p`, its entry is `NULL`, and no node of the
PageMap lies in the mapped range; the mapping is handed back to the system. -/
theorem malloc_free_restores (s : State) (t size : Nat)
    (hinit : s.g_initialized ≠ 0) (hlive : (s.thr t).thread_id ≠ 0) :
    (size ≤ MAX_SIZE → ∀ s' cl p pbh th, get_sizeclass size = some cl →
      ((s.thr t).blk_list cl).free_blk_list = p → p ≠ 0 →
      0 < ((s.thr t).blk_list cl).cnt_free →
      get_blocks_for_class cl = some th → ((s.thr t).blk_list cl).cnt_free ≤ th →
      pagemap_get s t (p >>> PAGE_SHIFT) = some (pbh, s') →
      pbh ≠ 0 → pbh &&& HUGE_MALLOC_MARK = 0 → (s.pbh pbh).sizeclass = cl →
      ((s.pbh pbh).status ≠ PBH_AGAINST_FALSE_SHARING ∨
        ∃ sph, pbh_get_superpage s pbh = some sph ∧
          (s.sph sph).owner_id = (s.thr t).thread_id) →
      (s.cfg.MALLOC_USE_PAGEMAP_CACHE = false → s' = s) ∧
      (∃ tag leaf, s' = set_tlh s t
        { s.thr t with l_pagemap_tag := tag, l_pagemap_leaf := leaf }) ∧
      (∃ s1, malloc s t size = some (p, s1) ∧ free s1 t p = some s') ∧
      ∀ pg c, heap_shape s' t pg c = heap_shape s t pg c) ∧
    (MAX_SIZE < size → GET_PAGE_LEN size ≤ NUM_PAGE_CLASSES →
      s.cfg.MALLOC_USE_PAGE_BLOCK_CACHE = true → ∀ s' p pos pbh,
      pb_cache_hit (s.thr t).pb_cache (u8 (GET_PAGE_LEN size)) = some pos →
      ((s.thr t).pb_cache.block pos).data = p → p ≠ 0 →
      1 ≤ ((s.thr t).pb_cache.block pos).length →
      ((s.thr t).pb_cache.block pos).length ≤ 2 →
      pagemap_get s t (p >>> PAGE_SHIFT) = some (pbh, s') →
      pbh ≠ 0 → pbh &&& HUGE_MALLOC_MARK = 0 → ¬ (s.pbh pbh).sizeclass < NUM_CLASSES →
      u8 (s.pbh pbh).length = u8 (GET_PAGE_LEN size) →
      ∃ s1 s2 st, malloc s t size = some (p, s1) ∧ free s1 t p = some s2 ∧
        s2 = set_pb_cache s' t { (s'.thr t).pb_cache with state := st } ∧
        ∀ pg c, heap_shape s2 t pg c = heap_shape s t pg c) ∧
    (MAX_SIZE < size → s.cfg.MALLOC_USE_PAGE_BLOCK_CACHE = false → ∀ sph c H,
      GET_PAGE_LEN size ≤ c + 1 → c < NUM_PAGE_CLASSES →
      (∀ c', GET_PAGE_LEN size - 1 ≤ c' → c' < c → (s.thr t).free_pb_list c' = 0) →
      (s.thr t).free_pb_list c = H → H ≠ 0 → (s.pbh H).length = c + 1 →
      sp_inv s sph → hdr_ok s sph H → cache_ok s t → pm_inj s →
      (s.sph sph).owner_id = (s.thr t).thread_id →
      ¬ is_free_pb s (pb_prev s H) →
      (GET_PAGE_LEN size = c + 1 → ¬ is_free_pb s (pb_next s H)) →
      (GET_PAGE_LEN size < c + 1 →
        (s.thr t).free_pb_list (c - GET_PAGE_LEN size) = 0 ∨
        ((s.thr t).free_pb_list (c - GET_PAGE_LEN size) ≠
            sph + PBH_SIZE * ((s.pbh H).index + GET_PAGE_LEN size) ∧
          (s.thr t).free_pb_list (c - GET_PAGE_LEN size) ≠ H ∧
          (s.thr t).free_pb_list (c - GET_PAGE_LEN size) ≠ (s.pbh H).next ∧
          (s.pbh ((s.thr t).free_pb_list (c - GET_PAGE_LEN size))).prev ≠
            sph + PBH_SIZE * ((s.pbh H).index + GET_PAGE_LEN size))) →
      ∃ s1 s2, malloc s t size = some (u64 ((s.pbh H).start_page <<< PAGE_SHIFT), s1) ∧
        free s1 t (u64 ((s.pbh H).start_page <<< PAGE_SHIFT)) = some s2 ∧
        ∀ pg cl, heap_shape s2 t pg cl = heap_shape s t pg cl) ∧
    (MAX_SIZE < size → s.cfg.MALLOC_USE_PAGE_BLOCK_CACHE = false → ∀ s0 sph,
      fresh_carve s s0 t (GET_PAGE_LEN size) sph →
      (∀ q, pagemap_get_checked s0 q = pagemap_get_checked s q) →
      (∀ i, i < SUPERPAGE_LEN → pagemap_get_checked s0 ((s0.sph sph).start_page + i) = 0) →
      (s0.sph sph).hazard_mark = 0 →
      (s0.sph sph).owner_id = (s.thr t).thread_id →
      ((s0.sph sph).next = if (s.thr t).sp_list ≠ 0 then (s.thr t).sp_list else sph) →
      (s.thr t).sp_list ≠ sph →
      ((s.thr t).free_pb_list (SUPERPAGE_LEN - GET_PAGE_LEN size - 1) = 0 ∨
        ((s.thr t).free_pb_list (SUPERPAGE_LEN - GET_PAGE_LEN size - 1) ≠
            sph + PBH_SIZE * (GET_PAGE_LEN size + 1) ∧
          (s.thr t).free_pb_list (SUPERPAGE_LEN - GET_PAGE_LEN size - 1) ≠ sph + PBH_SIZE ∧
          (s0.pbh ((s.thr t).free_pb_list (SUPERPAGE_LEN - GET_PAGE_LEN size - 1))).prev ≠
            sph + PBH_SIZE * (GET_PAGE_LEN size + 1))) →
      ∃ s1 s2, malloc s t size = some (u64 ((s0.sph sph).start_page <<< PAGE_SHIFT), s1) ∧
        free s1 t (u64 ((s0.sph sph).start_page <<< PAGE_SHIFT)) = some s2 ∧
        ∀ pg cl, heap_shape s2 t pg cl = heap_shape s t pg cl) ∧
    (NUM_PAGE_CLASSES * PAGE_SIZE < size → ∀ p,
      s.os_mmap s.os_calls (u64 (GET_PAGE_LEN size <<< PAGE_SHIFT)) = some p → p ≠ 0 →
      pm_has s (p >>> PAGE_SHIFT) → cache_ok s t →
      pagemap_get_checked s (p >>> PAGE_SHIFT) = 0 →
      (∀ i, ¬ (p ≤ s.pm_node i ∧
        s.pm_node i < p + u64 (GET_PAGE_LEN size <<< PAGE_SHIFT))) →
      (∀ i j, ¬ (p ≤ s.pm_leaf (s.pm_node i) j ∧
        s.pm_leaf (s.pm_node i) j < p + u64 (GET_PAGE_LEN size <<< PAGE_SHIFT))) →
      ∃ s1 s2, malloc s t size = some (p, s1) ∧ free s1 t p = some s2 ∧
        (∀ pg c, heap_shape s2 t pg c = heap_shape s t pg c) ∧
        s2.os_unmapped = (p, u64 (GET_PAGE_LEN size <<< PAGE_SHIFT)) :: s.os_unmapped) := by
  refine ⟨?_, ?_, ?_, ?_, ?_⟩
  · intro hsize s' cl p pbh th hcl hhead hp hcnt0 hth hcnt hget h0 hnh hcls hlocal
    obtain ⟨a1, ⟨tag, leaf, a2⟩, a3⟩ := small_round_trip s s' t size cl p pbh th hsize hcl hinit
      hlive hhead hp hcnt0 hth hcnt hget h0 hnh hcls hlocal
    refine ⟨a1, ⟨tag, leaf, a2⟩, a3, fun pg c => ?_⟩
    rw [a2]
    exact heap_shape_set_cache s t tag leaf pg c
  · intro hsize hlen hcfg s' p pos pbh hhit hdata hp hcnt1 hcnt2 hget h0 hnh hcls hpl
    obtain ⟨s1, s2, st, b1, b2, b3⟩ := large_cached_round_trip s s' t size p pos pbh hsize hlen
      hinit hlive hcfg hhit hdata hp hcnt1 hcnt2 hget h0 hnh hcls hpl
    refine ⟨s1, s2, st, b1, b2, b3, fun pg c => ?_⟩
    obtain ⟨_, tag, leaf, a2⟩ := pagemap_get_state s t _ _ _ hget
    rw [b3, heap_shape_set_lru s' t st pg c, a2]
    exact heap_shape_set_cache s t tag leaf pg c
  · intro hsize hcfg sph c H hlen hc hempty hH hH0 hL hi hX hck hinj hown hprev hnext hrem
    exact large_listed_round_trip s t size sph c H hsize hlen hc hinit hlive hcfg hempty hH hH0
      hL hi hX hck hinj hown hprev hnext hrem
  · intro hsize hcfg s0 sph hfc hz hz0 hmark hown hnext htop hrem
    exact large_fresh_round_trip s s0 t size sph hsize hinit hlive hcfg hfc hz hz0 hmark hown
      hnext htop hrem
  · intro hsize p hmm hp0 hhas hc hzero hnode hleaf
    exact huge_round_trip s t size p hsize hinit hlive hmm hp0 hhas hc hzero hnode hleaf

set_option maxRecDepth 100000 in
theorem warm_heap_huge_page :
    pm_has warm_heap.2 (0x14001000 >>> PAGE_SHIFT) ∧
    pagemap_get_checked warm_heap.2 (0x14001000 >>> PAGE_SHIFT) = 0 ∧
    warm_heap.2.pm_leaf 0 = (fun _ => 0) ∧
    u64 (GET_PAGE_LEN 1000000 <<< PAGE_SHIFT) = 1003520 := by
  refine ⟨?_, by decide!, rfl, by decide!⟩
  unfold pm_has
  refine ⟨by decide!, by decide!, by decide!⟩

set_option maxRecDepth 100000 in
theorem warm_heap_layout :
    sp_inv warm_heap.2 0x11001000 ∧ hdr_ok warm_heap.2 0x11001000 0x11001080 ∧
    (warm_heap.2.sph 0x11001000).owner_id = 1 ∧
    warm_heap.2.cfg.MALLOC_USE_PAGE_BLOCK_CACHE = false ∧
    ¬ is_free_pb warm_heap.2 (pb_prev warm_heap.2 0x11001080) ∧
    GET_PAGE_LEN 32769 = 9 := by
  obtain ⟨h1, _, h3⟩ := sp_inv_two_blocks warm_heap.2 0x11001000 1 0x11002 (by decide)
    (by decide) (by decide) (by decide!) (by decide) (by decide) (by decide) (by decide!)
    (by decide!) (by decide!) (by decide!) (by decide!) (by decide!) (by decide!) (by decide!)
    (by decide!)
  exact ⟨h1, h3, by decide!, by decide!, by decide!, by decide!⟩

theorem malloc_free_restores_witness :
    (((steady_heap.2.thr 0).blk_list 0).free_blk_list = steady_heap.1 ∧
      ∃ s1, malloc steady_heap.2 0 8 = some (steady_heap.1, s1) ∧
        free s1 0 steady_heap.1 = some steady_heap.2) ∧
    (((pb_cached_heap.2.thr 0).pb_cache.block 0).data = pb_cached_heap.1 ∧
      ∃ s1 s2 st, malloc pb_cached_heap.2 0 32769 = some (pb_cached_heap.1, s1) ∧
        free s1 0 pb_cached_heap.1 = some s2 ∧
        s2 = set_pb_cache pb_cached_heap.2 0
          { (pb_cached_heap.2.thr 0).pb_cache with state := st } ∧
        ∀ pg c, heap_shape s2 0 pg c = heap_shape pb_cached_heap.2 0 pg c) ∧
    ((warm_heap.2.thr 0).free_pb_list 61 = 0x11001080 ∧
      ∃ s1 s2, malloc warm_heap.2 0 32769 = some (0x11003000, s1) ∧
        free s1 0 0x11003000 = some s2 ∧
        ∀ pg cl, heap_shape s2 0 pg cl = heap_shape warm_heap.2 0 pg cl) ∧
    (sph_alloc started_heap 0 = some (0x11001000, fresh_heap.2) ∧
      ∃ s1 s2, malloc started_heap 0 32769 = some (0x11002000, s1) ∧
        free s1 0 0x11002000 = some s2 ∧
        ∀ pg cl, heap_shape s2 0 pg cl = heap_shape started_heap 0 pg cl) ∧
    (warm_heap.2.os_mmap warm_heap.2.os_calls (u64 (GET_PAGE_LEN 1000000 <<< PAGE_SHIFT)) =
        some 0x14001000 ∧
      ∃ s1 s2, malloc warm_heap.2 0 1000000 = some (0x14001000, s1) ∧
        free s1 0 0x14001000 = some s2 ∧
        (∀ pg c, heap_shape s2 0 pg c = heap_shape warm_heap.2 0 pg c) ∧
        s2.os_unmapped =
          (0x14001000, u64 (GET_PAGE_LEN 1000000 <<< PAGE_SHIFT)) :: warm_heap.2.os_unmapped) := by
  obtain ⟨hp, hi, ht, hh, hc, hcl, hsp, ho⟩ := steady_heap_facts
  obtain ⟨cp, ci, ct, ccfg, chit, cdata, clen, ccls, cl9⟩ := pb_cached_heap_facts
  obtain ⟨wo, wk, wi, wt, wc⟩ := warm_heap_os
  obtain ⟨whas, wzero, wl0, wsz⟩ := warm_heap_huge_page
  obtain ⟨wn, wl⟩ := warm_heap_pagemap
  have wmm : warm_heap.2.os_mmap warm_heap.2.os_calls
      (u64 (GET_PAGE_LEN 1000000 <<< PAGE_SHIFT)) = some 0x14001000 := by
    rw [wo, wk]; rfl
  obtain ⟨lempty, lhead, llen, lstart, lidx, lsp⟩ := warm_heap_lists
  obtain ⟨yinv, yhdr, yown, ycfg, yprev, y9⟩ := warm_heap_layout
  obtain ⟨winj, _⟩ := pm_single warm_heap.2 0x12001000 0x13001000 (by decide) (by decide)
    warm_heap_pagemap.1 warm_heap_pagemap.2
  obtain ⟨zinit, ztid, zcfg, ztop, zmark, zown, znext⟩ := fresh_heap_superpage
  obtain ⟨_, _, zempty, zrem, zsa, zrest⟩ := started_fresh_carve
  have zsp : (fresh_heap.2.sph 0x11001000).start_page = 0x11002 := fresh_heap_facts.2.2.2.2.1
  refine ⟨⟨by rw [hh, hp], ?_⟩, ⟨by rw [cdata, cp], ?_⟩, ⟨lhead, ?_⟩, ⟨zsa, ?_⟩, ⟨wmm, ?_⟩⟩
  · have h := (malloc_free_restores steady_heap.2 0 8 (by rw [hi]; decide)
      (by rw [ht]; decide)).1 (by decide) steady_heap.2 0 steady_heap.1 0x11001040 512
      (by decide!) (by rw [hh, hp]) (by rw [hp]; decide) (by rw [hc]; decide) (by decide)
      (by rw [hc]; decide) steady_heap_lookup (by decide) (by decide) hcl
      (Or.inr ⟨0x11001000, hsp, by rw [ho, ht]⟩)
    exact h.2.2.1
  · exact (malloc_free_restores pb_cached_heap.2 0 32769 (by rw [ci]; decide)
      (by rw [ct]; decide)).2.1 (by decide) (by decide) ccfg pb_cached_heap.2
      pb_cached_heap.1 0 0x11001040 chit (by rw [cdata, cp]) (by rw [cp]; decide)
      (by rw [clen]) (by rw [clen]; decide) pb_cached_heap_lookup (by decide) (by decide)
      (by rw [ccls]; decide) (by rw [cl9]; decide)
  · have h := (malloc_free_restores warm_heap.2 0 32769 (by rw [wi]; decide)
      (by rw [wt]; decide)).2.2.1 (by decide) ycfg 0x11001000 61 0x11001080
      (by rw [y9]; decide) (by decide) (fun c' _ h2 => lempty c' h2) lhead (by decide)
      (by rw [llen]) yinv yhdr (fun h => absurd h (by rw [wc]; decide)) winj
      (by rw [yown, wt]) yprev (fun h => absurd h (by rw [y9]; decide))
      (fun _ => Or.inl (by
        rw [y9, show (61 : Nat) - 9 = 52 from rfl]
        exact lempty 52 (by decide)))
    rw [lstart] at h
    exact h
  · have h := (malloc_free_restores started_heap 0 32769 zinit
      (by rw [ztid]; decide)).2.2.2.1 (by decide) zcfg fresh_heap.2 0x11001000
      (by
        rw [y9]
        exact ⟨by decide, by decide, fun c h1 h2 => zempty c (by omega) h2, zrem, zsa, zrest⟩)
      (fun q => by rw [(fresh_heap_entries q).1, (fresh_heap_entries q).2])
      (fun i _ => (fresh_heap_entries _).1) zmark (by rw [zown, ztid])
      (by rw [znext, ztop]; rfl) (by rw [ztop]; decide)
      (Or.inl (by
        rw [y9, show SUPERPAGE_LEN - 9 - 1 = 53 from rfl]
        exact zempty 53 (by decide) (by decide)))
    rw [zsp] at h
    exact h
  · refine (malloc_free_restores warm_heap.2 0 1000000 (by rw [wi]; decide)
      (by rw [wt]; decide)).2.2.2.2 (by decide) 0x14001000 wmm (by decide) whas
      (fun h => absurd h (by rw [wc]; decide)) wzero ?_ ?_
    · intro i
      rw [wn, wsz]
      unfold upd
      split <;> simp
    · intro i j
      rw [wn, wsz]
      unfold upd
      split
      · rw [wl]
        unfold upd
        split <;> simp
      · rw [wl0]
        simp

end SFMalloc
